import Mathlib

/-!
# Plasma CPU software: RTOS kernel, Ethernet MAC, TCP/IP stack

A shallow embedding of the uniprocessor (`OS_CPU_COUNT <= 1`) build of the kernel
(`trunk/kernel/rtos.c`: heaps, scheduler, semaphores, mutexes, message queues), of the framing
functions of the Ethernet driver (`plasma/trunk/kernel/ethernet.c`) and of the IP stack
(`trunk/kernel/tcpip.c`: checksums, frame pool and queues, DHCP, TCP segments, sockets, the
tick).  The conventions of the kernel model follow; those of the driver and of the IP stack
are stated at the head of their sections.

* Objects live in memory and are named by their address (a `Nat`); a C pointer is an
  `Option Nat`, `none` being `NULL`.  Memory is kept field by field: the field `f` of the
  object at address `a` is `f a`.  The intrusive lists are kept exactly as the C code keeps
  them, in the `next`/`prev` (and `nextTimeout`/`prevTimeout`) fields of the threads.
* Every kernel function is a state transformer on `Kernel`.  A function that can dereference
  `NULL`, or whose list walk may not end, returns `Option`: `none` means the call does not
  produce a result.  List walks take a `fuel` bound on the number of loop iterations.
* `OS_CriticalBegin`/`OS_CriticalEnd` (interrupt masking) and `assert` (which only calls the
  empty hook `OS_Assert`) have no effect on the modelled state; each function body is one
  atomic step.  The register save/restore of `setjmp`/`longjmp` is abstracted: a context switch
  is the assignment to `ThreadCurrent`.
* `uint32` values are `Nat` reduced modulo `2^32` where the code computes with them; the C `int`
  counters (`count`, `used`, `read`, `write`) are `Int`: overflow of a signed counter, which
  C leaves undefined, is outside the model.
-/

namespace Plasma

/-! ## Data model -/

/-- The enumeration `OS_ThreadState_e`. -/
inductive OS_ThreadState_e
  | THREAD_PEND
  | THREAD_READY
  | THREAD_RUNNING
  deriving DecidableEq, Repr

open OS_ThreadState_e

/-- Writing the value `v` at address `a` of the memory `f` of one field. -/
def upd {α : Type} (f : Nat → α) (a : Nat) (v : α) : Nat → α :=
  fun i => if i = a then v else f i

/-- The scheduler-visible fields of `struct OS_Thread_s`, each by thread address.
`semaphorePending` is the address of the semaphore, `next`/`prev` link the ready list or a
waiter list, `nextTimeout`/`prevTimeout` link the timeout list. -/
structure OS_Thread where
  state : Nat → OS_ThreadState_e
  priority : Nat → Nat
  ticksTimeout : Nat → Nat
  semaphorePending : Nat → Option Nat
  returnCode : Nat → Int
  next : Nat → Option Nat
  prev : Nat → Option Nat
  nextTimeout : Nat → Option Nat
  prevTimeout : Nat → Option Nat

/-- The fields of `struct OS_Semaphore_s` (without the name), each by semaphore address. -/
structure OS_Semaphore where
  threadHead : Nat → Option Nat
  count : Nat → Int

/-- The fields of `struct OS_Mutex_s`, each by mutex address: the semaphore address, the owner
and the recursion count. -/
structure OS_Mutex where
  semaphore : Nat → Nat
  thread : Nat → Option Nat
  count : Nat → Int

/-- The fields of `struct OS_MQueue_s`, each by queue address, and the message storage
`(uint32*)(MQueue + 1)` that follows the header, a word memory indexed by word offset. -/
structure OS_MQueue where
  semaphore : Nat → Nat
  count : Nat → Int
  size : Nat → Int
  used : Nat → Int
  read : Nat → Int
  write : Nat → Int
  storage : Nat → Int → Nat

/-- The kernel state: the object memories and the scheduler globals of `rtos.c`
(`ThreadCurrent` is `ThreadCurrent[0]`). -/
structure Kernel where
  thread : OS_Thread
  semaphore : OS_Semaphore
  mutex : OS_Mutex
  mqueue : OS_MQueue
  ThreadSwapEnabled : Int
  ThreadNeedReschedule : Nat
  ThreadTime : Nat
  ThreadHead : Option Nat
  TimeoutHead : Option Nat
  ThreadCurrent : Option Nat
  InterruptInside : Int

/-- The argument `OS_Thread_t **head` of the list functions: the address of `ThreadHead` or of
the `threadHead` field of a semaphore. -/
inductive ListHead
  | ready
  | waiters (semaphore : Nat)
  deriving DecidableEq, Repr

/-- Read `*head`. -/
def Kernel.getHead (k : Kernel) : ListHead → Option Nat
  | .ready => k.ThreadHead
  | .waiters s => k.semaphore.threadHead s

/-- Write `*head`. -/
def Kernel.setHead (k : Kernel) (head : ListHead) (p : Option Nat) : Kernel :=
  match head with
  | .ready => { k with ThreadHead := p }
  | .waiters s => { k with semaphore.threadHead := upd k.semaphore.threadHead s p }

/-- Conversion of a value to the C type `int` (two's complement, 32 bits). -/
def toInt32 (x : Int) : Int := (x + 2147483648) % 4294967296 - 2147483648

/-- Conversion of a value to the C type `uint32`. -/
def toUInt32 (x : Int) : Nat := (x % 4294967296).toNat

/-- The C expression `(int)(a - b)` for `uint32` operands, as in `diff = a - b`. -/
def tickDiff (a b : Nat) : Int := toInt32 ((a : Int) - (b : Int))

/-! ## Thread lists -/

/-- The search loop of `OS_ThreadPriorityInsert`: walk from `node` while the node's priority
is greater than the thread's; the result is the final value of `prev`. -/
def priorityScan (k : Kernel) (thread : Nat) : Nat → Option Nat → Option Nat → Option (Option Nat)
  | 0, _, _ => none
  | _ + 1, none, prev => some prev
  | fuel + 1, some node, prev =>
    if k.thread.priority node ≤ k.thread.priority thread then some prev
    else priorityScan k thread fuel (k.thread.next node) (some node)

/-- The linking block of `OS_ThreadPriorityInsert`: the `if(prev == NULL) ... else ...` that
follows the search loop. -/
def priorityLink (k : Kernel) (head : ListHead) (thread : Nat) (prev : Option Nat) : Kernel :=
  match prev with
  | none =>
    let ka := { k with thread.next := upd k.thread.next thread (k.getHead head) }
    let kb := { ka with thread.prev := upd ka.thread.prev thread none }
    kb.setHead head (some thread)
  | some p =>
    let ka :=
      match k.thread.next p with
      | some n => { k with thread.prev := upd k.thread.prev n (some thread) }
      | none => k
    let kb := { ka with thread.next := upd ka.thread.next thread (ka.thread.next p) }
    let kc := { kb with thread.prev := upd kb.thread.prev thread (some p) }
    { kc with thread.next := upd kc.thread.next p (some thread) }

/-- The body of `OS_ThreadPriorityInsert` after the search loop has left `prev`: the linking
block, then `if(*head == ThreadHead) thread->state = THREAD_READY`. -/
def priorityInsertAt (k : Kernel) (head : ListHead) (thread : Nat) (prev : Option Nat) : Kernel :=
  let k1 := priorityLink k head thread prev
  if k1.getHead head = k1.ThreadHead then
    { k1 with thread.state := upd k1.thread.state thread THREAD_READY }
  else k1

/-- The function `OS_ThreadPriorityInsert(head, thread)`. -/
def OS_ThreadPriorityInsert (fuel : Nat) (k : Kernel) (head : ListHead) (thread : Nat) :
    Option Kernel :=
  match priorityScan k thread fuel (k.getHead head) none with
  | none => none
  | some prev => some (priorityInsertAt k head thread prev)

/-- The function `OS_ThreadPriorityRemove(head, thread)`. -/
def OS_ThreadPriorityRemove (k : Kernel) (head : ListHead) (thread : Nat) : Kernel :=
  let k1 :=
    match k.thread.prev thread with
    | none => k.setHead head (k.thread.next thread)
    | some p => { k with thread.next := upd k.thread.next p (k.thread.next thread) }
  let k2 :=
    match k1.thread.next thread with
    | some n => { k1 with thread.prev := upd k1.thread.prev n (k1.thread.prev thread) }
    | none => k1
  let k3 := { k2 with thread.next := upd k2.thread.next thread none }
  let k4 := { k3 with thread.prev := upd k3.thread.prev thread none }
  { k4 with thread.state := upd k4.thread.state thread THREAD_PEND }

/-- The search loop of `OS_ThreadTimeoutInsert`: walk the timeout list while
`(int)(thread->ticksTimeout - node->ticksTimeout) > 0`; the result is the final `prev`. -/
def timeoutScan (k : Kernel) (thread : Nat) : Nat → Option Nat → Option Nat → Option (Option Nat)
  | 0, _, _ => none
  | _ + 1, none, prev => some prev
  | fuel + 1, some node, prev =>
    if tickDiff (k.thread.ticksTimeout thread) (k.thread.ticksTimeout node) ≤ 0 then some prev
    else timeoutScan k thread fuel (k.thread.nextTimeout node) (some node)

/-- The linking block of `OS_ThreadTimeoutInsert`: the `if(prev == NULL) ... else ...` that
follows the search loop. -/
def timeoutLink (k : Kernel) (thread : Nat) (prev : Option Nat) : Kernel :=
  match prev with
  | none =>
    let ka := { k with thread.nextTimeout := upd k.thread.nextTimeout thread k.TimeoutHead }
    let kb := { ka with thread.prevTimeout := upd ka.thread.prevTimeout thread none }
    let kc :=
      match kb.TimeoutHead with
      | some h => { kb with thread.prevTimeout := upd kb.thread.prevTimeout h (some thread) }
      | none => kb
    { kc with TimeoutHead := some thread }
  | some p =>
    let ka :=
      match k.thread.nextTimeout p with
      | some n => { k with thread.prevTimeout := upd k.thread.prevTimeout n (some thread) }
      | none => k
    let kb :=
      { ka with thread.nextTimeout := upd ka.thread.nextTimeout thread (ka.thread.nextTimeout p) }
    let kc := { kb with thread.prevTimeout := upd kb.thread.prevTimeout thread (some p) }
    { kc with thread.nextTimeout := upd kc.thread.nextTimeout p (some thread) }

/-- The function `OS_ThreadTimeoutInsert(thread)`. -/
def OS_ThreadTimeoutInsert (fuel : Nat) (k : Kernel) (thread : Nat) : Option Kernel :=
  match timeoutScan k thread fuel k.TimeoutHead none with
  | none => none
  | some prev => some (timeoutLink k thread prev)

/-- The function `OS_ThreadTimeoutRemove(thread)`. -/
def OS_ThreadTimeoutRemove (k : Kernel) (thread : Nat) : Kernel :=
  if k.thread.prevTimeout thread = none ∧ k.TimeoutHead ≠ some thread then k
  else
    let k1 :=
      match k.thread.prevTimeout thread with
      | none => { k with TimeoutHead := k.thread.nextTimeout thread }
      | some p =>
        { k with thread.nextTimeout := upd k.thread.nextTimeout p (k.thread.nextTimeout thread) }
    let k2 :=
      match k1.thread.nextTimeout thread with
      | some n =>
        { k1 with thread.prevTimeout := upd k1.thread.prevTimeout n (k1.thread.prevTimeout thread) }
      | none => k1
    let k3 := { k2 with thread.nextTimeout := upd k2.thread.nextTimeout thread none }
    { k3 with thread.prevTimeout := upd k3.thread.prevTimeout thread none }

/-! ## Scheduler -/

/-- The selection part of the uniprocessor `OS_ThreadReschedule`: the value of `threadNext`
before the swap test.  Reading `ThreadHead->priority` through a null `ThreadHead` gives no
result. -/
def selectNext (k : Kernel) (RoundRobin : Nat) : Option (Option Nat) :=
  match k.ThreadCurrent with
  | none => some k.ThreadHead
  | some c =>
    if k.thread.state c = THREAD_PEND then some k.ThreadHead
    else
      match k.ThreadHead with
      | none => none
      | some h =>
        if k.thread.priority c < k.thread.priority h then some (some h)
        else if RoundRobin ≠ 0 then
          match k.thread.next c with
          | some t =>
            if k.thread.priority t = k.thread.priority c then some (some t)
            else some (some h)
          | none => some (some h)
        else some (some c)

/-- The uniprocessor function `OS_ThreadReschedule(RoundRobin)`.  A swap to a null `threadNext`
(`longjmp` through `NULL`) gives no result. -/
def OS_ThreadReschedule (k : Kernel) (RoundRobin : Nat) : Option Kernel :=
  if k.ThreadSwapEnabled = 0 ∨ k.InterruptInside ≠ 0 then
    some { k with ThreadNeedReschedule := k.ThreadNeedReschedule ||| (2 + RoundRobin) }
  else
    match selectNext k RoundRobin with
    | none => none
    | some threadNext =>
      if threadNext ≠ k.ThreadCurrent then
        match threadNext with
        | none => none
        | some n => some { k with ThreadCurrent := some n }
      else some k

/-- The kernel part of `OS_ThreadCreate`, from the point where the allocator has returned the
block at address `thread`: initialise the fields, insert the thread on the ready list,
reschedule. -/
def OS_ThreadCreate (fuel : Nat) (k : Kernel) (thread : Nat) (Priority : Nat) : Option Kernel :=
  let k1 := { k with
    thread.state := upd k.thread.state thread THREAD_READY
    thread.priority := upd k.thread.priority thread Priority
    thread.semaphorePending := upd k.thread.semaphorePending thread none
    thread.returnCode := upd k.thread.returnCode thread 0
    thread.next := upd k.thread.next thread none
    thread.prev := upd k.thread.prev thread none
    thread.nextTimeout := upd k.thread.nextTimeout thread none
    thread.prevTimeout := upd k.thread.prevTimeout thread none }
  match OS_ThreadPriorityInsert fuel k1 .ready thread with
  | none => none
  | some k2 => OS_ThreadReschedule k2 0

/-- The function `OS_ThreadPrioritySet(Thread, Priority)`. -/
def OS_ThreadPrioritySet (fuel : Nat) (k : Kernel) (Thread : Nat) (Priority : Nat) :
    Option Kernel :=
  let k1 := { k with thread.priority := upd k.thread.priority Thread Priority }
  if k1.thread.state Thread ≠ THREAD_PEND then
    let k2 := OS_ThreadPriorityRemove k1 .ready Thread
    match OS_ThreadPriorityInsert fuel k2 .ready Thread with
    | none => none
    | some k3 => OS_ThreadReschedule k3 0
  else some k1

/-- The body of the `while(TimeoutHead)` loop of `OS_ThreadTick` for a timed-out head `thread`
pending on `semaphore`, before the insertion on the ready list. -/
def tickWake (k : Kernel) (thread semaphore : Nat) : Kernel :=
  let k2 := { k with
    semaphore.count := upd k.semaphore.count semaphore (k.semaphore.count semaphore + 1) }
  let k3 := { k2 with thread.semaphorePending := upd k2.thread.semaphorePending thread none }
  let k4 := { k3 with thread.returnCode := upd k3.thread.returnCode thread (-1) }
  OS_ThreadPriorityRemove k4 (.waiters semaphore) thread

/-- The `while(TimeoutHead)` loop of `OS_ThreadTick`; `n` bounds the number of iterations and
`fuel` the list walks inside. -/
def tickLoop (fuel : Nat) : Nat → Kernel → Option Kernel
  | 0, _ => none
  | n + 1, k =>
    match k.TimeoutHead with
    | none => some k
    | some thread =>
      if tickDiff k.ThreadTime (k.thread.ticksTimeout thread) < 0 then some k
      else
        let k1 := OS_ThreadTimeoutRemove k thread
        match k1.thread.semaphorePending thread with
        | none => none
        | some semaphore =>
          match OS_ThreadPriorityInsert fuel (tickWake k1 thread semaphore) .ready thread with
          | none => none
          | some k6 => tickLoop fuel n k6

/-- The function `OS_ThreadTick`. -/
def OS_ThreadTick (fuel : Nat) (k : Kernel) : Option Kernel :=
  let k1 := { k with ThreadTime := (k.ThreadTime + 1) % 4294967296 }
  match tickLoop fuel fuel k1 with
  | none => none
  | some k2 => OS_ThreadReschedule k2 1

/-! ## Semaphores -/

/-- How a call that may block ends in the model: it returns a code to its caller, or the calling
thread has been switched out inside the call (it continues when it is scheduled again). -/
inductive PendResult
  | returned (rc : Int)
  | suspended
  deriving DecidableEq, Repr

/-- The initialisation done by `OS_SemaphoreCreate(Name, Count)` on the record at address
`semaphore` (taken from the reserved array or from the allocator). -/
def OS_SemaphoreCreate (k : Kernel) (semaphore : Nat) (Count : Nat) : Kernel :=
  let k1 := { k with semaphore.threadHead := upd k.semaphore.threadHead semaphore none }
  { k1 with semaphore.count := upd k1.semaphore.count semaphore (toInt32 Count) }

/-- The blocking branch of `OS_SemaphorePend` for the current thread `thread`, up to the call
of `OS_ThreadReschedule`: record the semaphore and the timeout tick, move the thread from the
ready list to the waiter list, and put it on the timeout list unless `Ticks` is
`WAIT_FOREVER`. -/
def pendEnqueue (WAIT_FOREVER : Int) (fuel : Nat) (k : Kernel) (Semaphore : Nat) (Ticks : Int)
    (thread : Nat) : Option Kernel :=
  let k2 := { k with
    thread.semaphorePending := upd k.thread.semaphorePending thread (some Semaphore) }
  let timeout := toUInt32 (Ticks + (k2.ThreadTime : Int))
  let k3 := { k2 with thread.ticksTimeout := upd k2.thread.ticksTimeout thread timeout }
  let k4 := OS_ThreadPriorityRemove k3 .ready thread
  match OS_ThreadPriorityInsert fuel k4 (.waiters Semaphore) thread with
  | none => none
  | some k5 =>
    if Ticks ≠ WAIT_FOREVER then OS_ThreadTimeoutInsert fuel k5 thread else some k5

/-- The function `OS_SemaphorePend(Semaphore, Ticks)`, up to the point where the caller is
switched out.  `WAIT_FOREVER` is the value of the macro `OS_WAIT_FOREVER` of `rtos.h`. -/
def OS_SemaphorePend (WAIT_FOREVER : Int) (fuel : Nat) (k : Kernel) (Semaphore : Nat)
    (Ticks : Int) : Option (Kernel × PendResult) :=
  let k1 := { k with
    semaphore.count := upd k.semaphore.count Semaphore (k.semaphore.count Semaphore - 1) }
  if k1.semaphore.count Semaphore < 0 then
    if Ticks = 0 then
      let k2 := { k1 with
        semaphore.count := upd k1.semaphore.count Semaphore (k1.semaphore.count Semaphore + 1) }
      some (k2, .returned (-1))
    else
      match k1.ThreadCurrent with
      | none => none
      | some thread =>
        match pendEnqueue WAIT_FOREVER fuel k1 Semaphore Ticks thread with
        | none => none
        | some k6 =>
          match OS_ThreadReschedule k6 0 with
          | none => none
          | some k7 =>
            if k7.ThreadCurrent = some thread then
              some (k7, .returned (k7.thread.returnCode thread))
            else some (k7, .suspended)
  else some (k1, .returned 0)

/-- The tail of `OS_SemaphorePend` run by a thread that was switched out inside the call, when
it is scheduled again: `returnCode = thread->returnCode; return returnCode`. -/
def OS_SemaphorePend_resume (k : Kernel) (thread : Nat) : Int :=
  k.thread.returnCode thread

/-- The branch of `OS_SemaphorePost` that wakes the head `thread` of the waiter list, up to the
call of `OS_ThreadReschedule`. -/
def postWake (fuel : Nat) (k : Kernel) (Semaphore : Nat) (thread : Nat) : Option Kernel :=
  let k2 := OS_ThreadTimeoutRemove k thread
  let k3 := OS_ThreadPriorityRemove k2 (.waiters Semaphore) thread
  match OS_ThreadPriorityInsert fuel k3 .ready thread with
  | none => none
  | some k4 =>
    let k5 := { k4 with thread.semaphorePending := upd k4.thread.semaphorePending thread none }
    some { k5 with thread.returnCode := upd k5.thread.returnCode thread 0 }

/-- The function `OS_SemaphorePost(Semaphore)`. -/
def OS_SemaphorePost (fuel : Nat) (k : Kernel) (Semaphore : Nat) : Option Kernel :=
  let k1 := { k with
    semaphore.count := upd k.semaphore.count Semaphore (k.semaphore.count Semaphore + 1) }
  if k1.semaphore.count Semaphore ≤ 0 then
    match k1.semaphore.threadHead Semaphore with
    | none => none
    | some thread =>
      match postWake fuel k1 Semaphore thread with
      | none => none
      | some k6 => OS_ThreadReschedule k6 0
  else some k1

/-! ## Mutexes -/

/-- The initialisation done by `OS_MutexCreate(Name)` on the record at address `mutex`, with
its semaphore created at address `semaphore`. -/
def OS_MutexCreate (k : Kernel) (mutex semaphore : Nat) : Kernel :=
  let k1 := OS_SemaphoreCreate k semaphore 1
  { k1 with
    mutex.semaphore := upd k1.mutex.semaphore mutex semaphore
    mutex.thread := upd k1.mutex.thread mutex none
    mutex.count := upd k1.mutex.count mutex 0 }

/-- The tail of `OS_MutexPend` after `OS_SemaphorePend` has returned to `thread`:
`Mutex->thread = thread; Mutex->count = 1`. -/
def OS_MutexPend_resume (k : Kernel) (Mutex : Nat) (thread : Option Nat) : Kernel :=
  let k1 := { k with mutex.thread := upd k.mutex.thread Mutex thread }
  { k1 with mutex.count := upd k1.mutex.count Mutex 1 }

/-- The function `OS_MutexPend(Mutex)`; the flag of the result tells whether the caller was
switched out inside `OS_SemaphorePend` (it then runs `OS_MutexPend_resume` when it is
scheduled again). -/
def OS_MutexPend (WAIT_FOREVER : Int) (fuel : Nat) (k : Kernel) (Mutex : Nat) :
    Option (Kernel × Bool) :=
  let thread := k.ThreadCurrent
  if thread = k.mutex.thread Mutex then
    some ({ k with mutex.count := upd k.mutex.count Mutex (k.mutex.count Mutex + 1) }, false)
  else
    match OS_SemaphorePend WAIT_FOREVER fuel k (k.mutex.semaphore Mutex) WAIT_FOREVER with
    | none => none
    | some (k1, .suspended) => some (k1, true)
    | some (k1, .returned _) => some (OS_MutexPend_resume k1 Mutex thread, false)

/-- The function `OS_MutexPost(Mutex)`. -/
def OS_MutexPost (fuel : Nat) (k : Kernel) (Mutex : Nat) : Option Kernel :=
  let k1 := { k with mutex.count := upd k.mutex.count Mutex (k.mutex.count Mutex - 1) }
  if k1.mutex.count Mutex ≤ 0 then
    let k2 := { k1 with mutex.thread := upd k1.mutex.thread Mutex none }
    OS_SemaphorePost fuel k2 (k2.mutex.semaphore Mutex)
  else some k1

/-! ## Message queues -/

/-- The copy loop `for(i = 0; i < n; ++i) dst[i] = src[i]`, with `dst` the word at offset
`dbase` of `mem` and `src` the word at offset `sbase` of `from`; the result is `mem` after `n`
iterations. -/
def copyWords (mem : Int → Nat) (dbase : Int) (src : Int → Nat) (sbase : Int) : Nat → Int → Nat
  | 0 => mem
  | i + 1 => fun j =>
    if j = dbase + (i : Int) then src (sbase + (i : Int))
    else copyWords mem dbase src sbase i j

/-- The initialisation done by `OS_MQueueCreate(Name, MessageCount, MessageBytes)` on the
block at address `queue`, with its semaphore created at address `semaphore`.  The division
`MessageBytes / sizeof(uint32)` is unsigned. -/
def OS_MQueueCreate (k : Kernel) (queue semaphore : Nat) (MessageCount MessageBytes : Int) :
    Kernel :=
  let size : Int := ((toUInt32 MessageBytes / 4 : Nat) : Int)
  let k1 := OS_SemaphoreCreate k semaphore 0
  { k1 with
    mqueue.semaphore := upd k1.mqueue.semaphore queue semaphore
    mqueue.count := upd k1.mqueue.count queue MessageCount
    mqueue.size := upd k1.mqueue.size queue size
    mqueue.used := upd k1.mqueue.used queue 0
    mqueue.read := upd k1.mqueue.read queue 0
    mqueue.write := upd k1.mqueue.write queue 0 }

/-- The critical section of `OS_MQueueSend(MQueue, Message)` on a queue that is not full, after
`++MQueue->used`: copy the message to slot `write` and advance `write`. -/
def mqueueStore (k : Kernel) (MQueue : Nat) (Message : Int → Nat) : Kernel :=
  let dst := copyWords (k.mqueue.storage MQueue) (k.mqueue.write MQueue * k.mqueue.size MQueue)
    Message 0 (k.mqueue.size MQueue).toNat
  let k2 := { k with mqueue.storage := upd k.mqueue.storage MQueue dst }
  let k3 := { k2 with mqueue.write := upd k2.mqueue.write MQueue (k2.mqueue.write MQueue + 1) }
  if k3.mqueue.write MQueue ≥ k3.mqueue.count MQueue then
    { k3 with mqueue.write := upd k3.mqueue.write MQueue 0 }
  else k3

/-- The function `OS_MQueueSend(MQueue, Message)`; `Message` is the memory at the pointer,
by word offset. -/
def OS_MQueueSend (fuel : Nat) (k : Kernel) (MQueue : Nat) (Message : Int → Nat) :
    Option (Kernel × Int) :=
  let k1 := { k with mqueue.used := upd k.mqueue.used MQueue (k.mqueue.used MQueue + 1) }
  if k1.mqueue.used MQueue > k1.mqueue.count MQueue then
    some ({ k1 with mqueue.used := upd k1.mqueue.used MQueue (k1.mqueue.used MQueue - 1) }, -1)
  else
    let k4 := mqueueStore k1 MQueue Message
    match OS_SemaphorePost fuel k4 (k4.mqueue.semaphore MQueue) with
    | none => none
    | some k5 => some (k5, 0)

/-- The tail of `OS_MQueueGet` after `OS_SemaphorePend` has returned `rc`: with `rc` non-zero
return it, else copy the message at slot `read` into the caller's buffer `Message` and advance.
The result is the kernel, the caller's buffer and the return code. -/
def OS_MQueueGet_resume (k : Kernel) (MQueue : Nat) (Message : Int → Nat) (rc : Int) :
    Kernel × (Int → Nat) × Int :=
  if rc ≠ 0 then (k, Message, rc)
  else
    let k1 := { k with mqueue.used := upd k.mqueue.used MQueue (k.mqueue.used MQueue - 1) }
    let dst := copyWords Message 0 (k1.mqueue.storage MQueue)
      (k1.mqueue.read MQueue * k1.mqueue.size MQueue) (k1.mqueue.size MQueue).toNat
    let k2 := { k1 with mqueue.read := upd k1.mqueue.read MQueue (k1.mqueue.read MQueue + 1) }
    let k3 :=
      if k2.mqueue.read MQueue ≥ k2.mqueue.count MQueue then
        { k2 with mqueue.read := upd k2.mqueue.read MQueue 0 }
      else k2
    (k3, dst, 0)

/-- The function `OS_MQueueGet(MQueue, Message, Ticks)`.  The result is the kernel, the caller's
buffer and the way the call ends; a caller switched out inside `OS_SemaphorePend` runs
`OS_MQueueGet_resume` with its return code when it is scheduled again. -/
def OS_MQueueGet (WAIT_FOREVER : Int) (fuel : Nat) (k : Kernel) (MQueue : Nat)
    (Message : Int → Nat) (Ticks : Int) : Option (Kernel × (Int → Nat) × PendResult) :=
  match OS_SemaphorePend WAIT_FOREVER fuel k (k.mqueue.semaphore MQueue) Ticks with
  | none => none
  | some (k1, .suspended) => some (k1, Message, .suspended)
  | some (k1, .returned rc) =>
    let r := OS_MQueueGet_resume k1 MQueue Message rc
    some (r.1, r.2.1, .returned r.2.2)

/-! ## Linked lists in memory

`IsSeg nx p l q` says that following the link function `nx` from the pointer `p` visits
exactly the nodes of `l`, in order, and then reaches `q`; a list in memory is a segment that
ends at `NULL`. -/

/-- The nodes from `p` up to (not including) `q` along `nx` are `l`. -/
def IsSeg (nx : Nat → Option Nat) : Option Nat → List Nat → Option Nat → Prop
  | p, [], q => p = q
  | p, a :: l, q => p = some a ∧ IsSeg nx (nx a) l q

/-- The list in memory that starts at `p`: its nodes are `l` and the last link is `NULL`. -/
abbrev IsChain (nx : Nat → Option Nat) (p : Option Nat) (l : List Nat) : Prop :=
  IsSeg nx p l none

instance IsSeg_dec (nx : Nat → Option Nat) :
    (p : Option Nat) → (l : List Nat) → (q : Option Nat) → Decidable (IsSeg nx p l q)
  | p, [], q => inferInstanceAs (Decidable (p = q))
  | p, a :: l, q =>
    have := IsSeg_dec nx (nx a) l q
    inferInstanceAs (Decidable (p = some a ∧ IsSeg nx (nx a) l q))

/-- A doubly linked list in memory: `l` is the chain from `p` along `nx`, and the back link `pv`
of every node is its predecessor (`pp` for the first node). -/
def IsDChain (nx pv : Nat → Option Nat) : Option Nat → Option Nat → List Nat → Prop
  | _, p, [] => p = none
  | pp, p, a :: l => p = some a ∧ pv a = pp ∧ IsDChain nx pv (some a) (nx a) l

instance IsDChain_dec (nx pv : Nat → Option Nat) :
    (pp p : Option Nat) → (l : List Nat) → Decidable (IsDChain nx pv pp p l)
  | _, p, [] => inferInstanceAs (Decidable (p = none))
  | pp, p, a :: l =>
    have := IsDChain_dec nx pv (some a) (nx a) l
    inferInstanceAs (Decidable (p = some a ∧ pv a = pp ∧ IsDChain nx pv (some a) (nx a) l))

/-- The ready list holds exactly the threads `l`, in this order. -/
def Kernel.ReadyList (k : Kernel) (l : List Nat) : Prop :=
  IsChain k.thread.next k.ThreadHead l

/-- The waiter list of semaphore `s` holds exactly the threads `l`, in this order. -/
def Kernel.WaiterList (k : Kernel) (s : Nat) (l : List Nat) : Prop :=
  IsChain k.thread.next (k.semaphore.threadHead s) l

/-- The list at `*head` holds exactly the threads `l`, in this order. -/
def Kernel.ListAt (k : Kernel) (head : ListHead) (l : List Nat) : Prop :=
  IsChain k.thread.next (k.getHead head) l

/-- The timeout list holds exactly the threads `l`, in this order, with consistent back
links. -/
def Kernel.TimeoutList (k : Kernel) (l : List Nat) : Prop :=
  IsDChain k.thread.nextTimeout k.thread.prevTimeout none k.TimeoutHead l

instance (k : Kernel) (l : List Nat) : Decidable (k.ReadyList l) :=
  inferInstanceAs (Decidable (IsSeg _ _ _ _))

instance (k : Kernel) (s : Nat) (l : List Nat) : Decidable (k.WaiterList s l) :=
  inferInstanceAs (Decidable (IsSeg _ _ _ _))

instance (k : Kernel) (head : ListHead) (l : List Nat) : Decidable (k.ListAt head l) :=
  inferInstanceAs (Decidable (IsSeg _ _ _ _))

instance (k : Kernel) (l : List Nat) : Decidable (k.TimeoutList l) :=
  inferInstanceAs (Decidable (IsDChain _ _ _ _ _))

/-- The value of `prev` when the search loop has walked over the nodes `l`. -/
def lastOr (prev : Option Nat) : List Nat → Option Nat
  | [] => prev
  | a :: l => lastOr (some a) l

/-! ## Concrete states -/

/-- The state before `OS_Init`: empty lists, no current thread, swapping disabled, every field
zero. -/
def bootKernel : Kernel where
  thread := ⟨fun _ => THREAD_PEND, fun _ => 0, fun _ => 0, fun _ => none, fun _ => 0,
    fun _ => none, fun _ => none, fun _ => none, fun _ => none⟩
  semaphore := ⟨fun _ => none, fun _ => 0⟩
  mutex := ⟨fun _ => 0, fun _ => none, fun _ => 0⟩
  mqueue := ⟨fun _ => 0, fun _ => 0, fun _ => 0, fun _ => 0, fun _ => 0, fun _ => 0, fun _ _ => 0⟩
  ThreadSwapEnabled := 0
  ThreadNeedReschedule := 0
  ThreadTime := 0
  ThreadHead := none
  TimeoutHead := none
  ThreadCurrent := none
  InterruptInside := 0

/-- The function `OS_Start`: enable swapping and reschedule. -/
def OS_Start (k : Kernel) : Option Kernel :=
  OS_ThreadReschedule { k with ThreadSwapEnabled := 1 } 1

/-- Scenario 1 of the specification: the idle thread (address 1, priority 0) and the main thread
(address 2, priority 200) are created, the kernel is started, and main creates T1, T2, T3
(addresses 3, 4, 5) at priority 100, in this order. -/
def fifoScenario : Option Kernel :=
  (((((OS_ThreadCreate 8 bootKernel 1 0).bind fun k => OS_ThreadCreate 8 k 2 200).bind
    OS_Start).bind fun k => OS_ThreadCreate 8 k 3 100).bind
    fun k => OS_ThreadCreate 8 k 4 100).bind fun k => OS_ThreadCreate 8 k 5 100

/-- A started kernel whose ready list is main (2, priority 200), T1 (3, priority 100), idle
(1, priority 0), with main running, and in which the priority field of a new thread (4) has
been set to 100. -/
def oneWorkerKernel : Kernel :=
  let k := ((((OS_ThreadCreate 8 bootKernel 1 0).bind fun k => OS_ThreadCreate 8 k 2 200).bind
    OS_Start).bind fun k => OS_ThreadCreate 8 k 3 100).getD bootKernel
  { k with thread.priority := upd k.thread.priority 4 100 }

/-- Scenario: a semaphore (address 1) is created with count 0; the idle thread (1, priority 0)
and the threads A (2) and B (3), both of priority 100, are created and the kernel is started.
B, which runs first, pends on the semaphore with a timeout of 3 ticks; then A pends on it
without timeout (`OS_WAIT_FOREVER` being -1). -/
def twoWaiters : Option Kernel :=
  (((((OS_ThreadCreate 8 (OS_SemaphoreCreate bootKernel 1 0) 1 0).bind
    fun k => OS_ThreadCreate 8 k 2 100).bind fun k => OS_ThreadCreate 8 k 3 100).bind
    OS_Start).bind fun k => (OS_SemaphorePend (-1) 8 k 1 3).map Prod.fst).bind
    fun k => (OS_SemaphorePend (-1) 8 k 1 (-1)).map Prod.fst

/-- The function `OS_ThreadTick` called `n` times in a row. -/
def ticks (fuel : Nat) : Nat → Kernel → Option Kernel
  | 0, k => some k
  | n + 1, k => (OS_ThreadTick fuel k).bind (ticks fuel n)

/-- A started kernel with main (2) running and T1 (3), idle (1) ready, in which a semaphore
(address 1) has been created with the given count. -/
def semKernel (Count : Nat) : Kernel := OS_SemaphoreCreate oneWorkerKernel 1 Count

/-! ## Runs of mutex calls -/

/-- The states that arise from `OS_MutexCreate` on the mutex at address `M` by calls of
`OS_MutexPend` made by a thread, completions of a pend that was suspended, calls of
`OS_MutexPost` made by the owner, and any other activity that leaves the owner and the count
of the mutex alone. -/
inductive MutexReach (WAIT_FOREVER : Int) (M : Nat) : Kernel → Prop
  | create (k : Kernel) (semaphore : Nat) :
      MutexReach WAIT_FOREVER M (OS_MutexCreate k M semaphore)
  | pend (fuel : Nat) (k k' : Kernel) (b : Bool) : MutexReach WAIT_FOREVER M k →
      k.ThreadCurrent ≠ none → OS_MutexPend WAIT_FOREVER fuel k M = some (k', b) →
      MutexReach WAIT_FOREVER M k'
  | resume (k : Kernel) (t : Nat) : MutexReach WAIT_FOREVER M k →
      MutexReach WAIT_FOREVER M (OS_MutexPend_resume k M (some t))
  | post (fuel : Nat) (k k' : Kernel) : MutexReach WAIT_FOREVER M k →
      k.ThreadCurrent ≠ none → k.mutex.thread M = k.ThreadCurrent →
      OS_MutexPost fuel k M = some k' → MutexReach WAIT_FOREVER M k'
  | other (k k' : Kernel) : MutexReach WAIT_FOREVER M k →
      k'.mutex.thread M = k.mutex.thread M → k'.mutex.count M = k.mutex.count M →
      MutexReach WAIT_FOREVER M k'

/-- The function `OS_MutexPend` called `n` times in a row by the running thread, each call
returning without the thread being switched out. -/
def mutexPends (WAIT_FOREVER : Int) (fuel : Nat) (M : Nat) : Nat → Kernel → Option Kernel
  | 0, k => some k
  | n + 1, k =>
    match OS_MutexPend WAIT_FOREVER fuel k M with
    | some (k', false) => mutexPends WAIT_FOREVER fuel M n k'
    | _ => none

/-- The function `OS_MutexPost` called `n` times in a row. -/
def mutexPosts (fuel : Nat) (M : Nat) : Nat → Kernel → Option Kernel
  | 0, k => some k
  | n + 1, k => (OS_MutexPost fuel k M).bind (mutexPosts fuel M n)

/-- The state `k` in which thread `t` has taken the mutex `M`, with recursion count `j`: one
unit of the mutex's semaphore is taken, the owner is `t`, and nothing else differs from `k`. -/
def mutexHeld (k : Kernel) (M t : Nat) (j : Nat) : Kernel :=
  { k with
    semaphore.count := upd k.semaphore.count (k.mutex.semaphore M)
      (k.semaphore.count (k.mutex.semaphore M) - 1)
    mutex.thread := upd k.mutex.thread M (some t)
    mutex.count := upd k.mutex.count M (j : Int) }

/-- A started kernel with main (2) running in which a mutex has been created at address 1, with
its semaphore at address 1. -/
def mutexKernel : Kernel := OS_MutexCreate oneWorkerKernel 1 1

/-- Scenario: a semaphore (address 1) is created with count 0; the idle thread (1, priority
0), A (2, priority 100) and B (3, priority 200) are created and the kernel is started.  B pends
on the semaphore with a timeout of 3 ticks; A then runs. -/
def waiterKernel : Kernel :=
  (((((OS_ThreadCreate 8 (OS_SemaphoreCreate bootKernel 1 0) 1 0).bind
    fun k => OS_ThreadCreate 8 k 2 100).bind fun k => OS_ThreadCreate 8 k 3 200).bind
    OS_Start).bind fun k => (OS_SemaphorePend (-1) 8 k 1 3).map Prod.fst).getD bootKernel

/-- The lists are well formed for `OS_SemaphorePost` to wake the head of the waiter list of
`s`: the waiter list is `w :: ws` with `w` at its head, the ready list is `R` and holds no
waiter, the timeout list `T` is doubly linked and holds `w` or `w` has a null back link, and
`fuel` exceeds the length of the ready list. -/
def Kernel.WakeReady (k : Kernel) (fuel : Nat) (s : Nat) : Prop :=
  ∃ w ws R T, k.WaiterList s (w :: ws) ∧ k.thread.prev w = none ∧ k.ReadyList R ∧ w ∉ R ∧
    (∀ u ∈ ws, u ∉ R) ∧ k.TimeoutList T ∧ (w ∉ T → k.thread.prevTimeout w = none) ∧
    R.length < fuel

/-- A started kernel with main (2) running in which a message queue of 2 slots of 1 word has
been created at address 1, with its semaphore at address 1. -/
def queueKernel : Kernel := OS_MQueueCreate oneWorkerKernel 1 1 2 4

/-- The message whose words are all `v`. -/
def constMessage (v : Nat) : Int → Nat := fun _ => v

/-- The queue of `queueKernel` after two messages have been sent: it is full. -/
def fullQueueKernel : Kernel :=
  (((OS_MQueueSend 8 queueKernel 1 (constMessage 7)).bind
    fun r => OS_MQueueSend 8 r.1 1 (constMessage 9)).map Prod.fst).getD bootKernel

/-! ## Runs of message queue calls -/

/-- The first `size` words of the memory `m`. -/
def messageWords (size : Int) (m : Int → Nat) : List Nat :=
  (List.range size.toNat).map (fun (i : Nat) => m (i : Int))

/-- The function `OS_MQueueSend` called for each message of a list, each call returning 0. -/
def mqueueSends (fuel : Nat) (q : Nat) : List (Int → Nat) → Kernel → Option Kernel
  | [], k => some k
  | m :: ms, k =>
    match OS_MQueueSend fuel k q m with
    | some (k', rc) => if rc = 0 then mqueueSends fuel q ms k' else none
    | none => none

/-- The function `OS_MQueueGet` called for each (buffer, `Ticks`) pair of a list, each call
returning 0 without the caller being switched out; the result is the final state and the
buffers after the calls. -/
def mqueueGets (WAIT_FOREVER : Int) (fuel : Nat) (q : Nat) :
    List ((Int → Nat) × Int) → Kernel → Option (Kernel × List (Int → Nat))
  | [], k => some (k, [])
  | g :: gs, k =>
    match OS_MQueueGet WAIT_FOREVER fuel k q g.1 g.2 with
    | some (k', buf, .returned rc) =>
      if rc = 0 then
        (mqueueGets WAIT_FOREVER fuel q gs k').map (fun r => (r.1, buf :: r.2))
      else none
    | _ => none

/-- The index invariant of a message queue: `0 <= used <= count`, `0 <= read, write < count`
and `write == (read + used) mod count`. -/
def MQueueInv (k : Kernel) (q : Nat) : Prop :=
  0 ≤ k.mqueue.used q ∧ k.mqueue.used q ≤ k.mqueue.count q ∧
  0 ≤ k.mqueue.read q ∧ k.mqueue.read q < k.mqueue.count q ∧
  0 ≤ k.mqueue.write q ∧ k.mqueue.write q < k.mqueue.count q ∧
  k.mqueue.write q = (k.mqueue.read q + k.mqueue.used q) % k.mqueue.count q

instance (k : Kernel) (q : Nat) : Decidable (MQueueInv k q) := by
  unfold MQueueInv; infer_instance

/-- The slot that follows slot `r`: the code's `if(++r >= count) r = 0`. -/
def nextSlot (count r : Int) : Int := if r + 1 ≥ count then 0 else r + 1

/-- The slot `j` places after slot `r` in a ring of `count` slots, for `j <= count`. -/
def slotAt (count r : Int) (j : Nat) : Int :=
  if r + (j : Int) < count then r + (j : Int) else r + (j : Int) - count

/-- The words stored in a slot of the queue. -/
def slotWords (k : Kernel) (q : Nat) (slot : Int) : List Nat :=
  messageWords (k.mqueue.size q) (fun i => k.mqueue.storage q (slot * k.mqueue.size q + i))

/-- The slots from `r` on hold the messages `ms`, in this order. -/
def slotsHold (k : Kernel) (q : Nat) : Int → List (List Nat) → Prop
  | _, [] => True
  | r, m :: ms => slotWords k q r = m ∧ slotsHold k q (nextSlot (k.mqueue.count q) r) ms

/-- The queue `q`, of `c` slots of `sz` words with semaphore `S`, holds the messages `ms`
(oldest first): the indices are in range, `used` and the count of the semaphore are the number
of messages, and the slots from `read` on hold the messages. -/
def QueueHolds (k : Kernel) (q S : Nat) (c sz : Int) (ms : List (List Nat)) : Prop :=
  k.mqueue.semaphore q = S ∧ k.mqueue.count q = c ∧ k.mqueue.size q = sz ∧ 1 ≤ c ∧
  0 ≤ k.mqueue.read q ∧ k.mqueue.read q < c ∧
  k.mqueue.used q = (ms.length : Int) ∧ (ms.length : Int) ≤ c ∧
  k.mqueue.write q = slotAt c (k.mqueue.read q) ms.length ∧
  k.semaphore.count S = (ms.length : Int) ∧
  slotsHold k q (k.mqueue.read q) ms

/-! ## Ethernet MAC (`plasma/trunk/kernel/ethernet.c`)

The receive ring and the transmit window are byte memories indexed from their base address
(`ETHERNET_RECEIVE`, `ETHERNET_TRANSMIT`); a caller's buffer is a byte memory indexed from the
pointer passed.  A byte is a `Nat` below 256.  `unsigned int` and `unsigned long` are 32 bits
wide (the Plasma CPU is a 32-bit MIPS), so a left shift is reduced modulo `2^32`.  The ring is
written by the hardware while the software runs; here it is constant during one call.  The
semaphore calls, the bounded wait for the previous transfer and the `Led` calls of
`EthernetTransmit` do not touch the modelled state.  Lengths are non-negative. -/

/-- The constant `POLYNOMIAL`. -/
def POLYNOMIAL : Nat := 0x04C11DB7

/-- The constant `TOPBIT`. -/
def TOPBIT : Nat := 1 <<< 31

/-- The constant `BYTE_EMPTY`. -/
def BYTE_EMPTY : Nat := 0xde

/-- The constant `INDEX_MASK`. -/
def INDEX_MASK : Nat := 0xffff

/-- The loop of `Reflect`: `n` iterations left, current `value` and `num`. -/
def ReflectLoop : Nat → Nat → Nat → Nat
  | 0, _, num => num
  | n + 1, value, num =>
    ReflectLoop n (value >>> 1) (((num <<< 1) % 4294967296) ||| (value &&& 1))

/-- The function `Reflect(value, bits)`. -/
def Reflect (value bits : Nat) : Nat := ReflectLoop bits value 0

/-- The inner loop of `CrcInit` (modulo-2 division, a bit at a time): `bit` iterations left. -/
def CrcDivide : Nat → Nat → Nat
  | 0, remainder => remainder
  | bit + 1, remainder =>
    if remainder &&& TOPBIT ≠ 0 then
      CrcDivide bit (((remainder <<< 1) % 4294967296) ^^^ POLYNOMIAL)
    else CrcDivide bit ((remainder <<< 1) % 4294967296)

/-- The entry `CrcTable[dividend]` as `CrcInit` computes it; `dividend << 24` is stored in an
`unsigned int`. -/
def CrcTable (dividend : Nat) : Nat := CrcDivide 8 ((dividend <<< 24) % 4294967296)

/-- The entry `reflect[i]` as `CrcInit` computes it. -/
def reflect (i : Nat) : Nat := Reflect i 8 % 256

/-- The entry `reflectNibble[i]` as `CrcInit` computes it. -/
def reflectNibble (i : Nat) : Nat :=
  ((((Reflect ((i >>> 4) ^^^ 0xf) 4) <<< 4) % 4294967296) ||| Reflect (i ^^^ 0xf) 4) % 256

/-- The CRC update that `EthernetReceive` and `EthernetTransmit` both perform for one byte:
`byte = reflect[byte] ^ (crc >> 24); crc = CrcTable[byte] ^ (crc << 8)`. -/
def crcUpdate (crc byte : Nat) : Nat :=
  CrcTable (reflect byte ^^^ (crc >>> 24)) ^^^ ((crc <<< 8) % 4294967296)

/-- The byte that both functions derive from the CRC for position `i` of the trailer:
`shift = 24 - (i << 3); reflectNibble[(crc >> shift) & 0xff]`. -/
def trailerByte (crc i : Nat) : Nat :=
  reflectNibble ((crc >>> (24 - (i <<< 3))) &&& 0xff)

/-- The state of the Ethernet driver: the receive ring, the transmit window, the last value
written to the control register `ETHERNET_REG`, and the statics `gDestMac`, `gIndex`,
`gCheckedBefore`. -/
structure Ethernet where
  ETHERNET_RECEIVE : Nat → Nat
  ETHERNET_TRANSMIT : Nat → Nat
  ETHERNET_REG : Nat
  gDestMac : Nat → Nat
  gIndex : Nat
  gCheckedBefore : Int

/-- The loop `for(i = 1; i < sizeof(gDestMac); ++i)` of `EthernetReceive`, which compares the
bytes after `index` with `gDestMac`: the value of `i` when the loop is left. -/
def macLoop (e : Ethernet) (index : Nat) : Nat → Nat → Nat
  | 0, i => i
  | fuel + 1, i =>
    if i < 7 then
      let j := (index + i) &&& INDEX_MASK
      let byte := e.ETHERNET_RECEIVE j
      if byte ≠ 0xff ∧ byte ≠ e.gDestMac i then i
      else macLoop e index fuel (i + 1)
    else i

/-- The loop `for(offset = 0; offset <= INDEX_MASK; ++offset)` of `EthernetReceive`, which
looks for the start of a frame: `some index` when the loop is left by `break` at `index`,
`none` when the function returns 0 (at an empty byte with no packet expected, or with
`offset > INDEX_MASK`).  `fuel` is the number of values of `offset` left. -/
def findStart (e : Ethernet) (packetExpected : Nat) : Nat → Nat → Option Nat
  | 0, _ => none
  | fuel + 1, offset =>
    let index := (e.gIndex + offset) &&& INDEX_MASK
    let byte := e.ETHERNET_RECEIVE index
    if byte = 0x5d then
      if macLoop e index 6 1 = 7 then some index
      else findStart e packetExpected fuel (offset + 1)
    else if byte = BYTE_EMPTY ∧ packetExpected = 0 then none
    else findStart e packetExpected fuel (offset + 1)

/-- The loop `while(gIndex != index)` of `EthernetReceive`, which empties the ring up to the
start of the frame. -/
def skipTo (index : Nat) : Nat → Ethernet → Ethernet
  | 0, e => e
  | fuel + 1, e =>
    if e.gIndex ≠ index then
      skipTo index fuel { e with
        ETHERNET_RECEIVE := upd e.ETHERNET_RECEIVE e.gIndex BYTE_EMPTY
        gIndex := (e.gIndex + 1) &&& INDEX_MASK }
    else e

/-- The loop `for(i = 1; i < 4; ++i)` of `EthernetReceive`, which compares the last three bytes
of the CRC with the ring; a mismatch sets `i = 99`, which the `++i` of the loop then
increments.  The value of `i` when the loop is left. -/
def probeLoop (ring : Nat → Nat) (gIndex crc : Nat) : Nat → Nat → Nat
  | 0, i => i
  | fuel + 1, i =>
    if i < 4 then
      let byteCrc := trailerByte crc i
      let byteNext := ring ((gIndex + i) &&& 0xffff)
      if byteCrc ≠ byteNext then probeLoop ring gIndex crc fuel (99 + 1)
      else probeLoop ring gIndex crc fuel (i + 1)
    else i

/-- The loop `for(count = 0; count < length; )` of `EthernetReceive` up to the point where the
end of the frame is found: the final `gIndex`, the caller's buffer, and `some count` when the
CRC matched after `count` bytes, `none` when `length` was reached.  `fuel` bounds the number of
iterations. -/
def receiveLoop (ring : Nat → Nat) (length : Nat) :
    Nat → Nat → (Nat → Nat) → Nat → Nat → Nat × (Nat → Nat) × Option Nat
  | 0, gIndex, buffer, _, _ => (gIndex, buffer, none)
  | fuel + 1, gIndex, buffer, count, crc =>
    if count < length then
      let byte := ring gIndex
      let gIndex1 := (gIndex + 1) &&& INDEX_MASK
      let byte1 := ((byte <<< 4) &&& 0xf0) ||| (byte >>> 4)
      let buffer1 := upd buffer count (byte1 % 256)
      let count1 := count + 1
      let crc1 := crcUpdate crc byte1
      if 40 ≤ count1 ∧ reflectNibble (crc1 >>> 24) = ring gIndex1 ∧
          probeLoop ring gIndex1 crc1 3 1 = 4 then
        (gIndex1, buffer1, some count1)
      else receiveLoop ring length fuel gIndex1 buffer1 count1 crc1
    else (gIndex, buffer, none)

/-- The loop `for(i = 0; i < count+5; ++i) buf[(start + i) & INDEX_MASK] = BYTE_EMPTY`:
`n` is the number of bytes emptied. -/
def emptyFrame (start : Nat) : Nat → (Nat → Nat) → Nat → Nat
  | 0, ring => ring
  | n + 1, ring => upd (emptyFrame start n ring) ((start + n) &&& INDEX_MASK) BYTE_EMPTY

/-- The loop `while(gIndex & 3)` of `EthernetReceive`, which empties the ring up to the next
multiple of four. -/
def alignLoop : Nat → Ethernet → Ethernet
  | 0, e => e
  | fuel + 1, e =>
    if e.gIndex &&& 3 ≠ 0 then
      alignLoop fuel { e with
        ETHERNET_RECEIVE := upd e.ETHERNET_RECEIVE e.gIndex BYTE_EMPTY
        gIndex := (e.gIndex + 1) &&& INDEX_MASK }
    else e

/-- The function `EthernetReceive(buffer, length)`: the new state, the caller's buffer and the
value returned.  `packetExpected` is the value read from `IRQ_STATUS` masked with
`IRQ_ETHERNET_RECEIVE`. -/
def EthernetReceive (e : Ethernet) (packetExpected : Nat) (buffer : Nat → Nat) (length : Nat) :
    Ethernet × (Nat → Nat) × Nat :=
  match findStart e packetExpected 65536 0 with
  | none => (e, buffer, 0)
  | some index =>
    let e1 := skipTo index 65536 e
    let start := e1.gIndex
    let gIndex1 := (e1.gIndex + 1) &&& INDEX_MASK
    match receiveLoop e1.ETHERNET_RECEIVE length length gIndex1 buffer 0 0xffffffff with
    | (gIndex2, buffer2, some count) =>
      let e2 := { e1 with gIndex := (gIndex2 + 4) &&& INDEX_MASK }
      let e3 := { e2 with ETHERNET_RECEIVE := emptyFrame start (count + 5) e2.ETHERNET_RECEIVE }
      let e4 := alignLoop 3 e3
      ({ e4 with gCheckedBefore := 0 }, buffer2, count)
    | (_, buffer2, none) =>
      let e2 := { e1 with gIndex := start }
      let e3 := { e2 with gCheckedBefore := e2.gCheckedBefore + 1 }
      if (1 : Int) < e2.gCheckedBefore then
        ({ e3 with
            ETHERNET_RECEIVE := upd e3.ETHERNET_RECEIVE e3.gIndex BYTE_EMPTY
            gIndex := (e3.gIndex + 1) &&& INDEX_MASK }, buffer2, 0)
      else (e3, buffer2, 0)

/-- The loop `while(length < 60 || (length & 3) != 0) buffer[length++] = 0` of
`EthernetTransmit`: the padded buffer and its length. -/
def padLoop : Nat → (Nat → Nat) → Nat → (Nat → Nat) × Nat
  | 0, buffer, length => (buffer, length)
  | fuel + 1, buffer, length =>
    if length < 60 ∨ length &&& 3 ≠ 0 then padLoop fuel (upd buffer length 0) (length + 1)
    else (buffer, length)

/-- The loop `for(i = 0; i < 7; ++i) buf[i] = 0x55` of `EthernetTransmit`, `n` iterations. -/
def preambleLoop : Nat → (Nat → Nat) → Nat → Nat
  | 0, buf => buf
  | n + 1, buf => upd (preambleLoop n buf) n 0x55

/-- The loop `for(i = 0; i < length; ++i)` of `EthernetTransmit`, which copies the bytes with
swapped nibbles into the window and computes the CRC: the window and the CRC after `n`
iterations. -/
def transmitLoop (buffer : Nat → Nat) : Nat → (Nat → Nat) → Nat → (Nat → Nat) × Nat
  | 0, buf, crc => (buf, crc)
  | n + 1, buf, crc =>
    let r := transmitLoop buffer n buf crc
    let byte := buffer n
    let buf1 := upd r.1 (n + 8) (((byte <<< 4) ||| (byte >>> 4)) % 256)
    (buf1, crcUpdate r.2 byte)

/-- The loop `for(i = 0; i < 4; ++i)` of `EthernetTransmit`, which writes the CRC after the
bytes of the frame, `n` iterations. -/
def trailerLoop (length crc : Nat) : Nat → (Nat → Nat) → Nat → Nat
  | 0, buf => buf
  | n + 1, buf =>
    upd (trailerLoop length crc n buf) (length + 8 + n) (trailerByte crc n % 256)

/-- The function `EthernetTransmit(buffer, length)`: the new state and the caller's buffer,
which the padding writes to. -/
def EthernetTransmit (e : Ethernet) (buffer : Nat → Nat) (length : Nat) :
    Ethernet × (Nat → Nat) :=
  let p := padLoop 64 buffer length
  let buf1 := upd (preambleLoop 7 e.ETHERNET_TRANSMIT) 7 0x5d
  let r := transmitLoop p.1 p.2 buf1 0xffffffff
  let buf3 := trailerLoop p.2 r.2 4 r.1
  ({ e with ETHERNET_TRANSMIT := buf3, ETHERNET_REG := (p.2 + 12 + 4) >>> 2 }, p.1)

/-- The part of `EthernetInit(MacAddress)` that sets the driver state: `gDestMac` from the
address (when the pointer is not null) and the ring, every byte of which is set to
`BYTE_EMPTY`. -/
def EthernetInit (e : Ethernet) (MacAddress : Option (Nat → Nat)) : Ethernet :=
  let gDestMac :=
    match MacAddress with
    | some m => fun i =>
      if 1 ≤ i ∧ i ≤ 6 then ((m (i - 1) >>> 4) ||| (m (i - 1) <<< 4)) % 256 else e.gDestMac i
    | none => e.gDestMac
  { e with
    gDestMac := gDestMac
    ETHERNET_RECEIVE := fun i => if i ≤ INDEX_MASK then BYTE_EMPTY else e.ETHERNET_RECEIVE i }

/-- The driver state at program start: the statics as initialised in the source
(`gDestMac = {0x5d, 0xff, ..., 0xff}`, `gIndex = 0`, `gCheckedBefore = 0`). -/
def ethernetStart : Ethernet where
  ETHERNET_RECEIVE := fun _ => 0
  ETHERNET_TRANSMIT := fun _ => 0
  ETHERNET_REG := 0
  gDestMac := fun i => if i = 0 then 0x5d else 0xff
  gIndex := 0
  gCheckedBefore := 0

/-! ## IP checksums (`trunk/kernel/tcpip.c`)

A packet is a byte memory indexed from the pointer `packet`; the pointer `packet + k` is the
memory `offset packet k`.  `int` values are `Int`: `x & 0xffff` is `x % 65536` and `x >> n` is
`x / 2^n`, as for a two's complement `int`; the sums stay far below `2^31` for the lengths
of a packet. -/

/-- The offset `ETHERNET_FRAME_TYPE`. -/
def ETHERNET_FRAME_TYPE : Nat := 12

/-- The offset `IP_VERSION_LENGTH`. -/
def IP_VERSION_LENGTH : Nat := 14

/-- The offset `IP_LENGTH`. -/
def IP_LENGTH : Nat := 16

/-- The offset `IP_PROTOCOL`. -/
def IP_PROTOCOL : Nat := 23

/-- The offset `IP_CHECKSUM`. -/
def IP_CHECKSUM : Nat := 24

/-- The offset `IP_SOURCE`. -/
def IP_SOURCE : Nat := 26

/-- The offset `IP_DEST`. -/
def IP_DEST : Nat := 30

/-- The offset `UDP_SOURCE_PORT`. -/
def UDP_SOURCE_PORT : Nat := 34

/-- The offset `UDP_LENGTH`. -/
def UDP_LENGTH : Nat := 38

/-- The offset `UDP_CHECKSUM`. -/
def UDP_CHECKSUM : Nat := 40

/-- The offset `TCP_SOURCE_PORT`. -/
def TCP_SOURCE_PORT : Nat := 34

/-- The offset `TCP_CHECKSUM`. -/
def TCP_CHECKSUM : Nat := 50

/-- The offset `PING_TYPE`. -/
def PING_TYPE : Nat := 34

/-- The offset `PING_CHECKSUM`. -/
def PING_CHECKSUM : Nat := 36

/-- The memory seen through the pointer `p + k`. -/
def offset (p : Nat → Nat) (k : Nat) : Nat → Nat := fun i => p (k + i)

/-- The cast `(uint8)x` (also `(unsigned char)x`) of an `int`. -/
def uint8 (x : Int) : Nat := (x % 256).toNat

/-- The expression `~x & 0xffff` for an `int` `x`. -/
def complement16 (x : Int) : Int := 65535 - x % 65536

/-- The loop `for(i = 0; i < length-1; i += 2) checksum += (data[i] << 8) | data[i+1]` of
`IPChecksum`: the values of `i` and `checksum` when the loop is left. -/
def checksumLoop (data : Nat → Nat) (length : Int) : Nat → Nat → Int → Nat × Int
  | 0, i, checksum => (i, checksum)
  | fuel + 1, i, checksum =>
    if (i : Int) < length - 1 then
      checksumLoop data length fuel (i + 2)
        (checksum + (((data i <<< 8) ||| data (i + 1) : Nat) : Int))
    else (i, checksum)

/-- The loop `while(checksum >> 16) checksum = (checksum & 0xffff) + (checksum >> 16)` of
`IPChecksum`. -/
def carryLoop : Nat → Int → Int
  | 0, checksum => checksum
  | fuel + 1, checksum =>
    if checksum / 65536 ≠ 0 then carryLoop fuel (checksum % 65536 + checksum / 65536)
    else checksum

/-- The function `IPChecksum(checksum, data, length)`.  The first loop runs at most `length`
times; the second one makes a positive `checksum` smaller each time, so `checksum`
iterations are enough. -/
def IPChecksum (checksum : Int) (data : Nat → Nat) (length : Int) : Int :=
  let c0 := complement16 checksum
  let r := checksumLoop data length length.toNat 0 c0
  let c1 := if (r.1 : Int) < length then r.2 + ((data r.1 <<< 8 : Nat) : Int) else r.2
  let c2 := carryLoop c1.toNat c1
  complement16 c2

/-- The array `pseudo` of `EthernetVerifyChecksums` and `IPSendPacket` once its twelve bytes
are set: source and destination address, zero, protocol, and the two length bytes given. -/
def pseudoHeader (packet : Nat → Nat) (lengthHigh lengthLow : Nat) : Nat → Nat := fun i =>
  if i < 4 then packet (IP_SOURCE + i)
  else if i < 8 then packet (IP_DEST + (i - 4))
  else if i = 8 then 0
  else if i = 9 then packet IP_PROTOCOL
  else if i = 10 then lengthHigh
  else lengthLow

/-- The function `EthernetVerifyChecksums(packet, length)`. -/
def EthernetVerifyChecksums (packet : Nat → Nat) (length : Int) : Int :=
  if packet (ETHERNET_FRAME_TYPE + 1) = 0x00 then
    let checksum := IPChecksum 0xffff (offset packet IP_VERSION_LENGTH) 20
    if checksum ≠ 0 then -1
    else if packet IP_PROTOCOL = 0x01 then
      let checksum1 := IPChecksum 0xffff (offset packet PING_TYPE) (length - PING_TYPE)
      if checksum1 ≠ 0 then -1 else 0
    else if packet IP_PROTOCOL = 0x11 then
      if packet UDP_CHECKSUM = 0 ∧ packet (UDP_CHECKSUM + 1) = 0 then 0
      else
        let pseudo := pseudoHeader packet (packet UDP_LENGTH) (packet (UDP_LENGTH + 1))
        let checksum1 := IPChecksum 0xffff pseudo 12
        let checksum2 := IPChecksum checksum1 (offset packet UDP_SOURCE_PORT) length
        if checksum2 ≠ 0 then -1 else 0
    else if packet IP_PROTOCOL = 0x06 then
      let length1 : Int := ((packet IP_LENGTH <<< 8) + packet (IP_LENGTH + 1) : Nat)
      let length2 := length1 - 20
      let pseudo := pseudoHeader packet (uint8 (length2 / 256)) (uint8 length2)
      let checksum1 := IPChecksum 0xffff pseudo 12
      let checksum2 := IPChecksum checksum1 (offset packet TCP_SOURCE_PORT) length2
      if checksum2 ≠ 0 then -1 else 0
    else 0
  else 0

/-- The statement pair `packet[k] = (unsigned char)(checksum >> 8); packet[k+1] = (unsigned
char)checksum`, which stores a 16-bit value high byte first. -/
def store16 (packet : Nat → Nat) (k : Nat) (value : Int) : Nat → Nat :=
  upd (upd packet k (uint8 (value / 256))) (k + 1) (uint8 value)

/-- The checksum part of `IPSendPacket(socket, frame, length)`: the bytes of `frame->packet`
after it.  The rest of the function sets fields of the frame and queues it, and leaves the
bytes as they are. -/
def IPSendPacket_packet (packet : Nat → Nat) (length : Int) : Nat → Nat :=
  if packet (ETHERNET_FRAME_TYPE + 1) = 0x00 then
    let p1 := store16 packet IP_LENGTH (length - IP_VERSION_LENGTH)
    let p2 := store16 p1 IP_CHECKSUM 0
    let p3 := store16 p2 IP_CHECKSUM (IPChecksum 0xffff (offset p2 IP_VERSION_LENGTH) 20)
    if p3 IP_PROTOCOL = 0x01 then
      let p4 := store16 p3 PING_CHECKSUM 0
      store16 p4 PING_CHECKSUM (IPChecksum 0xffff (offset p4 PING_TYPE) (length - PING_TYPE))
    else if p3 IP_PROTOCOL = 0x11 then
      let p4 := store16 p3 UDP_LENGTH (length - UDP_SOURCE_PORT)
      let pseudo := pseudoHeader p4 (p4 UDP_LENGTH) (p4 (UDP_LENGTH + 1))
      let checksum1 := IPChecksum 0xffff pseudo 12
      let p5 := store16 p4 UDP_CHECKSUM 0
      let length2 : Int := ((p5 UDP_LENGTH <<< 8) + p5 (UDP_LENGTH + 1) : Nat)
      store16 p5 UDP_CHECKSUM (IPChecksum checksum1 (offset p5 UDP_SOURCE_PORT) length2)
    else if p3 IP_PROTOCOL = 0x06 then
      let length1 : Int := ((p3 IP_LENGTH <<< 8) + p3 (IP_LENGTH + 1) : Nat)
      let length2 := length1 - 20
      let pseudo := pseudoHeader p3 (uint8 (length2 / 256)) (uint8 length2)
      let checksum1 := IPChecksum 0xffff pseudo 12
      let p4 := store16 p3 TCP_CHECKSUM 0
      store16 p4 TCP_CHECKSUM (IPChecksum checksum1 (offset p4 TCP_SOURCE_PORT) length2)
    else p3
  else packet

/-! ## Checksums as sums -/

/-- The weighted sum that `IPChecksum` adds to `checksum`: the bytes at even offsets count 256
times, the bytes at odd offsets once. -/
def byteSum (data : Nat → Nat) : Nat → Nat
  | 0 => 0
  | n + 1 => byteSum data n + (if n % 2 = 0 then 256 else 1) * data n

/-- The value with which the carry loop of `IPChecksum` ends when started with `x`. -/
def carry (x : Int) : Int := carryLoop x.toNat x

/-- A packet buffer holding a 42-byte UDP frame without payload (broadcast, from port 68 to
port 67, the header bytes of `dhcpDiscover` with the length and checksum fields still zero),
the byte `after` behind the frame, and zeros further on. -/
def udpFrame (after : Nat) : Nat → Nat := fun i =>
  [0xff, 0xff, 0xff, 0xff, 0xff, 0xff, 0x00, 0x10, 0xdd, 0xce, 0x15, 0xd4, 0x08, 0x00,
   0x45, 0x00, 0x00, 0x00, 0x2e, 0xf5, 0x00, 0x00, 0x80, 0x11, 0x00, 0x00,
   0x00, 0x00, 0x00, 0x00, 0xff, 0xff, 0xff, 0xff,
   0x00, 0x44, 0x00, 0x43, 0x00, 0x00, 0x00, 0x00, after].getD i 0

/-! ## Frames on the wire -/

/-- The CRC register of `EthernetTransmit` and `EthernetReceive` after the first `n` bytes of
`buffer`: the seed `0xffffffff` updated with each byte in turn. -/
def crcOf (buffer : Nat → Nat) : Nat → Nat
  | 0 => 0xffffffff
  | n + 1 => crcUpdate (crcOf buffer n) (buffer n)

/-- A byte with its two nibbles exchanged. -/
def swapNibbles (b : Nat) : Nat := b % 16 * 16 + b / 16

/-- The length to which `EthernetTransmit` pads: the least multiple of four that is at least
the length and at least 60. -/
def paddedLength (length : Nat) : Nat := if length ≤ 60 then 60 else (length + 3) / 4 * 4

/-- The caller's buffer after the padding of `EthernetTransmit`: zeros from `length` up to the
padded length. -/
def padded (buffer : Nat → Nat) (length : Nat) : Nat → Nat := fun i =>
  if length ≤ i ∧ i < paddedLength length then 0 else buffer i

/-- The CRC register of `EthernetReceive` after the first `n` bytes of `wire` (ring bytes,
nibbles still swapped): the seed `0xffffffff` updated with each byte after its nibbles are
swapped back. -/
def wireCrc (wire : Nat → Nat) : Nat → Nat
  | 0 => 0xffffffff
  | n + 1 => crcUpdate (wireCrc wire n) (((wire n <<< 4) &&& 0xf0) ||| (wire n >>> 4))

/-- A byte with the four bits of each nibble in reverse order. -/
def reverseNibbles (b : Nat) : Nat :=
  (if b.testBit 0 then 8 else 0) + (if b.testBit 1 then 4 else 0) +
    (if b.testBit 2 then 2 else 0) + (if b.testBit 3 then 1 else 0) +
    (if b.testBit 4 then 128 else 0) + (if b.testBit 5 then 64 else 0) +
    (if b.testBit 6 then 32 else 0) + (if b.testBit 7 then 16 else 0)

/-- The bytes that the two loops of `EthernetTransmit` write behind the preamble for a buffer
of `n` bytes: the `n` bytes with swapped nibbles, then the four bytes of the CRC trailer. -/
def frameWire (buffer : Nat → Nat) (n : Nat) : Nat → Nat := fun i =>
  trailerLoop n (transmitLoop buffer n (fun _ => 0) 0xffffffff).2 4
    (transmitLoop buffer n (fun _ => 0) 0xffffffff).1 (8 + i)

/-! ## Rings with a frame -/

/-- Each of the six ring bytes behind `index` is `0xff` or the byte of `gDestMac` for its
position. -/
def MacAccepts (e : Ethernet) (index : Nat) : Prop :=
  ∀ i, 1 ≤ i → i ≤ 6 →
    e.ETHERNET_RECEIVE ((index + i) &&& INDEX_MASK) = 0xff ∨
      e.ETHERNET_RECEIVE ((index + i) &&& INDEX_MASK) = e.gDestMac i

/-- The four ring bytes from `g` on are the trailer bytes of the CRC register `crc`. -/
def TrailerAt (ring : Nat → Nat) (g crc : Nat) : Prop :=
  ∀ i, i < 4 → ring (g + i) = trailerByte crc i

instance TrailerAt_dec (ring : Nat → Nat) (g crc : Nat) : Decidable (TrailerAt ring g crc) :=
  inferInstanceAs (Decidable (∀ i, i < 4 → ring (g + i) = trailerByte crc i))

/-- The driver state with a ring that holds the `n` bytes `bytes` from index 0 on and
`BYTE_EMPTY` elsewhere. -/
def ringWith (e : Ethernet) (bytes : Nat → Nat) (n : Nat) : Ethernet :=
  { e with ETHERNET_RECEIVE := fun i => if i < n then bytes i else BYTE_EMPTY }

/-- The driver state after the bytes of the last transmission (the first
`4 * ETHERNET_REG - 4` bytes of the transmit window) have arrived at index 0 of an empty
ring. -/
def loopback (e : Ethernet) : Ethernet :=
  ringWith e e.ETHERNET_TRANSMIT (4 * e.ETHERNET_REG - 4)

/-- The byte memory that holds the bytes of a list from index 0 on, and zeros behind them. -/
def listBytes (l : List Nat) : Nat → Nat := fun i => l.getD i 0

/-- The address `ethernetAddressPlasma` of `tcpip.c`. -/
def ethernetAddressPlasma : Nat → Nat := listBytes [0x00, 0x10, 0xdd, 0xce, 0x15, 0xd4]

/-- The driver configured with `ethernetAddressPlasma` and a ring that holds, from index 0 on,
`0x5d` and the six bytes `ff 01 ff ec ff 4d`: the nibble-swapped address `00 01 dd ec 51 4d`
with every other byte replaced by `0xff`. -/
def mixedAddressRing : Ethernet :=
  ringWith (EthernetInit ethernetStart (some ethernetAddressPlasma))
    (listBytes [0x5d, 0xff, 0x01, 0xff, 0xec, 0xff, 0x4d]) 7

/-- The round trip `EthernetReceive(transmit_ring_contents(EthernetTransmit(buffer)))`:
`EthernetTransmit(buffer, length)`, the transmitted bytes arriving in an empty ring, then
`EthernetReceive(received, maxLen)`. -/
def roundTrip (e : Ethernet) (buffer : Nat → Nat) (length packetExpected : Nat)
    (received : Nat → Nat) (maxLen : Nat) : Ethernet × (Nat → Nat) × Nat :=
  EthernetReceive (loopback (EthernetTransmit e buffer length).1) packetExpected received maxLen

/-- A frame of 46 bytes as data: the six bytes of the destination address, then 40 payload
bytes. -/
def macData (mac payload : Nat → Nat) : Nat → Nat := fun i =>
  if i < 6 then mac i else payload (i - 6)

/-- The ring bytes of the end-of-frame scenario: seven preamble bytes `0x55`, `0x5d`, then the
46 bytes of `macData` with swapped nibbles and their four trailer bytes, as the loops of
`EthernetTransmit` write them (58 bytes). -/
def macFrame (mac payload : Nat → Nat) : Nat → Nat := fun i =>
  if i < 7 then 0x55 else if i = 7 then 0x5d else frameWire (macData mac payload) 46 (i - 8)

/-- The driver state of the end-of-frame scenario: the address `mac` configured, the ring
holding `macFrame` from index 0 on and `BYTE_EMPTY` elsewhere. -/
def macScenario (mac payload : Nat → Nat) : Ethernet :=
  ringWith (EthernetInit ethernetStart (some mac)) (macFrame mac payload) 58

/-- A payload of 40 bytes, zero except for the bytes 34..37, which are the trailer bytes
(nibbles swapped back) of the 40 bytes that precede them in the frame: the address
`ethernetAddressPlasma` and 34 zero bytes. -/
def craftedPayload : Nat → Nat := fun i =>
  if 34 ≤ i ∧ i < 38 then
    swapNibbles (trailerByte (crcOf (macData ethernetAddressPlasma (fun _ => 0)) 40) (i - 34))
  else 0

/-- A buffer of 60 bytes for the broadcast address, zero behind the address except for the
bytes 40..43, which are the trailer bytes (nibbles swapped back) of the first 40 bytes. -/
def craftedBuffer : Nat → Nat := fun i =>
  if i < 6 then 0xff
  else if 40 ≤ i ∧ i < 44 then
    swapNibbles (trailerByte (crcOf (fun j => if j < 6 then 0xff else 0) 40) (i - 40))
  else 0

/-- A buffer for the broadcast address: `0xff` six times, then the bytes `i % 256`. -/
def broadcastBuffer : Nat → Nat := fun i => if i < 6 then 0xff else i % 256

/-- The driver state after `n` calls `EthernetReceive(buffer, maxLen)` in a row, the ring not
being written to in between. -/
def receives (e : Ethernet) (packetExpected maxLen : Nat) : Nat → Ethernet
  | 0 => e
  | n + 1 =>
    (EthernetReceive (receives e packetExpected maxLen n) packetExpected (fun _ => 0) maxLen).1

/-- A ring with two frame starts for the broadcast address and no frame: `0x5d ff ff ff ff ff
ff` at index 0 and again at index 7, `BYTE_EMPTY` elsewhere; the cursor is 0 and
`gCheckedBefore` is 0. -/
def twoStarts : Ethernet :=
  ringWith ethernetStart
    (listBytes [0x5d, 0xff, 0xff, 0xff, 0xff, 0xff, 0xff, 0x5d, 0xff, 0xff, 0xff, 0xff, 0xff,
      0xff]) 14
/-! ## CRC-32 bit by bit -/

/-- One step of the division by the polynomial `0x04C11DB7`: the register is shifted left by
one bit, and the polynomial is subtracted (xor) when the bit shifted out differs from the
message bit. -/
def crcDivideBit (crc : Nat) (bit : Bool) : Nat :=
  if (crc.testBit 31 != bit) = true then ((crc <<< 1) % 4294967296) ^^^ POLYNOMIAL
  else (crc <<< 1) % 4294967296

/-- The division for the first `n` bits of a message byte, least significant bit first
(reflected input). -/
def crcDivideBits (byte : Nat) : Nat → Nat → Nat
  | 0, crc => crc
  | n + 1, crc => crcDivideBit (crcDivideBits byte n crc) (byte.testBit n)

/-- The CRC-32 register (polynomial `0x04C11DB7`, reflected input, seed `0xffffffff`) after the
first `n` bytes of a message, computed bit by bit. -/
def crc32 (message : Nat → Nat) : Nat → Nat
  | 0 => 0xffffffff
  | n + 1 => crcDivideBits (message n) 8 (crc32 message n)

/-! ## TCP/IP stack: frames, sockets and queues (`trunk/kernel/tcpip.c`)

The header `tcpip.h` is not among the sources.  Its numeric constants are the fields of
`IPConfig`, parameters of the model; the fields of `IPFrame` and `IPSocket` are those that
`tcpip.c` uses, with the types that their use shows: `seq`, `ack`, `seqReceived` and `seqEnd`
are `uint32` (they are compared through `(int)(ack - seqEnd)`), `length` is assigned a `uint16`,
the counters and offsets are C integers (`Int`; overflow is outside the model).  The enumeration
`IPState_e` is the set of enumerators that `tcpip.c` names, taken as different values.

* Frames and sockets live in memory and are named by their address; memory is kept field by
  field, as in the kernel model.  `frame->packet` is a byte memory of its own.
* `OS_CriticalBegin`/`OS_CriticalEnd`, `OS_MutexPend`/`OS_MutexPost` on `IPMutex`, `assert`
  and the diagnostic output have no effect on the modelled state.
* A call `FrameSendFunc(packet, length)` of the link-layer function is recorded in `sent`
  (frame address, a copy of the bytes, the length); a call `socket->funcPtr(socket)` of a user
  callback is recorded in `notified`; a wake-up message posted to `IPMQueue` is counted in
  `posted`.  What the callee does is outside the stack.
* A walk along a linked list takes a `fuel` bound on the number of loop iterations and returns
  `none` when the bound is reached before the end of the list. -/

/-- The constants that `tcpip.c` takes from `tcpip.h`. -/
structure IPConfig where
  FRAME_COUNT : Int
  FRAME_COUNT_WINDOW : Int
  FRAME_COUNT_SEND : Int
  FRAME_COUNT_RCV : Int
  RETRANSMIT_TIME : Int
  SOCKET_TIMEOUT : Int
  PACKET_SIZE : Int

/-- The enumerators of `IPState_e` that `tcpip.c` names. -/
inductive IPState_e
  | IP_LISTEN
  | IP_UDP
  | IP_TCP
  | IP_FIN_CLIENT
  | IP_FIN_SERVER
  deriving DecidableEq, Repr

open IPState_e

/-- The enumerators of `IPMode_e` that `tcpip.c` names. -/
inductive IPMode_e
  | IP_MODE_UDP
  | IP_MODE_TCP
  deriving DecidableEq, Repr

open IPMode_e

/-- The fields of `IPFrame` that `tcpip.c` uses, each by frame address.  `state` is 0 for a
frame on the free list, 1 for a frame in use, 2 for a frame linked into a queue. -/
structure IPFrame where
  packet : Nat → Nat → Nat
  next : Nat → Option Nat
  prev : Nat → Option Nat
  socket : Nat → Option Nat
  timeout : Nat → Int
  seqEnd : Nat → Nat
  length : Nat → Nat
  retryCnt : Nat → Int
  state : Nat → Nat

/-- The fields of `IPSocket` that `tcpip.c` uses, each by socket address. -/
structure IPSocket where
  next : Nat → Option Nat
  prev : Nat → Option Nat
  state : Nat → IPState_e
  timeout : Nat → Int
  seq : Nat → Nat
  ack : Nat → Nat
  seqReceived : Nat → Nat
  headerSend : Nat → Nat → Nat
  headerRcv : Nat → Nat → Nat
  frameReadHead : Nat → Option Nat
  frameReadTail : Nat → Option Nat
  readOffset : Nat → Int
  frameSend : Nat → Option Nat
  sendOffset : Nat → Int
  funcPtr : Nat → Option Nat
  userData : Nat → Nat
  userFunc : Nat → Option Nat
  userPtr : Nat → Option Nat

/-- The state of the stack: the frame and socket memories, the file-scope variables of
`tcpip.c` (`request` is the static variable of `IPDhcp`, `portSource` that of `IPOpen`) and the
record of the calls that leave the stack. -/
structure IPStack where
  frame : IPFrame
  socket : IPSocket
  FrameFreeCount : Int
  FrameFreeHead : Option Nat
  FrameSendHead : Option Nat
  FrameSendTail : Option Nat
  FrameResendHead : Option Nat
  FrameResendTail : Option Nat
  SocketHead : Option Nat
  Seconds : Nat
  DhcpRetrySeconds : Int
  FrameSendFunc : Option Nat
  ethernetAddressGateway : Nat → Nat
  ipAddressPlasma : Nat → Nat
  ipAddressGateway : Nat → Nat
  ipAddressDns : Nat
  request : Int
  portSource : Int
  sent : List (Nat × (Nat → Nat) × Nat)
  notified : List Nat
  posted : Nat

/-- The arguments `IPFrame **head, IPFrame **tail` of `FrameInsert` and `FrameRemove`: the send
queue, the resend list or the read queue of a socket. -/
inductive FrameQueue
  | send
  | resend
  | read (socket : Nat)
  deriving DecidableEq, Repr

/-- Read `*head`. -/
def IPStack.getHead (s : IPStack) : FrameQueue → Option Nat
  | .send => s.FrameSendHead
  | .resend => s.FrameResendHead
  | .read k => s.socket.frameReadHead k

/-- Read `*tail`. -/
def IPStack.getTail (s : IPStack) : FrameQueue → Option Nat
  | .send => s.FrameSendTail
  | .resend => s.FrameResendTail
  | .read k => s.socket.frameReadTail k

/-- Write `*head`. -/
def IPStack.setHead (s : IPStack) (q : FrameQueue) (p : Option Nat) : IPStack :=
  match q with
  | .send => { s with FrameSendHead := p }
  | .resend => { s with FrameResendHead := p }
  | .read k => { s with socket.frameReadHead := upd s.socket.frameReadHead k p }

/-- Write `*tail`. -/
def IPStack.setTail (s : IPStack) (q : FrameQueue) (p : Option Nat) : IPStack :=
  match q with
  | .send => { s with FrameSendTail := p }
  | .resend => { s with FrameResendTail := p }
  | .read k => { s with socket.frameReadTail := upd s.socket.frameReadTail k p }

/-- Offsets of the Ethernet, UDP, DHCP and TCP fields in a packet. -/
def ETHERNET_DEST : Nat := 0

/-- Offset of the source address. -/
def ETHERNET_SOURCE : Nat := 6

/-- Offset of the time-to-live byte. -/
def IP_TIME_TO_LIVE : Nat := 22

/-- Offset of the UDP destination port. -/
def UDP_DEST_PORT : Nat := 36

/-- Offset of the UDP payload. -/
def UDP_DATA : Nat := 42

/-- Offset of the address that a DHCP server offers. -/
def DHCP_YOUR_IP : Nat := 58

/-- Offset of the DHCP server address. -/
def DHCP_SERVER_IP : Nat := 62

/-- Offset of the DHCP gateway address. -/
def DHCP_GATEWAY_IP : Nat := 66

/-- Offset of the DHCP client hardware address. -/
def DHCP_CLIENT_ETHERNET : Nat := 70

/-- Offset of the DHCP magic cookie, which the options follow. -/
def DHCP_MAGIC_COOKIE : Nat := 278

/-- DHCP message type. -/
def DHCP_DISCOVER : Nat := 1

/-- DHCP message type. -/
def DHCP_OFFER : Nat := 2

/-- DHCP message type. -/
def DHCP_REQUEST : Nat := 3

/-- DHCP message type. -/
def DHCP_ACK : Nat := 5

/-- DHCP option code: requested address. -/
def DHCP_REQUEST_IP : Nat := 50

/-- DHCP option code: server identifier. -/
def DHCP_REQUEST_SERV_IP : Nat := 54

/-- DHCP parameter code: DNS server. -/
def DHCP_PARAM_DNS : Nat := 6

/-- DHCP option code: end of the options. -/
def DHCP_END_OPTION : Nat := 0xff

/-- Offsets of the ARP fields. -/
def ARP_HARD_TYPE : Nat := 14

/-- Offset of the ARP protocol type. -/
def ARP_PROT_TYPE : Nat := 16

/-- Offset of the ARP hardware size. -/
def ARP_HARD_SIZE : Nat := 18

/-- Offset of the ARP protocol size. -/
def ARP_PROT_SIZE : Nat := 19

/-- Offset of the ARP operation. -/
def ARP_OP : Nat := 20

/-- Offset of the ARP sender hardware address. -/
def ARP_ETHERNET_SENDER : Nat := 22

/-- Offset of the ARP sender address. -/
def ARP_IP_SENDER : Nat := 28

/-- Offset of the ARP target address. -/
def ARP_IP_TARGET : Nat := 38

/-- Offset of the TCP destination port. -/
def TCP_DEST_PORT : Nat := 36

/-- Offset of the TCP sequence number. -/
def TCP_SEQ : Nat := 38

/-- Offset of the TCP acknowledgement number. -/
def TCP_ACK : Nat := 42

/-- Offset of the TCP header length byte. -/
def TCP_HEADER_LENGTH : Nat := 46

/-- Offset of the TCP flags. -/
def TCP_FLAGS : Nat := 47

/-- Offset of the TCP window size. -/
def TCP_WINDOW_SIZE : Nat := 48

/-- Offset of the TCP urgent pointer. -/
def TCP_URGENT_POINTER : Nat := 52

/-- Offset of the TCP payload. -/
def TCP_DATA : Nat := 54

/-- TCP flag. -/
def TCP_FLAGS_FIN : Nat := 1

/-- TCP flag. -/
def TCP_FLAGS_SYN : Nat := 2

/-- TCP flag. -/
def TCP_FLAGS_RST : Nat := 4

/-- TCP flag. -/
def TCP_FLAGS_ACK : Nat := 16

/-- The table `dhcpDiscover`. -/
def dhcpDiscover : Nat → Nat := listBytes
  [0xff, 0xff, 0xff, 0xff, 0xff, 0xff,
   0x00, 0x10, 0xdd, 0xce, 0x15, 0xd4,
   0x08, 0x00,
   0x45, 0x00, 0x01, 0x48, 0x2e, 0xf5, 0x00, 0x00,
   0x80, 0x11, 0x0a, 0xb1, 0x00, 0x00, 0x00, 0x00,
   0xff, 0xff, 0xff, 0xff,
   0x00, 0x44, 0x00, 0x43, 0x01, 0x34, 0x45, 0x66,
   0x01, 0x01, 0x06, 0x00, 0x69, 0x26, 0xb5, 0x52]

/-- The table `dhcpOptions`; the characters of the host name are their codes. -/
def dhcpOptions : Nat → Nat := listBytes
  [0x63, 0x82, 0x53, 0x63,
   0x35, 0x01, 0x01,
   0x3d, 0x07, 0x01, 0x00, 0x10, 0xdd, 0xce, 0x15, 0xd4,
   0x0c, 0x06, 112, 108, 97, 115, 109, 97,
   0x37, 0x03, 1, 3, 6,
   0xff]

/-- The value of `sizeof(dhcpDiscover)`. -/
def sizeof_dhcpDiscover : Nat := 50

/-- The value of `sizeof(dhcpOptions)`. -/
def sizeof_dhcpOptions : Nat := 30

/-- The call `memcpy(dst + d, src + s, n)`: the bytes of `dst` after it. -/
def memcpy (dst : Nat → Nat) (d : Nat) (src : Nat → Nat) (s n : Nat) : Nat → Nat :=
  fun i => if d ≤ i ∧ i < d + n then src (s + (i - d)) else dst i

/-- The call `memset(dst + d, v, n)`: the bytes of `dst` after it. -/
def memset (dst : Nat → Nat) (d v n : Nat) : Nat → Nat :=
  fun i => if d ≤ i ∧ i < d + n then v else dst i

/-- The call `memcmp(a, b, n)`, of which the code only tests whether it is zero: 0 when the
`n` bytes agree, 1 otherwise. -/
def memcmp (a b : Nat → Nat) (n : Nat) : Int :=
  if (List.range n).all (fun i => a i == b i) then 0 else 1

/-- The four assignments `packet[k] = (uint8)(value >> 24); ... packet[k+3] = (uint8)value`,
which store a `uint32` high byte first. -/
def store32 (packet : Nat → Nat) (k : Nat) (value : Nat) : Nat → Nat :=
  upd (upd (upd (upd packet k ((value >>> 24) % 256)) (k + 1) ((value >>> 16) % 256))
    (k + 2) ((value >>> 8) % 256)) (k + 3) (value % 256)

/-- The expression `(packet[k] << 24) | (packet[k+1] << 16) | (packet[k+2] << 8) | packet[k+3]`
assigned to a `uint32`. -/
def load32 (packet : Nat → Nat) (k : Nat) : Nat :=
  ((packet k <<< 24) ||| (packet (k + 1) <<< 16) ||| (packet (k + 2) <<< 8) ||| packet (k + 3))
    % 4294967296

/-- Conversion of a value to the C type `uint16`. -/
def toUInt16 (x : Int) : Nat := (x % 65536).toNat

/-! ### The frame pool and the queues -/

/-- The function `IPFrameGet(freeCount)`: the state after it and the frame returned. -/
def IPFrameGet (s : IPStack) (freeCount : Int) : IPStack × Option Nat :=
  if s.FrameFreeCount > freeCount then
    let s1 := { s with FrameFreeCount := s.FrameFreeCount - 1 }
    match s1.FrameFreeHead with
    | some frame =>
      let s2 := { s1 with FrameFreeHead := s1.frame.next frame }
      ({ s2 with frame.state := upd s2.frame.state frame 1 }, some frame)
    | none => (s1, none)
  else (s, none)

/-- The function `FrameFree(frame)`. -/
def FrameFree (s : IPStack) (frame : Nat) : IPStack :=
  let s1 := { s with frame.state := upd s.frame.state frame 0 }
  let s2 := { s1 with frame.next := upd s1.frame.next frame s1.FrameFreeHead }
  let s3 := { s2 with FrameFreeHead := some frame }
  { s3 with FrameFreeCount := s3.FrameFreeCount + 1 }

/-- The function `FrameInsert(head, tail, frame)`. -/
def FrameInsert (s : IPStack) (q : FrameQueue) (frame : Nat) : IPStack :=
  let s1 := { s with frame.state := upd s.frame.state frame 2 }
  let s2 := { s1 with frame.prev := upd s1.frame.prev frame none }
  let s3 := { s2 with frame.next := upd s2.frame.next frame (s2.getHead q) }
  let s4 :=
    match s3.getHead q with
    | some h => { s3 with frame.prev := upd s3.frame.prev h (some frame) }
    | none => s3
  let s5 := s4.setHead q (some frame)
  match s5.getTail q with
  | none => s5.setTail q (some frame)
  | some _ => s5

/-- The function `FrameRemove(head, tail, frame)`. -/
def FrameRemove (s : IPStack) (q : FrameQueue) (frame : Nat) : IPStack :=
  let s1 := { s with frame.state := upd s.frame.state frame 1 }
  let s2 :=
    match s1.frame.prev frame with
    | some p => { s1 with frame.next := upd s1.frame.next p (s1.frame.next frame) }
    | none => s1.setHead q (s1.frame.next frame)
  let s3 :=
    match s2.frame.next frame with
    | some n => { s2 with frame.prev := upd s2.frame.prev n (s2.frame.prev frame) }
    | none => s2.setTail q (s2.frame.prev frame)
  let s4 := { s3 with frame.prev := upd s3.frame.prev frame none }
  { s4 with frame.next := upd s4.frame.next frame none }

/-- The function `IPFrameReschedule(frame)`.  The conditions of the `||` chain are evaluated
from the left, so `++frame->retryCnt` runs only when the three before it are false. -/
def IPFrameReschedule (cfg : IPConfig) (s : IPStack) (frame : Nat) : IPStack :=
  let length0 : Int := (s.frame.length frame : Int) - TCP_DATA
  let length : Int :=
    if s.frame.packet frame TCP_FLAGS &&& (TCP_FLAGS_FIN ||| TCP_FLAGS_SYN) ≠ 0 then length0 + 1
    else length0
  match s.frame.socket frame with
  | none => FrameFree s frame
  | some socket =>
    if s.socket.state socket = IP_UDP ∨ length = 0 then FrameFree s frame
    else
      let retryCnt := s.frame.retryCnt frame + 1
      let s1 := { s with frame.retryCnt := upd s.frame.retryCnt frame retryCnt }
      if s1.frame.retryCnt frame > 4 then FrameFree s1 frame
      else
        let s2 := { s1 with frame.timeout := upd s1.frame.timeout frame cfg.RETRANSMIT_TIME }
        FrameInsert s2 .resend frame

/-- The function `IPSendFrame(frame)`. -/
def IPSendFrame (cfg : IPConfig) (s : IPStack) (frame : Nat) : IPStack :=
  match s.FrameSendFunc with
  | some _ =>
    let s1 := { s with sent := s.sent ++ [(frame, s.frame.packet frame, s.frame.length frame)] }
    IPFrameReschedule cfg s1 frame
  | none =>
    let s1 := FrameInsert s .send frame
    { s1 with posted := s1.posted + 1 }

/-- The function `IPSendPacket(socket, frame, length)`; the checksums are written by
`IPSendPacket_packet`. -/
def IPSendPacket (cfg : IPConfig) (s : IPStack) (socket : Option Nat) (frame : Nat)
    (length : Int) : IPStack :=
  let s1 := { s with frame.length := upd s.frame.length frame (toUInt16 length) }
  let packet := IPSendPacket_packet (s1.frame.packet frame) length
  let s2 := { s1 with frame.packet := upd s1.frame.packet frame packet }
  let length2 : Int :=
    if socket ≠ none ∧
        s2.frame.packet frame TCP_FLAGS &&& (TCP_FLAGS_FIN ||| TCP_FLAGS_SYN) ≠ 0 then 1
    else length - TCP_DATA
  let s3 := { s2 with frame.socket := upd s2.frame.socket frame socket }
  let s4 := { s3 with frame.timeout := upd s3.frame.timeout frame 0 }
  let s5 := { s4 with frame.retryCnt := upd s4.frame.retryCnt frame 0 }
  let s6 :=
    match socket with
    | some k =>
      let seqEnd := toUInt32 ((s5.socket.seq k : Int) + length2)
      { s5 with frame.seqEnd := upd s5.frame.seqEnd frame seqEnd }
    | none => s5
  IPSendFrame cfg s6 frame

/-- The header part of `TCPSendPacket(socket, frame, length)`: the bytes of `frame->packet`
when `IPSendPacket` is called. -/
def TCPSendPacket_packet (cfg : IPConfig) (s : IPStack) (socket : Nat) (packet : Nat → Nat) :
    Nat → Nat :=
  let flags := packet TCP_FLAGS
  let p1 := memcpy packet 0 (s.socket.headerSend socket) 0 TCP_SEQ
  let p2 := upd p1 TCP_FLAGS (flags % 256)
  let p3 :=
    if flags &&& TCP_FLAGS_SYN ≠ 0 then upd p2 TCP_HEADER_LENGTH 0x60
    else upd p2 TCP_HEADER_LENGTH 0x50
  let p4 := store32 p3 TCP_SEQ (s.socket.seq socket)
  let p5 := store32 p4 TCP_ACK (s.socket.ack socket)
  let count0 : Int := s.FrameFreeCount - cfg.FRAME_COUNT_WINDOW
  let count1 : Int := if count0 < 1 then 1 else count0
  let count : Int := count1 * 512
  let p6 := store16 p5 TCP_WINDOW_SIZE count
  upd (upd p6 TCP_URGENT_POINTER 0) (TCP_URGENT_POINTER + 1) 0

/-- The function `TCPSendPacket(socket, frame, length)`. -/
def TCPSendPacket (cfg : IPConfig) (s : IPStack) (socket frame : Nat) (length : Int) : IPStack :=
  let packet := TCPSendPacket_packet cfg s socket (s.frame.packet frame)
  IPSendPacket cfg { s with frame.packet := upd s.frame.packet frame packet } (some socket) frame
    length

/-- The function `EthernetCreateResponse(packetOut, packet, length)`: the bytes of `packetOut`
after it. -/
def EthernetCreateResponse (packetOut packet : Nat → Nat) (length : Nat) : Nat → Nat :=
  let p1 := memcpy packetOut 0 packet 0 length
  let p2 := memcpy p1 ETHERNET_DEST packet ETHERNET_SOURCE 6
  let p3 := memcpy p2 ETHERNET_SOURCE packet ETHERNET_DEST 6
  if packet (ETHERNET_FRAME_TYPE + 1) = 0x00 then
    let p4 := memcpy p3 IP_SOURCE packet IP_DEST 4
    let p5 := memcpy p4 IP_DEST packet IP_SOURCE 4
    if packet IP_PROTOCOL = 0x06 ∨ packet IP_PROTOCOL = 0x11 then
      let p6 := memcpy p5 TCP_SOURCE_PORT packet TCP_DEST_PORT 2
      memcpy p6 TCP_DEST_PORT packet TCP_SOURCE_PORT 2
    else p5
  else p3

/-! ### DHCP -/

/-- The frame that `IPDhcp` fills for a DISCOVER: 512 zero bytes, the table `dhcpDiscover`, the
hardware address as source and as client address, the table `dhcpOptions` and the hardware
address in the client identifier. -/
def dhcpDiscoverPacket (packetOut : Nat → Nat) : Nat → Nat :=
  let p1 := memset packetOut 0 0 512
  let p2 := memcpy p1 0 dhcpDiscover 0 sizeof_dhcpDiscover
  let p3 := memcpy p2 ETHERNET_SOURCE ethernetAddressPlasma 0 6
  let p4 := memcpy p3 DHCP_CLIENT_ETHERNET ethernetAddressPlasma 0 6
  let p5 := memcpy p4 DHCP_MAGIC_COOKIE dhcpOptions 0 sizeof_dhcpOptions
  memcpy p5 (DHCP_MAGIC_COOKIE + 10) ethernetAddressPlasma 0 6

/-- The frame that `IPDhcp` fills for a REQUEST answering the OFFER `packet`. -/
def dhcpRequestPacket (packetOut packet : Nat → Nat) : Nat → Nat :=
  let p1 := memset packetOut 0 0 512
  let p2 := memcpy p1 0 dhcpDiscover 0 sizeof_dhcpDiscover
  let p3 := memcpy p2 ETHERNET_SOURCE ethernetAddressPlasma 0 6
  let p4 := memcpy p3 DHCP_CLIENT_ETHERNET ethernetAddressPlasma 0 6
  let p5 := memcpy p4 DHCP_MAGIC_COOKIE dhcpOptions 0 sizeof_dhcpOptions
  let p6 := upd p5 (DHCP_MAGIC_COOKIE + 6) DHCP_REQUEST
  let ptr := DHCP_MAGIC_COOKIE + sizeof_dhcpOptions - 1
  let p7 := upd p6 ptr DHCP_REQUEST_IP
  let p8 := upd p7 (ptr + 1) 4
  let p9 := memcpy p8 (ptr + 2) packet DHCP_YOUR_IP 4
  let p10 := upd p9 (ptr + 6) DHCP_REQUEST_SERV_IP
  let p11 := upd p10 (ptr + 7) 4
  let p12 := memcpy p11 (ptr + 8) packet DHCP_SERVER_IP 4
  upd p12 (ptr + 12) DHCP_END_OPTION

/-- The option walk of the DHCP ACK branch: `ptr2` is an offset into `packet`; every option
with code `DHCP_PARAM_DNS` sets `ipAddressDns`.  The offset grows by at least 2 in every
iteration and the walk stops at `length`, so `length` iterations are enough. -/
def dhcpDnsLoop (packet : Nat → Nat) (length : Int) : Nat → Nat → Nat → Nat
  | 0, _, dns => dns
  | fuel + 1, ptr2, dns =>
    if packet ptr2 ≠ DHCP_END_OPTION ∧ (ptr2 : Int) < length then
      let dns1 :=
        if packet ptr2 = DHCP_PARAM_DNS then
          ((packet (ptr2 + 2) <<< 24) ||| (packet (ptr2 + 3) <<< 16) |||
            (packet (ptr2 + 4) <<< 8) ||| packet (ptr2 + 5)) % 4294967296
        else dns
      dhcpDnsLoop packet length fuel (ptr2 + (packet (ptr2 + 1) + 2)) dns1
    else dns

/-- The frame that `IPDhcp` fills for the ARP request to the gateway. -/
def dhcpArpPacket (s : IPStack) (packetOut : Nat → Nat) : Nat → Nat :=
  let p1 := memset packetOut 0 0 512
  let p2 := memset p1 ETHERNET_DEST 0xff 6
  let p3 := memcpy p2 ETHERNET_SOURCE ethernetAddressPlasma 0 6
  let p4 := upd p3 ETHERNET_FRAME_TYPE 0x08
  let p5 := upd p4 (ETHERNET_FRAME_TYPE + 1) 0x06
  let p6 := upd p5 (ARP_HARD_TYPE + 1) 0x01
  let p7 := upd p6 ARP_PROT_TYPE 0x08
  let p8 := upd p7 ARP_HARD_SIZE 0x06
  let p9 := upd p8 ARP_PROT_SIZE 0x04
  let p10 := upd p9 (ARP_OP + 1) 1
  let p11 := memcpy p10 ARP_ETHERNET_SENDER ethernetAddressPlasma 0 6
  let p12 := memcpy p11 ARP_IP_SENDER s.ipAddressPlasma 0 4
  memcpy p12 ARP_IP_TARGET s.ipAddressGateway 0 4

/-- The function `IPDhcp(packet, length, state)`.  With `state == 1` the packet is not read. -/
def IPDhcp (cfg : IPConfig) (s : IPStack) (packet : Nat → Nat) (length : Int) (state : Int) :
    IPStack :=
  if state = 1 then
    match IPFrameGet s 0 with
    | (s1, none) => s1
    | (s1, some frame) =>
      let packetOut := dhcpDiscoverPacket (s1.frame.packet frame)
      let s2 := { s1 with frame.packet := upd s1.frame.packet frame packetOut }
      let s3 := IPSendPacket cfg s2 none frame 400
      let s4 := { s3 with request := DHCP_DISCOVER }
      { s4 with DhcpRetrySeconds := cfg.RETRANSMIT_TIME }
  else if state = 2 ∧ memcmp (offset packet DHCP_CLIENT_ETHERNET) ethernetAddressPlasma 6 = 0 then
    if packet (DHCP_MAGIC_COOKIE + 6) = DHCP_OFFER ∧ s.request = DHCP_DISCOVER then
      match IPFrameGet s 0 with
      | (s1, none) => s1
      | (s1, some frame) =>
        let packetOut := dhcpRequestPacket (s1.frame.packet frame) packet
        let s2 := { s1 with frame.packet := upd s1.frame.packet frame packetOut }
        let s3 := { s2 with request := DHCP_REQUEST }
        IPSendPacket cfg s3 none frame 400
    else if packet (DHCP_MAGIC_COOKIE + 6) = DHCP_ACK ∧ s.request = DHCP_REQUEST then
      let s1 := { s with request := 0 }
      let s2 := { s1 with DhcpRetrySeconds := 3600 * 4 }
      let s3 := { s2 with ipAddressPlasma := memcpy s2.ipAddressPlasma 0 packet DHCP_YOUR_IP 4 }
      let s4 := { s3 with ipAddressGateway := memcpy s3.ipAddressGateway 0 packet DHCP_GATEWAY_IP 4 }
      let s5 :=
        if s4.ipAddressGateway 0 = 0 ∧ s4.ipAddressGateway 1 = 0 ∧ s4.ipAddressGateway 2 = 0 ∧
            s4.ipAddressGateway 3 = 0 then
          { s4 with ipAddressGateway := memcpy s4.ipAddressGateway 0 packet DHCP_SERVER_IP 4 }
        else s4
      let gateway := memcpy s5.ethernetAddressGateway 0 packet ETHERNET_SOURCE 6
      let s6 := { s5 with ethernetAddressGateway := gateway }
      let dns := dhcpDnsLoop packet length length.toNat (DHCP_MAGIC_COOKIE + 4) s6.ipAddressDns
      let s7 := { s6 with ipAddressDns := dns }
      if memcmp (offset packet IP_SOURCE) s7.ipAddressGateway 4 ≠ 0 then
        match IPFrameGet s7 0 with
        | (s8, none) => s8
        | (s8, some frame) =>
          let packetOut := dhcpArpPacket s8 (s8.frame.packet frame)
          let s9 := { s8 with frame.packet := upd s8.frame.packet frame packetOut }
          IPSendPacket cfg s9 none frame 60
      else s7
    else s
  else s

/-! ### Sockets -/

/-- The call `memcpy(socketNew, socket, sizeof(IPSocket))`: every field of the socket at `dst`
becomes that of the socket at `src`. -/
def IPSocket.copy (m : IPSocket) (dst src : Nat) : IPSocket where
  next := upd m.next dst (m.next src)
  prev := upd m.prev dst (m.prev src)
  state := upd m.state dst (m.state src)
  timeout := upd m.timeout dst (m.timeout src)
  seq := upd m.seq dst (m.seq src)
  ack := upd m.ack dst (m.ack src)
  seqReceived := upd m.seqReceived dst (m.seqReceived src)
  headerSend := upd m.headerSend dst (m.headerSend src)
  headerRcv := upd m.headerRcv dst (m.headerRcv src)
  frameReadHead := upd m.frameReadHead dst (m.frameReadHead src)
  frameReadTail := upd m.frameReadTail dst (m.frameReadTail src)
  readOffset := upd m.readOffset dst (m.readOffset src)
  frameSend := upd m.frameSend dst (m.frameSend src)
  sendOffset := upd m.sendOffset dst (m.sendOffset src)
  funcPtr := upd m.funcPtr dst (m.funcPtr src)
  userData := upd m.userData dst (m.userData src)
  userFunc := upd m.userFunc dst (m.userFunc src)
  userPtr := upd m.userPtr dst (m.userPtr src)

/-- The loop `for(socket = SocketHead; socket; socket = socket->next) if(test) break;` from the
pointer given: the first socket that passes the test, `NULL` when the list ends without one. -/
def socketFind (s : IPStack) (test : Nat → Bool) : Nat → Option Nat → Option (Option Nat)
  | _, none => some none
  | 0, some _ => none
  | fuel + 1, some socket =>
    if test socket then some (some socket)
    else socketFind s test fuel (s.socket.next socket)

/-- The test `packet[IP_PROTOCOL] == socket->headerRcv[IP_PROTOCOL] && memcmp(packet+IP_SOURCE,
socket->headerRcv+IP_SOURCE, 8) == 0 && memcmp(packet+TCP_SOURCE_PORT,
socket->headerRcv+TCP_SOURCE_PORT, 4) == 0` of a packet against a socket. -/
def tcpMatch (s : IPStack) (packet : Nat → Nat) (socket : Nat) : Bool :=
  packet IP_PROTOCOL = s.socket.headerRcv socket IP_PROTOCOL ∧
  memcmp (offset packet IP_SOURCE) (offset (s.socket.headerRcv socket) IP_SOURCE) 8 = 0 ∧
  memcmp (offset packet TCP_SOURCE_PORT) (offset (s.socket.headerRcv socket) TCP_SOURCE_PORT) 4 = 0

/-- The test of the duplicate-SYN loop. -/
def duplicateMatch (s : IPStack) (packet : Nat → Nat) (socket : Nat) : Bool :=
  s.socket.state socket ≠ IP_LISTEN ∧ tcpMatch s packet socket

/-- The test of the open-port loop. -/
def listenMatch (s : IPStack) (packet : Nat → Nat) (socket : Nat) : Bool :=
  s.socket.state socket = IP_LISTEN ∧
  packet IP_PROTOCOL = s.socket.headerRcv socket IP_PROTOCOL ∧
  memcmp (offset packet TCP_DEST_PORT) (offset (s.socket.headerRcv socket) TCP_DEST_PORT) 2 = 0

/-- The statement `if(socket->funcPtr) socket->funcPtr(socket);`. -/
def notify (s : IPStack) (socket : Nat) : IPStack :=
  match s.socket.funcPtr socket with
  | some _ => { s with notified := s.notified ++ [socket] }
  | none => s

/-- The first loop of `IPClose2`: frames of the socket on the send queue lose their socket. -/
def closeSendLoop (Socket : Nat) : Nat → Option Nat → IPStack → Option IPStack
  | _, none, s => some s
  | 0, some _, _ => none
  | fuel + 1, some frame, s =>
    let s1 :=
      if s.frame.socket frame = some Socket then
        { s with frame.socket := upd s.frame.socket frame none }
      else s
    closeSendLoop Socket fuel (s1.frame.next frame) s1

/-- The second loop of `IPClose2`: frames of the socket on the resend list are removed and
freed. -/
def closeResendLoop (Socket : Nat) : Nat → Option Nat → IPStack → Option IPStack
  | _, none, s => some s
  | 0, some _, _ => none
  | fuel + 1, some framePrev, s =>
    let frame := s.frame.next framePrev
    if s.frame.socket framePrev = some Socket then
      closeResendLoop Socket fuel frame (FrameFree (FrameRemove s .resend framePrev) framePrev)
    else closeResendLoop Socket fuel frame s

/-- The third loop of `IPClose2`: the frames of the read queue are removed and freed. -/
def closeReadLoop (Socket : Nat) : Nat → Option Nat → IPStack → Option IPStack
  | _, none, s => some s
  | 0, some _, _ => none
  | fuel + 1, some framePrev, s =>
    let frame := s.frame.next framePrev
    closeReadLoop Socket fuel frame (FrameFree (FrameRemove s (.read Socket) framePrev) framePrev)

/-- The last part of `IPClose2`: the socket leaves the socket list (`free(Socket)` returns its
memory to the heap, which is not part of the state). -/
def socketUnlink (s : IPStack) (Socket : Nat) : IPStack :=
  let s1 :=
    match s.socket.prev Socket with
    | none => { s with SocketHead := s.socket.next Socket }
    | some p => { s with socket.next := upd s.socket.next p (s.socket.next Socket) }
  match s1.socket.next Socket with
  | some n => { s1 with socket.prev := upd s1.socket.prev n (s1.socket.prev Socket) }
  | none => s1

/-- The function `IPClose2(Socket)`. -/
def IPClose2 (fuel : Nat) (s : IPStack) (Socket : Nat) : Option IPStack :=
  match closeSendLoop Socket fuel s.FrameSendHead s with
  | none => none
  | some s1 =>
    match closeResendLoop Socket fuel s1.FrameResendHead s1 with
    | none => none
    | some s2 =>
      match closeReadLoop Socket fuel (s2.socket.frameReadHead Socket) s2 with
      | none => none
      | some s3 => some (socketUnlink s3 Socket)

/-- The function `IPWriteFlush(Socket)`. -/
def IPWriteFlush (cfg : IPConfig) (s : IPStack) (Socket : Nat) : IPStack :=
  match s.socket.frameSend Socket with
  | some frameSend =>
    if s.socket.state Socket ≠ IP_UDP then
      let packetOut := upd (s.frame.packet frameSend) TCP_FLAGS TCP_FLAGS_ACK
      let s1 := { s with frame.packet := upd s.frame.packet frameSend packetOut }
      let s2 := TCPSendPacket cfg s1 Socket frameSend (TCP_DATA + s1.socket.sendOffset Socket)
      let seq := toUInt32 (s2.socket.seq Socket + s2.socket.sendOffset Socket)
      let s3 := { s2 with socket.seq := upd s2.socket.seq Socket seq }
      let s4 := { s3 with socket.frameSend := upd s3.socket.frameSend Socket none }
      { s4 with socket.sendOffset := upd s4.socket.sendOffset Socket 0 }
    else s
  | none => s

/-- The function `IPClose(Socket)`. -/
def IPClose (cfg : IPConfig) (fuel : Nat) (s : IPStack) (Socket : Nat) : Option IPStack :=
  let s1 := IPWriteFlush cfg s Socket
  if s1.socket.state Socket = IP_UDP then IPClose2 fuel s1 Socket
  else
    match IPFrameGet s1 0 with
    | (s2, none) => some s2
    | (s2, some frameOut) =>
      let packetOut := upd (s2.frame.packet frameOut) TCP_FLAGS (TCP_FLAGS_FIN ||| TCP_FLAGS_ACK)
      let s3 := { s2 with frame.packet := upd s2.frame.packet frameOut packetOut }
      let s4 := TCPSendPacket cfg s3 Socket frameOut TCP_DATA
      let seq := (s4.socket.seq Socket + 1) % 4294967296
      let s5 := { s4 with socket.seq := upd s4.socket.seq Socket seq }
      if s5.socket.state Socket = IP_FIN_CLIENT then IPClose2 fuel s5 Socket
      else some { s5 with socket.state := upd s5.socket.state Socket IP_FIN_SERVER }

/-! ### Received TCP segments -/

/-- The statements `frameOut = IPFrameGet(FRAME_COUNT_SEND); if(frameOut) { frameOut->packet[
TCP_FLAGS] = TCP_FLAGS_ACK; TCPSendPacket(socket, frameOut, TCP_DATA); }`, which occur three
times in `IPProcessTCPPacket`. -/
def tcpSendAck (cfg : IPConfig) (s : IPStack) (socket : Nat) : IPStack :=
  match IPFrameGet s cfg.FRAME_COUNT_SEND with
  | (s1, none) => s1
  | (s1, some frameOut) =>
    let packetOut := upd (s1.frame.packet frameOut) TCP_FLAGS TCP_FLAGS_ACK
    let s2 := { s1 with frame.packet := upd s1.frame.packet frameOut packetOut }
    TCPSendPacket cfg s2 socket frameOut TCP_DATA

/-- The loop of `IPProcessTCPPacket` over the resend list: every frame of the socket with
`(int)(ack - seqEnd) >= 0` is removed and freed. -/
def ackLoop (cfg : IPConfig) (socket ack : Nat) : Nat → Option Nat → IPStack → Option IPStack
  | _, none, s => some s
  | 0, some _, _ => none
  | fuel + 1, some framePrev, s =>
    let frame2 := s.frame.next framePrev
    if s.frame.socket framePrev = some socket ∧ tickDiff ack (s.frame.seqEnd framePrev) ≥ 0 then
      let s1 :=
        if s.socket.timeout socket ≠ 0 then
          { s with socket.timeout := upd s.socket.timeout socket cfg.SOCKET_TIMEOUT }
        else s
      ackLoop cfg socket ack fuel frame2 (FrameFree (FrameRemove s1 .resend framePrev) framePrev)
    else ackLoop cfg socket ack fuel frame2 s

/-- The block `if(ack != socket->seqReceived) { ... }` of `IPProcessTCPPacket`. -/
def tcpAcknowledge (cfg : IPConfig) (fuel : Nat) (s : IPStack) (socket ack : Nat) :
    Option IPStack :=
  if ack ≠ s.socket.seqReceived socket then
    match ackLoop cfg socket ack fuel s.FrameResendHead s with
    | none => none
    | some s1 => some { s1 with socket.seqReceived := upd s1.socket.seqReceived socket ack }
  else some s

/-- The transition that the FIN and the RST branch of `IPProcessTCPPacket` share. -/
def tcpFinish (fuel : Nat) (s : IPStack) (socket : Nat) : Option IPStack :=
  if s.socket.state socket = IP_FIN_SERVER then IPClose2 fuel s socket
  else some (notify { s with socket.state := upd s.socket.state socket IP_FIN_CLIENT } socket)

/-- The statements of the accept branch that set up the new socket: the copy of the listening
socket, the state, the time and the numbers `ack`, `seq` and `seqReceived`. -/
def acceptSocket (cfg : IPConfig) (s : IPStack) (socketNew socket seq : Nat) : IPStack :=
  let s2 := { s with socket := s.socket.copy socketNew socket }
  let s3 := { s2 with socket.state := upd s2.socket.state socketNew IP_TCP }
  let timeout := cfg.RETRANSMIT_TIME * 3
  let s4 := { s3 with socket.timeout := upd s3.socket.timeout socketNew timeout }
  let s5 := { s4 with socket.ack := upd s4.socket.ack socketNew seq }
  let seq1 := (s5.socket.ack socketNew + 0x12345678) % 4294967296
  let s6 := { s5 with socket.seq := upd s5.socket.seq socketNew seq1 }
  let seqReceived := s6.socket.seq socketNew
  { s6 with socket.seqReceived := upd s6.socket.seqReceived socketNew seqReceived }

/-- The statements of the accept branch from `EthernetCreateResponse` to the option bytes: the
headers of the new socket, the flags, `++socketNew->ack` and the option bytes of the frame. -/
def acceptPacket (s : IPStack) (socketNew frameOut : Nat) (packet : Nat → Nat) (length : Nat) :
    IPStack :=
  let packetOut := EthernetCreateResponse (s.frame.packet frameOut) packet length
  let headerRcv := memcpy (s.socket.headerRcv socketNew) 0 packet 0 TCP_SEQ
  let s8 := { s with socket.headerRcv := upd s.socket.headerRcv socketNew headerRcv }
  let headerSend := memcpy (s8.socket.headerSend socketNew) 0 packetOut 0 TCP_SEQ
  let s9 := { s8 with socket.headerSend := upd s8.socket.headerSend socketNew headerSend }
  let packetOut1 := upd packetOut TCP_FLAGS (TCP_FLAGS_SYN ||| TCP_FLAGS_ACK)
  let ack1 := (s9.socket.ack socketNew + 1) % 4294967296
  let s10 := { s9 with socket.ack := upd s9.socket.ack socketNew ack1 }
  let packetOut2 :=
    upd (upd (upd (upd packetOut1 TCP_DATA 2) (TCP_DATA + 1) 4) (TCP_DATA + 2) 2)
      (TCP_DATA + 3) 24
  { s10 with frame.packet := upd s10.frame.packet frameOut packetOut2 }

/-- The statements that put a new socket at the head of the socket list. -/
def socketLink (s : IPStack) (socketNew : Nat) : IPStack :=
  let s14 := { s with socket.next := upd s.socket.next socketNew s.SocketHead }
  let s15 := { s14 with socket.prev := upd s14.socket.prev socketNew none }
  let s16 :=
    match s15.SocketHead with
    | some h => { s15 with socket.prev := upd s15.socket.prev h (some socketNew) }
    | none => s15
  { s16 with SocketHead := some socketNew }

/-- The accept branch of `IPProcessTCPPacket`, from `frameOut = IPFrameGet(FRAME_COUNT_SEND)`
on; `malloc` is the result of the call `malloc(sizeof(IPSocket))`. -/
def tcpAccept (cfg : IPConfig) (s : IPStack) (malloc : Option Nat) (packet : Nat → Nat)
    (length seq socket : Nat) : IPStack :=
  match IPFrameGet s cfg.FRAME_COUNT_SEND with
  | (s1, none) => s1
  | (s1, some frameOut) =>
    match malloc with
    | none => s1
    | some socketNew =>
      let s7 := acceptSocket cfg s1 socketNew socket seq
      let s11 := acceptPacket s7 socketNew frameOut packet length
      let s12 := TCPSendPacket cfg s11 socketNew frameOut (TCP_DATA + 4)
      let seq2 := (s12.socket.seq socketNew + 1) % 4294967296
      let s13 := { s12 with socket.seq := upd s12.socket.seq socketNew seq2 }
      socketLink s13 socketNew

/-- The last part of `IPProcessTCPPacket`, after the block of the acknowledgement: the reply to
a SYN with ACK, the check of the header length and the data of the segment.  `packet`, `seq` and
`ip_length` are the values that the function read from the frame at its start. -/
def tcpData (cfg : IPConfig) (s1 : IPStack) (socket frameIn : Nat) (packet : Nat → Nat)
    (seq : Nat) (ip_length : Int) : IPStack × Int :=
  let bytes : Int := ip_length - ((TCP_DATA : Int) - IP_VERSION_LENGTH)
  if packet TCP_FLAGS &&& (TCP_FLAGS_SYN ||| TCP_FLAGS_ACK) =
      (TCP_FLAGS_SYN ||| TCP_FLAGS_ACK) then
    let s2 := { s1 with socket.ack := upd s1.socket.ack socket ((seq + 1) % 4294967296) }
    (notify (tcpSendAck cfg s2 socket) socket, 0)
  else if packet TCP_HEADER_LENGTH ≠ 0x50 then (s1, 0)
  else if s1.socket.ack socket = seq ∧ bytes > 0 then
    let s2 :=
      if s1.socket.timeout socket ≠ 0 then
        { s1 with socket.timeout := upd s1.socket.timeout socket cfg.SOCKET_TIMEOUT }
      else s1
    let s3 := FrameInsert s2 (.read socket) frameIn
    let ack1 := toUInt32 (s3.socket.ack socket + bytes)
    let s4 := { s3 with socket.ack := upd s3.socket.ack socket ack1 }
    (notify (tcpSendAck cfg s4 socket) socket, 1)
  else if bytes ≠ 0 then (tcpSendAck cfg s1 socket, 0)
  else (s1, 0)

/-- The function `IPProcessTCPPacket(frameIn)`: the state after it and the value returned.
`malloc` is the result of the call of `malloc`, if the function comes to it. -/
def IPProcessTCPPacket (cfg : IPConfig) (fuel : Nat) (s : IPStack) (malloc : Option Nat)
    (frameIn : Nat) : Option (IPStack × Int) :=
  let packet := s.frame.packet frameIn
  let length := s.frame.length frameIn
  let ip_length : Int := (((packet IP_LENGTH <<< 8) ||| packet (IP_LENGTH + 1) : Nat) : Int)
  let seq := load32 packet TCP_SEQ
  let ack := load32 packet TCP_ACK
  if packet TCP_FLAGS &&& (TCP_FLAGS_SYN ||| TCP_FLAGS_ACK) = TCP_FLAGS_SYN then
    match socketFind s (duplicateMatch s packet) fuel s.SocketHead with
    | none => none
    | some (some _) => some (s, 0)
    | some none =>
      match socketFind s (listenMatch s packet) fuel s.SocketHead with
      | none => none
      | some none => some (s, 0)
      | some (some socket) => some (tcpAccept cfg s malloc packet length seq socket, 0)
  else
    match socketFind s (tcpMatch s packet) fuel s.SocketHead with
    | none => none
    | some none => some (s, 0)
    | some (some socket) =>
      if packet TCP_FLAGS &&& TCP_FLAGS_FIN ≠ 0 then
        let s1 := { s with socket.timeout := upd s.socket.timeout socket cfg.SOCKET_TIMEOUT }
        match IPFrameGet s1 0 with
        | (s2, none) => some (s2, 0)
        | (s2, some frameOut) =>
          let packetOut := upd (s2.frame.packet frameOut) TCP_FLAGS TCP_FLAGS_ACK
          let s3 := { s2 with frame.packet := upd s2.frame.packet frameOut packetOut }
          let ack1 := (s3.socket.ack socket + 1) % 4294967296
          let s4 := { s3 with socket.ack := upd s3.socket.ack socket ack1 }
          let s5 := TCPSendPacket cfg s4 socket frameOut TCP_DATA
          match tcpFinish fuel s5 socket with
          | none => none
          | some s6 => some (s6, 0)
      else if packet TCP_FLAGS &&& TCP_FLAGS_RST ≠ 0 then
        match tcpFinish fuel s socket with
        | none => none
        | some s1 => some (s1, 0)
      else
        match tcpAcknowledge cfg fuel s socket ack with
        | none => none
        | some s1 => some (tcpData cfg s1 socket frameIn packet seq ip_length)

/-! ### The socket interface -/

/-- The call `memset(socket, 0, sizeof(IPSocket))` and the assignments that follow it in
`IPOpen`, up to `socket->userPtr = NULL`. -/
def IPSocket.clear (m : IPSocket) (socket : Nat) (funcPtr : Option Nat) : IPSocket where
  next := upd m.next socket none
  prev := upd m.prev socket none
  state := upd m.state socket IP_LISTEN
  timeout := upd m.timeout socket 0
  seq := upd m.seq socket 0
  ack := upd m.ack socket 0
  seqReceived := upd m.seqReceived socket 0
  headerSend := upd m.headerSend socket (fun _ => 0)
  headerRcv := upd m.headerRcv socket (fun _ => 0)
  frameReadHead := upd m.frameReadHead socket none
  frameReadTail := upd m.frameReadTail socket none
  readOffset := upd m.readOffset socket 0
  frameSend := upd m.frameSend socket none
  sendOffset := upd m.sendOffset socket 0
  funcPtr := upd m.funcPtr socket funcPtr
  userData := upd m.userData socket 0
  userFunc := upd m.userFunc socket none
  userPtr := upd m.userPtr socket none

/-- The header `ptrSend` that `IPOpen` sets up for a socket with a peer. -/
def openHeaderSend (s : IPStack) (ptrSend : Nat → Nat) (IPAddress Port : Nat) : Nat → Nat :=
  let p1 := memset ptrSend 0 0 UDP_LENGTH
  let p2 := memcpy p1 ETHERNET_DEST s.ethernetAddressGateway 0 6
  let p3 := memcpy p2 ETHERNET_SOURCE ethernetAddressPlasma 0 6
  let p4 := upd p3 ETHERNET_FRAME_TYPE 0x08
  let p5 := upd p4 IP_VERSION_LENGTH 0x45
  let p6 := upd p5 IP_TIME_TO_LIVE 0x80
  let p7 := memcpy p6 IP_SOURCE s.ipAddressPlasma 0 4
  let p8 := store32 p7 IP_DEST IPAddress
  let p9 := store16 p8 TCP_SOURCE_PORT s.portSource
  store16 p9 TCP_DEST_PORT Port

/-- The header `ptrRcv` that `IPOpen` sets up for a socket with a peer. -/
def openHeaderRcv (s : IPStack) (ptrRcv : Nat → Nat) (IPAddress Port : Nat) : Nat → Nat :=
  let p1 := memset ptrRcv 0 0 UDP_LENGTH
  let p2 := store32 p1 IP_SOURCE IPAddress
  let p3 := memcpy p2 IP_DEST s.ipAddressPlasma 0 4
  let p4 := store16 p3 TCP_SOURCE_PORT Port
  store16 p4 TCP_DEST_PORT s.portSource

/-- The part of `IPOpen` that fills the headers. -/
def openHeaders (s : IPStack) (socket IPAddress Port : Nat) : IPStack :=
  if IPAddress = 0 then
    let headerRcv := store16 (s.socket.headerRcv socket) TCP_DEST_PORT Port
    { s with socket.headerRcv := upd s.socket.headerRcv socket headerRcv }
  else
    let headerSend := openHeaderSend s (s.socket.headerSend socket) IPAddress Port
    let headerRcv := openHeaderRcv s (s.socket.headerRcv socket) IPAddress Port
    let s1 := { s with socket.headerSend := upd s.socket.headerSend socket headerSend }
    let s2 := { s1 with socket.headerRcv := upd s1.socket.headerRcv socket headerRcv }
    { s2 with portSource := s2.portSource + 1 }

/-- The part of `IPOpen` that sets the state and the protocol bytes. -/
def openMode (s : IPStack) (socket : Nat) (Mode : IPMode_e) (IPAddress : Nat) : IPStack :=
  let state :=
    match Mode with
    | IP_MODE_TCP => if IPAddress ≠ 0 then IP_TCP else IP_LISTEN
    | IP_MODE_UDP => IP_UDP
  let protocol :=
    match Mode with
    | IP_MODE_TCP => 0x06
    | IP_MODE_UDP => 0x11
  let s1 := { s with socket.state := upd s.socket.state socket state }
  let headerSend := upd (s1.socket.headerSend socket) IP_PROTOCOL protocol
  let headerRcv := upd (s1.socket.headerRcv socket) IP_PROTOCOL protocol
  let s2 := { s1 with socket.headerSend := upd s1.socket.headerSend socket headerSend }
  { s2 with socket.headerRcv := upd s2.socket.headerRcv socket headerRcv }

/-- The part of `IPOpen` that sends the SYN of an active open. -/
def openSyn (cfg : IPConfig) (s : IPStack) (socket : Nat) : IPStack :=
  match IPFrameGet s 0 with
  | (s1, none) => s1
  | (s1, some frame) =>
    let p0 := upd (s1.frame.packet frame) TCP_FLAGS TCP_FLAGS_SYN
    let packet :=
      upd (upd (upd (upd p0 TCP_DATA 2) (TCP_DATA + 1) 4) (TCP_DATA + 2) 2) (TCP_DATA + 3) 24
    let s2 := { s1 with frame.packet := upd s1.frame.packet frame packet }
    let s3 := TCPSendPacket cfg s2 socket frame (TCP_DATA + 4)
    let seq := (s3.socket.seq socket + 1) % 4294967296
    { s3 with socket.seq := upd s3.socket.seq socket seq }

/-- The function `IPOpen(Mode, IPAddress, Port, funcPtr)`: the state after it and the socket
returned; `malloc` is the result of the call of `malloc`. -/
def IPOpen (cfg : IPConfig) (s : IPStack) (malloc : Option Nat) (Mode : IPMode_e)
    (IPAddress Port : Nat) (funcPtr : Option Nat) : IPStack × Option Nat :=
  match malloc with
  | none => (s, none)
  | some socket =>
    let s1 := { s with socket := s.socket.clear socket funcPtr }
    let s2 := openHeaders s1 socket IPAddress Port
    let s3 := openMode s2 socket Mode IPAddress
    let s4 := socketLink s3 socket
    if Mode = IP_MODE_TCP ∧ IPAddress ≠ 0 then (openSyn cfg s4 socket, some socket)
    else (s4, some socket)

/-- The loop of `IPWrite(Socket, Buf, Length)`: `Buf` is the part of the buffer not written
yet, `count` the number of bytes taken so far.  Every iteration but the last takes at least one
byte or flushes a full segment, so a bound on the iterations exists for every `Length`. -/
def writeLoop (cfg : IPConfig) (Socket : Nat) :
    Nat → IPStack → (Nat → Nat) → Nat → Nat → Option (IPStack × Nat)
  | _, s, _, 0, count => some (s, count)
  | 0, _, _, _ + 1, _ => none
  | fuel + 1, s, Buf, Length + 1, count =>
    let s1 :=
      match s.socket.frameSend Socket with
      | none =>
        let r := IPFrameGet s cfg.FRAME_COUNT_SEND
        let s0 := { r.1 with socket.frameSend := upd r.1.socket.frameSend Socket r.2 }
        { s0 with socket.sendOffset := upd s0.socket.sendOffset Socket 0 }
      | some _ => s
    match s1.socket.frameSend Socket with
    | none => some (s1, count)
    | some frameOut =>
      let off : Int := s1.socket.sendOffset Socket
      let bytes0 : Nat := toUInt32 (512 - off)
      let bytes : Nat := if bytes0 > Length + 1 then Length + 1 else bytes0
      let s2 := { s1 with socket.sendOffset := upd s1.socket.sendOffset Socket (off + bytes) }
      let s3 :=
        if s2.socket.state Socket ≠ IP_UDP then
          let packetOut := memcpy (s2.frame.packet frameOut) (TCP_DATA + off).toNat Buf 0 bytes
          let s2a := { s2 with frame.packet := upd s2.frame.packet frameOut packetOut }
          if s2a.socket.sendOffset Socket ≥ 512 then IPWriteFlush cfg s2a Socket else s2a
        else
          let packetOut := memcpy (s2.frame.packet frameOut) (UDP_DATA + off).toNat Buf 0 bytes
          let packetOut1 := memcpy packetOut 0 (s2.socket.headerSend Socket) 0 UDP_LENGTH
          let s2a := { s2 with frame.packet := upd s2.frame.packet frameOut packetOut1 }
          let length := UDP_DATA + s2a.socket.sendOffset Socket
          let s2b := IPSendPacket cfg s2a (some Socket) frameOut length
          { s2b with socket.frameSend := upd s2b.socket.frameSend Socket none }
      writeLoop cfg Socket fuel s3 (offset Buf bytes) (Length + 1 - bytes) (count + bytes)

/-- The function `IPWrite(Socket, Buf, Length)`: the state after it and the count returned. -/
def IPWrite (cfg : IPConfig) (fuel : Nat) (s : IPStack) (Socket : Nat) (Buf : Nat → Nat)
    (Length : Nat) : Option (IPStack × Nat) :=
  writeLoop cfg Socket fuel s Buf Length 0

/-- The loop of `IPRead`: `Buf` is the memory of the caller, in which the next byte goes to the
index `count`; `offset0` is `TCP_DATA` or `UDP_DATA`.  A negative `bytes` would be passed to
`memcpy` as a huge size: the model returns `none`. -/
def readLoop (Socket : Nat) (offset0 : Nat) :
    Nat → Option Nat → IPStack → (Nat → Nat) → Nat → Nat → Option (IPStack × (Nat → Nat) × Nat)
  | _, none, s, Buf, _, count => some (s, Buf, count)
  | _, some _, s, Buf, 0, count => some (s, Buf, count)
  | 0, some _, _, _, _ + 1, _ => none
  | fuel + 1, some frame, s, Buf, Length + 1, count =>
    let bytes0 : Int := (s.frame.length frame : Int) - offset0 - s.socket.readOffset Socket
    let bytes : Int := if bytes0 > toInt32 (Length + 1) then toInt32 (Length + 1) else bytes0
    if bytes < 0 then none
    else
      let Buf1 := memcpy Buf count (s.frame.packet frame)
        ((offset0 : Int) + s.socket.readOffset Socket).toNat bytes.toNat
      let readOffset := s.socket.readOffset Socket + bytes
      let s1 := { s with socket.readOffset := upd s.socket.readOffset Socket readOffset }
      let frame2 := frame
      let frame1 := s1.frame.prev frame
      let s2 :=
        if s1.socket.readOffset Socket = (s1.frame.length frame2 : Int) - offset0 then
          let s1a := { s1 with socket.readOffset := upd s1.socket.readOffset Socket 0 }
          FrameFree (FrameRemove s1a (.read Socket) frame2) frame2
        else s1
      readLoop Socket offset0 fuel frame1 s2 Buf1 (Length + 1 - bytes.toNat) (count + bytes.toNat)

/-- The function `IPRead(Socket, Buf, Length)`: the state after it, the memory of the caller
and the count returned. -/
def IPRead (fuel : Nat) (s : IPStack) (Socket : Nat) (Buf : Nat → Nat) (Length : Nat) :
    Option (IPStack × (Nat → Nat) × Nat) :=
  let offset0 := if s.socket.state Socket = IP_TCP then TCP_DATA else UDP_DATA
  readLoop Socket offset0 fuel (s.socket.frameReadTail Socket) s Buf Length 0

/-! ### The tick and the start -/

/-- The first loop of `IPTick`: the time of every frame of the resend list is counted down, and
a frame whose time is up is removed and sent again. -/
def resendLoop (cfg : IPConfig) : Nat → Option Nat → IPStack → Option IPStack
  | _, none, s => some s
  | 0, some _, _ => none
  | fuel + 1, some frame2, s =>
    let frame := s.frame.next frame2
    let timeout := s.frame.timeout frame2 - 1
    let s1 := { s with frame.timeout := upd s.frame.timeout frame2 timeout }
    if s1.frame.timeout frame2 = 0 then
      resendLoop cfg fuel frame (IPSendFrame cfg (FrameRemove s1 .resend frame2) frame2)
    else resendLoop cfg fuel frame s1

/-- The statement of the second loop of `IPTick` that closes the socket whose time is up. -/
def tickClose (cfg : IPConfig) (fuel : Nat) (s : IPStack) (socket2 : Nat) : Option IPStack :=
  if s.socket.state socket2 = IP_TCP then IPClose cfg fuel s socket2
  else if s.socket.state socket2 = IP_FIN_CLIENT then IPClose cfg fuel s socket2
  else IPClose2 fuel s socket2

/-- The second loop of `IPTick`: the time of every socket with a running time is counted down,
and a socket whose time is up is closed.  `fuel0` bounds the walks of the close functions. -/
def socketLoop (cfg : IPConfig) (fuel0 : Nat) : Nat → Option Nat → IPStack → Option IPStack
  | _, none, s => some s
  | 0, some _, _ => none
  | fuel + 1, some socket2, s =>
    let socketNext := s.socket.next socket2
    if s.socket.timeout socket2 ≠ 0 then
      let timeout := s.socket.timeout socket2 - 1
      let s1 := { s with socket.timeout := upd s.socket.timeout socket2 timeout }
      if s1.socket.timeout socket2 = (0 : Int) then
        let s2 := { s1 with socket.timeout := upd s1.socket.timeout socket2 (10 : Int) }
        match tickClose cfg fuel0 s2 socket2 with
        | none => none
        | some s3 => socketLoop cfg fuel0 fuel socketNext s3
      else socketLoop cfg fuel0 fuel socketNext s1
    else socketLoop cfg fuel0 fuel socketNext s

/-- The function `IPTick()`. -/
def IPTick (cfg : IPConfig) (fuel : Nat) (s : IPStack) : Option IPStack :=
  let s1 := { s with Seconds := (s.Seconds + 1) % 4294967296 }
  let s2 := { s1 with DhcpRetrySeconds := s1.DhcpRetrySeconds - 1 }
  let s3 := if s2.DhcpRetrySeconds ≤ 0 then IPDhcp cfg s2 (fun _ => 0) 400 1 else s2
  match resendLoop cfg fuel s3.FrameResendHead s3 with
  | none => none
  | some s4 => socketLoop cfg fuel fuel s4.SocketHead s4

/-- The loop of `IPInit` that builds the frame pool: `malloc i` is the address that the call
of `malloc` in iteration `i` returns; `memset` clears every field of the new frame. -/
def poolLoop (malloc : Nat → Nat) : Nat → Nat → IPStack → IPStack
  | 0, _, s => s
  | n + 1, i, s =>
    let frame := malloc i
    let s1 := { s with frame := {
      packet := upd s.frame.packet frame (fun _ => 0)
      next := upd s.frame.next frame none
      prev := upd s.frame.prev frame none
      socket := upd s.frame.socket frame none
      timeout := upd s.frame.timeout frame 0
      seqEnd := upd s.frame.seqEnd frame 0
      length := upd s.frame.length frame 0
      retryCnt := upd s.frame.retryCnt frame 0
      state := upd s.frame.state frame 0 } }
    let s2 := { s1 with frame.next := upd s1.frame.next frame s1.FrameFreeHead }
    let s3 := { s2 with frame.prev := upd s2.frame.prev frame none }
    poolLoop malloc n (i + 1) { s3 with FrameFreeHead := some frame }

/-- The function `IPInit(FrameSendFunction)`.  The kernel objects that it creates (`IPMutex`,
`IPMQueue`, the thread of `IPMainThread`) are not part of the state. -/
def IPInit (cfg : IPConfig) (s : IPStack) (FrameSendFunction : Option Nat) (malloc : Nat → Nat) :
    IPStack :=
  let s1 := { s with FrameSendFunc := FrameSendFunction }
  let s2 := poolLoop malloc cfg.FRAME_COUNT.toNat 0 s1
  IPDhcp cfg s2 (fun _ => 0) 360 1

/-- The state of the stack when the program starts: the initial values of the file-scope
variables (`FrameFreeCount` is `FRAME_COUNT`, `ipAddressPlasma` is `157.254.40.10`, the gateway
addresses are all ones, the rest is zero) and a memory of zeros. -/
def startStack (cfg : IPConfig) : IPStack where
  frame := {
    packet := fun _ _ => 0
    next := fun _ => none
    prev := fun _ => none
    socket := fun _ => none
    timeout := fun _ => 0
    seqEnd := fun _ => 0
    length := fun _ => 0
    retryCnt := fun _ => 0
    state := fun _ => 0 }
  socket := {
    next := fun _ => none
    prev := fun _ => none
    state := fun _ => IP_LISTEN
    timeout := fun _ => 0
    seq := fun _ => 0
    ack := fun _ => 0
    seqReceived := fun _ => 0
    headerSend := fun _ _ => 0
    headerRcv := fun _ _ => 0
    frameReadHead := fun _ => none
    frameReadTail := fun _ => none
    readOffset := fun _ => 0
    frameSend := fun _ => none
    sendOffset := fun _ => 0
    funcPtr := fun _ => none
    userData := fun _ => 0
    userFunc := fun _ => none
    userPtr := fun _ => none }
  FrameFreeCount := cfg.FRAME_COUNT
  FrameFreeHead := none
  FrameSendHead := none
  FrameSendTail := none
  FrameResendHead := none
  FrameResendTail := none
  SocketHead := none
  Seconds := 0
  DhcpRetrySeconds := 0
  FrameSendFunc := none
  ethernetAddressGateway := fun _ => 0xff
  ipAddressPlasma := listBytes [0x9d, 0xfe, 0x28, 10]
  ipAddressGateway := fun _ => 0xff
  ipAddressDns := 0
  request := 0
  portSource := 0x1007
  sent := []
  notified := []
  posted := 0

/-! ### The frame pool as lists -/

/-- The pool invariant: the frames `free` are the free list from `FrameFreeHead`, in order,
`FrameFreeCount` is their number, and among the frames `pool` of the stack exactly those of
the free list have the state 0, every other one the state 1 or 2. -/
def PoolInv (s : IPStack) (pool free : List Nat) : Prop :=
  IsChain s.frame.next s.FrameFreeHead free ∧ s.FrameFreeCount = free.length ∧ pool.Nodup ∧
  (∀ f ∈ free, f ∈ pool) ∧ (∀ f ∈ pool, s.frame.state f = 0 ↔ f ∈ free) ∧
  (∀ f ∈ pool, s.frame.state f ≤ 2)

instance (s : IPStack) (pool free : List Nat) : Decidable (PoolInv s pool free) := by
  unfold PoolInv
  infer_instance

/-- The number of frames of `pool` in the state `v`. -/
def countState (s : IPStack) (pool : List Nat) (v : Nat) : Nat :=
  (pool.filter (fun f => s.frame.state f = v)).length

/-- A small configuration for the instances: a pool of 8 frames, of which 2 are kept back from
senders and 1 from the receiver. -/
def smallConfig : IPConfig where
  FRAME_COUNT := 8
  FRAME_COUNT_WINDOW := 4
  FRAME_COUNT_SEND := 2
  FRAME_COUNT_RCV := 1
  RETRANSMIT_TIME := 3
  SOCKET_TIMEOUT := 12
  PACKET_SIZE := 600

/-- The pool of `smallConfig` after the loop of `IPInit`, the frames at the addresses 100 to
107. -/
def smallPool : IPStack :=
  poolLoop (fun i => 100 + i) 8 0 (startStack smallConfig)

/-- The payload length of a TCP segment of `length` bytes with the flags `flags`: the length
minus the 54 bytes of the headers, and minus the 4 option bytes when SYN is set. -/
def tcpPayloadLength (flags : Nat) (length : Int) : Int :=
  length - 54 - (if flags &&& TCP_FLAGS_SYN ≠ 0 then 4 else 0)

/-- What SYN and FIN add to the sequence number: 1 when one of them is set. -/
def tcpFlagLength (flags : Nat) : Int :=
  if flags &&& (TCP_FLAGS_FIN ||| TCP_FLAGS_SYN) ≠ 0 then 1 else 0

/-- The call `IPSendFrame(g)` seen from outside, between the states `s` and `s'`: with a
link-layer function the frame is handed to it (one more entry in `sent`, with the bytes that
the frame holds), without one the frame is put at the head of the send queue and a wake-up
message is posted.  `length` is the length of the frame. -/
def Emits (s s' : IPStack) (g length : Nat) : Prop :=
  s'.frame.length g = length ∧
  match s.FrameSendFunc with
  | some _ => s'.sent = s.sent ++ [(g, s'.frame.packet g, length)]
  | none =>
    s'.sent = s.sent ∧ s'.FrameSendHead = some g ∧ s'.frame.next g = s.FrameSendHead ∧
    s'.posted = s.posted + 1

/-- The stack of `smallConfig` after `IPInit` with a link-layer function: the DISCOVER has been
sent and its frame is free again. -/
def smallStack : IPStack :=
  IPInit smallConfig (startStack smallConfig) (some 1) (fun i => 100 + i)

/-- A DHCP OFFER for the hardware address of the stack: `yiaddr` is `192.168.1.42`, the server
address `192.168.1.1`. -/
def offerPacket : Nat → Nat := fun i =>
  if i = DHCP_MAGIC_COOKIE + 6 then DHCP_OFFER
  else if DHCP_CLIENT_ETHERNET ≤ i ∧ i < DHCP_CLIENT_ETHERNET + 6 then
    ethernetAddressPlasma (i - DHCP_CLIENT_ETHERNET)
  else if DHCP_YOUR_IP ≤ i ∧ i < DHCP_YOUR_IP + 4 then listBytes [192, 168, 1, 42] (i - DHCP_YOUR_IP)
  else if DHCP_SERVER_IP ≤ i ∧ i < DHCP_SERVER_IP + 4 then
    listBytes [192, 168, 1, 1] (i - DHCP_SERVER_IP)
  else 0

/-- The state after `n` calls `IPFrameGet(0)`. -/
def takeFrames : Nat → IPStack → IPStack
  | 0, s => s
  | n + 1, s => takeFrames n (IPFrameGet s 0).1

/-- The stack `smallStack` when all of its eight frames are in use. -/
def drainedStack : IPStack := takeFrames 8 smallStack

/-- The state of `smallPool` in which the frame 107 is in use and carries the flags FIN and
ACK, and the socket 1 is a TCP socket with `seq = 1000`. -/
def finScenario : IPStack :=
  { smallPool with
    frame := { smallPool.frame with
      state := upd smallPool.frame.state 107 1
      packet := upd smallPool.frame.packet 107 (upd (fun _ => 0) TCP_FLAGS 17) }
    socket := { smallPool.socket with
      state := upd smallPool.socket.state 1 IP_TCP
      seq := upd smallPool.socket.seq 1 1000 } }

/-! ### Queues as lists -/

/-- The queue `q` holds the frames `L`, the head first: following `next` from the head visits
`L` and ends with `NULL`, following `prev` from the tail visits `L` backwards and ends with
`NULL`. -/
def FrameList (s : IPStack) (q : FrameQueue) (L : List Nat) : Prop :=
  IsChain s.frame.next (s.getHead q) L ∧ IsChain s.frame.prev (s.getTail q) L.reverse

instance (s : IPStack) (q : FrameQueue) (L : List Nat) : Decidable (FrameList s q L) :=
  inferInstanceAs (Decidable (_ ∧ _))

/-- The arrival of a frame: `MyPacketGet` takes a frame with `IPFrameGet(FRAME_COUNT_RCV)`, the
driver fills it with the packet, and `IPMainThread` sets `frame->length` before it calls
`IPProcessEthernetPacket`.  The state after it and the frame. -/
def receiveFrame (cfg : IPConfig) (s : IPStack) (packet : Nat → Nat) (length : Nat) :
    IPStack × Option Nat :=
  match IPFrameGet s cfg.FRAME_COUNT_RCV with
  | (s1, none) => (s1, none)
  | (s1, some frame) =>
    let s2 := { s1 with frame.packet := upd s1.frame.packet frame packet }
    ({ s2 with frame.length := upd s2.frame.length frame (toUInt16 length) }, some frame)

/-- The stack `smallStack` after `IPOpen(IP_MODE_TCP, 0, 80, callback)`: the socket at the
address 10 listens on port 80. -/
def listenStack : IPStack :=
  (IPOpen smallConfig smallStack (some 10) IP_MODE_TCP 0 80 (some 7)).1

/-- A SYN segment from `192.168.1.2:5000` to port 80 of the stack, with the sequence number
1000 and an option of 4 bytes. -/
def synPacket : Nat → Nat := listBytes
  [0x00, 0x10, 0xdd, 0xce, 0x15, 0xd4, 1, 2, 3, 4, 5, 6, 0x08, 0x00,
   0x45, 0, 0, 44, 0, 0, 0, 0, 64, 6, 0, 0, 192, 168, 1, 2, 157, 254, 40, 10,
   0x13, 0x88, 0, 80, 0, 0, 0x03, 0xe8, 0, 0, 0, 0, 0x60, 0x02, 0x20, 0, 0, 0, 0, 0,
   2, 4, 5, 0xb4]

/-- The stack `listenStack` when the frame 107 holds the segment `synPacket`. -/
def synScenario : IPStack := (receiveFrame smallConfig listenStack synPacket 58).1

/-- The state after a walk over the frames `L` of the queue `q` that removes and frees, in
order, every frame that passes the test `P`: what the loops of `IPProcessTCPPacket` and of
`IPClose2` over a queue come to. -/
def removeWalk (P : Nat → Bool) (q : FrameQueue) : List Nat → IPStack → IPStack
  | [], s => s
  | x :: l, s => removeWalk P q l (if P x then FrameFree (FrameRemove s q x) x else s)

/-- The state `s1` differs from `s` at most in the fields of the frame `g` other than its links
and its state, and in the logs `sent` and `posted`: what filling a frame that was taken from the
pool changes. -/
def SameButFrame (s s1 : IPStack) (g : Nat) : Prop :=
  s1.frame.next = s.frame.next ∧ s1.frame.prev = s.frame.prev ∧
  s1.frame.state = s.frame.state ∧
  (∀ a, a ≠ g → s1.frame.packet a = s.frame.packet a ∧ s1.frame.socket a = s.frame.socket a ∧
    s1.frame.timeout a = s.frame.timeout a ∧ s1.frame.seqEnd a = s.frame.seqEnd a ∧
    s1.frame.length a = s.frame.length a ∧ s1.frame.retryCnt a = s.frame.retryCnt a) ∧
  s1.socket = s.socket ∧ s1.FrameFreeCount = s.FrameFreeCount ∧
  s1.FrameFreeHead = s.FrameFreeHead ∧ s1.FrameSendHead = s.FrameSendHead ∧
  s1.FrameSendTail = s.FrameSendTail ∧ s1.FrameResendHead = s.FrameResendHead ∧
  s1.FrameResendTail = s.FrameResendTail ∧ s1.SocketHead = s.SocketHead ∧
  s1.FrameSendFunc = s.FrameSendFunc ∧ s1.notified = s.notified

/-- The test of the loop of `IPProcessTCPPacket` over the resend list: the frame belongs to the
socket and `(int)(ack - frame->seqEnd) >= 0`. -/
def acknowledged (s : IPStack) (socket ack : Nat) (f : Nat) : Bool :=
  decide (s.frame.socket f = some socket ∧ tickDiff ack (s.frame.seqEnd f) ≥ 0)

/-- The stack `synScenario` after `IPProcessTCPPacket` has accepted the connection (the new
socket is at the address 11) and `IPMainThread` has freed the frame of the SYN. -/
def establishedStack : IPStack :=
  FrameFree (((IPProcessTCPPacket smallConfig 8 synScenario (some 11) 107).map
    (fun r => r.1)).getD synScenario) 107

/-- A segment of the peer of the socket 11 with the flags `flags`, the sequence number `seq`,
the acknowledgement number `ack` and `n` bytes of data, all of them `0x55`. -/
def peerPacket (flags seq ack n : Nat) : Nat → Nat := fun i =>
  if i = IP_LENGTH then (40 + n) / 256
  else if i = IP_LENGTH + 1 then (40 + n) % 256
  else if TCP_SEQ ≤ i ∧ i < TCP_SEQ + 4 then store32 (fun _ => 0) TCP_SEQ seq i
  else if TCP_ACK ≤ i ∧ i < TCP_ACK + 4 then store32 (fun _ => 0) TCP_ACK ack i
  else if i = TCP_HEADER_LENGTH then 0x50
  else if i = TCP_FLAGS then flags
  else if TCP_DATA ≤ i ∧ i < TCP_DATA + n then 0x55
  else if i < TCP_DATA then synPacket i
  else 0

/-- The stack `establishedStack` when the frame 107 holds the acknowledgement of the SYN+ACK. -/
def ackScenario : IPStack :=
  (receiveFrame smallConfig establishedStack (peerPacket TCP_FLAGS_ACK 1001 0x12345a61 0) 54).1

/-- The stack `establishedStack` when the frame 107 holds a segment of the peer with 3 bytes of
data, in order. -/
def dataScenario : IPStack :=
  (receiveFrame smallConfig establishedStack
    (peerPacket (TCP_FLAGS_ACK ||| 8) 1001 0x12345a61 3) 57).1

/-- The stack `establishedStack` when the frame 107 holds a segment of the peer with the flags
FIN and ACK. -/
def finArrival : IPStack :=
  (receiveFrame smallConfig establishedStack
    (peerPacket (TCP_FLAGS_FIN ||| TCP_FLAGS_ACK) 1001 0x12345a61 0) 54).1

/-- The stack `finArrival` after six more frames have been taken: no frame is free. -/
def finNoFrame : IPStack := takeFrames 6 finArrival

/-- One iteration of the first loop of `IPTick`, for the frame `x` of the resend list: its time
is counted down, and when the time is up the frame is removed and sent. -/
def resendStep (cfg : IPConfig) (s : IPStack) (x : Nat) : IPStack :=
  let s1 := { s with frame.timeout := upd s.frame.timeout x (s.frame.timeout x - 1) }
  if s1.frame.timeout x = 0 then IPSendFrame cfg (FrameRemove s1 .resend x) x else s1

/-- The state after the first loop of `IPTick` has visited the frames `L` of the resend list, in
order. -/
def resendWalk (cfg : IPConfig) : List Nat → IPStack → IPStack
  | [], s => s
  | x :: l, s => resendWalk cfg l (resendStep cfg s x)

/-- The number of times the frame `f` has been handed to the link-layer function. -/
def sentCount (s : IPStack) (f : Nat) : Nat :=
  (s.sent.filter (fun e => e.1 = f)).length

/-- The state after `n` calls of `IPTick`. -/
def IPTicks (cfg : IPConfig) (fuel : Nat) : Nat → IPStack → Option IPStack
  | 0, s => some s
  | n + 1, s =>
    match IPTick cfg fuel s with
    | none => none
    | some s1 => IPTicks cfg fuel n s1

/-- The test of `IPFrameReschedule`, negated: the frame is put on the resend list.  The count
of the retries is the one before the call. -/
def reschedules (s : IPStack) (x : Nat) : Prop :=
  ∃ k, s.frame.socket x = some k ∧ s.socket.state k ≠ IP_UDP ∧
    (if s.frame.packet x TCP_FLAGS &&& (TCP_FLAGS_FIN ||| TCP_FLAGS_SYN) ≠ 0 then
      (s.frame.length x : Int) - TCP_DATA + 1 else (s.frame.length x : Int) - TCP_DATA) ≠ 0 ∧
    s.frame.retryCnt x + 1 ≤ 4

/-- The frame of the resend list is on the list after the loop of `IPTick`: its time is not
up, or it is sent and `IPFrameReschedule` puts it back. -/
def staysOnResend (s : IPStack) (x : Nat) : Prop :=
  s.frame.timeout x - 1 ≠ 0 ∨ reschedules s x

/-- The frame `f` of the socket `S` waits for an acknowledgement: the stack has a link-layer
function, the resend list holds the frames `R`, `f` among them and none of them the head of the
free list, the socket list holds the sockets `L`, none of which has a time that runs out
within `m` ticks, `S` is not a UDP socket and the frame has more than 54 bytes. -/
def Awaiting (fuel F f S : Nat) (R L : List Nat) (s : IPStack) (m : Int) : Prop :=
  s.FrameSendFunc = some F ∧ FrameList s FrameQueue.resend R ∧ R.length ≤ fuel ∧ f ∈ R ∧
  (∀ a ∈ R, s.FrameFreeHead ≠ some a) ∧
  IsChain s.socket.next s.SocketHead L ∧ L.length ≤ fuel ∧
  (∀ k ∈ L, s.socket.timeout k = 0 ∨ s.socket.timeout k > m) ∧
  s.frame.socket f = some S ∧ s.socket.state S ≠ IP_UDP ∧ 54 < s.frame.length f

instance (fuel F f S : Nat) (R L : List Nat) (s : IPStack) (m : Int) :
    Decidable (Awaiting fuel F f S R L s m) := by
  unfold Awaiting
  infer_instance

/-- The stack `smallStack` after `IPOpen(IP_MODE_TCP, 192.168.1.2, 80, NULL)`: the socket at the
address 20 has sent its SYN. -/
def clientStack : IPStack :=
  (IPOpen smallConfig smallStack (some 20) IP_MODE_TCP 0xC0A80102 80 none).1

/-- The stack `clientStack` after `IPWrite(socket, "AAA", 3)` and `IPWriteFlush(socket)`: a
segment with three bytes of data has been sent and waits on the resend list. -/
def writtenStack : IPStack :=
  IPWriteFlush smallConfig
    (((IPWrite smallConfig 8 clientStack 20 (fun _ => 0x41) 3).map (fun r => r.1)).getD
      clientStack) 20

/-- The stack `establishedStack` after eight calls of `IPTick` without a segment of the peer:
the time of the accepted socket 11, set to `RETRANSMIT_TIME * 3 = 9` when the connection was
accepted, has run down to 1. -/
def idleStack : IPStack := (IPTicks smallConfig 8 8 establishedStack).getD establishedStack

/-- The stack `idleStack` after `IPWrite(socket, "AAA", 3)` and `IPWriteFlush(socket)` on the
socket 11: a segment with three bytes of data has been sent in the frame 107 and waits on the
resend list. -/
def lateWrite : IPStack :=
  IPWriteFlush smallConfig
    (((IPWrite smallConfig 8 idleStack 11 (fun _ => 0x41) 3).map (fun r => r.1)).getD idleStack) 11

/-- The stack `lateWrite` after `n` calls of `IPTick`. -/
def lateTicks (n : Nat) : IPStack := (IPTicks smallConfig 8 n lateWrite).getD lateWrite

/-- The stack `establishedStack` when the frame 107 holds a segment of the peer with one byte of
data as it comes from the Ethernet: the IP length is 41, the frame has the 60 bytes of the
shortest Ethernet frame, the last five of them padding. -/
def paddedArrival : IPStack :=
  (receiveFrame smallConfig establishedStack
    (peerPacket (TCP_FLAGS_ACK ||| 8) 1001 0x12345a61 1) 60).1

/-- The statements of one iteration of `IPWrite` on a TCP socket before the flush: `bytes` bytes
of `Buf` are copied into the frame `g` behind the bytes that wait there, and `sendOffset` is
moved on. -/
def writeFill (s : IPStack) (Socket g : Nat) (Buf : Nat → Nat) (bytes : Nat) : IPStack :=
  let off : Int := s.socket.sendOffset Socket
  let s2 := { s with socket.sendOffset := upd s.socket.sendOffset Socket (off + bytes) }
  let packetOut := memcpy (s2.frame.packet g) (TCP_DATA + off).toNat Buf 0 bytes
  { s2 with frame.packet := upd s2.frame.packet g packetOut }

/-- The bytes that a socket has to send after a write of `Buf`, when `o` bytes wait in the
segment in progress: these bytes, then the bytes of the buffer. -/
def writeStream (pending : Nat → Nat) (o : Nat) (Buf : Nat → Nat) : Nat → Nat := fun i =>
  if i < o then pending (TCP_DATA + i) else Buf (i - o)

/-- The statements of an iteration of `IPWrite` for a socket without a segment in progress: a
frame is taken with `IPFrameGet(FRAME_COUNT_SEND)` and `sendOffset` is set to 0. -/
def writeTake (cfg : IPConfig) (s : IPStack) (Socket : Nat) : IPStack :=
  let r := IPFrameGet s cfg.FRAME_COUNT_SEND
  let s0 := { r.1 with socket.frameSend := upd r.1.socket.frameSend Socket r.2 }
  { s0 with socket.sendOffset := upd s0.socket.sendOffset Socket 0 }

/-- The frames that a write on the socket fills, in order: the frame of the segment in
progress, when there is one, then the frames `P` of the free list. -/
def sendFrames (s : IPStack) (Socket : Nat) (P : List Nat) : List Nat :=
  (s.socket.frameSend Socket).toList ++ P

/-- The bytes of the frame of the segment in progress (zeros without one). -/
def pendingBytes (s : IPStack) (Socket : Nat) : Nat → Nat :=
  match s.socket.frameSend Socket with
  | some g => s.frame.packet g
  | none => fun _ => 0

/-- The stack `dataScenario` after `IPProcessTCPPacket` has adopted the frame 107 with its three
bytes of data: the socket 11 is in the state TCP and the frame waits on its read queue. -/
def dataAdopted : IPStack :=
  ((IPProcessTCPPacket smallConfig 8 dataScenario none 107).map (fun r => r.1)).getD dataScenario

/-- The stack `dataAdopted` after the FIN of the peer has arrived in the frame 106 and has been
processed, and `IPMainThread` has freed its frame: the socket 11 is in the state FIN_CLIENT
and the frame 107 still waits on its read queue. -/
def finAfterData : IPStack :=
  FrameFree (((IPProcessTCPPacket smallConfig 8
    (receiveFrame smallConfig dataAdopted
      (peerPacket (TCP_FLAGS_FIN ||| TCP_FLAGS_ACK) 1004 0x12345a61 0) 54).1 none 106).map
    (fun r => r.1)).getD dataAdopted) 106

/-- Before `OS_Start`: the idle thread (address 1, priority 0) and the threads at the addresses
2, 3 and 4 with the priorities 1, 2 and 3 are created, in this order. -/
def fourThreads : Option Kernel :=
  (((OS_ThreadCreate 8 bootKernel 1 0).bind fun k => OS_ThreadCreate 8 k 2 1).bind
    fun k => OS_ThreadCreate 8 k 3 2).bind fun k => OS_ThreadCreate 8 k 4 3

/-- The threads and priorities met from the pointer given along `next`, at most `n` of them. -/
def priorityWalk (k : Kernel) : Nat → Option Nat → List (Nat × Nat)
  | 0, _ => []
  | _ + 1, none => []
  | n + 1, some a => (a, k.thread.priority a) :: priorityWalk k n (k.thread.next a)

/-- The `do ... while(Status)` loop of `OS_InterruptServiceRoutine`: for every set bit `i` of
`Status` the handler `Isr[i]` runs, if there is one (without one the interrupt is masked in the
hardware, which is not part of the kernel state).  `Isr i` is the effect of the handler on the
kernel state.  `Status` is a `uint32`, so 32 iterations are enough. -/
def isrLoop (Isr : Nat → Option (Kernel → Option Kernel)) : Nat → Nat → Nat → Kernel → Option Kernel
  | 0, _, _, _ => none
  | fuel + 1, i, Status, k =>
    let r :=
      if Status % 2 = 1 then
        match Isr i with
        | some handler => handler k
        | none => some k
      else some k
    match r with
    | none => none
    | some k1 => if Status / 2 ≠ 0 then isrLoop Isr fuel (i + 1) (Status / 2) k1 else some k1

/-- The function `OS_InterruptServiceRoutine(Status, Stack)`; `syscall` is the value of
`Stack && (Stack[STACK_EPC] & 1)`. -/
def OS_InterruptServiceRoutine (Isr : Nat → Option (Kernel → Option Kernel)) (k : Kernel)
    (Status : Nat) (syscall : Bool) : Option Kernel :=
  let k1 := { k with InterruptInside := 1 }
  let r :=
    if syscall then
      match Isr 31 with
      | some handler => handler k1
      | none => some k1
    else some k1
  match r with
  | none => none
  | some k2 =>
    match isrLoop Isr 32 0 Status k2 with
    | none => none
    | some k3 =>
      let k4 := { k3 with InterruptInside := 0 }
      if k4.ThreadNeedReschedule ≠ 0 then OS_ThreadReschedule k4 (k4.ThreadNeedReschedule &&& 1)
      else some k4

/-- A started kernel with the idle thread (1, priority 0) and the threads A (2) and B (3) of
priority 100: the ready list is B, A, idle and B runs. -/
def twoEqualKernel : Kernel :=
  ((((OS_ThreadCreate 8 bootKernel 1 0).bind fun k => OS_ThreadCreate 8 k 2 100).bind
    fun k => OS_ThreadCreate 8 k 3 100).bind OS_Start).getD bootKernel

/-- The interrupt table in which bit 3 has the tick handler `OS_ThreadTick` and no other bit has
a handler. -/
def tickIsr : Nat → Option (Kernel → Option Kernel) := fun i =>
  if i = 3 then some (OS_ThreadTick 8) else none

/-! ## The standard CRC-32 (IEEE 802.3), as the specification words it -/

/-- The word of `w` bits with the bits of `x` in reverse order. -/
def bitReverse : Nat → Nat → Nat
  | 0, _ => 0
  | w + 1, x => 2 ^ w * (x % 2) + bitReverse w (x / 2)

/-- One shift of the standard reflected CRC-32 register: shift right by one bit, and xor the
reflected polynomial `0xEDB88320` when the bit shifted out was set. -/
def stdCrcShift (crc : Nat) : Nat :=
  if crc % 2 = 1 then (crc >>> 1) ^^^ 0xEDB88320 else crc >>> 1

/-- The register after `k` shifts. -/
def stdCrcShifts : Nat → Nat → Nat
  | 0, crc => crc
  | k + 1, crc => stdCrcShift (stdCrcShifts k crc)

/-- The standard reflected CRC-32 update for one message byte: xor the byte into the low end of
the register, then shift eight times. -/
def stdCrcByte (crc byte : Nat) : Nat := stdCrcShifts 8 (crc ^^^ byte)

/-- The standard reflected CRC-32 register (initial value `0xFFFFFFFF`) after the first `n`
bytes of a message. -/
def stdCrcRegister (message : Nat → Nat) : Nat → Nat
  | 0 => 0xFFFFFFFF
  | n + 1 => stdCrcByte (stdCrcRegister message n) (message n)

/-- The standard CRC-32 of the first `n` bytes of a message: the register with the final xor
`0xFFFFFFFF`. -/
def stdCrc32 (message : Nat → Nat) (n : Nat) : Nat := stdCrcRegister message n ^^^ 0xFFFFFFFF

/-- One shift of the standard register with the message bit fed in separately. -/
def stdCrcBit (crc : Nat) (bit : Bool) : Nat :=
  if (crc.testBit 0 != bit) = true then (crc >>> 1) ^^^ 0xEDB88320 else crc >>> 1

/-- The standard register after the first `k` bits of a message byte, least significant bit
first. -/
def stdCrcBits (byte : Nat) : Nat → Nat → Nat
  | 0, crc => crc
  | k + 1, crc => stdCrcBit (stdCrcBits byte k crc) (byte.testBit k)

/-! ## DHCP options as a list -/

/-- The options area of a DHCP packet holds, from offset `ptr` on, the options of the list, each
as its code (not `DHCP_END_OPTION`), the number of its data bytes and the data bytes, and then
the end marker `DHCP_END_OPTION`; every option starts before `length`. -/
def dhcpOptionsAt (packet : Nat → Nat) (length : Int) : Nat → List (Nat × List Nat) → Prop
  | ptr, [] => packet ptr = DHCP_END_OPTION
  | ptr, option :: rest =>
    packet ptr = option.1 ∧ option.1 ≠ DHCP_END_OPTION ∧ (ptr : Int) < length ∧
      packet (ptr + 1) = option.2.length ∧
      (∀ i, i < option.2.length → packet (ptr + 2 + i) = option.2.getD i 0) ∧
      dhcpOptionsAt packet length (ptr + (option.2.length + 2)) rest

instance dhcpOptionsAt_dec (packet : Nat → Nat) (length : Int) :
    (ptr : Nat) → (options : List (Nat × List Nat)) →
      Decidable (dhcpOptionsAt packet length ptr options)
  | ptr, [] => inferInstanceAs (Decidable (packet ptr = DHCP_END_OPTION))
  | ptr, option :: rest =>
    have := dhcpOptionsAt_dec packet length (ptr + (option.2.length + 2)) rest
    inferInstanceAs (Decidable (packet ptr = option.1 ∧ option.1 ≠ DHCP_END_OPTION ∧
      (ptr : Int) < length ∧ packet (ptr + 1) = option.2.length ∧
      (∀ i, i < option.2.length → packet (ptr + 2 + i) = option.2.getD i 0) ∧
      dhcpOptionsAt packet length (ptr + (option.2.length + 2)) rest))

/-- A DHCP reply from the server 192.168.1.1 (MAC `00 11 22 33 44 55`) to the Plasma address:
it offers or acknowledges 192.168.1.42, the gateway address field is 0.0.0.0, and the options
are the message type `messageType`, the subnet mask 255.255.255.0, the router 192.168.1.1 and
the DNS server 8.8.8.8. -/
def dhcpReply (messageType : Nat) : Nat → Nat :=
  let p1 := memcpy (fun _ => 0) ETHERNET_SOURCE (listBytes [0x00, 0x11, 0x22, 0x33, 0x44, 0x55]) 0 6
  let p2 := memcpy p1 IP_SOURCE (listBytes [192, 168, 1, 1]) 0 4
  let p3 := memcpy p2 DHCP_YOUR_IP (listBytes [192, 168, 1, 42]) 0 4
  let p4 := memcpy p3 DHCP_SERVER_IP (listBytes [192, 168, 1, 1]) 0 4
  let p5 := memcpy p4 DHCP_CLIENT_ETHERNET ethernetAddressPlasma 0 6
  let p6 := memcpy p5 DHCP_MAGIC_COOKIE (listBytes [0x63, 0x82, 0x53, 0x63]) 0 4
  memcpy p6 (DHCP_MAGIC_COOKIE + 4)
    (listBytes [53, 1, messageType, 1, 4, 255, 255, 255, 0, 3, 4, 192, 168, 1, 1,
      6, 4, 8, 8, 8, 8, 0xff]) 0 22

/-- The stack after the DHCP discover was sent and the offer of 192.168.1.42 from 192.168.1.1
was answered with a request. -/
def dhcpRequested : IPStack :=
  IPDhcp smallConfig (IPDhcp smallConfig smallStack (fun _ => 0) 400 1) (dhcpReply DHCP_OFFER) 342 2

/-! ## DNS queries (`IPResolve`) -/

/-- The constant `DNS_ID`. -/
def DNS_ID : Nat := 0

/-- The constant `DNS_FLAGS`. -/
def DNS_FLAGS : Nat := 2

/-- The constant `DNS_NUM_QUESTIONS`. -/
def DNS_NUM_QUESTIONS : Nat := 4

/-- The constant `DNS_NUM_ANSWERS_RR`. -/
def DNS_NUM_ANSWERS_RR : Nat := 6

/-- The constant `DNS_NUM_AUTHORITY_RR`. -/
def DNS_NUM_AUTHORITY_RR : Nat := 8

/-- The constant `DNS_NUM_ADDITIONAL_RR`. -/
def DNS_NUM_ADDITIONAL_RR : Nat := 10

/-- The constant `DNS_QUESTIONS`. -/
def DNS_QUESTIONS : Nat := 12

/-- The constant `DNS_QUERY_TYPE_IP`. -/
def DNS_QUERY_TYPE_IP : Nat := 1

/-- The constant `DNS_QUERY_CLASS`. -/
def DNS_QUERY_CLASS : Nat := 1

/-- The constant `DNS_PORT`. -/
def DNS_PORT : Nat := 53

/-- The call `strncpy(dst + d, src, n)`: the characters of `src` up to its first zero byte, at
most `n` of them, and zero bytes for the rest of the `n` bytes. -/
def strncpy (dst : Nat → Nat) (d : Nat) (src : Nat → Nat) (n : Nat) : Nat → Nat :=
  fun i =>
    if d ≤ i ∧ i < d + n then
      if ∀ j, j < i - d + 1 → src j ≠ 0 then src (i - d) else 0
    else dst i

/-- The loop `for(i = 0; i < 100; ++i) if(ptr[i+1] == '.' || ptr[i+1] == 0) break;` of
`IPResolve` with `n` iterations left: the `i` at which it breaks, `none` when it runs to its
end. -/
def labelScan (buf : Nat → Nat) (ptr : Nat) : Nat → Nat → Option Nat
  | 0, _ => none
  | n + 1, i =>
    if buf (ptr + (i + 1)) = 0x2e ∨ buf (ptr + (i + 1)) = 0 then some i
    else labelScan buf ptr n (i + 1)

/-- The loop `while(ptr[0])` of `IPResolve`: every iteration stores the length of the label
that follows in `ptr[0]` and moves `ptr` behind the label.  When the inner loop finds no end of
the label within 100 characters, the iteration changes nothing and the loop goes on. -/
def labelLoop : Nat → (Nat → Nat) → Nat → Option ((Nat → Nat) × Nat)
  | 0, _, _ => none
  | fuel + 1, buf, ptr =>
    if buf ptr ≠ 0 then
      match labelScan buf ptr 100 0 with
      | some i => labelLoop fuel (upd buf ptr (i % 256)) (ptr + (i + 1))
      | none => labelLoop fuel buf ptr
    else some (buf, ptr)

/-- The query that `IPResolve` builds in `buf` for the name `Name` (a string that ends with a
zero byte), and the length that it passes to `IPWrite`. -/
def resolveQuery (fuel : Nat) (Name : Nat → Nat) : Option ((Nat → Nat) × Nat) :=
  let buf0 := memset (fun _ => 0) 0 0 200
  let buf1 := upd buf0 (DNS_ID + 1) 1
  let buf2 := upd buf1 DNS_FLAGS 1
  let buf3 := upd buf2 (DNS_NUM_QUESTIONS + 1) 1
  let ptr := DNS_QUESTIONS
  let buf4 := strncpy buf3 (ptr + 1) Name 100
  let buf5 := upd buf4 ptr 1
  match labelLoop fuel buf5 ptr with
  | none => none
  | some (buf6, ptr1) =>
    let ptr2 := ptr1 + 1
    let buf7 := upd buf6 (ptr2 + 1) DNS_QUERY_TYPE_IP
    let buf8 := upd buf7 (ptr2 + 3) DNS_QUERY_CLASS
    let length := ptr2 + 4
    some (buf8, if length < 60 then 60 else length)

/-- The function `IPResolve(Name, resolvedFunc)` up to the end of its call of `IPWrite`: the
state and the count that `IPWrite` returns.  `malloc` is the result of the `malloc` of `IPOpen`
and `DnsCallback` the address of that function; a `NULL` socket is dereferenced (`none`).  The
wait for the answer that follows when `FrameSendFunc` is `NULL` depends on the other threads and
is not part of the model. -/
def IPResolve (cfg : IPConfig) (fuel : Nat) (s : IPStack) (malloc : Option Nat)
    (Name : Nat → Nat) (DnsCallback : Nat) (resolvedFunc : Option Nat) : Option (IPStack × Nat) :=
  match IPOpen cfg s malloc IP_MODE_UDP s.ipAddressDns DNS_PORT (some DnsCallback) with
  | (_, none) => none
  | (s1, some socket) =>
    match resolveQuery fuel Name with
    | none => none
    | some (buf, length) =>
      let s2 := { s1 with socket.userFunc := upd s1.socket.userFunc socket resolvedFunc }
      let s3 := { s2 with socket.userData := upd s2.socket.userData socket 0 }
      IPWrite cfg fuel s3 socket buf length

/-- The name with the labels given, separated by `.`. -/
def dottedName : List (List Nat) → List Nat
  | [] => []
  | [label] => label
  | label :: rest => label ++ 0x2e :: dottedName rest

/-- The labels in the form of a DNS message: each label as its length and its characters. -/
def encodedLabels : List (List Nat) → List Nat
  | [] => []
  | label :: rest => label.length :: label ++ encodedLabels rest

/-- The characters of `www.plasma.org`. -/
def plasmaName : List (List Nat) :=
  [[0x77, 0x77, 0x77], [0x70, 0x6c, 0x61, 0x73, 0x6d, 0x61], [0x6f, 0x72, 0x67]]

/-- Scenario: a semaphore (address 1) is created with count 0; the idle thread (1, priority 0)
and the threads M (2, priority 10), A (3, priority 100) and B (4, priority 200) are created and
the kernel is started.  B pends on the semaphore without timeout (`OS_WAIT_FOREVER` being -1),
then A pends on it with a timeout of one tick; M runs. -/
def sortedWaiters : Kernel :=
  (((((((OS_ThreadCreate 8 (OS_SemaphoreCreate bootKernel 1 0) 1 0).bind
    fun k => OS_ThreadCreate 8 k 2 10).bind fun k => OS_ThreadCreate 8 k 3 100).bind
    fun k => OS_ThreadCreate 8 k 4 200).bind
    OS_Start).bind fun k => (OS_SemaphorePend (-1) 8 k 1 (-1)).map Prod.fst).bind
    fun k => (OS_SemaphorePend (-1) 8 k 1 1).map Prod.fst).getD bootKernel

/-- The function `OS_ThreadExit()` called by the running thread.  The heap and `NeedToFree` are
not part of the kernel state: of the first four statements only the pend and the post of
`SemaphoreLock` are modelled.  When the caller is switched out inside the pend or the post, the
result is the state at that point. -/
def OS_ThreadExit (WAIT_FOREVER : Int) (fuel : Nat) (k : Kernel) (SemaphoreLock : Nat) :
    Option Kernel :=
  match k.ThreadCurrent with
  | none => none
  | some thread =>
    match OS_SemaphorePend WAIT_FOREVER fuel k SemaphoreLock WAIT_FOREVER with
    | none => none
    | some (k1, .suspended) => some k1
    | some (k1, .returned _) =>
      match OS_SemaphorePost fuel k1 SemaphoreLock with
      | none => none
      | some k2 =>
        if k2.ThreadCurrent = some thread then
          OS_ThreadReschedule (OS_ThreadPriorityRemove k2 .ready thread) 0
        else some k2

/-- The ready list holds the threads `R` and the waiter list of every semaphore `s` of `sems`
holds the threads `Wof s`. -/
def Kernel.Chains (k : Kernel) (sems : List Nat) (R : List Nat) (Wof : Nat → List Nat) : Prop :=
  k.ReadyList R ∧ ∀ s ∈ sems, k.WaiterList s (Wof s)

/-- No thread is on the ready list and on a waiter list, or on the waiter lists of two
semaphores. -/
def ListsDisjoint (sems : List Nat) (R : List Nat) (Wof : Nat → List Nat) : Prop :=
  (∀ s ∈ sems, ∀ u ∈ Wof s, u ∉ R) ∧
  ∀ s ∈ sems, ∀ s' ∈ sems, s ≠ s' → ∀ u ∈ Wof s, u ∉ Wof s'

/-- The threads of the ready list are not in state `THREAD_PEND`, the threads of the waiter
lists are. -/
def Kernel.States (k : Kernel) (sems : List Nat) (R : List Nat) (Wof : Nat → List Nat) : Prop :=
  (∀ u ∈ R, k.thread.state u ≠ THREAD_PEND) ∧
  ∀ s ∈ sems, ∀ u ∈ Wof s, k.thread.state u = THREAD_PEND

/-- The lists of the kernel are well formed: the ready list is `R`, the waiter list of every
semaphore `s` of `sems` is `Wof s`, no thread is on two lists, and the state of a thread is
`THREAD_PEND` on a waiter list and another state on the ready list. -/
def Kernel.WellFormed (k : Kernel) (sems : List Nat) (R : List Nat) (Wof : Nat → List Nat) :
    Prop :=
  k.Chains sems R Wof ∧ ListsDisjoint sems R Wof ∧ k.States sems R Wof

instance (k : Kernel) (sems : List Nat) (R : List Nat) (Wof : Nat → List Nat) :
    Decidable (k.WellFormed sems R Wof) := by
  unfold Kernel.WellFormed Kernel.Chains ListsDisjoint Kernel.States
  infer_instance

/-- The thread `u` is on the ready list or on a waiter list. -/
def OnList (sems : List Nat) (R : List Nat) (Wof : Nat → List Nat) (u : Nat) : Prop :=
  u ∈ R ∨ ∃ s ∈ sems, u ∈ Wof s

instance (sems : List Nat) (R : List Nat) (Wof : Nat → List Nat) (u : Nat) :
    Decidable (OnList sems R Wof u) := by
  unfold OnList
  infer_instance

/-- The property of the thread `u`: its state is `THREAD_PEND` if and only if it is on the
waiter list of a semaphore, and it is not on the waiter lists of two semaphores. -/
def Kernel.PendIffWaiting (k : Kernel) (sems : List Nat) (Wof : Nat → List Nat) (u : Nat) :
    Prop :=
  (k.thread.state u = THREAD_PEND ↔ ∃ s ∈ sems, u ∈ Wof s) ∧
  ∀ s ∈ sems, ∀ s' ∈ sems, u ∈ Wof s → u ∈ Wof s' → s = s'

instance (k : Kernel) (sems : List Nat) (Wof : Nat → List Nat) (u : Nat) :
    Decidable (k.PendIffWaiting sems Wof u) := by
  unfold Kernel.PendIffWaiting
  infer_instance

/-- The state `sortedWaiters` with a second semaphore (address 2) of count 1, which serves as
`SemaphoreLock`. -/
def lockedWaiters : Kernel := OS_SemaphoreCreate sortedWaiters 2 1

/-- The waiter lists of `lockedWaiters`: B and A wait for semaphore 1, no thread waits for
semaphore 2. -/
def lockedWaitersOf : Nat → List Nat := fun s => if s = 1 then [4, 3] else []

/-- The stack `smallStack` after `IPResolve("www.plasma.org", NULL)` has sent its query, with
the socket of the query at the address 20. -/
def dnsSent : IPStack :=
  ((IPResolve smallConfig 101 smallStack (some 20) (listBytes (dottedName plasmaName)) 7
    none).map (fun r => r.1)).getD smallStack

/-! ### The resend list and `seqReceived` -/

/-- The frame `F` ends beyond what its socket has had acknowledged: for the socket `S` with
`F->socket == S`, if `S` is in the state `IP_TCP` then `(int)(S->seqReceived - F->seqEnd) < 0`,
which is the comparison of the loop of `IPProcessTCPPacket` over the resend list, negated. -/
def frameAhead (s : IPStack) (F : Nat) : Prop :=
  ∀ S ∈ s.frame.socket F, s.socket.state S = IP_TCP →
    tickDiff (s.socket.seqReceived S) (s.frame.seqEnd F) < 0

instance (s : IPStack) (F : Nat) : Decidable (frameAhead s F) :=
  inferInstanceAs (Decidable (∀ S ∈ s.frame.socket F, _))

/-- Every frame of the list `R` ends beyond what its socket has had acknowledged. -/
def ResendAhead (s : IPStack) (R : List Nat) : Prop :=
  ∀ F ∈ R, frameAhead s F

instance (s : IPStack) (R : List Nat) : Decidable (ResendAhead s R) :=
  inferInstanceAs (Decidable (∀ F ∈ R, _))

/-- The stack `establishedStack` when the frame 107 holds an acknowledgement of the peer whose
number is 100 beyond the sequence number of the socket 11. -/
def overAck : IPStack :=
  (receiveFrame smallConfig establishedStack
    (peerPacket TCP_FLAGS_ACK 1001 (0x12345a61 + 100) 0) 54).1

/-- The stack `overAck` after `IPProcessTCPPacket` has processed the frame 107 and
`IPMainThread` has freed it. -/
def overAcked : IPStack :=
  FrameFree (((IPProcessTCPPacket smallConfig 8 overAck none 107).map
    (fun r => r.1)).getD overAck) 107

/-- The stack `overAcked` after the application has written three bytes to the socket 11 with
`IPWrite` and has called `IPWriteFlush`. -/
def overSent : IPStack :=
  IPWriteFlush smallConfig
    (((IPWrite smallConfig 8 overAcked 11 (fun _ => 0x41) 3).map (fun r => r.1)).getD
      overAcked) 11

/-- The queues of the stack are well formed: the resend list holds the frames `R`, the send
queue the frames `T`, the free list the frames `Fr`, the socket list the sockets `L` and the
read queue of a socket `k` of the list the frames `Qof k`; no frame is on two of these lists;
`fuel` bounds the walks over the lists. -/
def QueuesWellFormed (s : IPStack) (fuel : Nat) (R T Fr L : List Nat) (Qof : Nat → List Nat) :
    Prop :=
  FrameList s FrameQueue.resend R ∧ FrameList s FrameQueue.send T ∧
  IsChain s.frame.next s.FrameFreeHead Fr ∧ IsChain s.socket.next s.SocketHead L ∧
  R.length ≤ fuel ∧ T.length < fuel ∧ L.length ≤ fuel ∧
  (∀ f ∈ Fr, f ∉ R ∧ f ∉ T) ∧ (∀ f ∈ T, f ∉ R) ∧
  ∀ k ∈ L, FrameList s (FrameQueue.read k) (Qof k) ∧ (Qof k).length ≤ fuel ∧
    ∀ f ∈ Qof k, f ∉ R ∧ f ∉ T ∧ f ∉ Fr

instance (s : IPStack) (fuel : Nat) (R T Fr L : List Nat) (Qof : Nat → List Nat) :
    Decidable (QueuesWellFormed s fuel R T Fr L Qof) :=
  inferInstanceAs (Decidable (_ ∧ _))

/-! ## Heaps (`trunk/kernel/rtos.c`)

The heap functions of `rtos.c`, for the 32-bit target: a pointer has 4 bytes, `HeapNode_t` has
8 bytes (`next`, `size`) and `struct OS_Heap_s` has 28 bytes, with `available` at the offset 12,
`base` at the offset 16 and `alternate` at the offset 24.

* A node is named by its byte address, a `uint32`; `NULL` is 0.  Memory is kept field by field:
  `next a` and `size a` are the fields of the node at the address `a`, the node `base` of the
  heap at the address `h` being the node at `h + 16`; `magic`, `available` and `alternate` are
  the fields of a heap.  Pointer arithmetic is modulo `2^32`, in units of 8 bytes.
* The calls of `OS_SemaphorePend` and `OS_SemaphorePost` on the semaphore of the heap, which
  make the body of a heap function one atomic step, and the fields `name` and `semaphore` are
  not part of the state.
* The loops over the free list take a `fuel` bound on the number of iterations, and the call
  of `OS_HeapMalloc` for the alternate heap a bound on the depth of the recursion.
-/

/-- The constant `HEAP_MAGIC`. -/
def HEAP_MAGIC : Nat := 0x1234abcd

/-- The constant `HEAP_COUNT`. -/
def HEAP_COUNT : Int := 8

/-- The value of `sizeof(HeapNode_t)`. -/
def sizeofHeapNode : Nat := 8

/-- The value of `sizeof(OS_Heap_t)`. -/
def sizeofHeap : Nat := 28

/-- The offset of the field `base` in `struct OS_Heap_s`. -/
def heapBaseOffset : Nat := 16

/-- The heap memory: the fields of the nodes and of the heaps, each by address, and the array
`HeapArray`, by index. -/
structure HeapMemory where
  next : Nat → Nat
  size : Nat → Int
  magic : Nat → Nat
  available : Nat → Nat
  alternate : Nat → Nat
  HeapArray : Int → Nat

/-- The pointer `node + n` for a `HeapNode_t *node`. -/
def nodeAdd (node : Nat) (n : Int) : Nat := toUInt32 ((node : Int) + sizeofHeapNode * n)

/-- The address `&heap->base`. -/
def heapBase (heap : Nat) : Nat := heap + heapBaseOffset

/-- The function `OS_HeapCreate(Name, Memory, Size)`: the memory after it; the heap returned is
`Memory`. -/
def OS_HeapCreate (m : HeapMemory) (Memory Size : Nat) : HeapMemory :=
  let heap := Memory
  let m1 := { m with magic := upd m.magic heap HEAP_MAGIC }
  let m2 := { m1 with available := upd m1.available heap (toUInt32 (heap + sizeofHeap)) }
  let m3 := { m2 with next := upd m2.next (m2.available heap) (heapBase heap) }
  let size : Int := toInt32 (toUInt32 ((Size : Int) - sizeofHeap) / sizeofHeapNode : Nat)
  let m4 := { m3 with size := upd m3.size (m3.available heap) size }
  let m5 := { m4 with next := upd m4.next (heapBase heap) (m4.available heap) }
  { m5 with size := upd m5.size (heapBase heap) 0 }

/-- The function `OS_HeapRegister(Index, Heap)`. -/
def OS_HeapRegister (m : HeapMemory) (Index Heap : Nat) : HeapMemory :=
  if toInt32 Index < HEAP_COUNT then
    { m with HeapArray := fun i => if i = toInt32 Index then Heap else m.HeapArray i }
  else m

/-- The value of `nunits` in `OS_HeapMalloc`:
`(Bytes + sizeof(HeapNode_t) - 1) / sizeof(HeapNode_t) + 1`, computed in `uint32` and stored
in an `int`. -/
def heapUnits (Bytes : Int) : Int :=
  toInt32 (toUInt32 (toUInt32 (toUInt32 Bytes + sizeofHeapNode) - 1) / sizeofHeapNode + 1 : Nat)

/-- The statements of `OS_HeapMalloc` for a node that is big enough: the memory after them and
the pointer returned. -/
def heapAllocate (m : HeapMemory) (Heap prevp node : Nat) (nunits : Int) : HeapMemory × Nat :=
  let r : HeapMemory × Nat :=
    if m.size node = nunits then
      ({ m with next := upd m.next prevp (m.next node) }, node)
    else
      let m0 := { m with size := upd m.size node (m.size node - nunits) }
      let node1 := nodeAdd node (m0.size node)
      ({ m0 with size := upd m0.size node1 nunits }, node1)
  let m2 := { r.1 with available := upd r.1.available Heap prevp }
  let m3 := { m2 with next := upd m2.next r.2 Heap }
  (m3, nodeAdd r.2 1)

/-- The loop of `OS_HeapMalloc`, from `prevp` and `node`: `some (some r)` when a node is big
enough, `some none` when the loop has wrapped around the free list. -/
def mallocLoop (m : HeapMemory) (Heap : Nat) (nunits : Int) :
    Nat → Nat → Nat → Option (Option (HeapMemory × Nat))
  | 0, _, _ => none
  | fuel + 1, prevp, node =>
    if m.size node ≥ nunits then some (some (heapAllocate m Heap prevp node nunits))
    else if node = m.available Heap then some none
    else mallocLoop m Heap nunits fuel node (m.next node)

/-- The function `OS_HeapMalloc(Heap, Bytes)`: the memory after it and the pointer returned.
`depth` bounds the calls for alternate heaps. -/
def OS_HeapMalloc (fuel : Nat) : Nat → HeapMemory → Nat → Int → Option (HeapMemory × Nat)
  | 0, _, _, _ => none
  | depth + 1, m, Heap, Bytes =>
    let Heap1 := if toInt32 Heap < HEAP_COUNT then m.HeapArray (toInt32 Heap) else Heap
    let nunits := heapUnits Bytes
    let prevp := m.available Heap1
    match mallocLoop m Heap1 nunits fuel prevp (m.next prevp) with
    | none => none
    | some (some r) => some r
    | some none =>
      if m.alternate Heap1 ≠ 0 then OS_HeapMalloc fuel depth m (m.alternate Heap1) Bytes
      else some (m, 0)

/-- The loop of `OS_HeapFree`: the node after which the block `bp` goes. -/
def freeLoop (m : HeapMemory) (bp : Nat) : Nat → Nat → Option Nat
  | 0, _ => none
  | fuel + 1, node =>
    if node < bp ∧ bp < m.next node then some node
    else if node ≥ m.next node ∧ (bp > node ∨ bp < m.next node) then some node
    else freeLoop m bp fuel (m.next node)

/-- The function `OS_HeapFree(Block)`. -/
def OS_HeapFree (fuel : Nat) (m : HeapMemory) (Block : Nat) : Option HeapMemory :=
  let bp := nodeAdd Block (-1)
  let heap := m.next bp
  if m.magic heap ≠ HEAP_MAGIC then some m
  else
    match freeLoop m bp fuel (m.available heap) with
    | none => none
    | some node =>
      let m1 :=
        if nodeAdd bp (m.size bp) = m.next node then
          let m0 := { m with size := upd m.size bp (m.size bp + m.size (m.next node)) }
          { m0 with next := upd m0.next bp (m0.next (m0.next node)) }
        else { m with next := upd m.next bp (m.next node) }
      let m2 :=
        if nodeAdd node (m1.size node) = bp then
          let m0 := { m1 with size := upd m1.size node (m1.size node + m1.size bp) }
          { m0 with next := upd m0.next node (m0.next bp) }
        else { m1 with next := upd m1.next node bp }
      some { m2 with available := upd m2.available heap node }

/-- The function `OS_HeapAlternate(Heap, Alternate)`. -/
def OS_HeapAlternate (m : HeapMemory) (Heap Alternate : Nat) : HeapMemory :=
  { m with alternate := upd m.alternate Heap Alternate }

/-! ### Well-formed heaps -/

/-- Following `next` from the node `p` visits the nodes `W`, in order. -/
def HeapPath (m : HeapMemory) : Nat → List Nat → Prop
  | _, [] => True
  | p, w :: l => m.next p = w ∧ HeapPath m w l

instance HeapPath_dec (m : HeapMemory) : ∀ (p : Nat) (W : List Nat), Decidable (HeapPath m p W)
  | _, [] => isTrue trivial
  | _, w :: l => @instDecidableAnd _ _ _ (HeapPath_dec m w l)

/-- The end of the free block at the node `b`: the address `b + size`, as an integer. -/
def blockEnd (m : HeapMemory) (b : Nat) : Int := (b : Int) + sizeofHeapNode * m.size b

/-- The free blocks `B` are in the order of their addresses, each one strictly beyond the
address `lo` and beyond the end of the block before it, so that no two of them are adjacent;
each has at least one unit and ends below `2^32`. -/
def HeapOrdered (m : HeapMemory) : Int → List Nat → Prop
  | _, [] => True
  | lo, b :: l =>
    lo < b ∧ 1 ≤ m.size b ∧ blockEnd m b < 4294967296 ∧ HeapOrdered m (blockEnd m b) l

instance HeapOrdered_dec (m : HeapMemory) :
    ∀ (lo : Int) (B : List Nat), Decidable (HeapOrdered m lo B)
  | _, [] => isTrue trivial
  | _, b :: l =>
    @instDecidableAnd _ _ _ (@instDecidableAnd _ _ _
      (@instDecidableAnd _ _ _ (HeapOrdered_dec m (blockEnd m b) l)))

/-- The heap at the address `Heap` is well formed, with the free blocks `B`: the magic number
is in place, the node `base` has the size 0, the free list is circular (following `next` from
`base` visits the blocks `B` and comes back to `base`), the blocks are in the order of their
addresses beyond `base` with no two of them adjacent, and `available` is a node of the list. -/
def HeapWellFormed (m : HeapMemory) (Heap : Nat) (B : List Nat) : Prop :=
  m.magic Heap = HEAP_MAGIC ∧ m.size (heapBase Heap) = 0 ∧
  HeapPath m (heapBase Heap) (B ++ [heapBase Heap]) ∧
  HeapOrdered m (heapBase Heap) B ∧ m.available Heap ∈ heapBase Heap :: B

instance (m : HeapMemory) (Heap : Nat) (B : List Nat) : Decidable (HeapWellFormed m Heap B) :=
  inferInstanceAs (Decidable (_ ∧ _))

/-- The node at which a walk from `p` over the nodes `W` ends. -/
def pathEnd : Nat → List Nat → Nat
  | p, [] => p
  | _, w :: l => pathEnd w l

/-- The number of free units of the blocks `B`. -/
def freeUnits (m : HeapMemory) (B : List Nat) : Int := (B.map m.size).sum

/-- The block of `n` units at the node `a` and the free block at the node `b` do not
overlap. -/
def blockApart (m : HeapMemory) (a : Nat) (n : Int) (b : Nat) : Prop :=
  (a : Int) + sizeofHeapNode * n ≤ b ∨ blockEnd m b ≤ a

instance (m : HeapMemory) (a : Nat) (n : Int) (b : Nat) : Decidable (blockApart m a n b) :=
  inferInstanceAs (Decidable (_ ∨ _))

/-- A memory in which nothing is set. -/
def emptyHeapMemory : HeapMemory :=
  { next := fun _ => 0, size := fun _ => 0, magic := fun _ => 0, available := fun _ => 0,
    alternate := fun _ => 0, HeapArray := fun _ => 0 }

/-- The memory after `OS_HeapCreate("Default", 4096, 1024)` and `OS_HeapRegister(0, heap)`, as
`OS_Init` calls them: one free block of 124 units at the address 4124. -/
def smallHeap : HeapMemory :=
  OS_HeapRegister (OS_HeapCreate emptyHeapMemory 4096 1024) 0 4096

/-- The memory `smallHeap` after a call `OS_HeapMalloc(NULL, 20)`: the block of 4 units at the
node 5084 is allocated, and the free block at the address 4124 has 120 units. -/
def usedHeap : HeapMemory :=
  ((OS_HeapMalloc 4 1 smallHeap 0 20).map (fun r => r.1)).getD smallHeap

/-! ## Lists with null back links

The head branch of `OS_ThreadPriorityInsert` does not set the back link of the old head, so the
back link of a thread of a list is its predecessor or `NULL`. -/

/-- The list that `OS_ThreadPriorityRemove(head, t)` leaves of the list `l1 ++ t :: l2`: with
the back link of `t` in place it is `l1 ++ l2`; with a null back link the function sets the head
to `t->next`, so that the threads `l1` in front of `t` are no longer on the list. -/
def Kernel.listWithout (k : Kernel) (t : Nat) (l1 l2 : List Nat) : List Nat :=
  if k.thread.prev t = none then l2 else l1 ++ l2

/-- The back link of every thread of the list `l` is `NULL` or its predecessor (`pp` for the
first thread). -/
def Kernel.BackLinks (k : Kernel) : Option Nat → List Nat → Prop
  | _, [] => True
  | pp, a :: l => (k.thread.prev a = none ∨ k.thread.prev a = pp) ∧ Kernel.BackLinks k (some a) l

instance Kernel.BackLinks_dec (k : Kernel) :
    (pp : Option Nat) → (l : List Nat) → Decidable (k.BackLinks pp l)
  | _, [] => inferInstanceAs (Decidable True)
  | pp, a :: l =>
    have := Kernel.BackLinks_dec k (some a) l
    inferInstanceAs (Decidable ((k.thread.prev a = none ∨ k.thread.prev a = pp) ∧
      Kernel.BackLinks k (some a) l))

/-- The thread `u` waits off the list `R`: it pends on a semaphore, it is not on `R`, and its
back link is `NULL` or names a thread that is not on `R` and whose forward link is `u`. -/
def Kernel.WaitsOff (k : Kernel) (R : List Nat) (u : Nat) : Prop :=
  k.thread.semaphorePending u ≠ none ∧ u ∉ R ∧
  ∀ p ∈ k.thread.prev u, p ∉ R ∧ k.thread.next p = some u

instance (k : Kernel) (R : List Nat) (u : Nat) : Decidable (k.WaitsOff R u) := by
  unfold Kernel.WaitsOff
  infer_instance

/-- The thread `u` is clear of the semaphore `s` and of the thread `t`: it does not pend on `s`,
and neither of its links names `t`. -/
def Kernel.ClearOf (k : Kernel) (s t u : Nat) : Prop :=
  k.thread.semaphorePending u ≠ some s ∧ k.thread.prev u ≠ some t ∧ k.thread.next u ≠ some t

instance (k : Kernel) (s t u : Nat) : Decidable (k.ClearOf s t u) := by
  unfold Kernel.ClearOf
  infer_instance

/-- Thread `t` is pended on semaphore `s` with the timeout tick `timeout`: the count of `s` is
-1, `t` is the only waiter of `s` and in state `THREAD_PEND`, the timeout list holds `t` behind
the threads `T1` and in front of the threads `T2`, and the ready list holds the threads `R`
(not `t`, and at least one thread). -/
def Kernel.Pending (k : Kernel) (s t : Nat) (timeout : Nat) (R T1 T2 : List Nat) : Prop :=
  k.semaphore.count s = -1 ∧ k.WaiterList s [t] ∧ k.thread.prev t = none ∧
  k.TimeoutList (T1 ++ t :: T2) ∧ k.thread.semaphorePending t = some s ∧
  k.thread.ticksTimeout t = timeout ∧ k.ReadyList R ∧ t ∉ R ∧ R ≠ [] ∧
  k.thread.state t = THREAD_PEND

/-- Scenario: three semaphores (addresses 1, 2, 3) are created with count 0; the idle thread
(1, priority 0), A (2, priority 100), B (3, priority 200) and C (4, priority 150) are created
and the kernel is started.  B pends on semaphore 2 with a timeout of 2 ticks, then C pends on
semaphore 3 with a timeout of 5 ticks; A runs, the ready list is A, idle and the timeout list
is B, C. -/
def timedKernel : Kernel :=
  (((((((OS_ThreadCreate 8
    (OS_SemaphoreCreate (OS_SemaphoreCreate (OS_SemaphoreCreate bootKernel 1 0) 2 0) 3 0) 1 0).bind
    fun k => OS_ThreadCreate 8 k 2 100).bind fun k => OS_ThreadCreate 8 k 3 200).bind
    fun k => OS_ThreadCreate 8 k 4 150).bind
    OS_Start).bind fun k => (OS_SemaphorePend (-1) 8 k 2 2).map Prod.fst).bind
    fun k => (OS_SemaphorePend (-1) 8 k 3 5).map Prod.fst).getD bootKernel

/-- Thread `t` is pended on semaphore `s` with the timeout tick `timeout` (`Kernel.Pending`), every
other thread of the timeout list waits off the ready list and is clear of `s` and `t`, and the
timeout of `t` comes after the timeouts of the threads `T1` in front of it. -/
def Kernel.PendingApart (k : Kernel) (s t : Nat) (timeout : Nat) (R T1 T2 : List Nat) : Prop :=
  k.Pending s t timeout R T1 T2 ∧
  (∀ u ∈ T1 ++ T2, k.WaitsOff R u ∧ k.ClearOf s t u) ∧
  ∀ u ∈ T1, 0 < tickDiff timeout (k.thread.ticksTimeout u)

/-- Scenario: a semaphore (address 1) is created with count 0; the idle thread (1, priority 0)
and the threads M (2, priority 10), A (3) and B (4), both of priority 100, are created and the
kernel is started.  B, which runs first, pends on the semaphore with a timeout of one tick; then
A pends on it without timeout (`OS_WAIT_FOREVER` being -1) and is linked in front of B, whose
back link stays `NULL`; M runs. -/
def staleWaiters : Kernel :=
  (((((((OS_ThreadCreate 8 (OS_SemaphoreCreate bootKernel 1 0) 1 0).bind
    fun k => OS_ThreadCreate 8 k 2 10).bind fun k => OS_ThreadCreate 8 k 3 100).bind
    fun k => OS_ThreadCreate 8 k 4 100).bind
    OS_Start).bind fun k => (OS_SemaphorePend (-1) 8 k 1 1).map Prod.fst).bind
    fun k => (OS_SemaphorePend (-1) 8 k 1 (-1)).map Prod.fst).getD bootKernel

/-! # Properties

## Lists in memory -/

theorem IsSeg_append {nx : Nat → Option Nat} {l1 l2 : List Nat} {p m q : Option Nat}
    (h1 : IsSeg nx p l1 m) (h2 : IsSeg nx m l2 q) : IsSeg nx p (l1 ++ l2) q := by
  induction l1 generalizing p with
  | nil => simp only [IsSeg] at h1; subst h1; simpa using h2
  | cons a l ih => exact ⟨h1.1, ih h1.2⟩

theorem IsSeg_split {nx : Nat → Option Nat} {l1 l2 : List Nat} {p q : Option Nat}
    (h : IsSeg nx p (l1 ++ l2) q) : ∃ m, IsSeg nx p l1 m ∧ IsSeg nx m l2 q := by
  induction l1 generalizing p with
  | nil => exact ⟨p, rfl, by simpa using h⟩
  | cons a l ih =>
    obtain ⟨m, hm1, hm2⟩ := ih h.2
    exact ⟨m, ⟨h.1, hm1⟩, hm2⟩

theorem IsSeg_congr {nx nx' : Nat → Option Nat} {l : List Nat} {p q : Option Nat}
    (h : IsSeg nx p l q) (hnx : ∀ a ∈ l, nx' a = nx a) : IsSeg nx' p l q := by
  induction l generalizing p with
  | nil => exact h
  | cons a l ih =>
    refine ⟨h.1, ?_⟩
    rw [hnx a (List.mem_cons_self a l)]
    exact ih h.2 (fun b hb => hnx b (List.mem_cons_of_mem a hb))

/-- The chain from a pointer is unique. -/
theorem IsChain_unique {nx : Nat → Option Nat} {l1 l2 : List Nat} {p : Option Nat}
    (h1 : IsChain nx p l1) (h2 : IsChain nx p l2) : l1 = l2 := by
  induction l1 generalizing p l2 with
  | nil =>
    cases l2 with
    | nil => rfl
    | cons b l2 =>
      simp only [IsChain, IsSeg] at h1 h2
      rw [h1] at h2
      exact absurd h2.1 (by simp)
  | cons a l ih =>
    cases l2 with
    | nil =>
      simp only [IsChain, IsSeg] at h1 h2
      rw [h2] at h1
      exact absurd h1.1 (by simp)
    | cons b l2 =>
      have hab : a = b := by
        have := h1.1.symm.trans h2.1
        simpa using this
      subst hab
      rw [ih h1.2 h2.2]

/-- A chain that ends at `NULL` visits no node twice. -/
theorem IsChain_nodup {nx : Nat → Option Nat} {l : List Nat} {p : Option Nat}
    (h : IsChain nx p l) : l.Nodup := by
  induction l generalizing p with
  | nil => exact List.nodup_nil
  | cons a l ih =>
    refine List.nodup_cons.mpr ⟨?_, ih h.2⟩
    intro hmem
    obtain ⟨l1, l2, hl⟩ := List.append_of_mem hmem
    have h2 : IsChain nx (nx a) (l1 ++ a :: l2) := hl ▸ h.2
    obtain ⟨m, _, hm2⟩ := IsSeg_split h2
    have h3 : IsChain nx (some a) (a :: l2) := by
      have hm : m = some a := hm2.1
      rw [← hm]; exact hm2
    have h4 : IsChain nx (some a) (a :: l) := ⟨rfl, h.2⟩
    have h5 := IsChain_unique h3 h4
    have h6 : l2.length = l.length := by
      have := congrArg List.length h5
      simpa using this
    rw [hl] at h6
    simp at h6
    omega

theorem IsDChain_isChain {nx pv : Nat → Option Nat} {l : List Nat} {pp p : Option Nat}
    (h : IsDChain nx pv pp p l) : IsChain nx p l := by
  induction l generalizing pp p with
  | nil => exact h
  | cons a l ih => exact ⟨h.1, ih h.2.2⟩

theorem IsDChain_congr {nx nx' pv pv' : Nat → Option Nat} {l : List Nat} {pp p : Option Nat}
    (h : IsDChain nx pv pp p l) (hnx : ∀ a ∈ l, nx' a = nx a) (hpv : ∀ a ∈ l, pv' a = pv a) :
    IsDChain nx' pv' pp p l := by
  induction l generalizing pp p with
  | nil => exact h
  | cons a l ih =>
    refine ⟨h.1, ?_, ?_⟩
    · rw [hpv a (List.mem_cons_self a l)]; exact h.2.1
    · rw [hnx a (List.mem_cons_self a l)]
      exact ih h.2.2 (fun b hb => hnx b (List.mem_cons_of_mem a hb))
        (fun b hb => hpv b (List.mem_cons_of_mem a hb))

/-! ## The search loop and the insertion -/

theorem lastOr_append_singleton (prev : Option Nat) (l : List Nat) (a : Nat) :
    lastOr prev (l ++ [a]) = some a := by
  induction l generalizing prev with
  | nil => rfl
  | cons b l ih => exact ih (some b)

theorem lastOr_cases (l : List Nat) :
    (l = [] ∧ ∀ prev, lastOr prev l = prev) ∨
      ∃ l0 p, l = l0 ++ [p] ∧ ∀ prev, lastOr prev l = some p := by
  rcases List.eq_nil_or_concat l with h | ⟨l0, p, h⟩
  · exact Or.inl ⟨h, fun prev => by rw [h]; rfl⟩
  · refine Or.inr ⟨l0, p, by simpa using h, fun prev => ?_⟩
    rw [h]; simpa using lastOr_append_singleton prev l0 p

/-- Every list splits into the longest run of nodes satisfying `P` and the rest. -/
theorem split_run (P : Nat → Prop) [DecidablePred P] (l : List Nat) :
    ∃ l1 l2, l = l1 ++ l2 ∧ (∀ u ∈ l1, P u) ∧ (∀ b ∈ l2.head?, ¬ P b) := by
  induction l with
  | nil => exact ⟨[], [], rfl, by simp, by simp⟩
  | cons a l ih =>
    by_cases ha : P a
    · obtain ⟨l1, l2, h, h1, h2⟩ := ih
      refine ⟨a :: l1, l2, by rw [h]; rfl, ?_, h2⟩
      intro u hu
      rcases List.mem_cons.mp hu with rfl | hu
      · exact ha
      · exact h1 u hu
    · exact ⟨[], a :: l, rfl, by simp, by simpa using ha⟩

/-- The search loop of `OS_ThreadPriorityInsert` walks over a run of higher-priority nodes. -/
theorem priorityScan_run (k : Kernel) (t : Nat) :
    ∀ (l1 : List Nat) (fuel : Nat) (p m prev : Option Nat), IsSeg k.thread.next p l1 m →
      (∀ u ∈ l1, k.thread.priority t < k.thread.priority u) →
      priorityScan k t (l1.length + fuel) p prev = priorityScan k t fuel m (lastOr prev l1) := by
  intro l1
  induction l1 with
  | nil =>
    intro fuel p m prev h _
    simp only [IsSeg] at h
    subst h
    simp [lastOr]
  | cons a l ih =>
    intro fuel p m prev h hp
    obtain ⟨rfl, h2⟩ := h
    have ha : ¬ k.thread.priority a ≤ k.thread.priority t := by
      have := hp a (List.mem_cons_self a l)
      omega
    have hlen : (a :: l).length + fuel = (l.length + fuel) + 1 := by
      simp only [List.length_cons]; omega
    rw [hlen]
    simp only [priorityScan, ha, if_false]
    exact ih fuel _ m (some a) h2 (fun u hu => hp u (List.mem_cons_of_mem a hu))

/-- The search loop of `OS_ThreadPriorityInsert` on a list in memory: it ends, with `prev` the
last node of the leading run of nodes whose priority is greater than the thread's. -/
theorem priorityScan_spec (k : Kernel) (t : Nat) (l1 l2 : List Nat) (fuel : Nat)
    (p : Option Nat) (h : IsChain k.thread.next p (l1 ++ l2)) (h1 : ∀ u ∈ l1, k.thread.priority t < k.thread.priority u)
    (h2 : ∀ b ∈ l2.head?, k.thread.priority b ≤ k.thread.priority t) (hf : (l1 ++ l2).length < fuel) :
    priorityScan k t fuel p none = some (lastOr none l1) := by
  obtain ⟨m, hm1, hm2⟩ := IsSeg_split h
  obtain ⟨f, rfl⟩ : ∃ f, fuel = l1.length + (f + 1) := by
    refine ⟨fuel - l1.length - 1, ?_⟩
    simp only [List.length_append] at hf
    omega
  rw [priorityScan_run k t l1 (f + 1) p m none hm1 h1]
  cases l2 with
  | nil =>
    simp only [IsSeg] at hm2
    subst hm2
    simp [priorityScan]
  | cons b l2 =>
    obtain ⟨rfl, -⟩ := hm2
    have hb : k.thread.priority b ≤ k.thread.priority t := by
      have := h2 b (by simp)
      exact this
    simp [priorityScan, hb]

/-- Linking a new node in front of a list in memory. -/
theorem IsChain_cons_new {nx nx' : Nat → Option Nat} {l : List Nat} {h : Option Nat} {t : Nat}
    (hc : IsChain nx h l) (ht : t ∉ l) (h1 : nx' t = h) (h2 : ∀ a, a ≠ t → nx' a = nx a) :
    IsChain nx' (some t) (t :: l) := by
  refine ⟨rfl, ?_⟩
  rw [h1]
  exact IsSeg_congr hc (fun a ha => h2 a (fun e => ht (e ▸ ha)))

/-- Linking a new node after the node `p` of a list in memory. -/
theorem IsChain_insert_after {nx nx' : Nat → Option Nat} {l1 l2 : List Nat} {h : Option Nat}
    {p t : Nat} (hc : IsChain nx h (l1 ++ p :: l2)) (ht : t ∉ l1 ++ p :: l2)
    (h1 : nx' p = some t) (h2 : nx' t = nx p) (h3 : ∀ a, a ≠ p → a ≠ t → nx' a = nx a) :
    IsChain nx' h (l1 ++ p :: t :: l2) := by
  have hnd := IsChain_nodup hc
  obtain ⟨m, hm1, hm2⟩ := IsSeg_split hc
  have hp1 : p ∉ l1 := by
    intro hp
    have := (List.nodup_append.mp hnd).2.2
    exact this hp (List.mem_cons_self p l2)
  have hp2 : p ∉ l2 := (List.nodup_cons.mp (List.nodup_append.mp hnd).2.1).1
  have ht1 : t ∉ l1 := fun e => ht (List.mem_append_left _ e)
  have ht2 : t ∉ l2 := fun e => ht (List.mem_append_right _ (List.mem_cons_of_mem p e))
  refine IsSeg_append (IsSeg_congr hm1 ?_) ?_
  · intro a ha
    exact h3 a (fun e => hp1 (e ▸ ha)) (fun e => ht1 (e ▸ ha))
  · refine ⟨hm2.1, ?_⟩
    rw [h1]
    refine ⟨rfl, ?_⟩
    rw [h2]
    exact IsSeg_congr hm2.2 (fun a ha => h3 a (fun e => hp2 (e ▸ ha)) (fun e => ht2 (e ▸ ha)))

/-! ## Field memories and list heads -/

@[simp] theorem upd_same {α : Type} (f : Nat → α) (a : Nat) (v : α) : upd f a v a = v := by
  simp [upd]

theorem upd_ne {α : Type} (f : Nat → α) {a i : Nat} (v : α) (h : i ≠ a) : upd f a v i = f i := by
  simp [upd, h]

theorem upd_apply {α : Type} (f : Nat → α) (a i : Nat) (v : α) :
    upd f a v i = if i = a then v else f i := rfl

@[simp] theorem upd_upd {α : Type} (f : Nat → α) (a : Nat) (v w : α) :
    upd (upd f a v) a w = upd f a w := by
  funext i; simp only [upd]; split <;> rfl

theorem upd_self {α : Type} (f : Nat → α) (a : Nat) : upd f a (f a) = f := by
  funext i; simp only [upd]; split
  · next h => rw [h]
  · rfl

@[simp] theorem getHead_setHead (k : Kernel) (head : ListHead) (p : Option Nat) :
    (k.setHead head p).getHead head = p := by
  cases head <;> simp [Kernel.setHead, Kernel.getHead]

@[simp] theorem thread_setHead (k : Kernel) (head : ListHead) (p : Option Nat) :
    (k.setHead head p).thread = k.thread := by
  cases head <;> rfl

/-! ## What the list functions leave unchanged -/

@[simp] theorem priorityLink_priority (k : Kernel) (head : ListHead) (t : Nat) (prev : Option Nat) :
    (priorityLink k head t prev).thread.priority = k.thread.priority := by
  unfold priorityLink
  cases prev <;> dsimp only <;> (repeat' split) <;> cases head <;> rfl

@[simp] theorem priorityLink_ticksTimeout (k : Kernel) (head : ListHead) (t : Nat) (prev : Option Nat) :
    (priorityLink k head t prev).thread.ticksTimeout = k.thread.ticksTimeout := by
  unfold priorityLink
  cases prev <;> dsimp only <;> (repeat' split) <;> cases head <;> rfl

@[simp] theorem priorityLink_semaphorePending (k : Kernel) (head : ListHead) (t : Nat) (prev : Option Nat) :
    (priorityLink k head t prev).thread.semaphorePending = k.thread.semaphorePending := by
  unfold priorityLink
  cases prev <;> dsimp only <;> (repeat' split) <;> cases head <;> rfl

@[simp] theorem priorityLink_returnCode (k : Kernel) (head : ListHead) (t : Nat) (prev : Option Nat) :
    (priorityLink k head t prev).thread.returnCode = k.thread.returnCode := by
  unfold priorityLink
  cases prev <;> dsimp only <;> (repeat' split) <;> cases head <;> rfl

@[simp] theorem priorityLink_nextTimeout (k : Kernel) (head : ListHead) (t : Nat) (prev : Option Nat) :
    (priorityLink k head t prev).thread.nextTimeout = k.thread.nextTimeout := by
  unfold priorityLink
  cases prev <;> dsimp only <;> (repeat' split) <;> cases head <;> rfl

@[simp] theorem priorityLink_prevTimeout (k : Kernel) (head : ListHead) (t : Nat) (prev : Option Nat) :
    (priorityLink k head t prev).thread.prevTimeout = k.thread.prevTimeout := by
  unfold priorityLink
  cases prev <;> dsimp only <;> (repeat' split) <;> cases head <;> rfl

@[simp] theorem priorityLink_sem_count (k : Kernel) (head : ListHead) (t : Nat) (prev : Option Nat) :
    (priorityLink k head t prev).semaphore.count = k.semaphore.count := by
  unfold priorityLink
  cases prev <;> dsimp only <;> (repeat' split) <;> cases head <;> rfl

@[simp] theorem priorityLink_mutex (k : Kernel) (head : ListHead) (t : Nat) (prev : Option Nat) :
    (priorityLink k head t prev).mutex = k.mutex := by
  unfold priorityLink
  cases prev <;> dsimp only <;> (repeat' split) <;> cases head <;> rfl

@[simp] theorem priorityLink_mqueue (k : Kernel) (head : ListHead) (t : Nat) (prev : Option Nat) :
    (priorityLink k head t prev).mqueue = k.mqueue := by
  unfold priorityLink
  cases prev <;> dsimp only <;> (repeat' split) <;> cases head <;> rfl

@[simp] theorem priorityLink_ThreadSwapEnabled (k : Kernel) (head : ListHead) (t : Nat) (prev : Option Nat) :
    (priorityLink k head t prev).ThreadSwapEnabled = k.ThreadSwapEnabled := by
  unfold priorityLink
  cases prev <;> dsimp only <;> (repeat' split) <;> cases head <;> rfl

@[simp] theorem priorityLink_ThreadNeedReschedule (k : Kernel) (head : ListHead) (t : Nat) (prev : Option Nat) :
    (priorityLink k head t prev).ThreadNeedReschedule = k.ThreadNeedReschedule := by
  unfold priorityLink
  cases prev <;> dsimp only <;> (repeat' split) <;> cases head <;> rfl

@[simp] theorem priorityLink_ThreadTime (k : Kernel) (head : ListHead) (t : Nat) (prev : Option Nat) :
    (priorityLink k head t prev).ThreadTime = k.ThreadTime := by
  unfold priorityLink
  cases prev <;> dsimp only <;> (repeat' split) <;> cases head <;> rfl

@[simp] theorem priorityLink_TimeoutHead (k : Kernel) (head : ListHead) (t : Nat) (prev : Option Nat) :
    (priorityLink k head t prev).TimeoutHead = k.TimeoutHead := by
  unfold priorityLink
  cases prev <;> dsimp only <;> (repeat' split) <;> cases head <;> rfl

@[simp] theorem priorityLink_ThreadCurrent (k : Kernel) (head : ListHead) (t : Nat) (prev : Option Nat) :
    (priorityLink k head t prev).ThreadCurrent = k.ThreadCurrent := by
  unfold priorityLink
  cases prev <;> dsimp only <;> (repeat' split) <;> cases head <;> rfl

@[simp] theorem priorityLink_InterruptInside (k : Kernel) (head : ListHead) (t : Nat) (prev : Option Nat) :
    (priorityLink k head t prev).InterruptInside = k.InterruptInside := by
  unfold priorityLink
  cases prev <;> dsimp only <;> (repeat' split) <;> cases head <;> rfl

@[simp] theorem priorityInsertAt_priority (k : Kernel) (head : ListHead) (t : Nat) (prev : Option Nat) :
    (priorityInsertAt k head t prev).thread.priority = k.thread.priority := by
  unfold priorityInsertAt
  dsimp only
  split <;> simp

@[simp] theorem priorityInsertAt_ticksTimeout (k : Kernel) (head : ListHead) (t : Nat) (prev : Option Nat) :
    (priorityInsertAt k head t prev).thread.ticksTimeout = k.thread.ticksTimeout := by
  unfold priorityInsertAt
  dsimp only
  split <;> simp

@[simp] theorem priorityInsertAt_semaphorePending (k : Kernel) (head : ListHead) (t : Nat) (prev : Option Nat) :
    (priorityInsertAt k head t prev).thread.semaphorePending = k.thread.semaphorePending := by
  unfold priorityInsertAt
  dsimp only
  split <;> simp

@[simp] theorem priorityInsertAt_returnCode (k : Kernel) (head : ListHead) (t : Nat) (prev : Option Nat) :
    (priorityInsertAt k head t prev).thread.returnCode = k.thread.returnCode := by
  unfold priorityInsertAt
  dsimp only
  split <;> simp

@[simp] theorem priorityInsertAt_nextTimeout (k : Kernel) (head : ListHead) (t : Nat) (prev : Option Nat) :
    (priorityInsertAt k head t prev).thread.nextTimeout = k.thread.nextTimeout := by
  unfold priorityInsertAt
  dsimp only
  split <;> simp

@[simp] theorem priorityInsertAt_prevTimeout (k : Kernel) (head : ListHead) (t : Nat) (prev : Option Nat) :
    (priorityInsertAt k head t prev).thread.prevTimeout = k.thread.prevTimeout := by
  unfold priorityInsertAt
  dsimp only
  split <;> simp

@[simp] theorem priorityInsertAt_sem_count (k : Kernel) (head : ListHead) (t : Nat) (prev : Option Nat) :
    (priorityInsertAt k head t prev).semaphore.count = k.semaphore.count := by
  unfold priorityInsertAt
  dsimp only
  split <;> simp

@[simp] theorem priorityInsertAt_mutex (k : Kernel) (head : ListHead) (t : Nat) (prev : Option Nat) :
    (priorityInsertAt k head t prev).mutex = k.mutex := by
  unfold priorityInsertAt
  dsimp only
  split <;> simp

@[simp] theorem priorityInsertAt_mqueue (k : Kernel) (head : ListHead) (t : Nat) (prev : Option Nat) :
    (priorityInsertAt k head t prev).mqueue = k.mqueue := by
  unfold priorityInsertAt
  dsimp only
  split <;> simp

@[simp] theorem priorityInsertAt_ThreadSwapEnabled (k : Kernel) (head : ListHead) (t : Nat) (prev : Option Nat) :
    (priorityInsertAt k head t prev).ThreadSwapEnabled = k.ThreadSwapEnabled := by
  unfold priorityInsertAt
  dsimp only
  split <;> simp

@[simp] theorem priorityInsertAt_ThreadNeedReschedule (k : Kernel) (head : ListHead) (t : Nat) (prev : Option Nat) :
    (priorityInsertAt k head t prev).ThreadNeedReschedule = k.ThreadNeedReschedule := by
  unfold priorityInsertAt
  dsimp only
  split <;> simp

@[simp] theorem priorityInsertAt_ThreadTime (k : Kernel) (head : ListHead) (t : Nat) (prev : Option Nat) :
    (priorityInsertAt k head t prev).ThreadTime = k.ThreadTime := by
  unfold priorityInsertAt
  dsimp only
  split <;> simp

@[simp] theorem priorityInsertAt_TimeoutHead (k : Kernel) (head : ListHead) (t : Nat) (prev : Option Nat) :
    (priorityInsertAt k head t prev).TimeoutHead = k.TimeoutHead := by
  unfold priorityInsertAt
  dsimp only
  split <;> simp

@[simp] theorem priorityInsertAt_ThreadCurrent (k : Kernel) (head : ListHead) (t : Nat) (prev : Option Nat) :
    (priorityInsertAt k head t prev).ThreadCurrent = k.ThreadCurrent := by
  unfold priorityInsertAt
  dsimp only
  split <;> simp

@[simp] theorem priorityInsertAt_InterruptInside (k : Kernel) (head : ListHead) (t : Nat) (prev : Option Nat) :
    (priorityInsertAt k head t prev).InterruptInside = k.InterruptInside := by
  unfold priorityInsertAt
  dsimp only
  split <;> simp

@[simp] theorem OS_ThreadPriorityRemove_priority (k : Kernel) (head : ListHead) (t : Nat) :
    (OS_ThreadPriorityRemove k head t).thread.priority = k.thread.priority := by
  unfold OS_ThreadPriorityRemove
  dsimp only
  (repeat' split) <;> cases head <;> rfl

@[simp] theorem OS_ThreadPriorityRemove_ticksTimeout (k : Kernel) (head : ListHead) (t : Nat) :
    (OS_ThreadPriorityRemove k head t).thread.ticksTimeout = k.thread.ticksTimeout := by
  unfold OS_ThreadPriorityRemove
  dsimp only
  (repeat' split) <;> cases head <;> rfl

@[simp] theorem OS_ThreadPriorityRemove_semaphorePending (k : Kernel) (head : ListHead) (t : Nat) :
    (OS_ThreadPriorityRemove k head t).thread.semaphorePending = k.thread.semaphorePending := by
  unfold OS_ThreadPriorityRemove
  dsimp only
  (repeat' split) <;> cases head <;> rfl

@[simp] theorem OS_ThreadPriorityRemove_returnCode (k : Kernel) (head : ListHead) (t : Nat) :
    (OS_ThreadPriorityRemove k head t).thread.returnCode = k.thread.returnCode := by
  unfold OS_ThreadPriorityRemove
  dsimp only
  (repeat' split) <;> cases head <;> rfl

@[simp] theorem OS_ThreadPriorityRemove_nextTimeout (k : Kernel) (head : ListHead) (t : Nat) :
    (OS_ThreadPriorityRemove k head t).thread.nextTimeout = k.thread.nextTimeout := by
  unfold OS_ThreadPriorityRemove
  dsimp only
  (repeat' split) <;> cases head <;> rfl

@[simp] theorem OS_ThreadPriorityRemove_prevTimeout (k : Kernel) (head : ListHead) (t : Nat) :
    (OS_ThreadPriorityRemove k head t).thread.prevTimeout = k.thread.prevTimeout := by
  unfold OS_ThreadPriorityRemove
  dsimp only
  (repeat' split) <;> cases head <;> rfl

@[simp] theorem OS_ThreadPriorityRemove_sem_count (k : Kernel) (head : ListHead) (t : Nat) :
    (OS_ThreadPriorityRemove k head t).semaphore.count = k.semaphore.count := by
  unfold OS_ThreadPriorityRemove
  dsimp only
  (repeat' split) <;> cases head <;> rfl

@[simp] theorem OS_ThreadPriorityRemove_mutex (k : Kernel) (head : ListHead) (t : Nat) :
    (OS_ThreadPriorityRemove k head t).mutex = k.mutex := by
  unfold OS_ThreadPriorityRemove
  dsimp only
  (repeat' split) <;> cases head <;> rfl

@[simp] theorem OS_ThreadPriorityRemove_mqueue (k : Kernel) (head : ListHead) (t : Nat) :
    (OS_ThreadPriorityRemove k head t).mqueue = k.mqueue := by
  unfold OS_ThreadPriorityRemove
  dsimp only
  (repeat' split) <;> cases head <;> rfl

@[simp] theorem OS_ThreadPriorityRemove_ThreadSwapEnabled (k : Kernel) (head : ListHead) (t : Nat) :
    (OS_ThreadPriorityRemove k head t).ThreadSwapEnabled = k.ThreadSwapEnabled := by
  unfold OS_ThreadPriorityRemove
  dsimp only
  (repeat' split) <;> cases head <;> rfl

@[simp] theorem OS_ThreadPriorityRemove_ThreadNeedReschedule (k : Kernel) (head : ListHead) (t : Nat) :
    (OS_ThreadPriorityRemove k head t).ThreadNeedReschedule = k.ThreadNeedReschedule := by
  unfold OS_ThreadPriorityRemove
  dsimp only
  (repeat' split) <;> cases head <;> rfl

@[simp] theorem OS_ThreadPriorityRemove_ThreadTime (k : Kernel) (head : ListHead) (t : Nat) :
    (OS_ThreadPriorityRemove k head t).ThreadTime = k.ThreadTime := by
  unfold OS_ThreadPriorityRemove
  dsimp only
  (repeat' split) <;> cases head <;> rfl

@[simp] theorem OS_ThreadPriorityRemove_TimeoutHead (k : Kernel) (head : ListHead) (t : Nat) :
    (OS_ThreadPriorityRemove k head t).TimeoutHead = k.TimeoutHead := by
  unfold OS_ThreadPriorityRemove
  dsimp only
  (repeat' split) <;> cases head <;> rfl

@[simp] theorem OS_ThreadPriorityRemove_ThreadCurrent (k : Kernel) (head : ListHead) (t : Nat) :
    (OS_ThreadPriorityRemove k head t).ThreadCurrent = k.ThreadCurrent := by
  unfold OS_ThreadPriorityRemove
  dsimp only
  (repeat' split) <;> cases head <;> rfl

@[simp] theorem OS_ThreadPriorityRemove_InterruptInside (k : Kernel) (head : ListHead) (t : Nat) :
    (OS_ThreadPriorityRemove k head t).InterruptInside = k.InterruptInside := by
  unfold OS_ThreadPriorityRemove
  dsimp only
  (repeat' split) <;> cases head <;> rfl

@[simp] theorem timeoutLink_state (k : Kernel) (t : Nat) (prev : Option Nat) :
    (timeoutLink k t prev).thread.state = k.thread.state := by
  unfold timeoutLink
  cases prev <;> dsimp only <;> (repeat' split) <;> rfl

@[simp] theorem timeoutLink_priority (k : Kernel) (t : Nat) (prev : Option Nat) :
    (timeoutLink k t prev).thread.priority = k.thread.priority := by
  unfold timeoutLink
  cases prev <;> dsimp only <;> (repeat' split) <;> rfl

@[simp] theorem timeoutLink_ticksTimeout (k : Kernel) (t : Nat) (prev : Option Nat) :
    (timeoutLink k t prev).thread.ticksTimeout = k.thread.ticksTimeout := by
  unfold timeoutLink
  cases prev <;> dsimp only <;> (repeat' split) <;> rfl

@[simp] theorem timeoutLink_semaphorePending (k : Kernel) (t : Nat) (prev : Option Nat) :
    (timeoutLink k t prev).thread.semaphorePending = k.thread.semaphorePending := by
  unfold timeoutLink
  cases prev <;> dsimp only <;> (repeat' split) <;> rfl

@[simp] theorem timeoutLink_returnCode (k : Kernel) (t : Nat) (prev : Option Nat) :
    (timeoutLink k t prev).thread.returnCode = k.thread.returnCode := by
  unfold timeoutLink
  cases prev <;> dsimp only <;> (repeat' split) <;> rfl

@[simp] theorem timeoutLink_next (k : Kernel) (t : Nat) (prev : Option Nat) :
    (timeoutLink k t prev).thread.next = k.thread.next := by
  unfold timeoutLink
  cases prev <;> dsimp only <;> (repeat' split) <;> rfl

@[simp] theorem timeoutLink_prev (k : Kernel) (t : Nat) (prev : Option Nat) :
    (timeoutLink k t prev).thread.prev = k.thread.prev := by
  unfold timeoutLink
  cases prev <;> dsimp only <;> (repeat' split) <;> rfl

@[simp] theorem timeoutLink_semaphore (k : Kernel) (t : Nat) (prev : Option Nat) :
    (timeoutLink k t prev).semaphore = k.semaphore := by
  unfold timeoutLink
  cases prev <;> dsimp only <;> (repeat' split) <;> rfl

@[simp] theorem timeoutLink_mutex (k : Kernel) (t : Nat) (prev : Option Nat) :
    (timeoutLink k t prev).mutex = k.mutex := by
  unfold timeoutLink
  cases prev <;> dsimp only <;> (repeat' split) <;> rfl

@[simp] theorem timeoutLink_mqueue (k : Kernel) (t : Nat) (prev : Option Nat) :
    (timeoutLink k t prev).mqueue = k.mqueue := by
  unfold timeoutLink
  cases prev <;> dsimp only <;> (repeat' split) <;> rfl

@[simp] theorem timeoutLink_ThreadSwapEnabled (k : Kernel) (t : Nat) (prev : Option Nat) :
    (timeoutLink k t prev).ThreadSwapEnabled = k.ThreadSwapEnabled := by
  unfold timeoutLink
  cases prev <;> dsimp only <;> (repeat' split) <;> rfl

@[simp] theorem timeoutLink_ThreadNeedReschedule (k : Kernel) (t : Nat) (prev : Option Nat) :
    (timeoutLink k t prev).ThreadNeedReschedule = k.ThreadNeedReschedule := by
  unfold timeoutLink
  cases prev <;> dsimp only <;> (repeat' split) <;> rfl

@[simp] theorem timeoutLink_ThreadTime (k : Kernel) (t : Nat) (prev : Option Nat) :
    (timeoutLink k t prev).ThreadTime = k.ThreadTime := by
  unfold timeoutLink
  cases prev <;> dsimp only <;> (repeat' split) <;> rfl

@[simp] theorem timeoutLink_ThreadHead (k : Kernel) (t : Nat) (prev : Option Nat) :
    (timeoutLink k t prev).ThreadHead = k.ThreadHead := by
  unfold timeoutLink
  cases prev <;> dsimp only <;> (repeat' split) <;> rfl

@[simp] theorem timeoutLink_ThreadCurrent (k : Kernel) (t : Nat) (prev : Option Nat) :
    (timeoutLink k t prev).ThreadCurrent = k.ThreadCurrent := by
  unfold timeoutLink
  cases prev <;> dsimp only <;> (repeat' split) <;> rfl

@[simp] theorem timeoutLink_InterruptInside (k : Kernel) (t : Nat) (prev : Option Nat) :
    (timeoutLink k t prev).InterruptInside = k.InterruptInside := by
  unfold timeoutLink
  cases prev <;> dsimp only <;> (repeat' split) <;> rfl

@[simp] theorem OS_ThreadTimeoutRemove_state (k : Kernel) (t : Nat) :
    (OS_ThreadTimeoutRemove k t).thread.state = k.thread.state := by
  unfold OS_ThreadTimeoutRemove
  dsimp only
  (repeat' split) <;> rfl

@[simp] theorem OS_ThreadTimeoutRemove_priority (k : Kernel) (t : Nat) :
    (OS_ThreadTimeoutRemove k t).thread.priority = k.thread.priority := by
  unfold OS_ThreadTimeoutRemove
  dsimp only
  (repeat' split) <;> rfl

@[simp] theorem OS_ThreadTimeoutRemove_ticksTimeout (k : Kernel) (t : Nat) :
    (OS_ThreadTimeoutRemove k t).thread.ticksTimeout = k.thread.ticksTimeout := by
  unfold OS_ThreadTimeoutRemove
  dsimp only
  (repeat' split) <;> rfl

@[simp] theorem OS_ThreadTimeoutRemove_semaphorePending (k : Kernel) (t : Nat) :
    (OS_ThreadTimeoutRemove k t).thread.semaphorePending = k.thread.semaphorePending := by
  unfold OS_ThreadTimeoutRemove
  dsimp only
  (repeat' split) <;> rfl

@[simp] theorem OS_ThreadTimeoutRemove_returnCode (k : Kernel) (t : Nat) :
    (OS_ThreadTimeoutRemove k t).thread.returnCode = k.thread.returnCode := by
  unfold OS_ThreadTimeoutRemove
  dsimp only
  (repeat' split) <;> rfl

@[simp] theorem OS_ThreadTimeoutRemove_next (k : Kernel) (t : Nat) :
    (OS_ThreadTimeoutRemove k t).thread.next = k.thread.next := by
  unfold OS_ThreadTimeoutRemove
  dsimp only
  (repeat' split) <;> rfl

@[simp] theorem OS_ThreadTimeoutRemove_prev (k : Kernel) (t : Nat) :
    (OS_ThreadTimeoutRemove k t).thread.prev = k.thread.prev := by
  unfold OS_ThreadTimeoutRemove
  dsimp only
  (repeat' split) <;> rfl

@[simp] theorem OS_ThreadTimeoutRemove_semaphore (k : Kernel) (t : Nat) :
    (OS_ThreadTimeoutRemove k t).semaphore = k.semaphore := by
  unfold OS_ThreadTimeoutRemove
  dsimp only
  (repeat' split) <;> rfl

@[simp] theorem OS_ThreadTimeoutRemove_mutex (k : Kernel) (t : Nat) :
    (OS_ThreadTimeoutRemove k t).mutex = k.mutex := by
  unfold OS_ThreadTimeoutRemove
  dsimp only
  (repeat' split) <;> rfl

@[simp] theorem OS_ThreadTimeoutRemove_mqueue (k : Kernel) (t : Nat) :
    (OS_ThreadTimeoutRemove k t).mqueue = k.mqueue := by
  unfold OS_ThreadTimeoutRemove
  dsimp only
  (repeat' split) <;> rfl

@[simp] theorem OS_ThreadTimeoutRemove_ThreadSwapEnabled (k : Kernel) (t : Nat) :
    (OS_ThreadTimeoutRemove k t).ThreadSwapEnabled = k.ThreadSwapEnabled := by
  unfold OS_ThreadTimeoutRemove
  dsimp only
  (repeat' split) <;> rfl

@[simp] theorem OS_ThreadTimeoutRemove_ThreadNeedReschedule (k : Kernel) (t : Nat) :
    (OS_ThreadTimeoutRemove k t).ThreadNeedReschedule = k.ThreadNeedReschedule := by
  unfold OS_ThreadTimeoutRemove
  dsimp only
  (repeat' split) <;> rfl

@[simp] theorem OS_ThreadTimeoutRemove_ThreadTime (k : Kernel) (t : Nat) :
    (OS_ThreadTimeoutRemove k t).ThreadTime = k.ThreadTime := by
  unfold OS_ThreadTimeoutRemove
  dsimp only
  (repeat' split) <;> rfl

@[simp] theorem OS_ThreadTimeoutRemove_ThreadHead (k : Kernel) (t : Nat) :
    (OS_ThreadTimeoutRemove k t).ThreadHead = k.ThreadHead := by
  unfold OS_ThreadTimeoutRemove
  dsimp only
  (repeat' split) <;> rfl

@[simp] theorem OS_ThreadTimeoutRemove_ThreadCurrent (k : Kernel) (t : Nat) :
    (OS_ThreadTimeoutRemove k t).ThreadCurrent = k.ThreadCurrent := by
  unfold OS_ThreadTimeoutRemove
  dsimp only
  (repeat' split) <;> rfl

@[simp] theorem OS_ThreadTimeoutRemove_InterruptInside (k : Kernel) (t : Nat) :
    (OS_ThreadTimeoutRemove k t).InterruptInside = k.InterruptInside := by
  unfold OS_ThreadTimeoutRemove
  dsimp only
  (repeat' split) <;> rfl

@[simp] theorem priorityLink_semaphore (k : Kernel) (t : Nat) (prev : Option Nat) :
    (priorityLink k .ready t prev).semaphore = k.semaphore := by
  unfold priorityLink
  cases prev <;> dsimp only <;> (repeat' split) <;> rfl

@[simp] theorem priorityInsertAt_semaphore (k : Kernel) (t : Nat) (prev : Option Nat) :
    (priorityInsertAt k .ready t prev).semaphore = k.semaphore := by
  unfold priorityInsertAt
  dsimp only
  split <;> simp

@[simp] theorem OS_ThreadPriorityRemove_semaphore (k : Kernel) (t : Nat) :
    (OS_ThreadPriorityRemove k .ready t).semaphore = k.semaphore := by
  unfold OS_ThreadPriorityRemove
  dsimp only
  (repeat' split) <;> rfl

@[simp] theorem priorityLink_ThreadHead (k : Kernel) (s t : Nat) (prev : Option Nat) :
    (priorityLink k (.waiters s) t prev).ThreadHead = k.ThreadHead := by
  unfold priorityLink
  cases prev <;> dsimp only <;> (repeat' split) <;> rfl

@[simp] theorem priorityInsertAt_ThreadHead (k : Kernel) (s t : Nat) (prev : Option Nat) :
    (priorityInsertAt k (.waiters s) t prev).ThreadHead = k.ThreadHead := by
  unfold priorityInsertAt
  dsimp only
  split <;> simp

@[simp] theorem OS_ThreadPriorityRemove_ThreadHead (k : Kernel) (s t : Nat) :
    (OS_ThreadPriorityRemove k (.waiters s) t).ThreadHead = k.ThreadHead := by
  unfold OS_ThreadPriorityRemove
  dsimp only
  (repeat' split) <;> rfl

/-! ## The links after an insertion or a removal -/

/-- The `next` links after the linking block of `OS_ThreadPriorityInsert`. -/
theorem priorityLink_next (k : Kernel) (head : ListHead) (t : Nat) (prev : Option Nat) :
    (priorityLink k head t prev).thread.next =
      match prev with
      | none => upd k.thread.next t (k.getHead head)
      | some p => upd (upd k.thread.next t (k.thread.next p)) p (some t) := by
  unfold priorityLink
  cases prev <;> dsimp only <;> (repeat' split) <;> cases head <;> rfl

/-- The list head after the linking block of `OS_ThreadPriorityInsert`. -/
theorem priorityLink_getHead (k : Kernel) (head : ListHead) (t : Nat) (prev : Option Nat) :
    (priorityLink k head t prev).getHead head =
      match prev with
      | none => some t
      | some _ => k.getHead head := by
  unfold priorityLink
  cases prev <;> dsimp only <;> (repeat' split) <;> cases head <;> simp [Kernel.setHead, Kernel.getHead]

@[simp] theorem priorityInsertAt_next (k : Kernel) (head : ListHead) (t : Nat)
    (prev : Option Nat) :
    (priorityInsertAt k head t prev).thread.next = (priorityLink k head t prev).thread.next := by
  unfold priorityInsertAt
  dsimp only
  split <;> rfl

@[simp] theorem priorityInsertAt_getHead (k : Kernel) (head head' : ListHead) (t : Nat)
    (prev : Option Nat) :
    (priorityInsertAt k head t prev).getHead head' = (priorityLink k head t prev).getHead head' := by
  unfold priorityInsertAt
  dsimp only
  split <;> cases head' <;> rfl

@[simp] theorem priorityInsertAt_ready_state (k : Kernel) (t : Nat) (prev : Option Nat) :
    (priorityInsertAt k .ready t prev).thread.state
      = upd (priorityLink k .ready t prev).thread.state t THREAD_READY := by
  unfold priorityInsertAt
  simp [Kernel.getHead]

@[simp] theorem priorityLink_state (k : Kernel) (head : ListHead) (t : Nat) (prev : Option Nat) :
    (priorityLink k head t prev).thread.state = k.thread.state := by
  unfold priorityLink
  cases prev <;> dsimp only <;> (repeat' split) <;> cases head <;> rfl

/-- The `next` links after `OS_ThreadPriorityRemove`. -/
theorem OS_ThreadPriorityRemove_next (k : Kernel) (head : ListHead) (t : Nat) :
    (OS_ThreadPriorityRemove k head t).thread.next =
      match k.thread.prev t with
      | none => upd k.thread.next t none
      | some p => upd (upd k.thread.next p (k.thread.next t)) t none := by
  unfold OS_ThreadPriorityRemove
  dsimp only
  (repeat' split) <;> cases head <;> simp_all [Kernel.setHead]

/-- The list head after `OS_ThreadPriorityRemove`. -/
theorem OS_ThreadPriorityRemove_getHead (k : Kernel) (head : ListHead) (t : Nat) :
    (OS_ThreadPriorityRemove k head t).getHead head =
      match k.thread.prev t with
      | none => k.thread.next t
      | some _ => k.getHead head := by
  unfold OS_ThreadPriorityRemove
  dsimp only
  (repeat' split) <;> cases head <;> simp_all [Kernel.setHead, Kernel.getHead]

@[simp] theorem OS_ThreadPriorityRemove_state (k : Kernel) (head : ListHead) (t : Nat) :
    (OS_ThreadPriorityRemove k head t).thread.state = upd k.thread.state t THREAD_PEND := by
  unfold OS_ThreadPriorityRemove
  dsimp only
  (repeat' split) <;> cases head <;> rfl

/-! ## The insertion on a list in memory -/

/-- The list at `head` after the linking block of the insertion. -/
theorem priorityLink_list (k : Kernel) (head : ListHead) (t : Nat) (l1 l2 : List Nat)
    (hl : k.ListAt head (l1 ++ l2)) (ht : t ∉ l1 ++ l2) :
    (priorityLink k head t (lastOr none l1)).ListAt head (l1 ++ t :: l2) := by
  unfold Kernel.ListAt at hl ⊢
  rw [priorityLink_next, priorityLink_getHead]
  rcases lastOr_cases l1 with ⟨rfl, hlast⟩ | ⟨l0, p, rfl, hlast⟩
  · rw [hlast]
    simp only [List.nil_append] at hl ht ⊢
    exact IsChain_cons_new hl ht (by simp) (fun a ha => by simp [upd_ne, ha])
  · rw [hlast]
    have hl' : IsChain k.thread.next (k.getHead head) (l0 ++ p :: l2) := by simpa using hl
    have ht' : t ∉ l0 ++ p :: l2 := by simpa using ht
    have htp : t ≠ p := by
      intro e; apply ht'; simp [e]
    simp only [List.append_assoc, List.singleton_append]
    refine IsChain_insert_after hl' ht' (by simp) ?_ ?_
    · rw [upd_ne _ _ htp]; simp
    · intro a h1 h2; rw [upd_ne _ _ h1, upd_ne _ _ h2]

/-- The insertion on a list in memory that holds the threads `l`, for a thread `t` that is not
on it: the search ends, and `t` is linked after the leading run `l1` of threads of greater
priority, in front of the first thread whose priority is at most its own. -/
theorem OS_ThreadPriorityInsert_spec (fuel : Nat) (k : Kernel) (head : ListHead) (t : Nat)
    (l : List Nat) (hl : k.ListAt head l) (ht : t ∉ l) (hf : l.length < fuel) :
    ∃ l1 l2, l = l1 ++ l2 ∧
      (∀ u ∈ l1, k.thread.priority t < k.thread.priority u) ∧
      (∀ b ∈ l2.head?, k.thread.priority b ≤ k.thread.priority t) ∧
      OS_ThreadPriorityInsert fuel k head t = some (priorityInsertAt k head t (lastOr none l1)) ∧
      (priorityInsertAt k head t (lastOr none l1)).ListAt head (l1 ++ t :: l2) := by
  obtain ⟨l1, l2, rfl, h1, h2⟩ :=
    split_run (fun u => k.thread.priority t < k.thread.priority u) l
  have h2' : ∀ b ∈ l2.head?, k.thread.priority b ≤ k.thread.priority t :=
    fun b hb => Nat.le_of_not_lt (h2 b hb)
  refine ⟨l1, l2, rfl, h1, h2', ?_, ?_⟩
  · unfold OS_ThreadPriorityInsert
    rw [priorityScan_spec k t l1 l2 fuel _ hl h1 h2' hf]
  · have := priorityLink_list k head t l1 l2 hl ht
    unfold Kernel.ListAt at this ⊢
    simpa using this

/-! ## C1: position of a new thread in its priority band -/

/-- C1 (as stated, refuted): in scenario 1 of the specification, after T1, T2, T3 (threads 3,
4, 5) are created in this order at priority 100, the ready list is main, T3, T2, T1, idle: T1
does not precede T2 and T3.  When main (thread 2) then lowers its priority to 50, the thread
switched to is T3, not T1. -/
theorem C1_fifo_order_refuted :
    ∃ k k', fifoScenario = some k ∧ k.ReadyList [2, 5, 4, 3, 1] ∧ k.ThreadCurrent = some 2 ∧
      OS_ThreadPrioritySet 8 k 2 50 = some k' ∧ k'.ReadyList [5, 4, 3, 2, 1] ∧
      k'.ThreadCurrent = some 5 :=
  ⟨_, _, rfl, by decide, by decide, rfl, by decide, by decide⟩

/-- C1 (amended): `OS_ThreadPriorityInsert` on the ready list places a new thread at the HEAD of
its priority band.  For every ready list `l` sorted by non-increasing priority and every thread
`t` not on it, the insertion (given fuel for the walk) returns a state whose ready list is
`l1 ++ t :: l2` with `l = l1 ++ l2`: every thread before `t` has a priority greater than
`t`'s, every thread after `t`, so every thread already on the list with priority equal to
`t`'s, has a priority at most `t`'s; priorities are unchanged, the list is still sorted and `t`
is `THREAD_READY`. -/
theorem C1_insert_at_head_of_band (fuel : Nat) (k : Kernel) (t : Nat) (l : List Nat)
    (hl : k.ReadyList l)
    (hs : l.Pairwise (fun a b => k.thread.priority b ≤ k.thread.priority a))
    (ht : t ∉ l) (hf : l.length < fuel) :
    ∃ k' l1 l2, OS_ThreadPriorityInsert fuel k .ready t = some k' ∧ l = l1 ++ l2 ∧
      k'.ReadyList (l1 ++ t :: l2) ∧
      (∀ u ∈ l1, k.thread.priority t < k.thread.priority u) ∧
      (∀ u ∈ l2, k.thread.priority u ≤ k.thread.priority t) ∧
      k'.thread.priority = k.thread.priority ∧
      (l1 ++ t :: l2).Pairwise (fun a b => k'.thread.priority b ≤ k'.thread.priority a) ∧
      k'.thread.state t = THREAD_READY := by
  obtain ⟨l1, l2, rfl, h1, h2, hins, hlist⟩ :=
    OS_ThreadPriorityInsert_spec fuel k .ready t l hl ht hf
  have h2' : ∀ u ∈ l2, k.thread.priority u ≤ k.thread.priority t := by
    intro u hu
    cases l2 with
    | nil => exact absurd hu (List.not_mem_nil u)
    | cons b l2 =>
      have hb : k.thread.priority b ≤ k.thread.priority t := h2 b (by simp)
      rcases List.mem_cons.mp hu with rfl | hu
      · exact hb
      · have hs2 := (List.pairwise_append.mp hs).2.1
        exact Nat.le_trans (List.rel_of_pairwise_cons hs2 hu) hb
  refine ⟨_, l1, l2, hins, rfl, hlist, h1, h2', by simp, ?_, by simp⟩
  simp only [priorityInsertAt_priority]
  obtain ⟨hs1, hs2, hs12⟩ := List.pairwise_append.mp hs
  refine List.pairwise_append.mpr ⟨hs1, List.pairwise_cons.mpr ⟨h2', hs2⟩, ?_⟩
  intro a ha b hb
  rcases List.mem_cons.mp hb with rfl | hb
  · exact Nat.le_of_lt (h1 a ha)
  · exact hs12 a ha b hb

/-- C1 (amended), instance: a new thread (4, priority 100) is inserted on the ready list main,
T1, idle, where T1 has priority 100. -/
theorem C1_insert_at_head_of_band_witness :
    ∃ k' l1 l2, OS_ThreadPriorityInsert 8 oneWorkerKernel .ready 4 = some k' ∧
      [2, 3, 1] = l1 ++ l2 ∧ k'.ReadyList (l1 ++ 4 :: l2) ∧
      (∀ u ∈ l1, oneWorkerKernel.thread.priority 4 < oneWorkerKernel.thread.priority u) ∧
      (∀ u ∈ l2, oneWorkerKernel.thread.priority u ≤ oneWorkerKernel.thread.priority 4) ∧
      k'.thread.priority = oneWorkerKernel.thread.priority ∧
      (l1 ++ 4 :: l2).Pairwise (fun a b => k'.thread.priority b ≤ k'.thread.priority a) ∧
      k'.thread.state 4 = THREAD_READY :=
  C1_insert_at_head_of_band 8 oneWorkerKernel 4 [2, 3, 1] (by decide) (by decide) (by decide)
    (by decide)

/-! ## C2: semaphore count and waiter list -/

/-- C2 (evaluation at the failing input): B (thread 3) pends on a semaphore of count 0 with a
timeout of 3 ticks, then A (thread 2, same priority) pends without timeout.  A is linked in
front of B and B's `prev` link is left `NULL`; the count is -2 and the waiters are A, B.  Two
ticks change nothing.  At the third tick B times out: `OS_ThreadPriorityRemove` finds
`B->prev == NULL` and sets the list head to `B->next`, so A is dropped with B.  The count is
then -1 with an empty waiter list, A is still pended on the semaphore, and a later
`OS_SemaphorePost` dereferences the null list head. -/
theorem C2_timeout_drops_other_waiter :
    ∃ k k2 k3, twoWaiters = some k ∧
      k.semaphore.count 1 = -2 ∧ k.WaiterList 1 [2, 3] ∧ k.TimeoutList [3] ∧
      k.thread.prev 3 = none ∧
      ticks 8 2 k = some k2 ∧ k2.semaphore.count 1 = -2 ∧ k2.WaiterList 1 [2, 3] ∧
      OS_ThreadTick 8 k2 = some k3 ∧
      k3.semaphore.count 1 = -1 ∧ k3.WaiterList 1 [] ∧ k3.ReadyList [3, 1] ∧
      k3.thread.state 2 = THREAD_PEND ∧ k3.thread.semaphorePending 2 = some 1 ∧
      OS_SemaphorePost 8 k3 1 = none :=
  ⟨_, _, _, rfl, by decide, by decide, by decide, by decide, rfl, by decide, by decide, rfl,
    by decide, by decide, by decide, by decide, by decide, rfl⟩

/-! ## C3, C4: the non-blocking branches of `OS_SemaphorePend` -/

/-- C3: `OS_SemaphorePend` with `Ticks == 0` on a semaphore whose count is at most 0 returns -1
and leaves the whole kernel state as it was. -/
theorem C3_pend_zero_ticks_unchanged (WAIT_FOREVER : Int) (fuel : Nat) (k : Kernel) (s : Nat)
    (h : k.semaphore.count s ≤ 0) :
    OS_SemaphorePend WAIT_FOREVER fuel k s 0 = some (k, .returned (-1)) := by
  unfold OS_SemaphorePend
  have h1 : k.semaphore.count s - 1 < 0 := by omega
  simp [h1, upd_self]

/-- C3, instance: main polls a semaphore of count 0. -/
theorem C3_pend_zero_ticks_unchanged_witness :
    OS_SemaphorePend (-1) 8 (semKernel 0) 1 0 = some (semKernel 0, .returned (-1)) :=
  C3_pend_zero_ticks_unchanged (-1) 8 (semKernel 0) 1 (by decide)

/-- C4: `OS_SemaphorePend` on a semaphore whose count is positive returns 0 at once, for every
`Ticks`; the resulting state is the state before the call with the count of the semaphore
decremented by 1 and nothing else changed. -/
theorem C4_pend_available (WAIT_FOREVER : Int) (fuel : Nat) (k : Kernel) (s : Nat) (Ticks : Int)
    (h : 0 < k.semaphore.count s) :
    OS_SemaphorePend WAIT_FOREVER fuel k s Ticks =
      some ({ k with semaphore.count := upd k.semaphore.count s (k.semaphore.count s - 1) },
        .returned 0) := by
  unfold OS_SemaphorePend
  have h1 : ¬ k.semaphore.count s - 1 < 0 := by omega
  simp [h1]

/-- C4, instance: main pends with a timeout of 5 ticks on a semaphore of count 2. -/
theorem C4_pend_available_witness :
    OS_SemaphorePend (-1) 8 (semKernel 2) 1 5 =
      some ({ semKernel 2 with
          semaphore.count := upd (semKernel 2).semaphore.count 1 (toInt32 2 - 1) },
        .returned 0) :=
  C4_pend_available (-1) 8 (semKernel 2) 1 5 (by decide)

/-! ## C7: the uniprocessor reschedule rule -/

/-- The selection of `OS_ThreadReschedule` on a sorted, non-empty ready list with head `h`. -/
theorem selectNext_spec (k : Kernel) (RoundRobin : Nat) (h : Nat) (l : List Nat)
    (hl : k.ReadyList (h :: l))
    (hs : (h :: l).Pairwise (fun a b => k.thread.priority b ≤ k.thread.priority a)) :
    ∃ n, selectNext k RoundRobin = some (some n) ∧
      ((k.ThreadCurrent = none ∨ ∃ c, k.ThreadCurrent = some c ∧
          (k.thread.state c = THREAD_PEND ∨ k.thread.priority c < k.thread.priority h)) →
        n = h) ∧
      (∀ c t, k.ThreadCurrent = some c → k.thread.state c ≠ THREAD_PEND →
        ¬ k.thread.priority c < k.thread.priority h → RoundRobin ≠ 0 →
        k.thread.next c = some t → k.thread.priority t = k.thread.priority c → n = t) ∧
      (∀ u ∈ h :: l, k.thread.priority u ≤ k.thread.priority n) := by
  have hhead : k.ThreadHead = some h := hl.1
  have hmax : ∀ u ∈ h :: l, k.thread.priority u ≤ k.thread.priority h := by
    intro u hu
    rcases List.mem_cons.mp hu with rfl | hu
    · exact Nat.le_refl _
    · exact List.rel_of_pairwise_cons hs hu
  unfold selectNext
  rw [hhead]
  cases hcur : k.ThreadCurrent with
  | none =>
    refine ⟨h, rfl, fun _ => rfl, ?_, hmax⟩
    intro c t hc; exact absurd hc (by simp)
  | some c =>
    dsimp only
    by_cases hp : k.thread.state c = THREAD_PEND
    · rw [if_pos hp]
      refine ⟨h, rfl, fun _ => rfl, ?_, hmax⟩
      intro c' t hc hne
      simp only [Option.some.injEq] at hc; subst hc; exact absurd hp hne
    · rw [if_neg hp]
      by_cases hlt : k.thread.priority c < k.thread.priority h
      · rw [if_pos hlt]
        refine ⟨h, rfl, fun _ => rfl, ?_, hmax⟩
        intro c' t hc _ hnlt
        simp only [Option.some.injEq] at hc; subst hc; exact absurd hlt hnlt
      · rw [if_neg hlt]
        have hcmax : ∀ u ∈ h :: l, k.thread.priority u ≤ k.thread.priority c :=
          fun u hu => Nat.le_trans (hmax u hu) (Nat.le_of_not_lt hlt)
        have hnohead : (k.ThreadCurrent = none ∨ ∃ c, k.ThreadCurrent = some c ∧
            (k.thread.state c = THREAD_PEND ∨ k.thread.priority c < k.thread.priority h)) →
            False := by
          rintro (h1 | ⟨c', h1, h2⟩)
          · rw [hcur] at h1; exact absurd h1 (by simp)
          · rw [hcur] at h1; simp only [Option.some.injEq] at h1; subst h1
            rcases h2 with h2 | h2
            · exact hp h2
            · exact hlt h2
        have hnohead' : ((some c : Option Nat) = none ∨ ∃ c', some c = some c' ∧
            (k.thread.state c' = THREAD_PEND ∨ k.thread.priority c' < k.thread.priority h)) →
            False := by rw [hcur] at hnohead; exact hnohead
        by_cases hrr : RoundRobin ≠ 0
        · rw [if_pos hrr]
          cases hnx : k.thread.next c with
          | none =>
            refine ⟨h, rfl, fun _ => rfl, ?_, hmax⟩
            intro c' t hc _ _ _ hnext
            simp only [Option.some.injEq] at hc; subst hc
            rw [hnx] at hnext; exact absurd hnext (by simp)
          | some t =>
            dsimp only
            by_cases hpe : k.thread.priority t = k.thread.priority c
            · rw [if_pos hpe]
              refine ⟨t, rfl, fun hh => (hnohead' hh).elim, ?_, ?_⟩
              · intro c' t' hc _ _ _ hnext _
                simp only [Option.some.injEq] at hc; subst hc
                rw [hnx] at hnext; simpa using hnext
              · intro u hu; rw [hpe]; exact hcmax u hu
            · rw [if_neg hpe]
              refine ⟨h, rfl, fun _ => rfl, ?_, hmax⟩
              intro c' t' hc _ _ _ hnext hpe'
              simp only [Option.some.injEq] at hc; subst hc
              rw [hnx] at hnext; simp only [Option.some.injEq] at hnext; subst hnext
              exact absurd hpe' hpe
        · rw [if_neg hrr]
          refine ⟨c, rfl, fun hh => (hnohead' hh).elim, ?_, hcmax⟩
          intro c' t hc _ _ hrr'
          exact absurd hrr' hrr

/-- C7: with swapping enabled and no ISR in progress, on a non-empty ready list sorted by
non-increasing priority (head `h`), `OS_ThreadReschedule` returns, changes nothing but
`ThreadCurrent`, and the thread `n` it makes current is: the head of the ready list when the
current thread is null, pended or of lower priority than the head; otherwise, when `RoundRobin`
is set and the successor of the current thread has the priority of the current thread, that
successor; and in every case a thread whose priority is at least that of every thread on the
ready list. -/
theorem C7_reschedule_selects_max (k : Kernel) (RoundRobin : Nat) (h : Nat) (l : List Nat)
    (hl : k.ReadyList (h :: l))
    (hs : (h :: l).Pairwise (fun a b => k.thread.priority b ≤ k.thread.priority a))
    (hsw : k.ThreadSwapEnabled ≠ 0) (hisr : k.InterruptInside = 0) :
    ∃ n, OS_ThreadReschedule k RoundRobin = some { k with ThreadCurrent := some n } ∧
      ((k.ThreadCurrent = none ∨ ∃ c, k.ThreadCurrent = some c ∧
          (k.thread.state c = THREAD_PEND ∨ k.thread.priority c < k.thread.priority h)) →
        n = h) ∧
      (∀ c t, k.ThreadCurrent = some c → k.thread.state c ≠ THREAD_PEND →
        ¬ k.thread.priority c < k.thread.priority h → RoundRobin ≠ 0 →
        k.thread.next c = some t → k.thread.priority t = k.thread.priority c → n = t) ∧
      (∀ u ∈ h :: l, k.thread.priority u ≤ k.thread.priority n) := by
  obtain ⟨n, hsel, h1, h2, h3⟩ := selectNext_spec k RoundRobin h l hl hs
  refine ⟨n, ?_, h1, h2, h3⟩
  have hcond : ¬ (k.ThreadSwapEnabled = 0 ∨ k.InterruptInside ≠ 0) := by
    simp [hsw, hisr]
  unfold OS_ThreadReschedule
  rw [if_neg hcond, hsel]
  dsimp only
  by_cases hcur : some n = k.ThreadCurrent
  · rw [if_neg (by simpa using hcur), hcur]
  · rw [if_pos hcur]

/-- C7, instance: the tick reschedule in scenario 1 after main has created T1, T2, T3. -/
theorem C7_reschedule_selects_max_witness :
    ∃ n, OS_ThreadReschedule (fifoScenario.getD bootKernel) 1 =
        some { fifoScenario.getD bootKernel with ThreadCurrent := some n } ∧
      (((fifoScenario.getD bootKernel).ThreadCurrent = none ∨
          ∃ c, (fifoScenario.getD bootKernel).ThreadCurrent = some c ∧
            ((fifoScenario.getD bootKernel).thread.state c = THREAD_PEND ∨
              (fifoScenario.getD bootKernel).thread.priority c <
                (fifoScenario.getD bootKernel).thread.priority 2)) →
        n = 2) ∧
      (∀ c t, (fifoScenario.getD bootKernel).ThreadCurrent = some c →
        (fifoScenario.getD bootKernel).thread.state c ≠ THREAD_PEND →
        ¬ (fifoScenario.getD bootKernel).thread.priority c <
          (fifoScenario.getD bootKernel).thread.priority 2 → (1 : Nat) ≠ 0 →
        (fifoScenario.getD bootKernel).thread.next c = some t →
        (fifoScenario.getD bootKernel).thread.priority t =
          (fifoScenario.getD bootKernel).thread.priority c → n = t) ∧
      (∀ u ∈ [2, 5, 4, 3, 1], (fifoScenario.getD bootKernel).thread.priority u ≤
        (fifoScenario.getD bootKernel).thread.priority n) :=
  C7_reschedule_selects_max (fifoScenario.getD bootKernel) 1 2 [5, 4, 3, 1] (by decide)
    (by decide) (by decide) (by decide)

/-! ## What the blocking calls leave unchanged -/

theorem upd_eq_self {α : Type} (f : Nat → α) (a : Nat) (v : α) (h : f a = v) :
    upd f a v = f := by
  rw [← h]; exact upd_self f a

theorem OS_ThreadPriorityInsert_some {fuel : Nat} {k k' : Kernel} {head : ListHead} {t : Nat}
    (h : OS_ThreadPriorityInsert fuel k head t = some k') :
    ∃ prev, k' = priorityInsertAt k head t prev := by
  unfold OS_ThreadPriorityInsert at h
  split at h
  · exact absurd h (by simp)
  · next prev _ => exact ⟨prev, by simpa using h.symm⟩

theorem OS_ThreadTimeoutInsert_some {fuel : Nat} {k k' : Kernel} {t : Nat}
    (h : OS_ThreadTimeoutInsert fuel k t = some k') :
    ∃ prev, k' = timeoutLink k t prev := by
  unfold OS_ThreadTimeoutInsert at h
  split at h
  · exact absurd h (by simp)
  · next prev _ => exact ⟨prev, by simpa using h.symm⟩

/-- A reschedule that returns changes at most `ThreadCurrent` and `ThreadNeedReschedule`. -/
theorem OS_ThreadReschedule_some {k k' : Kernel} {rr : Nat}
    (h : OS_ThreadReschedule k rr = some k') :
    ∃ c n, k' = { k with ThreadCurrent := c, ThreadNeedReschedule := n } := by
  unfold OS_ThreadReschedule at h
  split at h
  · exact ⟨k.ThreadCurrent, _, by simpa using h.symm⟩
  · split at h
    · exact absurd h (by simp)
    · split at h
      · split at h
        · exact absurd h (by simp)
        · exact ⟨_, _, (Option.some.inj h).symm⟩
      · exact ⟨k.ThreadCurrent, k.ThreadNeedReschedule, by simpa using h.symm⟩

theorem pendEnqueue_objects {WF : Int} {fuel : Nat} {k k' : Kernel} {s : Nat} {ticks : Int}
    {t : Nat} (h : pendEnqueue WF fuel k s ticks t = some k') :
    k'.mutex = k.mutex ∧ k'.mqueue = k.mqueue := by
  unfold pendEnqueue at h
  dsimp only at h
  split at h
  · exact absurd h (by simp)
  · next k5 h5 =>
    obtain ⟨prev, rfl⟩ := OS_ThreadPriorityInsert_some h5
    split at h
    · obtain ⟨prev2, rfl⟩ := OS_ThreadTimeoutInsert_some h
      simp
    · simp only [Option.some.injEq] at h
      subst h
      simp

/-- The function `OS_SemaphorePend` does not write to mutexes or message queues. -/
theorem OS_SemaphorePend_objects {WF : Int} {fuel : Nat} {k k' : Kernel} {s : Nat}
    {ticks : Int} {r : PendResult} (h : OS_SemaphorePend WF fuel k s ticks = some (k', r)) :
    k'.mutex = k.mutex ∧ k'.mqueue = k.mqueue := by
  unfold OS_SemaphorePend at h
  dsimp only at h
  split at h
  · split at h
    · simp only [Option.some.injEq, Prod.mk.injEq] at h
      rw [← h.1]; exact ⟨rfl, rfl⟩
    · split at h
      · exact absurd h (by simp)
      · split at h
        · exact absurd h (by simp)
        · next k6 h6 =>
          split at h
          · exact absurd h (by simp)
          · next k7 h7 =>
            obtain ⟨c, n, rfl⟩ := OS_ThreadReschedule_some h7
            have := pendEnqueue_objects h6
            split at h <;> simp only [Option.some.injEq, Prod.mk.injEq] at h <;>
              rw [← h.1] <;> exact this
  · simp only [Option.some.injEq, Prod.mk.injEq] at h
    rw [← h.1]; exact ⟨rfl, rfl⟩

theorem postWake_objects {fuel : Nat} {k k' : Kernel} {s t : Nat}
    (h : postWake fuel k s t = some k') : k'.mutex = k.mutex ∧ k'.mqueue = k.mqueue := by
  unfold postWake at h
  dsimp only at h
  split at h
  · exact absurd h (by simp)
  · next k4 h4 =>
    obtain ⟨prev, rfl⟩ := OS_ThreadPriorityInsert_some h4
    simp only [Option.some.injEq] at h
    subst h
    simp

/-- The function `OS_SemaphorePost` does not write to mutexes or message queues. -/
theorem OS_SemaphorePost_objects {fuel : Nat} {k k' : Kernel} {s : Nat}
    (h : OS_SemaphorePost fuel k s = some k') : k'.mutex = k.mutex ∧ k'.mqueue = k.mqueue := by
  unfold OS_SemaphorePost at h
  dsimp only at h
  split at h
  · split at h
    · exact absurd h (by simp)
    · split at h
      · exact absurd h (by simp)
      · next k6 h6 =>
        obtain ⟨c, n, rfl⟩ := OS_ThreadReschedule_some h
        have h7 := postWake_objects h6
        exact h7
  · simp only [Option.some.injEq] at h
    subst h; exact ⟨rfl, rfl⟩

/-! ## C8: the recursive mutex -/

/-- The owner is null and the count is 0, or there is an owner and the count is positive. -/
theorem MutexReach_inv {WF : Int} {M : Nat} {k : Kernel} (h : MutexReach WF M k) :
    (k.mutex.thread M = none ∧ k.mutex.count M = 0) ∨
      (k.mutex.thread M ≠ none ∧ 0 < k.mutex.count M) := by
  induction h with
  | create k s => left; simp [OS_MutexCreate]
  | pend fuel k k' b _ hcur hp ih =>
    unfold OS_MutexPend at hp
    dsimp only at hp
    split at hp
    · next hown =>
      simp only [Option.some.injEq, Prod.mk.injEq] at hp
      rw [← hp.1]
      right
      rcases ih with ⟨h1, _⟩ | ⟨h1, h2⟩
      · rw [h1] at hown; exact absurd hown hcur
      · refine ⟨h1, ?_⟩
        simp only [upd_same]; omega
    · split at hp
      · exact absurd hp (by simp)
      · next k1 hs =>
        simp only [Option.some.injEq, Prod.mk.injEq] at hp
        rw [← hp.1, (OS_SemaphorePend_objects hs).1]
        exact ih
      · next k1 rc hs =>
        simp only [Option.some.injEq, Prod.mk.injEq] at hp
        rw [← hp.1]
        right
        cases hc : k.ThreadCurrent with
        | none => exact absurd hc hcur
        | some t => simp [OS_MutexPend_resume]
  | resume k t _ _ => right; simp [OS_MutexPend_resume]
  | post fuel k k' _ hcur hown hp ih =>
    unfold OS_MutexPost at hp
    dsimp only at hp
    rcases ih with ⟨h1, _⟩ | ⟨h1, h2⟩
    · rw [h1] at hown; exact absurd hown.symm hcur
    · split at hp
      · next hle =>
        simp only [upd_same] at hle
        rw [(OS_SemaphorePost_objects hp).1]
        left
        simp only [upd_same, true_and]
        omega
      · next hgt =>
        simp only [upd_same] at hgt
        simp only [Option.some.injEq] at hp
        rw [← hp]
        right
        refine ⟨h1, ?_⟩
        simp only [upd_same]; omega
  | other k k' _ h1 h2 ih => rw [h1, h2]; exact ih

/-- A pend on an available semaphore takes one unit and returns 0. -/
theorem OS_SemaphorePend_available (WF : Int) (fuel : Nat) (k : Kernel) (s : Nat) (Ticks : Int)
    (h : 0 < k.semaphore.count s) :
    OS_SemaphorePend WF fuel k s Ticks =
      some ({ k with semaphore.count := upd k.semaphore.count s (k.semaphore.count s - 1) },
        .returned 0) := by
  have h1 : ¬ k.semaphore.count s - 1 < 0 := by omega
  simp [OS_SemaphorePend, h1]

/-- The first pend on a free mutex whose semaphore is available takes it. -/
theorem OS_MutexPend_free (WF : Int) (fuel : Nat) (k : Kernel) (M t : Nat)
    (hcur : k.ThreadCurrent = some t) (hfree : k.mutex.thread M = none)
    (hsem : 0 < k.semaphore.count (k.mutex.semaphore M)) :
    OS_MutexPend WF fuel k M = some (mutexHeld k M t 1, false) := by
  unfold OS_MutexPend
  dsimp only
  rw [if_neg (by rw [hcur, hfree]; simp), OS_SemaphorePend_available WF fuel k _ WF hsem]
  simp [OS_MutexPend_resume, mutexHeld, hcur]

/-- A pend by the owner only increments the recursion count. -/
theorem OS_MutexPend_held (WF : Int) (fuel : Nat) (k : Kernel) (M t : Nat) (i : Nat)
    (hcur : k.ThreadCurrent = some t) :
    OS_MutexPend WF fuel (mutexHeld k M t i) M = some (mutexHeld k M t (i + 1), false) := by
  unfold OS_MutexPend
  dsimp only
  rw [if_pos (by simp [mutexHeld, hcur])]
  simp [mutexHeld]

theorem mutexPends_held (WF : Int) (fuel : Nat) (k : Kernel) (M t : Nat)
    (hcur : k.ThreadCurrent = some t) (j i : Nat) :
    mutexPends WF fuel M j (mutexHeld k M t i) = some (mutexHeld k M t (i + j)) := by
  induction j generalizing i with
  | zero => rfl
  | succ j ih =>
    simp only [mutexPends, OS_MutexPend_held WF fuel k M t i hcur]
    rw [ih (i + 1)]
    congr 2
    omega

/-- A post by the owner at recursion count at least 2 only decrements the count. -/
theorem OS_MutexPost_held (fuel : Nat) (k : Kernel) (M t : Nat) (i : Nat) (hi : 2 ≤ i) :
    OS_MutexPost fuel (mutexHeld k M t i) M = some (mutexHeld k M t (i - 1)) := by
  unfold OS_MutexPost
  dsimp only
  have h1 : ¬ (upd (mutexHeld k M t i).mutex.count M ((mutexHeld k M t i).mutex.count M - 1) M
      ≤ 0) := by
    simp only [upd_same, mutexHeld]; omega
  rw [if_neg h1]
  simp only [mutexHeld, upd_same, upd_upd]
  have h2 : ((i : Int) - 1) = ((i - 1 : Nat) : Int) := by omega
  rw [h2]

/-- The post at recursion count 1 releases the semaphore and gives back the state before the
first pend. -/
theorem OS_MutexPost_last (fuel : Nat) (k : Kernel) (M t : Nat)
    (hfree : k.mutex.thread M = none) (hzero : k.mutex.count M = 0)
    (hsem : 0 < k.semaphore.count (k.mutex.semaphore M)) :
    OS_MutexPost fuel (mutexHeld k M t 1) M = some k := by
  unfold OS_MutexPost
  dsimp only
  have h1 : upd (mutexHeld k M t 1).mutex.count M ((mutexHeld k M t 1).mutex.count M - 1) M
      ≤ 0 := by
    simp only [upd_same, mutexHeld]; omega
  rw [if_pos h1]
  unfold OS_SemaphorePost
  dsimp only
  have h2 : ¬ (upd (mutexHeld k M t 1).semaphore.count (k.mutex.semaphore M)
      ((mutexHeld k M t 1).semaphore.count (k.mutex.semaphore M) + 1)
      (k.mutex.semaphore M) ≤ 0) := by
    simp only [upd_same, mutexHeld]; omega
  have hS : (mutexHeld k M t 1).mutex.semaphore M = k.mutex.semaphore M := rfl
  rw [hS, if_neg h2]
  simp only [mutexHeld, upd_same, upd_upd, Nat.cast_one, sub_self, sub_add_cancel]
  rw [upd_eq_self k.mutex.thread M none hfree, upd_eq_self k.mutex.count M 0 hzero, upd_self]

theorem mutexPosts_held (fuel : Nat) (k : Kernel) (M t : Nat) (j n : Nat) (hj : j < n) :
    mutexPosts fuel M j (mutexHeld k M t n) = some (mutexHeld k M t (n - j)) := by
  induction j generalizing n with
  | zero => rfl
  | succ j ih =>
    simp only [mutexPosts, OS_MutexPost_held fuel k M t n (by omega), Option.some_bind]
    rw [ih (n - 1) (by omega)]
    congr 2
    omega

theorem mutexPosts_succ (fuel : Nat) (M : Nat) (m : Nat) (k0 : Kernel) :
    mutexPosts fuel M (m + 1) k0 =
      (mutexPosts fuel M m k0).bind (fun k' => OS_MutexPost fuel k' M) := by
  induction m generalizing k0 with
  | zero => simp [mutexPosts]
  | succ m ih =>
    rw [mutexPosts]
    cases hp : OS_MutexPost fuel k0 M with
    | none => simp [mutexPosts, hp]
    | some k1 =>
      simp only [Option.some_bind]
      rw [ih k1]
      conv_rhs => rw [mutexPosts, hp]
      simp

/-- Unlinking the first node of a list in memory. -/
theorem IsChain_tail {nx nx' : Nat → Option Nat} {l : List Nat} {h : Option Nat} {t : Nat}
    (hc : IsChain nx h (t :: l)) (h1 : ∀ a, a ≠ t → nx' a = nx a) : IsChain nx' (nx t) l := by
  have hnd := IsChain_nodup hc
  have ht : t ∉ l := (List.nodup_cons.mp hnd).1
  exact IsSeg_congr hc.2 (fun a ha => h1 a (fun e => ht (e ▸ ha)))

/-- Unlinking the node `t` that follows the node `p` of a list in memory. -/
theorem IsChain_unlink {nx nx' : Nat → Option Nat} {l1 l2 : List Nat} {h : Option Nat}
    {p t : Nat} (hc : IsChain nx h (l1 ++ p :: t :: l2)) (h1 : nx' p = nx t)
    (h2 : ∀ a, a ≠ p → a ≠ t → nx' a = nx a) : IsChain nx' h (l1 ++ p :: l2) := by
  have hnd := IsChain_nodup hc
  obtain ⟨m, hm1, hm2⟩ := IsSeg_split hc
  have hnd2 := (List.nodup_append.mp hnd).2.1
  have hdis := (List.nodup_append.mp hnd).2.2
  have hp1 : p ∉ l1 := fun hp => hdis hp (List.mem_cons_self p _)
  have ht1 : t ∉ l1 := fun ht => hdis ht (List.mem_cons_of_mem p (List.mem_cons_self t l2))
  have hp2 : p ∉ l2 := fun hp =>
    (List.nodup_cons.mp hnd2).1 (List.mem_cons_of_mem t hp)
  have ht2 : t ∉ l2 := (List.nodup_cons.mp (List.nodup_cons.mp hnd2).2).1
  refine IsSeg_append (IsSeg_congr hm1 ?_) ⟨hm2.1, ?_⟩
  · intro a ha
    exact h2 a (fun e => hp1 (e ▸ ha)) (fun e => ht1 (e ▸ ha))
  · rw [h1]
    exact IsSeg_congr hm2.2.2 (fun a ha => h2 a (fun e => hp2 (e ▸ ha)) (fun e => ht2 (e ▸ ha)))

/-- The back link of a node of a doubly linked list is its predecessor. -/
theorem IsDChain_prev {nx pv : Nat → Option Nat} {l1 l2 : List Nat} {pp p : Option Nat} {t : Nat}
    (h : IsDChain nx pv pp p (l1 ++ t :: l2)) : pv t = lastOr pp l1 := by
  induction l1 generalizing pp p with
  | nil => exact h.2.1
  | cons a l ih => exact ih h.2.2

/-- Removing the node `t` from a list without repetition, cut at `t`. -/
theorem erase_mid (l1 l2 : List Nat) (t : Nat) (h : t ∉ l1) :
    (l1 ++ t :: l2).erase t = l1 ++ l2 := by
  rw [List.erase_append_right _ h, List.erase_cons_head]

/-- The general unlinking step: in a list `l1 ++ t :: l2` the node `t` whose back link is
`lastOr none l1` is unlinked by the code of the two remove functions. -/
theorem IsChain_remove {nx : Nat → Option Nat} {l1 l2 : List Nat} {h : Option Nat} {t : Nat}
    (hc : IsChain nx h (l1 ++ t :: l2)) :
    IsChain
      (match lastOr none l1 with
        | none => upd nx t none
        | some p => upd (upd nx p (nx t)) t none)
      (match lastOr none l1 with
        | none => nx t
        | some _ => h)
      (l1 ++ l2) := by
  rcases lastOr_cases l1 with ⟨rfl, hlast⟩ | ⟨l0, p, rfl, hlast⟩
  · rw [hlast]
    exact IsChain_tail hc (fun a ha => upd_ne _ _ ha)
  · rw [hlast]
    simp only [List.append_assoc, List.singleton_append] at hc ⊢
    have hnd := IsChain_nodup hc
    have hpt : p ≠ t := by
      intro e
      have := (List.nodup_cons.mp (List.nodup_append.mp hnd).2.1).1
      exact this (e ▸ List.mem_cons_self t l2)
    refine IsChain_unlink hc ?_ ?_
    · rw [upd_ne _ _ hpt, upd_same]
    · intro a h1 h2
      rw [upd_ne _ _ h2, upd_ne _ _ h1]

/-- The list at `head` after `OS_ThreadPriorityRemove` of a thread of the list whose `prev`
link is its predecessor. -/
theorem OS_ThreadPriorityRemove_list (k : Kernel) (head : ListHead) (t : Nat) (l1 l2 : List Nat)
    (hl : k.ListAt head (l1 ++ t :: l2)) (hprev : k.thread.prev t = lastOr none l1) :
    (OS_ThreadPriorityRemove k head t).ListAt head (l1 ++ l2) := by
  unfold Kernel.ListAt at hl ⊢
  rw [OS_ThreadPriorityRemove_next, OS_ThreadPriorityRemove_getHead, hprev]
  exact IsChain_remove hl

/-- The `nextTimeout` links after `OS_ThreadTimeoutRemove` of a thread that is in the list. -/
theorem OS_ThreadTimeoutRemove_nextTimeout (k : Kernel) (t : Nat)
    (h : ¬ (k.thread.prevTimeout t = none ∧ k.TimeoutHead ≠ some t)) :
    (OS_ThreadTimeoutRemove k t).thread.nextTimeout =
      match k.thread.prevTimeout t with
      | none => upd k.thread.nextTimeout t none
      | some p => upd (upd k.thread.nextTimeout p (k.thread.nextTimeout t)) t none := by
  unfold OS_ThreadTimeoutRemove
  rw [if_neg h]
  dsimp only
  (repeat' split) <;> simp_all

/-- The head of the timeout list after `OS_ThreadTimeoutRemove` of a thread that is in the
list. -/
theorem OS_ThreadTimeoutRemove_TimeoutHead (k : Kernel) (t : Nat)
    (h : ¬ (k.thread.prevTimeout t = none ∧ k.TimeoutHead ≠ some t)) :
    (OS_ThreadTimeoutRemove k t).TimeoutHead =
      match k.thread.prevTimeout t with
      | none => k.thread.nextTimeout t
      | some _ => k.TimeoutHead := by
  unfold OS_ThreadTimeoutRemove
  rw [if_neg h]
  dsimp only
  (repeat' split) <;> simp_all

/-- The timeout list after `OS_ThreadTimeoutRemove`: the thread is no longer on it, the other
threads are, in the same order. -/
theorem OS_ThreadTimeoutRemove_list (k : Kernel) (t : Nat) (T : List Nat)
    (hT : k.TimeoutList T) (hnot : t ∉ T → k.thread.prevTimeout t = none) :
    IsChain (OS_ThreadTimeoutRemove k t).thread.nextTimeout
      (OS_ThreadTimeoutRemove k t).TimeoutHead (T.erase t) := by
  unfold Kernel.TimeoutList at hT
  by_cases hmem : t ∈ T
  · obtain ⟨l1, l2, rfl⟩ := List.append_of_mem hmem
    have hnd := IsChain_nodup (IsDChain_isChain hT)
    have ht1 : t ∉ l1 := fun e =>
      (List.nodup_append.mp hnd).2.2 e (List.mem_cons_self t l2)
    have hpv : k.thread.prevTimeout t = lastOr none l1 := IsDChain_prev hT
    have hcond : ¬ (k.thread.prevTimeout t = none ∧ k.TimeoutHead ≠ some t) := by
      rintro ⟨h1, h2⟩
      rcases lastOr_cases l1 with ⟨rfl, _⟩ | ⟨l0, p, rfl, hlast⟩
      · exact h2 hT.1
      · rw [hpv, hlast] at h1; exact absurd h1 (by simp)
    rw [OS_ThreadTimeoutRemove_nextTimeout k t hcond, OS_ThreadTimeoutRemove_TimeoutHead k t hcond,
      erase_mid l1 l2 t ht1, hpv]
    exact IsChain_remove (IsDChain_isChain hT)
  · have hcond : k.thread.prevTimeout t = none ∧ k.TimeoutHead ≠ some t := by
      refine ⟨hnot hmem, ?_⟩
      intro e
      cases T with
      | nil => rw [hT] at e; exact absurd e (by simp)
      | cons a T =>
        have := hT.1
        rw [e] at this
        simp only [Option.some.injEq] at this
        exact hmem (this ▸ List.mem_cons_self a T)
    rw [List.erase_of_not_mem hmem]
    unfold OS_ThreadTimeoutRemove
    rw [if_pos hcond]
    exact IsDChain_isChain hT

/-- A reschedule on a non-empty ready list returns. -/
theorem OS_ThreadReschedule_returns (k : Kernel) (rr : Nat) (h : k.ThreadHead ≠ none) :
    ∃ c n, OS_ThreadReschedule k rr =
      some { k with ThreadCurrent := c, ThreadNeedReschedule := n } := by
  obtain ⟨hd, hhd⟩ : ∃ hd, k.ThreadHead = some hd := Option.ne_none_iff_exists'.mp h
  have hsel : ∃ n, selectNext k rr = some (some n) := by
    unfold selectNext
    rw [hhd]
    dsimp only
    (repeat' split) <;> exact ⟨_, rfl⟩
  obtain ⟨n, hn⟩ := hsel
  unfold OS_ThreadReschedule
  split
  · exact ⟨_, _, rfl⟩
  · rw [hn]
    dsimp only
    split
    · exact ⟨_, _, rfl⟩
    · next hh =>
      refine ⟨k.ThreadCurrent, k.ThreadNeedReschedule, ?_⟩
      cases k; rfl

/-! ## C5: `OS_SemaphorePost` -/

/-- A post on a semaphore whose count is not negative only increments the count. -/
theorem OS_SemaphorePost_no_waiter (fuel : Nat) (k : Kernel) (s : Nat)
    (h : 0 ≤ k.semaphore.count s) :
    OS_SemaphorePost fuel k s =
      some { k with
        semaphore.count := upd k.semaphore.count s (k.semaphore.count s + 1) } := by
  have h1 : ¬ k.semaphore.count s + 1 ≤ 0 := by omega
  simp [OS_SemaphorePost, h1]

/-- The waking branch of `OS_SemaphorePost` on well-formed lists: the head `w` of the waiter
list leaves the waiter list and the timeout list and is inserted on the ready list. -/
theorem postWake_spec (fuel : Nat) (k : Kernel) (s w : Nat) (ws R T : List Nat)
    (hW : k.WaiterList s (w :: ws)) (hprev : k.thread.prev w = none)
    (hR : k.ReadyList R) (hwR : w ∉ R) (hdisj : ∀ u ∈ ws, u ∉ R)
    (hT : k.TimeoutList T) (hwT : w ∉ T → k.thread.prevTimeout w = none)
    (hf : R.length < fuel) :
    ∃ k' R1 R2, postWake fuel k s w = some k' ∧
      k'.semaphore.count = k.semaphore.count ∧
      k'.WaiterList s ws ∧
      IsChain k'.thread.nextTimeout k'.TimeoutHead (T.erase w) ∧
      R = R1 ++ R2 ∧ k'.ReadyList (R1 ++ w :: R2) ∧
      (∀ u ∈ R1, k.thread.priority w < k.thread.priority u) ∧
      (∀ b ∈ R2.head?, k.thread.priority b ≤ k.thread.priority w) ∧
      k'.thread.state w = THREAD_READY ∧ k'.thread.returnCode w = 0 ∧
      k'.thread.semaphorePending w = none ∧ k'.thread.priority = k.thread.priority ∧
      k'.mutex = k.mutex ∧ k'.mqueue = k.mqueue := by
  have hnd := IsChain_nodup hW
  have hwws : w ∉ ws := (List.nodup_cons.mp hnd).1
  -- the state after the two removals
  have hprev2 : (OS_ThreadTimeoutRemove k w).thread.prev w = none := by
    rw [OS_ThreadTimeoutRemove_prev]; exact hprev
  have hnext3 : (OS_ThreadPriorityRemove (OS_ThreadTimeoutRemove k w) (.waiters s) w).thread.next
      = upd k.thread.next w none := by
    rw [OS_ThreadPriorityRemove_next, hprev2, OS_ThreadTimeoutRemove_next]
  have hhead3 : (OS_ThreadPriorityRemove (OS_ThreadTimeoutRemove k w) (.waiters s) w).getHead
      (.waiters s) = k.thread.next w := by
    rw [OS_ThreadPriorityRemove_getHead, hprev2, OS_ThreadTimeoutRemove_next]
  have hR3 : (OS_ThreadPriorityRemove (OS_ThreadTimeoutRemove k w) (.waiters s) w).ListAt
      .ready R := by
    unfold Kernel.ListAt
    rw [hnext3]
    simp only [Kernel.getHead, OS_ThreadPriorityRemove_ThreadHead,
      OS_ThreadTimeoutRemove_ThreadHead]
    exact IsSeg_congr hR (fun a ha => upd_ne _ _ (fun e => hwR (e ▸ ha)))
  obtain ⟨R1, R2, rfl, hR1, hR2, hins, hlist⟩ :=
    OS_ThreadPriorityInsert_spec fuel _ .ready w _ hR3 hwR hf
  simp only [OS_ThreadPriorityRemove_priority, OS_ThreadTimeoutRemove_priority] at hR1 hR2
  obtain ⟨k', hk', hpw⟩ : ∃ k', k' = postWake fuel k s w ∧ postWake fuel k s w = k' := ⟨_, rfl, rfl⟩
  unfold postWake at hk'
  dsimp only at hk'
  rw [hins] at hk'
  dsimp only at hk'
  subst hk'
  refine ⟨_, R1, R2, hpw, ?_, ?_, ?_, rfl, ?_, hR1, hR2, ?_, ?_, ?_, ?_, ?_, ?_⟩
  · simp
  · -- the waiter list
    unfold Kernel.WaiterList
    dsimp only
    rw [priorityInsertAt_semaphore, priorityInsertAt_next, priorityLink_next, hnext3]
    have hh := hhead3
    simp only [Kernel.getHead] at hh
    rw [hh]
    have hbase : IsChain k.thread.next (k.thread.next w) ws := hW.2
    refine IsSeg_congr hbase ?_
    intro a ha
    have haw : a ≠ w := fun e => hwws (e ▸ ha)
    rcases lastOr_cases R1 with ⟨_, hlast⟩ | ⟨l0, p, hl0, hlast⟩
    · rw [hlast]
      dsimp only
      rw [upd_ne _ _ haw, upd_ne _ _ haw]
    · rw [hlast]
      dsimp only
      have hap : a ≠ p := by
        intro e
        apply hdisj a ha
        rw [hl0, e]
        simp
      rw [upd_ne _ _ hap, upd_ne _ _ haw, upd_ne _ _ haw]
  · -- the timeout list
    dsimp only
    simp only [priorityInsertAt_nextTimeout, priorityInsertAt_TimeoutHead,
      OS_ThreadPriorityRemove_nextTimeout, OS_ThreadPriorityRemove_TimeoutHead]
    exact OS_ThreadTimeoutRemove_list k w T hT hwT
  · exact hlist
  · simp
  · simp
  · simp
  · simp
  · simp
  · simp

/-- C5: `OS_SemaphorePost` on a semaphore with count below 0 whose waiter list is `w :: ws`
(with the rest of the lists well formed: `w` heads its list, is not on the ready list `R`, no
waiter is on the ready list, the timeout list `T` is doubly linked and `w` is on it or has a
null back link) returns, and in the resulting state: the count is one more; the waiter list is
`ws`; the timeout list is `T` without `w`; the ready list is `R` with `w` inserted in front of
the first thread whose priority is at most its own; `w` is `THREAD_READY` with return code 0
and no pending semaphore.  On a sorted waiter list `w` has the highest priority.  With a count
of at least 0 (no waiter) the call only increments the count. -/
theorem C5_post_wakes_head (fuel : Nat) (k : Kernel) (s w : Nat) (ws R T : List Nat)
    (hcount : k.semaphore.count s < 0)
    (hW : k.WaiterList s (w :: ws)) (hprev : k.thread.prev w = none)
    (hR : k.ReadyList R) (hwR : w ∉ R) (hdisj : ∀ u ∈ ws, u ∉ R)
    (hT : k.TimeoutList T) (hwT : w ∉ T → k.thread.prevTimeout w = none)
    (hf : R.length < fuel) :
    (∃ k' R1 R2, OS_SemaphorePost fuel k s = some k' ∧
      k'.semaphore.count s = k.semaphore.count s + 1 ∧
      k'.WaiterList s ws ∧
      IsChain k'.thread.nextTimeout k'.TimeoutHead (T.erase w) ∧ w ∉ T.erase w ∧
      R = R1 ++ R2 ∧ k'.ReadyList (R1 ++ w :: R2) ∧
      (∀ u ∈ R1, k.thread.priority w < k.thread.priority u) ∧
      (∀ b ∈ R2.head?, k.thread.priority b ≤ k.thread.priority w) ∧
      k'.thread.state w = THREAD_READY ∧ k'.thread.returnCode w = 0 ∧
      k'.thread.semaphorePending w = none) ∧
    ((w :: ws).Pairwise (fun a b => k.thread.priority b ≤ k.thread.priority a) →
      ∀ u ∈ ws, k.thread.priority u ≤ k.thread.priority w) ∧
    (∀ k0 : Kernel, 0 ≤ k0.semaphore.count s → OS_SemaphorePost fuel k0 s =
      some { k0 with
        semaphore.count := upd k0.semaphore.count s (k0.semaphore.count s + 1) }) := by
  refine ⟨?_, fun hs u hu => List.rel_of_pairwise_cons hs hu, fun k0 h0 => ?_⟩
  · have hc1 : k.semaphore.count s + 1 ≤ 0 := by omega
    have hhead : k.semaphore.threadHead s = some w := hW.1
    obtain ⟨k6, R1, R2, hpw, h1, h2, h3, h4, h5, h6, h7, h8, h9, h10, _, _, _⟩ :=
      postWake_spec fuel
        { k with semaphore.count := upd k.semaphore.count s (k.semaphore.count s + 1) }
        s w ws R T hW hprev hR hwR hdisj hT hwT hf
    have hne : k6.ThreadHead ≠ none := by
      have hh : k6.ThreadHead = (R1 ++ w :: R2).head? := by
        unfold Kernel.ReadyList at h5
        cases R1 with
        | nil => exact h5.1
        | cons a R1 => exact h5.1
      rw [hh]
      cases R1 <;> simp
    obtain ⟨c, n, hres⟩ := OS_ThreadReschedule_returns k6 0 hne
    have hnodupT : (T.erase w).Nodup := IsChain_nodup h3
    refine ⟨{ k6 with ThreadCurrent := c, ThreadNeedReschedule := n }, R1, R2, ?_, ?_, h2, h3,
      ?_, h4, h5, h6, h7, h8, h9, h10⟩
    · unfold OS_SemaphorePost
      dsimp only
      rw [if_pos (by simpa using hc1), hhead]
      dsimp only
      rw [hpw]
      dsimp only
      exact hres
    · dsimp only
      rw [h1]
      simp
    · have hTn : T.Nodup := IsChain_nodup (IsDChain_isChain hT)
      exact fun hm => (List.Nodup.mem_erase_iff hTn).mp hm |>.1 rfl
  · have h1 : ¬ k0.semaphore.count s + 1 ≤ 0 := by omega
    simp [OS_SemaphorePost, h1]

/-- C5, instance: A (thread 2) posts the semaphore on which B (thread 3, priority 200) is
pended with a timeout; the ready list is A, idle and the timeout list is B. -/
theorem C5_post_wakes_head_witness :
    (∃ k' R1 R2, OS_SemaphorePost 8 waiterKernel 1 = some k' ∧
      k'.semaphore.count 1 = waiterKernel.semaphore.count 1 + 1 ∧
      k'.WaiterList 1 [] ∧
      IsChain k'.thread.nextTimeout k'.TimeoutHead ([3].erase 3) ∧ 3 ∉ [3].erase 3 ∧
      [2, 1] = R1 ++ R2 ∧ k'.ReadyList (R1 ++ 3 :: R2) ∧
      (∀ u ∈ R1, waiterKernel.thread.priority 3 < waiterKernel.thread.priority u) ∧
      (∀ b ∈ R2.head?, waiterKernel.thread.priority b ≤ waiterKernel.thread.priority 3) ∧
      k'.thread.state 3 = THREAD_READY ∧ k'.thread.returnCode 3 = 0 ∧
      k'.thread.semaphorePending 3 = none) ∧
    ([3].Pairwise (fun a b => waiterKernel.thread.priority b ≤ waiterKernel.thread.priority a) →
      ∀ u ∈ ([] : List Nat), waiterKernel.thread.priority u ≤ waiterKernel.thread.priority 3) ∧
    (∀ k0 : Kernel, 0 ≤ k0.semaphore.count 1 → OS_SemaphorePost 8 k0 1 =
      some { k0 with
        semaphore.count := upd k0.semaphore.count 1 (k0.semaphore.count 1 + 1) }) :=
  C5_post_wakes_head 8 waiterKernel 1 3 [] [2, 1] [3] (by decide) (by decide) (by decide)
    (by decide) (by decide) (by decide) (by decide) (by decide) (by decide)

/-! ## C10: `OS_MQueueSend` on a full queue -/

/-- A post returns when the count is not negative or the lists are well formed. -/
theorem OS_SemaphorePost_returns (fuel : Nat) (k : Kernel) (s : Nat)
    (h : 0 ≤ k.semaphore.count s ∨ k.WakeReady fuel s) :
    ∃ k', OS_SemaphorePost fuel k s = some k' ∧ k'.mqueue = k.mqueue := by
  by_cases hc : 0 ≤ k.semaphore.count s
  · exact ⟨_, OS_SemaphorePost_no_waiter fuel k s hc, rfl⟩
  · rcases h with h | ⟨w, ws, R, T, hW, hprev, hR, hwR, hdisj, hT, hwT, hf⟩
    · exact absurd h hc
    · obtain ⟨k6, R1, R2, hpw, _, _, _, _, h5, _, _, _, _, _, _, _, hq⟩ :=
        postWake_spec fuel
          { k with semaphore.count := upd k.semaphore.count s (k.semaphore.count s + 1) }
          s w ws R T hW hprev hR hwR hdisj hT hwT hf
      have hne : k6.ThreadHead ≠ none := by
        have hh : k6.ThreadHead = (R1 ++ w :: R2).head? := by
          unfold Kernel.ReadyList at h5
          cases R1 with
          | nil => exact h5.1
          | cons a R1 => exact h5.1
        rw [hh]
        cases R1 <;> simp
      obtain ⟨c, n, hres⟩ := OS_ThreadReschedule_returns k6 0 hne
      refine ⟨{ k6 with ThreadCurrent := c, ThreadNeedReschedule := n }, ?_, hq⟩
      unfold OS_SemaphorePost
      dsimp only
      rw [if_pos (by simp only [upd_same]; omega), hW.1]
      dsimp only
      rw [hpw]
      dsimp only
      exact hres

/-- The store of a message changes only the message queues. -/
theorem mqueueStore_eq (k : Kernel) (q : Nat) (m : Int → Nat) :
    mqueueStore k q m = { k with mqueue := (mqueueStore k q m).mqueue } := by
  unfold mqueueStore
  dsimp only
  split <;> rfl

@[simp] theorem mqueueStore_semaphore (k : Kernel) (q : Nat) (m : Int → Nat) :
    (mqueueStore k q m).mqueue.semaphore = k.mqueue.semaphore := by
  unfold mqueueStore
  dsimp only
  split <;> rfl

/-- C10: `OS_MQueueSend` on a full queue (`used` equal to `count`, or above) returns -1 and
leaves the whole kernel state, so the queue, its storage and its semaphore, as it was.  On a
queue that is not full it returns 0, provided the post of the queue's semaphore can complete
(its count is not negative, or the lists are well formed for waking the head waiter). -/
theorem C10_send_full_queue (fuel : Nat) (k : Kernel) (q : Nat) (m : Int → Nat) :
    (k.mqueue.count q ≤ k.mqueue.used q → OS_MQueueSend fuel k q m = some (k, -1)) ∧
    (k.mqueue.used q < k.mqueue.count q →
      (0 ≤ k.semaphore.count (k.mqueue.semaphore q) ∨
        k.WakeReady fuel (k.mqueue.semaphore q)) →
      ∃ k', OS_MQueueSend fuel k q m = some (k', 0)) := by
  constructor
  · intro h
    unfold OS_MQueueSend
    dsimp only
    rw [if_pos (by simp only [upd_same]; omega)]
    simp [upd_self]
  · intro h hpost
    unfold OS_MQueueSend
    dsimp only
    rw [if_neg (by simp only [upd_same]; omega), mqueueStore_semaphore]
    dsimp only
    rw [mqueueStore_eq]
    obtain ⟨k', hk', _⟩ := OS_SemaphorePost_returns fuel
      { k with mqueue := (mqueueStore
        { k with mqueue.used := upd k.mqueue.used q (k.mqueue.used q + 1) } q m).mqueue }
      (k.mqueue.semaphore q) hpost
    exact ⟨k', by rw [hk']⟩

/-- C10, instance: a third message is sent to a full queue of two slots, and a first message
to the fresh queue. -/
theorem C10_send_full_queue_witness :
    OS_MQueueSend 8 fullQueueKernel 1 (constMessage 5) = some (fullQueueKernel, -1) ∧
    ∃ k', OS_MQueueSend 8 queueKernel 1 (constMessage 5) = some (k', 0) :=
  ⟨(C10_send_full_queue 8 fullQueueKernel 1 (constMessage 5)).1 (by decide),
    (C10_send_full_queue 8 queueKernel 1 (constMessage 5)).2 (by decide)
      (Or.inl (by decide))⟩

/-! ## C9: message queue round trip -/

theorem copyWords_apply (mem : Int → Nat) (d : Int) (src : Int → Nat) (s : Int) (n : Nat)
    (j : Int) :
    copyWords mem d src s n j = if d ≤ j ∧ j < d + n then src (s + (j - d)) else mem j := by
  induction n with
  | zero =>
    have : ¬ (d ≤ j ∧ j < d + ((0 : Nat) : Int)) := by omega
    simp only [copyWords, if_neg this]
  | succ n ih =>
    simp only [copyWords]
    by_cases h : j = d + (n : Int)
    · have h2 : d ≤ j ∧ j < d + ((n + 1 : Nat) : Int) := by omega
      rw [if_pos h, if_pos h2]
      congr 1
      omega
    · rw [if_neg h, ih]
      by_cases h3 : d ≤ j ∧ j < d + (n : Int)
      · have h4 : d ≤ j ∧ j < d + ((n + 1 : Nat) : Int) := by omega
        rw [if_pos h3, if_pos h4]
      · have h4 : ¬ (d ≤ j ∧ j < d + ((n + 1 : Nat) : Int)) := by omega
        rw [if_neg h3, if_neg h4]

theorem messageWords_congr (sz : Int) (f g : Int → Nat)
    (h : ∀ i : Nat, (i : Int) < sz → f i = g i) : messageWords sz f = messageWords sz g := by
  unfold messageWords
  apply List.map_congr_left
  intro i hi
  apply h
  have := List.mem_range.mp hi
  omega

theorem nextSlot_slotAt (c r : Int) (j : Nat) (hr : r < c) (hj : (j : Int) < c) :
    nextSlot c (slotAt c r j) = slotAt c r (j + 1) := by
  unfold nextSlot slotAt
  push_cast
  split_ifs <;> omega

theorem slotAt_ne (c r : Int) (i j : Nat) (hij : i < j)
    (hj : (j : Int) ≤ c) (hjc : (j : Int) < c ∨ 0 < i) : slotAt c r i ≠ slotAt c r j := by
  unfold slotAt
  split_ifs <;> omega

theorem slotAt_range (c r : Int) (j : Nat) (hr0 : 0 ≤ r) (hr : r < c) (hj : (j : Int) ≤ c) :
    0 ≤ slotAt c r j ∧ slotAt c r j < c := by
  unfold slotAt
  split_ifs <;> omega

theorem slotAt_zero (c r : Int) (hr : r < c) : slotAt c r 0 = r := by
  unfold slotAt
  simp [hr]

@[simp] theorem mqueueStore_count (k : Kernel) (q : Nat) (m : Int → Nat) :
    (mqueueStore k q m).mqueue.count = k.mqueue.count := by
  unfold mqueueStore
  dsimp only
  split <;> rfl

@[simp] theorem mqueueStore_size (k : Kernel) (q : Nat) (m : Int → Nat) :
    (mqueueStore k q m).mqueue.size = k.mqueue.size := by
  unfold mqueueStore
  dsimp only
  split <;> rfl

@[simp] theorem mqueueStore_used (k : Kernel) (q : Nat) (m : Int → Nat) :
    (mqueueStore k q m).mqueue.used = k.mqueue.used := by
  unfold mqueueStore
  dsimp only
  split <;> rfl

@[simp] theorem mqueueStore_read (k : Kernel) (q : Nat) (m : Int → Nat) :
    (mqueueStore k q m).mqueue.read = k.mqueue.read := by
  unfold mqueueStore
  dsimp only
  split <;> rfl

@[simp] theorem mqueueStore_write (k : Kernel) (q : Nat) (m : Int → Nat) :
    (mqueueStore k q m).mqueue.write q = nextSlot (k.mqueue.count q) (k.mqueue.write q) := by
  unfold mqueueStore nextSlot
  dsimp only
  split_ifs <;> simp_all

@[simp] theorem mqueueStore_storage (k : Kernel) (q : Nat) (m : Int → Nat) :
    (mqueueStore k q m).mqueue.storage q = copyWords (k.mqueue.storage q)
      (k.mqueue.write q * k.mqueue.size q) m 0 (k.mqueue.size q).toNat := by
  unfold mqueueStore
  dsimp only
  split <;> simp

/-- A send to a queue that is not full, whose semaphore has no waiter: the call returns 0, the
message is stored in slot `write`, `write` advances, `used` and the count of the semaphore are
incremented, and the rest of the queue is unchanged. -/
theorem OS_MQueueSend_step (fuel : Nat) (k : Kernel) (q : Nat) (m : Int → Nat)
    (hu : k.mqueue.used q < k.mqueue.count q)
    (hs : 0 ≤ k.semaphore.count (k.mqueue.semaphore q)) :
    ∃ k', OS_MQueueSend fuel k q m = some (k', 0) ∧
      k'.mqueue.semaphore = k.mqueue.semaphore ∧ k'.mqueue.count = k.mqueue.count ∧
      k'.mqueue.size = k.mqueue.size ∧ k'.mqueue.used q = k.mqueue.used q + 1 ∧
      k'.mqueue.read = k.mqueue.read ∧
      k'.mqueue.write q = nextSlot (k.mqueue.count q) (k.mqueue.write q) ∧
      k'.mqueue.storage q = copyWords (k.mqueue.storage q)
        (k.mqueue.write q * k.mqueue.size q) m 0 (k.mqueue.size q).toNat ∧
      k'.semaphore.count (k.mqueue.semaphore q) = k.semaphore.count (k.mqueue.semaphore q) + 1 := by
  unfold OS_MQueueSend
  dsimp only
  rw [if_neg (by simp only [upd_same]; omega), mqueueStore_semaphore]
  dsimp only
  rw [mqueueStore_eq, OS_SemaphorePost_no_waiter fuel _ _ (by exact hs)]
  exact ⟨_, rfl, by simp, by simp, by simp, by simp, by simp, by simp, by simp, by simp⟩

/-- A get from a queue whose semaphore is available: the call returns 0 at once, the message of
slot `read` is copied to the buffer, `read` advances, `used` and the count of the semaphore are
decremented, and the rest of the queue is unchanged. -/
theorem OS_MQueueGet_step (WF : Int) (fuel : Nat) (k : Kernel) (q : Nat) (buf : Int → Nat)
    (Ticks : Int) (hs : 0 < k.semaphore.count (k.mqueue.semaphore q)) :
    ∃ k', OS_MQueueGet WF fuel k q buf Ticks =
        some (k', copyWords buf 0 (k.mqueue.storage q) (k.mqueue.read q * k.mqueue.size q)
          (k.mqueue.size q).toNat, .returned 0) ∧
      k'.mqueue.semaphore = k.mqueue.semaphore ∧ k'.mqueue.count = k.mqueue.count ∧
      k'.mqueue.size = k.mqueue.size ∧ k'.mqueue.used q = k.mqueue.used q - 1 ∧
      k'.mqueue.read q = nextSlot (k.mqueue.count q) (k.mqueue.read q) ∧
      k'.mqueue.write = k.mqueue.write ∧ k'.mqueue.storage = k.mqueue.storage ∧
      k'.semaphore.count (k.mqueue.semaphore q) = k.semaphore.count (k.mqueue.semaphore q) - 1 := by
  unfold OS_MQueueGet
  rw [OS_SemaphorePend_available WF fuel k _ Ticks hs]
  dsimp only
  unfold OS_MQueueGet_resume
  rw [if_neg (by simp)]
  dsimp only
  refine ⟨_, rfl, ?_, ?_, ?_, ?_, ?_, ?_, ?_, ?_⟩
  all_goals try unfold nextSlot
  all_goals split_ifs <;> simp_all

theorem slotAt_succ_nextSlot (c r : Int) (n : Nat) (hr : r < c)
    (hn : ((n + 1 : Nat) : Int) ≤ c) : slotAt c r (n + 1) = slotAt c (nextSlot c r) n := by
  unfold slotAt nextSlot
  push_cast at hn ⊢
  split_ifs <;> omega

theorem nextSlot_range (c r : Int) (hr0 : 0 ≤ r) (hr : r < c) :
    0 ≤ nextSlot c r ∧ nextSlot c r < c := by
  unfold nextSlot
  split_ifs <;> omega

theorem slotAt_eq_mod (c r : Int) (n : Nat) (hr0 : 0 ≤ r) (hr : r < c) (hn : (n : Int) ≤ c) :
    slotAt c r n = (r + (n : Int)) % c := by
  unfold slotAt
  split_ifs with h
  · exact (Int.emod_eq_of_lt (by omega) h).symm
  · have h1 : (r + (n : Int)) % c = (r + (n : Int) - c) % c := by
      rw [Int.sub_emod, Int.emod_self, sub_zero, Int.emod_emod_of_dvd _ (dvd_refl c)]
    rw [h1]
    exact (Int.emod_eq_of_lt (by omega) (by omega)).symm

/-- The words of two slots do not overlap. -/
theorem slot_disjoint (p w sz : Int) (i : Nat) (hpw : p ≠ w) (hi : (i : Int) < sz) :
    ¬ (w * sz ≤ p * sz + (i : Int) ∧ p * sz + (i : Int) < w * sz + ((sz.toNat : Nat) : Int)) := by
  have hsz : 0 ≤ sz := by omega
  have htn : ((sz.toNat : Nat) : Int) = sz := Int.toNat_of_nonneg hsz
  rw [htn]
  rintro ⟨h1, h2⟩
  rcases lt_or_gt_of_ne hpw with h | h
  · have h3 : (p + 1) * sz ≤ w * sz := mul_le_mul_of_nonneg_right (by omega) hsz
    rw [add_mul, one_mul] at h3
    omega
  · have h3 : (w + 1) * sz ≤ p * sz := mul_le_mul_of_nonneg_right (by omega) hsz
    rw [add_mul, one_mul] at h3
    omega

/-- The slots depend only on the size, the count and the storage of the queue. -/
theorem slotsHold_congr (k k' : Kernel) (q : Nat) (h1 : k'.mqueue.size q = k.mqueue.size q)
    (h2 : k'.mqueue.count q = k.mqueue.count q) (h3 : k'.mqueue.storage q = k.mqueue.storage q)
    (r : Int) (ms : List (List Nat)) (h : slotsHold k q r ms) : slotsHold k' q r ms := by
  induction ms generalizing r with
  | nil => trivial
  | cons a ms ih =>
    refine ⟨?_, ?_⟩
    · rw [← h.1]; unfold slotWords; rw [h1, h3]
    · rw [h2]; exact ih _ h.2

/-- Storing a message in the slot after the messages held appends it to them. -/
theorem slotsHold_store (k k' : Kernel) (q : Nat) (c sz r0 : Int) (u : Nat) (m : Int → Nat)
    (hcount : k.mqueue.count q = c) (hsize : k.mqueue.size q = sz)
    (hcount' : k'.mqueue.count q = c) (hsize' : k'.mqueue.size q = sz)
    (hr : r0 < c) (hu : (u : Int) < c)
    (hst : k'.mqueue.storage q = copyWords (k.mqueue.storage q) (slotAt c r0 u * sz) m 0
      sz.toNat)
    (ms : List (List Nat)) (j : Nat) (hj : j + ms.length = u)
    (h : slotsHold k q (slotAt c r0 j) ms) :
    slotsHold k' q (slotAt c r0 j) (ms ++ [messageWords sz m]) := by
  induction ms generalizing j with
  | nil =>
    have hju : j = u := by simpa using hj
    subst hju
    refine ⟨?_, trivial⟩
    unfold slotWords
    rw [hsize', hst]
    apply messageWords_congr
    intro i hi
    rw [copyWords_apply]
    have hsz : 0 ≤ sz := by omega
    have htn : ((sz.toNat : Nat) : Int) = sz := Int.toNat_of_nonneg hsz
    rw [if_pos (by rw [htn]; omega)]
    congr 1
    omega
  | cons a ms ih =>
    have hjlen : j + (ms.length + 1) = u := by simpa using hj
    refine ⟨?_, ?_⟩
    · rw [← h.1]
      unfold slotWords
      rw [hsize', hsize, hst]
      apply messageWords_congr
      intro i hi
      rw [copyWords_apply, if_neg]
      exact slot_disjoint _ _ sz i
        (slotAt_ne c r0 j u (by omega) (by omega) (Or.inl hu)) hi
    · rw [hcount', nextSlot_slotAt c r0 j hr (by omega)]
      have h2 := h.2
      rw [hcount, nextSlot_slotAt c r0 j hr (by omega)] at h2
      exact ih (j + 1) (by omega) h2

/-- A send to a queue that holds fewer messages than it has slots appends the message. -/
theorem QueueHolds_send (fuel : Nat) (k : Kernel) (q S : Nat) (c sz : Int)
    (ms : List (List Nat)) (m : Int → Nat) (h : QueueHolds k q S c sz ms)
    (hlen : (ms.length : Int) < c) :
    ∃ k', OS_MQueueSend fuel k q m = some (k', 0) ∧
      QueueHolds k' q S c sz (ms ++ [messageWords sz m]) := by
  obtain ⟨hS, hc, hsz, hc1, hr0, hr, hused, _, hw, hsem, hslots⟩ := h
  obtain ⟨k', hsend, e1, e2, e3, e4, e5, e6, e7, e8⟩ :=
    OS_MQueueSend_step fuel k q m (by rw [hused, hc]; exact hlen) (by rw [hS, hsem]; omega)
  refine ⟨k', hsend, ?_, ?_, ?_, hc1, ?_, ?_, ?_, ?_, ?_, ?_, ?_⟩
  · rw [e1]; exact hS
  · rw [e2]; exact hc
  · rw [e3]; exact hsz
  · rw [e5]; exact hr0
  · rw [e5]; exact hr
  · rw [e4, hused]; simp
  · simp only [List.length_append, List.length_singleton]; push_cast; omega
  · rw [e6, e5, hc, hw, nextSlot_slotAt c _ _ hr hlen]; simp
  · rw [hS] at e8; rw [e8, hsem]; simp
  · rw [e5]
    have hz := slotAt_zero c (k.mqueue.read q) hr
    have h0 : slotsHold k q (slotAt c (k.mqueue.read q) 0) ms := by rw [hz]; exact hslots
    have := slotsHold_store k k' q c sz (k.mqueue.read q) ms.length m hc hsz
      (by rw [e2]; exact hc) (by rw [e3]; exact hsz) hr hlen
      (by rw [e7, hw, hsz]) ms 0 (by simp) h0
    rw [hz] at this
    exact this

/-- A get from a queue that holds a message returns the oldest one and leaves the others. -/
theorem QueueHolds_get (WF : Int) (fuel : Nat) (k : Kernel) (q S : Nat) (c sz : Int)
    (a : List Nat) (ms : List (List Nat)) (buf : Int → Nat) (Ticks : Int)
    (h : QueueHolds k q S c sz (a :: ms)) :
    ∃ k' buf', OS_MQueueGet WF fuel k q buf Ticks = some (k', buf', .returned 0) ∧
      messageWords sz buf' = a ∧ QueueHolds k' q S c sz ms := by
  obtain ⟨hS, hc, hsz, hc1, hr0, hr, hused, hlen, hw, hsem, hslots⟩ := h
  simp only [List.length_cons] at hused hlen hw hsem
  obtain ⟨k', hget, e1, e2, e3, e4, e5, e6, e7, e8⟩ :=
    OS_MQueueGet_step WF fuel k q buf Ticks (by rw [hS, hsem]; push_cast; omega)
  have hnr := nextSlot_range c (k.mqueue.read q) hr0 hr
  refine ⟨k', _, hget, ?_, ?_, ?_, ?_, hc1, ?_, ?_, ?_, ?_, ?_, ?_, ?_⟩
  · rw [← hslots.1]
    unfold slotWords
    rw [hsz]
    apply messageWords_congr
    intro i hi
    rw [copyWords_apply]
    have hsz0 : 0 ≤ sz := by omega
    have htn : ((sz.toNat : Nat) : Int) = sz := Int.toNat_of_nonneg hsz0
    rw [if_pos (by rw [htn]; omega)]
    simp
  · rw [e1]; exact hS
  · rw [e2]; exact hc
  · rw [e3]; exact hsz
  · rw [e5, hc]; exact hnr.1
  · rw [e5, hc]; exact hnr.2
  · rw [e4, hused]; push_cast; omega
  · push_cast at hlen; omega
  · rw [e6, e5, hc, hw]
    exact slotAt_succ_nextSlot c _ _ hr hlen
  · rw [hS] at e8; rw [e8, hsem]; push_cast; omega
  · rw [e5]
    exact slotsHold_congr k k' q (by rw [e3]) (by rw [e2]) (by rw [e7]) _ _ hslots.2

theorem QueueHolds_inv (k : Kernel) (q S : Nat) (c sz : Int) (ms : List (List Nat))
    (h : QueueHolds k q S c sz ms) : MQueueInv k q ∧ k.mqueue.used q = (ms.length : Int) := by
  obtain ⟨_, hc, _, _, hr0, hr, hused, hlen, hw, _, _⟩ := h
  have hrange := slotAt_range c (k.mqueue.read q) ms.length hr0 hr hlen
  refine ⟨⟨?_, ?_, hr0, ?_, ?_, ?_, ?_⟩, hused⟩
  · rw [hused]; omega
  · rw [hused, hc]; exact hlen
  · rw [hc]; exact hr
  · rw [hw]; exact hrange.1
  · rw [hw, hc]; exact hrange.2
  · rw [hw, hc, hused]; exact slotAt_eq_mod c _ _ hr0 hr hlen

/-- A run of sends on a queue with enough free slots appends the messages in order. -/
theorem mqueueSends_holds (fuel : Nat) (q S : Nat) (c sz : Int) (msgs : List (Int → Nat)) :
    ∀ (k : Kernel) (ms0 : List (List Nat)), QueueHolds k q S c sz ms0 →
      ((ms0.length + msgs.length : Nat) : Int) ≤ c →
      ∃ k1, mqueueSends fuel q msgs k = some k1 ∧
        QueueHolds k1 q S c sz (ms0 ++ msgs.map (messageWords sz)) := by
  induction msgs with
  | nil => intro k ms0 h _; exact ⟨k, rfl, by simpa using h⟩
  | cons m msgs ih =>
    intro k ms0 h hlen
    simp only [List.length_cons] at hlen
    obtain ⟨k', hsend, hk'⟩ := QueueHolds_send fuel k q S c sz ms0 m h (by push_cast at hlen; omega)
    obtain ⟨k1, hk1, hh⟩ := ih k' (ms0 ++ [messageWords sz m]) hk'
      (by simp only [List.length_append, List.length_singleton]; push_cast at hlen ⊢; omega)
    refine ⟨k1, ?_, by simpa using hh⟩
    simp only [mqueueSends, hsend, if_true, hk1]

/-- A run of gets on a queue that holds enough messages returns them in order. -/
theorem mqueueGets_holds (WF : Int) (fuel : Nat) (q S : Nat) (c sz : Int)
    (gets : List ((Int → Nat) × Int)) :
    ∀ (k : Kernel) (mws rest : List (List Nat)), QueueHolds k q S c sz (mws ++ rest) →
      gets.length = mws.length →
      ∃ k2 bufs, mqueueGets WF fuel q gets k = some (k2, bufs) ∧
        bufs.map (messageWords sz) = mws ∧ QueueHolds k2 q S c sz rest := by
  induction gets with
  | nil =>
    intro k mws rest h hlen
    have : mws = [] := List.length_eq_zero.mp hlen.symm
    subst this
    exact ⟨k, [], rfl, rfl, by simpa using h⟩
  | cons g gets ih =>
    intro k mws rest h hlen
    cases mws with
    | nil => simp at hlen
    | cons a mws =>
      obtain ⟨k', buf', hget, hbuf, hk'⟩ :=
        QueueHolds_get WF fuel k q S c sz a (mws ++ rest) g.1 g.2 h
      obtain ⟨k2, bufs, hrest, hb, hh⟩ := ih k' mws rest hk' (by simpa using hlen)
      refine ⟨k2, buf' :: bufs, ?_, by simp [hbuf, hb], hh⟩
      simp only [mqueueGets, hget, if_true, hrest, Option.map_some']

/-- C9 (as stated, refuted): for a queue created with `MessageCount = 0` (and no message sent)
the index invariant fails: `read < count` is `0 < 0`. -/
theorem C9_zero_slot_queue_refuted : ¬ MQueueInv (OS_MQueueCreate bootKernel 1 1 0 4) 1 := by
  decide

/-- C9 (amended): for a queue of `c >= 1` slots that is empty (`used == 0`, `read == write` in
range, semaphore count 0; in particular a queue just created) and any `k <= c` messages, the
`k` sends all return 0 and the `k` gets that follow, whatever their buffers and `Ticks`, all
return 0 and fill their buffers with exactly those messages, word for word over `size` words,
in the order sent.  After every send and every get of the run, `0 <= used <= count`,
`0 <= read, write < count` and `write == (read + used) mod count` hold (with `used` the number
of messages sent and not yet received). -/
theorem C9_queue_round_trip (WF : Int) (fuel : Nat) (k : Kernel) (q : Nat)
    (msgs : List (Int → Nat)) (gets : List ((Int → Nat) × Int))
    (hc : 1 ≤ k.mqueue.count q) (hused : k.mqueue.used q = 0)
    (hr0 : 0 ≤ k.mqueue.read q) (hr : k.mqueue.read q < k.mqueue.count q)
    (hw : k.mqueue.write q = k.mqueue.read q)
    (hs : k.semaphore.count (k.mqueue.semaphore q) = 0)
    (hlen : (msgs.length : Int) ≤ k.mqueue.count q) (hg : gets.length = msgs.length) :
    ∃ k1 k2 bufs, mqueueSends fuel q msgs k = some k1 ∧
      mqueueGets WF fuel q gets k1 = some (k2, bufs) ∧
      bufs.map (messageWords (k.mqueue.size q)) = msgs.map (messageWords (k.mqueue.size q)) ∧
      (∀ i, i ≤ msgs.length → ∃ ki, mqueueSends fuel q (msgs.take i) k = some ki ∧
        MQueueInv ki q ∧ ki.mqueue.used q = (i : Int)) ∧
      (∀ i, i ≤ gets.length → ∃ ki b, mqueueGets WF fuel q (gets.take i) k1 = some (ki, b) ∧
        MQueueInv ki q ∧ ki.mqueue.used q = ((msgs.length - i : Nat) : Int)) := by
  have h0 : QueueHolds k q (k.mqueue.semaphore q) (k.mqueue.count q) (k.mqueue.size q) [] := by
    refine ⟨rfl, rfl, rfl, hc, hr0, hr, by simpa using hused, by simp; omega, ?_, by simpa using hs,
      trivial⟩
    rw [hw]; exact (slotAt_zero _ _ hr).symm
  obtain ⟨k1, hk1, hh1⟩ := mqueueSends_holds fuel q _ _ _ msgs k [] h0 (by simpa using hlen)
  simp only [List.nil_append] at hh1
  have hh1' : QueueHolds k1 q (k.mqueue.semaphore q) (k.mqueue.count q) (k.mqueue.size q)
      (msgs.map (messageWords (k.mqueue.size q)) ++ []) := by simpa using hh1
  obtain ⟨k2, bufs, hk2, hb, _⟩ := mqueueGets_holds WF fuel q _ _ _ gets k1 _ [] hh1'
    (by simpa using hg)
  refine ⟨k1, k2, bufs, hk1, hk2, hb, ?_, ?_⟩
  · intro i hi
    obtain ⟨ki, hki, hhi⟩ := mqueueSends_holds fuel q _ _ _ (msgs.take i) k [] h0
      (by simp only [List.length_nil, List.length_take, Nat.zero_add]; omega)
    have hinv := QueueHolds_inv ki q _ _ _ _ hhi
    refine ⟨ki, hki, hinv.1, ?_⟩
    rw [hinv.2]
    simp [hi]
  · intro i hi
    have hsplit : msgs.map (messageWords (k.mqueue.size q)) =
        (msgs.map (messageWords (k.mqueue.size q))).take i ++
          (msgs.map (messageWords (k.mqueue.size q))).drop i := (List.take_append_drop i _).symm
    rw [hsplit] at hh1
    obtain ⟨ki, b, hki, _, hhi⟩ := mqueueGets_holds WF fuel q _ _ _ (gets.take i) k1 _ _ hh1
      (by simp only [List.length_take, List.length_map]; omega)
    have hinv := QueueHolds_inv ki q _ _ _ _ hhi
    refine ⟨ki, b, hki, hinv.1, ?_⟩
    rw [hinv.2]
    simp

/-- C9 (amended), instance: two messages are sent to a fresh queue of two slots of one word and
received with timeouts 0 and 5. -/
theorem C9_queue_round_trip_witness :
    ∃ k1 k2 bufs, mqueueSends 8 1 [constMessage 7, constMessage 9] queueKernel = some k1 ∧
      mqueueGets (-1) 8 1 [(constMessage 0, 0), (constMessage 0, 5)] k1 = some (k2, bufs) ∧
      bufs.map (messageWords (queueKernel.mqueue.size 1)) =
        [constMessage 7, constMessage 9].map (messageWords (queueKernel.mqueue.size 1)) ∧
      (∀ i, i ≤ [constMessage 7, constMessage 9].length →
        ∃ ki, mqueueSends 8 1 ([constMessage 7, constMessage 9].take i) queueKernel = some ki ∧
          MQueueInv ki 1 ∧ ki.mqueue.used 1 = (i : Int)) ∧
      (∀ i, i ≤ [(constMessage 0, (0 : Int)), (constMessage 0, (5 : Int))].length →
        ∃ ki b, mqueueGets (-1) 8 1
            ([(constMessage 0, (0 : Int)), (constMessage 0, (5 : Int))].take i) k1 = some (ki, b) ∧
          MQueueInv ki 1 ∧
          ki.mqueue.used 1 = (([constMessage 7, constMessage 9].length - i : Nat) : Int)) :=
  C9_queue_round_trip (-1) 8 queueKernel 1 [constMessage 7, constMessage 9]
    [(constMessage 0, 0), (constMessage 0, 5)] (by decide) (by decide) (by decide) (by decide)
    (by decide) (by decide) (by decide) (by decide)

/-! ## C6: timeout of a pend -/

theorem priorityInsertAt_state_of_ne (k : Kernel) (head : ListHead) (t : Nat)
    (prev : Option Nat)
    (h : (priorityLink k head t prev).getHead head ≠ (priorityLink k head t prev).ThreadHead) :
    (priorityInsertAt k head t prev).thread.state = k.thread.state := by
  unfold priorityInsertAt
  dsimp only
  rw [if_neg h, priorityLink_state]

@[simp] theorem priorityLink_none_prev (k : Kernel) (head : ListHead) (t : Nat) :
    (priorityLink k head t none).thread.prev = upd k.thread.prev t none := by
  unfold priorityLink
  cases head <;> rfl

@[simp] theorem priorityInsertAt_prev (k : Kernel) (head : ListHead) (t : Nat)
    (prev : Option Nat) :
    (priorityInsertAt k head t prev).thread.prev = (priorityLink k head t prev).thread.prev := by
  unfold priorityInsertAt
  dsimp only
  split <;> rfl

theorem timeoutLink_none (k : Kernel) (t : Nat) (h : k.TimeoutHead = none) :
    timeoutLink k t none =
      { k with
        thread.nextTimeout := upd k.thread.nextTimeout t none
        thread.prevTimeout := upd k.thread.prevTimeout t none
        TimeoutHead := some t } := by
  unfold timeoutLink
  simp [h]

theorem ReadyList_head_ne_none (k : Kernel) (L : List Nat) (h : k.ReadyList L) (hL : L ≠ []) :
    k.ThreadHead ≠ none := by
  cases L with
  | nil => exact absurd rfl hL
  | cons x L =>
    have := h.1
    rw [this]; simp

theorem tickDiff_pending (T0 n m : Nat) (hn : n < 2147483648) (hm : m + 1 < n) :
    tickDiff (((T0 + m) % 4294967296 + 1) % 4294967296)
      (toUInt32 ((n : Int) + (T0 : Int))) < 0 := by
  unfold tickDiff toInt32 toUInt32
  omega

theorem tickDiff_due (T0 n m : Nat) (hm : m + 1 = n) :
    0 ≤ tickDiff (((T0 + m) % 4294967296 + 1) % 4294967296)
      (toUInt32 ((n : Int) + (T0 : Int))) := by
  unfold tickDiff toInt32 toUInt32
  omega

theorem ticks_succ (fuel : Nat) (m : Nat) (k0 : Kernel) :
    ticks fuel (m + 1) k0 = (ticks fuel m k0).bind (OS_ThreadTick fuel) := by
  induction m generalizing k0 with
  | zero => simp [ticks]
  | succ m ih =>
    rw [ticks]
    cases hp : OS_ThreadTick fuel k0 with
    | none => simp [ticks, hp]
    | some k1 =>
      simp only [Option.some_bind]
      rw [ih k1]
      conv_rhs => rw [ticks, hp]
      simp

/-! ## IP checksums -/

set_option maxRecDepth 100000

theorem byte_pair (a b : Nat) (hb : b < 256) : (a <<< 8) ||| b = a * 256 + b := by
  rw [Nat.shiftLeft_eq]
  have h := Nat.mul_add_lt_is_or (i := 8) (b := b) (by simpa using hb) a
  rw [Nat.mul_comm] at h
  simpa using h.symm

theorem byteSum_succ (data : Nat → Nat) (n : Nat) :
    byteSum data (n + 1) = byteSum data n + (if n % 2 = 0 then 256 else 1) * data n := rfl

theorem byteSum_congr {d d' : Nat → Nat} {n : Nat} (h : ∀ i, i < n → d i = d' i) :
    byteSum d n = byteSum d' n := by
  induction n with
  | zero => rfl
  | succ n ih =>
    rw [byteSum_succ, byteSum_succ, ih (fun i hi => h i (by omega)), h n (by omega)]

theorem byteSum_upd (d : Nat → Nat) (j v n : Nat) :
    byteSum (upd d j v) n + (if j < n then (if j % 2 = 0 then 256 else 1) * d j else 0) =
      byteSum d n + (if j < n then (if j % 2 = 0 then 256 else 1) * v else 0) := by
  induction n with
  | zero => simp [byteSum]
  | succ n ih =>
    rw [byteSum_succ, byteSum_succ]
    by_cases hj : j = n
    · subst hj
      rw [upd_same]
      simp only [Nat.lt_irrefl, if_false, Nat.add_zero] at ih
      simp only [Nat.lt_succ_self, if_true]
      omega
    · rw [upd_ne _ _ (Ne.symm hj)]
      by_cases hlt : j < n
      · have h1 : j < n + 1 := by omega
        simp only [hlt, h1, if_true] at ih ⊢
        omega
      · have h1 : ¬ j < n + 1 := by omega
        simp only [hlt, h1, if_false] at ih ⊢
        omega

theorem checksumLoop_spec (data : Nat → Nat) (hd : ∀ i, data i < 256) (length : Int) :
    ∀ (fuel k : Nat) (c : Int), (2 * k : Int) < length + 1 → length.toNat ≤ 2 * k + 2 * fuel →
      checksumLoop data length fuel (2 * k) (c + byteSum data (2 * k)) =
        (2 * (length.toNat / 2), c + byteSum data (2 * (length.toNat / 2))) := by
  intro fuel
  induction fuel with
  | zero =>
    intro k c h1 h2
    have : 2 * (length.toNat / 2) = 2 * k := by omega
    rw [checksumLoop, this]
  | succ fuel ih =>
    intro k c h1 h2
    rw [checksumLoop]
    split
    · next h =>
      have h3 := ih (k + 1) c (by omega) (by omega)
      rw [show 2 * (k + 1) = 2 * k + 2 from by ring] at h3
      rw [← h3]
      congr 1
      rw [byteSum_succ, byteSum_succ, byte_pair _ _ (hd _)]
      have e1 : (2 * k) % 2 = 0 := by omega
      have e2 : (2 * k + 1) % 2 ≠ 0 := by omega
      simp only [e1, e2, if_true, if_false]
      push_cast
      ring
    · next h =>
      have : 2 * (length.toNat / 2) = 2 * k := by omega
      rw [this]

theorem carryLoop_spec : ∀ (fuel : Nat) (x : Int), 0 ≤ x → x.toNat ≤ fuel →
    carryLoop fuel x = if x = 0 then 0 else (x - 1) % 65535 + 1 := by
  intro fuel
  induction fuel with
  | zero =>
    intro x h0 h1
    have : x = 0 := by omega
    subst this
    rfl
  | succ fuel ih =>
    intro x h0 h1
    rw [carryLoop]
    split
    · next h =>
      rw [ih _ (by omega) (by omega)]
      have hx : x ≠ 0 := by omega
      have hx' : x % 65536 + x / 65536 ≠ 0 := by omega
      rw [if_neg hx, if_neg hx']
      omega
    · next h =>
      split
      · next hx => exact hx
      · next hx => omega

theorem carry_spec (x : Int) (h0 : 0 ≤ x) :
    carry x = if x = 0 then 0 else (x - 1) % 65535 + 1 :=
  carryLoop_spec _ x h0 (Nat.le_refl _)

theorem carry_exit (x : Int) (h0 : 0 ≤ x) : carry x / 65536 = 0 := by
  rw [carry_spec x h0]
  split <;> omega

theorem IPChecksum_spec (checksum : Int) (data : Nat → Nat) (hd : ∀ i, data i < 256)
    (length : Int) :
    IPChecksum checksum data length =
      complement16 (carry (complement16 checksum + byteSum data length.toNat)) := by
  unfold IPChecksum
  have h : checksumLoop data length length.toNat 0 (complement16 checksum) =
      (2 * (length.toNat / 2),
        complement16 checksum + byteSum data (2 * (length.toNat / 2))) := by
    by_cases hl : 0 ≤ length
    · have h := checksumLoop_spec data hd length length.toNat 0 (complement16 checksum)
        (by omega) (by omega)
      simpa [byteSum] using h
    · have e : length.toNat = 0 := by omega
      rw [e]
      simp [checksumLoop, byteSum]
  simp only [h]
  unfold carry
  by_cases hodd : ((2 * (length.toNat / 2) : Nat) : Int) < length
  · rw [if_pos hodd]
    have e : length.toNat = 2 * (length.toNat / 2) + 1 := by omega
    have e2 : byteSum data length.toNat =
        byteSum data (2 * (length.toNat / 2)) + 256 * data (2 * (length.toNat / 2)) := by
      conv_lhs => rw [e]
      rw [byteSum_succ]
      have : (2 * (length.toNat / 2)) % 2 = 0 := by omega
      rw [if_pos this]
    have e3 : data (2 * (length.toNat / 2)) <<< 8 = 256 * data (2 * (length.toNat / 2)) := by
      rw [Nat.shiftLeft_eq]; ring
    rw [e2, e3]
    push_cast
    rw [Int.add_assoc]
  · rw [if_neg hodd]
    have e : 2 * (length.toNat / 2) = length.toNat := by omega
    rw [e]

theorem complement16_range (x : Int) : 0 ≤ complement16 x ∧ complement16 x ≤ 65535 := by
  unfold complement16; omega

theorem IPChecksum_eq_zero (checksum : Int) (data : Nat → Nat) (hd : ∀ i, data i < 256)
    (length : Int) :
    IPChecksum checksum data length = 0 ↔
      0 < complement16 checksum + byteSum data length.toNat ∧
        (complement16 checksum + byteSum data length.toNat) % 65535 = 0 := by
  rw [IPChecksum_spec checksum data hd length]
  have h0 : 0 ≤ complement16 checksum + byteSum data length.toNat := by
    have := complement16_range checksum
    omega
  rw [carry_spec _ h0]
  generalize complement16 checksum + (byteSum data length.toNat : Int) = x at h0 ⊢
  unfold complement16
  split <;> omega

theorem uint8_lt (x : Int) : uint8 x < 256 := by
  unfold uint8; omega

theorem store16_lt {d : Nat → Nat} (hd : ∀ i, d i < 256) (k : Nat) (v : Int) :
    ∀ i, store16 d k v i < 256 := by
  intro i
  unfold store16
  rw [upd_apply, upd_apply]
  split
  · exact uint8_lt _
  · split
    · exact uint8_lt _
    · exact hd i

theorem store16_apply (d : Nat → Nat) (k : Nat) (v : Int) (i : Nat) :
    store16 d k v i = if i = k + 1 then uint8 v else if i = k then uint8 (v / 256) else d i := by
  unfold store16
  rw [upd_apply, upd_apply]

theorem store16_of_ne (d : Nat → Nat) (k : Nat) (v : Int) {i : Nat} (h1 : i ≠ k)
    (h2 : i ≠ k + 1) : store16 d k v i = d i := by
  rw [store16_apply, if_neg h2, if_neg h1]

theorem byteSum_store16 (d : Nat → Nat) (k n : Nat) (v : Int) (hk : k % 2 = 0)
    (hn : k + 1 < n) (h0 : d k = 0) (h1 : d (k + 1) = 0) (hv : 0 ≤ v) (hv' : v ≤ 65535) :
    (byteSum (store16 d k v) n : Int) = byteSum d n + v := by
  unfold store16
  have a := byteSum_upd (upd d k (uint8 (v / 256))) (k + 1) (uint8 v) n
  have b := byteSum_upd d k (uint8 (v / 256)) n
  have hk1 : (k + 1) % 2 ≠ 0 := by omega
  have hne : k + 1 ≠ k := by omega
  have hkn : k < n := by omega
  simp only [if_pos hn, if_neg hk1, upd_ne _ _ hne, h1, if_pos hkn, if_pos hk, h0] at a b
  have e : (256 * uint8 (v / 256) + uint8 v : Nat) = v.toNat := by
    unfold uint8; omega
  omega

theorem IPChecksum_range (checksum : Int) (data : Nat → Nat) (length : Int) :
    0 ≤ IPChecksum checksum data length ∧ IPChecksum checksum data length ≤ 65535 := by
  unfold IPChecksum
  exact complement16_range _

/-- Storing the checksum of a region whose checksum field is zero makes the checksum of the
region zero. -/
theorem IPChecksum_seal (checksum : Int) (d : Nat → Nat) (hd : ∀ i, d i < 256) (length : Int)
    (k : Nat) (hk : k % 2 = 0) (hn : (k : Int) + 1 < length) (h0 : d k = 0)
    (h1 : d (k + 1) = 0) :
    IPChecksum checksum (store16 d k (IPChecksum checksum d length)) length = 0 := by
  have hr := IPChecksum_range checksum d length
  have hs := IPChecksum_spec checksum d hd length
  have hc := complement16_range checksum
  have hX0 : 0 ≤ complement16 checksum + (byteSum d length.toNat : Int) := by omega
  rw [carry_spec _ hX0] at hs
  rw [IPChecksum_eq_zero _ _ (store16_lt hd _ _),
    byteSum_store16 d k length.toNat _ hk (by omega) h0 h1 hr.1 hr.2]
  generalize IPChecksum checksum d length = r at hs hr ⊢
  generalize (byteSum d length.toNat : Int) = S at hs hX0 ⊢
  generalize complement16 checksum = c at hs hX0 hc ⊢
  unfold complement16 at hs
  split at hs <;> omega

theorem flip_bit : ∀ x < 256, ∀ b < 8, ∃ m, 1 ≤ m ∧ m ≤ 128 ∧ x ^^^ (1 <<< b) < 256 ∧
    (x ^^^ (1 <<< b) = x + m ∨ (x ^^^ (1 <<< b)) + m = x) := by
  intro x hx b hb
  refine ⟨1 <<< b, ?_⟩
  revert x b
  decide

theorem IPChecksum_flip (d : Nat → Nat) (hd : ∀ i, d i < 256) (length : Int) (j b : Nat)
    (hj : (j : Int) < length) (hb : b < 8) (h0 : IPChecksum 0xffff d length = 0) :
    IPChecksum 0xffff (upd d j (d j ^^^ (1 <<< b))) length ≠ 0 := by
  obtain ⟨m, hm1, hm2, hlt, hm⟩ := flip_bit (d j) (hd j) b hb
  have hd' : ∀ i, upd d j (d j ^^^ (1 <<< b)) i < 256 := by
    intro i
    rw [upd_apply]
    split
    · exact hlt
    · exact hd i
  rw [IPChecksum_eq_zero _ _ hd] at h0
  rw [Ne, IPChecksum_eq_zero _ _ hd']
  have hu := byteSum_upd d j (d j ^^^ (1 <<< b)) length.toNat
  have hjn : j < length.toNat := by omega
  rw [if_pos hjn, if_pos hjn] at hu
  have hc : complement16 0xffff = 0 := by decide
  rw [hc] at h0 ⊢
  generalize byteSum (upd d j (d j ^^^ (1 <<< b))) length.toNat = S' at hu ⊢
  generalize byteSum d length.toNat = S at hu h0
  generalize d j ^^^ (1 <<< b) = y at hu hm
  generalize d j = x at hu hm
  split at hu <;> omega

theorem offset_store16 (p : Nat → Nat) (a k : Nat) (v : Int) :
    offset (store16 p (a + k) v) a = store16 (offset p a) k v := by
  funext i
  unfold offset
  rw [store16_apply, store16_apply]
  have e1 : (a + i = a + k + 1) = (i = k + 1) := by
    apply propext; constructor <;> intro h <;> omega
  have e2 : (a + i = a + k) = (i = k) := by
    apply propext; constructor <;> intro h <;> omega
  simp only [e1, e2]

theorem offset_lt {p : Nat → Nat} (hp : ∀ i, p i < 256) (a : Nat) : ∀ i, offset p a i < 256 :=
  fun i => hp (a + i)

theorem IPChecksum_congr (checksum : Int) {d d' : Nat → Nat} (hd : ∀ i, d i < 256)
    (hd' : ∀ i, d' i < 256) (length : Int) (h : ∀ i : Nat, (i : Int) < length → d i = d' i) :
    IPChecksum checksum d length = IPChecksum checksum d' length := by
  rw [IPChecksum_spec _ _ hd, IPChecksum_spec _ _ hd',
    byteSum_congr (fun i hi => h i (by omega))]

theorem pseudoHeader_lt {p : Nat → Nat} (hp : ∀ i, p i < 256) {a b : Nat} (ha : a < 256)
    (hb : b < 256) : ∀ i, pseudoHeader p a b i < 256 := by
  intro i
  unfold pseudoHeader
  repeat' split
  all_goals first | exact hp _ | exact ha | exact hb | decide

theorem pseudoHeader_congr {p q : Nat → Nat} (a b : Nat)
    (h : ∀ i, 23 ≤ i → i < 34 → p i = q i) : pseudoHeader p a b = pseudoHeader q a b := by
  funext i
  unfold pseudoHeader IP_SOURCE IP_DEST IP_PROTOCOL
  repeat' split
  all_goals first | rfl | exact h _ (by omega) (by omega)

/-- The IP header checksum that `IPSendPacket` stores verifies. -/
theorem header_seal (p : Nat → Nat) (hp : ∀ i, p i < 256) :
    IPChecksum 0xffff (offset (store16 (store16 p IP_CHECKSUM 0) IP_CHECKSUM
      (IPChecksum 0xffff (offset (store16 p IP_CHECKSUM 0) IP_VERSION_LENGTH) 20))
        IP_VERSION_LENGTH) 20 = 0 := by
  have e : IP_CHECKSUM = IP_VERSION_LENGTH + 10 := rfl
  rw [e, offset_store16, offset_store16]
  apply IPChecksum_seal _ _ (store16_lt (offset_lt hp _) _ _) _ _ (by decide) (by decide)
  · rw [store16_apply]; simp [uint8]
  · rw [store16_apply]; simp [uint8]

theorem store16_word (p : Nat → Nat) (k : Nat) (v : Int) (h0 : 0 ≤ v) (h1 : v ≤ 65535) :
    (((store16 p k v k <<< 8) + store16 p k v (k + 1) : Nat) : Int) = v := by
  rw [store16_apply, store16_apply, if_neg (by omega), if_pos rfl, if_pos rfl, Nat.shiftLeft_eq]
  unfold uint8
  omega

theorem IPSendPacket_verifies (packet : Nat → Nat) (hp : ∀ i, packet i < 256) (length : Int)
    (hudp : packet IP_PROTOCOL ≠ 0x11) (h1 : packet IP_PROTOCOL = 0x01 → 38 ≤ length)
    (h6 : packet IP_PROTOCOL = 0x06 → 52 ≤ length) (hmax : length ≤ 65549) :
    EthernetVerifyChecksums (IPSendPacket_packet packet length) length = 0 := by
  by_cases hip : packet (ETHERNET_FRAME_TYPE + 1) = 0x00
  swap
  · unfold IPSendPacket_packet EthernetVerifyChecksums
    rw [if_neg hip, if_neg hip]
  obtain ⟨p1, hp1⟩ : ∃ p1, p1 = store16 packet IP_LENGTH (length - IP_VERSION_LENGTH) :=
    ⟨_, rfl⟩
  obtain ⟨p2, hp2⟩ : ∃ p2, p2 = store16 p1 IP_CHECKSUM 0 := ⟨_, rfl⟩
  obtain ⟨p3, hp3⟩ : ∃ p3, p3 = store16 p2 IP_CHECKSUM
    (IPChecksum 0xffff (offset p2 IP_VERSION_LENGTH) 20) := ⟨_, rfl⟩
  have b1 : ∀ i, p1 i < 256 := by rw [hp1]; exact store16_lt hp _ _
  have b2 : ∀ i, p2 i < 256 := by rw [hp2]; exact store16_lt b1 _ _
  have b3 : ∀ i, p3 i < 256 := by rw [hp3]; exact store16_lt b2 _ _
  have hhead : IPChecksum 0xffff (offset p3 IP_VERSION_LENGTH) 20 = 0 := by
    rw [hp3, hp2]; exact header_seal p1 b1
  have keep : ∀ i, i ≠ 16 → i ≠ 17 → i ≠ 24 → i ≠ 25 → p3 i = packet i := by
    intro i a b c d
    rw [hp3, hp2, hp1]
    unfold IP_CHECKSUM IP_LENGTH
    rw [store16_of_ne _ _ _ c d, store16_of_ne _ _ _ c d, store16_of_ne _ _ _ a b]
  have hproto : p3 IP_PROTOCOL = packet IP_PROTOCOL :=
    keep 23 (by decide) (by decide) (by decide) (by decide)
  have htype : p3 13 = 0 := by
    rw [keep 13 (by decide) (by decide) (by decide) (by decide)]; exact hip
  -- what a later store at `k ≥ 34` leaves in place
  have later : ∀ (k : Nat) (v w : Int), 34 ≤ k →
      (store16 (store16 p3 k w) k v 13 = 0 ∧
        store16 (store16 p3 k w) k v IP_PROTOCOL = packet IP_PROTOCOL ∧
        IPChecksum 0xffff (offset (store16 (store16 p3 k w) k v) IP_VERSION_LENGTH) 20 = 0 ∧
        ∀ a b, pseudoHeader (store16 (store16 p3 k w) k v) a b = pseudoHeader p3 a b) ∧
        ∀ i, i < 34 → store16 (store16 p3 k w) k v i = p3 i := by
    intro k v w hk
    have same : ∀ i, i < 34 → store16 (store16 p3 k w) k v i = p3 i := by
      intro i hi
      rw [store16_of_ne _ _ _ (by omega) (by omega), store16_of_ne _ _ _ (by omega) (by omega)]
    refine ⟨⟨?_, ?_, ?_, ?_⟩, same⟩
    · rw [same 13 (by decide)]; exact htype
    · rw [same _ (by decide)]; exact hproto
    · rw [← hhead]
      apply IPChecksum_congr _ (offset_lt (store16_lt (store16_lt b3 _ _) _ _) _) (offset_lt b3 _)
      intro i hi
      exact same _ (by unfold IP_VERSION_LENGTH; omega)
    · intro a b
      exact pseudoHeader_congr a b (fun i _ h => same i h)
  unfold IPSendPacket_packet
  rw [if_pos hip]
  simp only [← hp1, ← hp2, ← hp3]
  rw [hproto]
  by_cases hping : packet IP_PROTOCOL = 0x01
  · rw [if_pos hping]
    obtain ⟨⟨t13, t23, thead, _⟩, _⟩ := later PING_CHECKSUM
      (IPChecksum 65535 (offset (store16 p3 PING_CHECKSUM 0) PING_TYPE) (length - PING_TYPE)) 0
      (by decide)
    unfold EthernetVerifyChecksums
    rw [show ETHERNET_FRAME_TYPE + 1 = 13 from rfl, if_pos t13]
    simp only [thead, t23, if_pos hping, ne_eq, not_true_eq_false, if_false]
    have e : PING_CHECKSUM = PING_TYPE + 2 := rfl
    have hseal : IPChecksum 65535 (offset (store16 (store16 p3 PING_CHECKSUM 0) PING_CHECKSUM
        (IPChecksum 65535 (offset (store16 p3 PING_CHECKSUM 0) PING_TYPE) (length - PING_TYPE)))
          PING_TYPE) (length - PING_TYPE) = 0 := by
      rw [e, offset_store16, offset_store16]
      apply IPChecksum_seal _ _ (store16_lt (offset_lt b3 _) _ _) _ _ (by decide)
      · have := h1 hping
        unfold PING_TYPE
        omega
      · rw [store16_apply]; simp [uint8]
      · rw [store16_apply]; simp [uint8]
    rw [hseal]
    rfl
  rw [if_neg hping, if_neg hudp]
  by_cases htcp : packet IP_PROTOCOL = 0x06
  · rw [if_pos htcp]
    have hlen := h6 htcp
    have hL : (((p3 IP_LENGTH <<< 8) + p3 (IP_LENGTH + 1) : Nat) : Int) = length - 14 := by
      have e16 : p3 IP_LENGTH = p1 IP_LENGTH := by
        rw [hp3, hp2]
        unfold IP_CHECKSUM IP_LENGTH
        rw [store16_of_ne _ _ _ (by decide) (by decide),
          store16_of_ne _ _ _ (by decide) (by decide)]
      have e17 : p3 (IP_LENGTH + 1) = p1 (IP_LENGTH + 1) := by
        rw [hp3, hp2]
        unfold IP_CHECKSUM IP_LENGTH
        rw [store16_of_ne _ _ _ (by decide) (by decide),
          store16_of_ne _ _ _ (by decide) (by decide)]
      rw [e16, e17, hp1, store16_word _ _ _ (by unfold IP_VERSION_LENGTH; omega)
        (by unfold IP_VERSION_LENGTH; omega)]
      rfl
    rw [hL]
    obtain ⟨c1, hc1⟩ : ∃ c1, c1 = IPChecksum 65535
      (pseudoHeader p3 (uint8 ((length - 14 - 20) / 256)) (uint8 (length - 14 - 20))) 12 :=
      ⟨_, rfl⟩
    rw [← hc1]
    obtain ⟨⟨t13, t23, thead, tpseudo⟩, same⟩ := later TCP_CHECKSUM
      (IPChecksum c1 (offset (store16 p3 TCP_CHECKSUM 0) TCP_SOURCE_PORT) (length - 14 - 20)) 0
      (by decide)
    unfold EthernetVerifyChecksums
    rw [show ETHERNET_FRAME_TYPE + 1 = 13 from rfl, if_pos t13]
    simp only [thead, t23, if_neg hping, if_neg hudp, if_pos htcp, ne_eq, not_true_eq_false,
      if_false, tpseudo]
    rw [same IP_LENGTH (by decide), same (IP_LENGTH + 1) (by decide), hL, ← hc1]
    have e : TCP_CHECKSUM = TCP_SOURCE_PORT + 16 := rfl
    have hseal : IPChecksum c1 (offset (store16 (store16 p3 TCP_CHECKSUM 0) TCP_CHECKSUM
        (IPChecksum c1 (offset (store16 p3 TCP_CHECKSUM 0) TCP_SOURCE_PORT) (length - 14 - 20)))
          TCP_SOURCE_PORT) (length - 14 - 20) = 0 := by
      rw [e, offset_store16, offset_store16]
      apply IPChecksum_seal _ _ (store16_lt (offset_lt b3 _) _ _) _ _ (by decide)
      · omega
      · rw [store16_apply]; simp [uint8]
      · rw [store16_apply]; simp [uint8]
    rw [hseal]
    rfl
  · rw [if_neg htcp]
    unfold EthernetVerifyChecksums
    rw [show ETHERNET_FRAME_TYPE + 1 = 13 from rfl, if_pos htype]
    simp only [hhead, hproto, if_neg hping, if_neg hudp, if_neg htcp, ne_eq, not_true_eq_false,
      if_false]

/-! ## C18, C19: what a stored checksum guarantees -/

/-- C18: for every byte sequence `d`, every length and every
16-bit-aligned checksum field `k`, `k + 1` inside the length: zeroing the field, computing
`IPChecksum(0xffff, d, len)` and storing it in the field high byte first gives a sequence
whose checksum is 0.  And for every packet that is not a UDP packet (in particular an ICMP
packet of at least 38 bytes and a TCP packet of at least 52 bytes), `EthernetVerifyChecksums`
returns 0 on the packet that `IPSendPacket` leaves, with the length it was sent with. -/
theorem C18_checksum_self_verifies (d : Nat → Nat) (len : Int) (k : Nat) (packet : Nat → Nat)
    (length : Int) (hd : ∀ i, d i < 256) (hk : k % 2 = 0) (hfield : (k : Int) + 1 < len)
    (hp : ∀ i, packet i < 256) (hudp : packet IP_PROTOCOL ≠ 0x11)
    (hping : packet IP_PROTOCOL = 0x01 → 38 ≤ length)
    (htcp : packet IP_PROTOCOL = 0x06 → 52 ≤ length) (hmax : length ≤ 65549) :
    IPChecksum 0xffff (store16 (store16 d k 0) k (IPChecksum 0xffff (store16 d k 0) len)) len
        = 0 ∧
      EthernetVerifyChecksums (IPSendPacket_packet packet length) length = 0 := by
  refine ⟨?_, IPSendPacket_verifies packet hp length hudp hping htcp hmax⟩
  apply IPChecksum_seal _ _ (store16_lt hd _ _) _ _ hk hfield
  · rw [store16_apply]; simp [uint8]
  · rw [store16_apply]; simp [uint8]

/-- C18, instance: a 20-byte header with its checksum field at offset 10, and a 60-byte TCP
frame. -/
theorem C18_checksum_self_verifies_witness :
    IPChecksum 0xffff (store16 (store16 (fun i => i % 256) 10 0) 10
        (IPChecksum 0xffff (store16 (fun i => i % 256) 10 0) 20)) 20 = 0 ∧
      EthernetVerifyChecksums
        (IPSendPacket_packet (fun i => if i = 23 then 6 else if i = 13 then 0 else i % 256) 60)
          60 = 0 :=
  C18_checksum_self_verifies (fun i => i % 256) 20 10
    (fun i => if i = 23 then 6 else if i = 13 then 0 else i % 256) 60
    (fun i => Nat.mod_lt i (by decide)) (by decide) (by decide)
    (fun i => by dsimp only; split; · decide
                 split; · decide
                 exact Nat.mod_lt i (by decide))
    (by decide) (by decide) (by decide) (by decide)

/-- C19: for every byte sequence `d` and length with
`IPChecksum(0xffff, d, len) == 0`, flipping bit `b` of the byte at any offset `j < len` gives
a sequence whose checksum is not 0. -/
theorem C19_single_bit_flip_detected (d : Nat → Nat) (len : Int) (j b : Nat)
    (hd : ∀ i, d i < 256) (hj : (j : Int) < len) (hb : b < 8)
    (h0 : IPChecksum 0xffff d len = 0) :
    IPChecksum 0xffff (upd d j (d j ^^^ (1 <<< b))) len ≠ 0 :=
  IPChecksum_flip d hd len j b hj hb h0

/-- C19, instance: bit 3 of the second byte of `ff ff`. -/
theorem C19_single_bit_flip_detected_witness :
    IPChecksum 0xffff (upd (fun _ => 255) 1 ((fun _ => 255) 1 ^^^ (1 <<< 3))) 2 ≠ 0 :=
  C19_single_bit_flip_detected (fun _ => 255) 2 1 3 (fun _ => (by decide : (255 : Nat) < 256))
    (by decide) (by decide) (by decide)

/-! ## C20: the UDP checksum on receive -/

/-- C20 (evaluation at the failing input): `EthernetVerifyChecksums` sums
`length` bytes from the UDP header on, which is 34 bytes more than `IPSendPacket` summed.
For the 42-byte UDP frame `udpFrame` the packet that `IPSendPacket` leaves verifies (result 0)
when the byte behind the frame is 0, and is rejected (result -1) when that byte is 1; the
stored checksum is `0xff57` both times. -/
theorem C20_udp_verify_reads_past_frame :
    EthernetVerifyChecksums (IPSendPacket_packet (udpFrame 0) 42) 42 = 0 ∧
      EthernetVerifyChecksums (IPSendPacket_packet (udpFrame 1) 42) 42 = -1 ∧
      IPSendPacket_packet (udpFrame 0) 42 UDP_CHECKSUM = 0xff ∧
      IPSendPacket_packet (udpFrame 0) 42 (UDP_CHECKSUM + 1) = 0x57 ∧
      IPSendPacket_packet (udpFrame 1) 42 UDP_CHECKSUM = 0xff ∧
      IPSendPacket_packet (udpFrame 1) 42 (UDP_CHECKSUM + 1) = 0x57 := by
  decide

/-! ## Ethernet MAC -/

theorem swapNibbles_lt (b : Nat) (hb : b < 256) : swapNibbles b < 256 := by
  unfold swapNibbles; omega

theorem transmit_swap : ∀ b < 256, ((b <<< 4) ||| (b >>> 4)) % 256 = swapNibbles b := by
  decide

theorem receive_swap : ∀ b < 256, ((b <<< 4) &&& 0xf0) ||| (b >>> 4) = swapNibbles b := by
  decide

theorem swapNibbles_swapNibbles : ∀ b < 256, swapNibbles (swapNibbles b) = b := by
  decide

theorem reflectNibble_lt (i : Nat) : reflectNibble i < 256 := by
  unfold reflectNibble; omega

theorem trailerByte_lt (crc i : Nat) : trailerByte crc i < 256 := reflectNibble_lt _

theorem CrcDivide_lt : ∀ (bit remainder : Nat), remainder < 4294967296 →
    CrcDivide bit remainder < 4294967296 := by
  intro bit
  induction bit with
  | zero => intro r h; exact h
  | succ bit ih =>
    intro r h
    rw [CrcDivide]
    split
    · apply ih
      exact Nat.xor_lt_two_pow (n := 32) (Nat.mod_lt _ (by decide)) (by decide)
    · apply ih
      exact Nat.mod_lt _ (by decide)

theorem CrcTable_lt (dividend : Nat) : CrcTable dividend < 4294967296 :=
  CrcDivide_lt 8 _ (Nat.mod_lt _ (by decide))

theorem crcUpdate_lt (crc byte : Nat) : crcUpdate crc byte < 4294967296 :=
  Nat.xor_lt_two_pow (n := 32) (CrcTable_lt _) (Nat.mod_lt _ (by decide))

theorem crcOf_lt (buffer : Nat → Nat) (n : Nat) : crcOf buffer n < 4294967296 := by
  cases n with
  | zero => show (0xffffffff : Nat) < 4294967296; decide
  | succ n => exact crcUpdate_lt _ _

theorem crcOf_congr {b b' : Nat → Nat} {n : Nat} (h : ∀ i, i < n → b i = b' i) :
    crcOf b n = crcOf b' n := by
  induction n with
  | zero => rfl
  | succ n ih => rw [crcOf, crcOf, ih (fun i hi => h i (by omega)), h n (by omega)]

theorem preambleLoop_apply (n : Nat) (buf : Nat → Nat) (i : Nat) :
    preambleLoop n buf i = if i < n then 0x55 else buf i := by
  induction n with
  | zero => simp [preambleLoop]
  | succ n ih =>
    rw [preambleLoop, upd_apply, ih]
    by_cases h : i = n
    · subst h; simp
    · rw [if_neg h]
      by_cases h2 : i < n
      · rw [if_pos h2, if_pos (by omega)]
      · rw [if_neg h2, if_neg (by omega)]

theorem transmitLoop_crc (buffer : Nat → Nat) (n : Nat) (buf : Nat → Nat) :
    (transmitLoop buffer n buf 0xffffffff).2 = crcOf buffer n := by
  induction n with
  | zero => rfl
  | succ n ih => rw [transmitLoop, crcOf, ← ih]

theorem transmitLoop_apply (buffer : Nat → Nat) (n : Nat) (buf : Nat → Nat) (crc i : Nat) :
    (transmitLoop buffer n buf crc).1 i =
      if 8 ≤ i ∧ i < n + 8 then ((buffer (i - 8) <<< 4) ||| (buffer (i - 8) >>> 4)) % 256
      else buf i := by
  induction n with
  | zero =>
    rw [transmitLoop, if_neg (by omega)]
  | succ n ih =>
    rw [transmitLoop]
    dsimp only
    rw [upd_apply, ih]
    by_cases h : i = n + 8
    · subst h
      rw [if_pos rfl, if_pos (by omega)]
      simp
    · rw [if_neg h]
      by_cases h2 : 8 ≤ i ∧ i < n + 8
      · rw [if_pos h2, if_pos (by omega)]
      · rw [if_neg h2, if_neg (by omega)]

theorem trailerLoop_apply (length crc n : Nat) (buf : Nat → Nat) (i : Nat) :
    trailerLoop length crc n buf i =
      if length + 8 ≤ i ∧ i < length + 8 + n then trailerByte crc (i - (length + 8))
      else buf i := by
  induction n with
  | zero =>
    rw [trailerLoop, if_neg (by omega)]
  | succ n ih =>
    rw [trailerLoop, upd_apply, ih]
    by_cases h : i = length + 8 + n
    · subst h
      rw [if_pos rfl, if_pos (by omega), Nat.mod_eq_of_lt (trailerByte_lt _ _)]
      congr 1
      omega
    · rw [if_neg h]
      by_cases h2 : length + 8 ≤ i ∧ i < length + 8 + n
      · rw [if_pos h2, if_pos (by omega)]
      · rw [if_neg h2, if_neg (by omega)]

theorem and_three (x : Nat) : x &&& 3 = x % 4 :=
  Nat.and_pow_two_sub_one_eq_mod x 2

theorem and_mask (x : Nat) : x &&& INDEX_MASK = x % 65536 :=
  Nat.and_pow_two_sub_one_eq_mod x 16

theorem and_ffff (x : Nat) : x &&& 0xffff = x % 65536 :=
  Nat.and_pow_two_sub_one_eq_mod x 16

theorem and_ff (x : Nat) : x &&& 0xff = x % 256 :=
  Nat.and_pow_two_sub_one_eq_mod x 8

theorem paddedLength_spec (length : Nat) :
    length ≤ paddedLength length ∧ 60 ≤ paddedLength length ∧ paddedLength length % 4 = 0 ∧
      ∀ m, length ≤ m → 60 ≤ m → m % 4 = 0 → paddedLength length ≤ m := by
  unfold paddedLength
  split
  · refine ⟨by omega, by omega, by omega, ?_⟩
    intro m h1 h2 h3; omega
  · refine ⟨by omega, by omega, by omega, ?_⟩
    intro m h1 h2 h3; omega

theorem padLoop_spec : ∀ (fuel : Nat) (buffer : Nat → Nat) (length : Nat),
    paddedLength length ≤ length + fuel →
      padLoop fuel buffer length = (padded buffer length, paddedLength length) := by
  intro fuel
  induction fuel with
  | zero =>
    intro buffer length h
    have hs := paddedLength_spec length
    have e : paddedLength length = length := by omega
    rw [padLoop]
    congr 1
    · funext i
      unfold padded
      rw [if_neg (by omega)]
    · exact e.symm
  | succ fuel ih =>
    intro buffer length h
    have hs := paddedLength_spec length
    rw [padLoop, and_three]
    split
    · next hc =>
      have e : paddedLength (length + 1) = paddedLength length := by
        unfold paddedLength at h ⊢
        split <;> split <;> omega
      rw [ih _ _ (by omega), e]
      congr 1
      funext i
      unfold padded
      rw [e, upd_apply]
      by_cases hi : i = length
      · subst hi
        rw [if_neg (by omega), if_pos rfl, if_pos (by omega)]
      · rw [if_neg hi]
        by_cases h2 : length + 1 ≤ i ∧ i < paddedLength length
        · rw [if_pos h2, if_pos (by omega)]
        · rw [if_neg h2, if_neg (by omega)]
    · next hc =>
      have e : paddedLength length = length := by
        unfold paddedLength; split <;> omega
      congr 1
      · funext i
        unfold padded
        rw [if_neg (by omega)]
      · exact e.symm

theorem padded_of_lt (buffer : Nat → Nat) (length : Nat) {i : Nat} (h : i < length) :
    padded buffer length i = buffer i := by
  unfold padded; rw [if_neg (by omega)]

theorem padded_lt {buffer : Nat → Nat} {length : Nat} (hb : ∀ i, i < length → buffer i < 256) :
    ∀ i, i < paddedLength length → padded buffer length i < 256 := by
  intro i hi
  unfold padded
  split
  · decide
  · next h => exact hb i (by omega)

theorem EthernetTransmit_buffer (e : Ethernet) (buffer : Nat → Nat) (length : Nat) :
    (EthernetTransmit e buffer length).2 = padded buffer length := by
  unfold EthernetTransmit
  have hs := paddedLength_spec length
  have h60 : paddedLength length ≤ length + 64 := by
    unfold paddedLength; split <;> omega
  simp only [padLoop_spec 64 buffer length h60]

theorem EthernetTransmit_reg (e : Ethernet) (buffer : Nat → Nat) (length : Nat) :
    (EthernetTransmit e buffer length).1.ETHERNET_REG = paddedLength length / 4 + 4 := by
  unfold EthernetTransmit
  have hs := paddedLength_spec length
  have h60 : paddedLength length ≤ length + 64 := by
    unfold paddedLength; split <;> omega
  simp only [padLoop_spec 64 buffer length h60, Nat.shiftRight_eq_div_pow]
  omega

theorem EthernetTransmit_window (e : Ethernet) (buffer : Nat → Nat) (length : Nat) (i : Nat) :
    (EthernetTransmit e buffer length).1.ETHERNET_TRANSMIT i =
      if i < 7 then 0x55
      else if i = 7 then 0x5d
      else if i < paddedLength length + 8 then
        ((padded buffer length (i - 8) <<< 4) ||| (padded buffer length (i - 8) >>> 4)) % 256
      else if i < paddedLength length + 12 then
        trailerByte (crcOf (padded buffer length) (paddedLength length))
          (i - (paddedLength length + 8))
      else e.ETHERNET_TRANSMIT i := by
  unfold EthernetTransmit
  have hs := paddedLength_spec length
  have h60 : paddedLength length ≤ length + 64 := by
    unfold paddedLength; split <;> omega
  simp only [padLoop_spec 64 buffer length h60, transmitLoop_crc, trailerLoop_apply,
    transmitLoop_apply, upd_apply, preambleLoop_apply]
  split_ifs <;> first | rfl | omega

theorem shift_top (K c s : Nat) (hs : s ≤ 24) :
    (K ^^^ ((c <<< s) % 4294967296)) >>> 24 = (K >>> 24) ^^^ ((c >>> (24 - s)) &&& 0xff) := by
  have e32 : (4294967296 : Nat) = 2 ^ 32 := by norm_num
  have e8 : (0xff : Nat) = 2 ^ 8 - 1 := by norm_num
  rw [e32, e8, Nat.and_pow_two_sub_one_eq_mod]
  apply Nat.eq_of_testBit_eq
  intro i
  simp only [Nat.testBit_shiftRight, Nat.testBit_xor, Nat.testBit_mod_two_pow,
    Nat.testBit_shiftLeft]
  have h1 : decide (24 + i ≥ s) = true := by simp; omega
  have h2 : 24 + i - s = 24 - s + i := by omega
  have h3 : decide (24 + i < 32) = decide (i < 8) := by
    congr 1; apply propext; constructor <;> intro h <;> omega
  rw [h1, h2, h3]
  simp

theorem shift_low (K c s : Nat) :
    ((K ^^^ ((c <<< s) % 4294967296)) <<< 8) % 4294967296 =
      ((K <<< 8) % 4294967296) ^^^ ((c <<< (s + 8)) % 4294967296) := by
  have e32 : (4294967296 : Nat) = 2 ^ 32 := by norm_num
  rw [e32]
  apply Nat.eq_of_testBit_eq
  intro i
  simp only [Nat.testBit_shiftRight, Nat.testBit_xor, Nat.testBit_mod_two_pow,
    Nat.testBit_shiftLeft]
  by_cases h32 : i < 32
  · by_cases h8 : i ≥ 8
    · have a1 : decide (i - 8 < 32) = true := by simp; omega
      by_cases hs : i - 8 ≥ s
      · have a2 : decide (i ≥ s + 8) = true := by simp; omega
        have a3 : i - 8 - s = i - (s + 8) := by omega
        simp [h32, h8, a1, hs, a2, a3]
      · have a2 : decide (i ≥ s + 8) = false := by simp; omega
        simp [h32, h8, a1, hs, a2]
    · have a2 : decide (i ≥ s + 8) = false := by simp; omega
      simp [h32, h8, a2]
  · simp [h32]

theorem reflect_swap_reflectNibble :
    ∀ c < 256, reflect (((reflectNibble c <<< 4) &&& 0xf0) ||| (reflectNibble c >>> 4)) =
      c ^^^ 0xff := by
  decide

theorem reflectNibble_eq : ∀ c < 256, reflectNibble c = reverseNibbles (c ^^^ 0xff) := by
  decide

theorem xor_cancel (b k : Nat) : (b ^^^ 0xff) ^^^ (k ^^^ b) = 0xff ^^^ k := by
  rw [Nat.xor_comm k b, ← Nat.xor_assoc, Nat.xor_assoc b 0xff b, Nat.xor_comm 0xff b,
    ← Nat.xor_assoc, Nat.xor_self, Nat.xor_assoc]
  simp

/-- One step of the receiver's CRC over a trailer byte: the byte of the register that the
trailer byte was made from cancels. -/
theorem residue_step (K c s : Nat) (hs : s ≤ 24) :
    crcUpdate (K ^^^ ((c <<< s) % 4294967296))
        (((reflectNibble ((c >>> (24 - s)) &&& 0xff) <<< 4) &&& 0xf0) |||
          (reflectNibble ((c >>> (24 - s)) &&& 0xff) >>> 4)) =
      crcUpdate K 0xff ^^^ ((c <<< (s + 8)) % 4294967296) := by
  have hb : (c >>> (24 - s)) &&& 0xff < 256 := Nat.and_lt_two_pow _ (n := 8) (by decide)
  have h255 : reflect 0xff = 0xff := by decide
  unfold crcUpdate
  rw [reflect_swap_reflectNibble _ hb, shift_top K c s hs, shift_low, xor_cancel, h255,
    Nat.xor_assoc]

theorem residue (c : Nat) (hc : c < 4294967296) :
    crcUpdate (crcUpdate (crcUpdate (crcUpdate c
      (((trailerByte c 0 <<< 4) &&& 0xf0) ||| (trailerByte c 0 >>> 4)))
      (((trailerByte c 1 <<< 4) &&& 0xf0) ||| (trailerByte c 1 >>> 4)))
      (((trailerByte c 2 <<< 4) &&& 0xf0) ||| (trailerByte c 2 >>> 4)))
      (((trailerByte c 3 <<< 4) &&& 0xf0) ||| (trailerByte c 3 >>> 4)) = 0xC704DD7B := by
  have e0 : c = 0 ^^^ ((c <<< 0) % 4294967296) := by
    simp [Nat.mod_eq_of_lt hc]
  have s0 := residue_step 0 c 0 (by decide)
  have s1 := residue_step (crcUpdate 0 0xff) c 8 (by decide)
  have s2 := residue_step (crcUpdate (crcUpdate 0 0xff) 0xff) c 16 (by decide)
  have s3 := residue_step (crcUpdate (crcUpdate (crcUpdate 0 0xff) 0xff) 0xff) c 24 (by decide)
  rw [← e0] at s0
  unfold trailerByte
  simp only [Nat.reduceShiftLeft, Nat.reduceSub, Nat.zero_shiftLeft] at s0 s1 s2 s3 ⊢
  rw [s0, s1, s2, s3]
  have hz : (c <<< 32) % 4294967296 = 0 := by
    rw [Nat.shiftLeft_eq]
    omega
  rw [hz]
  decide

theorem frameWire_apply (buffer : Nat → Nat) (n i : Nat) :
    frameWire buffer n i =
      if i < n then ((buffer i <<< 4) ||| (buffer i >>> 4)) % 256
      else if i < n + 4 then trailerByte (crcOf buffer n) (i - n)
      else 0 := by
  unfold frameWire
  rw [trailerLoop_apply, transmitLoop_crc, transmitLoop_apply]
  have e1 : 8 + i - 8 = i := by omega
  have e2 : 8 + i - (n + 8) = i - n := by omega
  rw [e1, e2]
  split_ifs <;> first | rfl | omega

theorem EthernetTransmit_frameWire (e : Ethernet) (buffer : Nat → Nat) (length i : Nat)
    (hi : i < paddedLength length + 4) :
    (EthernetTransmit e buffer length).1.ETHERNET_TRANSMIT (8 + i) =
      frameWire (padded buffer length) (paddedLength length) i := by
  rw [EthernetTransmit_window, frameWire_apply]
  have e1 : 8 + i - 8 = i := by omega
  have e2 : 8 + i - (paddedLength length + 8) = i - paddedLength length := by omega
  rw [e1, e2]
  split_ifs <;> first | rfl | omega

theorem wireCrc_congr {w w' : Nat → Nat} {n : Nat} (h : ∀ i, i < n → w i = w' i) :
    wireCrc w n = wireCrc w' n := by
  induction n with
  | zero => rfl
  | succ n ih => rw [wireCrc, wireCrc, ih (fun i hi => h i (by omega)), h n (by omega)]

theorem swap_back (b : Nat) (hb : b < 256) :
    (((((b <<< 4) ||| (b >>> 4)) % 256) <<< 4) &&& 0xf0) |||
      ((((b <<< 4) ||| (b >>> 4)) % 256) >>> 4) = b := by
  rw [transmit_swap b hb, receive_swap _ (swapNibbles_lt b hb), swapNibbles_swapNibbles b hb]

theorem wireCrc_data (w buffer : Nat → Nat) (n : Nat)
    (hw : ∀ i, i < n → w i = ((buffer i <<< 4) ||| (buffer i >>> 4)) % 256)
    (hb : ∀ i, i < n → buffer i < 256) : wireCrc w n = crcOf buffer n := by
  induction n with
  | zero => rfl
  | succ n ih =>
    rw [wireCrc, crcOf, ih (fun i hi => hw i (by omega)) (fun i hi => hb i (by omega)),
      hw n (by omega), swap_back _ (hb n (by omega))]

theorem wireCrc_frame (w buffer : Nat → Nat) (n : Nat)
    (hw : ∀ i, i < n → w i = ((buffer i <<< 4) ||| (buffer i >>> 4)) % 256)
    (ht : ∀ i, i < 4 → w (n + i) = trailerByte (crcOf buffer n) i)
    (hb : ∀ i, i < n → buffer i < 256) : wireCrc w (n + 4) = 0xC704DD7B := by
  have h := residue (crcOf buffer n) (crcOf_lt _ _)
  have hd := wireCrc_data w buffer n hw hb
  rw [show n + 4 = n + 3 + 1 from rfl, wireCrc, show n + 3 = n + 2 + 1 from rfl, wireCrc,
    show n + 2 = n + 1 + 1 from rfl, wireCrc, wireCrc, hd]
  have t0 := ht 0 (by decide)
  rw [Nat.add_zero] at t0
  rw [t0, ht 1 (by decide), ht 2 (by decide), ht 3 (by decide)]
  exact h

theorem frameWire_residue (buffer : Nat → Nat) (n : Nat) (hb : ∀ i, i < n → buffer i < 256) :
    wireCrc (frameWire buffer n) (n + 4) = 0xC704DD7B := by
  apply wireCrc_frame _ buffer n _ _ hb
  · intro i hi
    rw [frameWire_apply, if_pos hi]
  · intro i hi
    rw [frameWire_apply, if_neg (by omega), if_pos (by omega)]
    congr 1
    omega

/-! ## The table-driven CRC is the bit-serial CRC -/

theorem shl1_xor (x y : Nat) :
    ((x ^^^ y) <<< 1) % 4294967296 = ((x <<< 1) % 4294967296) ^^^ ((y <<< 1) % 4294967296) := by
  have e32 : (4294967296 : Nat) = 2 ^ 32 := by norm_num
  rw [e32]
  apply Nat.eq_of_testBit_eq
  intro i
  simp only [Nat.testBit_xor, Nat.testBit_mod_two_pow, Nat.testBit_shiftLeft]
  by_cases h32 : i < 32 <;> by_cases h1 : i ≥ 1 <;> simp [h32, h1]

theorem xor_xor_cancel (a b p : Nat) : (a ^^^ p) ^^^ (b ^^^ p) = a ^^^ b := by
  rw [Nat.xor_assoc, Nat.xor_comm b p, ← Nat.xor_assoc p, Nat.xor_self, Nat.zero_xor]

theorem crcDivideBit_xor (x y : Nat) (bit : Bool) :
    crcDivideBit (x ^^^ y) bit = crcDivideBit x false ^^^ crcDivideBit y bit := by
  unfold crcDivideBit
  rw [shl1_xor, Nat.testBit_xor]
  cases hx : x.testBit 31 <;> cases hy : y.testBit 31 <;> cases bit <;>
    simp [Nat.xor_assoc, Nat.xor_comm POLYNOMIAL, xor_xor_cancel]

theorem crcDivideBits_xor (byte x y : Nat) (n : Nat) :
    crcDivideBits byte n (x ^^^ y) = crcDivideBits 0 n x ^^^ crcDivideBits byte n y := by
  induction n with
  | zero => rfl
  | succ n ih =>
    rw [crcDivideBits, crcDivideBits, crcDivideBits, ih, crcDivideBit_xor]
    simp

theorem topbit_iff (r : Nat) : r &&& TOPBIT ≠ 0 ↔ r.testBit 31 = true := by
  have e : TOPBIT = 2 ^ 31 := by decide
  rw [e, Nat.and_two_pow]
  cases h : r.testBit 31 <;> simp

theorem CrcDivide_step (r : Nat) :
    CrcDivide 1 r = crcDivideBit r false := by
  rw [CrcDivide, CrcDivide, CrcDivide]
  unfold crcDivideBit
  by_cases h : r.testBit 31 = true
  · rw [if_pos ((topbit_iff r).2 h), if_pos (by simp [h])]
  · rw [if_neg (fun h1 => h ((topbit_iff r).1 h1)), if_neg (by simp [h])]

theorem CrcDivide_succ (n r : Nat) : CrcDivide (n + 1) r = CrcDivide n (crcDivideBit r false) := by
  rw [← CrcDivide_step, CrcDivide, CrcDivide, CrcDivide]
  split <;> rfl

theorem crcDivideBits_zero_comm (n r : Nat) :
    crcDivideBits 0 n (crcDivideBit r false) = crcDivideBit (crcDivideBits 0 n r) false := by
  induction n with
  | zero => rfl
  | succ n ih => rw [crcDivideBits, crcDivideBits, ih]; simp

theorem CrcDivide_eq (n : Nat) : ∀ r, CrcDivide n r = crcDivideBits 0 n r := by
  induction n with
  | zero => intro r; rfl
  | succ n ih =>
    intro r
    rw [CrcDivide_succ, ih, crcDivideBits_zero_comm, crcDivideBits]
    simp

theorem crcDivideBits_small (n : Nat) : ∀ l, l < 2 ^ (32 - n) → n ≤ 32 →
    crcDivideBits 0 n l = l <<< n := by
  induction n with
  | zero => intro l _ _; rfl
  | succ n ih =>
    intro l hl hn
    have hl' : l < 2 ^ (32 - n) :=
      Nat.lt_of_lt_of_le hl (Nat.pow_le_pow_right (by decide) (by omega))
    rw [crcDivideBits, ih l hl' (by omega)]
    unfold crcDivideBit
    have hlt : l <<< n < 2 ^ 31 := by
      rw [Nat.shiftLeft_eq]
      have h1 : l * 2 ^ n < 2 ^ (32 - (n + 1)) * 2 ^ n :=
        Nat.mul_lt_mul_of_pos_right hl (Nat.pow_pos (by decide))
      rw [← Nat.pow_add, show 32 - (n + 1) + n = 31 from by omega] at h1
      exact h1
    have htop : (l <<< n).testBit 31 = false := Nat.testBit_lt_two_pow hlt
    simp only [htop, Nat.zero_testBit, bne_self_eq_false, Bool.false_eq_true, if_false]
    rw [Nat.mod_eq_of_lt, ← Nat.shiftLeft_add]
    rw [Nat.shiftLeft_eq _ 1]
    have : (2:Nat) ^ 31 = 2147483648 := by norm_num
    omega

theorem crcDivideBits_table : ∀ b < 256, crcDivideBits b 8 0 = CrcTable (reflect b) := by
  decide

theorem shl_xor (x y k : Nat) :
    ((x ^^^ y) <<< k) % 4294967296 = ((x <<< k) % 4294967296) ^^^ ((y <<< k) % 4294967296) := by
  have e32 : (4294967296 : Nat) = 2 ^ 32 := by norm_num
  rw [e32]
  apply Nat.eq_of_testBit_eq
  intro i
  simp only [Nat.testBit_xor, Nat.testBit_mod_two_pow, Nat.testBit_shiftLeft]
  by_cases h32 : i < 32 <;> by_cases h1 : i ≥ k <;> simp [h32, h1]

theorem CrcTable_xor (x y : Nat) : CrcTable (x ^^^ y) = CrcTable x ^^^ CrcTable y := by
  unfold CrcTable
  rw [CrcDivide_eq, CrcDivide_eq, CrcDivide_eq, shl_xor, crcDivideBits_xor]

theorem split_top (r : Nat) (hr : r < 4294967296) :
    r = (((r >>> 24) <<< 24) % 4294967296) ^^^ (r % 16777216) := by
  have e32 : (4294967296 : Nat) = 2 ^ 32 := by norm_num
  have e24 : (16777216 : Nat) = 2 ^ 24 := by norm_num
  rw [e32] at hr ⊢
  rw [e24]
  apply Nat.eq_of_testBit_eq
  intro i
  simp only [Nat.testBit_xor, Nat.testBit_mod_two_pow, Nat.testBit_shiftLeft,
    Nat.testBit_shiftRight]
  by_cases h24 : i < 24
  · have h1 : ¬ i ≥ 24 := by omega
    have h32 : i < 32 := by omega
    simp [h24, h1, h32]
  · have h1 : i ≥ 24 := by omega
    by_cases h32 : i < 32
    · have e : 24 + (i - 24) = i := by omega
      simp [h24, h1, h32, e]
    · have hz : r.testBit i = false :=
        Nat.testBit_lt_two_pow (Nat.lt_of_lt_of_le hr (Nat.pow_le_pow_right (by decide)
          (by omega)))
      simp [h24, h32, hz]

theorem crcDivideBits_word (r : Nat) (hr : r < 4294967296) :
    crcDivideBits 0 8 r = CrcTable (r >>> 24) ^^^ ((r <<< 8) % 4294967296) := by
  have hs := split_top r hr
  have h1 : crcDivideBits 0 8 (((r >>> 24) <<< 24) % 4294967296) = CrcTable (r >>> 24) := by
    unfold CrcTable
    rw [CrcDivide_eq]
  have h2 : crcDivideBits 0 8 (r % 16777216) = (r <<< 8) % 4294967296 := by
    rw [crcDivideBits_small 8 _ (by
      have : r % 16777216 < 16777216 := Nat.mod_lt _ (by decide)
      simpa using this) (by decide)]
    rw [Nat.shiftLeft_eq, Nat.shiftLeft_eq]
    have : (2 : Nat) ^ 8 = 256 := by norm_num
    omega
  conv_lhs => rw [hs]
  rw [crcDivideBits_xor, h1, h2]

/-- The update of the register with the tables is the division bit by bit. -/
theorem crcUpdate_eq (crc byte : Nat) (hc : crc < 4294967296) (hb : byte < 256) :
    crcUpdate crc byte = crcDivideBits byte 8 crc := by
  have h := crcDivideBits_xor byte crc 0 8
  rw [Nat.xor_zero] at h
  rw [h, crcDivideBits_word crc hc, crcDivideBits_table byte hb]
  unfold crcUpdate
  rw [CrcTable_xor, Nat.xor_comm (CrcTable (reflect byte)), Nat.xor_assoc,
    Nat.xor_comm (CrcTable (reflect byte)), ← Nat.xor_assoc]

theorem crcOf_eq_crc32 (buffer : Nat → Nat) (n : Nat) (hb : ∀ i, i < n → buffer i < 256) :
    crcOf buffer n = crc32 buffer n := by
  induction n with
  | zero => rfl
  | succ n ih =>
    rw [crcOf, crc32, ← ih (fun i hi => hb i (by omega)),
      crcUpdate_eq _ _ (crcOf_lt _ _) (hb n (by omega))]

/-! ## C13, C14: the CRC trailer -/

/-- C13 (as stated, refuted): for the frame of 60 zero bytes the receiver's CRC register
after the 60 bytes and the four trailer bytes is not zero. -/
theorem C13_crc_register_not_zero :
    wireCrc (frameWire (fun _ => 0) 60) (60 + 4) ≠ 0 := by
  decide

/-- C13 (amended): for every frame (`n` bytes followed by the four trailer bytes that the
loops of `EthernetTransmit` write for them), the receiver's rolling CRC (seed `0xffffffff`,
nibbles swapped back, then `reflect` and `CrcTable`) over the `n` bytes and then over the
four trailer bytes leaves the register equal to the constant `0xC704DD7B`; the same for the
window that `EthernetTransmit` writes, from offset 8 on. -/
theorem C13_crc_residue (e : Ethernet) (buffer : Nat → Nat) (n : Nat)
    (hb : ∀ i, i < n → buffer i < 256) :
    wireCrc (frameWire buffer n) (n + 4) = 0xC704DD7B ∧
      wireCrc (fun i => (EthernetTransmit e buffer n).1.ETHERNET_TRANSMIT (8 + i))
        (paddedLength n + 4) = 0xC704DD7B := by
  refine ⟨frameWire_residue buffer n hb, ?_⟩
  rw [wireCrc_congr (fun i hi => EthernetTransmit_frameWire e buffer n i hi)]
  exact frameWire_residue _ _ (padded_lt hb)

/-- C13, instance: a frame of 46 bytes. -/
theorem C13_crc_residue_witness :
    wireCrc (frameWire (fun i => i % 256) 46) (46 + 4) = 0xC704DD7B ∧
      wireCrc (fun i => (EthernetTransmit ethernetStart (fun i => i % 256) 46).1.ETHERNET_TRANSMIT
        (8 + i)) (paddedLength 46 + 4) = 0xC704DD7B :=
  C13_crc_residue ethernetStart (fun i => i % 256) 46 (fun i _ => Nat.mod_lt i (by decide))

/-- C14 (as stated, refuted): for the frame of 60 zero bytes the first trailer byte that
`EthernetTransmit` writes (offset 68 of the window) is not the first byte of the CRC-32
register with the bits of each nibble reversed. -/
theorem C14_trailer_not_plain_register :
    (EthernetTransmit ethernetStart (fun _ => 0) 60).1.ETHERNET_TRANSMIT (60 + 8 + 0) ≠
      reverseNibbles ((crc32 (fun _ => 0) 60 >>> (24 - 8 * 0)) &&& 0xff) := by
  rw [← crcOf_eq_crc32 (fun _ => 0) 60 (fun _ _ => (by decide : (0 : Nat) < 256))]
  decide

/-- C14 (amended): trailer byte `i` (`i = 0..3`) that `EthernetTransmit` writes behind the
padded bytes is the byte `(crc >> (24 - 8i)) & 0xff` of the CRC-32 register (`crc32`:
polynomial `0x04C11DB7`, reflected input, seed `0xffffffff`) complemented, with the bits of
each nibble reversed. -/
theorem C14_trailer_is_complemented_register (e : Ethernet) (buffer : Nat → Nat)
    (length i : Nat) (hb : ∀ j, j < length → buffer j < 256) (hi : i < 4) :
    (EthernetTransmit e buffer length).1.ETHERNET_TRANSMIT (paddedLength length + 8 + i) =
      reverseNibbles ((((crc32 (padded buffer length) (paddedLength length)) >>> (24 - 8 * i))
        &&& 0xff) ^^^ 0xff) := by
  rw [EthernetTransmit_window, ← crcOf_eq_crc32 _ _ (padded_lt hb)]
  have hs := paddedLength_spec length
  rw [if_neg (by omega), if_neg (by omega), if_neg (by omega), if_pos (by omega)]
  have e1 : paddedLength length + 8 + i - (paddedLength length + 8) = i := by omega
  rw [e1]
  unfold trailerByte
  rw [reflectNibble_eq _ (Nat.and_lt_two_pow _ (n := 8) (by decide)), Nat.shiftLeft_eq]
  have e2 : i * 2 ^ 3 = 8 * i := by omega
  rw [e2]

/-- C14, instance: the third trailer byte for 60 zero bytes. -/
theorem C14_trailer_is_complemented_register_witness :
    (EthernetTransmit ethernetStart (fun _ => 0) 60).1.ETHERNET_TRANSMIT (paddedLength 60 + 8 + 2) =
      reverseNibbles ((((crc32 (padded (fun _ => 0) 60) (paddedLength 60)) >>> (24 - 8 * 2))
        &&& 0xff) ^^^ 0xff) :=
  C14_trailer_is_complemented_register ethernetStart (fun _ => 0) 60 2
    (fun _ _ => (by decide : (0 : Nat) < 256)) (by decide)

/-! ## C17: the transmit window -/

/-- C17: `EthernetTransmit` pads the caller's buffer with zero bytes
to the least length `L` that is a multiple of four and at least `max(length, 60)`, keeps the
original bytes, writes `55 55 55 55 55 55 55 5D` at offsets 0..7 of the window and the byte
`i` of the padded buffer with its nibbles swapped at offset `8 + i` for every `i < L`, and
writes `L / 4 + 4` to the control register. -/
theorem C17_transmit_framing (e : Ethernet) (buffer : Nat → Nat) (length : Nat)
    (hb : ∀ i, i < length → buffer i < 256) :
    ∃ L, (length ≤ L ∧ 60 ≤ L ∧ L % 4 = 0 ∧ ∀ m, length ≤ m → 60 ≤ m → m % 4 = 0 → L ≤ m) ∧
      (∀ i, i < length → (EthernetTransmit e buffer length).2 i = buffer i) ∧
      (∀ i, length ≤ i → i < L → (EthernetTransmit e buffer length).2 i = 0) ∧
      (∀ i, i < 7 → (EthernetTransmit e buffer length).1.ETHERNET_TRANSMIT i = 0x55) ∧
      (EthernetTransmit e buffer length).1.ETHERNET_TRANSMIT 7 = 0x5d ∧
      (∀ i, i < L → (EthernetTransmit e buffer length).1.ETHERNET_TRANSMIT (8 + i) =
        swapNibbles ((EthernetTransmit e buffer length).2 i)) ∧
      (EthernetTransmit e buffer length).1.ETHERNET_REG = L / 4 + 4 := by
  refine ⟨paddedLength length, paddedLength_spec length, ?_, ?_, ?_, ?_, ?_,
    EthernetTransmit_reg e buffer length⟩
  · intro i hi
    rw [EthernetTransmit_buffer, padded_of_lt _ _ hi]
  · intro i h1 h2
    rw [EthernetTransmit_buffer]
    unfold padded
    rw [if_pos ⟨h1, h2⟩]
  · intro i hi
    rw [EthernetTransmit_window, if_pos hi]
  · rw [EthernetTransmit_window, if_neg (by decide), if_pos rfl]
  · intro i hi
    rw [EthernetTransmit_window, EthernetTransmit_buffer, if_neg (by omega), if_neg (by omega),
      if_pos (by omega)]
    have e1 : 8 + i - 8 = i := by omega
    rw [e1, transmit_swap _ (padded_lt hb i hi)]

/-- C17, instance: a buffer of 46 bytes. -/
theorem C17_transmit_framing_witness :
    ∃ L, (46 ≤ L ∧ 60 ≤ L ∧ L % 4 = 0 ∧ ∀ m, 46 ≤ m → 60 ≤ m → m % 4 = 0 → L ≤ m) ∧
      (∀ i, i < 46 → (EthernetTransmit ethernetStart (fun i => i % 256) 46).2 i = i % 256) ∧
      (∀ i, 46 ≤ i → i < L → (EthernetTransmit ethernetStart (fun i => i % 256) 46).2 i = 0) ∧
      (∀ i, i < 7 →
        (EthernetTransmit ethernetStart (fun i => i % 256) 46).1.ETHERNET_TRANSMIT i = 0x55) ∧
      (EthernetTransmit ethernetStart (fun i => i % 256) 46).1.ETHERNET_TRANSMIT 7 = 0x5d ∧
      (∀ i, i < L →
        (EthernetTransmit ethernetStart (fun i => i % 256) 46).1.ETHERNET_TRANSMIT (8 + i) =
          swapNibbles ((EthernetTransmit ethernetStart (fun i => i % 256) 46).2 i)) ∧
      (EthernetTransmit ethernetStart (fun i => i % 256) 46).1.ETHERNET_REG = L / 4 + 4 :=
  C17_transmit_framing ethernetStart (fun i => i % 256) 46 (fun i _ => Nat.mod_lt i (by decide))

theorem macLoop_spec (e : Ethernet) (index : Nat) : ∀ (fuel i : Nat), i + fuel = 7 →
    (macLoop e index fuel i = 7 ↔
      ∀ j, i ≤ j → j < 7 →
        e.ETHERNET_RECEIVE ((index + j) &&& INDEX_MASK) = 0xff ∨
          e.ETHERNET_RECEIVE ((index + j) &&& INDEX_MASK) = e.gDestMac j) := by
  intro fuel
  induction fuel with
  | zero =>
    intro i hi
    rw [macLoop]
    constructor
    · intro _ j h1 h2; omega
    · intro _; omega
  | succ fuel ih =>
    intro i hi
    rw [macLoop, if_pos (by omega)]
    dsimp only
    split
    · next hbad =>
      constructor
      · intro h; omega
      · intro h
        rcases h i (Nat.le_refl _) (by omega) with h1 | h1
        · exact absurd h1 hbad.1
        · exact absurd h1 hbad.2
    · next hok =>
      rw [ih (i + 1) (by omega)]
      constructor
      · intro h j h1 h2
        by_cases hj : j = i
        · subst hj
          by_cases h3 : e.ETHERNET_RECEIVE ((index + j) &&& INDEX_MASK) = 0xff
          · exact Or.inl h3
          · right
            by_contra h4
            exact hok ⟨h3, h4⟩
        · exact h j (by omega) h2
      · intro h j h1 h2
        exact h j (by omega) h2

theorem macLoop_accepts (e : Ethernet) (index : Nat) :
    macLoop e index 6 1 = 7 ↔ MacAccepts e index := by
  rw [macLoop_spec e index 6 1 rfl]
  unfold MacAccepts
  constructor
  · intro h i h1 h2; exact h i h1 (by omega)
  · intro h i h1 h2; exact h i h1 (by omega)

theorem findStart_sound (e : Ethernet) (packetExpected : Nat) : ∀ (fuel offset index : Nat),
    findStart e packetExpected fuel offset = some index →
      e.ETHERNET_RECEIVE index = 0x5d ∧ MacAccepts e index := by
  intro fuel
  induction fuel with
  | zero => intro offset index h; rw [findStart] at h; exact absurd h (by simp)
  | succ fuel ih =>
    intro offset index h
    rw [findStart] at h
    split at h
    · next h5d =>
      split at h
      · next hmac =>
        have e1 := Option.some.inj h
        rw [← e1]
        exact ⟨h5d, (macLoop_accepts e _).1 hmac⟩
      · exact ih _ _ h
    · split at h
      · exact absurd h (by simp)
      · exact ih _ _ h

/-- The scan stops at the first offset that holds `0x5d` followed by an accepted address,
when the bytes before it are neither `0x5d` nor an empty byte with no packet expected. -/
theorem findStart_skip (e : Ethernet) (packetExpected : Nat) : ∀ (k fuel offset : Nat),
    k < fuel →
    (∀ o, offset ≤ o → o < offset + k →
      e.ETHERNET_RECEIVE ((e.gIndex + o) &&& INDEX_MASK) ≠ 0x5d ∧
        (e.ETHERNET_RECEIVE ((e.gIndex + o) &&& INDEX_MASK) ≠ BYTE_EMPTY ∨
          packetExpected ≠ 0)) →
    e.ETHERNET_RECEIVE ((e.gIndex + (offset + k)) &&& INDEX_MASK) = 0x5d →
    MacAccepts e ((e.gIndex + (offset + k)) &&& INDEX_MASK) →
    findStart e packetExpected fuel offset = some ((e.gIndex + (offset + k)) &&& INDEX_MASK) := by
  intro k
  induction k with
  | zero =>
    intro fuel offset hf _ h5d hmac
    obtain ⟨fuel, rfl⟩ : ∃ f, fuel = f + 1 := ⟨fuel - 1, by omega⟩
    simp only [Nat.add_zero] at h5d hmac ⊢
    rw [findStart, if_pos h5d, if_pos ((macLoop_accepts e _).2 hmac)]
  | succ k ih =>
    intro fuel offset hf hskip h5d hmac
    obtain ⟨fuel, rfl⟩ : ∃ f, fuel = f + 1 := ⟨fuel - 1, by omega⟩
    rw [findStart]
    have h0 := hskip offset (Nat.le_refl _) (by omega)
    rw [if_neg h0.1]
    have hne : ¬ (e.ETHERNET_RECEIVE ((e.gIndex + offset) &&& INDEX_MASK) = BYTE_EMPTY ∧
        packetExpected = 0) := by
      intro h
      rcases h0.2 with h1 | h1
      · exact h1 h.1
      · exact h1 h.2
    rw [if_neg hne]
    have e1 : offset + (k + 1) = offset + 1 + k := by omega
    rw [e1] at h5d hmac ⊢
    exact ih fuel (offset + 1) (by omega) (fun o h1 h2 => hskip o (by omega) (by omega)) h5d hmac

theorem init_swap : ∀ b < 256, ((b >>> 4) ||| (b <<< 4)) % 256 = swapNibbles b := by
  decide

theorem mask_of_lt {x : Nat} (h : x < 65536) : x &&& INDEX_MASK = x := by
  rw [and_mask, Nat.mod_eq_of_lt h]

/-! ## C15: the address test -/

/-- C15 (as stated, refuted): with the address 00:10:dd:ce:15:d4 configured, a `0x5d`
followed by the six bytes `ff 01 ff ec ff 4d` (every other byte of the address replaced by
`0xff`) is accepted as the start of a frame, although the six bytes are neither the
nibble-swapped address nor the broadcast address. -/
theorem C15_mixed_address_accepted :
    findStart mixedAddressRing 0 65536 0 = some 0 ∧
    (List.range 6).map (fun i => mixedAddressRing.ETHERNET_RECEIVE (1 + i)) ≠
      (List.range 6).map (fun i => mixedAddressRing.gDestMac (1 + i)) ∧
    (List.range 6).map (fun i => mixedAddressRing.ETHERNET_RECEIVE (1 + i)) ≠
      [0xff, 0xff, 0xff, 0xff, 0xff, 0xff] := by
  decide

/-- C15 (amended): `EthernetReceive` accepts a frame start only at a `0x5d` each of whose
six following ring bytes is `0xff` or equal to the byte of `gDestMac` for its position; a
`0x5d` at the cursor `gIndex` is accepted exactly when that holds; and `EthernetInit` stores
the configured address in `gDestMac[1..6]` with swapped nibbles. -/
theorem C15_frame_start_bytewise (e : Ethernet) (packetExpected : Nat) (m : Nat → Nat)
    (hg : e.gIndex < 65536) (hm : ∀ i, i < 6 → m i < 256) :
    (∀ index, findStart e packetExpected 65536 0 = some index →
      e.ETHERNET_RECEIVE index = 0x5d ∧ MacAccepts e index) ∧
    (e.ETHERNET_RECEIVE e.gIndex = 0x5d →
      (findStart e packetExpected 65536 0 = some e.gIndex ↔ MacAccepts e e.gIndex)) ∧
    (∀ i, i < 6 → (EthernetInit e (some m)).gDestMac (i + 1) = swapNibbles (m i)) := by
  refine ⟨fun index h => findStart_sound e packetExpected _ _ index h, ?_, ?_⟩
  · intro h5d
    constructor
    · intro h
      exact (findStart_sound e packetExpected _ _ _ h).2
    · intro h
      have h1 := findStart_skip e packetExpected 0 65536 0 (by decide)
        (fun o h1 h2 => absurd h2 (by omega))
      simp only [Nat.add_zero, mask_of_lt hg] at h1
      exact h1 h5d h
  · intro i hi
    unfold EthernetInit
    dsimp only
    rw [if_pos (by omega), Nat.add_sub_cancel, init_swap _ (hm i hi)]

/-- C15, instance: the ring `mixedAddressRing`. -/
theorem C15_frame_start_bytewise_witness :
    (∀ index, findStart mixedAddressRing 0 65536 0 = some index →
      mixedAddressRing.ETHERNET_RECEIVE index = 0x5d ∧ MacAccepts mixedAddressRing index) ∧
    (mixedAddressRing.ETHERNET_RECEIVE mixedAddressRing.gIndex = 0x5d →
      (findStart mixedAddressRing 0 65536 0 = some mixedAddressRing.gIndex ↔
        MacAccepts mixedAddressRing mixedAddressRing.gIndex)) ∧
    (∀ i, i < 6 → (EthernetInit mixedAddressRing (some ethernetAddressPlasma)).gDestMac (i + 1) =
      swapNibbles (ethernetAddressPlasma i)) :=
  C15_frame_start_bytewise mixedAddressRing 0 ethernetAddressPlasma (by decide) (by decide)

theorem skipTo_spec (index : Nat) (hi : index < 65536) : ∀ (fuel : Nat) (e : Ethernet),
    e.gIndex ≤ index → index ≤ e.gIndex + fuel →
      skipTo index fuel e =
        { e with
          ETHERNET_RECEIVE := fun i =>
            if e.gIndex ≤ i ∧ i < index then BYTE_EMPTY else e.ETHERNET_RECEIVE i
          gIndex := index } := by
  intro fuel
  induction fuel with
  | zero =>
    intro e h1 h2
    have h : e.gIndex = index := by omega
    rw [skipTo]
    cases e
    simp only [Ethernet.mk.injEq, true_and, and_true] at h ⊢
    refine ⟨?_, h⟩
    funext i
    rw [if_neg (by omega)]
  | succ fuel ih =>
    intro e h1 h2
    rw [skipTo]
    split
    · next hne =>
      rw [ih _ (by dsimp only; rw [mask_of_lt (by omega)]; omega)
        (by dsimp only; rw [mask_of_lt (by omega)]; omega)]
      cases e
      simp only [Ethernet.mk.injEq, true_and, and_true] at h1 h2 hne ⊢
      funext i
      rw [mask_of_lt (by omega), upd_apply]
      split_ifs <;> first | rfl | omega
    · next heq =>
      have h : e.gIndex = index := by
        by_contra h3; exact heq h3
      cases e
      simp only [Ethernet.mk.injEq, true_and, and_true] at h ⊢
      refine ⟨?_, h⟩
      funext i
      rw [if_neg (by omega)]

theorem trailerByte_zero (crc : Nat) (h : crc < 4294967296) :
    trailerByte crc 0 = reflectNibble (crc >>> 24) := by
  unfold trailerByte
  have e : (crc >>> (24 - (0 <<< 3))) &&& 0xff = crc >>> 24 := by
    rw [and_ff]
    simp only [Nat.zero_shiftLeft, Nat.sub_zero, Nat.shiftRight_eq_div_pow]
    omega
  rw [e]

theorem probeLoop_done (ring : Nat → Nat) (g crc : Nat) : ∀ (fuel i : Nat), 4 < i →
    probeLoop ring g crc fuel i ≠ 4 := by
  intro fuel
  induction fuel with
  | zero => intro i hi; rw [probeLoop]; omega
  | succ fuel ih => intro i hi; rw [probeLoop, if_neg (by omega)]; omega

theorem probeLoop_spec (ring : Nat → Nat) (g crc : Nat) (hg : g + 3 < 65536) :
    ∀ (fuel i : Nat), i + fuel = 4 → 1 ≤ i →
      (probeLoop ring g crc fuel i = 4 ↔ ∀ j, i ≤ j → j < 4 → ring (g + j) = trailerByte crc j) := by
  intro fuel
  induction fuel with
  | zero =>
    intro i h1 h2
    rw [probeLoop]
    constructor
    · intro _ j h3 h4; omega
    · intro _; omega
  | succ fuel ih =>
    intro i h1 h2
    rw [probeLoop, if_pos (by omega), and_ffff, Nat.mod_eq_of_lt (by omega)]
    dsimp only
    split
    · next hne =>
      constructor
      · intro h
        exact absurd h (probeLoop_done ring g crc fuel _ (by omega))
      · intro h
        exact absurd (h i (Nat.le_refl _) (by omega)).symm hne
    · next heq =>
      rw [ih (i + 1) (by omega) (by omega)]
      have heq' : trailerByte crc i = ring (g + i) := by
        by_contra h3; exact heq h3
      constructor
      · intro h j h3 h4
        by_cases hj : j = i
        · subst hj; exact heq'.symm
        · exact h j (by omega) h4
      · intro h j h3 h4
        exact h j (by omega) h4

theorem probe_iff (ring : Nat → Nat) (g crc : Nat) (hg : g + 3 < 65536)
    (hc : crc < 4294967296) :
    (reflectNibble (crc >>> 24) = ring g ∧ probeLoop ring g crc 3 1 = 4) ↔
      TrailerAt ring g crc := by
  rw [probeLoop_spec ring g crc hg 3 1 rfl (Nat.le_refl _), ← trailerByte_zero crc hc]
  unfold TrailerAt
  constructor
  · intro h j hj
    by_cases h0 : j = 0
    · subst h0; exact h.1.symm
    · exact h.2 j (by omega) hj
  · intro h
    exact ⟨(h 0 (by decide)).symm, fun j _ h2 => h j h2⟩

theorem wireCrc_lt (w : Nat → Nat) (n : Nat) : wireCrc w n < 4294967296 := by
  cases n with
  | zero => show (0xffffffff : Nat) < 4294967296; decide
  | succ n => exact crcUpdate_lt _ _

/-- The receive loop on a ring that holds a frame of `n` bytes from `g0` on: it stops after
`n` bytes, when no shorter prefix is followed by its own trailer. -/
theorem receiveLoop_found (ring : Nat → Nat) (g0 n length : Nat) (hn : n ≤ length)
    (hwrap : g0 + n + 4 ≤ 65536) (h40 : 40 ≤ n)
    (hmatch : TrailerAt ring (g0 + n) (wireCrc (fun i => ring (g0 + i)) n))
    (hno : ∀ c, 40 ≤ c → c < n → ¬ TrailerAt ring (g0 + c) (wireCrc (fun i => ring (g0 + i)) c)) :
    ∀ (m k fuel : Nat) (buffer : Nat → Nat), k + m + 1 = n → m < fuel →
      receiveLoop ring length fuel (g0 + k) buffer k (wireCrc (fun i => ring (g0 + i)) k) =
        (g0 + n,
          fun i => if k ≤ i ∧ i < n then
            (((ring (g0 + i) <<< 4) &&& 0xf0) ||| (ring (g0 + i) >>> 4)) % 256 else buffer i,
          some n) := by
  intro m
  induction m with
  | zero =>
    intro k fuel buffer hk hf
    obtain ⟨fuel, rfl⟩ : ∃ f, fuel = f + 1 := ⟨fuel - 1, by omega⟩
    have hk1 : k + 1 = n := by omega
    rw [receiveLoop, if_pos (by omega)]
    dsimp only
    rw [mask_of_lt (by omega)]
    have hcrc : crcUpdate (wireCrc (fun i => ring (g0 + i)) k)
        (((ring (g0 + k) <<< 4) &&& 0xf0) ||| (ring (g0 + k) >>> 4)) =
          wireCrc (fun i => ring (g0 + i)) (k + 1) := rfl
    rw [hcrc]
    have hm : TrailerAt ring (g0 + k + 1) (wireCrc (fun i => ring (g0 + i)) (k + 1)) := by
      rw [hk1]; rw [show g0 + k + 1 = g0 + n from by omega]; exact hmatch
    rw [if_pos ⟨by omega, (probe_iff ring _ _ (by omega) (wireCrc_lt _ _)).2 hm⟩]
    refine Prod.ext (by dsimp only; omega) (Prod.ext ?_ (by dsimp only; rw [hk1]))
    dsimp only
    funext i
    rw [upd_apply]
    by_cases hi : i = k
    · subst hi; rw [if_pos rfl, if_pos (by omega)]
    · rw [if_neg hi, if_neg (by omega)]
  | succ m ih =>
    intro k fuel buffer hk hf
    obtain ⟨fuel, rfl⟩ : ∃ f, fuel = f + 1 := ⟨fuel - 1, by omega⟩
    rw [receiveLoop, if_pos (by omega)]
    dsimp only
    rw [mask_of_lt (by omega)]
    have hcrc : crcUpdate (wireCrc (fun i => ring (g0 + i)) k)
        (((ring (g0 + k) <<< 4) &&& 0xf0) ||| (ring (g0 + k) >>> 4)) =
          wireCrc (fun i => ring (g0 + i)) (k + 1) := rfl
    rw [hcrc]
    have hnot : ¬ (40 ≤ k + 1 ∧
        reflectNibble (wireCrc (fun i => ring (g0 + i)) (k + 1) >>> 24) = ring (g0 + k + 1) ∧
        probeLoop ring (g0 + k + 1) (wireCrc (fun i => ring (g0 + i)) (k + 1)) 3 1 = 4) := by
      intro h
      have h1 := (probe_iff ring _ _ (by omega) (wireCrc_lt _ _)).1 h.2
      exact hno (k + 1) h.1 (by omega) h1
    rw [if_neg hnot]
    have h := ih (k + 1) fuel
      (upd buffer k ((((ring (g0 + k) <<< 4) &&& 0xf0) ||| (ring (g0 + k) >>> 4)) % 256))
      (by omega) (by omega)
    rw [show g0 + (k + 1) = g0 + k + 1 from by omega] at h
    rw [h]
    refine Prod.ext rfl (Prod.ext ?_ rfl)
    dsimp only
    funext i
    rw [upd_apply]
    by_cases hi : i = k
    · subst hi; rw [if_neg (by omega), if_pos rfl, if_pos (by omega)]
    · rw [if_neg hi]
      by_cases h2 : k + 1 ≤ i ∧ i < n
      · rw [if_pos h2, if_pos (by omega)]
      · rw [if_neg h2, if_neg (by omega)]

theorem emptyFrame_apply (start : Nat) (ring : Nat → Nat) (i : Nat) : ∀ (m : Nat),
    start + m ≤ 65536 →
      emptyFrame start m ring i = if start ≤ i ∧ i < start + m then BYTE_EMPTY else ring i := by
  intro m
  induction m with
  | zero => intro _; rw [emptyFrame, if_neg (by omega)]
  | succ m ih =>
    intro h
    rw [emptyFrame, upd_apply, mask_of_lt (by omega), ih (by omega)]
    split_ifs <;> first | rfl | omega

theorem alignLoop_spec : ∀ (fuel : Nat) (e : Ethernet),
    (e.gIndex + 3) / 4 * 4 ≤ e.gIndex + fuel → e.gIndex + 3 < 65536 →
      alignLoop fuel e =
        { e with
          ETHERNET_RECEIVE := fun i =>
            if e.gIndex ≤ i ∧ i < (e.gIndex + 3) / 4 * 4 then BYTE_EMPTY
            else e.ETHERNET_RECEIVE i
          gIndex := (e.gIndex + 3) / 4 * 4 } := by
  intro fuel
  induction fuel with
  | zero =>
    intro e h1 h2
    have h : e.gIndex = (e.gIndex + 3) / 4 * 4 := by omega
    rw [alignLoop]
    cases e
    simp only [Ethernet.mk.injEq, true_and, and_true] at h ⊢
    refine ⟨?_, h⟩
    funext i
    rw [if_neg (by omega)]
  | succ fuel ih =>
    intro e h1 h2
    rw [alignLoop, and_three]
    split
    · next hne =>
      have hm : (e.gIndex + 1) &&& INDEX_MASK = e.gIndex + 1 := mask_of_lt (by omega)
      have hup : (e.gIndex + 1 + 3) / 4 * 4 = (e.gIndex + 3) / 4 * 4 := by omega
      rw [ih _ (by dsimp only; rw [hm, hup]; omega) (by dsimp only; rw [hm]; omega)]
      cases e
      simp only [Ethernet.mk.injEq, true_and, and_true] at h1 h2 hne hm hup ⊢
      rw [hm, hup]
      refine ⟨?_, rfl⟩
      funext i
      rw [upd_apply]
      split_ifs <;> first | rfl | omega
    · next heq =>
      have h : e.gIndex = (e.gIndex + 3) / 4 * 4 := by omega
      cases e
      simp only [Ethernet.mk.injEq, true_and, and_true] at h ⊢
      refine ⟨?_, h⟩
      funext i
      rw [if_neg (by omega)]

theorem TrailerAt_congr {r r' : Nat → Nat} {g crc : Nat}
    (h : ∀ i, g ≤ i → r i = r' i) : TrailerAt r g crc ↔ TrailerAt r' g crc := by
  unfold TrailerAt
  constructor
  · intro h1 i hi; rw [← h _ (by omega)]; exact h1 i hi
  · intro h1 i hi; rw [h _ (by omega)]; exact h1 i hi

/-- `EthernetReceive` on a ring that holds, from index 0 on, seven bytes `0x55`, `0x5d`, an
accepted address at the head of `n` frame bytes, and the trailer of the `n` bytes, with the
cursor at 0: when no shorter prefix (of at least 40 bytes) is followed by its own trailer, the
call returns `n`, the caller's buffer holds the bytes with their nibbles swapped back, the
ring is empty up to the next multiple of four behind the trailer, the cursor is there, and
`gCheckedBefore` is 0. -/
theorem EthernetReceive_frame (e : Ethernet) (packetExpected : Nat) (buffer : Nat → Nat)
    (length n : Nat) (hg : e.gIndex = 0) (hpre : ∀ i, i < 7 → e.ETHERNET_RECEIVE i = 0x55)
    (h5d : e.ETHERNET_RECEIVE 7 = 0x5d) (hmac : MacAccepts e 7) (h40 : 40 ≤ n)
    (hn : n ≤ length) (hsize : n + 16 ≤ 65536)
    (hmatch : TrailerAt e.ETHERNET_RECEIVE (8 + n)
      (wireCrc (fun i => e.ETHERNET_RECEIVE (8 + i)) n))
    (hno : ∀ c, 40 ≤ c → c < n →
      ¬ TrailerAt e.ETHERNET_RECEIVE (8 + c) (wireCrc (fun i => e.ETHERNET_RECEIVE (8 + i)) c)) :
    EthernetReceive e packetExpected buffer length =
      ({ e with
          ETHERNET_RECEIVE := fun i =>
            if i < (n + 15) / 4 * 4 then BYTE_EMPTY else e.ETHERNET_RECEIVE i
          gIndex := (n + 15) / 4 * 4
          gCheckedBefore := 0 },
        fun i => if i < n then
          (((e.ETHERNET_RECEIVE (8 + i) <<< 4) &&& 0xf0) ||| (e.ETHERNET_RECEIVE (8 + i) >>> 4))
            % 256 else buffer i,
        n) := by
  have hfind : findStart e packetExpected 65536 0 = some 7 := by
    have h := findStart_skip e packetExpected 7 65536 0 (by decide)
    simp only [hg, Nat.zero_add] at h
    rw [show (7 : Nat) &&& INDEX_MASK = 7 from by decide] at h
    apply h _ h5d hmac
    intro o _ ho
    rw [mask_of_lt (by omega), hpre o ho]
    exact ⟨by decide, Or.inl (by decide)⟩
  have hskip := skipTo_spec 7 (by decide) 65536 e (by omega) (by omega)
  unfold EthernetReceive
  rw [hfind]
  dsimp only
  rw [hskip]
  dsimp only
  rw [show (7 + 1 : Nat) &&& INDEX_MASK = 8 from by decide, hg]
  obtain ⟨ring1, hring1⟩ : ∃ ring1 : Nat → Nat, ring1 = fun i =>
    if 0 ≤ i ∧ i < 7 then BYTE_EMPTY else e.ETHERNET_RECEIVE i := ⟨_, rfl⟩
  rw [← hring1]
  have hsame : ∀ i, 7 ≤ i → ring1 i = e.ETHERNET_RECEIVE i := by
    intro i hi
    rw [hring1]
    dsimp only
    rw [if_neg (by omega)]
  have hw : (fun i => ring1 (8 + i)) = fun i => e.ETHERNET_RECEIVE (8 + i) := by
    funext i
    exact hsame _ (by omega)
  have hloop := receiveLoop_found ring1 8 n length hn (by omega) h40
    (by rw [hw]; exact (TrailerAt_congr (fun i hi => hsame i (by omega))).2 hmatch)
    (by
      intro c h1 h2
      rw [hw]
      intro h3
      exact hno c h1 h2 ((TrailerAt_congr (fun i hi => hsame i (by omega))).1 h3))
    (n - 1) 0 length buffer (by omega) (by omega)
  rw [show wireCrc (fun i => ring1 (8 + i)) 0 = 0xffffffff from rfl] at hloop
  rw [Nat.add_zero] at hloop
  rw [hloop]
  dsimp only
  rw [mask_of_lt (by omega)]
  rw [alignLoop_spec 3 _ (by dsimp only; omega) (by dsimp only; omega)]
  dsimp only
  refine Prod.ext ?_ (Prod.ext ?_ rfl)
  · dsimp only
    cases e
    simp only [Ethernet.mk.injEq, true_and, and_true] at hsame ⊢
    have e2 : (8 + n + 4 + 3) / 4 * 4 = (n + 15) / 4 * 4 := by omega
    refine ⟨?_, e2⟩
    funext i
    rw [emptyFrame_apply _ _ _ _ (by omega), e2]
    by_cases h7 : i < 7
    · rw [hring1]
      dsimp only
      split_ifs <;> first | rfl | omega
    · rw [hsame i (by omega)]
      split_ifs <;> first | rfl | omega
  · dsimp only
    funext i
    by_cases hi : i < n
    · rw [if_pos ⟨by omega, hi⟩, if_pos hi, hsame _ (by omega)]
    · rw [if_neg (by omega), if_neg hi]

theorem padded_eq (buffer : Nat → Nat) (length : Nat) (h60 : 60 ≤ length)
    (h4 : length % 4 = 0) : paddedLength length = length ∧ padded buffer length = buffer := by
  have e : paddedLength length = length := by
    unfold paddedLength; split <;> omega
  refine ⟨e, ?_⟩
  funext i
  unfold padded
  rw [e, if_neg (by omega)]

theorem loopback_ring (e : Ethernet) (buffer : Nat → Nat) (length i : Nat) (h60 : 60 ≤ length)
    (h4 : length % 4 = 0) :
    (loopback (EthernetTransmit e buffer length).1).ETHERNET_RECEIVE i =
      if i < 7 then 0x55
      else if i = 7 then 0x5d
      else if i < length + 8 then ((buffer (i - 8) <<< 4) ||| (buffer (i - 8) >>> 4)) % 256
      else if i < length + 12 then trailerByte (crcOf buffer length) (i - (length + 8))
      else BYTE_EMPTY := by
  obtain ⟨e1, e2⟩ := padded_eq buffer length h60 h4
  unfold loopback ringWith
  dsimp only
  rw [EthernetTransmit_reg, EthernetTransmit_window, e1, e2]
  have e3 : 4 * (length / 4 + 4) - 4 = length + 12 := by omega
  rw [e3]
  split_ifs <;> first | rfl | omega

/-- The conclusion of `EthernetReceive_frame` for a ring whose bytes are known. -/
theorem EthernetReceive_data (e : Ethernet) (packetExpected : Nat) (received : Nat → Nat)
    (maxLen n : Nat) (data : Nat → Nat) (hd : ∀ i, i < n → data i < 256) (hg : e.gIndex = 0)
    (hpre : ∀ i, i < 7 → e.ETHERNET_RECEIVE i = 0x55) (h5d : e.ETHERNET_RECEIVE 7 = 0x5d)
    (hdata : ∀ i, i < n →
      e.ETHERNET_RECEIVE (8 + i) = ((data i <<< 4) ||| (data i >>> 4)) % 256)
    (htrail : ∀ i, i < 4 → e.ETHERNET_RECEIVE (8 + n + i) = trailerByte (crcOf data n) i)
    (hmac : ∀ i, i < 6 → data i = 0xff ∨ swapNibbles (data i) = e.gDestMac (i + 1))
    (h40 : 40 ≤ n) (hn : n ≤ maxLen) (hsize : n + 16 ≤ 65536)
    (hno : ∀ c, 40 ≤ c → c < n → ¬ TrailerAt e.ETHERNET_RECEIVE (8 + c) (crcOf data c)) :
    EthernetReceive e packetExpected received maxLen =
      ({ e with
          ETHERNET_RECEIVE := fun i =>
            if i < (n + 15) / 4 * 4 then BYTE_EMPTY else e.ETHERNET_RECEIVE i
          gIndex := (n + 15) / 4 * 4
          gCheckedBefore := 0 },
        fun i => if i < n then data i else received i,
        n) := by
  have hcrc : ∀ c, c ≤ n → wireCrc (fun i => e.ETHERNET_RECEIVE (8 + i)) c = crcOf data c := by
    intro c hc
    exact wireCrc_data _ data c (fun i hi => hdata i (by omega)) (fun i hi => hd i (by omega))
  have hacc : MacAccepts e 7 := by
    intro i h1 h2
    rw [mask_of_lt (by omega), show 7 + i = 8 + (i - 1) from by omega, hdata _ (by omega),
      transmit_swap _ (hd _ (by omega))]
    rcases hmac (i - 1) (by omega) with h | h
    · left; rw [h]; decide
    · right; rw [h, show i - 1 + 1 = i from by omega]
  rw [EthernetReceive_frame e packetExpected received maxLen n hg hpre h5d hacc h40 hn hsize
    (by rw [hcrc n (Nat.le_refl _)]; exact htrail)
    (by intro c h1 h2; rw [hcrc c (by omega)]; exact hno c h1 h2)]
  refine Prod.ext rfl (Prod.ext ?_ rfl)
  dsimp only
  funext i
  by_cases hi : i < n
  · rw [if_pos hi, if_pos hi, hdata i hi, swap_back _ (hd i hi), Nat.mod_eq_of_lt (hd i hi)]
  · rw [if_neg hi, if_neg hi]

/-! ## C11, C12: receiving a frame -/

/-- C11 (as stated, refuted): with the broadcast address expected: a buffer of 46 bytes
comes back with length 60 (the transmitter pads); a buffer of 60 zero bytes is not received
at all (its first six bytes are not an accepted address); and the buffer `craftedBuffer` of
60 bytes, whose bytes 40..43 are the trailer of its first 40 bytes, comes back with length
40. -/
theorem C11_round_trip_refuted :
    (roundTrip ethernetStart broadcastBuffer 46 0 (fun _ => 0) 1500).2.2 = 60 ∧
    (roundTrip ethernetStart (fun _ => 0) 60 0 (fun _ => 0) 1500).2.2 = 0 ∧
    (roundTrip ethernetStart craftedBuffer 60 0 (fun _ => 0) 1500).2.2 = 40 := by
  decide

/-- C11 (amended): for every byte sequence of length `60 ≤ length ≤ 1500` that is a
multiple of four, whose first six bytes are each `0xff` or the byte of the receiver's address
for its position, and of which no prefix of 40 or more bytes is followed by the trailer of
that prefix: placing the bytes that `EthernetTransmit` wrote (preamble, `0x5d`, bytes with
swapped nibbles, trailer) into an otherwise empty ring at the cursor 0 and calling
`EthernetReceive` with `maxLen ≥ length` returns `length` and fills the caller's buffer with
exactly the bytes. -/
theorem C11_round_trip (e : Ethernet) (buffer : Nat → Nat) (length packetExpected : Nat)
    (received : Nat → Nat) (maxLen : Nat) (hb : ∀ i, i < length → buffer i < 256)
    (h60 : 60 ≤ length) (h4 : length % 4 = 0) (h1500 : length ≤ 1500) (hmax : length ≤ maxLen)
    (hg : e.gIndex = 0)
    (hmac : ∀ i, i < 6 → buffer i = 0xff ∨ swapNibbles (buffer i) = e.gDestMac (i + 1))
    (hno : ∀ c, 40 ≤ c → c < length →
      ¬ TrailerAt (loopback (EthernetTransmit e buffer length).1).ETHERNET_RECEIVE (8 + c)
        (crcOf buffer c)) :
    (roundTrip e buffer length packetExpected received maxLen).2.2 = length ∧
      ∀ i, i < length →
        (roundTrip e buffer length packetExpected received maxLen).2.1 i = buffer i := by
  have hr := EthernetReceive_data (loopback (EthernetTransmit e buffer length).1)
    packetExpected received maxLen length buffer hb hg
    (fun i hi => by rw [loopback_ring e buffer length i h60 h4, if_pos hi])
    (by rw [loopback_ring e buffer length 7 h60 h4, if_neg (by decide), if_pos rfl])
    (fun i hi => by
      rw [loopback_ring e buffer length _ h60 h4, if_neg (by omega), if_neg (by omega),
        if_pos (by omega), show 8 + i - 8 = i from by omega])
    (fun i hi => by
      rw [loopback_ring e buffer length _ h60 h4, if_neg (by omega), if_neg (by omega),
        if_neg (by omega), if_pos (by omega),
        show 8 + length + i - (length + 8) = i from by omega])
    hmac (by omega) hmax (by omega) hno
  unfold roundTrip
  rw [hr]
  refine ⟨rfl, ?_⟩
  intro i hi
  dsimp only
  rw [if_pos hi]

/-- C11, instance: 60 bytes for the broadcast address. -/
theorem C11_round_trip_witness :
    (roundTrip ethernetStart broadcastBuffer 60 0 (fun _ => 0) 1500).2.2 = 60 ∧
      ∀ i, i < 60 →
        (roundTrip ethernetStart broadcastBuffer 60 0 (fun _ => 0) 1500).2.1 i =
          broadcastBuffer i :=
  C11_round_trip ethernetStart broadcastBuffer 60 0 (fun _ => 0) 1500
    (fun i _ => by unfold broadcastBuffer; split; · decide
                   exact Nat.mod_lt i (by decide))
    (by decide) (by decide) (by decide) (by decide) rfl (by decide) (by decide)

/-- C12 (as stated, refuted): with the payload `craftedPayload`, whose bytes 34..37 are the
trailer of the 40 bytes before them (address and 34 payload bytes), `EthernetReceive` finds
the end of the frame after 40 bytes and returns 40, not 46. -/
theorem C12_end_of_frame_refuted :
    (EthernetReceive (macScenario ethernetAddressPlasma craftedPayload) 0 (fun _ => 0)
      1500).2.2 = 40 := by
  decide

/-- C12 (amended): with the ring holding, from index 0, seven preamble bytes, `0x5d`, the
nibble-swapped 6-byte destination address, 40 payload bytes and the 4 trailer bytes computed
as `EthernetTransmit` computes them, and `BYTE_EMPTY` elsewhere, and with none of the
prefixes of 40..45 bytes followed by its own trailer: `EthernetReceive` returns 46, the
caller's buffer holds the address and the payload, every ring byte from the `0x5d` through
the last trailer byte is `0xde` afterwards, `gIndex` is a multiple of four and
`gCheckedBefore` is 0. -/
theorem C12_end_of_frame (mac payload : Nat → Nat) (packetExpected : Nat)
    (received : Nat → Nat) (maxLen : Nat) (hm : ∀ i, i < 6 → mac i < 256)
    (hp : ∀ i, i < 40 → payload i < 256) (hmax : 46 ≤ maxLen)
    (hno : ∀ c, 40 ≤ c → c < 46 →
      ¬ TrailerAt (macScenario mac payload).ETHERNET_RECEIVE (8 + c)
        (crcOf (macData mac payload) c)) :
    (EthernetReceive (macScenario mac payload) packetExpected received maxLen).2.2 = 46 ∧
    (∀ i, i < 6 →
      (EthernetReceive (macScenario mac payload) packetExpected received maxLen).2.1 i =
        mac i) ∧
    (∀ i, i < 40 →
      (EthernetReceive (macScenario mac payload) packetExpected received maxLen).2.1 (6 + i) =
        payload i) ∧
    (∀ i, 7 ≤ i → i < 58 →
      (EthernetReceive (macScenario mac payload) packetExpected received
        maxLen).1.ETHERNET_RECEIVE i = 0xde) ∧
    (EthernetReceive (macScenario mac payload) packetExpected received maxLen).1.gIndex % 4
      = 0 ∧
    (EthernetReceive (macScenario mac payload) packetExpected received
      maxLen).1.gCheckedBefore = 0 := by
  have hd : ∀ i, i < 46 → macData mac payload i < 256 := by
    intro i hi
    unfold macData
    split
    · next h => exact hm i h
    · exact hp _ (by omega)
  have hring : ∀ i, (macScenario mac payload).ETHERNET_RECEIVE i =
      if i < 7 then 0x55
      else if i = 7 then 0x5d
      else if i < 54 then
        ((macData mac payload (i - 8) <<< 4) ||| (macData mac payload (i - 8) >>> 4)) % 256
      else if i < 58 then trailerByte (crcOf (macData mac payload) 46) (i - 54)
      else BYTE_EMPTY := by
    intro i
    unfold macScenario ringWith macFrame
    dsimp only
    rw [frameWire_apply]
    split_ifs <;> first | rfl | omega
  have hr := EthernetReceive_data (macScenario mac payload) packetExpected received maxLen 46
    (macData mac payload) hd rfl
    (fun i hi => by rw [hring, if_pos hi])
    (by rw [hring, if_neg (by decide), if_pos rfl])
    (fun i hi => by
      rw [hring, if_neg (by omega), if_neg (by omega), if_pos (by omega),
        show 8 + i - 8 = i from by omega])
    (fun i hi => by
      rw [hring, if_neg (by omega), if_neg (by omega), if_neg (by omega), if_pos (by omega),
        show 8 + 46 + i - 54 = i from by omega])
    (fun i hi => by
      right
      unfold macScenario ringWith EthernetInit macData
      dsimp only
      rw [if_pos hi, if_pos (by omega), Nat.add_sub_cancel, init_swap _ (hm i hi)])
    (by decide) hmax (by decide) hno
  rw [hr]
  dsimp only
  refine ⟨rfl, ?_, ?_, ?_, by decide, rfl⟩
  · intro i hi
    rw [if_pos (by omega)]
    unfold macData
    rw [if_pos hi]
  · intro i hi
    rw [if_pos (by omega)]
    unfold macData
    rw [if_neg (by omega), Nat.add_sub_cancel_left]
  · intro i h1 h2
    rw [if_pos (by omega)]
    rfl

/-- C12, instance: the address `ethernetAddressPlasma` and the payload bytes 0..39. -/
theorem C12_end_of_frame_witness :
    (EthernetReceive (macScenario ethernetAddressPlasma (fun i => i % 256)) 0 (fun _ => 0)
      1500).2.2 = 46 ∧
    (∀ i, i < 6 →
      (EthernetReceive (macScenario ethernetAddressPlasma (fun i => i % 256)) 0 (fun _ => 0)
        1500).2.1 i = ethernetAddressPlasma i) ∧
    (∀ i, i < 40 →
      (EthernetReceive (macScenario ethernetAddressPlasma (fun i => i % 256)) 0 (fun _ => 0)
        1500).2.1 (6 + i) = (fun i => i % 256) i) ∧
    (∀ i, 7 ≤ i → i < 58 →
      (EthernetReceive (macScenario ethernetAddressPlasma (fun i => i % 256)) 0 (fun _ => 0)
        1500).1.ETHERNET_RECEIVE i = 0xde) ∧
    (EthernetReceive (macScenario ethernetAddressPlasma (fun i => i % 256)) 0 (fun _ => 0)
      1500).1.gIndex % 4 = 0 ∧
    (EthernetReceive (macScenario ethernetAddressPlasma (fun i => i % 256)) 0 (fun _ => 0)
      1500).1.gCheckedBefore = 0 :=
  C12_end_of_frame ethernetAddressPlasma (fun i => i % 256) 0 (fun _ => 0) 1500
    (by decide) (fun i _ => Nat.mod_lt i (by decide)) (by decide) (by decide)

/-! ## C16: the retry counter -/

set_option maxHeartbeats 40000000 in
/-- C16 (evaluation at the failing input): the failure counter `gCheckedBefore` is not kept per
candidate.  On the ring `twoStarts` (a frame start at index 0 and another at index 7, no
frame) with `maxLen = 600`: the first two calls return with the cursor back at 0 and the ring
unchanged there, the third call overwrites the start byte at 0 and moves the cursor to 1,
leaving the counter at 3; the fourth call, the first one to try the frame start at index 7,
overwrites that start byte at once and moves the cursor to 8. -/
theorem C16_counter_not_per_candidate :
    ((receives twoStarts 0 600 1).gIndex = 0 ∧
      (receives twoStarts 0 600 1).ETHERNET_RECEIVE 0 = 0x5d ∧
      (receives twoStarts 0 600 1).gCheckedBefore = 1) ∧
    ((receives twoStarts 0 600 2).gIndex = 0 ∧
      (receives twoStarts 0 600 2).ETHERNET_RECEIVE 0 = 0x5d ∧
      (receives twoStarts 0 600 2).gCheckedBefore = 2) ∧
    ((receives twoStarts 0 600 3).gIndex = 1 ∧
      (receives twoStarts 0 600 3).ETHERNET_RECEIVE 0 = 0xde ∧
      (receives twoStarts 0 600 3).ETHERNET_RECEIVE 7 = 0x5d ∧
      (receives twoStarts 0 600 3).gCheckedBefore = 3) ∧
    ((receives twoStarts 0 600 4).gIndex = 8 ∧
      (receives twoStarts 0 600 4).ETHERNET_RECEIVE 7 = 0xde ∧
      (receives twoStarts 0 600 4).gCheckedBefore = 4) := by
  decide

/-! # The TCP/IP stack -/

/-! ## The frame pool -/

theorem filter_length_of_iff {pool free : List Nat} {p : Nat → Prop} [DecidablePred p]
    (hp : pool.Nodup) (hf : free.Nodup) (hsub : ∀ f ∈ free, f ∈ pool)
    (hiff : ∀ f ∈ pool, p f ↔ f ∈ free) : (pool.filter (fun f => decide (p f))).length = free.length := by
  apply List.Perm.length_eq
  rw [List.perm_ext_iff_of_nodup (hp.filter _) hf]
  intro a
  simp only [List.mem_filter, decide_eq_true_eq]
  constructor
  · rintro ⟨h1, h2⟩
    exact (hiff a h1).mp h2
  · intro h
    exact ⟨hsub a h, (hiff a (hsub a h)).mpr h⟩

theorem countState_total (s : IPStack) (pool : List Nat) (h : ∀ f ∈ pool, s.frame.state f ≤ 2) :
    countState s pool 0 + countState s pool 1 + countState s pool 2 = pool.length := by
  unfold countState
  induction pool with
  | nil => rfl
  | cons a l ih =>
    have ha := h a (List.mem_cons_self a l)
    have ih := ih (fun f hf => h f (List.mem_cons_of_mem a hf))
    simp only [List.filter_cons, List.length_cons]
    have h3 : s.frame.state a = 0 ∨ s.frame.state a = 1 ∨ s.frame.state a = 2 := by omega
    rcases h3 with h3 | h3 | h3 <;> simp [h3] <;> omega

theorem PoolInv_count {s : IPStack} {pool free : List Nat} (h : PoolInv s pool free) :
    countState s pool 0 = free.length := by
  obtain ⟨h1, _, h3, h4, h5, _⟩ := h
  exact filter_length_of_iff h3 (IsChain_nodup h1) h4 h5

theorem IPFrameGet_none (s : IPStack)
    (reserve : Int) (hr : ¬ s.FrameFreeCount > reserve) : IPFrameGet s reserve = (s, none) := by
  unfold IPFrameGet
  rw [if_neg hr]

theorem IPFrameGet_some {s : IPStack} {pool free : List Nat} (h : PoolInv s pool free)
    (reserve : Int) (hres : 0 ≤ reserve) (hr : s.FrameFreeCount > reserve) :
    ∃ f rest, free = f :: rest ∧ s.FrameFreeHead = some f ∧
      IPFrameGet s reserve =
        ({ s with FrameFreeCount := s.FrameFreeCount - 1, FrameFreeHead := s.frame.next f,
                  frame.state := upd s.frame.state f 1 }, some f) := by
  obtain ⟨h1, h2, _⟩ := h
  cases free with
  | nil =>
    simp only [List.length_nil] at h2
    omega
  | cons f rest =>
    refine ⟨f, rest, rfl, h1.1, ?_⟩
    unfold IPFrameGet
    rw [if_pos hr]
    simp only [h1.1]

theorem PoolInv_get {s : IPStack} {pool free : List Nat} {f : Nat} {rest : List Nat}
    (h : PoolInv s pool free) (hf : free = f :: rest) :
    PoolInv { s with FrameFreeCount := s.FrameFreeCount - 1, FrameFreeHead := s.frame.next f,
                     frame.state := upd s.frame.state f 1 } pool rest := by
  subst hf
  obtain ⟨h1, h2, h3, h4, h5, h6⟩ := h
  have hnd := IsChain_nodup h1
  have hfr : f ∉ rest := (List.nodup_cons.mp hnd).1
  refine ⟨h1.2, ?_, h3, fun g hg => h4 g (List.mem_cons_of_mem f hg), ?_, ?_⟩
  · simp only [List.length_cons] at h2
    show s.FrameFreeCount - 1 = _
    rw [h2]
    push_cast
    omega
  · intro g hg
    show upd s.frame.state f 1 g = 0 ↔ _
    by_cases hgf : g = f
    · subst hgf
      simp [hfr]
    · rw [upd_ne _ _ hgf, h5 g hg]
      simp [hgf]
  · intro g hg
    show upd s.frame.state f 1 g ≤ 2
    by_cases hgf : g = f
    · subst hgf
      simp
    · rw [upd_ne _ _ hgf]
      exact h6 g hg

theorem PoolInv_free {s : IPStack} {pool free : List Nat} {f : Nat}
    (h : PoolInv s pool free) (hf : f ∈ pool) (hs : s.frame.state f = 1) :
    PoolInv (FrameFree s f) pool (f :: free) := by
  obtain ⟨h1, h2, h3, h4, h5, h6⟩ := h
  have hfr : f ∉ free := fun hm => by
    have := (h5 f hf).mpr hm
    omega
  refine ⟨?_, ?_, h3, ?_, ?_, ?_⟩
  · refine ⟨rfl, ?_⟩
    show IsSeg (upd s.frame.next f s.FrameFreeHead) (upd s.frame.next f s.FrameFreeHead f) free none
    rw [upd_same]
    exact IsSeg_congr h1 (fun a ha => upd_ne _ _ (fun e => hfr (e ▸ ha)))
  · show s.FrameFreeCount + 1 = _
    rw [h2]
    simp
  · intro g hg
    rcases List.mem_cons.mp hg with rfl | hg
    · exact hf
    · exact h4 g hg
  · intro g hg
    show upd s.frame.state f 0 g = 0 ↔ _
    by_cases hgf : g = f
    · subst hgf
      simp
    · rw [upd_ne _ _ hgf, h5 g hg]
      simp [hgf]
  · intro g hg
    show upd s.frame.state f 0 g ≤ 2
    by_cases hgf : g = f
    · subst hgf
      simp
    · rw [upd_ne _ _ hgf]
      exact h6 g hg

/-- The frames that the first `n` iterations of the pool loop allocate from iteration `i` on,
the last one first. -/
theorem poolLoop_inv (malloc : Nat → Nat) (hm : Function.Injective malloc) :
    ∀ (n i : Nat) (s : IPStack) (free : List Nat),
      IsChain s.frame.next s.FrameFreeHead free → (∀ f ∈ free, s.frame.state f = 0) →
      (∀ f ∈ free, ∀ j, i ≤ j → f ≠ malloc j) →
      IsChain (poolLoop malloc n i s).frame.next (poolLoop malloc n i s).FrameFreeHead
        (((List.range n).map (fun j => malloc (i + j))).reverse ++ free) ∧
      (∀ f ∈ ((List.range n).map (fun j => malloc (i + j))).reverse ++ free,
        (poolLoop malloc n i s).frame.state f = 0) ∧
      (poolLoop malloc n i s).FrameFreeCount = s.FrameFreeCount := by
  intro n
  induction n with
  | zero =>
    intro i s free h1 h2 _
    simpa [poolLoop] using ⟨h1, h2⟩
  | succ n ih =>
    intro i s free h1 h2 h3
    have hnew : malloc i ∉ free := fun hm' => h3 _ hm' i (Nat.le_refl i) rfl
    have hl : ((List.range (n + 1)).map (fun j => malloc (i + j))).reverse ++ free =
        ((List.range n).map (fun j => malloc (i + 1 + j))).reverse ++ (malloc i :: free) := by
      rw [List.range_succ_eq_map, List.map_cons, List.map_map, List.reverse_cons,
        List.append_assoc]
      simp only [List.singleton_append, Nat.add_zero]
      congr 2
      apply List.map_congr_left
      intro j _
      simp only [Function.comp, Nat.succ_eq_add_one]
      congr 1
      omega
    rw [poolLoop, hl]
    refine ih (i + 1) _ (malloc i :: free) ?_ ?_ ?_
    · refine ⟨rfl, ?_⟩
      simp only [upd_same, upd_upd]
      exact IsSeg_congr h1 (fun a ha => upd_ne _ _ (fun e => hnew (e ▸ ha)))
    · intro f hf
      rcases List.mem_cons.mp hf with rfl | hf
      · simp
      · have : f ≠ malloc i := fun e => hnew (e ▸ hf)
        simp only [upd_ne _ _ this]
        exact h2 f hf
    · intro f hf j hj
      rcases List.mem_cons.mp hf with rfl | hf
      · intro e
        have := hm e
        omega
      · exact h3 f hf j (by omega)

theorem PoolInv_congr {s s' : IPStack} {pool free : List Nat}
    (hn : s'.frame.next = s.frame.next) (hs : s'.frame.state = s.frame.state)
    (hh : s'.FrameFreeHead = s.FrameFreeHead) (hc : s'.FrameFreeCount = s.FrameFreeCount)
    (h : PoolInv s pool free) : PoolInv s' pool free := by
  unfold PoolInv at h ⊢
  rw [hn, hs, hh, hc]
  exact h

/-- A frame in use that `IPSendPacket` sends for no socket comes back to the free list when the
link-layer function is set. -/
theorem PoolInv_send_direct (cfg : IPConfig) {s : IPStack} {pool free : List Nat}
    {g : Nat} (length : Int) (hF : s.FrameSendFunc ≠ none) (h : PoolInv s pool free)
    (hg : g ∈ pool) (hs : s.frame.state g = 1) :
    PoolInv (IPSendPacket cfg s none g length) pool (g :: free) := by
  obtain ⟨F, hF⟩ := Option.ne_none_iff_exists'.mp hF
  have e : IPSendPacket cfg s none g length =
      FrameFree { s with
        frame := { s.frame with
          length := upd s.frame.length g (toUInt16 length)
          packet := upd s.frame.packet g (IPSendPacket_packet (s.frame.packet g) length)
          socket := upd s.frame.socket g none
          timeout := upd s.frame.timeout g 0
          retryCnt := upd s.frame.retryCnt g 0 }
        sent := s.sent ++ [(g, IPSendPacket_packet (s.frame.packet g) length,
          toUInt16 length)] } g := by
    simp [IPSendPacket, IPSendFrame, IPFrameReschedule, hF]
  rw [e]
  exact PoolInv_free (PoolInv_congr rfl rfl rfl rfl h) hg hs

/-- A frame in use that `IPSendPacket` sends for no socket goes to the send queue when no
link-layer function is set. -/
theorem PoolInv_send_queued (cfg : IPConfig) {s : IPStack} {pool free : List Nat}
    {g : Nat} (length : Int) (hF : s.FrameSendFunc = none) (h : PoolInv s pool free)
    (hg : g ∈ pool) (hs : s.frame.state g = 1) :
    PoolInv (IPSendPacket cfg s none g length) pool free := by
  have hgf : g ∉ free := fun hm => by
    have := (h.2.2.2.2.1 g hg).mpr hm
    omega
  obtain ⟨h1, h2, h3, h4, h5, h6⟩ := h
  have hnext : ∀ a ∈ free, (IPSendPacket cfg s none g length).frame.next a = s.frame.next a := by
    intro a ha
    have hag : a ≠ g := fun e => hgf (e ▸ ha)
    simp only [IPSendPacket, IPSendFrame, hF, FrameInsert]
    cases hh : s.FrameSendHead <;> cases ht : s.FrameSendTail <;>
      simp [IPStack.getHead, IPStack.setHead, IPStack.getTail, IPStack.setTail, hh, ht,
        upd_ne _ _ hag]
  have hstate : (IPSendPacket cfg s none g length).frame.state = upd s.frame.state g 2 := by
    simp only [IPSendPacket, IPSendFrame, hF, FrameInsert]
    cases hh : s.FrameSendHead <;> cases ht : s.FrameSendTail <;>
      simp [IPStack.getHead, IPStack.setHead, IPStack.getTail, IPStack.setTail, hh, ht]
  have hhead : (IPSendPacket cfg s none g length).FrameFreeHead = s.FrameFreeHead := by
    simp only [IPSendPacket, IPSendFrame, hF, FrameInsert]
    cases hh : s.FrameSendHead <;> cases ht : s.FrameSendTail <;>
      simp [IPStack.getHead, IPStack.setHead, IPStack.getTail, IPStack.setTail, hh, ht]
  have hcount : (IPSendPacket cfg s none g length).FrameFreeCount = s.FrameFreeCount := by
    simp only [IPSendPacket, IPSendFrame, hF, FrameInsert]
    cases hh : s.FrameSendHead <;> cases ht : s.FrameSendTail <;>
      simp [IPStack.getHead, IPStack.setHead, IPStack.getTail, IPStack.setTail, hh, ht]
  refine ⟨?_, hcount ▸ h2, h3, h4, ?_, ?_⟩
  · rw [hhead]
    exact IsSeg_congr h1 hnext
  · intro a ha
    rw [hstate]
    by_cases hag : a = g
    · subst hag
      simp [hgf]
    · rw [upd_ne _ _ hag]
      exact h5 a ha
  · intro a ha
    rw [hstate]
    by_cases hag : a = g
    · subst hag
      simp
    · rw [upd_ne _ _ hag]
      exact h6 a ha

/-- The invariant after the DHCP DISCOVER that `IPInit` and `IPTick` send. -/
theorem PoolInv_discover (cfg : IPConfig) {s : IPStack} {pool free : List Nat}
    (packet : Nat → Nat) (length : Int) (h : PoolInv s pool free) :
    PoolInv (IPDhcp cfg s packet length 1) pool
      (if s.FrameSendFunc ≠ none then free else free.tail) := by
  unfold IPDhcp
  rw [if_pos rfl]
  by_cases hc : s.FrameFreeCount > 0
  · obtain ⟨g, rest, hfree, hhead, hget⟩ := IPFrameGet_some h 0 (Int.le_refl 0) hc
    rw [hget]
    have h1 := PoolInv_get h hfree
    have hg : g ∈ pool := h.2.2.2.1 g (hfree ▸ List.mem_cons_self g rest)
    subst hfree
    dsimp only
    refine PoolInv_congr (s := IPSendPacket cfg _ none g 400) rfl rfl rfl rfl ?_
    by_cases hF : s.FrameSendFunc ≠ none
    · rw [if_pos hF]
      refine PoolInv_send_direct cfg 400 hF ?_ hg ?_
      · exact PoolInv_congr rfl rfl rfl rfl h1
      · simp
    · rw [if_neg hF]
      refine PoolInv_send_queued cfg 400 (by simpa using hF) ?_ hg ?_
      · exact PoolInv_congr rfl rfl rfl rfl h1
      · simp
  · rw [IPFrameGet_none s 0 hc]
    have h0 : free = [] := by
      have := h.2.1
      cases free with
      | nil => rfl
      | cons a l =>
        simp only [List.length_cons] at this
        omega
    subst h0
    simpa using h

theorem poolLoop_FrameSendFunc (malloc : Nat → Nat) :
    ∀ (n i : Nat) (s : IPStack), (poolLoop malloc n i s).FrameSendFunc = s.FrameSendFunc := by
  intro n
  induction n with
  | zero => intro i s; rfl
  | succ n ih =>
    intro i s
    rw [poolLoop, ih]

/-- The pool that `IPInit` builds. -/
theorem PoolInv_IPInit (cfg : IPConfig) (FrameSendFunction : Option Nat) (malloc : Nat → Nat)
    (hm : Function.Injective malloc) (hc : 0 ≤ cfg.FRAME_COUNT) :
    PoolInv (IPInit cfg (startStack cfg) FrameSendFunction malloc)
      ((List.range cfg.FRAME_COUNT.toNat).map malloc)
      (if FrameSendFunction ≠ none then ((List.range cfg.FRAME_COUNT.toNat).map malloc).reverse
       else ((List.range cfg.FRAME_COUNT.toNat).map malloc).reverse.tail) := by
  have key := poolLoop_inv malloc hm cfg.FRAME_COUNT.toNat 0
    { startStack cfg with FrameSendFunc := FrameSendFunction } [] rfl (by simp) (by simp)
  simp only [Nat.zero_add, List.append_nil] at key
  obtain ⟨k1, k2, k3⟩ := key
  have hpool : PoolInv (poolLoop malloc cfg.FRAME_COUNT.toNat 0
      { startStack cfg with FrameSendFunc := FrameSendFunction })
      ((List.range cfg.FRAME_COUNT.toNat).map malloc)
      ((List.range cfg.FRAME_COUNT.toNat).map malloc).reverse := by
    refine ⟨k1, ?_, ?_, ?_, ?_, ?_⟩
    · rw [k3]
      show cfg.FRAME_COUNT = _
      simp only [List.length_reverse, List.length_map, List.length_range]
      omega
    · exact (List.nodup_range _).map hm
    · intro f hf
      exact List.mem_reverse.mp hf
    · intro f hf
      constructor
      · intro _
        exact List.mem_reverse.mpr hf
      · intro hf'
        exact k2 f hf'
    · intro f hf
      rw [k2 f (List.mem_reverse.mpr hf)]
      omega
  have h := PoolInv_discover cfg (fun _ => 0) 360 hpool
  rw [poolLoop_FrameSendFunc] at h
  exact h

/-! ## C21: the frame pool -/

/-- C21: in a state where the free list is `free`, `FrameFreeCount` is its length and exactly
the frames of `pool` on it have the state 0 (FREE), `IPFrameGet(reserve)` with `reserve >= 0`
returns a frame exactly when `FrameFreeCount > reserve`; the frame returned was FREE, becomes
ALLOCATED (state 1) and `FrameFreeCount` drops by 1; when `NULL` is returned the state is
unchanged.  `IPFrameGet` and `FrameFree` (of a frame in use) keep the invariant, `IPInit`
establishes it, and under it `FrameFreeCount` is the length of the free list and the number of
FREE frames, and the FREE, ALLOCATED and LINKED frames together are the pool. -/
theorem C21_frame_pool_accounting (s : IPStack) (pool free : List Nat) (reserve : Int)
    (hinv : PoolInv s pool free) (hres : 0 ≤ reserve) :
    ((IPFrameGet s reserve).2 ≠ none ↔ s.FrameFreeCount > reserve) ∧
    (∀ f, (IPFrameGet s reserve).2 = some f →
      f ∈ pool ∧ s.frame.state f = 0 ∧ (IPFrameGet s reserve).1.frame.state f = 1 ∧
      (IPFrameGet s reserve).1.FrameFreeCount = s.FrameFreeCount - 1 ∧
      PoolInv (IPFrameGet s reserve).1 pool free.tail) ∧
    ((IPFrameGet s reserve).2 = none → (IPFrameGet s reserve).1 = s) ∧
    (∀ f ∈ pool, s.frame.state f = 1 → PoolInv (FrameFree s f) pool (f :: free)) ∧
    s.FrameFreeCount = free.length ∧ countState s pool 0 = free.length ∧
    countState s pool 0 + countState s pool 1 + countState s pool 2 = pool.length ∧
    (∀ (cfg : IPConfig) (FrameSendFunction : Option Nat) (malloc : Nat → Nat),
      Function.Injective malloc → 0 ≤ cfg.FRAME_COUNT →
      ∃ free0, PoolInv (IPInit cfg (startStack cfg) FrameSendFunction malloc)
        ((List.range cfg.FRAME_COUNT.toNat).map malloc) free0) := by
  refine ⟨?_, ?_, ?_, fun f hf hs => PoolInv_free hinv hf hs, hinv.2.1, PoolInv_count hinv,
    countState_total s pool hinv.2.2.2.2.2, fun cfg F malloc hm hc => ⟨_, PoolInv_IPInit cfg F malloc hm hc⟩⟩
  · by_cases hr : s.FrameFreeCount > reserve
    · obtain ⟨f, rest, _, _, hget⟩ := IPFrameGet_some hinv reserve hres hr
      rw [hget]
      simp [hr]
    · rw [IPFrameGet_none s reserve hr]
      simp [hr]
  · intro f hf
    by_cases hr : s.FrameFreeCount > reserve
    · obtain ⟨g, rest, hfree, _, hget⟩ := IPFrameGet_some hinv reserve hres hr
      rw [hget] at hf ⊢
      simp only [Option.some.injEq] at hf
      subst hf
      have hmem : g ∈ free := hfree ▸ List.mem_cons_self g rest
      refine ⟨hinv.2.2.2.1 g hmem, (hinv.2.2.2.2.1 g (hinv.2.2.2.1 g hmem)).mpr hmem, ?_, rfl, ?_⟩
      · simp
      · have := PoolInv_get hinv hfree
        rw [hfree]
        exact this
    · rw [IPFrameGet_none s reserve hr] at hf
      simp at hf
  · intro hn
    by_cases hr : s.FrameFreeCount > reserve
    · obtain ⟨g, rest, hfree, _, hget⟩ := IPFrameGet_some hinv reserve hres hr
      rw [hget] at hn
      simp at hn
    · rw [IPFrameGet_none s reserve hr]

/-- C21, instance: the pool of eight frames that the loop of `IPInit` builds, and a reserve of
two frames. -/
theorem C21_frame_pool_accounting_witness :
    PoolInv smallPool [100, 101, 102, 103, 104, 105, 106, 107]
      [107, 106, 105, 104, 103, 102, 101, 100] ∧
    ((IPFrameGet smallPool 2).2 ≠ none ↔ smallPool.FrameFreeCount > 2) :=
  ⟨by decide, (C21_frame_pool_accounting smallPool [100, 101, 102, 103, 104, 105, 106, 107]
      [107, 106, 105, 104, 103, 102, 101, 100] 2 (by decide) (by decide)).1⟩

/-! ## The queue functions, field by field -/

@[simp] theorem FrameFree_frame (s : IPStack) (f : Nat) :
    (FrameFree s f).frame =
      { s.frame with state := upd s.frame.state f 0, next := upd s.frame.next f s.FrameFreeHead } := by
  rfl

@[simp] theorem FrameFree_socket (s : IPStack) (f : Nat) : (FrameFree s f).socket = s.socket := by
  rfl

@[simp] theorem FrameFree_FrameFreeHead (s : IPStack) (f : Nat) : (FrameFree s f).FrameFreeHead = some f := by
  rfl

@[simp] theorem FrameFree_FrameFreeCount (s : IPStack) (f : Nat) :
    (FrameFree s f).FrameFreeCount = s.FrameFreeCount + 1 := by
  rfl

@[simp] theorem FrameFree_SocketHead (s : IPStack) (f : Nat) : (FrameFree s f).SocketHead = s.SocketHead := by
  rfl

@[simp] theorem FrameFree_Seconds (s : IPStack) (f : Nat) : (FrameFree s f).Seconds = s.Seconds := by
  rfl

@[simp] theorem FrameFree_DhcpRetrySeconds (s : IPStack) (f : Nat) : (FrameFree s f).DhcpRetrySeconds = s.DhcpRetrySeconds := by
  rfl

@[simp] theorem FrameFree_FrameSendFunc (s : IPStack) (f : Nat) : (FrameFree s f).FrameSendFunc = s.FrameSendFunc := by
  rfl

@[simp] theorem FrameFree_ethernetAddressGateway (s : IPStack) (f : Nat) : (FrameFree s f).ethernetAddressGateway = s.ethernetAddressGateway := by
  rfl

@[simp] theorem FrameFree_ipAddressPlasma (s : IPStack) (f : Nat) : (FrameFree s f).ipAddressPlasma = s.ipAddressPlasma := by
  rfl

@[simp] theorem FrameFree_ipAddressGateway (s : IPStack) (f : Nat) : (FrameFree s f).ipAddressGateway = s.ipAddressGateway := by
  rfl

@[simp] theorem FrameFree_ipAddressDns (s : IPStack) (f : Nat) : (FrameFree s f).ipAddressDns = s.ipAddressDns := by
  rfl

@[simp] theorem FrameFree_request (s : IPStack) (f : Nat) : (FrameFree s f).request = s.request := by
  rfl

@[simp] theorem FrameFree_portSource (s : IPStack) (f : Nat) : (FrameFree s f).portSource = s.portSource := by
  rfl

@[simp] theorem FrameFree_sent (s : IPStack) (f : Nat) : (FrameFree s f).sent = s.sent := by
  rfl

@[simp] theorem FrameFree_notified (s : IPStack) (f : Nat) : (FrameFree s f).notified = s.notified := by
  rfl

@[simp] theorem FrameFree_posted (s : IPStack) (f : Nat) : (FrameFree s f).posted = s.posted := by
  rfl

@[simp] theorem FrameFree_FrameSendHead (s : IPStack) (f : Nat) : (FrameFree s f).FrameSendHead = s.FrameSendHead := by
  rfl

@[simp] theorem FrameFree_FrameSendTail (s : IPStack) (f : Nat) : (FrameFree s f).FrameSendTail = s.FrameSendTail := by
  rfl

@[simp] theorem FrameFree_FrameResendHead (s : IPStack) (f : Nat) : (FrameFree s f).FrameResendHead = s.FrameResendHead := by
  rfl

@[simp] theorem FrameFree_FrameResendTail (s : IPStack) (f : Nat) : (FrameFree s f).FrameResendTail = s.FrameResendTail := by
  rfl

@[simp] theorem FrameFree_getHead (s : IPStack) (f : Nat) (q : FrameQueue) :
    (FrameFree s f).getHead q = s.getHead q := by
  cases q <;> rfl

@[simp] theorem FrameFree_getTail (s : IPStack) (f : Nat) (q : FrameQueue) :
    (FrameFree s f).getTail q = s.getTail q := by
  cases q <;> rfl

@[simp] theorem FrameInsert_frame (s : IPStack) (q : FrameQueue) (f : Nat) :
    (FrameInsert s q f).frame =
      { s.frame with
        state := upd s.frame.state f 2
        next := upd s.frame.next f (s.getHead q)
        prev :=
          match s.getHead q with
          | some h => upd (upd s.frame.prev f none) h (some f)
          | none => upd s.frame.prev f none } := by
  cases q <;> simp only [FrameInsert, IPStack.getHead, IPStack.setHead, IPStack.getTail, IPStack.setTail] <;>
    (repeat' split) <;> simp_all

@[simp] theorem FrameInsert_getHead (s : IPStack) (q q' : FrameQueue) (f : Nat) :
    (FrameInsert s q f).getHead q' = if q' = q then some f else s.getHead q' := by
  cases q <;> cases q' <;> simp only [FrameInsert, IPStack.getHead, IPStack.setHead, IPStack.getTail, IPStack.setTail] <;>
    (repeat' split) <;> simp_all [upd]

@[simp] theorem FrameInsert_getTail (s : IPStack) (q q' : FrameQueue) (f : Nat) :
    (FrameInsert s q f).getTail q' =
      if q' = q then (match s.getTail q with | none => some f | some t => some t)
      else s.getTail q' := by
  cases q <;> cases q' <;> simp only [FrameInsert, IPStack.getHead, IPStack.setHead, IPStack.getTail, IPStack.setTail] <;>
    (repeat' split) <;> simp_all [upd]

@[simp] theorem FrameInsert_FrameFreeCount (s : IPStack) (q : FrameQueue) (f : Nat) :
    (FrameInsert s q f).FrameFreeCount = s.FrameFreeCount := by
  cases q <;> simp only [FrameInsert, IPStack.getHead, IPStack.setHead, IPStack.getTail, IPStack.setTail] <;>
    (repeat' split) <;> rfl

@[simp] theorem FrameInsert_FrameFreeHead (s : IPStack) (q : FrameQueue) (f : Nat) :
    (FrameInsert s q f).FrameFreeHead = s.FrameFreeHead := by
  cases q <;> simp only [FrameInsert, IPStack.getHead, IPStack.setHead, IPStack.getTail, IPStack.setTail] <;>
    (repeat' split) <;> rfl

@[simp] theorem FrameInsert_SocketHead (s : IPStack) (q : FrameQueue) (f : Nat) :
    (FrameInsert s q f).SocketHead = s.SocketHead := by
  cases q <;> simp only [FrameInsert, IPStack.getHead, IPStack.setHead, IPStack.getTail, IPStack.setTail] <;>
    (repeat' split) <;> rfl

@[simp] theorem FrameInsert_Seconds (s : IPStack) (q : FrameQueue) (f : Nat) :
    (FrameInsert s q f).Seconds = s.Seconds := by
  cases q <;> simp only [FrameInsert, IPStack.getHead, IPStack.setHead, IPStack.getTail, IPStack.setTail] <;>
    (repeat' split) <;> rfl

@[simp] theorem FrameInsert_DhcpRetrySeconds (s : IPStack) (q : FrameQueue) (f : Nat) :
    (FrameInsert s q f).DhcpRetrySeconds = s.DhcpRetrySeconds := by
  cases q <;> simp only [FrameInsert, IPStack.getHead, IPStack.setHead, IPStack.getTail, IPStack.setTail] <;>
    (repeat' split) <;> rfl

@[simp] theorem FrameInsert_FrameSendFunc (s : IPStack) (q : FrameQueue) (f : Nat) :
    (FrameInsert s q f).FrameSendFunc = s.FrameSendFunc := by
  cases q <;> simp only [FrameInsert, IPStack.getHead, IPStack.setHead, IPStack.getTail, IPStack.setTail] <;>
    (repeat' split) <;> rfl

@[simp] theorem FrameInsert_ethernetAddressGateway (s : IPStack) (q : FrameQueue) (f : Nat) :
    (FrameInsert s q f).ethernetAddressGateway = s.ethernetAddressGateway := by
  cases q <;> simp only [FrameInsert, IPStack.getHead, IPStack.setHead, IPStack.getTail, IPStack.setTail] <;>
    (repeat' split) <;> rfl

@[simp] theorem FrameInsert_ipAddressPlasma (s : IPStack) (q : FrameQueue) (f : Nat) :
    (FrameInsert s q f).ipAddressPlasma = s.ipAddressPlasma := by
  cases q <;> simp only [FrameInsert, IPStack.getHead, IPStack.setHead, IPStack.getTail, IPStack.setTail] <;>
    (repeat' split) <;> rfl

@[simp] theorem FrameInsert_ipAddressGateway (s : IPStack) (q : FrameQueue) (f : Nat) :
    (FrameInsert s q f).ipAddressGateway = s.ipAddressGateway := by
  cases q <;> simp only [FrameInsert, IPStack.getHead, IPStack.setHead, IPStack.getTail, IPStack.setTail] <;>
    (repeat' split) <;> rfl

@[simp] theorem FrameInsert_ipAddressDns (s : IPStack) (q : FrameQueue) (f : Nat) :
    (FrameInsert s q f).ipAddressDns = s.ipAddressDns := by
  cases q <;> simp only [FrameInsert, IPStack.getHead, IPStack.setHead, IPStack.getTail, IPStack.setTail] <;>
    (repeat' split) <;> rfl

@[simp] theorem FrameInsert_request (s : IPStack) (q : FrameQueue) (f : Nat) :
    (FrameInsert s q f).request = s.request := by
  cases q <;> simp only [FrameInsert, IPStack.getHead, IPStack.setHead, IPStack.getTail, IPStack.setTail] <;>
    (repeat' split) <;> rfl

@[simp] theorem FrameInsert_portSource (s : IPStack) (q : FrameQueue) (f : Nat) :
    (FrameInsert s q f).portSource = s.portSource := by
  cases q <;> simp only [FrameInsert, IPStack.getHead, IPStack.setHead, IPStack.getTail, IPStack.setTail] <;>
    (repeat' split) <;> rfl

@[simp] theorem FrameInsert_sent (s : IPStack) (q : FrameQueue) (f : Nat) :
    (FrameInsert s q f).sent = s.sent := by
  cases q <;> simp only [FrameInsert, IPStack.getHead, IPStack.setHead, IPStack.getTail, IPStack.setTail] <;>
    (repeat' split) <;> rfl

@[simp] theorem FrameInsert_notified (s : IPStack) (q : FrameQueue) (f : Nat) :
    (FrameInsert s q f).notified = s.notified := by
  cases q <;> simp only [FrameInsert, IPStack.getHead, IPStack.setHead, IPStack.getTail, IPStack.setTail] <;>
    (repeat' split) <;> rfl

@[simp] theorem FrameInsert_posted (s : IPStack) (q : FrameQueue) (f : Nat) :
    (FrameInsert s q f).posted = s.posted := by
  cases q <;> simp only [FrameInsert, IPStack.getHead, IPStack.setHead, IPStack.getTail, IPStack.setTail] <;>
    (repeat' split) <;> rfl

@[simp] theorem FrameInsert_FrameSendHead (s : IPStack) (q : FrameQueue) (f : Nat) :
    (FrameInsert s q f).FrameSendHead =
      if FrameQueue.send = q then some f else s.FrameSendHead := by
  exact FrameInsert_getHead s q FrameQueue.send f

@[simp] theorem FrameInsert_FrameResendHead (s : IPStack) (q : FrameQueue) (f : Nat) :
    (FrameInsert s q f).FrameResendHead =
      if FrameQueue.resend = q then some f else s.FrameResendHead := by
  exact FrameInsert_getHead s q FrameQueue.resend f

@[simp] theorem FrameInsert_FrameSendTail (s : IPStack) (q : FrameQueue) (f : Nat) :
    (FrameInsert s q f).FrameSendTail =
      if FrameQueue.send = q then (match s.getTail q with | none => some f | some t => some t)
      else s.FrameSendTail := by
  exact FrameInsert_getTail s q FrameQueue.send f

@[simp] theorem FrameInsert_FrameResendTail (s : IPStack) (q : FrameQueue) (f : Nat) :
    (FrameInsert s q f).FrameResendTail =
      if FrameQueue.resend = q then (match s.getTail q with | none => some f | some t => some t)
      else s.FrameResendTail := by
  exact FrameInsert_getTail s q FrameQueue.resend f

@[simp] theorem FrameInsert_socket_of_send (s : IPStack) (f : Nat) :
    (FrameInsert s FrameQueue.send f).socket = s.socket := by
  simp only [FrameInsert, IPStack.getHead, IPStack.setHead, IPStack.getTail, IPStack.setTail] <;>
    (repeat' split) <;> rfl

@[simp] theorem FrameInsert_socket_of_resend (s : IPStack) (f : Nat) :
    (FrameInsert s FrameQueue.resend f).socket = s.socket := by
  simp only [FrameInsert, IPStack.getHead, IPStack.setHead, IPStack.getTail, IPStack.setTail] <;>
    (repeat' split) <;> rfl

@[simp] theorem FrameInsert_socket_of_read (s : IPStack) (k f : Nat) :
    (FrameInsert s (FrameQueue.read k) f).socket =
      { s.socket with
        frameReadHead := upd s.socket.frameReadHead k (some f)
        frameReadTail :=
          match s.socket.frameReadTail k with
          | none => upd s.socket.frameReadTail k (some f)
          | some _ => s.socket.frameReadTail } := by
  simp only [FrameInsert, IPStack.getHead, IPStack.setHead, IPStack.getTail, IPStack.setTail] <;>
    (repeat' split) <;> simp_all

@[simp] theorem FrameRemove_frame (s : IPStack) (q : FrameQueue) (f : Nat) :
    (FrameRemove s q f).frame =
      { s.frame with
        state := upd s.frame.state f 1
        next := upd (match s.frame.prev f with
          | some p => upd s.frame.next p (s.frame.next f)
          | none => s.frame.next) f none
        prev := upd (match s.frame.next f with
          | some n => upd s.frame.prev n (s.frame.prev f)
          | none => s.frame.prev) f none } := by
  cases q <;> cases hp : s.frame.prev f <;> cases hn : s.frame.next f <;>
    simp [FrameRemove, IPStack.getHead, IPStack.setHead, IPStack.getTail, IPStack.setTail, hp, hn, upd_apply]

@[simp] theorem FrameRemove_getHead (s : IPStack) (q q' : FrameQueue) (f : Nat) :
    (FrameRemove s q f).getHead q' =
      if q' = q then (match s.frame.prev f with | some _ => s.getHead q | none => s.frame.next f)
      else s.getHead q' := by
  cases q <;> cases q' <;> cases hp : s.frame.prev f <;> cases hn : s.frame.next f <;>
    simp [FrameRemove, IPStack.getHead, IPStack.setHead, IPStack.getTail, IPStack.setTail, hp, hn, upd_apply] <;>
    split_ifs <;> simp_all

@[simp] theorem FrameRemove_getTail (s : IPStack) (q q' : FrameQueue) (f : Nat) :
    (FrameRemove s q f).getTail q' =
      if q' = q then (match s.frame.next f with | some _ => s.getTail q | none => s.frame.prev f)
      else s.getTail q' := by
  cases q <;> cases q' <;> cases hp : s.frame.prev f <;> cases hn : s.frame.next f <;>
    simp [FrameRemove, IPStack.getHead, IPStack.setHead, IPStack.getTail, IPStack.setTail, hp, hn, upd_apply] <;>
    split_ifs <;> simp_all

@[simp] theorem FrameRemove_FrameFreeCount (s : IPStack) (q : FrameQueue) (f : Nat) :
    (FrameRemove s q f).FrameFreeCount = s.FrameFreeCount := by
  cases q <;> simp only [FrameRemove, IPStack.getHead, IPStack.setHead, IPStack.getTail, IPStack.setTail] <;>
    (repeat' split) <;> rfl

@[simp] theorem FrameRemove_FrameFreeHead (s : IPStack) (q : FrameQueue) (f : Nat) :
    (FrameRemove s q f).FrameFreeHead = s.FrameFreeHead := by
  cases q <;> simp only [FrameRemove, IPStack.getHead, IPStack.setHead, IPStack.getTail, IPStack.setTail] <;>
    (repeat' split) <;> rfl

@[simp] theorem FrameRemove_SocketHead (s : IPStack) (q : FrameQueue) (f : Nat) :
    (FrameRemove s q f).SocketHead = s.SocketHead := by
  cases q <;> simp only [FrameRemove, IPStack.getHead, IPStack.setHead, IPStack.getTail, IPStack.setTail] <;>
    (repeat' split) <;> rfl

@[simp] theorem FrameRemove_Seconds (s : IPStack) (q : FrameQueue) (f : Nat) :
    (FrameRemove s q f).Seconds = s.Seconds := by
  cases q <;> simp only [FrameRemove, IPStack.getHead, IPStack.setHead, IPStack.getTail, IPStack.setTail] <;>
    (repeat' split) <;> rfl

@[simp] theorem FrameRemove_DhcpRetrySeconds (s : IPStack) (q : FrameQueue) (f : Nat) :
    (FrameRemove s q f).DhcpRetrySeconds = s.DhcpRetrySeconds := by
  cases q <;> simp only [FrameRemove, IPStack.getHead, IPStack.setHead, IPStack.getTail, IPStack.setTail] <;>
    (repeat' split) <;> rfl

@[simp] theorem FrameRemove_FrameSendFunc (s : IPStack) (q : FrameQueue) (f : Nat) :
    (FrameRemove s q f).FrameSendFunc = s.FrameSendFunc := by
  cases q <;> simp only [FrameRemove, IPStack.getHead, IPStack.setHead, IPStack.getTail, IPStack.setTail] <;>
    (repeat' split) <;> rfl

@[simp] theorem FrameRemove_ethernetAddressGateway (s : IPStack) (q : FrameQueue) (f : Nat) :
    (FrameRemove s q f).ethernetAddressGateway = s.ethernetAddressGateway := by
  cases q <;> simp only [FrameRemove, IPStack.getHead, IPStack.setHead, IPStack.getTail, IPStack.setTail] <;>
    (repeat' split) <;> rfl

@[simp] theorem FrameRemove_ipAddressPlasma (s : IPStack) (q : FrameQueue) (f : Nat) :
    (FrameRemove s q f).ipAddressPlasma = s.ipAddressPlasma := by
  cases q <;> simp only [FrameRemove, IPStack.getHead, IPStack.setHead, IPStack.getTail, IPStack.setTail] <;>
    (repeat' split) <;> rfl

@[simp] theorem FrameRemove_ipAddressGateway (s : IPStack) (q : FrameQueue) (f : Nat) :
    (FrameRemove s q f).ipAddressGateway = s.ipAddressGateway := by
  cases q <;> simp only [FrameRemove, IPStack.getHead, IPStack.setHead, IPStack.getTail, IPStack.setTail] <;>
    (repeat' split) <;> rfl

@[simp] theorem FrameRemove_ipAddressDns (s : IPStack) (q : FrameQueue) (f : Nat) :
    (FrameRemove s q f).ipAddressDns = s.ipAddressDns := by
  cases q <;> simp only [FrameRemove, IPStack.getHead, IPStack.setHead, IPStack.getTail, IPStack.setTail] <;>
    (repeat' split) <;> rfl

@[simp] theorem FrameRemove_request (s : IPStack) (q : FrameQueue) (f : Nat) :
    (FrameRemove s q f).request = s.request := by
  cases q <;> simp only [FrameRemove, IPStack.getHead, IPStack.setHead, IPStack.getTail, IPStack.setTail] <;>
    (repeat' split) <;> rfl

@[simp] theorem FrameRemove_portSource (s : IPStack) (q : FrameQueue) (f : Nat) :
    (FrameRemove s q f).portSource = s.portSource := by
  cases q <;> simp only [FrameRemove, IPStack.getHead, IPStack.setHead, IPStack.getTail, IPStack.setTail] <;>
    (repeat' split) <;> rfl

@[simp] theorem FrameRemove_sent (s : IPStack) (q : FrameQueue) (f : Nat) :
    (FrameRemove s q f).sent = s.sent := by
  cases q <;> simp only [FrameRemove, IPStack.getHead, IPStack.setHead, IPStack.getTail, IPStack.setTail] <;>
    (repeat' split) <;> rfl

@[simp] theorem FrameRemove_notified (s : IPStack) (q : FrameQueue) (f : Nat) :
    (FrameRemove s q f).notified = s.notified := by
  cases q <;> simp only [FrameRemove, IPStack.getHead, IPStack.setHead, IPStack.getTail, IPStack.setTail] <;>
    (repeat' split) <;> rfl

@[simp] theorem FrameRemove_posted (s : IPStack) (q : FrameQueue) (f : Nat) :
    (FrameRemove s q f).posted = s.posted := by
  cases q <;> simp only [FrameRemove, IPStack.getHead, IPStack.setHead, IPStack.getTail, IPStack.setTail] <;>
    (repeat' split) <;> rfl

@[simp] theorem FrameRemove_FrameSendHead (s : IPStack) (q : FrameQueue) (f : Nat) :
    (FrameRemove s q f).FrameSendHead =
      if FrameQueue.send = q then
        (match s.frame.prev f with | some _ => s.getHead q | none => s.frame.next f)
      else s.FrameSendHead := by
  exact FrameRemove_getHead s q FrameQueue.send f

@[simp] theorem FrameRemove_FrameResendHead (s : IPStack) (q : FrameQueue) (f : Nat) :
    (FrameRemove s q f).FrameResendHead =
      if FrameQueue.resend = q then
        (match s.frame.prev f with | some _ => s.getHead q | none => s.frame.next f)
      else s.FrameResendHead := by
  exact FrameRemove_getHead s q FrameQueue.resend f

@[simp] theorem FrameRemove_FrameSendTail (s : IPStack) (q : FrameQueue) (f : Nat) :
    (FrameRemove s q f).FrameSendTail =
      if FrameQueue.send = q then
        (match s.frame.next f with | some _ => s.getTail q | none => s.frame.prev f)
      else s.FrameSendTail := by
  exact FrameRemove_getTail s q FrameQueue.send f

@[simp] theorem FrameRemove_FrameResendTail (s : IPStack) (q : FrameQueue) (f : Nat) :
    (FrameRemove s q f).FrameResendTail =
      if FrameQueue.resend = q then
        (match s.frame.next f with | some _ => s.getTail q | none => s.frame.prev f)
      else s.FrameResendTail := by
  exact FrameRemove_getTail s q FrameQueue.resend f

@[simp] theorem FrameRemove_socket_of_send (s : IPStack) (f : Nat) :
    (FrameRemove s FrameQueue.send f).socket = s.socket := by
  simp only [FrameRemove, IPStack.getHead, IPStack.setHead, IPStack.getTail, IPStack.setTail] <;>
    (repeat' split) <;> rfl

@[simp] theorem FrameRemove_socket_of_resend (s : IPStack) (f : Nat) :
    (FrameRemove s FrameQueue.resend f).socket = s.socket := by
  simp only [FrameRemove, IPStack.getHead, IPStack.setHead, IPStack.getTail, IPStack.setTail] <;>
    (repeat' split) <;> rfl

@[simp] theorem FrameRemove_socket_of_read (s : IPStack) (k f : Nat) :
    (FrameRemove s (FrameQueue.read k) f).socket =
      { s.socket with
        frameReadHead :=
          match s.frame.prev f with
          | some _ => s.socket.frameReadHead
          | none => upd s.socket.frameReadHead k (s.frame.next f)
        frameReadTail :=
          match s.frame.next f with
          | some _ => s.socket.frameReadTail
          | none =>
            upd s.socket.frameReadTail k (s.frame.prev f) } := by
  cases hp : s.frame.prev f <;> cases hn : s.frame.next f <;>
    simp [FrameRemove, IPStack.getHead, IPStack.setHead, IPStack.getTail, IPStack.setTail, hp, hn, upd_apply]

/-! ## Sending a packet -/

theorem store16_agree {K : List Nat} {p q : Nat → Nat} (k : Nat) (v : Int)
    (hk : k ∈ K) (hk1 : k + 1 ∈ K) (h : ∀ i, i ∉ K → p i = q i) :
    ∀ i, i ∉ K → store16 p k v i = q i := by
  intro i hi
  rw [store16_of_ne _ _ _ (fun e => hi (by rw [e]; exact hk)) (fun e => hi (by rw [e]; exact hk1))]
  exact h i hi

/-- The bytes that `IPSendPacket` leaves alone: all but the length and checksum fields. -/
theorem IPSendPacket_packet_apply (packet : Nat → Nat) (length : Int) :
    ∀ i, i ∉ [16, 17, 24, 25, 36, 37, 38, 39, 40, 41, 50, 51] →
      IPSendPacket_packet packet length i = packet i := by
  unfold IPSendPacket_packet
  split
  · dsimp only
    split
    · repeat' (first | exact fun _ _ => rfl | refine store16_agree _ _ (by decide) (by decide) ?_)
    · split
      · repeat' (first | exact fun _ _ => rfl | refine store16_agree _ _ (by decide) (by decide) ?_)
      · split
        · repeat' (first | exact fun _ _ => rfl | refine store16_agree _ _ (by decide) (by decide) ?_)
        · repeat' (first | exact fun _ _ => rfl | refine store16_agree _ _ (by decide) (by decide) ?_)
  · exact fun _ _ => rfl

/-! ## The send path, field by field -/

@[simp] theorem IPFrameReschedule_socket (cfg : IPConfig) (s : IPStack) (f : Nat) :
    (IPFrameReschedule cfg s f).socket = s.socket := by
  unfold IPFrameReschedule
  cases s.frame.socket f <;> dsimp only <;> (try split_ifs) <;> simp

@[simp] theorem IPFrameReschedule_frame_packet (cfg : IPConfig) (s : IPStack) (f : Nat) :
    (IPFrameReschedule cfg s f).frame.packet = s.frame.packet := by
  unfold IPFrameReschedule
  cases s.frame.socket f <;> dsimp only <;> (try split_ifs) <;> simp

@[simp] theorem IPFrameReschedule_frame_socket (cfg : IPConfig) (s : IPStack) (f : Nat) :
    (IPFrameReschedule cfg s f).frame.socket = s.frame.socket := by
  unfold IPFrameReschedule
  cases s.frame.socket f <;> dsimp only <;> (try split_ifs) <;> simp

@[simp] theorem IPFrameReschedule_frame_seqEnd (cfg : IPConfig) (s : IPStack) (f : Nat) :
    (IPFrameReschedule cfg s f).frame.seqEnd = s.frame.seqEnd := by
  unfold IPFrameReschedule
  cases s.frame.socket f <;> dsimp only <;> (try split_ifs) <;> simp

@[simp] theorem IPFrameReschedule_frame_length (cfg : IPConfig) (s : IPStack) (f : Nat) :
    (IPFrameReschedule cfg s f).frame.length = s.frame.length := by
  unfold IPFrameReschedule
  cases s.frame.socket f <;> dsimp only <;> (try split_ifs) <;> simp

@[simp] theorem IPFrameReschedule_SocketHead (cfg : IPConfig) (s : IPStack) (f : Nat) :
    (IPFrameReschedule cfg s f).SocketHead = s.SocketHead := by
  unfold IPFrameReschedule
  cases s.frame.socket f <;> dsimp only <;> (try split_ifs) <;> simp

@[simp] theorem IPFrameReschedule_Seconds (cfg : IPConfig) (s : IPStack) (f : Nat) :
    (IPFrameReschedule cfg s f).Seconds = s.Seconds := by
  unfold IPFrameReschedule
  cases s.frame.socket f <;> dsimp only <;> (try split_ifs) <;> simp

@[simp] theorem IPFrameReschedule_DhcpRetrySeconds (cfg : IPConfig) (s : IPStack) (f : Nat) :
    (IPFrameReschedule cfg s f).DhcpRetrySeconds = s.DhcpRetrySeconds := by
  unfold IPFrameReschedule
  cases s.frame.socket f <;> dsimp only <;> (try split_ifs) <;> simp

@[simp] theorem IPFrameReschedule_FrameSendFunc (cfg : IPConfig) (s : IPStack) (f : Nat) :
    (IPFrameReschedule cfg s f).FrameSendFunc = s.FrameSendFunc := by
  unfold IPFrameReschedule
  cases s.frame.socket f <;> dsimp only <;> (try split_ifs) <;> simp

@[simp] theorem IPFrameReschedule_ethernetAddressGateway (cfg : IPConfig) (s : IPStack) (f : Nat) :
    (IPFrameReschedule cfg s f).ethernetAddressGateway = s.ethernetAddressGateway := by
  unfold IPFrameReschedule
  cases s.frame.socket f <;> dsimp only <;> (try split_ifs) <;> simp

@[simp] theorem IPFrameReschedule_ipAddressPlasma (cfg : IPConfig) (s : IPStack) (f : Nat) :
    (IPFrameReschedule cfg s f).ipAddressPlasma = s.ipAddressPlasma := by
  unfold IPFrameReschedule
  cases s.frame.socket f <;> dsimp only <;> (try split_ifs) <;> simp

@[simp] theorem IPFrameReschedule_ipAddressGateway (cfg : IPConfig) (s : IPStack) (f : Nat) :
    (IPFrameReschedule cfg s f).ipAddressGateway = s.ipAddressGateway := by
  unfold IPFrameReschedule
  cases s.frame.socket f <;> dsimp only <;> (try split_ifs) <;> simp

@[simp] theorem IPFrameReschedule_ipAddressDns (cfg : IPConfig) (s : IPStack) (f : Nat) :
    (IPFrameReschedule cfg s f).ipAddressDns = s.ipAddressDns := by
  unfold IPFrameReschedule
  cases s.frame.socket f <;> dsimp only <;> (try split_ifs) <;> simp

@[simp] theorem IPFrameReschedule_request (cfg : IPConfig) (s : IPStack) (f : Nat) :
    (IPFrameReschedule cfg s f).request = s.request := by
  unfold IPFrameReschedule
  cases s.frame.socket f <;> dsimp only <;> (try split_ifs) <;> simp

@[simp] theorem IPFrameReschedule_portSource (cfg : IPConfig) (s : IPStack) (f : Nat) :
    (IPFrameReschedule cfg s f).portSource = s.portSource := by
  unfold IPFrameReschedule
  cases s.frame.socket f <;> dsimp only <;> (try split_ifs) <;> simp

@[simp] theorem IPFrameReschedule_sent (cfg : IPConfig) (s : IPStack) (f : Nat) :
    (IPFrameReschedule cfg s f).sent = s.sent := by
  unfold IPFrameReschedule
  cases s.frame.socket f <;> dsimp only <;> (try split_ifs) <;> simp

@[simp] theorem IPFrameReschedule_notified (cfg : IPConfig) (s : IPStack) (f : Nat) :
    (IPFrameReschedule cfg s f).notified = s.notified := by
  unfold IPFrameReschedule
  cases s.frame.socket f <;> dsimp only <;> (try split_ifs) <;> simp

@[simp] theorem IPFrameReschedule_posted (cfg : IPConfig) (s : IPStack) (f : Nat) :
    (IPFrameReschedule cfg s f).posted = s.posted := by
  unfold IPFrameReschedule
  cases s.frame.socket f <;> dsimp only <;> (try split_ifs) <;> simp

@[simp] theorem IPFrameReschedule_FrameSendHead (cfg : IPConfig) (s : IPStack) (f : Nat) :
    (IPFrameReschedule cfg s f).FrameSendHead = s.FrameSendHead := by
  unfold IPFrameReschedule
  cases s.frame.socket f <;> dsimp only <;> (try split_ifs) <;> simp

@[simp] theorem IPFrameReschedule_FrameSendTail (cfg : IPConfig) (s : IPStack) (f : Nat) :
    (IPFrameReschedule cfg s f).FrameSendTail = s.FrameSendTail := by
  unfold IPFrameReschedule
  cases s.frame.socket f <;> dsimp only <;> (try split_ifs) <;> simp

@[simp] theorem IPSendFrame_socket (cfg : IPConfig) (s : IPStack) (f : Nat) :
    (IPSendFrame cfg s f).socket = s.socket := by
  unfold IPSendFrame
  split <;> simp

@[simp] theorem IPSendFrame_frame_packet (cfg : IPConfig) (s : IPStack) (f : Nat) :
    (IPSendFrame cfg s f).frame.packet = s.frame.packet := by
  unfold IPSendFrame
  split <;> simp

@[simp] theorem IPSendFrame_frame_socket (cfg : IPConfig) (s : IPStack) (f : Nat) :
    (IPSendFrame cfg s f).frame.socket = s.frame.socket := by
  unfold IPSendFrame
  split <;> simp

@[simp] theorem IPSendFrame_frame_seqEnd (cfg : IPConfig) (s : IPStack) (f : Nat) :
    (IPSendFrame cfg s f).frame.seqEnd = s.frame.seqEnd := by
  unfold IPSendFrame
  split <;> simp

@[simp] theorem IPSendFrame_frame_length (cfg : IPConfig) (s : IPStack) (f : Nat) :
    (IPSendFrame cfg s f).frame.length = s.frame.length := by
  unfold IPSendFrame
  split <;> simp

@[simp] theorem IPSendFrame_SocketHead (cfg : IPConfig) (s : IPStack) (f : Nat) :
    (IPSendFrame cfg s f).SocketHead = s.SocketHead := by
  unfold IPSendFrame
  split <;> simp

@[simp] theorem IPSendFrame_Seconds (cfg : IPConfig) (s : IPStack) (f : Nat) :
    (IPSendFrame cfg s f).Seconds = s.Seconds := by
  unfold IPSendFrame
  split <;> simp

@[simp] theorem IPSendFrame_DhcpRetrySeconds (cfg : IPConfig) (s : IPStack) (f : Nat) :
    (IPSendFrame cfg s f).DhcpRetrySeconds = s.DhcpRetrySeconds := by
  unfold IPSendFrame
  split <;> simp

@[simp] theorem IPSendFrame_FrameSendFunc (cfg : IPConfig) (s : IPStack) (f : Nat) :
    (IPSendFrame cfg s f).FrameSendFunc = s.FrameSendFunc := by
  unfold IPSendFrame
  split <;> simp

@[simp] theorem IPSendFrame_ethernetAddressGateway (cfg : IPConfig) (s : IPStack) (f : Nat) :
    (IPSendFrame cfg s f).ethernetAddressGateway = s.ethernetAddressGateway := by
  unfold IPSendFrame
  split <;> simp

@[simp] theorem IPSendFrame_ipAddressPlasma (cfg : IPConfig) (s : IPStack) (f : Nat) :
    (IPSendFrame cfg s f).ipAddressPlasma = s.ipAddressPlasma := by
  unfold IPSendFrame
  split <;> simp

@[simp] theorem IPSendFrame_ipAddressGateway (cfg : IPConfig) (s : IPStack) (f : Nat) :
    (IPSendFrame cfg s f).ipAddressGateway = s.ipAddressGateway := by
  unfold IPSendFrame
  split <;> simp

@[simp] theorem IPSendFrame_ipAddressDns (cfg : IPConfig) (s : IPStack) (f : Nat) :
    (IPSendFrame cfg s f).ipAddressDns = s.ipAddressDns := by
  unfold IPSendFrame
  split <;> simp

@[simp] theorem IPSendFrame_request (cfg : IPConfig) (s : IPStack) (f : Nat) :
    (IPSendFrame cfg s f).request = s.request := by
  unfold IPSendFrame
  split <;> simp

@[simp] theorem IPSendFrame_portSource (cfg : IPConfig) (s : IPStack) (f : Nat) :
    (IPSendFrame cfg s f).portSource = s.portSource := by
  unfold IPSendFrame
  split <;> simp

@[simp] theorem IPSendFrame_notified (cfg : IPConfig) (s : IPStack) (f : Nat) :
    (IPSendFrame cfg s f).notified = s.notified := by
  unfold IPSendFrame
  split <;> simp

@[simp] theorem IPSendPacket_socket (cfg : IPConfig) (s : IPStack) (socket : Option Nat) (f : Nat) (length : Int) :
    (IPSendPacket cfg s socket f length).socket = s.socket := by
  unfold IPSendPacket
  cases socket <;> simp

@[simp] theorem IPSendPacket_SocketHead (cfg : IPConfig) (s : IPStack) (socket : Option Nat) (f : Nat) (length : Int) :
    (IPSendPacket cfg s socket f length).SocketHead = s.SocketHead := by
  unfold IPSendPacket
  cases socket <;> simp

@[simp] theorem IPSendPacket_Seconds (cfg : IPConfig) (s : IPStack) (socket : Option Nat) (f : Nat) (length : Int) :
    (IPSendPacket cfg s socket f length).Seconds = s.Seconds := by
  unfold IPSendPacket
  cases socket <;> simp

@[simp] theorem IPSendPacket_DhcpRetrySeconds (cfg : IPConfig) (s : IPStack) (socket : Option Nat) (f : Nat) (length : Int) :
    (IPSendPacket cfg s socket f length).DhcpRetrySeconds = s.DhcpRetrySeconds := by
  unfold IPSendPacket
  cases socket <;> simp

@[simp] theorem IPSendPacket_FrameSendFunc (cfg : IPConfig) (s : IPStack) (socket : Option Nat) (f : Nat) (length : Int) :
    (IPSendPacket cfg s socket f length).FrameSendFunc = s.FrameSendFunc := by
  unfold IPSendPacket
  cases socket <;> simp

@[simp] theorem IPSendPacket_ethernetAddressGateway (cfg : IPConfig) (s : IPStack) (socket : Option Nat) (f : Nat) (length : Int) :
    (IPSendPacket cfg s socket f length).ethernetAddressGateway = s.ethernetAddressGateway := by
  unfold IPSendPacket
  cases socket <;> simp

@[simp] theorem IPSendPacket_ipAddressPlasma (cfg : IPConfig) (s : IPStack) (socket : Option Nat) (f : Nat) (length : Int) :
    (IPSendPacket cfg s socket f length).ipAddressPlasma = s.ipAddressPlasma := by
  unfold IPSendPacket
  cases socket <;> simp

@[simp] theorem IPSendPacket_ipAddressGateway (cfg : IPConfig) (s : IPStack) (socket : Option Nat) (f : Nat) (length : Int) :
    (IPSendPacket cfg s socket f length).ipAddressGateway = s.ipAddressGateway := by
  unfold IPSendPacket
  cases socket <;> simp

@[simp] theorem IPSendPacket_ipAddressDns (cfg : IPConfig) (s : IPStack) (socket : Option Nat) (f : Nat) (length : Int) :
    (IPSendPacket cfg s socket f length).ipAddressDns = s.ipAddressDns := by
  unfold IPSendPacket
  cases socket <;> simp

@[simp] theorem IPSendPacket_request (cfg : IPConfig) (s : IPStack) (socket : Option Nat) (f : Nat) (length : Int) :
    (IPSendPacket cfg s socket f length).request = s.request := by
  unfold IPSendPacket
  cases socket <;> simp

@[simp] theorem IPSendPacket_portSource (cfg : IPConfig) (s : IPStack) (socket : Option Nat) (f : Nat) (length : Int) :
    (IPSendPacket cfg s socket f length).portSource = s.portSource := by
  unfold IPSendPacket
  cases socket <;> simp

@[simp] theorem IPSendPacket_notified (cfg : IPConfig) (s : IPStack) (socket : Option Nat) (f : Nat) (length : Int) :
    (IPSendPacket cfg s socket f length).notified = s.notified := by
  unfold IPSendPacket
  cases socket <;> simp

@[simp] theorem IPSendPacket_frame_packet (cfg : IPConfig) (s : IPStack) (socket : Option Nat) (f : Nat) (length : Int) :
    (IPSendPacket cfg s socket f length).frame.packet =
      upd s.frame.packet f (IPSendPacket_packet (s.frame.packet f) length) := by
  unfold IPSendPacket
  cases socket <;> simp

@[simp] theorem IPSendPacket_frame_length (cfg : IPConfig) (s : IPStack) (socket : Option Nat) (f : Nat) (length : Int) :
    (IPSendPacket cfg s socket f length).frame.length = upd s.frame.length f (toUInt16 length) := by
  unfold IPSendPacket
  cases socket <;> simp

@[simp] theorem IPSendPacket_frame_socket (cfg : IPConfig) (s : IPStack) (socket : Option Nat) (f : Nat) (length : Int) :
    (IPSendPacket cfg s socket f length).frame.socket = upd s.frame.socket f socket := by
  unfold IPSendPacket
  cases socket <;> simp

@[simp] theorem TCPSendPacket_socket (cfg : IPConfig) (s : IPStack) (socket f : Nat) (length : Int) :
    (TCPSendPacket cfg s socket f length).socket = s.socket := by
  unfold TCPSendPacket
  simp

@[simp] theorem TCPSendPacket_SocketHead (cfg : IPConfig) (s : IPStack) (socket f : Nat) (length : Int) :
    (TCPSendPacket cfg s socket f length).SocketHead = s.SocketHead := by
  unfold TCPSendPacket
  simp

@[simp] theorem TCPSendPacket_Seconds (cfg : IPConfig) (s : IPStack) (socket f : Nat) (length : Int) :
    (TCPSendPacket cfg s socket f length).Seconds = s.Seconds := by
  unfold TCPSendPacket
  simp

@[simp] theorem TCPSendPacket_DhcpRetrySeconds (cfg : IPConfig) (s : IPStack) (socket f : Nat) (length : Int) :
    (TCPSendPacket cfg s socket f length).DhcpRetrySeconds = s.DhcpRetrySeconds := by
  unfold TCPSendPacket
  simp

@[simp] theorem TCPSendPacket_FrameSendFunc (cfg : IPConfig) (s : IPStack) (socket f : Nat) (length : Int) :
    (TCPSendPacket cfg s socket f length).FrameSendFunc = s.FrameSendFunc := by
  unfold TCPSendPacket
  simp

@[simp] theorem TCPSendPacket_ethernetAddressGateway (cfg : IPConfig) (s : IPStack) (socket f : Nat) (length : Int) :
    (TCPSendPacket cfg s socket f length).ethernetAddressGateway = s.ethernetAddressGateway := by
  unfold TCPSendPacket
  simp

@[simp] theorem TCPSendPacket_ipAddressPlasma (cfg : IPConfig) (s : IPStack) (socket f : Nat) (length : Int) :
    (TCPSendPacket cfg s socket f length).ipAddressPlasma = s.ipAddressPlasma := by
  unfold TCPSendPacket
  simp

@[simp] theorem TCPSendPacket_ipAddressGateway (cfg : IPConfig) (s : IPStack) (socket f : Nat) (length : Int) :
    (TCPSendPacket cfg s socket f length).ipAddressGateway = s.ipAddressGateway := by
  unfold TCPSendPacket
  simp

@[simp] theorem TCPSendPacket_ipAddressDns (cfg : IPConfig) (s : IPStack) (socket f : Nat) (length : Int) :
    (TCPSendPacket cfg s socket f length).ipAddressDns = s.ipAddressDns := by
  unfold TCPSendPacket
  simp

@[simp] theorem TCPSendPacket_request (cfg : IPConfig) (s : IPStack) (socket f : Nat) (length : Int) :
    (TCPSendPacket cfg s socket f length).request = s.request := by
  unfold TCPSendPacket
  simp

@[simp] theorem TCPSendPacket_portSource (cfg : IPConfig) (s : IPStack) (socket f : Nat) (length : Int) :
    (TCPSendPacket cfg s socket f length).portSource = s.portSource := by
  unfold TCPSendPacket
  simp

@[simp] theorem TCPSendPacket_notified (cfg : IPConfig) (s : IPStack) (socket f : Nat) (length : Int) :
    (TCPSendPacket cfg s socket f length).notified = s.notified := by
  unfold TCPSendPacket
  simp

@[simp] theorem TCPSendPacket_frame_packet (cfg : IPConfig) (s : IPStack) (socket f : Nat) (length : Int) :
    (TCPSendPacket cfg s socket f length).frame.packet =
      upd s.frame.packet f
        (IPSendPacket_packet (TCPSendPacket_packet cfg s socket (s.frame.packet f)) length) := by
  unfold TCPSendPacket
  simp

@[simp] theorem TCPSendPacket_frame_length (cfg : IPConfig) (s : IPStack) (socket f : Nat) (length : Int) :
    (TCPSendPacket cfg s socket f length).frame.length = upd s.frame.length f (toUInt16 length) := by
  unfold TCPSendPacket
  simp

@[simp] theorem TCPSendPacket_frame_socket (cfg : IPConfig) (s : IPStack) (socket f : Nat) (length : Int) :
    (TCPSendPacket cfg s socket f length).frame.socket = upd s.frame.socket f (some socket) := by
  unfold TCPSendPacket
  simp

@[simp] theorem IPFrameGet_frame_packet (s : IPStack) (freeCount : Int) :
    (IPFrameGet s freeCount).1.frame.packet = s.frame.packet := by
  unfold IPFrameGet
  split_ifs
  · cases s.FrameFreeHead <;> rfl
  · rfl

@[simp] theorem IPFrameGet_frame_next (s : IPStack) (freeCount : Int) :
    (IPFrameGet s freeCount).1.frame.next = s.frame.next := by
  unfold IPFrameGet
  split_ifs
  · cases s.FrameFreeHead <;> rfl
  · rfl

@[simp] theorem IPFrameGet_frame_prev (s : IPStack) (freeCount : Int) :
    (IPFrameGet s freeCount).1.frame.prev = s.frame.prev := by
  unfold IPFrameGet
  split_ifs
  · cases s.FrameFreeHead <;> rfl
  · rfl

@[simp] theorem IPFrameGet_frame_socket (s : IPStack) (freeCount : Int) :
    (IPFrameGet s freeCount).1.frame.socket = s.frame.socket := by
  unfold IPFrameGet
  split_ifs
  · cases s.FrameFreeHead <;> rfl
  · rfl

@[simp] theorem IPFrameGet_frame_timeout (s : IPStack) (freeCount : Int) :
    (IPFrameGet s freeCount).1.frame.timeout = s.frame.timeout := by
  unfold IPFrameGet
  split_ifs
  · cases s.FrameFreeHead <;> rfl
  · rfl

@[simp] theorem IPFrameGet_frame_seqEnd (s : IPStack) (freeCount : Int) :
    (IPFrameGet s freeCount).1.frame.seqEnd = s.frame.seqEnd := by
  unfold IPFrameGet
  split_ifs
  · cases s.FrameFreeHead <;> rfl
  · rfl

@[simp] theorem IPFrameGet_frame_length (s : IPStack) (freeCount : Int) :
    (IPFrameGet s freeCount).1.frame.length = s.frame.length := by
  unfold IPFrameGet
  split_ifs
  · cases s.FrameFreeHead <;> rfl
  · rfl

@[simp] theorem IPFrameGet_frame_retryCnt (s : IPStack) (freeCount : Int) :
    (IPFrameGet s freeCount).1.frame.retryCnt = s.frame.retryCnt := by
  unfold IPFrameGet
  split_ifs
  · cases s.FrameFreeHead <;> rfl
  · rfl

@[simp] theorem IPFrameGet_socket (s : IPStack) (freeCount : Int) :
    (IPFrameGet s freeCount).1.socket = s.socket := by
  unfold IPFrameGet
  split_ifs
  · cases s.FrameFreeHead <;> rfl
  · rfl

@[simp] theorem IPFrameGet_SocketHead (s : IPStack) (freeCount : Int) :
    (IPFrameGet s freeCount).1.SocketHead = s.SocketHead := by
  unfold IPFrameGet
  split_ifs
  · cases s.FrameFreeHead <;> rfl
  · rfl

@[simp] theorem IPFrameGet_Seconds (s : IPStack) (freeCount : Int) :
    (IPFrameGet s freeCount).1.Seconds = s.Seconds := by
  unfold IPFrameGet
  split_ifs
  · cases s.FrameFreeHead <;> rfl
  · rfl

@[simp] theorem IPFrameGet_DhcpRetrySeconds (s : IPStack) (freeCount : Int) :
    (IPFrameGet s freeCount).1.DhcpRetrySeconds = s.DhcpRetrySeconds := by
  unfold IPFrameGet
  split_ifs
  · cases s.FrameFreeHead <;> rfl
  · rfl

@[simp] theorem IPFrameGet_FrameSendFunc (s : IPStack) (freeCount : Int) :
    (IPFrameGet s freeCount).1.FrameSendFunc = s.FrameSendFunc := by
  unfold IPFrameGet
  split_ifs
  · cases s.FrameFreeHead <;> rfl
  · rfl

@[simp] theorem IPFrameGet_ethernetAddressGateway (s : IPStack) (freeCount : Int) :
    (IPFrameGet s freeCount).1.ethernetAddressGateway = s.ethernetAddressGateway := by
  unfold IPFrameGet
  split_ifs
  · cases s.FrameFreeHead <;> rfl
  · rfl

@[simp] theorem IPFrameGet_ipAddressPlasma (s : IPStack) (freeCount : Int) :
    (IPFrameGet s freeCount).1.ipAddressPlasma = s.ipAddressPlasma := by
  unfold IPFrameGet
  split_ifs
  · cases s.FrameFreeHead <;> rfl
  · rfl

@[simp] theorem IPFrameGet_ipAddressGateway (s : IPStack) (freeCount : Int) :
    (IPFrameGet s freeCount).1.ipAddressGateway = s.ipAddressGateway := by
  unfold IPFrameGet
  split_ifs
  · cases s.FrameFreeHead <;> rfl
  · rfl

@[simp] theorem IPFrameGet_ipAddressDns (s : IPStack) (freeCount : Int) :
    (IPFrameGet s freeCount).1.ipAddressDns = s.ipAddressDns := by
  unfold IPFrameGet
  split_ifs
  · cases s.FrameFreeHead <;> rfl
  · rfl

@[simp] theorem IPFrameGet_request (s : IPStack) (freeCount : Int) :
    (IPFrameGet s freeCount).1.request = s.request := by
  unfold IPFrameGet
  split_ifs
  · cases s.FrameFreeHead <;> rfl
  · rfl

@[simp] theorem IPFrameGet_portSource (s : IPStack) (freeCount : Int) :
    (IPFrameGet s freeCount).1.portSource = s.portSource := by
  unfold IPFrameGet
  split_ifs
  · cases s.FrameFreeHead <;> rfl
  · rfl

@[simp] theorem IPFrameGet_notified (s : IPStack) (freeCount : Int) :
    (IPFrameGet s freeCount).1.notified = s.notified := by
  unfold IPFrameGet
  split_ifs
  · cases s.FrameFreeHead <;> rfl
  · rfl

@[simp] theorem IPFrameGet_sent (s : IPStack) (freeCount : Int) :
    (IPFrameGet s freeCount).1.sent = s.sent := by
  unfold IPFrameGet
  split_ifs
  · cases s.FrameFreeHead <;> rfl
  · rfl

@[simp] theorem IPFrameGet_posted (s : IPStack) (freeCount : Int) :
    (IPFrameGet s freeCount).1.posted = s.posted := by
  unfold IPFrameGet
  split_ifs
  · cases s.FrameFreeHead <;> rfl
  · rfl

@[simp] theorem IPFrameGet_FrameSendHead (s : IPStack) (freeCount : Int) :
    (IPFrameGet s freeCount).1.FrameSendHead = s.FrameSendHead := by
  unfold IPFrameGet
  split_ifs
  · cases s.FrameFreeHead <;> rfl
  · rfl

@[simp] theorem IPFrameGet_FrameSendTail (s : IPStack) (freeCount : Int) :
    (IPFrameGet s freeCount).1.FrameSendTail = s.FrameSendTail := by
  unfold IPFrameGet
  split_ifs
  · cases s.FrameFreeHead <;> rfl
  · rfl

@[simp] theorem IPFrameGet_FrameResendHead (s : IPStack) (freeCount : Int) :
    (IPFrameGet s freeCount).1.FrameResendHead = s.FrameResendHead := by
  unfold IPFrameGet
  split_ifs
  · cases s.FrameFreeHead <;> rfl
  · rfl

@[simp] theorem IPFrameGet_FrameResendTail (s : IPStack) (freeCount : Int) :
    (IPFrameGet s freeCount).1.FrameResendTail = s.FrameResendTail := by
  unfold IPFrameGet
  split_ifs
  · cases s.FrameFreeHead <;> rfl
  · rfl

@[simp] theorem IPFrameGet_getHead (s : IPStack) (freeCount : Int) (q : FrameQueue) :
    (IPFrameGet s freeCount).1.getHead q = s.getHead q := by
  cases q <;> simp [IPStack.getHead]

@[simp] theorem IPFrameGet_getTail (s : IPStack) (freeCount : Int) (q : FrameQueue) :
    (IPFrameGet s freeCount).1.getTail q = s.getTail q := by
  cases q <;> simp [IPStack.getTail]

theorem tcpSendAck_eq (cfg : IPConfig) (s : IPStack) (socket : Nat) :
    tcpSendAck cfg s socket =
      match (IPFrameGet s cfg.FRAME_COUNT_SEND).2 with
      | none => (IPFrameGet s cfg.FRAME_COUNT_SEND).1
      | some frameOut =>
        TCPSendPacket cfg
          { (IPFrameGet s cfg.FRAME_COUNT_SEND).1 with
            frame.packet := upd (IPFrameGet s cfg.FRAME_COUNT_SEND).1.frame.packet frameOut
              (upd ((IPFrameGet s cfg.FRAME_COUNT_SEND).1.frame.packet frameOut) TCP_FLAGS
                TCP_FLAGS_ACK) }
          socket frameOut TCP_DATA := by
  unfold tcpSendAck
  rcases IPFrameGet s cfg.FRAME_COUNT_SEND with ⟨s1, _ | g⟩ <;> rfl

@[simp] theorem tcpSendAck_socket (cfg : IPConfig) (s : IPStack) (socket : Nat) :
    (tcpSendAck cfg s socket).socket = s.socket := by
  rw [tcpSendAck_eq]
  split <;> simp

@[simp] theorem tcpSendAck_SocketHead (cfg : IPConfig) (s : IPStack) (socket : Nat) :
    (tcpSendAck cfg s socket).SocketHead = s.SocketHead := by
  rw [tcpSendAck_eq]
  split <;> simp

@[simp] theorem tcpSendAck_Seconds (cfg : IPConfig) (s : IPStack) (socket : Nat) :
    (tcpSendAck cfg s socket).Seconds = s.Seconds := by
  rw [tcpSendAck_eq]
  split <;> simp

@[simp] theorem tcpSendAck_DhcpRetrySeconds (cfg : IPConfig) (s : IPStack) (socket : Nat) :
    (tcpSendAck cfg s socket).DhcpRetrySeconds = s.DhcpRetrySeconds := by
  rw [tcpSendAck_eq]
  split <;> simp

@[simp] theorem tcpSendAck_FrameSendFunc (cfg : IPConfig) (s : IPStack) (socket : Nat) :
    (tcpSendAck cfg s socket).FrameSendFunc = s.FrameSendFunc := by
  rw [tcpSendAck_eq]
  split <;> simp

@[simp] theorem tcpSendAck_ethernetAddressGateway (cfg : IPConfig) (s : IPStack) (socket : Nat) :
    (tcpSendAck cfg s socket).ethernetAddressGateway = s.ethernetAddressGateway := by
  rw [tcpSendAck_eq]
  split <;> simp

@[simp] theorem tcpSendAck_ipAddressPlasma (cfg : IPConfig) (s : IPStack) (socket : Nat) :
    (tcpSendAck cfg s socket).ipAddressPlasma = s.ipAddressPlasma := by
  rw [tcpSendAck_eq]
  split <;> simp

@[simp] theorem tcpSendAck_ipAddressGateway (cfg : IPConfig) (s : IPStack) (socket : Nat) :
    (tcpSendAck cfg s socket).ipAddressGateway = s.ipAddressGateway := by
  rw [tcpSendAck_eq]
  split <;> simp

@[simp] theorem tcpSendAck_ipAddressDns (cfg : IPConfig) (s : IPStack) (socket : Nat) :
    (tcpSendAck cfg s socket).ipAddressDns = s.ipAddressDns := by
  rw [tcpSendAck_eq]
  split <;> simp

@[simp] theorem tcpSendAck_request (cfg : IPConfig) (s : IPStack) (socket : Nat) :
    (tcpSendAck cfg s socket).request = s.request := by
  rw [tcpSendAck_eq]
  split <;> simp

@[simp] theorem tcpSendAck_portSource (cfg : IPConfig) (s : IPStack) (socket : Nat) :
    (tcpSendAck cfg s socket).portSource = s.portSource := by
  rw [tcpSendAck_eq]
  split <;> simp

@[simp] theorem tcpSendAck_notified (cfg : IPConfig) (s : IPStack) (socket : Nat) :
    (tcpSendAck cfg s socket).notified = s.notified := by
  rw [tcpSendAck_eq]
  split <;> simp

/-! ## C26: the end sequence number of a frame -/

theorem and_three_ne_zero (x : Nat) : x &&& 3 ≠ 0 ↔ (x &&& 1 ≠ 0 ∨ x &&& 2 ≠ 0) := by
  have h3 : x &&& 3 = x % 4 := Nat.and_pow_two_sub_one_eq_mod x 2
  have h1 : x &&& 1 = x % 2 := Nat.and_one_is_mod x
  have h2 : x &&& 2 = (x % 4) &&& 2 := by
    have e : (3 &&& 2 : Nat) = 2 := by decide
    rw [← h3, Nat.and_assoc, e]
  have h4 : x % 4 < 4 := Nat.mod_lt _ (by decide)
  rw [h3, h1, h2]
  have h5 : x % 2 = (x % 4) % 2 := by omega
  rw [h5]
  generalize x % 4 = y at h4
  interval_cases y <;> decide

theorem store32_of_ne (p : Nat → Nat) (k v : Nat) {i : Nat} (h : i < k ∨ k + 3 < i) :
    store32 p k v i = p i := by
  unfold store32
  rw [upd_ne _ _ (by omega), upd_ne _ _ (by omega), upd_ne _ _ (by omega), upd_ne _ _ (by omega)]

theorem TCPSendPacket_packet_flags (cfg : IPConfig) (s : IPStack) (socket : Nat)
    (packet : Nat → Nat) :
    TCPSendPacket_packet cfg s socket packet TCP_FLAGS = packet TCP_FLAGS % 256 := by
  unfold TCPSendPacket_packet
  rw [upd_ne _ _ (by decide), upd_ne _ _ (by decide),
    store16_of_ne _ _ _ (by decide) (by decide), store32_of_ne _ _ _ (by decide),
    store32_of_ne _ _ _ (by decide)]
  split <;> rw [upd_ne _ _ (by decide), upd_same]

theorem IPSendPacket_frame_seqEnd (cfg : IPConfig) (s : IPStack) (S f : Nat) (length : Int) :
    (IPSendPacket cfg s (some S) f length).frame.seqEnd =
      upd s.frame.seqEnd f (toUInt32 ((s.socket.seq S : Int) +
        (if s.frame.packet f TCP_FLAGS &&& (TCP_FLAGS_FIN ||| TCP_FLAGS_SYN) ≠ 0 then 1
         else length - TCP_DATA))) := by
  have hflags : IPSendPacket_packet (s.frame.packet f) length TCP_FLAGS =
      s.frame.packet f TCP_FLAGS := IPSendPacket_packet_apply _ _ _ (by decide)
  unfold IPSendPacket
  simp [hflags]

theorem seqEnd_formula (flags : Nat) (length : Int)
    (hsyn : flags &&& TCP_FLAGS_SYN ≠ 0 → length = TCP_DATA + 4)
    (hfin : flags &&& TCP_FLAGS_FIN ≠ 0 → flags &&& TCP_FLAGS_SYN = 0 → length = TCP_DATA) :
    (if flags &&& (TCP_FLAGS_FIN ||| TCP_FLAGS_SYN) ≠ 0 then 1 else length - TCP_DATA) =
      tcpPayloadLength flags length + tcpFlagLength flags := by
  unfold tcpPayloadLength tcpFlagLength
  have e : TCP_FLAGS_FIN ||| TCP_FLAGS_SYN = 3 := by decide
  rw [e]
  have h3 := and_three_ne_zero flags
  simp only [TCP_FLAGS_SYN, TCP_FLAGS_FIN, TCP_DATA] at hsyn hfin ⊢
  by_cases h2 : flags &&& 2 = 0
  · by_cases h1 : flags &&& 1 = 0
    · have : ¬ (flags &&& 3 ≠ 0) := by
        rw [h3]
        simp [h1, h2]
      rw [if_neg this, if_neg (by simpa using h2), if_neg this]
      push_cast
      omega
    · have : flags &&& 3 ≠ 0 := h3.mpr (Or.inl h1)
      rw [if_pos this, if_neg (by simpa using h2), if_pos this]
      have := hfin h1 h2
      push_cast at this ⊢
      omega
  · have : flags &&& 3 ≠ 0 := h3.mpr (Or.inr h2)
    rw [if_pos this, if_pos h2, if_pos this]
    have := hsyn h2
    push_cast at this ⊢
    omega

/-- C26 (as stated, refuted): `IPResolve` sends its query for `www.plasma.org` through `IPWrite`
and `IPSendPacket` for its UDP socket 20.  The frame, 107, has 102 bytes; its byte 47, which
`IPSendPacket` reads as the TCP flags, is the low byte of the question count of the DNS
message, 1, the value of `TCP_FLAGS_FIN`.  So `seqEnd` is `seq + 1 = 1`, while the frame length
minus 54 is 48 and the formula of the claim gives `seq + 48 + 1 = 49`. -/
theorem C26_dns_query_seqEnd :
    (IPResolve smallConfig 101 smallStack (some 20) (listBytes (dottedName plasmaName)) 7
      none).map (fun r => r.2) = some 60 ∧
    dnsSent.socket.state 20 = IP_UDP ∧ dnsSent.frame.socket 107 = some 20 ∧
    dnsSent.frame.length 107 = 102 ∧ dnsSent.frame.packet 107 IP_PROTOCOL = 0x11 ∧
    dnsSent.frame.packet 107 TCP_FLAGS = 1 ∧ dnsSent.socket.seq 20 = 0 ∧
    dnsSent.frame.seqEnd 107 = 1 ∧
    toUInt32 ((dnsSent.socket.seq 20 : Int) +
      tcpPayloadLength (dnsSent.frame.packet 107 TCP_FLAGS) (dnsSent.frame.length 107) +
      tcpFlagLength (dnsSent.frame.packet 107 TCP_FLAGS)) = 49 := by
  decide

/-- C26 (amended): for every frame `f` that `IPSendPacket` sends for a socket `S`, `seqEnd` is
`S.seq + 1` when the byte at offset 47 of the frame (the flags of a TCP segment) has SYN or FIN
set, and `S.seq + (length - 54)` otherwise, modulo `2^32`.  When a frame with SYN has 58 bytes
(the 4 option bytes and no payload) and a frame with FIN and without SYN has 54 bytes (no
payload), this is `S.seq + payload length + (1 if SYN or FIN is set)`, the payload length being
the frame length minus 54, and minus 4 when SYN is set; the same holds for a frame sent
through `TCPSendPacket`, which takes its flags from a byte of the frame. -/
theorem C26_seqEnd_of_sent_frame (cfg : IPConfig) (s : IPStack) (S f : Nat) (length : Int) :
    (IPSendPacket cfg s (some S) f length).frame.seqEnd f =
      toUInt32 ((s.socket.seq S : Int) +
        (if s.frame.packet f TCP_FLAGS &&& (TCP_FLAGS_FIN ||| TCP_FLAGS_SYN) ≠ 0 then 1
         else length - TCP_DATA)) ∧
    ((s.frame.packet f TCP_FLAGS &&& TCP_FLAGS_SYN ≠ 0 → length = TCP_DATA + 4) →
      (s.frame.packet f TCP_FLAGS &&& TCP_FLAGS_FIN ≠ 0 →
        s.frame.packet f TCP_FLAGS &&& TCP_FLAGS_SYN = 0 → length = TCP_DATA) →
      (IPSendPacket cfg s (some S) f length).frame.seqEnd f =
        toUInt32 ((s.socket.seq S : Int) +
          tcpPayloadLength (s.frame.packet f TCP_FLAGS) length +
          tcpFlagLength (s.frame.packet f TCP_FLAGS)) ∧
      (s.frame.packet f TCP_FLAGS < 256 →
        (TCPSendPacket cfg s S f length).frame.seqEnd f =
          toUInt32 ((s.socket.seq S : Int) +
            tcpPayloadLength (s.frame.packet f TCP_FLAGS) length +
            tcpFlagLength (s.frame.packet f TCP_FLAGS)))) := by
  refine ⟨by rw [IPSendPacket_frame_seqEnd, upd_same], fun hsyn hfin => ⟨?_, ?_⟩⟩
  · rw [IPSendPacket_frame_seqEnd, upd_same, seqEnd_formula _ _ hsyn hfin, Int.add_assoc]
  · intro hlt
    unfold TCPSendPacket
    rw [IPSendPacket_frame_seqEnd, upd_same]
    simp only [upd_same, TCPSendPacket_packet_flags, Nat.mod_eq_of_lt hlt]
    rw [seqEnd_formula _ _ hsyn hfin, Int.add_assoc]

/-- C26 (amended), instance: a FIN segment of 54 bytes for a socket with `seq = 1000` has
`seqEnd = 1001`, which is `seq` plus no payload plus 1 for the FIN. -/
theorem C26_seqEnd_of_sent_frame_witness :
    (IPSendPacket smallConfig finScenario (some 1) 107 54).frame.seqEnd 107 =
      toUInt32 ((finScenario.socket.seq 1 : Int) +
        tcpPayloadLength (finScenario.frame.packet 107 TCP_FLAGS) 54 +
        tcpFlagLength (finScenario.frame.packet 107 TCP_FLAGS)) :=
  ((C26_seqEnd_of_sent_frame smallConfig finScenario 1 107 54).2 (by decide) (by decide)).1

/-! ## C30: the DHCP REQUEST -/

theorem Emits_congr {s0 s s' : IPStack} {g n : Nat} (h : Emits s0 s' g n)
    (h1 : s0.FrameSendFunc = s.FrameSendFunc) (h2 : s0.sent = s.sent)
    (h3 : s0.FrameSendHead = s.FrameSendHead) (h4 : s0.posted = s.posted) : Emits s s' g n := by
  unfold Emits at h ⊢
  rw [← h1, ← h2, ← h3, ← h4]
  exact h

theorem IPSendFrame_emits (cfg : IPConfig) (s : IPStack) (g : Nat) :
    Emits s (IPSendFrame cfg s g) g (s.frame.length g) := by
  unfold Emits
  refine ⟨by simp, ?_⟩
  cases hF : s.FrameSendFunc with
  | some F => simp [IPSendFrame, hF]
  | none => simp [IPSendFrame, hF, IPStack.getHead]

theorem IPSendPacket_emits (cfg : IPConfig) (s : IPStack) (socket : Option Nat) (g : Nat)
    (length : Int) : Emits s (IPSendPacket cfg s socket g length) g (toUInt16 length) := by
  unfold Emits
  refine ⟨by simp, ?_⟩
  unfold IPSendPacket
  cases socket <;> cases hF : s.FrameSendFunc <;> simp [IPSendFrame, hF, IPStack.getHead]

theorem memcmp_eq_zero (a b : Nat → Nat) (n : Nat) :
    memcmp a b n = 0 ↔ ∀ i, i < n → a i = b i := by
  have key : ((List.range n).all (fun i => a i == b i) = true) ↔ ∀ i, i < n → a i = b i := by
    simp [List.all_eq_true]
  unfold memcmp
  split <;> rename_i h
  · exact ⟨fun _ => key.mp h, fun _ => rfl⟩
  · exact ⟨fun h0 => absurd h0 (by decide), fun h1 => absurd (key.mpr h1) h⟩

/-- C30 (as stated, refuted): with the free list empty, an OFFER for the hardware address of the
stack that arrives after the DISCOVER makes `IPDhcp` send no frame: nothing is handed to the
link-layer function, the send queue stays empty and `request` stays `DHCP_DISCOVER`. -/
theorem C30_no_request_without_free_frame :
    memcmp (offset offerPacket DHCP_CLIENT_ETHERNET) ethernetAddressPlasma 6 = 0 ∧
    offerPacket (DHCP_MAGIC_COOKIE + 6) = DHCP_OFFER ∧
    drainedStack.request = DHCP_DISCOVER ∧
    (IPDhcp smallConfig drainedStack offerPacket 400 2).sent.length = drainedStack.sent.length ∧
    (IPDhcp smallConfig drainedStack offerPacket 400 2).FrameSendHead = none ∧
    (IPDhcp smallConfig drainedStack offerPacket 400 2).request = DHCP_DISCOVER := by
  decide

theorem IPFrameGet_eq {s : IPStack} {freeCount : Int} {g : Nat}
    (hc : s.FrameFreeCount > freeCount) (hh : s.FrameFreeHead = some g) :
    IPFrameGet s freeCount =
      ({ s with FrameFreeCount := s.FrameFreeCount - 1, FrameFreeHead := s.frame.next g,
                frame.state := upd s.frame.state g 1 }, some g) := by
  unfold IPFrameGet
  rw [if_pos hc]
  simp only [hh]

/-- The state in which `IPDhcp` sends the REQUEST. -/
theorem IPDhcp_offer (cfg : IPConfig) (s : IPStack) (packet : Nat → Nat) (length : Int)
    (g : Nat)
    (hmac : ∀ i, i < 6 → packet (DHCP_CLIENT_ETHERNET + i) = ethernetAddressPlasma i)
    (htype : packet (DHCP_MAGIC_COOKIE + 6) = DHCP_OFFER)
    (hreq : s.request = DHCP_DISCOVER)
    (hcount : s.FrameFreeCount > 0) (hhead : s.FrameFreeHead = some g) :
    IPDhcp cfg s packet length 2 =
      IPSendPacket cfg
        { s with
          FrameFreeCount := s.FrameFreeCount - 1
          FrameFreeHead := s.frame.next g
          frame := { s.frame with
            state := upd s.frame.state g 1
            packet := upd s.frame.packet g (dhcpRequestPacket (s.frame.packet g) packet) }
          request := DHCP_REQUEST } none g 400 := by
  have hm : memcmp (offset packet DHCP_CLIENT_ETHERNET) ethernetAddressPlasma 6 = 0 :=
    (memcmp_eq_zero _ _ _).mpr hmac
  unfold IPDhcp
  rw [if_neg (by decide), if_pos ⟨rfl, hm⟩, if_pos ⟨htype, hreq⟩, IPFrameGet_eq hcount hhead]

theorem dhcpRequestPacket_options (packetOut packet : Nat → Nat) :
    dhcpRequestPacket packetOut packet (DHCP_MAGIC_COOKIE + 4) = 53 ∧
    dhcpRequestPacket packetOut packet (DHCP_MAGIC_COOKIE + 5) = 1 ∧
    dhcpRequestPacket packetOut packet (DHCP_MAGIC_COOKIE + 6) = DHCP_REQUEST ∧
    dhcpRequestPacket packetOut packet (DHCP_MAGIC_COOKIE + 29) = 50 ∧
    dhcpRequestPacket packetOut packet (DHCP_MAGIC_COOKIE + 30) = 4 ∧
    (∀ i, i < 4 → dhcpRequestPacket packetOut packet (DHCP_MAGIC_COOKIE + 31 + i) =
      packet (DHCP_YOUR_IP + i)) ∧
    dhcpRequestPacket packetOut packet (DHCP_MAGIC_COOKIE + 35) = 54 ∧
    dhcpRequestPacket packetOut packet (DHCP_MAGIC_COOKIE + 36) = 4 ∧
    (∀ i, i < 4 → dhcpRequestPacket packetOut packet (DHCP_MAGIC_COOKIE + 37 + i) =
      packet (DHCP_SERVER_IP + i)) ∧
    dhcpRequestPacket packetOut packet (DHCP_MAGIC_COOKIE + 41) = 255 := by
  refine ⟨?_, ?_, ?_, ?_, ?_, ?_, ?_, ?_, ?_, ?_⟩
  · simp [dhcpRequestPacket, memcpy, memset, upd, DHCP_MAGIC_COOKIE, sizeof_dhcpOptions,
      sizeof_dhcpDiscover, DHCP_CLIENT_ETHERNET, ETHERNET_SOURCE, dhcpOptions, listBytes]
  · simp [dhcpRequestPacket, memcpy, memset, upd, DHCP_MAGIC_COOKIE, sizeof_dhcpOptions,
      sizeof_dhcpDiscover, DHCP_CLIENT_ETHERNET, ETHERNET_SOURCE, dhcpOptions, listBytes]
  · simp [dhcpRequestPacket, memcpy, memset, upd, DHCP_MAGIC_COOKIE, sizeof_dhcpOptions,
      sizeof_dhcpDiscover, DHCP_CLIENT_ETHERNET, ETHERNET_SOURCE, dhcpOptions, listBytes]
  · simp [dhcpRequestPacket, memcpy, memset, upd, DHCP_MAGIC_COOKIE, sizeof_dhcpOptions,
      sizeof_dhcpDiscover, DHCP_CLIENT_ETHERNET, ETHERNET_SOURCE, dhcpOptions, listBytes,
      DHCP_REQUEST_IP]
  · simp [dhcpRequestPacket, memcpy, memset, upd, DHCP_MAGIC_COOKIE, sizeof_dhcpOptions,
      sizeof_dhcpDiscover, DHCP_CLIENT_ETHERNET, ETHERNET_SOURCE, dhcpOptions, listBytes]
  · intro i hi
    interval_cases i <;>
    simp [dhcpRequestPacket, memcpy, memset, upd, DHCP_MAGIC_COOKIE, sizeof_dhcpOptions,
      sizeof_dhcpDiscover, DHCP_CLIENT_ETHERNET, ETHERNET_SOURCE, dhcpOptions, listBytes,
      DHCP_YOUR_IP]
  · simp [dhcpRequestPacket, memcpy, memset, upd, DHCP_MAGIC_COOKIE, sizeof_dhcpOptions,
      sizeof_dhcpDiscover, DHCP_CLIENT_ETHERNET, ETHERNET_SOURCE, dhcpOptions, listBytes,
      DHCP_REQUEST_SERV_IP]
  · simp [dhcpRequestPacket, memcpy, memset, upd, DHCP_MAGIC_COOKIE, sizeof_dhcpOptions,
      sizeof_dhcpDiscover, DHCP_CLIENT_ETHERNET, ETHERNET_SOURCE, dhcpOptions, listBytes]
  · intro i hi
    interval_cases i <;>
    simp [dhcpRequestPacket, memcpy, memset, upd, DHCP_MAGIC_COOKIE, sizeof_dhcpOptions,
      sizeof_dhcpDiscover, DHCP_CLIENT_ETHERNET, ETHERNET_SOURCE, dhcpOptions, listBytes,
      DHCP_SERVER_IP]
  · simp [dhcpRequestPacket, memcpy, memset, upd, DHCP_MAGIC_COOKIE, sizeof_dhcpOptions,
      sizeof_dhcpDiscover, DHCP_CLIENT_ETHERNET, ETHERNET_SOURCE, dhcpOptions, listBytes,
      DHCP_END_OPTION]

/-- C30 (amended): when a frame is free, an OFFER addressed to the hardware address of the
stack, received while the last request was a DISCOVER, makes `IPDhcp` send exactly one frame,
the first frame `g` of the free list, of 400 bytes; its options hold the message type
53 = REQUEST, option 50 of length 4 with the `yiaddr` of the offer, option 54 of length 4 with
the server address of the offer, and the end option 255; `request` becomes `DHCP_REQUEST`. -/
theorem C30_request_mirrors_offer (cfg : IPConfig) (s : IPStack) (packet : Nat → Nat)
    (length : Int) (g : Nat)
    (hmac : ∀ i, i < 6 → packet (DHCP_CLIENT_ETHERNET + i) = ethernetAddressPlasma i)
    (htype : packet (DHCP_MAGIC_COOKIE + 6) = DHCP_OFFER)
    (hreq : s.request = DHCP_DISCOVER)
    (hcount : s.FrameFreeCount > 0) (hhead : s.FrameFreeHead = some g) :
    Emits s (IPDhcp cfg s packet length 2) g 400 ∧
    (IPDhcp cfg s packet length 2).request = DHCP_REQUEST ∧
    (IPDhcp cfg s packet length 2).frame.packet g (DHCP_MAGIC_COOKIE + 4) = 53 ∧
    (IPDhcp cfg s packet length 2).frame.packet g (DHCP_MAGIC_COOKIE + 5) = 1 ∧
    (IPDhcp cfg s packet length 2).frame.packet g (DHCP_MAGIC_COOKIE + 6) = DHCP_REQUEST ∧
    (IPDhcp cfg s packet length 2).frame.packet g (DHCP_MAGIC_COOKIE + 29) = 50 ∧
    (IPDhcp cfg s packet length 2).frame.packet g (DHCP_MAGIC_COOKIE + 30) = 4 ∧
    (∀ i, i < 4 → (IPDhcp cfg s packet length 2).frame.packet g (DHCP_MAGIC_COOKIE + 31 + i) =
      packet (DHCP_YOUR_IP + i)) ∧
    (IPDhcp cfg s packet length 2).frame.packet g (DHCP_MAGIC_COOKIE + 35) = 54 ∧
    (IPDhcp cfg s packet length 2).frame.packet g (DHCP_MAGIC_COOKIE + 36) = 4 ∧
    (∀ i, i < 4 → (IPDhcp cfg s packet length 2).frame.packet g (DHCP_MAGIC_COOKIE + 37 + i) =
      packet (DHCP_SERVER_IP + i)) ∧
    (IPDhcp cfg s packet length 2).frame.packet g (DHCP_MAGIC_COOKIE + 41) = 255 := by
  rw [IPDhcp_offer cfg s packet length g hmac htype hreq hcount hhead]
  have hp : ∀ i, 52 ≤ i →
      (IPSendPacket cfg
        { s with
          FrameFreeCount := s.FrameFreeCount - 1
          FrameFreeHead := s.frame.next g
          frame := { s.frame with
            state := upd s.frame.state g 1
            packet := upd s.frame.packet g (dhcpRequestPacket (s.frame.packet g) packet) }
          request := DHCP_REQUEST } none g 400).frame.packet g i =
      dhcpRequestPacket (s.frame.packet g) packet i := by
    intro i hi
    rw [IPSendPacket_frame_packet]
    simp only [upd_same]
    apply IPSendPacket_packet_apply
    simp only [List.mem_cons, List.mem_singleton, List.not_mem_nil, or_false, not_or]
    omega
  obtain ⟨o1, o2, o3, o4, o5, o6, o7, o8, o9, o10⟩ :=
    dhcpRequestPacket_options (s.frame.packet g) packet
  refine ⟨?_, by simp, ?_, ?_, ?_, ?_, ?_, ?_, ?_, ?_, ?_, ?_⟩
  · exact Emits_congr (IPSendPacket_emits cfg _ none g 400) rfl rfl rfl rfl
  · rw [hp _ (by decide)]; exact o1
  · rw [hp _ (by decide)]; exact o2
  · rw [hp _ (by decide)]; exact o3
  · rw [hp _ (by decide)]; exact o4
  · rw [hp _ (by decide)]; exact o5
  · intro i hi
    rw [hp _ (by simp only [DHCP_MAGIC_COOKIE]; omega)]
    exact o6 i hi
  · rw [hp _ (by decide)]; exact o7
  · rw [hp _ (by decide)]; exact o8
  · intro i hi
    rw [hp _ (by simp only [DHCP_MAGIC_COOKIE]; omega)]
    exact o9 i hi
  · rw [hp _ (by decide)]; exact o10

/-- C30, instance: the offer of `192.168.1.42` by the server `192.168.1.1` to the stack that has
sent its DISCOVER. -/
theorem C30_request_mirrors_offer_witness :
    (IPDhcp smallConfig smallStack offerPacket 400 2).frame.packet 107 (DHCP_MAGIC_COOKIE + 6) =
      DHCP_REQUEST ∧
    (∀ i, i < 4 → (IPDhcp smallConfig smallStack offerPacket 400 2).frame.packet 107
      (DHCP_MAGIC_COOKIE + 31 + i) = listBytes [192, 168, 1, 42] i) ∧
    (∀ i, i < 4 → (IPDhcp smallConfig smallStack offerPacket 400 2).frame.packet 107
      (DHCP_MAGIC_COOKIE + 37 + i) = listBytes [192, 168, 1, 1] i) :=
  have h := C30_request_mirrors_offer smallConfig smallStack offerPacket 400 107
    (by decide) (by decide) (by decide) (by decide) (by decide)
  ⟨h.2.2.2.2.1,
    fun i hi => (h.2.2.2.2.2.2.2.1 i hi).trans (by revert i; decide),
    fun i hi => (h.2.2.2.2.2.2.2.2.2.2.1 i hi).trans (by revert i; decide)⟩

/-! ## Queues as lists -/

theorem IsChain_nil {nx : Nat → Option Nat} {h : Option Nat} (hc : IsChain nx h []) : h = none :=
  hc

theorem IsChain_head {nx : Nat → Option Nat} {h : Option Nat} {a : Nat} {l : List Nat}
    (hc : IsChain nx h (a :: l)) : h = some a :=
  hc.1

theorem lastOr_reverse_cons (a : Nat) (l : List Nat) : lastOr none (a :: l).reverse = some a := by
  rw [List.reverse_cons]
  exact lastOr_append_singleton none _ a

/-- The link of a node of a list in memory is the node after it. -/
theorem IsChain_link {nx : Nat → Option Nat} {l1 l2 : List Nat} {h : Option Nat} {t : Nat}
    (hc : IsChain nx h (l1 ++ t :: l2)) : nx t = lastOr none l2.reverse := by
  obtain ⟨m, _, hm2⟩ := IsSeg_split hc
  cases l2 with
  | nil => exact hm2.2
  | cons b l =>
    rw [lastOr_reverse_cons]
    exact hm2.2.1

theorem lastOr_reverse_reverse (l : List Nat) : lastOr none l = lastOr none l.reverse.reverse := by
  rw [List.reverse_reverse]

/-- Appending a new node to a list in memory. -/
theorem IsChain_snoc {nx nx' : Nat → Option Nat} {l : List Nat} {h : Option Nat} {t : Nat}
    (hc : IsChain nx h l) (ht : t ∉ l) (h1 : nx' t = none)
    (h2 : ∀ a ∈ l, some a ≠ lastOr none l → nx' a = nx a)
    (h3 : ∀ a, lastOr none l = some a → nx' a = some t) :
    IsChain nx' (match lastOr none l with | none => some t | some _ => h) (l ++ [t]) := by
  rcases lastOr_cases l with ⟨rfl, hlast⟩ | ⟨l0, p, rfl, hlast⟩
  · rw [hlast]
    exact ⟨rfl, h1⟩
  · rw [hlast]
    rw [hlast] at h2 h3
    have hnd := IsChain_nodup hc
    obtain ⟨m, hm1, hm2⟩ := IsSeg_split hc
    have hp0 : p ∉ l0 := by
      intro hp
      exact (List.nodup_append.mp hnd).2.2 hp (List.mem_singleton_self p)
    rw [List.append_assoc]
    refine IsSeg_append (IsSeg_congr hm1 ?_) ⟨hm2.1, ?_⟩
    · intro a ha
      refine h2 a (List.mem_append_left _ ha) ?_
      intro e
      have : a = p := Option.some.inj e
      exact hp0 (this ▸ ha)
    · rw [h3 p rfl]
      exact ⟨rfl, h1⟩

theorem FrameList_nodup {s : IPStack} {q : FrameQueue} {L : List Nat} (h : FrameList s q L) :
    L.Nodup :=
  IsChain_nodup h.1

theorem FrameList_congr {s s' : IPStack} {q q' : FrameQueue} {L : List Nat}
    (h : FrameList s q L) (hn : ∀ a ∈ L, s'.frame.next a = s.frame.next a)
    (hp : ∀ a ∈ L, s'.frame.prev a = s.frame.prev a) (hh : s'.getHead q' = s.getHead q)
    (ht : s'.getTail q' = s.getTail q) : FrameList s' q' L := by
  unfold FrameList
  rw [hh, ht]
  exact ⟨IsSeg_congr h.1 hn, IsSeg_congr h.2 (fun a ha => hp a (List.mem_reverse.mp ha))⟩

theorem FrameList_head {s : IPStack} {q : FrameQueue} {L : List Nat} (h : FrameList s q L) :
    s.getHead q = lastOr none L.reverse := by
  cases L with
  | nil => exact h.1
  | cons a l =>
    rw [lastOr_reverse_cons]
    exact h.1.1

theorem FrameList_tail {s : IPStack} {q : FrameQueue} {L : List Nat} (h : FrameList s q L) :
    s.getTail q = lastOr none L := by
  rcases lastOr_cases L with ⟨rfl, hlast⟩ | ⟨l0, p, rfl, hlast⟩
  · rw [hlast]
    exact h.2
  · rw [hlast]
    have := h.2
    rw [List.reverse_append] at this
    exact this.1

/-- The links of a frame of a queue. -/
theorem FrameList_links {s : IPStack} {q : FrameQueue} {L1 L2 : List Nat} {f : Nat}
    (h : FrameList s q (L1 ++ f :: L2)) :
    s.frame.next f = lastOr none L2.reverse ∧ s.frame.prev f = lastOr none L1 := by
  refine ⟨IsChain_link h.1, ?_⟩
  have h2 := h.2
  rw [List.reverse_append, List.reverse_cons, List.append_assoc, List.singleton_append] at h2
  have := IsChain_link h2
  rw [List.reverse_reverse] at this
  exact this

/-- The queue after `FrameInsert` of a frame that is not in it. -/
theorem FrameList_insert {s : IPStack} {q : FrameQueue} {L : List Nat} (f : Nat)
    (h : FrameList s q L) (hf : f ∉ L) : FrameList (FrameInsert s q f) q (f :: L) := by
  have hhead := FrameList_head h
  have htail := FrameList_tail h
  constructor
  · rw [FrameInsert_getHead, if_pos rfl, FrameInsert_frame]
    exact IsChain_cons_new h.1 hf (upd_same _ _ _) (fun a ha => upd_ne _ _ ha)
  · rw [FrameInsert_getTail, if_pos rfl, FrameInsert_frame, List.reverse_cons]
    have hl : lastOr none L.reverse = s.getHead q := hhead.symm
    have key := @IsChain_snoc _ (match s.getHead q with
        | some h => upd (upd s.frame.prev f none) h (some f)
        | none => upd s.frame.prev f none) _ _ _ h.2 (fun hm => hf (List.mem_reverse.mp hm))
        ?_ ?_ ?_
    · rw [hl] at key
      rcases lastOr_cases L with ⟨rfl, hlast⟩ | ⟨l0, p, rfl, hlast⟩
      · have e1 : s.getHead q = none := h.1
        have e2 : s.getTail q = none := h.2
        rw [e1] at key
        rw [e1, e2]
        exact key
      · have e2 : s.getTail q = some p := by rw [htail, hlast]
        cases hq : s.getHead q with
        | none =>
          rw [List.reverse_append] at hhead
          rw [hq] at hhead
          cases l0 with
          | nil => simp [lastOr] at hhead
          | cons b l =>
            rw [← List.reverse_append, List.cons_append, lastOr_reverse_cons] at hhead
            exact absurd hhead (by simp)
        | some a =>
          rw [hq, e2] at key
          rw [e2]
          exact key
    · cases hq : s.getHead q with
      | none => simp
      | some a =>
        have ha : a ∈ L := by
          cases L with
          | nil =>
            have : s.getHead q = none := h.1
            rw [this] at hq
            exact absurd hq (by simp)
          | cons b l =>
            have : s.getHead q = some b := h.1.1
            rw [this] at hq
            have : b = a := Option.some.inj hq
            subst this
            exact List.mem_cons_self _ _
        have : f ≠ a := fun e => hf (e ▸ ha)
        simp [upd_ne _ _ this]
    · intro a ha hne
      rw [hl] at hne
      have haf : a ≠ f := fun e => hf (List.mem_reverse.mp (e ▸ ha))
      cases hq : s.getHead q with
      | none => simp [upd_ne _ _ haf]
      | some b =>
        rw [hq] at hne
        have hab : a ≠ b := fun e => hne (by rw [e])
        simp [upd_ne _ _ haf, upd_ne _ _ hab]
    · intro a ha
      rw [hl] at ha
      rw [ha]
      simp

/-- The queue after `FrameRemove` of one of its frames. -/
theorem FrameList_remove {s : IPStack} {q : FrameQueue} {L1 L2 : List Nat} {f : Nat}
    (h : FrameList s q (L1 ++ f :: L2)) : FrameList (FrameRemove s q f) q (L1 ++ L2) := by
  obtain ⟨hn, hp⟩ := FrameList_links h
  constructor
  · rw [FrameRemove_getHead, if_pos rfl, FrameRemove_frame]
    have key := IsChain_remove h.1
    rw [← hp] at key
    cases hq : s.frame.prev f with
    | none =>
      rw [hq] at key
      exact key
    | some p =>
      rw [hq] at key
      exact key
  · rw [FrameRemove_getTail, if_pos rfl, FrameRemove_frame, List.reverse_append]
    have h2 := h.2
    rw [List.reverse_append, List.reverse_cons, List.append_assoc, List.singleton_append] at h2
    have key := IsChain_remove h2
    rw [← hn] at key
    cases hq : s.frame.next f with
    | none =>
      rw [hq] at key
      exact key
    | some p =>
      rw [hq] at key
      exact key

/-! ## The bytes of a TCP segment -/

theorem be32 (v : Nat) :
    ((((v >>> 24) % 256) <<< 24) ||| (((v >>> 16) % 256) <<< 16) ||| (((v >>> 8) % 256) <<< 8) |||
      (v % 256)) % 4294967296 = v % 4294967296 := by
  apply Nat.eq_of_testBit_eq
  intro i
  have e256 : (256 : Nat) = 2 ^ 8 := by norm_num
  have e32 : (4294967296 : Nat) = 2 ^ 32 := by norm_num
  rw [e256, e32]
  simp only [Nat.testBit_mod_two_pow, Nat.testBit_or, Nat.testBit_shiftLeft,
    Nat.testBit_shiftRight]
  by_cases h8 : i < 8
  · have : ¬ 24 ≤ i := by omega
    have : ¬ 16 ≤ i := by omega
    have : ¬ 8 ≤ i := by omega
    have : i < 32 := by omega
    simp [*]
  · by_cases h16 : i < 16
    · have : ¬ 24 ≤ i := by omega
      have : ¬ 16 ≤ i := by omega
      have h1 : 8 ≤ i := by omega
      have : i < 32 := by omega
      have : i - 8 < 8 := by omega
      have e : 8 + (i - 8) = i := by omega
      simp [*]
    · by_cases h24 : i < 24
      · have : ¬ 24 ≤ i := by omega
        have : 16 ≤ i := by omega
        have h1 : 8 ≤ i := by omega
        have : i < 32 := by omega
        have : i - 16 < 8 := by omega
        have : ¬ i - 8 < 8 := by omega
        have e : 16 + (i - 16) = i := by omega
        simp [*]
      · by_cases h32 : i < 32
        · have : 24 ≤ i := by omega
          have : 16 ≤ i := by omega
          have h1 : 8 ≤ i := by omega
          have : i - 24 < 8 := by omega
          have : ¬ i - 16 < 8 := by omega
          have : ¬ i - 8 < 8 := by omega
          have e : 24 + (i - 24) = i := by omega
          simp [*]
        · simp [h32]

theorem load32_congr {p q : Nat → Nat} {k : Nat} (h : ∀ i, i < 4 → p (k + i) = q (k + i)) :
    load32 p k = load32 q k := by
  unfold load32
  have h0 := h 0 (by decide)
  rw [Nat.add_zero] at h0
  rw [h0, h 1 (by decide), h 2 (by decide), h 3 (by decide)]

theorem store32_bytes (p : Nat → Nat) (k v : Nat) :
    store32 p k v k = (v >>> 24) % 256 ∧ store32 p k v (k + 1) = (v >>> 16) % 256 ∧
    store32 p k v (k + 2) = (v >>> 8) % 256 ∧ store32 p k v (k + 3) = v % 256 := by
  unfold store32
  refine ⟨?_, ?_, ?_, ?_⟩
  · rw [upd_ne _ _ (by omega), upd_ne _ _ (by omega), upd_ne _ _ (by omega), upd_same]
  · rw [upd_ne _ _ (by omega), upd_ne _ _ (by omega), upd_same]
  · rw [upd_ne _ _ (by omega), upd_same]
  · rw [upd_same]

theorem load32_store32 (p : Nat → Nat) (k v : Nat) :
    load32 (store32 p k v) k = v % 4294967296 := by
  obtain ⟨h0, h1, h2, h3⟩ := store32_bytes p k v
  unfold load32
  rw [h0, h1, h2, h3]
  exact be32 v

/-- The bytes that `IPSendPacket` leaves alone in a TCP segment. -/
theorem IPSendPacket_packet_tcp (packet : Nat → Nat) (length : Int)
    (h : packet IP_PROTOCOL = 0x06) :
    ∀ i, i ∉ [16, 17, 24, 25, 50, 51] → IPSendPacket_packet packet length i = packet i := by
  unfold IPSendPacket_packet
  split
  · dsimp only
    split
    · rename_i h1
      exfalso
      rw [store16_of_ne _ _ _ (by decide) (by decide),
        store16_of_ne _ _ _ (by decide) (by decide),
        store16_of_ne _ _ _ (by decide) (by decide)] at h1
      omega
    · split
      · rename_i h1
        exfalso
        rw [store16_of_ne _ _ _ (by decide) (by decide),
          store16_of_ne _ _ _ (by decide) (by decide),
          store16_of_ne _ _ _ (by decide) (by decide)] at h1
        omega
      · split
        · repeat' (first | exact fun _ _ => rfl | refine store16_agree _ _ (by decide) (by decide) ?_)
        · repeat' (first | exact fun _ _ => rfl | refine store16_agree _ _ (by decide) (by decide) ?_)
  · exact fun _ _ => rfl

theorem TCPSendPacket_packet_header (cfg : IPConfig) (s : IPStack) (socket : Nat)
    (packet : Nat → Nat) (i : Nat) (hi : i < 38) :
    TCPSendPacket_packet cfg s socket packet i = s.socket.headerSend socket i := by
  unfold TCPSendPacket_packet
  simp only [TCP_URGENT_POINTER, TCP_WINDOW_SIZE, TCP_ACK, TCP_SEQ, TCP_HEADER_LENGTH, TCP_FLAGS]
  rw [upd_ne _ _ (by omega), upd_ne _ _ (by omega),
    store16_of_ne _ _ _ (by omega) (by omega), store32_of_ne _ _ _ (by omega),
    store32_of_ne _ _ _ (by omega)]
  split <;> rw [upd_ne _ _ (by omega), upd_ne _ _ (by omega)] <;>
    simp [memcpy, hi]

theorem TCPSendPacket_packet_data (cfg : IPConfig) (s : IPStack) (socket : Nat)
    (packet : Nat → Nat) (i : Nat) (hi : 54 ≤ i) :
    TCPSendPacket_packet cfg s socket packet i = packet i := by
  unfold TCPSendPacket_packet
  simp only [TCP_URGENT_POINTER, TCP_WINDOW_SIZE, TCP_ACK, TCP_SEQ, TCP_HEADER_LENGTH, TCP_FLAGS]
  rw [upd_ne _ _ (by omega), upd_ne _ _ (by omega),
    store16_of_ne _ _ _ (by omega) (by omega), store32_of_ne _ _ _ (by omega),
    store32_of_ne _ _ _ (by omega)]
  have : ¬ i < 38 := by omega
  split <;> rw [upd_ne _ _ (by omega), upd_ne _ _ (by omega)] <;>
    simp [memcpy, this]

theorem TCPSendPacket_packet_headerLength (cfg : IPConfig) (s : IPStack) (socket : Nat)
    (packet : Nat → Nat) :
    TCPSendPacket_packet cfg s socket packet TCP_HEADER_LENGTH =
      if packet TCP_FLAGS &&& TCP_FLAGS_SYN ≠ 0 then 0x60 else 0x50 := by
  unfold TCPSendPacket_packet
  rw [upd_ne _ _ (by decide), upd_ne _ _ (by decide),
    store16_of_ne _ _ _ (by decide) (by decide), store32_of_ne _ _ _ (by decide),
    store32_of_ne _ _ _ (by decide)]
  split <;> rw [upd_same]

theorem TCPSendPacket_packet_ack (cfg : IPConfig) (s : IPStack) (socket : Nat)
    (packet : Nat → Nat) :
    load32 (TCPSendPacket_packet cfg s socket packet) TCP_ACK =
      s.socket.ack socket % 4294967296 := by
  rw [← load32_store32 (store32
    (if packet TCP_FLAGS &&& TCP_FLAGS_SYN ≠ 0 then
      upd (upd (memcpy packet 0 (s.socket.headerSend socket) 0 TCP_SEQ) TCP_FLAGS
        (packet TCP_FLAGS % 256)) TCP_HEADER_LENGTH 0x60
     else upd (upd (memcpy packet 0 (s.socket.headerSend socket) 0 TCP_SEQ) TCP_FLAGS
        (packet TCP_FLAGS % 256)) TCP_HEADER_LENGTH 0x50) TCP_SEQ (s.socket.seq socket))
    TCP_ACK (s.socket.ack socket)]
  apply load32_congr
  intro i hi
  unfold TCPSendPacket_packet
  simp only [TCP_URGENT_POINTER, TCP_WINDOW_SIZE, TCP_ACK]
  rw [upd_ne _ _ (by omega), upd_ne _ _ (by omega),
    store16_of_ne _ _ _ (by omega) (by omega)]

theorem TCPSendPacket_packet_seq (cfg : IPConfig) (s : IPStack) (socket : Nat)
    (packet : Nat → Nat) :
    load32 (TCPSendPacket_packet cfg s socket packet) TCP_SEQ =
      s.socket.seq socket % 4294967296 := by
  rw [← load32_store32
    (if packet TCP_FLAGS &&& TCP_FLAGS_SYN ≠ 0 then
      upd (upd (memcpy packet 0 (s.socket.headerSend socket) 0 TCP_SEQ) TCP_FLAGS
        (packet TCP_FLAGS % 256)) TCP_HEADER_LENGTH 0x60
     else upd (upd (memcpy packet 0 (s.socket.headerSend socket) 0 TCP_SEQ) TCP_FLAGS
        (packet TCP_FLAGS % 256)) TCP_HEADER_LENGTH 0x50) TCP_SEQ (s.socket.seq socket)]
  apply load32_congr
  intro i hi
  unfold TCPSendPacket_packet
  simp only [TCP_URGENT_POINTER, TCP_WINDOW_SIZE, TCP_ACK, TCP_SEQ]
  rw [upd_ne _ _ (by omega), upd_ne _ _ (by omega),
    store16_of_ne _ _ _ (by omega) (by omega), store32_of_ne _ _ _ (by omega)]

/-! ## The socket list -/

theorem socketFind_none (s : IPStack) (test : Nat → Bool) :
    ∀ (L : List Nat) (fuel : Nat) (p : Option Nat), IsChain s.socket.next p L →
      L.length ≤ fuel → (∀ k ∈ L, test k = false) → socketFind s test fuel p = some none := by
  intro L
  induction L with
  | nil =>
    intro fuel p hc _ _
    have : p = none := hc
    subst this
    cases fuel <;> rfl
  | cons a l ih =>
    intro fuel p hc hf ht
    have hp : p = some a := hc.1
    subst hp
    cases fuel with
    | zero => simp at hf
    | succ n =>
      rw [socketFind, if_neg (by simp [ht a (List.mem_cons_self a l)])]
      exact ih n _ hc.2 (by simpa using hf) (fun k hk => ht k (List.mem_cons_of_mem a hk))

theorem socketFind_some (s : IPStack) (test : Nat → Bool) (k : Nat) (L2 : List Nat) :
    ∀ (L1 : List Nat) (fuel : Nat) (p : Option Nat), IsChain s.socket.next p (L1 ++ k :: L2) →
      L1.length < fuel → (∀ j ∈ L1, test j = false) → test k = true →
      socketFind s test fuel p = some (some k) := by
  intro L1
  induction L1 with
  | nil =>
    intro fuel p hc hf _ hk
    have hp : p = some k := hc.1
    subst hp
    cases fuel with
    | zero => simp at hf
    | succ n => rw [socketFind, if_pos hk]
  | cons a l ih =>
    intro fuel p hc hf ht hk
    have hp : p = some a := hc.1
    subst hp
    cases fuel with
    | zero => simp at hf
    | succ n =>
      rw [socketFind, if_neg (by simp [ht a (List.mem_cons_self a l)])]
      exact ih n _ hc.2 (by simpa using hf) (fun j hj => ht j (List.mem_cons_of_mem a hj)) hk

/-! ## C22: accepting a connection -/

/-- C22 (as stated, refuted): for the SYN with sequence number 1000 the stack sends the frame
106 with the acknowledgement number 1001 and the sequence number `0x12345678 + 1000`, which is
not `(1000 + 1) + 0x12345678`; the new socket has `seq = 0x12345678 + 1001` after the call. -/
theorem C22_syn_ack_sequence_number :
    load32 synPacket TCP_SEQ = 1000 ∧
    (IPProcessTCPPacket smallConfig 8 synScenario (some 11) 107).map
      (fun r => (r.1.sent.map (fun e => (e.1, e.2.2)),
        load32 (r.1.frame.packet 106) TCP_ACK, load32 (r.1.frame.packet 106) TCP_SEQ,
        r.1.socket.seq 11)) =
      some ([(107, 400), (106, 58)], 1001, 0x12345678 + 1000, 0x12345678 + 1001) ∧
    (0x12345678 + 1000 : Nat) ≠ ((1000 + 1) + 0x12345678) % 4294967296 := by
  decide

theorem Emits_after {s s' s'' : IPStack} {g n : Nat} (h : Emits s s' g n)
    (h1 : s''.frame.length g = s'.frame.length g) (h2 : s''.frame.packet g = s'.frame.packet g)
    (h3 : s''.frame.next g = s'.frame.next g) (h4 : s''.sent = s'.sent)
    (h5 : s''.FrameSendHead = s'.FrameSendHead) (h6 : s''.posted = s'.posted) :
    Emits s s'' g n := by
  unfold Emits at h ⊢
  rw [h1, h2, h3, h4, h5, h6]
  exact h

theorem TCPSendPacket_emits (cfg : IPConfig) (s : IPStack) (socket g : Nat) (length : Int) :
    Emits s (TCPSendPacket cfg s socket g length) g (toUInt16 length) := by
  unfold TCPSendPacket
  exact Emits_congr (IPSendPacket_emits cfg _ (some socket) g length) rfl rfl rfl rfl

/-- A SYN without ACK that matches no socket but a listening one takes the accept branch. -/
theorem IPProcessTCPPacket_accept (cfg : IPConfig) (fuel : Nat) (s : IPStack)
    (malloc : Option Nat) (frameIn listener : Nat) (L1 L2 : List Nat)
    (hsocks : IsChain s.socket.next s.SocketHead (L1 ++ listener :: L2))
    (hfuel : (L1 ++ listener :: L2).length ≤ fuel)
    (hflags : s.frame.packet frameIn TCP_FLAGS &&& (TCP_FLAGS_SYN ||| TCP_FLAGS_ACK) =
      TCP_FLAGS_SYN)
    (hdup : ∀ k ∈ L1 ++ listener :: L2, duplicateMatch s (s.frame.packet frameIn) k = false)
    (hfirst : ∀ k ∈ L1, listenMatch s (s.frame.packet frameIn) k = false)
    (hlisten : listenMatch s (s.frame.packet frameIn) listener = true) :
    IPProcessTCPPacket cfg fuel s malloc frameIn =
      some (tcpAccept cfg s malloc (s.frame.packet frameIn) (s.frame.length frameIn)
        (load32 (s.frame.packet frameIn) TCP_SEQ) listener, 0) := by
  have h1 := socketFind_none s (duplicateMatch s (s.frame.packet frameIn)) _ fuel _ hsocks hfuel
    hdup
  have h2 := socketFind_some s (listenMatch s (s.frame.packet frameIn)) listener L2 L1 fuel _
    hsocks (by simp at hfuel; omega) hfirst hlisten
  unfold IPProcessTCPPacket
  simp only [hflags, if_true, h1, h2]

theorem tcpAccept_eq (cfg : IPConfig) (s : IPStack) (socketNew g listener : Nat)
    (packet : Nat → Nat) (length seq : Nat)
    (hcount : s.FrameFreeCount > cfg.FRAME_COUNT_SEND) (hhead : s.FrameFreeHead = some g) :
    ∃ s11 s12,
      s11 = acceptPacket
          (acceptSocket cfg
            { s with FrameFreeCount := s.FrameFreeCount - 1, FrameFreeHead := s.frame.next g,
                     frame.state := upd s.frame.state g 1 }
            socketNew listener seq)
          socketNew g packet length ∧
      s12 = TCPSendPacket cfg s11 socketNew g (TCP_DATA + 4) ∧
      tcpAccept cfg s (some socketNew) packet length seq listener =
        socketLink
          { s12 with
            socket.seq := upd s12.socket.seq socketNew ((s12.socket.seq socketNew + 1) % 4294967296) }
          socketNew := by
  refine ⟨_, _, rfl, rfl, ?_⟩
  unfold tcpAccept
  rw [IPFrameGet_eq hcount hhead]

theorem EthernetCreateResponse_protocol (packetOut packet : Nat → Nat) (length : Nat)
    (hl : 24 ≤ length) :
    EthernetCreateResponse packetOut packet length IP_PROTOCOL = packet IP_PROTOCOL := by
  unfold EthernetCreateResponse
  have hlt : IP_PROTOCOL < 0 + length := by simp only [IP_PROTOCOL]; omega
  split
  · split <;> simp [memcpy, IP_PROTOCOL, IP_SOURCE, IP_DEST, TCP_SOURCE_PORT, TCP_DEST_PORT,
      ETHERNET_SOURCE, ETHERNET_DEST] <;> omega
  · simp [memcpy, IP_PROTOCOL, ETHERNET_SOURCE, ETHERNET_DEST]
    omega

/-- C22 (amended): a SYN without ACK, of a TCP packet of at least 24 bytes with the sequence
number `seq`, that matches no socket other than a listening one and whose destination port
matches the listening socket `listener` (the first such socket of the list), when more than
`FRAME_COUNT_SEND` frames are free and `malloc` returns the fresh address `socketNew`: the
function returns 0, the socket list gets the one new socket `socketNew` at its head, in state
TCP with `ack = seq + 1` and, after the call, `seq = seq + 0x12345678 + 1`; the first free
frame `g` is sent with a length of 58 bytes, acknowledgement number `seq + 1`, sequence number
`seq + 0x12345678` (all modulo `2^32`), header length byte `0x60`, flags SYN and ACK, and the
option bytes 2, 4, 2, 24. -/
theorem C22_accept_syn (cfg : IPConfig) (fuel : Nat) (s : IPStack)
    (socketNew frameIn g listener : Nat) (L1 L2 : List Nat)
    (hsocks : IsChain s.socket.next s.SocketHead (L1 ++ listener :: L2))
    (hfuel : (L1 ++ listener :: L2).length ≤ fuel)
    (hflags : s.frame.packet frameIn TCP_FLAGS &&& (TCP_FLAGS_SYN ||| TCP_FLAGS_ACK) =
      TCP_FLAGS_SYN)
    (htcp : s.frame.packet frameIn IP_PROTOCOL = 0x06) (hlen : 24 ≤ s.frame.length frameIn)
    (hdup : ∀ k ∈ L1 ++ listener :: L2, duplicateMatch s (s.frame.packet frameIn) k = false)
    (hfirst : ∀ k ∈ L1, listenMatch s (s.frame.packet frameIn) k = false)
    (hlisten : listenMatch s (s.frame.packet frameIn) listener = true)
    (hcount : s.FrameFreeCount > cfg.FRAME_COUNT_SEND) (hhead : s.FrameFreeHead = some g)
    (hnew : socketNew ∉ L1 ++ listener :: L2) :
    ∃ s', IPProcessTCPPacket cfg fuel s (some socketNew) frameIn = some (s', 0) ∧
      IsChain s'.socket.next s'.SocketHead (socketNew :: (L1 ++ listener :: L2)) ∧
      s'.socket.state socketNew = IP_TCP ∧
      s'.socket.ack socketNew = (load32 (s.frame.packet frameIn) TCP_SEQ + 1) % 4294967296 ∧
      s'.socket.seq socketNew =
        ((load32 (s.frame.packet frameIn) TCP_SEQ + 0x12345678) % 4294967296 + 1) %
          4294967296 ∧
      Emits s s' g 58 ∧
      load32 (s'.frame.packet g) TCP_ACK =
        (load32 (s.frame.packet frameIn) TCP_SEQ + 1) % 4294967296 ∧
      load32 (s'.frame.packet g) TCP_SEQ =
        (load32 (s.frame.packet frameIn) TCP_SEQ + 0x12345678) % 4294967296 ∧
      s'.frame.packet g TCP_HEADER_LENGTH = 0x60 ∧
      s'.frame.packet g TCP_FLAGS = TCP_FLAGS_SYN ||| TCP_FLAGS_ACK ∧
      s'.frame.packet g TCP_DATA = 2 ∧ s'.frame.packet g (TCP_DATA + 1) = 4 ∧
      s'.frame.packet g (TCP_DATA + 2) = 2 ∧ s'.frame.packet g (TCP_DATA + 3) = 24 := by
  obtain ⟨s11, s12, hs11, hs12, heq⟩ := tcpAccept_eq cfg s socketNew g listener
    (s.frame.packet frameIn) (s.frame.length frameIn) (load32 (s.frame.packet frameIn) TCP_SEQ)
    hcount hhead
  refine ⟨_, IPProcessTCPPacket_accept cfg fuel s (some socketNew) frameIn listener L1 L2 hsocks
    hfuel hflags hdup hfirst hlisten, ?_⟩
  rw [heq]
  -- the state in which the frame is sent
  have a_seq : s11.socket.seq socketNew =
      (load32 (s.frame.packet frameIn) TCP_SEQ + 0x12345678) % 4294967296 := by
    rw [hs11]; simp [acceptPacket, acceptSocket, IPSocket.copy]
  have a_ack : s11.socket.ack socketNew =
      (load32 (s.frame.packet frameIn) TCP_SEQ + 1) % 4294967296 := by
    rw [hs11]; simp [acceptPacket, acceptSocket, IPSocket.copy]
  have a_state : s11.socket.state socketNew = IP_TCP := by
    rw [hs11]; simp [acceptPacket, acceptSocket, IPSocket.copy]
  have a_next : s11.socket.next = upd s.socket.next socketNew (s.socket.next listener) := by
    rw [hs11]; simp [acceptPacket, acceptSocket, IPSocket.copy]
  have a_head : s11.SocketHead = s.SocketHead := by
    rw [hs11]; simp [acceptPacket, acceptSocket]
  have a_flags : s11.frame.packet g TCP_FLAGS = TCP_FLAGS_SYN ||| TCP_FLAGS_ACK := by
    rw [hs11]; simp [acceptPacket, acceptSocket, upd, TCP_FLAGS, TCP_DATA]
  have a_data : s11.frame.packet g TCP_DATA = 2 ∧ s11.frame.packet g (TCP_DATA + 1) = 4 ∧
      s11.frame.packet g (TCP_DATA + 2) = 2 ∧ s11.frame.packet g (TCP_DATA + 3) = 24 := by
    rw [hs11]; simp [acceptPacket, acceptSocket, upd, TCP_FLAGS, TCP_DATA]
  have a_proto : s11.socket.headerSend socketNew IP_PROTOCOL = 0x06 := by
    have h1 := EthernetCreateResponse_protocol (s.frame.packet g) (s.frame.packet frameIn) _ hlen
    simp only [IP_PROTOCOL] at h1 htcp
    rw [hs11]
    simp [acceptPacket, acceptSocket, memcpy, IP_PROTOCOL, TCP_SEQ]
    rw [h1, htcp]
  have a_out : s11.FrameSendFunc = s.FrameSendFunc ∧ s11.sent = s.sent ∧
      s11.FrameSendHead = s.FrameSendHead ∧ s11.posted = s.posted := by
    rw [hs11]; simp [acceptPacket, acceptSocket]
  have hsock : s12.socket = s11.socket := by rw [hs12, TCPSendPacket_socket]
  have hhd : s12.SocketHead = s11.SocketHead := by rw [hs12, TCPSendPacket_SocketHead]
  have hpkt : s12.frame.packet g =
      IPSendPacket_packet (TCPSendPacket_packet cfg s11 socketNew (s11.frame.packet g))
        (TCP_DATA + 4) := by
    rw [hs12, TCPSendPacket_frame_packet, upd_same]
  have hproto : TCPSendPacket_packet cfg s11 socketNew (s11.frame.packet g) IP_PROTOCOL = 0x06 := by
    rw [TCPSendPacket_packet_header _ _ _ _ _ (by decide), a_proto]
  have hkeep := IPSendPacket_packet_tcp _ ((TCP_DATA : Int) + 4) hproto
  have hemit : Emits s s12 g 58 := by
    have := TCPSendPacket_emits cfg s11 socketNew g (TCP_DATA + 4)
    rw [← hs12] at this
    exact Emits_congr this a_out.1 a_out.2.1 a_out.2.2.1 a_out.2.2.2
  have hfl : (s11.frame.packet g TCP_FLAGS) &&& TCP_FLAGS_SYN ≠ 0 := by
    rw [a_flags]; decide
  refine ⟨?_, ?_, ?_, ?_, ?_, ?_, ?_, ?_, ?_, ?_, ?_, ?_, ?_⟩
  · have e1 : (socketLink
        { s12 with
          socket.seq := upd s12.socket.seq socketNew ((s12.socket.seq socketNew + 1) % 4294967296) }
        socketNew).SocketHead = some socketNew := by
      unfold socketLink
      simp
    have e2 : (socketLink
        { s12 with
          socket.seq := upd s12.socket.seq socketNew ((s12.socket.seq socketNew + 1) % 4294967296) }
        socketNew).socket.next = upd s.socket.next socketNew s.SocketHead := by
      unfold socketLink
      simp only
      split <;> simp [hsock, a_next, hhd, a_head]
    rw [e1, e2]
    exact IsChain_cons_new hsocks hnew (upd_same _ _ _) (fun a ha => upd_ne _ _ ha)
  · unfold socketLink
    simp only
    split <;> simp [hsock, a_state]
  · unfold socketLink
    simp only
    split <;> simp [hsock, a_ack]
  · unfold socketLink
    simp only
    split <;> simp [hsock, a_seq]
  · refine Emits_after hemit ?_ ?_ ?_ ?_ ?_ ?_ <;>
      (unfold socketLink; simp only; split <;> rfl)
  all_goals
    have e : (socketLink
        { s12 with
          socket.seq := upd s12.socket.seq socketNew ((s12.socket.seq socketNew + 1) % 4294967296) }
        socketNew).frame.packet g = s12.frame.packet g := by
      unfold socketLink; simp only; split <;> rfl
    rw [e, hpkt]
  · rw [load32_congr (q := TCPSendPacket_packet cfg s11 socketNew (s11.frame.packet g))
      (fun i hi => hkeep _ (by
        simp only [TCP_ACK, List.mem_cons, List.mem_singleton, List.not_mem_nil, or_false, not_or]
        omega)),
      TCPSendPacket_packet_ack, a_ack, Nat.mod_mod]
  · rw [load32_congr (q := TCPSendPacket_packet cfg s11 socketNew (s11.frame.packet g))
      (fun i hi => hkeep _ (by
        simp only [TCP_SEQ, List.mem_cons, List.mem_singleton, List.not_mem_nil, or_false, not_or]
        omega)),
      TCPSendPacket_packet_seq, a_seq, Nat.mod_mod]
  · rw [hkeep _ (by decide), TCPSendPacket_packet_headerLength, if_pos hfl]
  · rw [hkeep _ (by decide), TCPSendPacket_packet_flags, a_flags]
    decide
  · rw [hkeep _ (by decide), TCPSendPacket_packet_data _ _ _ _ _ (by decide), a_data.1]
  · rw [hkeep _ (by decide), TCPSendPacket_packet_data _ _ _ _ _ (by decide), a_data.2.1]
  · rw [hkeep _ (by decide), TCPSendPacket_packet_data _ _ _ _ _ (by decide), a_data.2.2.1]
  · rw [hkeep _ (by decide), TCPSendPacket_packet_data _ _ _ _ _ (by decide), a_data.2.2.2]

/-- C22, instance: the SYN with the sequence number 1000 for the port 80 on which the socket
10 listens; the new socket is at the address 11 and the frame 106 is sent. -/
theorem C22_accept_syn_witness :
    ∃ s', IPProcessTCPPacket smallConfig 8 synScenario (some 11) 107 = some (s', 0) ∧
      s'.socket.state 11 = IP_TCP ∧
      s'.socket.ack 11 = (load32 (synScenario.frame.packet 107) TCP_SEQ + 1) % 4294967296 ∧
      load32 (s'.frame.packet 106) TCP_SEQ =
        (load32 (synScenario.frame.packet 107) TCP_SEQ + 0x12345678) % 4294967296 :=
  have ⟨s', h⟩ := C22_accept_syn smallConfig 8 synScenario 11 107 106 10 [] []
    (by decide) (by decide) (by decide) (by decide) (by decide) (by decide) (by decide)
    (by decide) (by decide) (by decide) (by decide)
  ⟨s', h.1, h.2.2.1, h.2.2.2.1, h.2.2.2.2.2.2.2.1⟩
/-! ## Frames outside a queue -/

theorem lastOr_reverse_eq_head (l : List Nat) : lastOr none l.reverse = l.head? := by
  cases l with
  | nil => rfl
  | cons a l => rw [lastOr_reverse_cons]; rfl

theorem lastOr_mem {l : List Nat} {a : Nat} (h : lastOr none l = some a) : a ∈ l := by
  rcases lastOr_cases l with ⟨rfl, hl⟩ | ⟨l0, p, rfl, hl⟩
  · rw [hl] at h
    cases h
  · rw [hl] at h
    cases h
    simp

theorem lastOr_reverse_mem {l : List Nat} {a : Nat} (h : lastOr none l.reverse = some a) :
    a ∈ l :=
  List.mem_reverse.mp (lastOr_mem h)

/-- The function `FrameRemove` leaves the links of the frames outside the queue alone. -/
theorem FrameRemove_other {s : IPStack} {q : FrameQueue} {L1 L2 : List Nat} {f a : Nat}
    (h : FrameList s q (L1 ++ f :: L2)) (ha : a ∉ L1 ++ f :: L2) :
    (FrameRemove s q f).frame.next a = s.frame.next a ∧
      (FrameRemove s q f).frame.prev a = s.frame.prev a := by
  obtain ⟨hn, hp⟩ := FrameList_links h
  have haf : a ≠ f := by
    intro e
    exact ha (by simp [e])
  rw [FrameRemove_frame]
  constructor
  · show upd _ f none a = _
    rw [upd_ne _ _ haf]
    cases hq : s.frame.prev f with
    | none => rfl
    | some p =>
      have hp1 : p ∈ L1 := lastOr_mem (hp.symm.trans hq)
      show upd _ p _ a = _
      rw [upd_ne]
      intro e
      exact ha (by simp [e, hp1])
  · show upd _ f none a = _
    rw [upd_ne _ _ haf]
    cases hq : s.frame.next f with
    | none => rfl
    | some n =>
      have hn1 : n ∈ L2 := lastOr_reverse_mem (hn.symm.trans hq)
      show upd _ n _ a = _
      rw [upd_ne]
      intro e
      exact ha (by simp [e, hn1])

/-- The function `FrameInsert` leaves the links of the frames outside the queue alone. -/
theorem FrameInsert_other {s : IPStack} {q : FrameQueue} {f a : Nat}
    (haf : a ≠ f) (hh : s.getHead q ≠ some a) :
    (FrameInsert s q f).frame.next a = s.frame.next a ∧
      (FrameInsert s q f).frame.prev a = s.frame.prev a := by
  rw [FrameInsert_frame]
  constructor
  · show upd _ f _ a = _
    rw [upd_ne _ _ haf]
  · cases hq : s.getHead q with
    | none =>
      show upd _ f none a = _
      rw [upd_ne _ _ haf]
    | some h =>
      show upd (upd _ f none) h _ a = _
      rw [upd_ne, upd_ne _ _ haf]
      intro e
      rw [hq, e] at hh
      exact hh rfl

/-- A queue is not touched by `FrameRemove` on another queue of other frames. -/
theorem FrameList_remove_other {s : IPStack} {q q' : FrameQueue} {L1 L2 L : List Nat} {f : Nat}
    (h : FrameList s q (L1 ++ f :: L2)) (h' : FrameList s q' L) (hq : q' ≠ q)
    (hd : ∀ a ∈ L, a ∉ L1 ++ f :: L2) : FrameList (FrameRemove s q f) q' L := by
  refine FrameList_congr h' (fun a ha => (FrameRemove_other h (hd a ha)).1)
    (fun a ha => (FrameRemove_other h (hd a ha)).2) ?_ ?_
  · rw [FrameRemove_getHead, if_neg hq]
  · rw [FrameRemove_getTail, if_neg hq]

/-- A queue is not touched by `FrameInsert` on another queue of another frame. -/
theorem FrameList_insert_other {s : IPStack} {q q' : FrameQueue} {L : List Nat} {f : Nat}
    (h' : FrameList s q' L) (hq : q' ≠ q) (hf : f ∉ L)
    (hh : ∀ a ∈ L, s.getHead q ≠ some a) : FrameList (FrameInsert s q f) q' L := by
  have e : ∀ a ∈ L, a ≠ f := fun a ha e => hf (e ▸ ha)
  refine FrameList_congr h' (fun a ha => (FrameInsert_other (e a ha) (hh a ha)).1)
    (fun a ha => (FrameInsert_other (e a ha) (hh a ha)).2) ?_ ?_
  · rw [FrameInsert_getHead, if_neg hq]
  · rw [FrameInsert_getTail, if_neg hq]

/-- A queue is not touched by `FrameFree` of a frame outside it. -/
theorem FrameList_free {s : IPStack} {q : FrameQueue} {L : List Nat} {f : Nat}
    (h : FrameList s q L) (hf : f ∉ L) : FrameList (FrameFree s f) q L := by
  refine FrameList_congr h (fun a ha => ?_) (fun a ha => ?_) (by simp) (by simp)
  · rw [FrameFree_frame]
    show upd _ f _ a = _
    rw [upd_ne]
    intro e
    exact hf (e ▸ ha)
  · rw [FrameFree_frame]

/-- The free list after `FrameRemove` and `FrameFree` of a frame of a queue. -/
theorem free_after_remove {s : IPStack} {q : FrameQueue} {L1 L2 F : List Nat} {f : Nat}
    (h : FrameList s q (L1 ++ f :: L2)) (hF : IsChain s.frame.next s.FrameFreeHead F)
    (hd : ∀ a ∈ F, a ∉ L1 ++ f :: L2) :
    IsChain (FrameFree (FrameRemove s q f) f).frame.next
      (FrameFree (FrameRemove s q f) f).FrameFreeHead (f :: F) := by
  rw [FrameFree_FrameFreeHead, FrameFree_frame]
  have hfF : f ∉ F := fun hf => hd f hf (by simp)
  refine ⟨rfl, ?_⟩
  show IsSeg _ (upd _ f _ f) F none
  rw [upd_same, FrameRemove_FrameFreeHead]
  refine IsSeg_congr hF (fun a ha => ?_)
  show upd _ f _ a = _
  have haf : a ≠ f := fun e => hfF (e ▸ ha)
  rw [upd_ne _ _ haf]
  exact (FrameRemove_other h (hd a ha)).1
/-! ## Walks that remove frames from a queue -/

theorem removeWalk_cons_true {P : Nat → Bool} {x : Nat} (h : P x = true) (q : FrameQueue)
    (l : List Nat) (s : IPStack) :
    removeWalk P q (x :: l) s = removeWalk P q l (FrameFree (FrameRemove s q x) x) := by
  rw [removeWalk, if_pos h]

theorem removeWalk_cons_false {P : Nat → Bool} {x : Nat} (h : P x = false) (q : FrameQueue)
    (l : List Nat) (s : IPStack) : removeWalk P q (x :: l) s = removeWalk P q l s := by
  rw [removeWalk, if_neg (by simp [h])]

/-- The queue, the free list and the states of the frames after a walk that removes and frees
the frames of `R2` that pass the test. -/
theorem removeWalk_spec (P : Nat → Bool) (q : FrameQueue) :
    ∀ (R2 A F : List Nat) (s : IPStack),
      FrameList s q (A ++ R2) → IsChain s.frame.next s.FrameFreeHead F →
      (∀ f ∈ F, f ∉ A ++ R2) →
      FrameList (removeWalk P q R2 s) q (A ++ R2.filter (fun f => !P f)) ∧
      IsChain (removeWalk P q R2 s).frame.next (removeWalk P q R2 s).FrameFreeHead
        ((R2.filter P).reverse ++ F) ∧
      (removeWalk P q R2 s).FrameFreeCount = s.FrameFreeCount + (R2.filter P).length ∧
      (∀ f ∈ R2.filter P, (removeWalk P q R2 s).frame.state f = 0) ∧
      (∀ f, f ∉ R2.filter P → (removeWalk P q R2 s).frame.state f = s.frame.state f) ∧
      (∀ f, f ∉ A ++ R2 → (removeWalk P q R2 s).frame.next f = s.frame.next f ∧
        (removeWalk P q R2 s).frame.prev f = s.frame.prev f) := by
  intro R2
  induction R2 with
  | nil =>
    intro A F s h hF _
    refine ⟨by simpa [removeWalk] using h, by simpa [removeWalk] using hF, ?_, ?_, ?_, ?_⟩ <;>
      simp [removeWalk]
  | cons x R ih =>
    intro A F s h hF hd
    have hnd := FrameList_nodup h
    cases hP : P x with
    | true =>
      rw [removeWalk_cons_true hP]
      have hx : x ∉ A ++ R := by
        intro hx
        rw [List.nodup_append] at hnd
        rcases List.mem_append.mp hx with h1 | h1
        · exact hnd.2.2 h1 (List.mem_cons_self _ _)
        · exact (List.nodup_cons.mp hnd.2.1).1 h1
      have h1 : FrameList (FrameFree (FrameRemove s q x) x) q (A ++ R) :=
        FrameList_free (FrameList_remove h) hx
      have h2 := free_after_remove h hF hd
      have h3 : ∀ f ∈ x :: F, f ∉ A ++ R := by
        intro f hf
        rcases List.mem_cons.mp hf with e | hf
        · rw [e]
          exact hx
        · intro hm
          refine hd f hf ?_
          rcases List.mem_append.mp hm with h1 | h1
          · exact List.mem_append_left _ h1
          · exact List.mem_append_right _ (List.mem_cons_of_mem _ h1)
      obtain ⟨a1, a2, a3, a4, a5, a6⟩ := ih A (x :: F) _ h1 h2 h3
      have hfx : List.filter P (x :: R) = x :: List.filter P R := by simp [hP]
      have hfn : List.filter (fun f => !P f) (x :: R) = List.filter (fun f => !P f) R := by
        simp [hP]
      rw [hfx, hfn]
      have hxf : x ∉ List.filter P R := fun hm => hx (List.mem_append_right _ (List.mem_filter.mp hm).1)
      refine ⟨a1, ?_, ?_, ?_, ?_, ?_⟩
      · rw [List.reverse_cons, List.append_assoc]
        exact a2
      · rw [a3, FrameFree_FrameFreeCount, FrameRemove_FrameFreeCount, List.length_cons]
        omega
      · intro f hf
        rcases List.mem_cons.mp hf with e | hf
        · rw [e, a5 x hxf, FrameFree_frame]
          exact upd_same _ _ _
        · exact a4 f hf
      · intro f hf
        have hne : f ≠ x := fun e => hf (e ▸ List.mem_cons_self _ _)
        rw [a5 f (fun hm => hf (List.mem_cons_of_mem _ hm)), FrameFree_frame]
        show upd _ x 0 f = _
        rw [upd_ne _ _ hne, FrameRemove_frame]
        exact upd_ne _ _ hne
      · intro f hf
        have hne : f ≠ x := fun e => hf (by simp [e])
        have hf2 : f ∉ A ++ R := by
          intro hm
          refine hf ?_
          rcases List.mem_append.mp hm with h1 | h1
          · exact List.mem_append_left _ h1
          · exact List.mem_append_right _ (List.mem_cons_of_mem _ h1)
        obtain ⟨b1, b2⟩ := a6 f hf2
        obtain ⟨c1, c2⟩ := FrameRemove_other h hf
        rw [b1, b2, FrameFree_frame]
        refine ⟨?_, c2⟩
        show upd _ x _ f = _
        rw [upd_ne _ _ hne]
        exact c1
    | false =>
      rw [removeWalk_cons_false hP]
      have h1 : FrameList s q ((A ++ [x]) ++ R) := by
        rw [List.append_assoc]
        exact h
      have h3 : ∀ f ∈ F, f ∉ (A ++ [x]) ++ R := by
        intro f hf
        rw [List.append_assoc]
        exact hd f hf
      obtain ⟨a1, a2, a3, a4, a5, a6⟩ := ih (A ++ [x]) F s h1 hF h3
      have hfx : List.filter P (x :: R) = List.filter P R := by simp [hP]
      have hfn : List.filter (fun f => !P f) (x :: R) = x :: List.filter (fun f => !P f) R := by
        simp [hP]
      rw [hfx, hfn]
      refine ⟨?_, a2, a3, a4, a5, ?_⟩
      · rw [List.append_assoc] at a1
        exact a1
      · intro f hf
        refine a6 f ?_
        rw [List.append_assoc]
        exact hf

/-- The queue and the links of the frames outside it after a removing walk; no assumption on
the free list. -/
theorem removeWalk_list (P : Nat → Bool) (q : FrameQueue) :
    ∀ (R2 A : List Nat) (s : IPStack), FrameList s q (A ++ R2) →
      FrameList (removeWalk P q R2 s) q (A ++ R2.filter (fun f => !P f)) ∧
      (∀ f, f ∉ A ++ R2 → (removeWalk P q R2 s).frame.next f = s.frame.next f ∧
        (removeWalk P q R2 s).frame.prev f = s.frame.prev f) := by
  intro R2
  induction R2 with
  | nil =>
    intro A s h
    exact ⟨by simpa [removeWalk] using h, fun _ _ => ⟨rfl, rfl⟩⟩
  | cons x R ih =>
    intro A s h
    have hnd := FrameList_nodup h
    cases hP : P x with
    | true =>
      rw [removeWalk_cons_true hP]
      have hx : x ∉ A ++ R := by
        intro hx
        rw [List.nodup_append] at hnd
        rcases List.mem_append.mp hx with h1 | h1
        · exact hnd.2.2 h1 (List.mem_cons_self _ _)
        · exact (List.nodup_cons.mp hnd.2.1).1 h1
      have h1 : FrameList (FrameFree (FrameRemove s q x) x) q (A ++ R) :=
        FrameList_free (FrameList_remove h) hx
      obtain ⟨a1, a6⟩ := ih A _ h1
      have hfn : List.filter (fun f => !P f) (x :: R) = List.filter (fun f => !P f) R := by
        simp [hP]
      rw [hfn]
      refine ⟨a1, ?_⟩
      intro f hf
      have hne : f ≠ x := fun e => hf (by simp [e])
      have hf2 : f ∉ A ++ R := by
        intro hm
        refine hf ?_
        rcases List.mem_append.mp hm with h1 | h1
        · exact List.mem_append_left _ h1
        · exact List.mem_append_right _ (List.mem_cons_of_mem _ h1)
      obtain ⟨b1, b2⟩ := a6 f hf2
      obtain ⟨c1, c2⟩ := FrameRemove_other h hf
      rw [b1, b2, FrameFree_frame]
      refine ⟨?_, c2⟩
      show upd _ x _ f = _
      rw [upd_ne _ _ hne]
      exact c1
    | false =>
      rw [removeWalk_cons_false hP]
      have h1 : FrameList s q ((A ++ [x]) ++ R) := by
        rw [List.append_assoc]
        exact h
      obtain ⟨a1, a6⟩ := ih (A ++ [x]) s h1
      have hfn : List.filter (fun f => !P f) (x :: R) = x :: List.filter (fun f => !P f) R := by
        simp [hP]
      rw [hfn]
      refine ⟨?_, ?_⟩
      · rw [List.append_assoc] at a1
        exact a1
      · intro f hf
        refine a6 f ?_
        rw [List.append_assoc]
        exact hf

/-! ## The removing walk, field by field -/

@[simp] theorem removeWalk_frame_packet (P : Nat → Bool) (q : FrameQueue) :
    ∀ (L : List Nat) (s : IPStack), (removeWalk P q L s).frame.packet = s.frame.packet := by
  intro L
  induction L with
  | nil => intro s; rfl
  | cons x l ih =>
    intro s
    rw [removeWalk, ih]
    split <;> simp

@[simp] theorem removeWalk_frame_socket (P : Nat → Bool) (q : FrameQueue) :
    ∀ (L : List Nat) (s : IPStack), (removeWalk P q L s).frame.socket = s.frame.socket := by
  intro L
  induction L with
  | nil => intro s; rfl
  | cons x l ih =>
    intro s
    rw [removeWalk, ih]
    split <;> simp

@[simp] theorem removeWalk_frame_timeout (P : Nat → Bool) (q : FrameQueue) :
    ∀ (L : List Nat) (s : IPStack), (removeWalk P q L s).frame.timeout = s.frame.timeout := by
  intro L
  induction L with
  | nil => intro s; rfl
  | cons x l ih =>
    intro s
    rw [removeWalk, ih]
    split <;> simp

@[simp] theorem removeWalk_frame_seqEnd (P : Nat → Bool) (q : FrameQueue) :
    ∀ (L : List Nat) (s : IPStack), (removeWalk P q L s).frame.seqEnd = s.frame.seqEnd := by
  intro L
  induction L with
  | nil => intro s; rfl
  | cons x l ih =>
    intro s
    rw [removeWalk, ih]
    split <;> simp

@[simp] theorem removeWalk_frame_length (P : Nat → Bool) (q : FrameQueue) :
    ∀ (L : List Nat) (s : IPStack), (removeWalk P q L s).frame.length = s.frame.length := by
  intro L
  induction L with
  | nil => intro s; rfl
  | cons x l ih =>
    intro s
    rw [removeWalk, ih]
    split <;> simp

@[simp] theorem removeWalk_frame_retryCnt (P : Nat → Bool) (q : FrameQueue) :
    ∀ (L : List Nat) (s : IPStack), (removeWalk P q L s).frame.retryCnt = s.frame.retryCnt := by
  intro L
  induction L with
  | nil => intro s; rfl
  | cons x l ih =>
    intro s
    rw [removeWalk, ih]
    split <;> simp

@[simp] theorem removeWalk_SocketHead (P : Nat → Bool) (q : FrameQueue) :
    ∀ (L : List Nat) (s : IPStack), (removeWalk P q L s).SocketHead = s.SocketHead := by
  intro L
  induction L with
  | nil => intro s; rfl
  | cons x l ih =>
    intro s
    rw [removeWalk, ih]
    split <;> simp

@[simp] theorem removeWalk_Seconds (P : Nat → Bool) (q : FrameQueue) :
    ∀ (L : List Nat) (s : IPStack), (removeWalk P q L s).Seconds = s.Seconds := by
  intro L
  induction L with
  | nil => intro s; rfl
  | cons x l ih =>
    intro s
    rw [removeWalk, ih]
    split <;> simp

@[simp] theorem removeWalk_DhcpRetrySeconds (P : Nat → Bool) (q : FrameQueue) :
    ∀ (L : List Nat) (s : IPStack), (removeWalk P q L s).DhcpRetrySeconds = s.DhcpRetrySeconds := by
  intro L
  induction L with
  | nil => intro s; rfl
  | cons x l ih =>
    intro s
    rw [removeWalk, ih]
    split <;> simp

@[simp] theorem removeWalk_FrameSendFunc (P : Nat → Bool) (q : FrameQueue) :
    ∀ (L : List Nat) (s : IPStack), (removeWalk P q L s).FrameSendFunc = s.FrameSendFunc := by
  intro L
  induction L with
  | nil => intro s; rfl
  | cons x l ih =>
    intro s
    rw [removeWalk, ih]
    split <;> simp

@[simp] theorem removeWalk_ethernetAddressGateway (P : Nat → Bool) (q : FrameQueue) :
    ∀ (L : List Nat) (s : IPStack), (removeWalk P q L s).ethernetAddressGateway = s.ethernetAddressGateway := by
  intro L
  induction L with
  | nil => intro s; rfl
  | cons x l ih =>
    intro s
    rw [removeWalk, ih]
    split <;> simp

@[simp] theorem removeWalk_ipAddressPlasma (P : Nat → Bool) (q : FrameQueue) :
    ∀ (L : List Nat) (s : IPStack), (removeWalk P q L s).ipAddressPlasma = s.ipAddressPlasma := by
  intro L
  induction L with
  | nil => intro s; rfl
  | cons x l ih =>
    intro s
    rw [removeWalk, ih]
    split <;> simp

@[simp] theorem removeWalk_ipAddressGateway (P : Nat → Bool) (q : FrameQueue) :
    ∀ (L : List Nat) (s : IPStack), (removeWalk P q L s).ipAddressGateway = s.ipAddressGateway := by
  intro L
  induction L with
  | nil => intro s; rfl
  | cons x l ih =>
    intro s
    rw [removeWalk, ih]
    split <;> simp

@[simp] theorem removeWalk_ipAddressDns (P : Nat → Bool) (q : FrameQueue) :
    ∀ (L : List Nat) (s : IPStack), (removeWalk P q L s).ipAddressDns = s.ipAddressDns := by
  intro L
  induction L with
  | nil => intro s; rfl
  | cons x l ih =>
    intro s
    rw [removeWalk, ih]
    split <;> simp

@[simp] theorem removeWalk_request (P : Nat → Bool) (q : FrameQueue) :
    ∀ (L : List Nat) (s : IPStack), (removeWalk P q L s).request = s.request := by
  intro L
  induction L with
  | nil => intro s; rfl
  | cons x l ih =>
    intro s
    rw [removeWalk, ih]
    split <;> simp

@[simp] theorem removeWalk_portSource (P : Nat → Bool) (q : FrameQueue) :
    ∀ (L : List Nat) (s : IPStack), (removeWalk P q L s).portSource = s.portSource := by
  intro L
  induction L with
  | nil => intro s; rfl
  | cons x l ih =>
    intro s
    rw [removeWalk, ih]
    split <;> simp

@[simp] theorem removeWalk_sent (P : Nat → Bool) (q : FrameQueue) :
    ∀ (L : List Nat) (s : IPStack), (removeWalk P q L s).sent = s.sent := by
  intro L
  induction L with
  | nil => intro s; rfl
  | cons x l ih =>
    intro s
    rw [removeWalk, ih]
    split <;> simp

@[simp] theorem removeWalk_notified (P : Nat → Bool) (q : FrameQueue) :
    ∀ (L : List Nat) (s : IPStack), (removeWalk P q L s).notified = s.notified := by
  intro L
  induction L with
  | nil => intro s; rfl
  | cons x l ih =>
    intro s
    rw [removeWalk, ih]
    split <;> simp

@[simp] theorem removeWalk_posted (P : Nat → Bool) (q : FrameQueue) :
    ∀ (L : List Nat) (s : IPStack), (removeWalk P q L s).posted = s.posted := by
  intro L
  induction L with
  | nil => intro s; rfl
  | cons x l ih =>
    intro s
    rw [removeWalk, ih]
    split <;> simp

theorem removeWalk_getHead (P : Nat → Bool) {q q' : FrameQueue} (h : q' ≠ q) :
    ∀ (L : List Nat) (s : IPStack), (removeWalk P q L s).getHead q' = s.getHead q' := by
  intro L
  induction L with
  | nil => intro s; rfl
  | cons x l ih =>
    intro s
    rw [removeWalk, ih]
    split <;> simp [h]

theorem removeWalk_getTail (P : Nat → Bool) {q q' : FrameQueue} (h : q' ≠ q) :
    ∀ (L : List Nat) (s : IPStack), (removeWalk P q L s).getTail q' = s.getTail q' := by
  intro L
  induction L with
  | nil => intro s; rfl
  | cons x l ih =>
    intro s
    rw [removeWalk, ih]
    split <;> simp [h]

@[simp] theorem removeWalk_socket_of_resend (P : Nat → Bool) :
    ∀ (L : List Nat) (s : IPStack), (removeWalk P FrameQueue.resend L s).socket = s.socket := by
  intro L
  induction L with
  | nil => intro s; rfl
  | cons x l ih =>
    intro s
    rw [removeWalk, ih]
    split <;> simp

@[simp] theorem removeWalk_socket_of_send (P : Nat → Bool) :
    ∀ (L : List Nat) (s : IPStack), (removeWalk P FrameQueue.send L s).socket = s.socket := by
  intro L
  induction L with
  | nil => intro s; rfl
  | cons x l ih =>
    intro s
    rw [removeWalk, ih]
    split <;> simp

@[simp] theorem removeWalk_FrameSendHead_of_resend (P : Nat → Bool) :
    ∀ (L : List Nat) (s : IPStack), (removeWalk P FrameQueue.resend L s).FrameSendHead = s.FrameSendHead := by
  intro L
  induction L with
  | nil => intro s; rfl
  | cons x l ih =>
    intro s
    rw [removeWalk, ih]
    split <;> simp

@[simp] theorem removeWalk_FrameSendTail_of_resend (P : Nat → Bool) :
    ∀ (L : List Nat) (s : IPStack), (removeWalk P FrameQueue.resend L s).FrameSendTail = s.FrameSendTail := by
  intro L
  induction L with
  | nil => intro s; rfl
  | cons x l ih =>
    intro s
    rw [removeWalk, ih]
    split <;> simp

@[simp] theorem removeWalk_FrameSendHead_of_read (P : Nat → Bool) (k : Nat) :
    ∀ (L : List Nat) (s : IPStack), (removeWalk P (FrameQueue.read k) L s).FrameSendHead = s.FrameSendHead := by
  intro L
  induction L with
  | nil => intro s; rfl
  | cons x l ih =>
    intro s
    rw [removeWalk, ih]
    split <;> simp

@[simp] theorem removeWalk_FrameSendTail_of_read (P : Nat → Bool) (k : Nat) :
    ∀ (L : List Nat) (s : IPStack), (removeWalk P (FrameQueue.read k) L s).FrameSendTail = s.FrameSendTail := by
  intro L
  induction L with
  | nil => intro s; rfl
  | cons x l ih =>
    intro s
    rw [removeWalk, ih]
    split <;> simp

@[simp] theorem removeWalk_FrameResendHead_of_read (P : Nat → Bool) (k : Nat) :
    ∀ (L : List Nat) (s : IPStack), (removeWalk P (FrameQueue.read k) L s).FrameResendHead = s.FrameResendHead := by
  intro L
  induction L with
  | nil => intro s; rfl
  | cons x l ih =>
    intro s
    rw [removeWalk, ih]
    split <;> simp

@[simp] theorem removeWalk_FrameResendTail_of_read (P : Nat → Bool) (k : Nat) :
    ∀ (L : List Nat) (s : IPStack), (removeWalk P (FrameQueue.read k) L s).FrameResendTail = s.FrameResendTail := by
  intro L
  induction L with
  | nil => intro s; rfl
  | cons x l ih =>
    intro s
    rw [removeWalk, ih]
    split <;> simp

@[simp] theorem removeWalk_socket_next_of_read (P : Nat → Bool) (k : Nat) :
    ∀ (L : List Nat) (s : IPStack), (removeWalk P (FrameQueue.read k) L s).socket.next = s.socket.next := by
  intro L
  induction L with
  | nil => intro s; rfl
  | cons x l ih =>
    intro s
    rw [removeWalk, ih]
    split <;> simp

@[simp] theorem removeWalk_socket_prev_of_read (P : Nat → Bool) (k : Nat) :
    ∀ (L : List Nat) (s : IPStack), (removeWalk P (FrameQueue.read k) L s).socket.prev = s.socket.prev := by
  intro L
  induction L with
  | nil => intro s; rfl
  | cons x l ih =>
    intro s
    rw [removeWalk, ih]
    split <;> simp

@[simp] theorem removeWalk_socket_state_of_read (P : Nat → Bool) (k : Nat) :
    ∀ (L : List Nat) (s : IPStack), (removeWalk P (FrameQueue.read k) L s).socket.state = s.socket.state := by
  intro L
  induction L with
  | nil => intro s; rfl
  | cons x l ih =>
    intro s
    rw [removeWalk, ih]
    split <;> simp

@[simp] theorem removeWalk_socket_timeout_of_read (P : Nat → Bool) (k : Nat) :
    ∀ (L : List Nat) (s : IPStack), (removeWalk P (FrameQueue.read k) L s).socket.timeout = s.socket.timeout := by
  intro L
  induction L with
  | nil => intro s; rfl
  | cons x l ih =>
    intro s
    rw [removeWalk, ih]
    split <;> simp

@[simp] theorem removeWalk_socket_seq_of_read (P : Nat → Bool) (k : Nat) :
    ∀ (L : List Nat) (s : IPStack), (removeWalk P (FrameQueue.read k) L s).socket.seq = s.socket.seq := by
  intro L
  induction L with
  | nil => intro s; rfl
  | cons x l ih =>
    intro s
    rw [removeWalk, ih]
    split <;> simp

@[simp] theorem removeWalk_socket_ack_of_read (P : Nat → Bool) (k : Nat) :
    ∀ (L : List Nat) (s : IPStack), (removeWalk P (FrameQueue.read k) L s).socket.ack = s.socket.ack := by
  intro L
  induction L with
  | nil => intro s; rfl
  | cons x l ih =>
    intro s
    rw [removeWalk, ih]
    split <;> simp

@[simp] theorem removeWalk_socket_seqReceived_of_read (P : Nat → Bool) (k : Nat) :
    ∀ (L : List Nat) (s : IPStack), (removeWalk P (FrameQueue.read k) L s).socket.seqReceived = s.socket.seqReceived := by
  intro L
  induction L with
  | nil => intro s; rfl
  | cons x l ih =>
    intro s
    rw [removeWalk, ih]
    split <;> simp

@[simp] theorem removeWalk_socket_headerSend_of_read (P : Nat → Bool) (k : Nat) :
    ∀ (L : List Nat) (s : IPStack), (removeWalk P (FrameQueue.read k) L s).socket.headerSend = s.socket.headerSend := by
  intro L
  induction L with
  | nil => intro s; rfl
  | cons x l ih =>
    intro s
    rw [removeWalk, ih]
    split <;> simp

@[simp] theorem removeWalk_socket_headerRcv_of_read (P : Nat → Bool) (k : Nat) :
    ∀ (L : List Nat) (s : IPStack), (removeWalk P (FrameQueue.read k) L s).socket.headerRcv = s.socket.headerRcv := by
  intro L
  induction L with
  | nil => intro s; rfl
  | cons x l ih =>
    intro s
    rw [removeWalk, ih]
    split <;> simp

@[simp] theorem removeWalk_socket_readOffset_of_read (P : Nat → Bool) (k : Nat) :
    ∀ (L : List Nat) (s : IPStack), (removeWalk P (FrameQueue.read k) L s).socket.readOffset = s.socket.readOffset := by
  intro L
  induction L with
  | nil => intro s; rfl
  | cons x l ih =>
    intro s
    rw [removeWalk, ih]
    split <;> simp

@[simp] theorem removeWalk_socket_frameSend_of_read (P : Nat → Bool) (k : Nat) :
    ∀ (L : List Nat) (s : IPStack), (removeWalk P (FrameQueue.read k) L s).socket.frameSend = s.socket.frameSend := by
  intro L
  induction L with
  | nil => intro s; rfl
  | cons x l ih =>
    intro s
    rw [removeWalk, ih]
    split <;> simp

@[simp] theorem removeWalk_socket_sendOffset_of_read (P : Nat → Bool) (k : Nat) :
    ∀ (L : List Nat) (s : IPStack), (removeWalk P (FrameQueue.read k) L s).socket.sendOffset = s.socket.sendOffset := by
  intro L
  induction L with
  | nil => intro s; rfl
  | cons x l ih =>
    intro s
    rw [removeWalk, ih]
    split <;> simp

@[simp] theorem removeWalk_socket_funcPtr_of_read (P : Nat → Bool) (k : Nat) :
    ∀ (L : List Nat) (s : IPStack), (removeWalk P (FrameQueue.read k) L s).socket.funcPtr = s.socket.funcPtr := by
  intro L
  induction L with
  | nil => intro s; rfl
  | cons x l ih =>
    intro s
    rw [removeWalk, ih]
    split <;> simp

@[simp] theorem removeWalk_socket_userData_of_read (P : Nat → Bool) (k : Nat) :
    ∀ (L : List Nat) (s : IPStack), (removeWalk P (FrameQueue.read k) L s).socket.userData = s.socket.userData := by
  intro L
  induction L with
  | nil => intro s; rfl
  | cons x l ih =>
    intro s
    rw [removeWalk, ih]
    split <;> simp

@[simp] theorem removeWalk_socket_userFunc_of_read (P : Nat → Bool) (k : Nat) :
    ∀ (L : List Nat) (s : IPStack), (removeWalk P (FrameQueue.read k) L s).socket.userFunc = s.socket.userFunc := by
  intro L
  induction L with
  | nil => intro s; rfl
  | cons x l ih =>
    intro s
    rw [removeWalk, ih]
    split <;> simp

@[simp] theorem removeWalk_socket_userPtr_of_read (P : Nat → Bool) (k : Nat) :
    ∀ (L : List Nat) (s : IPStack), (removeWalk P (FrameQueue.read k) L s).socket.userPtr = s.socket.userPtr := by
  intro L
  induction L with
  | nil => intro s; rfl
  | cons x l ih =>
    intro s
    rw [removeWalk, ih]
    split <;> simp
/-! ## The loops over a queue as removing walks -/

theorem FrameList_next_head {s : IPStack} {q : FrameQueue} {A R : List Nat} {x : Nat}
    (h : FrameList s q (A ++ x :: R)) : s.frame.next x = R.head? := by
  rw [(FrameList_links h).1, lastOr_reverse_eq_head]

theorem FrameList_prev_last {s : IPStack} {q : FrameQueue} {A R : List Nat} {x : Nat}
    (h : FrameList s q (A ++ x :: R)) : s.frame.prev x = lastOr none A :=
  (FrameList_links h).2

theorem FrameFree_FrameRemove_timeout (s : IPStack) (x : Nat) (t : Nat → Int) :
    FrameFree (FrameRemove { s with socket.timeout := t } FrameQueue.resend x) x =
      { FrameFree (FrameRemove s FrameQueue.resend x) x with socket.timeout := t } := by
  simp only [FrameFree, FrameRemove, IPStack.setHead, IPStack.setTail]
  cases hp : s.frame.prev x <;> cases hn : s.frame.next x <;> simp [hp, hn, upd_apply]

theorem removeWalk_timeout (P : Nat → Bool) (t : Nat → Int) : ∀ (L : List Nat) (s : IPStack),
    removeWalk P FrameQueue.resend L { s with socket.timeout := t } =
      { removeWalk P FrameQueue.resend L s with socket.timeout := t } := by
  intro L
  induction L with
  | nil => intro s; rfl
  | cons x l ih =>
    intro s
    rw [removeWalk, removeWalk]
    split
    · rw [FrameFree_FrameRemove_timeout, ih]
    · rw [ih]

theorem ackLoop_none (cfg : IPConfig) (S a fuel : Nat) (s : IPStack) :
    ackLoop cfg S a fuel none s = some s := by
  cases fuel <;> rfl

theorem ackLoop_succ (cfg : IPConfig) (S a fuel x : Nat) (s : IPStack) :
    ackLoop cfg S a (fuel + 1) (some x) s =
      if s.frame.socket x = some S ∧ tickDiff a (s.frame.seqEnd x) ≥ 0 then
        ackLoop cfg S a fuel (s.frame.next x)
          (FrameFree (FrameRemove { s with socket.timeout := (if s.socket.timeout S ≠ 0 then
            upd s.socket.timeout S cfg.SOCKET_TIMEOUT else s.socket.timeout) }
            FrameQueue.resend x) x)
      else ackLoop cfg S a fuel (s.frame.next x) s := by
  rw [ackLoop]
  split_ifs <;> rfl

/-- The loop of `IPProcessTCPPacket` over the resend list removes and frees the frames of the
socket that the number `a` acknowledges, and only sets the time of the socket besides. -/
theorem ackLoop_eq (cfg : IPConfig) (S a : Nat) (P : Nat → Bool) :
    ∀ (R2 A : List Nat) (fuel : Nat) (s : IPStack),
      FrameList s FrameQueue.resend (A ++ R2) → R2.length ≤ fuel →
      (∀ f, P f = decide (s.frame.socket f = some S ∧ tickDiff a (s.frame.seqEnd f) ≥ 0)) →
      ∃ t, ackLoop cfg S a fuel R2.head? s =
        some { removeWalk P FrameQueue.resend R2 s with socket.timeout := t } := by
  intro R2
  induction R2 with
  | nil =>
    intro A fuel s _ _ _
    exact ⟨s.socket.timeout, ackLoop_none cfg S a fuel s⟩
  | cons x R ih =>
    intro A fuel s h hfuel hP
    obtain ⟨n, rfl⟩ : ∃ n, fuel = n + 1 := ⟨fuel - 1, by simp at hfuel; omega⟩
    have hn : R.length ≤ n := by simp at hfuel; omega
    rw [List.head?_cons, ackLoop_succ, FrameList_next_head h]
    cases hx : P x with
    | true =>
      have hc : s.frame.socket x = some S ∧ tickDiff a (s.frame.seqEnd x) ≥ 0 := by
        have := hP x
        rw [hx] at this
        exact of_decide_eq_true this.symm
      rw [if_pos hc, removeWalk_cons_true hx, FrameFree_FrameRemove_timeout]
      have hnd := FrameList_nodup h
      have hxA : x ∉ A ++ R := by
        intro hm
        rw [List.nodup_append] at hnd
        rcases List.mem_append.mp hm with h1 | h1
        · exact hnd.2.2 h1 (List.mem_cons_self _ _)
        · exact (List.nodup_cons.mp hnd.2.1).1 h1
      have h1 : FrameList (FrameFree (FrameRemove s FrameQueue.resend x) x) FrameQueue.resend
          (A ++ R) := FrameList_free (FrameList_remove h) hxA
      have key : ∀ t : Nat → Int, ∃ t1,
          ackLoop cfg S a n R.head?
            { FrameFree (FrameRemove s FrameQueue.resend x) x with socket.timeout := t } =
          some { removeWalk P FrameQueue.resend R
            (FrameFree (FrameRemove s FrameQueue.resend x) x) with socket.timeout := t1 } := by
        intro t
        obtain ⟨t1, ht⟩ := ih A n
          { FrameFree (FrameRemove s FrameQueue.resend x) x with socket.timeout := t }
          (FrameList_congr h1 (fun _ _ => rfl) (fun _ _ => rfl) rfl rfl) hn
          (by intro f; rw [hP f]; simp)
        exact ⟨t1, by rw [ht, removeWalk_timeout]⟩
      exact key _
    | false =>
      have hc : ¬ (s.frame.socket x = some S ∧ tickDiff a (s.frame.seqEnd x) ≥ 0) := by
        have := hP x
        rw [hx] at this
        exact of_decide_eq_false this.symm
      rw [if_neg hc, removeWalk_cons_false hx]
      exact ih (A ++ [x]) n s (by rw [List.append_assoc]; exact h) hn hP

theorem closeResendLoop_none (S fuel : Nat) (s : IPStack) :
    closeResendLoop S fuel none s = some s := by
  cases fuel <;> rfl

/-- The second loop of `IPClose2` removes and frees the frames of the socket. -/
theorem closeResendLoop_eq (S : Nat) (P : Nat → Bool) :
    ∀ (R2 A : List Nat) (fuel : Nat) (s : IPStack),
      FrameList s FrameQueue.resend (A ++ R2) → R2.length ≤ fuel →
      (∀ f, P f = decide (s.frame.socket f = some S)) →
      closeResendLoop S fuel R2.head? s = some (removeWalk P FrameQueue.resend R2 s) := by
  intro R2
  induction R2 with
  | nil =>
    intro A fuel s _ _ _
    exact closeResendLoop_none S fuel s
  | cons x R ih =>
    intro A fuel s h hfuel hP
    obtain ⟨n, rfl⟩ : ∃ n, fuel = n + 1 := ⟨fuel - 1, by simp at hfuel; omega⟩
    have hn : R.length ≤ n := by simp at hfuel; omega
    rw [List.head?_cons, closeResendLoop, FrameList_next_head h]
    cases hx : P x with
    | true =>
      have hc : s.frame.socket x = some S := by
        have := hP x
        rw [hx] at this
        exact of_decide_eq_true this.symm
      rw [if_pos hc, removeWalk_cons_true hx]
      have hnd := FrameList_nodup h
      have hxA : x ∉ A ++ R := by
        intro hm
        rw [List.nodup_append] at hnd
        rcases List.mem_append.mp hm with h1 | h1
        · exact hnd.2.2 h1 (List.mem_cons_self _ _)
        · exact (List.nodup_cons.mp hnd.2.1).1 h1
      exact ih A n _ (FrameList_free (FrameList_remove h) hxA) hn
        (by intro f; rw [hP f]; simp)
    | false =>
      have hc : ¬ (s.frame.socket x = some S) := by
        have := hP x
        rw [hx] at this
        exact of_decide_eq_false this.symm
      rw [if_neg hc, removeWalk_cons_false hx]
      exact ih (A ++ [x]) n s (by rw [List.append_assoc]; exact h) hn hP

theorem closeReadLoop_none (S fuel : Nat) (s : IPStack) :
    closeReadLoop S fuel none s = some s := by
  cases fuel <;> rfl

/-- The third loop of `IPClose2` removes and frees every frame of the read queue. -/
theorem closeReadLoop_eq (S : Nat) :
    ∀ (R2 : List Nat) (fuel : Nat) (s : IPStack),
      FrameList s (FrameQueue.read S) R2 → R2.length ≤ fuel →
      closeReadLoop S fuel R2.head? s =
        some (removeWalk (fun _ => true) (FrameQueue.read S) R2 s) := by
  intro R2
  induction R2 with
  | nil =>
    intro fuel s _ _
    exact closeReadLoop_none S fuel s
  | cons x R ih =>
    intro fuel s h hfuel
    obtain ⟨n, rfl⟩ : ∃ n, fuel = n + 1 := ⟨fuel - 1, by simp at hfuel; omega⟩
    have hn : R.length ≤ n := by simp at hfuel; omega
    have h0 : FrameList s (FrameQueue.read S) ([] ++ x :: R) := h
    rw [List.head?_cons, closeReadLoop, FrameList_next_head h0, removeWalk_cons_true rfl]
    have hnd := FrameList_nodup h
    have hxA : x ∉ [] ++ R := (List.nodup_cons.mp hnd).1
    exact ih n _ (FrameList_free (FrameList_remove h0) hxA) hn

/-- Another queue, of other frames, is not touched by a removing walk. -/
theorem removeWalk_other (P : Nat → Bool) {q q' : FrameQueue} {s : IPStack} {R L : List Nat}
    (h : FrameList s q R) (h' : FrameList s q' L) (hq : q' ≠ q) (hd : ∀ f ∈ L, f ∉ R) :
    FrameList (removeWalk P q R s) q' L := by
  have h0 : FrameList s q ([] ++ R) := h
  obtain ⟨_, a6⟩ := removeWalk_list P q R [] s h0
  exact FrameList_congr h' (fun a ha => (a6 a (hd a ha)).1) (fun a ha => (a6 a (hd a ha)).2)
    (removeWalk_getHead P hq R s) (removeWalk_getTail P hq R s)
/-! ## Sending a frame -/

theorem SameButFrame_refl (s : IPStack) (g : Nat) : SameButFrame s s g :=
  ⟨rfl, rfl, rfl, fun _ _ => ⟨rfl, rfl, rfl, rfl, rfl, rfl⟩, rfl, rfl, rfl, rfl, rfl, rfl, rfl,
    rfl, rfl, rfl⟩

theorem SameButFrame_getHead {s s1 : IPStack} {g : Nat} (h : SameButFrame s s1 g)
    (q : FrameQueue) : s1.getHead q = s.getHead q := by
  obtain ⟨_, _, _, _, h5, _, _, h8, _, h10, _⟩ := h
  cases q
  · exact h8
  · exact h10
  · show s1.socket.frameReadHead _ = s.socket.frameReadHead _
    rw [h5]

theorem SameButFrame_getTail {s s1 : IPStack} {g : Nat} (h : SameButFrame s s1 g)
    (q : FrameQueue) : s1.getTail q = s.getTail q := by
  obtain ⟨_, _, _, _, h5, _, _, _, h9, _, h11, _⟩ := h
  cases q
  · exact h9
  · exact h11
  · show s1.socket.frameReadTail _ = s.socket.frameReadTail _
    rw [h5]

theorem FrameList_sameButFrame {s s1 : IPStack} {g : Nat} {q : FrameQueue} {L : List Nat}
    (h : FrameList s q L) (h1 : SameButFrame s s1 g) : FrameList s1 q L :=
  FrameList_congr h (fun _ _ => by rw [h1.1]) (fun _ _ => by rw [h1.2.1])
    (SameButFrame_getHead h1 q) (SameButFrame_getTail h1 q)

/-- The function `TCPSendPacket` fills fields of the frame and hands it to `IPSendFrame`. -/
theorem TCPSendPacket_prepare (cfg : IPConfig) (s : IPStack) (S g : Nat) (length : Int) :
    ∃ s6, TCPSendPacket cfg s S g length = IPSendFrame cfg s6 g ∧ SameButFrame s s6 g ∧
      s6.sent = s.sent ∧ s6.posted = s.posted ∧ s6.frame.length g = toUInt16 length ∧
      s6.frame.packet g =
        IPSendPacket_packet (TCPSendPacket_packet cfg s S (s.frame.packet g)) length ∧
      s6.frame.socket g = some S ∧ s6.frame.timeout g = 0 ∧ s6.frame.retryCnt g = 0 := by
  unfold TCPSendPacket IPSendPacket
  refine ⟨_, rfl, ⟨rfl, rfl, rfl, fun a ha => ?_, rfl, rfl, rfl, rfl, rfl, rfl, rfl,
    rfl, rfl, rfl⟩, rfl, rfl, ?_, ?_, ?_, ?_, ?_⟩
  · simp [upd_ne _ _ ha]
  all_goals simp

theorem FrameInsert_with_posted (X : IPStack) (q : FrameQueue) (g : Nat) (p : Nat) :
    { FrameInsert X q g with posted := p } = FrameInsert { X with posted := p } q g := by
  cases q <;> simp only [FrameInsert, IPStack.getHead, IPStack.setHead, IPStack.getTail,
    IPStack.setTail] <;> (repeat' split) <;> simp_all

/-- A frame of 54 bytes without SYN and FIN is not kept for a retransmission: with a link-layer
function it is sent and freed. -/
theorem IPSendFrame_ack_direct (cfg : IPConfig) (X : IPStack) (g F : Nat)
    (hF : X.FrameSendFunc = some F) (hlen : X.frame.length g = 54)
    (hfl : X.frame.packet g TCP_FLAGS &&& (TCP_FLAGS_FIN ||| TCP_FLAGS_SYN) = 0) :
    IPSendFrame cfg X g =
      FrameFree { X with sent := X.sent ++ [(g, X.frame.packet g, X.frame.length g)] } g := by
  have e : IPSendFrame cfg X g = IPFrameReschedule cfg
      { X with sent := X.sent ++ [(g, X.frame.packet g, X.frame.length g)] } g := by
    unfold IPSendFrame
    simp only [hF]
  rw [e]
  unfold IPFrameReschedule
  simp only [hlen, hfl]
  cases hs : X.frame.socket g with
  | none => rfl
  | some k => simp [TCP_DATA]

/-- Without a link-layer function a frame is put on the send queue. -/
theorem IPSendFrame_queued (cfg : IPConfig) (X : IPStack) (g : Nat)
    (hF : X.FrameSendFunc = none) :
    IPSendFrame cfg X g = FrameInsert { X with posted := X.posted + 1 } FrameQueue.send g := by
  have e : IPSendFrame cfg X g = { FrameInsert X FrameQueue.send g with
      posted := (FrameInsert X FrameQueue.send g).posted + 1 } := by
    unfold IPSendFrame
    simp only [hF]
  rw [e, FrameInsert_posted, FrameInsert_with_posted]

/-- The function `TCPSendPacket` for a frame of 54 bytes with the flag ACK alone. -/
theorem TCPSendPacket_ack (cfg : IPConfig) (s : IPStack) (S g : Nat)
    (hflags : s.frame.packet g TCP_FLAGS = TCP_FLAGS_ACK) :
    ∃ X, SameButFrame s X g ∧
      X.frame.packet g =
        IPSendPacket_packet (TCPSendPacket_packet cfg s S (s.frame.packet g)) TCP_DATA ∧
      ((s.FrameSendFunc ≠ none ∧ TCPSendPacket cfg s S g TCP_DATA = FrameFree X g) ∨
        (s.FrameSendFunc = none ∧
          TCPSendPacket cfg s S g TCP_DATA = FrameInsert X FrameQueue.send g)) := by
  obtain ⟨s6, h1, h2, _, _, h5, h6, _⟩ := TCPSendPacket_prepare cfg s S g TCP_DATA
  have hfl : s6.frame.packet g TCP_FLAGS &&& (TCP_FLAGS_FIN ||| TCP_FLAGS_SYN) = 0 := by
    rw [h6, IPSendPacket_packet_apply _ _ _ (by decide), TCPSendPacket_packet_flags, hflags]
    decide
  have hF : s6.FrameSendFunc = s.FrameSendFunc := h2.2.2.2.2.2.2.2.2.2.2.2.2.1
  cases hm : s.FrameSendFunc with
  | none =>
    rw [hm] at hF
    exact ⟨{ s6 with posted := s6.posted + 1 }, h2, h6,
      Or.inr ⟨rfl, h1.trans (IPSendFrame_queued cfg s6 g hF)⟩⟩
  | some F =>
    rw [hm] at hF
    exact ⟨{ s6 with sent := s6.sent ++ [(g, s6.frame.packet g, s6.frame.length g)] }, h2, h6,
      Or.inl ⟨by simp, h1.trans (IPSendFrame_ack_direct cfg s6 g F hF (by rw [h5]; decide) hfl)⟩⟩
theorem IPFrameGet_snd_some {s : IPStack} {freeCount : Int} {g : Nat}
    (h : (IPFrameGet s freeCount).2 = some g) :
    s.FrameFreeHead = some g ∧ s.FrameFreeCount > freeCount := by
  unfold IPFrameGet at h
  split_ifs at h with hc
  · cases hh : s.FrameFreeHead with
    | none => simp [hh] at h
    | some f =>
      simp [hh] at h
      exact ⟨by rw [h], hc⟩

/-- The frames outside a queue keep their place when a frame with the flag ACK alone is sent:
the frame sent is freed or put on the send queue. -/
theorem FrameList_ackSent {s X s1 : IPStack} {g : Nat} {q : FrameQueue} {L : List Nat}
    (hX : SameButFrame s X g)
    (h1 : s1 = FrameFree X g ∨ s1 = FrameInsert X FrameQueue.send g)
    (h : FrameList s q L) (hq : q ≠ FrameQueue.send) (hg : g ∉ L)
    (hs : ∀ f ∈ L, s.FrameSendHead ≠ some f) : FrameList s1 q L := by
  have hL := FrameList_sameButFrame h hX
  rcases h1 with e | e
  · rw [e]
    exact FrameList_free hL hg
  · rw [e]
    refine FrameList_insert_other hL hq hg (fun a ha => ?_)
    show X.FrameSendHead ≠ some a
    rw [hX.2.2.2.2.2.2.2.1]
    exact hs a ha

theorem TCPSendPacket_ack_FrameList (cfg : IPConfig) (s : IPStack) (S g : Nat)
    (hflags : s.frame.packet g TCP_FLAGS = TCP_FLAGS_ACK) {q : FrameQueue} {L : List Nat}
    (h : FrameList s q L) (hq : q ≠ FrameQueue.send) (hg : g ∉ L)
    (hs : ∀ f ∈ L, s.FrameSendHead ≠ some f) :
    FrameList (TCPSendPacket cfg s S g TCP_DATA) q L := by
  obtain ⟨X, hX, _, h3⟩ := TCPSendPacket_ack cfg s S g hflags
  refine FrameList_ackSent hX ?_ h hq hg hs
  rcases h3 with ⟨_, e⟩ | ⟨_, e⟩
  · exact Or.inl e
  · exact Or.inr e

theorem TCPSendPacket_ack_send (cfg : IPConfig) (s : IPStack) (S g : Nat)
    (hflags : s.frame.packet g TCP_FLAGS = TCP_FLAGS_ACK) {T : List Nat}
    (h : FrameList s FrameQueue.send T) (hg : g ∉ T) :
    FrameList (TCPSendPacket cfg s S g TCP_DATA) FrameQueue.send
      (if s.FrameSendFunc = none then g :: T else T) := by
  obtain ⟨X, hX, _, h3⟩ := TCPSendPacket_ack cfg s S g hflags
  have hL := FrameList_sameButFrame h hX
  rcases h3 with ⟨hF, e⟩ | ⟨hF, e⟩
  · rw [if_neg hF, e]
    exact FrameList_free hL hg
  · rw [if_pos hF, e]
    exact FrameList_insert g hL hg

/-- The fields of the other frames when a frame with the flag ACK alone is sent. -/
theorem TCPSendPacket_ack_frame (cfg : IPConfig) (s : IPStack) (S g : Nat)
    (hflags : s.frame.packet g TCP_FLAGS = TCP_FLAGS_ACK) (a : Nat) (ha : a ≠ g) :
    (TCPSendPacket cfg s S g TCP_DATA).frame.socket a = s.frame.socket a ∧
    (TCPSendPacket cfg s S g TCP_DATA).frame.seqEnd a = s.frame.seqEnd a ∧
    (TCPSendPacket cfg s S g TCP_DATA).frame.packet a = s.frame.packet a ∧
    (TCPSendPacket cfg s S g TCP_DATA).frame.length a = s.frame.length a ∧
    (TCPSendPacket cfg s S g TCP_DATA).frame.timeout a = s.frame.timeout a ∧
    (TCPSendPacket cfg s S g TCP_DATA).frame.retryCnt a = s.frame.retryCnt a := by
  obtain ⟨X, hX, _, h3⟩ := TCPSendPacket_ack cfg s S g hflags
  obtain ⟨b1, b2, b3, b4, b5, b6⟩ := hX.2.2.2.1 a ha
  rcases h3 with ⟨_, e⟩ | ⟨_, e⟩ <;> rw [e] <;> simp [b1, b2, b3, b4, b5, b6]

theorem tcpSendAck_FrameList (cfg : IPConfig) (s : IPStack) (S : Nat) {q : FrameQueue}
    {L : List Nat} (h : FrameList s q L) (hq : q ≠ FrameQueue.send)
    (hfree : ∀ f ∈ L, s.FrameFreeHead ≠ some f) (hs : ∀ f ∈ L, s.FrameSendHead ≠ some f) :
    FrameList (tcpSendAck cfg s S) q L := by
  rw [tcpSendAck_eq]
  have h0 : FrameList (IPFrameGet s cfg.FRAME_COUNT_SEND).1 q L :=
    FrameList_congr h (fun _ _ => by simp) (fun _ _ => by simp) (by simp) (by simp)
  cases hg : (IPFrameGet s cfg.FRAME_COUNT_SEND).2 with
  | none => exact h0
  | some g =>
    have hh := (IPFrameGet_snd_some hg).1
    refine TCPSendPacket_ack_FrameList cfg _ S g (by simp) ?_ hq ?_ ?_
    · exact FrameList_congr h0 (fun _ _ => rfl) (fun _ _ => rfl) (by cases q <;> rfl)
        (by cases q <;> rfl)
    · intro hm
      exact hfree g hm hh
    · intro f hf
      show (IPFrameGet s cfg.FRAME_COUNT_SEND).1.FrameSendHead ≠ some f
      rw [IPFrameGet_FrameSendHead]
      exact hs f hf

theorem tcpSendAck_frame (cfg : IPConfig) (s : IPStack) (S a : Nat)
    (hfree : s.FrameFreeHead ≠ some a) :
    (tcpSendAck cfg s S).frame.socket a = s.frame.socket a ∧
    (tcpSendAck cfg s S).frame.seqEnd a = s.frame.seqEnd a ∧
    (tcpSendAck cfg s S).frame.packet a = s.frame.packet a ∧
    (tcpSendAck cfg s S).frame.length a = s.frame.length a ∧
    (tcpSendAck cfg s S).frame.timeout a = s.frame.timeout a ∧
    (tcpSendAck cfg s S).frame.retryCnt a = s.frame.retryCnt a := by
  rw [tcpSendAck_eq]
  cases hg : (IPFrameGet s cfg.FRAME_COUNT_SEND).2 with
  | none => simp
  | some g =>
    have hh := (IPFrameGet_snd_some hg).1
    have ha : a ≠ g := by
      intro e
      rw [e] at hfree
      exact hfree hh
    have := TCPSendPacket_ack_frame cfg
      { (IPFrameGet s cfg.FRAME_COUNT_SEND).1 with
        frame.packet := upd (IPFrameGet s cfg.FRAME_COUNT_SEND).1.frame.packet g
          (upd ((IPFrameGet s cfg.FRAME_COUNT_SEND).1.frame.packet g) TCP_FLAGS TCP_FLAGS_ACK) }
      S g (by simp) a ha
    simpa [upd_ne _ _ ha] using this
/-! ## C24: the acknowledgement -/

@[simp] theorem notify_frame (s : IPStack) (k : Nat) : (notify s k).frame = s.frame := by
  unfold notify
  split <;> rfl

@[simp] theorem notify_socket (s : IPStack) (k : Nat) : (notify s k).socket = s.socket := by
  unfold notify
  split <;> rfl

@[simp] theorem notify_getHead (s : IPStack) (k : Nat) (q : FrameQueue) :
    (notify s k).getHead q = s.getHead q := by
  unfold notify
  split <;> cases q <;> rfl

@[simp] theorem notify_getTail (s : IPStack) (k : Nat) (q : FrameQueue) :
    (notify s k).getTail q = s.getTail q := by
  unfold notify
  split <;> cases q <;> rfl

@[simp] theorem notify_SocketHead (s : IPStack) (k : Nat) :
    (notify s k).SocketHead = s.SocketHead := by
  unfold notify
  split <;> rfl

@[simp] theorem notify_FrameFreeHead (s : IPStack) (k : Nat) :
    (notify s k).FrameFreeHead = s.FrameFreeHead := by
  unfold notify
  split <;> rfl

@[simp] theorem notify_FrameFreeCount (s : IPStack) (k : Nat) :
    (notify s k).FrameFreeCount = s.FrameFreeCount := by
  unfold notify
  split <;> rfl

@[simp] theorem notify_sent (s : IPStack) (k : Nat) : (notify s k).sent = s.sent := by
  unfold notify
  split <;> rfl

@[simp] theorem notify_posted (s : IPStack) (k : Nat) : (notify s k).posted = s.posted := by
  unfold notify
  split <;> rfl

@[simp] theorem notify_FrameSendHead (s : IPStack) (k : Nat) :
    (notify s k).FrameSendHead = s.FrameSendHead := by
  unfold notify
  split <;> rfl

@[simp] theorem notify_FrameSendFunc (s : IPStack) (k : Nat) :
    (notify s k).FrameSendFunc = s.FrameSendFunc := by
  unfold notify
  split <;> rfl

theorem FrameList_notify {s : IPStack} {q : FrameQueue} {L : List Nat} (k : Nat)
    (h : FrameList s q L) : FrameList (notify s k) q L :=
  FrameList_congr h (fun _ _ => by simp) (fun _ _ => by simp) (by simp) (by simp)

/-- A change of the fields of the sockets other than the read queues leaves a queue alone. -/
theorem FrameList_socket {s s1 : IPStack} {q : FrameQueue} {L : List Nat}
    (h : FrameList s q L) (h1 : s1.frame = s.frame) (h2 : s1.FrameSendHead = s.FrameSendHead)
    (h3 : s1.FrameSendTail = s.FrameSendTail) (h4 : s1.FrameResendHead = s.FrameResendHead)
    (h5 : s1.FrameResendTail = s.FrameResendTail)
    (h6 : s1.socket.frameReadHead = s.socket.frameReadHead)
    (h7 : s1.socket.frameReadTail = s.socket.frameReadTail) : FrameList s1 q L := by
  refine FrameList_congr h (fun _ _ => by rw [h1]) (fun _ _ => by rw [h1]) ?_ ?_
  · cases q
    · exact h2
    · exact h4
    · show s1.socket.frameReadHead _ = s.socket.frameReadHead _
      rw [h6]
  · cases q
    · exact h3
    · exact h5
    · show s1.socket.frameReadTail _ = s.socket.frameReadTail _
      rw [h7]

/-- The block of the acknowledgement comes to a removing walk over the resend list. -/
theorem tcpAcknowledge_eq (cfg : IPConfig) (fuel : Nat) (s : IPStack) (S a : Nat) (R : List Nat)
    (hack : a ≠ s.socket.seqReceived S) (hR : FrameList s FrameQueue.resend R)
    (hfuel : R.length ≤ fuel) :
    ∃ s1 t, tcpAcknowledge cfg fuel s S a = some s1 ∧
      s1.frame = (removeWalk (acknowledged s S a) FrameQueue.resend R s).frame ∧
      s1.socket = { s.socket with timeout := t, seqReceived := upd s.socket.seqReceived S a } ∧
      s1.FrameFreeHead = (removeWalk (acknowledged s S a) FrameQueue.resend R s).FrameFreeHead ∧
      s1.FrameFreeCount =
        (removeWalk (acknowledged s S a) FrameQueue.resend R s).FrameFreeCount ∧
      s1.FrameResendHead =
        (removeWalk (acknowledged s S a) FrameQueue.resend R s).FrameResendHead ∧
      s1.FrameResendTail =
        (removeWalk (acknowledged s S a) FrameQueue.resend R s).FrameResendTail ∧
      s1.FrameSendHead = s.FrameSendHead ∧ s1.FrameSendTail = s.FrameSendTail ∧
      s1.FrameSendFunc = s.FrameSendFunc ∧ s1.sent = s.sent ∧ s1.posted = s.posted ∧
      s1.notified = s.notified ∧ s1.SocketHead = s.SocketHead := by
  have hhead : s.FrameResendHead = R.head? := by
    have := FrameList_head hR
    rw [lastOr_reverse_eq_head] at this
    exact this
  have h0 : FrameList s FrameQueue.resend ([] ++ R) := hR
  obtain ⟨t, ht⟩ := ackLoop_eq cfg S a (acknowledged s S a) R [] fuel s h0 hfuel (fun _ => rfl)
  unfold tcpAcknowledge
  rw [if_pos hack, hhead, ht]
  refine ⟨_, t, rfl, rfl, ?_, rfl, rfl, rfl, rfl, ?_, ?_, ?_, ?_, ?_, ?_, ?_⟩
  · show ({ (removeWalk (acknowledged s S a) FrameQueue.resend R s).socket with
      timeout := t, seqReceived := _ } : IPSocket) = _
    simp
  all_goals simp
/-- The last part of `IPProcessTCPPacket` leaves alone a queue that is neither the send queue
nor the read queue of the socket, the fields of its frames, and `seqReceived`. -/
theorem tcpData_keeps (cfg : IPConfig) (s1 : IPStack) (S frameIn : Nat) (packet : Nat → Nat)
    (seq : Nat) (ip_length : Int) {q : FrameQueue} {L : List Nat}
    (h : FrameList s1 q L) (hq : q ≠ FrameQueue.send) (hq2 : q ≠ FrameQueue.read S)
    (hin : frameIn ∉ L) (hfree : ∀ f ∈ L, s1.FrameFreeHead ≠ some f)
    (hsend : ∀ f ∈ L, s1.FrameSendHead ≠ some f)
    (hread : ∀ f ∈ L, s1.socket.frameReadHead S ≠ some f) :
    FrameList (tcpData cfg s1 S frameIn packet seq ip_length).1 q L ∧
    (∀ f ∈ L,
      (tcpData cfg s1 S frameIn packet seq ip_length).1.frame.socket f = s1.frame.socket f ∧
      (tcpData cfg s1 S frameIn packet seq ip_length).1.frame.seqEnd f = s1.frame.seqEnd f) ∧
    (tcpData cfg s1 S frameIn packet seq ip_length).1.socket.seqReceived =
      s1.socket.seqReceived := by
  unfold tcpData
  simp only []
  split_ifs with c1 c2 c3 c4 c5
  · refine ⟨FrameList_notify S (tcpSendAck_FrameList cfg _ S
      (FrameList_socket h rfl rfl rfl rfl rfl rfl rfl) hq hfree hsend), fun f hf => ?_, by simp⟩
    have := tcpSendAck_frame cfg
      { s1 with socket.ack := upd s1.socket.ack S ((seq + 1) % 4294967296) } S f (hfree f hf)
    simp only [notify_frame]
    exact ⟨this.1, this.2.1⟩
  · exact ⟨h, fun _ _ => ⟨rfl, rfl⟩, rfl⟩
  · have h2 : FrameList
        { s1 with socket.timeout := upd s1.socket.timeout S cfg.SOCKET_TIMEOUT } q L :=
      FrameList_socket h rfl rfl rfl rfl rfl rfl rfl
    have h3 := FrameList_insert_other (q := FrameQueue.read S) (f := frameIn) h2 hq2 hin
      (fun a ha => hread a ha)
    refine ⟨FrameList_notify S (tcpSendAck_FrameList cfg _ S
      (FrameList_socket h3 rfl rfl rfl rfl rfl rfl rfl) hq ?_ ?_), fun f hf => ?_, by simp⟩
    · intro f hf
      simpa using hfree f hf
    · intro f hf
      simpa using hsend f hf
    · have := tcpSendAck_frame cfg
        { FrameInsert { s1 with socket.timeout := upd s1.socket.timeout S cfg.SOCKET_TIMEOUT }
            (FrameQueue.read S) frameIn with
          socket.ack := upd (FrameInsert
            { s1 with socket.timeout := upd s1.socket.timeout S cfg.SOCKET_TIMEOUT }
            (FrameQueue.read S) frameIn).socket.ack S
            (toUInt32 ((FrameInsert
              { s1 with socket.timeout := upd s1.socket.timeout S cfg.SOCKET_TIMEOUT }
              (FrameQueue.read S) frameIn).socket.ack S +
              (ip_length - ((TCP_DATA : Int) - IP_VERSION_LENGTH)))) } S f
        (by simpa using hfree f hf)
      simp only [notify_frame]
      refine ⟨this.1.trans ?_, this.2.1.trans ?_⟩ <;> simp
  · have h3 := FrameList_insert_other (q := FrameQueue.read S) (f := frameIn) h hq2 hin
      (fun a ha => hread a ha)
    refine ⟨FrameList_notify S (tcpSendAck_FrameList cfg _ S
      (FrameList_socket h3 rfl rfl rfl rfl rfl rfl rfl) hq ?_ ?_), fun f hf => ?_, by simp⟩
    · intro f hf
      simpa using hfree f hf
    · intro f hf
      simpa using hsend f hf
    · have := tcpSendAck_frame cfg
        { FrameInsert s1 (FrameQueue.read S) frameIn with
          socket.ack := upd (FrameInsert s1 (FrameQueue.read S) frameIn).socket.ack S
            (toUInt32 ((FrameInsert s1 (FrameQueue.read S) frameIn).socket.ack S +
              (ip_length - ((TCP_DATA : Int) - IP_VERSION_LENGTH)))) } S f
        (by simpa using hfree f hf)
      simp only [notify_frame]
      refine ⟨this.1.trans ?_, this.2.1.trans ?_⟩ <;> simp
  · refine ⟨tcpSendAck_FrameList cfg _ S h hq hfree hsend, fun f hf => ?_, by simp⟩
    have := tcpSendAck_frame cfg s1 S f (hfree f hf)
    exact ⟨this.1, this.2.1⟩
  · exact ⟨h, fun _ _ => ⟨rfl, rfl⟩, rfl⟩
/-- A segment without FIN and RST that is not a SYN without ACK, for the first socket that it
matches: the block of the acknowledgement and the last part of the function run. -/
theorem IPProcessTCPPacket_segment (cfg : IPConfig) (fuel : Nat) (s : IPStack)
    (malloc : Option Nat) (frameIn S : Nat) (L1 L2 : List Nat)
    (hsocks : IsChain s.socket.next s.SocketHead (L1 ++ S :: L2)) (hfuel : L1.length < fuel)
    (hfirst : ∀ k ∈ L1, tcpMatch s (s.frame.packet frameIn) k = false)
    (hmatch : tcpMatch s (s.frame.packet frameIn) S = true)
    (hsyn : s.frame.packet frameIn TCP_FLAGS &&& (TCP_FLAGS_SYN ||| TCP_FLAGS_ACK) ≠
      TCP_FLAGS_SYN)
    (hfin : s.frame.packet frameIn TCP_FLAGS &&& TCP_FLAGS_FIN = 0)
    (hrst : s.frame.packet frameIn TCP_FLAGS &&& TCP_FLAGS_RST = 0) :
    IPProcessTCPPacket cfg fuel s malloc frameIn =
      (tcpAcknowledge cfg fuel s S (load32 (s.frame.packet frameIn) TCP_ACK)).map
        (fun s1 => tcpData cfg s1 S frameIn (s.frame.packet frameIn)
          (load32 (s.frame.packet frameIn) TCP_SEQ)
          (((s.frame.packet frameIn IP_LENGTH <<< 8) |||
            s.frame.packet frameIn (IP_LENGTH + 1) : Nat) : Int)) := by
  have h2 := socketFind_some s (tcpMatch s (s.frame.packet frameIn)) S L2 L1 fuel _
    hsocks hfuel hfirst hmatch
  unfold IPProcessTCPPacket
  simp only [hsyn, if_false, h2, hfin, hrst, ne_eq, not_true_eq_false]
  cases tcpAcknowledge cfg fuel s S (load32 (s.frame.packet frameIn) TCP_ACK) <;> rfl

/-- C24: a segment without FIN and RST (and not a SYN without ACK, which is a connection
request) arrives for the socket `S`, the first socket that it matches, and its acknowledgement
number `a` differs from `S.seqReceived`; the resend list holds the frames `R`, the free list the
frames `F`.  Then the walk over the resend list returns, and after it the frames of `R` with
`F.socket == S` and `(int)(a - F.seqEnd) >= 0` are on the free list in the state 0, with
`FrameFreeCount` grown by their number; when `IPProcessTCPPacket` returns, the resend list
holds the other frames of `R` in their order, none of them a frame of `S` with
`(int)(a - seqEnd) >= 0`, and `S.seqReceived` is `a`. -/
theorem C24_cumulative_ack (cfg : IPConfig) (fuel : Nat) (s : IPStack) (malloc : Option Nat)
    (frameIn S : Nat) (L1 L2 R F : List Nat)
    (hsocks : IsChain s.socket.next s.SocketHead (L1 ++ S :: L2)) (hfuel : L1.length < fuel)
    (hfuelR : R.length ≤ fuel)
    (hfirst : ∀ k ∈ L1, tcpMatch s (s.frame.packet frameIn) k = false)
    (hmatch : tcpMatch s (s.frame.packet frameIn) S = true)
    (hsyn : s.frame.packet frameIn TCP_FLAGS &&& (TCP_FLAGS_SYN ||| TCP_FLAGS_ACK) ≠
      TCP_FLAGS_SYN)
    (hfin : s.frame.packet frameIn TCP_FLAGS &&& TCP_FLAGS_FIN = 0)
    (hrst : s.frame.packet frameIn TCP_FLAGS &&& TCP_FLAGS_RST = 0)
    (hack : load32 (s.frame.packet frameIn) TCP_ACK ≠ s.socket.seqReceived S)
    (hR : FrameList s FrameQueue.resend R)
    (hF : IsChain s.frame.next s.FrameFreeHead F) (hdis : ∀ f ∈ F, f ∉ R)
    (hin : frameIn ∉ R) (hsend : ∀ f ∈ R, s.FrameSendHead ≠ some f)
    (hread : ∀ f ∈ R, s.socket.frameReadHead S ≠ some f) :
    ∃ s1 s2 rc,
      tcpAcknowledge cfg fuel s S (load32 (s.frame.packet frameIn) TCP_ACK) = some s1 ∧
      IPProcessTCPPacket cfg fuel s malloc frameIn = some (s2, rc) ∧
      IsChain s1.frame.next s1.FrameFreeHead
        ((R.filter (acknowledged s S (load32 (s.frame.packet frameIn) TCP_ACK))).reverse ++ F) ∧
      s1.FrameFreeCount = s.FrameFreeCount +
        (R.filter (acknowledged s S (load32 (s.frame.packet frameIn) TCP_ACK))).length ∧
      (∀ f ∈ R.filter (acknowledged s S (load32 (s.frame.packet frameIn) TCP_ACK)),
        s1.frame.state f = 0) ∧
      FrameList s2 FrameQueue.resend
        (R.filter (fun f => !acknowledged s S (load32 (s.frame.packet frameIn) TCP_ACK) f)) ∧
      (∀ f ∈ R.filter (fun f => !acknowledged s S (load32 (s.frame.packet frameIn) TCP_ACK) f),
        s2.frame.socket f = s.frame.socket f ∧ s2.frame.seqEnd f = s.frame.seqEnd f ∧
        ¬ (s2.frame.socket f = some S ∧
          tickDiff (load32 (s.frame.packet frameIn) TCP_ACK) (s2.frame.seqEnd f) ≥ 0)) ∧
      s2.socket.seqReceived S = load32 (s.frame.packet frameIn) TCP_ACK := by
  obtain ⟨s1, t, e1, f1, f2, f3, f4, f5, f6, f7, f8, f9, f10, f11, f12, f13⟩ :=
    tcpAcknowledge_eq cfg fuel s S _ R hack hR hfuelR
  have h0 : FrameList s FrameQueue.resend ([] ++ R) := hR
  obtain ⟨a1, a2, a3, a4, a5, a6⟩ := removeWalk_spec
    (acknowledged s S (load32 (s.frame.packet frameIn) TCP_ACK)) FrameQueue.resend R [] F s h0 hF
    hdis
  rw [List.nil_append] at a1
  have hR1 : FrameList s1 FrameQueue.resend
      (R.filter (fun f => !acknowledged s S (load32 (s.frame.packet frameIn) TCP_ACK) f)) :=
    FrameList_congr a1 (fun _ _ => by rw [f1]) (fun _ _ => by rw [f1]) f5 f6
  have hfree1 : IsChain s1.frame.next s1.FrameFreeHead
      ((R.filter (acknowledged s S (load32 (s.frame.packet frameIn) TCP_ACK))).reverse ++ F) := by
    rw [f1, f3]
    exact a2
  have hsub : ∀ f ∈ R.filter
      (fun f => !acknowledged s S (load32 (s.frame.packet frameIn) TCP_ACK) f), f ∈ R ∧
        acknowledged s S (load32 (s.frame.packet frameIn) TCP_ACK) f = false := by
    intro f hf
    have := List.mem_filter.mp hf
    exact ⟨this.1, by simpa using this.2⟩
  have hk := tcpData_keeps cfg s1 S frameIn (s.frame.packet frameIn)
    (load32 (s.frame.packet frameIn) TCP_SEQ)
    (((s.frame.packet frameIn IP_LENGTH <<< 8) |||
      s.frame.packet frameIn (IP_LENGTH + 1) : Nat) : Int) hR1 (by simp) (by simp)
    (fun hm => hin (hsub _ hm).1)
    (by
      intro f hf hh
      have hm : f ∈ (R.filter (acknowledged s S (load32 (s.frame.packet frameIn)
          TCP_ACK))).reverse ++ F := by
        cases hl : (R.filter (acknowledged s S (load32 (s.frame.packet frameIn)
            TCP_ACK))).reverse ++ F with
        | nil =>
          rw [hl] at hfree1
          rw [IsChain_nil hfree1] at hh
          cases hh
        | cons b l =>
          rw [hl] at hfree1
          rw [IsChain_head hfree1] at hh
          cases hh
          exact List.mem_cons_self _ _
      rcases List.mem_append.mp hm with h1 | h1
      · have := (List.mem_filter.mp (List.mem_reverse.mp h1)).2
        rw [(hsub f hf).2] at this
        cases this
      · exact hdis f h1 (hsub f hf).1)
    (by
      intro f hf
      rw [f7]
      exact hsend f (hsub f hf).1)
    (by
      intro f hf
      rw [f2]
      exact hread f (hsub f hf).1)
  refine ⟨s1, _, (tcpData cfg s1 S frameIn (s.frame.packet frameIn)
    (load32 (s.frame.packet frameIn) TCP_SEQ)
    (((s.frame.packet frameIn IP_LENGTH <<< 8) |||
      s.frame.packet frameIn (IP_LENGTH + 1) : Nat) : Int)).2, e1, ?_, hfree1, ?_, ?_, hk.1, ?_, ?_⟩
  · rw [IPProcessTCPPacket_segment cfg fuel s malloc frameIn S L1 L2 hsocks hfuel hfirst hmatch
      hsyn hfin hrst, e1]
    rfl
  · rw [f4, a3]
  · intro f hf
    rw [f1]
    exact a4 f hf
  · intro f hf
    obtain ⟨b1, b2⟩ := hk.2.1 f hf
    have c1 : s1.frame.socket f = s.frame.socket f := by rw [f1]; simp
    have c2 : s1.frame.seqEnd f = s.frame.seqEnd f := by rw [f1]; simp
    refine ⟨b1.trans c1, b2.trans c2, ?_⟩
    rw [b1, b2, c1, c2]
    have := (hsub f hf).2
    unfold acknowledged at this
    exact of_decide_eq_false this
  · rw [hk.2.2, f2]
    simp

theorem C24_cumulative_ack_witness :
    ∃ s1 s2 rc,
      tcpAcknowledge smallConfig 8 ackScenario 11
        (load32 (ackScenario.frame.packet 107) TCP_ACK) = some s1 ∧
      IPProcessTCPPacket smallConfig 8 ackScenario none 107 = some (s2, rc) ∧
      IsChain s1.frame.next s1.FrameFreeHead
        (([106].filter (acknowledged ackScenario 11
          (load32 (ackScenario.frame.packet 107) TCP_ACK))).reverse ++
          [105, 104, 103, 102, 101, 100]) ∧
      s1.FrameFreeCount = ackScenario.FrameFreeCount +
        ([106].filter (acknowledged ackScenario 11
          (load32 (ackScenario.frame.packet 107) TCP_ACK))).length ∧
      (∀ f ∈ [106].filter (acknowledged ackScenario 11
          (load32 (ackScenario.frame.packet 107) TCP_ACK)), s1.frame.state f = 0) ∧
      FrameList s2 FrameQueue.resend
        ([106].filter (fun f => !acknowledged ackScenario 11
          (load32 (ackScenario.frame.packet 107) TCP_ACK) f)) ∧
      (∀ f ∈ [106].filter (fun f => !acknowledged ackScenario 11
          (load32 (ackScenario.frame.packet 107) TCP_ACK) f),
        s2.frame.socket f = ackScenario.frame.socket f ∧
        s2.frame.seqEnd f = ackScenario.frame.seqEnd f ∧
        ¬ (s2.frame.socket f = some 11 ∧
          tickDiff (load32 (ackScenario.frame.packet 107) TCP_ACK) (s2.frame.seqEnd f) ≥ 0)) ∧
      s2.socket.seqReceived 11 = load32 (ackScenario.frame.packet 107) TCP_ACK :=
  C24_cumulative_ack smallConfig 8 ackScenario none 107 11 [] [10] [106]
    [105, 104, 103, 102, 101, 100] (by decide) (by decide) (by decide) (by decide) (by decide)
    (by decide) (by decide) (by decide) (by decide) (by decide) (by decide) (by decide)
    (by decide) (by decide) (by decide)
/-! ## C23: data of a segment -/

theorem TCPSendPacket_ackField (cfg : IPConfig) (s : IPStack) (S g : Nat) (length : Int) :
    load32 ((TCPSendPacket cfg s S g length).frame.packet g) TCP_ACK =
      s.socket.ack S % 4294967296 := by
  rw [TCPSendPacket_frame_packet, upd_same, ← TCPSendPacket_packet_ack cfg s S (s.frame.packet g)]
  apply load32_congr
  intro i hi
  rw [IPSendPacket_packet_apply _ _ _ (by
    simp only [TCP_ACK]
    intro hm
    simp at hm
    omega)]

theorem TCPSendPacket_flagsField (cfg : IPConfig) (s : IPStack) (S g : Nat) (length : Int) :
    (TCPSendPacket cfg s S g length).frame.packet g TCP_FLAGS =
      s.frame.packet g TCP_FLAGS % 256 := by
  rw [TCPSendPacket_frame_packet, upd_same, IPSendPacket_packet_apply _ _ _ (by decide),
    TCPSendPacket_packet_flags]

/-- What `tcpSendAck` sends: nothing, or one frame of 54 bytes with the flag ACK alone and the
acknowledgement number of the socket. -/
theorem tcpSendAck_emits (cfg : IPConfig) (s : IPStack) (S : Nat) :
    ((tcpSendAck cfg s S).sent = s.sent ∧ (tcpSendAck cfg s S).posted = s.posted) ∨
    ∃ g, s.FrameFreeHead = some g ∧ Emits s (tcpSendAck cfg s S) g 54 ∧
      load32 ((tcpSendAck cfg s S).frame.packet g) TCP_ACK = s.socket.ack S % 4294967296 ∧
      (tcpSendAck cfg s S).frame.packet g TCP_FLAGS = TCP_FLAGS_ACK := by
  rw [tcpSendAck_eq]
  cases hg : (IPFrameGet s cfg.FRAME_COUNT_SEND).2 with
  | none => exact Or.inl ⟨by simp, by simp⟩
  | some g =>
    refine Or.inr ⟨g, (IPFrameGet_snd_some hg).1, ?_, ?_, ?_⟩
    · exact Emits_congr (TCPSendPacket_emits cfg _ S g TCP_DATA) (by simp) (by simp) (by simp)
        (by simp)
    · rw [TCPSendPacket_ackField]
      simp
    · rw [TCPSendPacket_flagsField]
      simp [TCP_FLAGS_ACK]

theorem removeWalk_FrameFreeHead (P : Nat → Bool) (q : FrameQueue) :
    ∀ (L : List Nat) (s : IPStack),
      (removeWalk P q L s).FrameFreeHead = s.FrameFreeHead ∨
        ∃ f ∈ L, (removeWalk P q L s).FrameFreeHead = some f := by
  intro L
  induction L with
  | nil => intro s; exact Or.inl rfl
  | cons x l ih =>
    intro s
    rw [removeWalk]
    split
    · rcases ih (FrameFree (FrameRemove s q x) x) with h | ⟨f, hf, h⟩
      · exact Or.inr ⟨x, List.mem_cons_self _ _, by rw [h]; simp⟩
      · exact Or.inr ⟨f, List.mem_cons_of_mem _ hf, h⟩
    · rcases ih s with h | ⟨f, hf, h⟩
      · exact Or.inl h
      · exact Or.inr ⟨f, List.mem_cons_of_mem _ hf, h⟩

/-- The block of the acknowledgement returns, and leaves alone the queues other than the resend
list, the bytes of the frames, the fields of the sockets other than the time and
`seqReceived`, and the logs. -/
theorem tcpAcknowledge_other (cfg : IPConfig) (fuel : Nat) (s : IPStack) (S a : Nat)
    (R : List Nat) (hR : FrameList s FrameQueue.resend R) (hfuel : R.length ≤ fuel) :
    ∃ s1, tcpAcknowledge cfg fuel s S a = some s1 ∧
      (∃ t r, s1.socket = { s.socket with timeout := t, seqReceived := r }) ∧
      s1.frame.packet = s.frame.packet ∧ s1.frame.length = s.frame.length ∧
      s1.FrameSendHead = s.FrameSendHead ∧ s1.FrameSendTail = s.FrameSendTail ∧
      s1.FrameSendFunc = s.FrameSendFunc ∧ s1.sent = s.sent ∧ s1.posted = s.posted ∧
      s1.notified = s.notified ∧ s1.SocketHead = s.SocketHead ∧
      (s1.FrameFreeHead = s.FrameFreeHead ∨ ∃ f ∈ R, s1.FrameFreeHead = some f) ∧
      (∀ (q : FrameQueue) (L : List Nat), q ≠ FrameQueue.resend → FrameList s q L →
        (∀ f ∈ L, f ∉ R) → FrameList s1 q L) := by
  by_cases hack : a ≠ s.socket.seqReceived S
  · obtain ⟨s1, t, e1, f1, f2, f3, f4, f5, f6, f7, f8, f9, f10, f11, f12, f13⟩ :=
      tcpAcknowledge_eq cfg fuel s S a R hack hR hfuel
    refine ⟨s1, e1, ⟨t, _, f2⟩, by rw [f1]; simp, by rw [f1]; simp, f7, f8, f9, f10, f11, f12,
      f13, ?_, ?_⟩
    · rw [f3]
      exact removeWalk_FrameFreeHead _ _ R s
    · intro q L hq hL hd
      have := removeWalk_other (acknowledged s S a) hR hL hq hd
      refine FrameList_congr this (fun _ _ => by rw [f1]) (fun _ _ => by rw [f1]) ?_ ?_
      · cases q
        · show s1.FrameSendHead = (removeWalk _ _ R s).FrameSendHead
          rw [f7, removeWalk_FrameSendHead_of_resend]
        · exact absurd rfl hq
        · show s1.socket.frameReadHead _ = _
          rw [f2]
          simp [IPStack.getHead]
      · cases q
        · show s1.FrameSendTail = (removeWalk _ _ R s).FrameSendTail
          rw [f8, removeWalk_FrameSendTail_of_resend]
        · exact absurd rfl hq
        · show s1.socket.frameReadTail _ = _
          rw [f2]
          simp [IPStack.getTail]
  · have e : tcpAcknowledge cfg fuel s S a = some s := by
      unfold tcpAcknowledge
      rw [if_neg hack]
    exact ⟨s, e, ⟨s.socket.timeout, s.socket.seqReceived, rfl⟩, rfl, rfl, rfl, rfl, rfl, rfl,
      rfl, rfl, rfl, Or.inl rfl, fun _ _ _ h _ => h⟩
theorem flags_not_syn {x : Nat} (h : x &&& TCP_FLAGS_SYN = 0) :
    x &&& (TCP_FLAGS_SYN ||| TCP_FLAGS_ACK) ≠ TCP_FLAGS_SYN ∧
      x &&& (TCP_FLAGS_SYN ||| TCP_FLAGS_ACK) ≠ (TCP_FLAGS_SYN ||| TCP_FLAGS_ACK) := by
  have e : ∀ y, x &&& (TCP_FLAGS_SYN ||| TCP_FLAGS_ACK) = y → y &&& TCP_FLAGS_SYN = 0 := by
    intro y hy
    rw [← hy, Nat.and_assoc]
    have : (TCP_FLAGS_SYN ||| TCP_FLAGS_ACK) &&& TCP_FLAGS_SYN = TCP_FLAGS_SYN := by decide
    rw [this, h]
  constructor
  · intro hc
    have := e _ hc
    revert this
    decide
  · intro hc
    have := e _ hc
    revert this
    decide

/-- The last part of `IPProcessTCPPacket` for a segment in order with data. -/
theorem tcpData_inorder (cfg : IPConfig) (s1 : IPStack) (S frameIn : Nat) (packet : Nat → Nat)
    (seq : Nat) (ip_length : Int) {Q : List Nat}
    (hc1 : packet TCP_FLAGS &&& (TCP_FLAGS_SYN ||| TCP_FLAGS_ACK) ≠
      (TCP_FLAGS_SYN ||| TCP_FLAGS_ACK))
    (hc2 : packet TCP_HEADER_LENGTH = 0x50) (hseq : s1.socket.ack S = seq)
    (hb : ip_length - ((TCP_DATA : Int) - IP_VERSION_LENGTH) > 0)
    (hQ : FrameList s1 (FrameQueue.read S) Q) (hin : frameIn ∉ Q)
    (hfree : ∀ f ∈ frameIn :: Q, s1.FrameFreeHead ≠ some f)
    (hsend : ∀ f ∈ frameIn :: Q, s1.FrameSendHead ≠ some f) :
    (tcpData cfg s1 S frameIn packet seq ip_length).2 = 1 ∧
    FrameList (tcpData cfg s1 S frameIn packet seq ip_length).1 (FrameQueue.read S)
      (frameIn :: Q) ∧
    (tcpData cfg s1 S frameIn packet seq ip_length).1.socket.ack S =
      toUInt32 (s1.socket.ack S + (ip_length - ((TCP_DATA : Int) - IP_VERSION_LENGTH))) := by
  unfold tcpData
  simp only [hc1, if_false, hc2, ne_eq, not_true_eq_false, hseq, hb, and_self, if_true]
  refine ⟨trivial, ?_, ?_⟩
  · split_ifs
    · have h3 := FrameList_insert frameIn hQ hin
      refine FrameList_notify S (tcpSendAck_FrameList cfg _ S
        (FrameList_socket h3 rfl rfl rfl rfl rfl rfl rfl) (by simp) ?_ ?_)
      · intro f hf
        simpa using hfree f hf
      · intro f hf
        simpa using hsend f hf
    · have h2 : FrameList
          { s1 with socket.timeout := upd s1.socket.timeout S cfg.SOCKET_TIMEOUT }
          (FrameQueue.read S) Q := FrameList_socket hQ rfl rfl rfl rfl rfl rfl rfl
      have h3 := FrameList_insert frameIn h2 hin
      refine FrameList_notify S (tcpSendAck_FrameList cfg _ S
        (FrameList_socket h3 rfl rfl rfl rfl rfl rfl rfl) (by simp) ?_ ?_)
      · intro f hf
        simpa using hfree f hf
      · intro f hf
        simpa using hsend f hf
  · split_ifs <;> simp [hseq]

/-- The last part of `IPProcessTCPPacket` for a segment out of order with data. -/
theorem tcpData_outoforder (cfg : IPConfig) (s1 : IPStack) (S frameIn : Nat)
    (packet : Nat → Nat) (seq : Nat) (ip_length : Int)
    (hc1 : packet TCP_FLAGS &&& (TCP_FLAGS_SYN ||| TCP_FLAGS_ACK) ≠
      (TCP_FLAGS_SYN ||| TCP_FLAGS_ACK))
    (hc2 : packet TCP_HEADER_LENGTH = 0x50) (hseq : s1.socket.ack S ≠ seq)
    (hb : ip_length - ((TCP_DATA : Int) - IP_VERSION_LENGTH) > 0) :
    tcpData cfg s1 S frameIn packet seq ip_length = (tcpSendAck cfg s1 S, 0) := by
  unfold tcpData
  have hb2 : ip_length - ((TCP_DATA : Int) - IP_VERSION_LENGTH) ≠ 0 := by omega
  simp only [hc1, if_false, hc2, ne_eq, not_true_eq_false, hseq, false_and, hb2, if_true,
    not_false_eq_true]

/-- C23: a segment with the header length 0x50, without FIN, RST and SYN and with `b > 0` bytes
of data (`b` is the IP length minus 40) arrives in the frame `frameIn` for the socket `S`, the
first socket that it matches, whose read queue holds the frames `Q`.  If its sequence number is
`S.ack`, then `IPProcessTCPPacket` returns 1, the read queue is `frameIn :: Q` and `S.ack` has
grown by `b` modulo `2^32`.  If not, it returns 0, the read queue and `S.ack` are as before, and
the function has sent nothing or one frame of 54 bytes with the flag ACK alone and the
acknowledgement number `S.ack`. -/
theorem C23_data_reception (cfg : IPConfig) (fuel : Nat) (s : IPStack) (malloc : Option Nat)
    (frameIn S : Nat) (L1 L2 R Q : List Nat)
    (hsocks : IsChain s.socket.next s.SocketHead (L1 ++ S :: L2)) (hfuel : L1.length < fuel)
    (hfuelR : R.length ≤ fuel)
    (hfirst : ∀ k ∈ L1, tcpMatch s (s.frame.packet frameIn) k = false)
    (hmatch : tcpMatch s (s.frame.packet frameIn) S = true)
    (hlen : s.frame.packet frameIn TCP_HEADER_LENGTH = 0x50)
    (hfin : s.frame.packet frameIn TCP_FLAGS &&& TCP_FLAGS_FIN = 0)
    (hrst : s.frame.packet frameIn TCP_FLAGS &&& TCP_FLAGS_RST = 0)
    (hsyn : s.frame.packet frameIn TCP_FLAGS &&& TCP_FLAGS_SYN = 0)
    (hb : ((((s.frame.packet frameIn IP_LENGTH <<< 8) |||
      s.frame.packet frameIn (IP_LENGTH + 1) : Nat) : Int)) - 40 > 0)
    (hR : FrameList s FrameQueue.resend R) (hQ : FrameList s (FrameQueue.read S) Q)
    (hQR : ∀ f ∈ Q, f ∉ R) (hinR : frameIn ∉ R) (hinQ : frameIn ∉ Q)
    (hfree : ∀ f ∈ frameIn :: Q, s.FrameFreeHead ≠ some f)
    (hsend : ∀ f ∈ frameIn :: Q, s.FrameSendHead ≠ some f) :
    (load32 (s.frame.packet frameIn) TCP_SEQ = s.socket.ack S →
      ∃ s2, IPProcessTCPPacket cfg fuel s malloc frameIn = some (s2, 1) ∧
        FrameList s2 (FrameQueue.read S) (frameIn :: Q) ∧
        s2.socket.ack S = toUInt32 (s.socket.ack S +
          (((((s.frame.packet frameIn IP_LENGTH <<< 8) |||
            s.frame.packet frameIn (IP_LENGTH + 1) : Nat) : Int)) - 40))) ∧
    (load32 (s.frame.packet frameIn) TCP_SEQ ≠ s.socket.ack S →
      ∃ s2, IPProcessTCPPacket cfg fuel s malloc frameIn = some (s2, 0) ∧
        FrameList s2 (FrameQueue.read S) Q ∧ s2.socket.ack S = s.socket.ack S ∧
        ((s2.sent = s.sent ∧ s2.posted = s.posted) ∨
          ∃ g, Emits s s2 g 54 ∧
            load32 (s2.frame.packet g) TCP_ACK = s.socket.ack S % 4294967296 ∧
            s2.frame.packet g TCP_FLAGS = TCP_FLAGS_ACK)) := by
  obtain ⟨s1, e1, ⟨t, r, f2⟩, fp, fl, f7, f8, f9, f10, f11, f12, f13, ffree, fQ⟩ :=
    tcpAcknowledge_other cfg fuel s S (load32 (s.frame.packet frameIn) TCP_ACK) R hR hfuelR
  have hQ1 : FrameList s1 (FrameQueue.read S) Q := fQ _ _ (by simp) hQ hQR
  have hack1 : s1.socket.ack S = s.socket.ack S := by rw [f2]
  have hfree1 : ∀ f ∈ frameIn :: Q, s1.FrameFreeHead ≠ some f := by
    intro f hf hh
    rcases ffree with h | ⟨x, hx, h⟩
    · rw [h] at hh
      exact hfree f hf hh
    · rw [h] at hh
      cases hh
      rcases List.mem_cons.mp hf with e | hm
      · exact hinR (e ▸ hx)
      · exact hQR _ hm hx
  have hsend1 : ∀ f ∈ frameIn :: Q, s1.FrameSendHead ≠ some f := by
    intro f hf
    rw [f7]
    exact hsend f hf
  have hseg := IPProcessTCPPacket_segment cfg fuel s malloc frameIn S L1 L2 hsocks hfuel hfirst
    hmatch (flags_not_syn hsyn).1 hfin hrst
  rw [e1] at hseg
  have hseg1 : IPProcessTCPPacket cfg fuel s malloc frameIn =
      some (tcpData cfg s1 S frameIn (s.frame.packet frameIn)
        (load32 (s.frame.packet frameIn) TCP_SEQ)
        (((s.frame.packet frameIn IP_LENGTH <<< 8) |||
          s.frame.packet frameIn (IP_LENGTH + 1) : Nat) : Int)) := hseg
  have hb1 : ((((s.frame.packet frameIn IP_LENGTH <<< 8) |||
      s.frame.packet frameIn (IP_LENGTH + 1) : Nat) : Int)) -
      ((TCP_DATA : Int) - IP_VERSION_LENGTH) > 0 := by
    simp only [TCP_DATA, IP_VERSION_LENGTH]
    omega
  constructor
  · intro hseq
    obtain ⟨a1, a2, a3⟩ := tcpData_inorder cfg s1 S frameIn (s.frame.packet frameIn)
      (load32 (s.frame.packet frameIn) TCP_SEQ) _ (flags_not_syn hsyn).2 hlen
      (hack1.trans hseq.symm) hb1 hQ1 hinQ hfree1 hsend1
    refine ⟨_, ?_, a2, ?_⟩
    · rw [hseg1]
      exact congrArg some (Prod.ext rfl a1)
    · rw [a3, hack1]
      simp only [TCP_DATA, IP_VERSION_LENGTH]
      norm_num
  · intro hseq
    have a1 := tcpData_outoforder cfg s1 S frameIn (s.frame.packet frameIn)
      (load32 (s.frame.packet frameIn) TCP_SEQ) _ (flags_not_syn hsyn).2 hlen
      (fun e => hseq (e.symm.trans hack1)) hb1
    refine ⟨tcpSendAck cfg s1 S, ?_, ?_, ?_, ?_⟩
    · rw [hseg1, a1]
    · exact tcpSendAck_FrameList cfg s1 S hQ1 (by simp)
        (fun f hf => hfree1 f (List.mem_cons_of_mem _ hf))
        (fun f hf => hsend1 f (List.mem_cons_of_mem _ hf))
    · rw [tcpSendAck_socket, hack1]
    · rcases tcpSendAck_emits cfg s1 S with ⟨b1, b2⟩ | ⟨g, _, b1, b2, b3⟩
      · exact Or.inl ⟨b1.trans f10, b2.trans f11⟩
      · refine Or.inr ⟨g, Emits_congr b1 f9 f10 f7 f11, ?_, b3⟩
        rw [b2, hack1]
theorem C23_data_reception_witness :
    ∃ s2, IPProcessTCPPacket smallConfig 8 dataScenario none 107 = some (s2, 1) ∧
      FrameList s2 (FrameQueue.read 11) [107] ∧
      s2.socket.ack 11 = toUInt32 (dataScenario.socket.ack 11 +
        (((((dataScenario.frame.packet 107 IP_LENGTH <<< 8) |||
          dataScenario.frame.packet 107 (IP_LENGTH + 1) : Nat) : Int)) - 40)) :=
  (C23_data_reception smallConfig 8 dataScenario none 107 11 [] [10] [106] [] (by decide)
    (by decide) (by decide) (by decide) (by decide) (by decide) (by decide) (by decide)
    (by decide) (by decide) (by decide) (by decide) (by decide) (by decide) (by decide)
    (by decide) (by decide)).1 (by decide)
/-! ## C27: FIN and RST -/

theorem closeSendLoop_none (S fuel : Nat) (s : IPStack) :
    closeSendLoop S fuel none s = some s := by
  cases fuel <;> rfl

/-- The first loop of `IPClose2` returns and changes only the field `socket` of frames. -/
theorem closeSendLoop_eq (S : Nat) :
    ∀ (T A : List Nat) (fuel : Nat) (s : IPStack),
      FrameList s FrameQueue.send (A ++ T) → T.length ≤ fuel →
      ∃ σ, closeSendLoop S fuel T.head? s = some { s with frame.socket := σ } := by
  intro T
  induction T with
  | nil =>
    intro A fuel s _ _
    exact ⟨s.frame.socket, closeSendLoop_none S fuel s⟩
  | cons x R ih =>
    intro A fuel s h hfuel
    obtain ⟨n, rfl⟩ : ∃ n, fuel = n + 1 := ⟨fuel - 1, by simp at hfuel; omega⟩
    have hn : R.length ≤ n := by simp at hfuel; omega
    have hnext := FrameList_next_head h
    rw [List.head?_cons, closeSendLoop]
    have key : ∀ σ0 : Nat → Option Nat, ∃ σ,
        closeSendLoop S n (({ s with frame.socket := σ0 } : IPStack).frame.next x)
          { s with frame.socket := σ0 } = some { s with frame.socket := σ } := by
      intro σ0
      have h1 : FrameList { s with frame.socket := σ0 } FrameQueue.send ((A ++ [x]) ++ R) := by
        rw [List.append_assoc]
        exact FrameList_congr h (fun _ _ => rfl) (fun _ _ => rfl) rfl rfl
      obtain ⟨σ, hσ⟩ := ih (A ++ [x]) n _ h1 hn
      refine ⟨σ, ?_⟩
      show closeSendLoop S n (s.frame.next x) _ = _
      rw [hnext, hσ]
    split_ifs
    · exact key _
    · exact key s.frame.socket

theorem socketUnlink_next (s : IPStack) (S : Nat) :
    (socketUnlink s S).socket.next =
      match s.socket.prev S with
      | none => s.socket.next
      | some p => upd s.socket.next p (s.socket.next S) := by
  unfold socketUnlink
  cases hp : s.socket.prev S <;> simp only [] <;> split <;> rfl

theorem socketUnlink_SocketHead (s : IPStack) (S : Nat) :
    (socketUnlink s S).SocketHead =
      match s.socket.prev S with
      | none => s.socket.next S
      | some _ => s.SocketHead := by
  unfold socketUnlink
  cases hp : s.socket.prev S <;> simp only [] <;> split <;> rfl

/-- The fields that `socketUnlink` leaves alone. -/
theorem socketUnlink_keeps (s : IPStack) (S : Nat) :
    (socketUnlink s S).socket.ack = s.socket.ack ∧
    (socketUnlink s S).socket.state = s.socket.state ∧
    (socketUnlink s S).sent = s.sent ∧ (socketUnlink s S).posted = s.posted ∧
    (socketUnlink s S).notified = s.notified ∧ (socketUnlink s S).frame = s.frame := by
  unfold socketUnlink
  cases hp : s.socket.prev S <;> simp only [] <;> split <;> exact ⟨rfl, rfl, rfl, rfl, rfl, rfl⟩

/-- The socket list after `socketUnlink` of one of its sockets whose back link is its
predecessor. -/
theorem socketUnlink_list (s : IPStack) (S : Nat) (L1 L2 : List Nat)
    (hl : IsChain s.socket.next s.SocketHead (L1 ++ S :: L2))
    (hprev : s.socket.prev S = lastOr none L1) :
    IsChain (socketUnlink s S).socket.next (socketUnlink s S).SocketHead (L1 ++ L2) := by
  have key := IsChain_remove hl
  have hnd := IsChain_nodup hl
  have hS : S ∉ L1 ++ L2 := by
    intro hm
    rw [List.nodup_append] at hnd
    rcases List.mem_append.mp hm with h1 | h1
    · exact hnd.2.2 h1 (List.mem_cons_self _ _)
    · exact (List.nodup_cons.mp hnd.2.1).1 h1
  rw [socketUnlink_next, socketUnlink_SocketHead, hprev]
  have hne : ∀ a ∈ L1 ++ L2, a ≠ S := fun a ha e => hS (e ▸ ha)
  cases hq : lastOr none L1 with
  | none =>
    rw [hq] at key
    exact IsSeg_congr key (fun a ha => (upd_ne _ _ (hne a ha)).symm)
  | some p =>
    rw [hq] at key
    exact IsSeg_congr key (fun a ha => (upd_ne _ _ (hne a ha)).symm)

/-- The function `IPClose2` returns and takes the socket from the socket list; it sends
nothing and calls no callback. -/
theorem IPClose2_list (fuel : Nat) (s : IPStack) (S : Nat) (T R Q L1 L2 : List Nat)
    (hT : FrameList s FrameQueue.send T) (hR : FrameList s FrameQueue.resend R)
    (hQ : FrameList s (FrameQueue.read S) Q) (hQR : ∀ f ∈ Q, f ∉ R)
    (hfT : T.length ≤ fuel) (hfR : R.length ≤ fuel) (hfQ : Q.length ≤ fuel)
    (hl : IsChain s.socket.next s.SocketHead (L1 ++ S :: L2))
    (hprev : s.socket.prev S = lastOr none L1) :
    ∃ s1, IPClose2 fuel s S = some s1 ∧ IsChain s1.socket.next s1.SocketHead (L1 ++ L2) ∧
      s1.socket.ack = s.socket.ack ∧ s1.socket.state = s.socket.state ∧ s1.sent = s.sent ∧
      s1.posted = s.posted ∧ s1.notified = s.notified := by
  have hheadT : s.FrameSendHead = T.head? := by
    have := FrameList_head hT
    rw [lastOr_reverse_eq_head] at this
    exact this
  have hheadR : s.FrameResendHead = R.head? := by
    have := FrameList_head hR
    rw [lastOr_reverse_eq_head] at this
    exact this
  have h0 : FrameList s FrameQueue.send ([] ++ T) := hT
  obtain ⟨σ, e1⟩ := closeSendLoop_eq S T [] fuel s h0 hfT
  have hR1 : FrameList { s with frame.socket := σ } FrameQueue.resend R :=
    FrameList_congr hR (fun _ _ => rfl) (fun _ _ => rfl) rfl rfl
  have hQ1 : FrameList { s with frame.socket := σ } (FrameQueue.read S) Q :=
    FrameList_congr hQ (fun _ _ => rfl) (fun _ _ => rfl) rfl rfl
  have e2 : closeResendLoop S fuel R.head? { s with frame.socket := σ } =
      some (removeWalk (fun f => decide (σ f = some S)) FrameQueue.resend R
        { s with frame.socket := σ }) :=
    closeResendLoop_eq S (fun f => decide (σ f = some S)) R [] fuel
      { s with frame.socket := σ } hR1 hfR (fun _ => rfl)
  have hQ2 := removeWalk_other (fun f => decide (σ f = some S)) hR1 hQ1 (by simp) hQR
  have hheadQ : (removeWalk (fun f => decide (σ f = some S)) FrameQueue.resend R
      { s with frame.socket := σ }).socket.frameReadHead S = Q.head? := by
    have := FrameList_head hQ2
    rw [lastOr_reverse_eq_head] at this
    exact this
  have e3 := closeReadLoop_eq S Q fuel _ hQ2 hfQ
  have e : IPClose2 fuel s S = some (socketUnlink (removeWalk (fun _ => true)
      (FrameQueue.read S) Q (removeWalk (fun f => decide (σ f = some S)) FrameQueue.resend R
        { s with frame.socket := σ })) S) := by
    unfold IPClose2
    rw [← hheadT] at e1
    rw [e1]
    simp only []
    have e2' : closeResendLoop S fuel ({ s with frame.socket := σ } : IPStack).FrameResendHead
        { s with frame.socket := σ } = some (removeWalk (fun f => decide (σ f = some S))
          FrameQueue.resend R { s with frame.socket := σ }) := by
      show closeResendLoop S fuel s.FrameResendHead _ = _
      rw [← hheadR] at e2
      exact e2
    rw [e2']
    simp only []
    rw [← hheadQ] at e3
    rw [e3]
  refine ⟨_, e, ?_, ?_, ?_, ?_, ?_, ?_⟩
  · refine socketUnlink_list _ S L1 L2 ?_ ?_
    · simpa using hl
    · simpa using hprev
  · rw [(socketUnlink_keeps _ S).1]
    simp
  · rw [(socketUnlink_keeps _ S).2.1]
    simp
  · rw [(socketUnlink_keeps _ S).2.2.1]
    simp
  · rw [(socketUnlink_keeps _ S).2.2.2.1]
    simp
  · rw [(socketUnlink_keeps _ S).2.2.2.2.1]
    simp
theorem FrameList_head_mem {s : IPStack} {q : FrameQueue} {L : List Nat} {a : Nat}
    (h : FrameList s q L) (ha : s.getHead q = some a) : a ∈ L := by
  rw [FrameList_head h] at ha
  exact lastOr_reverse_mem ha

/-- The transition that FIN and RST share: the socket is closed when its state is
`IP_FIN_SERVER`; if not, its state becomes `IP_FIN_CLIENT` and the callback is called. -/
theorem tcpFinish_spec (fuel : Nat) (s : IPStack) (S : Nat) (T R Q L1 L2 : List Nat)
    (hT : FrameList s FrameQueue.send T) (hR : FrameList s FrameQueue.resend R)
    (hQ : FrameList s (FrameQueue.read S) Q) (hQR : ∀ f ∈ Q, f ∉ R)
    (hfT : T.length ≤ fuel) (hfR : R.length ≤ fuel) (hfQ : Q.length ≤ fuel)
    (hl : IsChain s.socket.next s.SocketHead (L1 ++ S :: L2))
    (hprev : s.socket.prev S = lastOr none L1) :
    ∃ s2, tcpFinish fuel s S = some s2 ∧ s2.socket.ack = s.socket.ack ∧ s2.sent = s.sent ∧
      s2.posted = s.posted ∧
      (s.socket.state S = IP_FIN_SERVER →
        IsChain s2.socket.next s2.SocketHead (L1 ++ L2) ∧ s2.notified = s.notified) ∧
      (s.socket.state S ≠ IP_FIN_SERVER →
        s2.socket.state S = IP_FIN_CLIENT ∧
        IsChain s2.socket.next s2.SocketHead (L1 ++ S :: L2) ∧
        s2.notified = s.notified ++
          (match s.socket.funcPtr S with
            | some _ => [S]
            | none => [])) := by
  unfold tcpFinish
  by_cases hs : s.socket.state S = IP_FIN_SERVER
  · rw [if_pos hs]
    obtain ⟨s1, e, a1, a2, a3, a4, a5, a6⟩ :=
      IPClose2_list fuel s S T R Q L1 L2 hT hR hQ hQR hfT hfR hfQ hl hprev
    exact ⟨s1, e, a2, a4, a5, fun _ => ⟨a1, a6⟩, fun h => absurd hs h⟩
  · rw [if_neg hs]
    refine ⟨_, rfl, by simp, by simp, by simp, fun h => absurd h hs, fun _ => ⟨by simp, ?_, ?_⟩⟩
    · simpa using hl
    · unfold notify
      cases hf : s.socket.funcPtr S <;> simp [hf]

/-- C27 (as stated, refuted): the frame 107 holds a segment with FIN for the socket 11, which
is in the state `IP_TCP` with `ack = 1001` and a callback, and no frame is free.  Then
`IPProcessTCPPacket` returns 0 with `ack` still 1001, the state still `IP_TCP`, no callback
called and nothing sent. -/
theorem C27_fin_without_free_frame :
    finNoFrame.FrameFreeCount = 0 ∧
    finNoFrame.frame.packet 107 TCP_FLAGS &&& TCP_FLAGS_FIN ≠ 0 ∧
    tcpMatch finNoFrame (finNoFrame.frame.packet 107) 11 = true ∧
    finNoFrame.socket.state 11 = IP_TCP ∧ finNoFrame.socket.funcPtr 11 = some 7 ∧
    finNoFrame.socket.ack 11 = 1001 ∧
    (IPProcessTCPPacket smallConfig 8 finNoFrame none 107).map
      (fun r => (r.1.socket.ack 11, r.1.socket.state 11,
        decide (r.1.notified = finNoFrame.notified),
        decide (r.1.sent.length = finNoFrame.sent.length),
        decide (r.1.posted = finNoFrame.posted), r.2)) =
      some (1001, IP_TCP, true, true, true, 0) := by
  decide
/-- C27: a segment that is not a SYN without ACK arrives for the socket `S`, the first socket
that it matches; the send queue, the resend list and the read queue of `S` hold the frames
`T`, `R` and `Q`.  With FIN set and a free frame `g`, the function increments `S.ack`, sends
the frame `g` with 54 bytes, the flag ACK alone and the new `S.ack`, and then makes the
transition: a socket in the state `IP_FIN_SERVER` leaves the socket list, any other socket gets
the state `IP_FIN_CLIENT` and its callback is called.  With RST and without FIN the function
makes the same transition, for every state of the pool; `S.ack` is as before and nothing is
sent. -/
theorem C27_fin_rst (cfg : IPConfig) (fuel : Nat) (s : IPStack) (malloc : Option Nat)
    (frameIn S : Nat) (T R Q L1 L2 : List Nat)
    (hsocks : IsChain s.socket.next s.SocketHead (L1 ++ S :: L2))
    (hprev : s.socket.prev S = lastOr none L1) (hfuel : L1.length < fuel)
    (hfT : T.length < fuel) (hfR : R.length ≤ fuel) (hfQ : Q.length ≤ fuel)
    (hfirst : ∀ k ∈ L1, tcpMatch s (s.frame.packet frameIn) k = false)
    (hmatch : tcpMatch s (s.frame.packet frameIn) S = true)
    (hsyn : s.frame.packet frameIn TCP_FLAGS &&& (TCP_FLAGS_SYN ||| TCP_FLAGS_ACK) ≠
      TCP_FLAGS_SYN)
    (hT : FrameList s FrameQueue.send T) (hR : FrameList s FrameQueue.resend R)
    (hQ : FrameList s (FrameQueue.read S) Q) (hQR : ∀ f ∈ Q, f ∉ R)
    (hTR : ∀ f ∈ T, f ∉ R) (hTQ : ∀ f ∈ T, f ∉ Q) :
    (s.frame.packet frameIn TCP_FLAGS &&& TCP_FLAGS_FIN ≠ 0 →
      ∀ g, s.FrameFreeCount > 0 → s.FrameFreeHead = some g → g ∉ T → g ∉ R → g ∉ Q →
      ∃ s5 s2, Emits s s5 g 54 ∧ s5.frame.packet g TCP_FLAGS = TCP_FLAGS_ACK ∧
        load32 (s5.frame.packet g) TCP_ACK = (s.socket.ack S + 1) % 4294967296 ∧
        s5.socket.ack S = (s.socket.ack S + 1) % 4294967296 ∧
        s5.socket.state S = s.socket.state S ∧ s5.notified = s.notified ∧
        tcpFinish fuel s5 S = some s2 ∧
        IPProcessTCPPacket cfg fuel s malloc frameIn = some (s2, 0) ∧
        s2.socket.ack S = (s.socket.ack S + 1) % 4294967296 ∧
        s2.sent = s5.sent ∧ s2.posted = s5.posted ∧
        (s.socket.state S = IP_FIN_SERVER →
          IsChain s2.socket.next s2.SocketHead (L1 ++ L2) ∧ s2.notified = s.notified) ∧
        (s.socket.state S ≠ IP_FIN_SERVER →
          s2.socket.state S = IP_FIN_CLIENT ∧
          IsChain s2.socket.next s2.SocketHead (L1 ++ S :: L2) ∧
          s2.notified = s.notified ++
            (match s.socket.funcPtr S with
              | some _ => [S]
              | none => []))) ∧
    (s.frame.packet frameIn TCP_FLAGS &&& TCP_FLAGS_FIN = 0 →
      s.frame.packet frameIn TCP_FLAGS &&& TCP_FLAGS_RST ≠ 0 →
      ∃ s2, IPProcessTCPPacket cfg fuel s malloc frameIn = some (s2, 0) ∧
        s2.socket.ack S = s.socket.ack S ∧ s2.sent = s.sent ∧ s2.posted = s.posted ∧
        (s.socket.state S = IP_FIN_SERVER →
          IsChain s2.socket.next s2.SocketHead (L1 ++ L2) ∧ s2.notified = s.notified) ∧
        (s.socket.state S ≠ IP_FIN_SERVER →
          s2.socket.state S = IP_FIN_CLIENT ∧
          IsChain s2.socket.next s2.SocketHead (L1 ++ S :: L2) ∧
          s2.notified = s.notified ++
            (match s.socket.funcPtr S with
              | some _ => [S]
              | none => []))) := by
  have hfind := socketFind_some s (tcpMatch s (s.frame.packet frameIn)) S L2 L1 fuel _
    hsocks hfuel hfirst hmatch
  constructor
  · intro hfin g hcount hhead hgT hgR hgQ
    have hget : IPFrameGet
        { s with socket.timeout := upd s.socket.timeout S cfg.SOCKET_TIMEOUT } 0 =
        ({ s with socket.timeout := upd s.socket.timeout S cfg.SOCKET_TIMEOUT,
                  FrameFreeCount := s.FrameFreeCount - 1, FrameFreeHead := s.frame.next g,
                  frame.state := upd s.frame.state g 1 }, some g) :=
      IPFrameGet_eq (s := { s with socket.timeout := upd s.socket.timeout S cfg.SOCKET_TIMEOUT })
        hcount hhead
    obtain ⟨s4, hs4⟩ : ∃ s4 : IPStack, s4 =
        { s with socket.timeout := upd s.socket.timeout S cfg.SOCKET_TIMEOUT,
                 socket.ack := upd s.socket.ack S ((s.socket.ack S + 1) % 4294967296),
                 FrameFreeCount := s.FrameFreeCount - 1, FrameFreeHead := s.frame.next g,
                 frame.state := upd s.frame.state g 1,
                 frame.packet := upd s.frame.packet g
                   (upd (s.frame.packet g) TCP_FLAGS TCP_FLAGS_ACK) } := ⟨_, rfl⟩
    have hflags4 : s4.frame.packet g TCP_FLAGS = TCP_FLAGS_ACK := by
      rw [hs4]
      simp
    have hT4 : FrameList s4 FrameQueue.send T := by
      rw [hs4]
      exact FrameList_congr hT (fun _ _ => rfl) (fun _ _ => rfl) rfl rfl
    have hR4 : FrameList s4 FrameQueue.resend R := by
      rw [hs4]
      exact FrameList_congr hR (fun _ _ => rfl) (fun _ _ => rfl) rfl rfl
    have hQ4 : FrameList s4 (FrameQueue.read S) Q := by
      rw [hs4]
      exact FrameList_congr hQ (fun _ _ => rfl) (fun _ _ => rfl) rfl rfl
    have hsend4 : ∀ L : List Nat, (∀ f ∈ T, f ∉ L) → ∀ f ∈ L, s4.FrameSendHead ≠ some f := by
      intro L hd f hf hh
      exact hd f (FrameList_head_mem hT4 hh) hf
    have hT5 := TCPSendPacket_ack_send cfg s4 S g hflags4 hT4 hgT
    have hR5 := TCPSendPacket_ack_FrameList cfg s4 S g hflags4 hR4 (by simp) hgR
      (hsend4 R hTR)
    have hQ5 := TCPSendPacket_ack_FrameList cfg s4 S g hflags4 hQ4 (by simp) hgQ
      (hsend4 Q hTQ)
    have hsock5 : (TCPSendPacket cfg s4 S g TCP_DATA).socket = s4.socket := by simp
    have hl5 : IsChain (TCPSendPacket cfg s4 S g TCP_DATA).socket.next
        (TCPSendPacket cfg s4 S g TCP_DATA).SocketHead (L1 ++ S :: L2) := by
      rw [hsock5, TCPSendPacket_SocketHead, hs4]
      exact hsocks
    have hprev5 : (TCPSendPacket cfg s4 S g TCP_DATA).socket.prev S = lastOr none L1 := by
      rw [hsock5, hs4]
      exact hprev
    have hlen5 : (if s4.FrameSendFunc = none then g :: T else T).length ≤ fuel := by
      split_ifs
      · simp
        omega
      · omega
    obtain ⟨s2, b1, b2, b3, b4, b5, b6⟩ := tcpFinish_spec fuel (TCPSendPacket cfg s4 S g TCP_DATA)
      S _ R Q L1 L2 hT5 hR5 hQ5 hQR hlen5 hfR hfQ hl5 hprev5
    have hack5 : (TCPSendPacket cfg s4 S g TCP_DATA).socket.ack S =
        (s.socket.ack S + 1) % 4294967296 := by
      rw [hsock5, hs4]
      simp
    have hstate5 : (TCPSendPacket cfg s4 S g TCP_DATA).socket.state S = s.socket.state S := by
      rw [hsock5, hs4]
    have hfunc5 : (TCPSendPacket cfg s4 S g TCP_DATA).socket.funcPtr S = s.socket.funcPtr S := by
      rw [hsock5, hs4]
    have hnot5 : (TCPSendPacket cfg s4 S g TCP_DATA).notified = s.notified := by
      rw [TCPSendPacket_notified, hs4]
    refine ⟨TCPSendPacket cfg s4 S g TCP_DATA, s2, ?_, ?_, ?_, hack5, hstate5, hnot5, b1, ?_, ?_,
      b3, b4, ?_, ?_⟩
    · refine Emits_congr (TCPSendPacket_emits cfg s4 S g TCP_DATA) ?_ ?_ ?_ ?_ <;> rw [hs4]
    · rw [TCPSendPacket_flagsField, hflags4]
      decide
    · rw [TCPSendPacket_ackField, hs4]
      simp
    · unfold IPProcessTCPPacket
      simp only [hsyn, if_false, hfind, hfin, ne_eq, not_false_eq_true, if_true, hget]
      rw [hs4] at b1
      rw [b1]
    · rw [b2, hack5]
    · intro h
      have := b5 (hstate5.trans h)
      exact ⟨this.1, this.2.trans hnot5⟩
    · intro h
      have := b6 (fun e => h (hstate5.symm.trans e))
      refine ⟨this.1, this.2.1, ?_⟩
      rw [this.2.2, hnot5, hfunc5]
  · intro hfin hrst
    obtain ⟨s2, b1, b2, b3, b4, b5, b6⟩ := tcpFinish_spec fuel s S T R Q L1 L2 hT hR hQ hQR
      (Nat.le_of_lt hfT) hfR hfQ hsocks hprev
    refine ⟨s2, ?_, by rw [b2], b3, b4, b5, b6⟩
    unfold IPProcessTCPPacket
    simp only [hsyn, if_false, hfind, hfin, hrst, ne_eq, not_true_eq_false, not_false_eq_true,
      if_true, b1]
theorem C27_fin_rst_witness :
    ∃ s5 s2, Emits finArrival s5 105 54 ∧ s5.frame.packet 105 TCP_FLAGS = TCP_FLAGS_ACK ∧
      load32 (s5.frame.packet 105) TCP_ACK = (finArrival.socket.ack 11 + 1) % 4294967296 ∧
      s5.socket.ack 11 = (finArrival.socket.ack 11 + 1) % 4294967296 ∧
      s5.socket.state 11 = finArrival.socket.state 11 ∧ s5.notified = finArrival.notified ∧
      tcpFinish 8 s5 11 = some s2 ∧
      IPProcessTCPPacket smallConfig 8 finArrival none 107 = some (s2, 0) ∧
      s2.socket.ack 11 = (finArrival.socket.ack 11 + 1) % 4294967296 ∧
      s2.sent = s5.sent ∧ s2.posted = s5.posted ∧
      (finArrival.socket.state 11 = IP_FIN_SERVER →
        IsChain s2.socket.next s2.SocketHead ([] ++ [10]) ∧
        s2.notified = finArrival.notified) ∧
      (finArrival.socket.state 11 ≠ IP_FIN_SERVER →
        s2.socket.state 11 = IP_FIN_CLIENT ∧
        IsChain s2.socket.next s2.SocketHead ([] ++ 11 :: [10]) ∧
        s2.notified = finArrival.notified ++
          (match finArrival.socket.funcPtr 11 with
            | some _ => [11]
            | none => [])) :=
  (C27_fin_rst smallConfig 8 finArrival none 107 11 [] [106] [] [] [10] (by decide) (by decide)
    (by decide) (by decide) (by decide) (by decide) (by decide) (by decide) (by decide)
    (by decide) (by decide) (by decide) (by decide) (by decide) (by decide)).1 (by decide) 105
    (by decide) (by decide) (by decide) (by decide) (by decide)
/-! ## C25: retransmission -/

/-- The test of `IPFrameReschedule` that keeps a frame for a retransmission, but for the
count of the retries: the frame has a socket that is not a UDP socket, and a length that
counts. -/
theorem IPFrameReschedule_keep (cfg : IPConfig) (s : IPStack) (x k : Nat)
    (hs : s.frame.socket x = some k) (hu : s.socket.state k ≠ IP_UDP)
    (hl : 54 < s.frame.length x) (hr : s.frame.retryCnt x + 1 ≤ 4) :
    IPFrameReschedule cfg s x =
      FrameInsert { s with frame.retryCnt := upd s.frame.retryCnt x (s.frame.retryCnt x + 1),
                           frame.timeout := upd s.frame.timeout x cfg.RETRANSMIT_TIME }
        FrameQueue.resend x := by
  unfold IPFrameReschedule
  simp only [hs]
  have hlen : ¬ ((if s.frame.packet x TCP_FLAGS &&& (TCP_FLAGS_FIN ||| TCP_FLAGS_SYN) ≠ 0 then
      (s.frame.length x : Int) - TCP_DATA + 1 else (s.frame.length x : Int) - TCP_DATA) = 0) := by
    simp only [TCP_DATA]
    split_ifs <;> omega
  rw [if_neg (by
    intro h
    rcases h with h | h
    · exact hu h
    · exact hlen h)]
  simp only [upd_same]
  rw [if_neg (by omega)]

theorem IPFrameReschedule_drop (cfg : IPConfig) (s : IPStack) (x k : Nat)
    (hs : s.frame.socket x = some k) (hu : s.socket.state k ≠ IP_UDP)
    (hl : 54 < s.frame.length x) (hr : ¬ s.frame.retryCnt x + 1 ≤ 4) :
    IPFrameReschedule cfg s x =
      FrameFree { s with frame.retryCnt := upd s.frame.retryCnt x (s.frame.retryCnt x + 1) }
        x := by
  unfold IPFrameReschedule
  simp only [hs]
  have hlen : ¬ ((if s.frame.packet x TCP_FLAGS &&& (TCP_FLAGS_FIN ||| TCP_FLAGS_SYN) ≠ 0 then
      (s.frame.length x : Int) - TCP_DATA + 1 else (s.frame.length x : Int) - TCP_DATA) = 0) := by
    simp only [TCP_DATA]
    split_ifs <;> omega
  rw [if_neg (by
    intro h
    rcases h with h | h
    · exact hu h
    · exact hlen h)]
  simp only [upd_same]
  rw [if_pos (by omega)]

/-- The shape of the state after `IPFrameReschedule`: fields of the frame other than its links
change, and the frame is freed or put on the resend list. -/
theorem IPFrameReschedule_cases (cfg : IPConfig) (s : IPStack) (x : Nat) :
    ∃ X, SameButFrame s X x ∧ X.sent = s.sent ∧ X.posted = s.posted ∧
      (IPFrameReschedule cfg s x = FrameFree X x ∨
        IPFrameReschedule cfg s x = FrameInsert X FrameQueue.resend x) := by
  unfold IPFrameReschedule
  have hsame : ∀ (r : Nat → Int) (t : Nat → Int), (∀ a, a ≠ x → r a = s.frame.retryCnt a) →
      (∀ a, a ≠ x → t a = s.frame.timeout a) →
      SameButFrame s { s with frame.retryCnt := r, frame.timeout := t } x := by
    intro r t hr ht
    exact ⟨rfl, rfl, rfl, fun a ha => ⟨rfl, rfl, ht a ha, rfl, rfl, hr a ha⟩, rfl, rfl, rfl, rfl,
      rfl, rfl, rfl, rfl, rfl, rfl⟩
  cases hs : s.frame.socket x with
  | none => exact ⟨s, SameButFrame_refl s x, rfl, rfl, Or.inl rfl⟩
  | some k =>
    simp only []
    split_ifs <;>
      first
      | exact ⟨s, SameButFrame_refl s x, rfl, rfl, Or.inl rfl⟩
      | exact ⟨_, hsame _ _ (fun a ha => upd_ne _ _ ha) (fun _ _ => rfl), rfl, rfl, Or.inl rfl⟩
      | exact ⟨_, hsame _ _ (fun a ha => upd_ne _ _ ha) (fun a ha => upd_ne _ _ ha), rfl, rfl,
          Or.inr rfl⟩
theorem IPFrameReschedule_of_reschedules (cfg : IPConfig) (s : IPStack) (x : Nat)
    (h : reschedules s x) :
    IPFrameReschedule cfg s x =
      FrameInsert { s with frame.retryCnt := upd s.frame.retryCnt x (s.frame.retryCnt x + 1),
                           frame.timeout := upd s.frame.timeout x cfg.RETRANSMIT_TIME }
        FrameQueue.resend x := by
  obtain ⟨k, hs, hu, hl, hr⟩ := h
  unfold IPFrameReschedule
  simp only [hs]
  rw [if_neg (by
    intro h
    rcases h with h | h
    · exact hu h
    · exact hl h)]
  simp only [upd_same]
  rw [if_neg (by omega)]

theorem IPFrameReschedule_of_not (cfg : IPConfig) (s : IPStack) (x : Nat)
    (h : ¬ reschedules s x) :
    ∃ r, IPFrameReschedule cfg s x = FrameFree { s with frame.retryCnt := r } x ∧
      (∀ a, a ≠ x → r a = s.frame.retryCnt a) ∧
      (r x = s.frame.retryCnt x ∨ r x = s.frame.retryCnt x + 1) := by
  unfold IPFrameReschedule
  cases hs : s.frame.socket x with
  | none => exact ⟨s.frame.retryCnt, rfl, fun _ _ => rfl, Or.inl rfl⟩
  | some k =>
    simp only []
    by_cases hc : s.socket.state k = IP_UDP ∨
        (if s.frame.packet x TCP_FLAGS &&& (TCP_FLAGS_FIN ||| TCP_FLAGS_SYN) ≠ 0 then
          (s.frame.length x : Int) - TCP_DATA + 1 else (s.frame.length x : Int) - TCP_DATA) = 0
    · rw [if_pos hc]
      exact ⟨s.frame.retryCnt, rfl, fun _ _ => rfl, Or.inl rfl⟩
    · rw [if_neg hc]
      simp only [upd_same]
      have hr : s.frame.retryCnt x + 1 > 4 := by
        by_contra hr
        exact h ⟨k, hs, fun e => hc (Or.inl e), fun e => hc (Or.inr e), by omega⟩
      rw [if_pos hr]
      exact ⟨_, rfl, fun a ha => upd_ne _ _ ha, Or.inr (upd_same _ _ _)⟩

theorem IPSendFrame_direct (cfg : IPConfig) (s : IPStack) (x F : Nat)
    (hF : s.FrameSendFunc = some F) :
    IPSendFrame cfg s x = IPFrameReschedule cfg
      { s with sent := s.sent ++ [(x, s.frame.packet x, s.frame.length x)] } x := by
  unfold IPSendFrame
  simp only [hF]

/-- The step of the loop of `IPTick` for a frame whose time is up, with a link-layer function:
the frame is sent, and freed or put back at the head of the list. -/
theorem resendStep_cases (cfg : IPConfig) (s : IPStack) (x F : Nat)
    (hF : s.FrameSendFunc = some F) :
    (reschedules s x ∧ IPSendFrame cfg (FrameRemove s FrameQueue.resend x) x =
      FrameInsert
        { FrameRemove s FrameQueue.resend x with
          sent := s.sent ++ [(x, s.frame.packet x, s.frame.length x)],
          frame.retryCnt := upd s.frame.retryCnt x (s.frame.retryCnt x + 1),
          frame.timeout := upd s.frame.timeout x cfg.RETRANSMIT_TIME }
        FrameQueue.resend x) ∨
    (¬ reschedules s x ∧ ∃ r, IPSendFrame cfg (FrameRemove s FrameQueue.resend x) x =
      FrameFree
        { FrameRemove s FrameQueue.resend x with
          sent := s.sent ++ [(x, s.frame.packet x, s.frame.length x)],
          frame.retryCnt := r } x ∧
      (∀ a, a ≠ x → r a = s.frame.retryCnt a) ∧
      (r x = s.frame.retryCnt x ∨ r x = s.frame.retryCnt x + 1)) := by
  have hF1 : (FrameRemove s FrameQueue.resend x).FrameSendFunc = some F := by
    rw [FrameRemove_FrameSendFunc, hF]
  have e := IPSendFrame_direct cfg _ x F hF1
  have hk : reschedules { FrameRemove s FrameQueue.resend x with
      sent := (FrameRemove s FrameQueue.resend x).sent ++
        [(x, (FrameRemove s FrameQueue.resend x).frame.packet x,
          (FrameRemove s FrameQueue.resend x).frame.length x)] } x ↔ reschedules s x := by
    unfold reschedules
    simp
  by_cases h : reschedules s x
  · refine Or.inl ⟨h, ?_⟩
    rw [e, IPFrameReschedule_of_reschedules cfg _ x (hk.mpr h)]
    simp
  · refine Or.inr ⟨h, ?_⟩
    obtain ⟨r, e2, h1, h2⟩ := IPFrameReschedule_of_not cfg _ x (fun hh => h (hk.mp hh))
    refine ⟨r, ?_, ?_, ?_⟩
    · rw [e, e2]
      simp
    · intro a ha
      rw [h1 a ha]
      simp
    · simpa using h2
/-! ### The loop of `IPTick` over the resend list, field by field -/

@[simp] theorem resendWalk_frame_packet (cfg : IPConfig) :
    ∀ (L : List Nat) (s : IPStack), (resendWalk cfg L s).frame.packet = s.frame.packet := by
  intro L
  induction L with
  | nil => intro s; rfl
  | cons x l ih =>
    intro s
    rw [resendWalk, ih]
    unfold resendStep
    simp only []
    split <;> simp

@[simp] theorem resendWalk_frame_socket (cfg : IPConfig) :
    ∀ (L : List Nat) (s : IPStack), (resendWalk cfg L s).frame.socket = s.frame.socket := by
  intro L
  induction L with
  | nil => intro s; rfl
  | cons x l ih =>
    intro s
    rw [resendWalk, ih]
    unfold resendStep
    simp only []
    split <;> simp

@[simp] theorem resendWalk_frame_seqEnd (cfg : IPConfig) :
    ∀ (L : List Nat) (s : IPStack), (resendWalk cfg L s).frame.seqEnd = s.frame.seqEnd := by
  intro L
  induction L with
  | nil => intro s; rfl
  | cons x l ih =>
    intro s
    rw [resendWalk, ih]
    unfold resendStep
    simp only []
    split <;> simp

@[simp] theorem resendWalk_frame_length (cfg : IPConfig) :
    ∀ (L : List Nat) (s : IPStack), (resendWalk cfg L s).frame.length = s.frame.length := by
  intro L
  induction L with
  | nil => intro s; rfl
  | cons x l ih =>
    intro s
    rw [resendWalk, ih]
    unfold resendStep
    simp only []
    split <;> simp

@[simp] theorem resendWalk_socket (cfg : IPConfig) :
    ∀ (L : List Nat) (s : IPStack), (resendWalk cfg L s).socket = s.socket := by
  intro L
  induction L with
  | nil => intro s; rfl
  | cons x l ih =>
    intro s
    rw [resendWalk, ih]
    unfold resendStep
    simp only []
    split <;> simp

@[simp] theorem resendWalk_SocketHead (cfg : IPConfig) :
    ∀ (L : List Nat) (s : IPStack), (resendWalk cfg L s).SocketHead = s.SocketHead := by
  intro L
  induction L with
  | nil => intro s; rfl
  | cons x l ih =>
    intro s
    rw [resendWalk, ih]
    unfold resendStep
    simp only []
    split <;> simp

@[simp] theorem resendWalk_Seconds (cfg : IPConfig) :
    ∀ (L : List Nat) (s : IPStack), (resendWalk cfg L s).Seconds = s.Seconds := by
  intro L
  induction L with
  | nil => intro s; rfl
  | cons x l ih =>
    intro s
    rw [resendWalk, ih]
    unfold resendStep
    simp only []
    split <;> simp

@[simp] theorem resendWalk_DhcpRetrySeconds (cfg : IPConfig) :
    ∀ (L : List Nat) (s : IPStack), (resendWalk cfg L s).DhcpRetrySeconds = s.DhcpRetrySeconds := by
  intro L
  induction L with
  | nil => intro s; rfl
  | cons x l ih =>
    intro s
    rw [resendWalk, ih]
    unfold resendStep
    simp only []
    split <;> simp

@[simp] theorem resendWalk_FrameSendFunc (cfg : IPConfig) :
    ∀ (L : List Nat) (s : IPStack), (resendWalk cfg L s).FrameSendFunc = s.FrameSendFunc := by
  intro L
  induction L with
  | nil => intro s; rfl
  | cons x l ih =>
    intro s
    rw [resendWalk, ih]
    unfold resendStep
    simp only []
    split <;> simp

@[simp] theorem resendWalk_ethernetAddressGateway (cfg : IPConfig) :
    ∀ (L : List Nat) (s : IPStack), (resendWalk cfg L s).ethernetAddressGateway = s.ethernetAddressGateway := by
  intro L
  induction L with
  | nil => intro s; rfl
  | cons x l ih =>
    intro s
    rw [resendWalk, ih]
    unfold resendStep
    simp only []
    split <;> simp

@[simp] theorem resendWalk_ipAddressPlasma (cfg : IPConfig) :
    ∀ (L : List Nat) (s : IPStack), (resendWalk cfg L s).ipAddressPlasma = s.ipAddressPlasma := by
  intro L
  induction L with
  | nil => intro s; rfl
  | cons x l ih =>
    intro s
    rw [resendWalk, ih]
    unfold resendStep
    simp only []
    split <;> simp

@[simp] theorem resendWalk_ipAddressGateway (cfg : IPConfig) :
    ∀ (L : List Nat) (s : IPStack), (resendWalk cfg L s).ipAddressGateway = s.ipAddressGateway := by
  intro L
  induction L with
  | nil => intro s; rfl
  | cons x l ih =>
    intro s
    rw [resendWalk, ih]
    unfold resendStep
    simp only []
    split <;> simp

@[simp] theorem resendWalk_ipAddressDns (cfg : IPConfig) :
    ∀ (L : List Nat) (s : IPStack), (resendWalk cfg L s).ipAddressDns = s.ipAddressDns := by
  intro L
  induction L with
  | nil => intro s; rfl
  | cons x l ih =>
    intro s
    rw [resendWalk, ih]
    unfold resendStep
    simp only []
    split <;> simp

@[simp] theorem resendWalk_request (cfg : IPConfig) :
    ∀ (L : List Nat) (s : IPStack), (resendWalk cfg L s).request = s.request := by
  intro L
  induction L with
  | nil => intro s; rfl
  | cons x l ih =>
    intro s
    rw [resendWalk, ih]
    unfold resendStep
    simp only []
    split <;> simp

@[simp] theorem resendWalk_portSource (cfg : IPConfig) :
    ∀ (L : List Nat) (s : IPStack), (resendWalk cfg L s).portSource = s.portSource := by
  intro L
  induction L with
  | nil => intro s; rfl
  | cons x l ih =>
    intro s
    rw [resendWalk, ih]
    unfold resendStep
    simp only []
    split <;> simp

@[simp] theorem resendWalk_notified (cfg : IPConfig) :
    ∀ (L : List Nat) (s : IPStack), (resendWalk cfg L s).notified = s.notified := by
  intro L
  induction L with
  | nil => intro s; rfl
  | cons x l ih =>
    intro s
    rw [resendWalk, ih]
    unfold resendStep
    simp only []
    split <;> simp
theorem sentCount_append (s : IPStack) (a x : Nat) (p : Nat → Nat) (n : Nat)
    (sent : List (Nat × (Nat → Nat) × Nat)) (h : sent = s.sent ++ [(x, p, n)]) :
    (sent.filter (fun e => e.1 = a)).length = sentCount s a + (if x = a then 1 else 0) := by
  rw [h, List.filter_append, List.length_append]
  unfold sentCount
  by_cases hx : x = a <;> simp [hx]

theorem resendStep_eq (cfg : IPConfig) (s : IPStack) (x : Nat) :
    resendStep cfg s x =
      if s.frame.timeout x - 1 = 0 then
        IPSendFrame cfg (FrameRemove
          { s with frame.timeout := upd s.frame.timeout x (s.frame.timeout x - 1) }
          FrameQueue.resend x) x
      else { s with frame.timeout := upd s.frame.timeout x (s.frame.timeout x - 1) } := by
  unfold resendStep
  simp only [upd_same]

theorem resendStep_FrameSendFunc (cfg : IPConfig) (s : IPStack) (x : Nat) :
    (resendStep cfg s x).FrameSendFunc = s.FrameSendFunc := by
  rw [resendStep_eq]
  split <;> simp

theorem resendStep_socket (cfg : IPConfig) (s : IPStack) (x : Nat) :
    (resendStep cfg s x).socket = s.socket := by
  rw [resendStep_eq]
  split <;> simp

/-- An iteration leaves alone the time, the count of retries and the state of the other
frames, and the number of times that they have been sent. -/
theorem resendStep_other (cfg : IPConfig) (s : IPStack) (x a F : Nat)
    (hF : s.FrameSendFunc = some F) (hax : a ≠ x) :
    (resendStep cfg s x).frame.timeout a = s.frame.timeout a ∧
    (resendStep cfg s x).frame.retryCnt a = s.frame.retryCnt a ∧
    (resendStep cfg s x).frame.state a = s.frame.state a ∧
    sentCount (resendStep cfg s x) a = sentCount s a := by
  rw [resendStep_eq]
  split_ifs with ht
  · have hF1 : ({ s with frame.timeout := upd s.frame.timeout x (s.frame.timeout x - 1) } :
        IPStack).FrameSendFunc = some F := hF
    have hcount := sentCount_append s a x (s.frame.packet x) (s.frame.length x) _ rfl
    rw [if_neg (fun e => hax e.symm)] at hcount
    rcases resendStep_cases cfg _ x F hF1 with ⟨_, e⟩ | ⟨_, r, e, h1, _⟩
    · rw [e]
      refine ⟨?_, ?_, ?_, ?_⟩
      · simp [upd_ne _ _ hax]
      · simp [upd_ne _ _ hax]
      · simp [upd_ne _ _ hax]
      · unfold sentCount
        rw [FrameInsert_sent]
        exact hcount
    · rw [e]
      refine ⟨?_, ?_, ?_, ?_⟩
      · simp [upd_ne _ _ hax]
      · simp [h1 a hax]
      · simp [upd_ne _ _ hax]
      · unfold sentCount
        rw [FrameFree_sent]
        exact hcount
  · exact ⟨upd_ne _ _ hax, rfl, rfl, rfl⟩

/-- The walk leaves alone the time, the count of retries and the state of a frame that it
does not visit, and the number of times that the frame has been sent. -/
theorem resendWalk_other (cfg : IPConfig) (F a : Nat) :
    ∀ (L : List Nat) (s : IPStack), s.FrameSendFunc = some F → a ∉ L →
      (resendWalk cfg L s).frame.timeout a = s.frame.timeout a ∧
      (resendWalk cfg L s).frame.retryCnt a = s.frame.retryCnt a ∧
      (resendWalk cfg L s).frame.state a = s.frame.state a ∧
      sentCount (resendWalk cfg L s) a = sentCount s a := by
  intro L
  induction L with
  | nil => intro s _ _; exact ⟨rfl, rfl, rfl, rfl⟩
  | cons x l ih =>
    intro s hF ha
    have hax : a ≠ x := fun e => ha (e ▸ List.mem_cons_self _ _)
    have hal : a ∉ l := fun h => ha (List.mem_cons_of_mem _ h)
    obtain ⟨c1, c2, c3, c4⟩ := resendStep_other cfg s x a F hF hax
    obtain ⟨b1, b2, b3, b4⟩ := ih (resendStep cfg s x)
      ((resendStep_FrameSendFunc cfg s x).trans hF) hal
    rw [resendWalk, b1, b2, b3, b4]
    exact ⟨c1, c2, c3, c4⟩
theorem resendStep_frame_packet (cfg : IPConfig) (s : IPStack) (x : Nat) :
    (resendStep cfg s x).frame.packet = s.frame.packet := by
  rw [resendStep_eq]
  split <;> simp

theorem resendStep_frame_socket (cfg : IPConfig) (s : IPStack) (x : Nat) :
    (resendStep cfg s x).frame.socket = s.frame.socket := by
  rw [resendStep_eq]
  split <;> simp

theorem resendStep_frame_length (cfg : IPConfig) (s : IPStack) (x : Nat) :
    (resendStep cfg s x).frame.length = s.frame.length := by
  rw [resendStep_eq]
  split <;> simp

theorem resendStep_frame_seqEnd (cfg : IPConfig) (s : IPStack) (x : Nat) :
    (resendStep cfg s x).frame.seqEnd = s.frame.seqEnd := by
  rw [resendStep_eq]
  split <;> simp

theorem reschedules_congr {s s1 : IPStack} {a : Nat}
    (h1 : s1.frame.socket = s.frame.socket) (h2 : s1.socket = s.socket)
    (h3 : s1.frame.packet = s.frame.packet) (h4 : s1.frame.length = s.frame.length)
    (h5 : s1.frame.retryCnt a = s.frame.retryCnt a) : reschedules s1 a ↔ reschedules s a := by
  unfold reschedules
  rw [h1, h2, h3, h4, h5]

theorem staysOnResend_step (cfg : IPConfig) (s : IPStack) (x a F : Nat)
    (hF : s.FrameSendFunc = some F) (hax : a ≠ x) :
    staysOnResend (resendStep cfg s x) a ↔ staysOnResend s a := by
  obtain ⟨c1, c2, _, _⟩ := resendStep_other cfg s x a F hF hax
  unfold staysOnResend
  rw [c1, reschedules_congr (resendStep_frame_socket cfg s x) (resendStep_socket cfg s x)
    (resendStep_frame_packet cfg s x) (resendStep_frame_length cfg s x) c2]

theorem mem_of_mem_append_erase {P R : List Nat} {x a : Nat} (h : a ∈ P ++ R) :
    a ∈ P ++ x :: R := by
  rcases List.mem_append.mp h with h1 | h1
  · exact List.mem_append_left _ h1
  · exact List.mem_append_right _ (List.mem_cons_of_mem _ h1)

theorem not_mem_rest {P R : List Nat} {x : Nat} (hnd : (P ++ x :: R).Nodup) : x ∉ P ++ R := by
  intro hm
  rw [List.nodup_append] at hnd
  rcases List.mem_append.mp hm with h1 | h1
  · exact hnd.2.2 h1 (List.mem_cons_self _ _)
  · exact (List.nodup_cons.mp hnd.2.1).1 h1

/-- The resend list and the head of the free list after one iteration of the loop of `IPTick`,
with a link-layer function. -/
theorem resendStep_list (cfg : IPConfig) (s : IPStack) (x F : Nat) (P R : List Nat)
    (hF : s.FrameSendFunc = some F) (h : FrameList s FrameQueue.resend (P ++ x :: R)) :
    (s.frame.timeout x - 1 ≠ 0 ∧ FrameList (resendStep cfg s x) FrameQueue.resend (P ++ x :: R) ∧
      (resendStep cfg s x).FrameFreeHead = s.FrameFreeHead) ∨
    (s.frame.timeout x - 1 = 0 ∧ reschedules s x ∧
      FrameList (resendStep cfg s x) FrameQueue.resend (x :: (P ++ R)) ∧
      (resendStep cfg s x).FrameFreeHead = s.FrameFreeHead) ∨
    (s.frame.timeout x - 1 = 0 ∧ ¬ reschedules s x ∧
      FrameList (resendStep cfg s x) FrameQueue.resend (P ++ R) ∧
      (resendStep cfg s x).FrameFreeHead = some x ∧ (resendStep cfg s x).frame.state x = 0) := by
  have hx := not_mem_rest (FrameList_nodup h)
  have h1 : FrameList { s with frame.timeout := upd s.frame.timeout x (s.frame.timeout x - 1) }
      FrameQueue.resend (P ++ x :: R) :=
    FrameList_congr h (fun _ _ => rfl) (fun _ _ => rfl) rfl rfl
  rw [resendStep_eq]
  by_cases ht : s.frame.timeout x - 1 = 0
  · rw [if_pos ht]
    have h2 := FrameList_remove h1
    have hres : reschedules
        { s with frame.timeout := upd s.frame.timeout x (s.frame.timeout x - 1) } x ↔
        reschedules s x := reschedules_congr rfl rfl rfl rfl rfl
    rcases resendStep_cases cfg
      { s with frame.timeout := upd s.frame.timeout x (s.frame.timeout x - 1) } x F hF with
      ⟨hk, e⟩ | ⟨hk, r, e, _, _⟩
    · refine Or.inr (Or.inl ⟨ht, hres.mp hk, ?_, ?_⟩)
      · rw [e]
        exact FrameList_insert x (FrameList_congr h2 (fun _ _ => rfl) (fun _ _ => rfl) rfl rfl)
          hx
      · rw [e]
        simp
    · refine Or.inr (Or.inr ⟨ht, fun hh => hk (hres.mpr hh), ?_, ?_, ?_⟩)
      · rw [e]
        exact FrameList_free (FrameList_congr h2 (fun _ _ => rfl) (fun _ _ => rfl) rfl rfl) hx
      · rw [e]
        simp
      · rw [e]
        simp
  · rw [if_neg ht]
    exact Or.inl ⟨ht, h1, rfl⟩
theorem resendLoop_none (cfg : IPConfig) (fuel : Nat) (s : IPStack) :
    resendLoop cfg fuel none s = some s := by
  cases fuel <;> rfl

theorem resendLoop_succ (cfg : IPConfig) (fuel x : Nat) (s : IPStack) :
    resendLoop cfg (fuel + 1) (some x) s =
      resendLoop cfg fuel (s.frame.next x) (resendStep cfg s x) := by
  rw [resendLoop, resendStep]
  simp only []
  split <;> rfl

/-- The first loop of `IPTick`, with a link-layer function, on the resend list `P ++ R2` from
the first frame of `R2`: it returns, the resend list after it holds the frames of `P` and the
frames of `R2` that stay, none of them the head of the free list, and the frames that do not
stay are free. -/
theorem resendLoop_eq (cfg : IPConfig) (F : Nat) :
    ∀ (R2 P : List Nat) (fuel : Nat) (s : IPStack), s.FrameSendFunc = some F →
      FrameList s FrameQueue.resend (P ++ R2) → R2.length ≤ fuel →
      (∀ a ∈ P ++ R2, s.FrameFreeHead ≠ some a) →
      resendLoop cfg fuel R2.head? s = some (resendWalk cfg R2 s) ∧
      ∃ P1, FrameList (resendWalk cfg R2 s) FrameQueue.resend P1 ∧
        P1.length ≤ (P ++ R2).length ∧ (∀ a ∈ P1, a ∈ P ++ R2) ∧
        (∀ a ∈ P1, (resendWalk cfg R2 s).FrameFreeHead ≠ some a) ∧ (∀ a ∈ P, a ∈ P1) ∧
        (∀ a ∈ R2, (a ∈ P1 ↔ staysOnResend s a) ∧
          (¬ staysOnResend s a → (resendWalk cfg R2 s).frame.state a = 0)) := by
  intro R2
  induction R2 with
  | nil =>
    intro P fuel s _ h _ hfree
    refine ⟨resendLoop_none cfg fuel s, P, ?_, ?_, ?_, ?_, fun _ ha => ha, ?_⟩
    · simpa using h
    · simp
    · simp
    · simpa using hfree
    · simp
  | cons x R ih =>
    intro P fuel s hF h hfuel hfree
    obtain ⟨n, rfl⟩ : ∃ n, fuel = n + 1 := ⟨fuel - 1, by simp at hfuel; omega⟩
    have hn : R.length ≤ n := by simp at hfuel; omega
    have hnd := FrameList_nodup h
    have hx := not_mem_rest hnd
    have hxR : x ∉ R := fun hm => hx (List.mem_append_right _ hm)
    have hF3 : (resendStep cfg s x).FrameSendFunc = some F :=
      (resendStep_FrameSendFunc cfg s x).trans hF
    have hstay : ∀ a ∈ R, staysOnResend (resendStep cfg s x) a ↔ staysOnResend s a :=
      fun a ha => staysOnResend_step cfg s x a F hF (fun e => hxR (e ▸ ha))
    rw [List.head?_cons, resendLoop_succ, FrameList_next_head h, resendWalk]
    rcases resendStep_list cfg s x F P R hF h with ⟨ht, hl, hh⟩ | ⟨ht, hk, hl, hh⟩ |
      ⟨ht, hk, hl, hh, hst⟩
    · obtain ⟨e, P1, a1, a2, a3, a4, a5, a6⟩ := ih (P ++ [x]) n (resendStep cfg s x) hF3
        (by rw [List.append_assoc]; exact hl) hn
        (by
          intro a ha
          rw [hh]
          exact hfree a (by simpa using ha))
      refine ⟨e, P1, a1, ?_, ?_, a4, ?_, ?_⟩
      · simpa using a2
      · intro a ha
        simpa using a3 a ha
      · intro a ha
        exact a5 a (List.mem_append_left _ ha)
      · intro a ha
        rcases List.mem_cons.mp ha with e1 | ha
        · rw [e1]
          refine ⟨⟨fun _ => Or.inl ht, fun _ => a5 x (by simp)⟩, fun hns => ?_⟩
          exact absurd (Or.inl ht) hns
        · exact ⟨(a6 a ha).1.trans (hstay a ha), fun hns =>
            (a6 a ha).2 (fun hh => hns ((hstay a ha).mp hh))⟩
    · obtain ⟨e, P1, a1, a2, a3, a4, a5, a6⟩ := ih (x :: P) n (resendStep cfg s x) hF3 hl hn
        (by
          intro a ha
          rw [hh]
          refine hfree a ?_
          rcases List.mem_append.mp ha with h1 | h1
          · rcases List.mem_cons.mp h1 with e1 | h1
            · rw [e1]
              simp
            · exact List.mem_append_left _ h1
          · exact List.mem_append_right _ (List.mem_cons_of_mem _ h1))
      refine ⟨e, P1, a1, ?_, ?_, a4, ?_, ?_⟩
      · simp at a2 ⊢
        omega
      · intro a ha
        have := a3 a ha
        simp at this ⊢
        tauto
      · intro a ha
        exact a5 a (List.mem_cons_of_mem _ ha)
      · intro a ha
        rcases List.mem_cons.mp ha with e1 | ha
        · rw [e1]
          refine ⟨⟨fun _ => Or.inr hk, fun _ => a5 x (List.mem_cons_self _ _)⟩, fun hns => ?_⟩
          exact absurd (Or.inr hk) hns
        · exact ⟨(a6 a ha).1.trans (hstay a ha), fun hns =>
            (a6 a ha).2 (fun hh => hns ((hstay a ha).mp hh))⟩
    · obtain ⟨e, P1, a1, a2, a3, a4, a5, a6⟩ := ih P n (resendStep cfg s x) hF3 hl hn
        (by
          intro a ha hhead
          rw [hh] at hhead
          cases hhead
          exact hx ha)
      refine ⟨e, P1, a1, ?_, ?_, a4, a5, ?_⟩
      · simp at a2 ⊢
        omega
      · intro a ha
        exact mem_of_mem_append_erase (a3 a ha)
      · intro a ha
        rcases List.mem_cons.mp ha with e1 | ha
        · rw [e1]
          have hns : ¬ staysOnResend s x := by
            intro hs
            rcases hs with hs | hs
            · exact hs ht
            · exact hk hs
          refine ⟨⟨fun hm => absurd (a3 x hm) hx, fun hs => absurd hs hns⟩, fun _ => ?_⟩
          rw [(resendWalk_other cfg F x R (resendStep cfg s x) hF3 hxR).2.2.1]
          exact hst
        · exact ⟨(a6 a ha).1.trans (hstay a ha), fun hns =>
            (a6 a ha).2 (fun hh => hns ((hstay a ha).mp hh))⟩
/-- What an iteration does to its own frame: the time is counted down; when it is up, the
frame is sent once more, and if `IPFrameReschedule` keeps it, its time is `RETRANSMIT_TIME` and
its count of retries is one more. -/
theorem resendStep_self (cfg : IPConfig) (s : IPStack) (x F : Nat)
    (hF : s.FrameSendFunc = some F) :
    (s.frame.timeout x - 1 ≠ 0 →
      (resendStep cfg s x).frame.timeout x = s.frame.timeout x - 1 ∧
      (resendStep cfg s x).frame.retryCnt x = s.frame.retryCnt x ∧
      sentCount (resendStep cfg s x) x = sentCount s x) ∧
    (s.frame.timeout x - 1 = 0 →
      sentCount (resendStep cfg s x) x = sentCount s x + 1 ∧
      (reschedules s x →
        (resendStep cfg s x).frame.timeout x = cfg.RETRANSMIT_TIME ∧
        (resendStep cfg s x).frame.retryCnt x = s.frame.retryCnt x + 1)) := by
  rw [resendStep_eq]
  constructor
  · intro ht
    rw [if_neg ht]
    exact ⟨upd_same _ _ _, rfl, rfl⟩
  · intro ht
    rw [if_pos ht]
    have hcount := sentCount_append s x x (s.frame.packet x) (s.frame.length x) _ rfl
    rw [if_pos rfl] at hcount
    have hres : reschedules
        { s with frame.timeout := upd s.frame.timeout x (s.frame.timeout x - 1) } x ↔
        reschedules s x := reschedules_congr rfl rfl rfl rfl rfl
    rcases resendStep_cases cfg
      { s with frame.timeout := upd s.frame.timeout x (s.frame.timeout x - 1) } x F hF with
      ⟨_, e⟩ | ⟨hk, r, e, _, _⟩
    · rw [e]
      refine ⟨?_, fun _ => ⟨by simp, by simp⟩⟩
      unfold sentCount
      rw [FrameInsert_sent]
      exact hcount
    · rw [e]
      refine ⟨?_, fun hh => absurd (hres.mpr hh) hk⟩
      unfold sentCount
      rw [FrameFree_sent]
      exact hcount

/-- What the walk does to a frame that it visits. -/
theorem resendWalk_self (cfg : IPConfig) (F f : Nat) :
    ∀ (L : List Nat) (s : IPStack), s.FrameSendFunc = some F → L.Nodup → f ∈ L →
      (s.frame.timeout f - 1 ≠ 0 →
        (resendWalk cfg L s).frame.timeout f = s.frame.timeout f - 1 ∧
        (resendWalk cfg L s).frame.retryCnt f = s.frame.retryCnt f ∧
        sentCount (resendWalk cfg L s) f = sentCount s f) ∧
      (s.frame.timeout f - 1 = 0 →
        sentCount (resendWalk cfg L s) f = sentCount s f + 1 ∧
        (reschedules s f →
          (resendWalk cfg L s).frame.timeout f = cfg.RETRANSMIT_TIME ∧
          (resendWalk cfg L s).frame.retryCnt f = s.frame.retryCnt f + 1)) := by
  intro L
  induction L with
  | nil => intro s _ _ hf; cases hf
  | cons x l ih =>
    intro s hF hnd hf
    have hF3 : (resendStep cfg s x).FrameSendFunc = some F :=
      (resendStep_FrameSendFunc cfg s x).trans hF
    have hxl : x ∉ l := (List.nodup_cons.mp hnd).1
    rw [resendWalk]
    by_cases hfx : f = x
    · subst hfx
      obtain ⟨b1, b2, _, b4⟩ := resendWalk_other cfg F f l (resendStep cfg s f) hF3 hxl
      rw [b1, b2, b4]
      exact resendStep_self cfg s f F hF
    · have hfl : f ∈ l := by
        rcases List.mem_cons.mp hf with e | h
        · exact absurd e hfx
        · exact h
      obtain ⟨c1, c2, _, c4⟩ := resendStep_other cfg s x f F hF hfx
      have := ih (resendStep cfg s x) hF3 (List.nodup_cons.mp hnd).2 hfl
      rw [c1, c2, c4, reschedules_congr (resendStep_frame_socket cfg s x)
        (resendStep_socket cfg s x) (resendStep_frame_packet cfg s x)
        (resendStep_frame_length cfg s x) c2] at this
      exact this
/-- The function `IPSendPacket` fills fields of the frame and hands it to `IPSendFrame`. -/
theorem IPSendPacket_prepare (cfg : IPConfig) (s : IPStack) (socket : Option Nat) (g : Nat)
    (length : Int) :
    ∃ s6, IPSendPacket cfg s socket g length = IPSendFrame cfg s6 g ∧ SameButFrame s s6 g ∧
      s6.sent = s.sent ∧ s6.posted = s.posted ∧ s6.frame.socket g = socket := by
  unfold IPSendPacket
  cases socket with
  | none =>
    refine ⟨_, rfl, ⟨rfl, rfl, rfl, fun a ha => ?_, rfl, rfl, rfl, rfl, rfl, rfl, rfl,
      rfl, rfl, rfl⟩, rfl, rfl, ?_⟩
    · simp [upd_ne _ _ ha]
    · simp
  | some k =>
    refine ⟨_, rfl, ⟨rfl, rfl, rfl, fun a ha => ?_, rfl, rfl, rfl, rfl, rfl, rfl, rfl,
      rfl, rfl, rfl⟩, rfl, rfl, ?_⟩
    · simp [upd_ne _ _ ha]
    · simp

/-- A frame without a socket that is sent with a link-layer function is free after it. -/
theorem IPSendPacket_none_direct (cfg : IPConfig) (s : IPStack) (g F : Nat) (length : Int)
    (hF : s.FrameSendFunc = some F) :
    ∃ X, SameButFrame s X g ∧ X.sent = s.sent ++ [(g, X.frame.packet g, X.frame.length g)] ∧
      IPSendPacket cfg s none g length = FrameFree X g := by
  obtain ⟨s6, e, h1, h2, _, h4⟩ := IPSendPacket_prepare cfg s none g length
  have hF6 : s6.FrameSendFunc = some F := h1.2.2.2.2.2.2.2.2.2.2.2.2.1.trans hF
  have hn : ¬ reschedules
      { s6 with sent := s6.sent ++ [(g, s6.frame.packet g, s6.frame.length g)] } g := by
    rintro ⟨k, hk, _⟩
    rw [show ({ s6 with sent := s6.sent ++ [(g, s6.frame.packet g, s6.frame.length g)] } :
      IPStack).frame.socket g = s6.frame.socket g from rfl, h4] at hk
    cases hk
  obtain ⟨r, e2, hr, _⟩ := IPFrameReschedule_of_not cfg _ g hn
  refine ⟨{ s6 with sent := s6.sent ++ [(g, s6.frame.packet g, s6.frame.length g)],
                    frame.retryCnt := r }, ?_, ?_, ?_⟩
  · obtain ⟨a1, a2, a3, a4, a5, a6, a7, a8, a9, a10, a11, a12, a13, a14⟩ := h1
    refine ⟨a1, a2, a3, fun a ha => ?_, a5, a6, a7, a8, a9, a10, a11, a12, a13, a14⟩
    obtain ⟨b1, b2, b3, b4, b5, b6⟩ := a4 a ha
    exact ⟨b1, b2, b3, b4, b5, (hr a ha).trans b6⟩
  · rw [← h2]
  · rw [e, IPSendFrame_direct cfg s6 g F hF6, e2]

/-- The retry of the DHCP DISCOVER in `IPTick`, with a link-layer function: it leaves alone
the queues, the head of the free list, the sockets and every frame but the head of the free
list. -/
theorem IPDhcp_retry (cfg : IPConfig) (s : IPStack) (packet : Nat → Nat) (length : Int)
    (F : Nat) (hF : s.FrameSendFunc = some F) :
    (IPDhcp cfg s packet length 1).FrameSendFunc = s.FrameSendFunc ∧
    (IPDhcp cfg s packet length 1).socket = s.socket ∧
    (IPDhcp cfg s packet length 1).SocketHead = s.SocketHead ∧
    (IPDhcp cfg s packet length 1).FrameFreeHead = s.FrameFreeHead ∧
    (IPDhcp cfg s packet length 1).FrameResendHead = s.FrameResendHead ∧
    (IPDhcp cfg s packet length 1).FrameResendTail = s.FrameResendTail ∧
    (∀ a, s.FrameFreeHead ≠ some a →
      (IPDhcp cfg s packet length 1).frame.next a = s.frame.next a ∧
      (IPDhcp cfg s packet length 1).frame.prev a = s.frame.prev a ∧
      (IPDhcp cfg s packet length 1).frame.state a = s.frame.state a ∧
      (IPDhcp cfg s packet length 1).frame.packet a = s.frame.packet a ∧
      (IPDhcp cfg s packet length 1).frame.socket a = s.frame.socket a ∧
      (IPDhcp cfg s packet length 1).frame.timeout a = s.frame.timeout a ∧
      (IPDhcp cfg s packet length 1).frame.seqEnd a = s.frame.seqEnd a ∧
      (IPDhcp cfg s packet length 1).frame.length a = s.frame.length a ∧
      (IPDhcp cfg s packet length 1).frame.retryCnt a = s.frame.retryCnt a ∧
      sentCount (IPDhcp cfg s packet length 1) a = sentCount s a) := by
  unfold IPDhcp
  rw [if_pos rfl]
  by_cases hc : s.FrameFreeCount > 0
  · cases hh : s.FrameFreeHead with
    | none =>
      have e : IPFrameGet s 0 = ({ s with FrameFreeCount := s.FrameFreeCount - 1 }, none) := by
        unfold IPFrameGet
        rw [if_pos hc]
        simp only [hh]
      rw [e]
      exact ⟨rfl, rfl, rfl, hh, rfl, rfl, fun _ _ =>
        ⟨rfl, rfl, rfl, rfl, rfl, rfl, rfl, rfl, rfl, rfl⟩⟩
    | some g =>
      rw [IPFrameGet_eq hc hh]
      simp only []
      obtain ⟨X, hX, hsent, e⟩ := IPSendPacket_none_direct cfg
        { s with FrameFreeCount := s.FrameFreeCount - 1, FrameFreeHead := s.frame.next g,
                 frame.state := upd s.frame.state g 1,
                 frame.packet := upd s.frame.packet g (dhcpDiscoverPacket (s.frame.packet g)) }
        g F 400 hF
      rw [e]
      obtain ⟨a1, a2, a3, a4, a5, a6, a7, a8, a9, a10, a11, a12, a13, a14⟩ := hX
      refine ⟨a13, a5, a12, rfl, a10, a11, fun a ha => ?_⟩
      have hag : a ≠ g := fun e => ha (by rw [e])
      obtain ⟨b1, b2, b3, b4, b5, b6⟩ := a4 a hag
      refine ⟨?_, ?_, ?_, ?_, ?_, ?_, ?_, ?_, ?_, ?_⟩
      · show (FrameFree X g).frame.next a = _
        rw [FrameFree_frame]
        show upd _ g _ a = _
        rw [upd_ne _ _ hag, a1]
      · show (FrameFree X g).frame.prev a = _
        rw [FrameFree_frame, a2]
      · show (FrameFree X g).frame.state a = _
        rw [FrameFree_frame]
        show upd _ g _ a = _
        rw [upd_ne _ _ hag, a3]
        exact upd_ne _ _ hag
      · show (FrameFree X g).frame.packet a = _
        rw [FrameFree_frame]
        exact b1.trans (upd_ne _ _ hag)
      · show (FrameFree X g).frame.socket a = _
        rw [FrameFree_frame]
        exact b2
      · show (FrameFree X g).frame.timeout a = _
        rw [FrameFree_frame]
        exact b3
      · show (FrameFree X g).frame.seqEnd a = _
        rw [FrameFree_frame]
        exact b4
      · show (FrameFree X g).frame.length a = _
        rw [FrameFree_frame]
        exact b5
      · show (FrameFree X g).frame.retryCnt a = _
        rw [FrameFree_frame]
        exact b6
      · show ((FrameFree X g).sent.filter _).length = _
        rw [FrameFree_sent]
        have := sentCount_append s a g (X.frame.packet g) (X.frame.length g) X.sent hsent
        rw [if_neg (fun e => hag e.symm)] at this
        exact this
  · rw [IPFrameGet_none s 0 hc]
    exact ⟨rfl, rfl, rfl, rfl, rfl, rfl, fun _ _ =>
      ⟨rfl, rfl, rfl, rfl, rfl, rfl, rfl, rfl, rfl, rfl⟩⟩
theorem socketLoop_none (cfg : IPConfig) (fuel0 fuel : Nat) (s : IPStack) :
    socketLoop cfg fuel0 fuel none s = some s := by
  cases fuel <;> rfl

/-- The second loop of `IPTick` when no socket has the time 1: it returns and only counts down
the times that run. -/
theorem socketLoop_idle (cfg : IPConfig) (fuel0 : Nat) :
    ∀ (L : List Nat) (fuel : Nat) (p : Option Nat) (s : IPStack),
      IsChain s.socket.next p L → L.length ≤ fuel → (∀ k ∈ L, s.socket.timeout k ≠ 1) →
      ∃ τ, socketLoop cfg fuel0 fuel p s = some { s with socket.timeout := τ } ∧
        ∀ k, (k ∉ L → τ k = s.socket.timeout k) ∧ (s.socket.timeout k = 0 → τ k = 0) ∧
          (k ∈ L → s.socket.timeout k ≠ 0 → τ k = s.socket.timeout k - 1) := by
  intro L
  induction L with
  | nil =>
    intro fuel p s hc _ _
    have : p = none := hc
    subst this
    exact ⟨s.socket.timeout, socketLoop_none cfg fuel0 fuel s,
      fun _ => ⟨fun _ => rfl, fun h => h, fun h => by cases h⟩⟩
  | cons a l ih =>
    intro fuel p s hc hfuel ht
    have hp : p = some a := hc.1
    subst hp
    obtain ⟨n, rfl⟩ : ∃ n, fuel = n + 1 := ⟨fuel - 1, by simp at hfuel; omega⟩
    have hn : l.length ≤ n := by simp at hfuel; omega
    have hal : a ∉ l := (List.nodup_cons.mp (IsChain_nodup hc)).1
    rw [socketLoop]
    by_cases h0 : s.socket.timeout a = 0
    · rw [if_neg (by simpa using h0)]
      obtain ⟨τ, e, hτ⟩ := ih n _ s hc.2 hn (fun k hk => ht k (List.mem_cons_of_mem _ hk))
      refine ⟨τ, e, fun k => ?_⟩
      obtain ⟨c1, c2, c3⟩ := hτ k
      refine ⟨fun hk => c1 (fun h => hk (List.mem_cons_of_mem _ h)), c2, fun hk hk0 => ?_⟩
      rcases List.mem_cons.mp hk with e1 | hk
      · rw [e1] at hk0
        exact absurd h0 hk0
      · exact c3 hk hk0
    · rw [if_pos h0]
      simp only [upd_same]
      have h1 := ht a (List.mem_cons_self _ _)
      rw [if_neg (by omega)]
      obtain ⟨τ, e, hτ⟩ := ih n (s.socket.next a)
        { s with socket.timeout := upd s.socket.timeout a (s.socket.timeout a - 1) } hc.2 hn
        (by
          intro k hk
          have hka : k ≠ a := fun e => hal (e ▸ hk)
          show upd _ a _ k ≠ 1
          rw [upd_ne _ _ hka]
          exact ht k (List.mem_cons_of_mem _ hk))
      refine ⟨τ, e, fun k => ?_⟩
      obtain ⟨c1, c2, c3⟩ := hτ k
      by_cases hka : k = a
      · subst hka
        have := c1 hal
        simp only [upd_same] at this
        exact ⟨fun hk => absurd (List.mem_cons_self _ _) hk, fun h => absurd h h0,
          fun _ _ => this⟩
      · have e1 : upd s.socket.timeout a (s.socket.timeout a - 1) k = s.socket.timeout k :=
          upd_ne _ _ hka
        simp only [e1] at c1 c2 c3
        refine ⟨fun hk => c1 (fun h => hk (List.mem_cons_of_mem _ h)), c2, fun hk hk0 => ?_⟩
        rcases List.mem_cons.mp hk with e2 | hk
        · exact absurd e2 hka
        · exact c3 hk hk0
/-- One call of `IPTick` with a link-layer function, when no socket has the time 1: it
returns; the resend list after it holds the frames that stay, none of them the head of the
free list; the times of the sockets that run are counted down; and a frame `f` of the resend
list keeps its socket, length, `seqEnd` and bytes, is free if it does not stay, and has its
time counted down, or, when its time is up, has been sent once more. -/
theorem IPTick_step (cfg : IPConfig) (fuel F : Nat) (s : IPStack) (R L : List Nat)
    (hF : s.FrameSendFunc = some F) (hR : FrameList s FrameQueue.resend R)
    (hRf : R.length ≤ fuel) (hfree : ∀ a ∈ R, s.FrameFreeHead ≠ some a)
    (hL : IsChain s.socket.next s.SocketHead L) (hLf : L.length ≤ fuel)
    (htime : ∀ k ∈ L, s.socket.timeout k ≠ 1) :
    ∃ s1 R1, IPTick cfg fuel s = some s1 ∧ s1.FrameSendFunc = some F ∧
      FrameList s1 FrameQueue.resend R1 ∧ R1.length ≤ R.length ∧
      (∀ a ∈ R1, s1.FrameFreeHead ≠ some a) ∧ (∀ a ∈ R1, a ∈ R) ∧
      IsChain s1.socket.next s1.SocketHead L ∧
      (∀ k, (s.socket.timeout k = 0 → s1.socket.timeout k = 0) ∧
        (s1.socket.timeout k = s.socket.timeout k ∨
          s1.socket.timeout k = s.socket.timeout k - 1)) ∧
      s1.socket.state = s.socket.state ∧
      ∀ f ∈ R, s1.frame.socket f = s.frame.socket f ∧ s1.frame.length f = s.frame.length f ∧
        s1.frame.seqEnd f = s.frame.seqEnd f ∧ s1.frame.packet f = s.frame.packet f ∧
        (f ∈ R1 ↔ staysOnResend s f) ∧ (¬ staysOnResend s f → s1.frame.state f = 0) ∧
        (s.frame.timeout f - 1 ≠ 0 →
          s1.frame.timeout f = s.frame.timeout f - 1 ∧
          s1.frame.retryCnt f = s.frame.retryCnt f ∧ sentCount s1 f = sentCount s f) ∧
        (s.frame.timeout f - 1 = 0 →
          sentCount s1 f = sentCount s f + 1 ∧
          (reschedules s f →
            s1.frame.timeout f = cfg.RETRANSMIT_TIME ∧
            s1.frame.retryCnt f = s.frame.retryCnt f + 1)) := by
  obtain ⟨D, hD⟩ : ∃ D : IPStack, D =
      (if ({ s with Seconds := (s.Seconds + 1) % 4294967296,
                    DhcpRetrySeconds := s.DhcpRetrySeconds - 1 } : IPStack).DhcpRetrySeconds ≤ 0
        then IPDhcp cfg { s with Seconds := (s.Seconds + 1) % 4294967296,
                                 DhcpRetrySeconds := s.DhcpRetrySeconds - 1 } (fun _ => 0) 400 1
        else { s with Seconds := (s.Seconds + 1) % 4294967296,
                      DhcpRetrySeconds := s.DhcpRetrySeconds - 1 }) := ⟨_, rfl⟩
  have hDf : D.FrameSendFunc = s.FrameSendFunc ∧ D.socket = s.socket ∧
      D.SocketHead = s.SocketHead ∧ D.FrameFreeHead = s.FrameFreeHead ∧
      D.FrameResendHead = s.FrameResendHead ∧ D.FrameResendTail = s.FrameResendTail ∧
      (∀ a, s.FrameFreeHead ≠ some a →
        D.frame.next a = s.frame.next a ∧ D.frame.prev a = s.frame.prev a ∧
        D.frame.state a = s.frame.state a ∧ D.frame.packet a = s.frame.packet a ∧
        D.frame.socket a = s.frame.socket a ∧ D.frame.timeout a = s.frame.timeout a ∧
        D.frame.seqEnd a = s.frame.seqEnd a ∧ D.frame.length a = s.frame.length a ∧
        D.frame.retryCnt a = s.frame.retryCnt a ∧ sentCount D a = sentCount s a) := by
    rw [hD]
    split_ifs
    · exact IPDhcp_retry cfg _ (fun _ => 0) 400 F hF
    · exact ⟨rfl, rfl, rfl, rfl, rfl, rfl, fun _ _ =>
        ⟨rfl, rfl, rfl, rfl, rfl, rfl, rfl, rfl, rfl, rfl⟩⟩
  obtain ⟨d1, d2, d3, d4, d5, d6, d7⟩ := hDf
  have hDF : D.FrameSendFunc = some F := d1.trans hF
  have hDR : FrameList D FrameQueue.resend ([] ++ R) :=
    FrameList_congr hR (fun a ha => (d7 a (hfree a ha)).1) (fun a ha => (d7 a (hfree a ha)).2.1)
      d5 d6
  obtain ⟨e1, R1, a1, a2, a3, a4, _, a6⟩ := resendLoop_eq cfg F R [] fuel D hDF hDR hRf
    (by
      intro a ha
      rw [d4]
      exact hfree a ha)
  have hhead : D.FrameResendHead = R.head? := by
    have := FrameList_head hDR
    rw [lastOr_reverse_eq_head] at this
    exact this
  obtain ⟨τ, e2, hτ⟩ := socketLoop_idle cfg fuel L fuel (resendWalk cfg R D).SocketHead
    (resendWalk cfg R D)
    (by
      rw [resendWalk_socket, resendWalk_SocketHead, d2, d3]
      exact hL) hLf
    (by
      intro k hk
      rw [resendWalk_socket, d2]
      exact htime k hk)
  have hsock : (resendWalk cfg R D).socket = s.socket := by rw [resendWalk_socket, d2]
  have htick : IPTick cfg fuel s = some { resendWalk cfg R D with socket.timeout := τ } := by
    unfold IPTick
    simp only []
    rw [← hD, hhead, e1]
    simp only []
    exact e2
  have hstay : ∀ f ∈ R, (staysOnResend D f ↔ staysOnResend s f) ∧
      (reschedules D f ↔ reschedules s f) := by
    intro f hf
    obtain ⟨_, _, _, b4, b5, b6, _, b8, b9, _⟩ := d7 f (hfree f hf)
    have hres : reschedules D f ↔ reschedules s f := by
      unfold reschedules
      rw [b4, b5, b8, b9, d2]
    refine ⟨?_, hres⟩
    unfold staysOnResend
    rw [b6, hres]
  refine ⟨_, R1, htick, ?_, ?_, by simpa using a2, ?_, by simpa using a3, ?_, ?_, ?_, ?_⟩
  · show (resendWalk cfg R D).FrameSendFunc = some F
    rw [resendWalk_FrameSendFunc]
    exact hDF
  · exact FrameList_congr a1 (fun _ _ => rfl) (fun _ _ => rfl) rfl rfl
  · exact a4
  · show IsChain (resendWalk cfg R D).socket.next (resendWalk cfg R D).SocketHead L
    rw [hsock, resendWalk_SocketHead, d3]
    exact hL
  · intro k
    show (s.socket.timeout k = 0 → τ k = 0) ∧ (τ k = s.socket.timeout k ∨ τ k = s.socket.timeout k - 1)
    obtain ⟨c1, c2, c3⟩ := hτ k
    rw [hsock] at c1 c2 c3
    refine ⟨c2, ?_⟩
    by_cases hk : k ∈ L
    · by_cases h0 : s.socket.timeout k = 0
      · left
        rw [c2 h0, h0]
      · exact Or.inr (c3 hk h0)
    · exact Or.inl (c1 hk)
  · show (resendWalk cfg R D).socket.state = s.socket.state
    rw [hsock]
  · intro f hf
    obtain ⟨_, _, _, b4, b5, b6, b7, b8, b9, b10⟩ := d7 f (hfree f hf)
    obtain ⟨g1, g2⟩ := resendWalk_self cfg F f R D hDF
      (by simpa using FrameList_nodup hDR) hf
    obtain ⟨h1, h2⟩ := hstay f hf
    refine ⟨?_, ?_, ?_, ?_, ?_, ?_, ?_, ?_⟩
    · show (resendWalk cfg R D).frame.socket f = _
      rw [resendWalk_frame_socket, b5]
    · show (resendWalk cfg R D).frame.length f = _
      rw [resendWalk_frame_length, b8]
    · show (resendWalk cfg R D).frame.seqEnd f = _
      rw [resendWalk_frame_seqEnd, b7]
    · show (resendWalk cfg R D).frame.packet f = _
      rw [resendWalk_frame_packet, b4]
    · exact (a6 f hf).1.trans h1
    · intro hns
      exact (a6 f hf).2 (fun hh => hns (h1.mp hh))
    · intro ht
      have := g1 (by rw [b6]; exact ht)
      rw [b6, b9, b10] at this
      exact this
    · intro ht
      have := g2 (by rw [b6]; exact ht)
      rw [b9, b10, h2] at this
      exact this
theorem IPTicks_succ (cfg : IPConfig) (fuel : Nat) :
    ∀ (n : Nat) (s : IPStack),
      IPTicks cfg fuel (n + 1) s = (IPTicks cfg fuel n s).bind (IPTick cfg fuel) := by
  intro n
  induction n with
  | zero =>
    intro s
    simp only [IPTicks, Option.some_bind]
    cases IPTick cfg fuel s <;> rfl
  | succ n ih =>
    intro s
    have e1 : IPTicks cfg fuel (n + 1 + 1) s =
        match IPTick cfg fuel s with
        | none => none
        | some s1 => IPTicks cfg fuel (n + 1) s1 := rfl
    have e2 : IPTicks cfg fuel (n + 1) s =
        match IPTick cfg fuel s with
        | none => none
        | some s1 => IPTicks cfg fuel n s1 := rfl
    rw [e1, e2]
    cases h : IPTick cfg fuel s with
    | none => simp [h]
    | some s1 => simpa [h] using ih s1

theorem IPTicks_add (cfg : IPConfig) (fuel : Nat) (a : Nat) :
    ∀ (b : Nat) (s : IPStack),
      IPTicks cfg fuel (a + b) s = (IPTicks cfg fuel a s).bind (IPTicks cfg fuel b) := by
  intro b
  induction b with
  | zero =>
    intro s
    cases h : IPTicks cfg fuel a s with
    | none => simp [h]
    | some s1 => simp [h, IPTicks]
  | succ b ih =>
    intro s
    rw [← Nat.add_assoc, IPTicks_succ, ih]
    cases h : IPTicks cfg fuel a s with
    | none => rfl
    | some s1 =>
      simp only [Option.some_bind]
      rw [IPTicks_succ]

theorem Awaiting_reschedules {fuel F f S : Nat} {R L : List Nat} {s : IPStack} {m : Int}
    (h : Awaiting fuel F f S R L s m) (hr : s.frame.retryCnt f + 1 ≤ 4) : reschedules s f := by
  obtain ⟨_, _, _, _, _, _, _, _, h9, h10, h11⟩ := h
  refine ⟨S, h9, h10, ?_, hr⟩
  simp only [TCP_DATA]
  split_ifs <;> omega

theorem Awaiting_not_reschedules {s : IPStack} {f : Nat} (hr : ¬ s.frame.retryCnt f + 1 ≤ 4) :
    ¬ reschedules s f := by
  rintro ⟨_, _, _, _, h⟩
  exact hr h

/-- One call of `IPTick` for a frame that waits: the frame keeps waiting, with its time
counted down, or, when its time is up, it is sent once more and waits again with the time
`RETRANSMIT_TIME` and one more retry, or is free if it had four retries. -/
theorem IPTick_awaiting (cfg : IPConfig) (fuel F f S : Nat) (R L : List Nat) (s : IPStack)
    (m : Int) (hm : 0 ≤ m) (h : Awaiting fuel F f S R L s (m + 1)) :
    ∃ s1 R1, IPTick cfg fuel s = some s1 ∧ FrameList s1 FrameQueue.resend R1 ∧
      s1.frame.seqEnd f = s.frame.seqEnd f ∧
      (s.frame.timeout f - 1 ≠ 0 →
        Awaiting fuel F f S R1 L s1 m ∧ s1.frame.timeout f = s.frame.timeout f - 1 ∧
        s1.frame.retryCnt f = s.frame.retryCnt f ∧ sentCount s1 f = sentCount s f) ∧
      (s.frame.timeout f - 1 = 0 →
        sentCount s1 f = sentCount s f + 1 ∧
        (s.frame.retryCnt f + 1 ≤ 4 →
          Awaiting fuel F f S R1 L s1 m ∧ s1.frame.timeout f = cfg.RETRANSMIT_TIME ∧
          s1.frame.retryCnt f = s.frame.retryCnt f + 1) ∧
        (¬ s.frame.retryCnt f + 1 ≤ 4 → f ∉ R1 ∧ s1.frame.state f = 0)) := by
  have h0 := h
  obtain ⟨h1, h2, h3, h4, h5, h6, h7, h8, h9, h10, h11⟩ := h
  obtain ⟨s1, R1, e, a1, a2, a3, a4, a5, a6, a7, a8, a9⟩ := IPTick_step cfg fuel F s R L h1 h2
    h3 h5 h6 h7
    (by
      intro k hk
      rcases h8 k hk with h | h <;> omega)
  obtain ⟨b1, b2, b3, _, b5, b6, b7, b8⟩ := a9 f h4
  have hbase : f ∈ R1 → Awaiting fuel F f S R1 L s1 m := by
    intro hf
    refine ⟨a1, a2, by omega, hf, a4, a6, h7, ?_, b1.trans h9, by rw [a8]; exact h10,
      by rw [b2]; exact h11⟩
    intro k hk
    obtain ⟨c1, c2⟩ := a7 k
    rcases h8 k hk with h | h
    · exact Or.inl (c1 h)
    · right
      rcases c2 with c2 | c2 <;> omega
  refine ⟨s1, R1, e, a2, b3, ?_, ?_⟩
  · intro ht
    obtain ⟨d1, d2, d3⟩ := b7 ht
    exact ⟨hbase (b5.mpr (Or.inl ht)), d1, d2, d3⟩
  · intro ht
    obtain ⟨d1, d2⟩ := b8 ht
    refine ⟨d1, ?_, ?_⟩
    · intro hr
      have hres := Awaiting_reschedules h0 hr
      obtain ⟨d3, d4⟩ := d2 hres
      exact ⟨hbase (b5.mpr (Or.inr hres)), d3, d4⟩
    · intro hr
      have hns : ¬ staysOnResend s f := by
        intro hs
        rcases hs with hs | hs
        · exact hs ht
        · exact Awaiting_not_reschedules hr hs
      exact ⟨fun hf => hns (b5.mp hf), b6 hns⟩
theorem Awaiting_cast {fuel F f S : Nat} {R L : List Nat} {s : IPStack} {m m1 : Int}
    (h : Awaiting fuel F f S R L s m) (e : m = m1) : Awaiting fuel F f S R L s m1 := e ▸ h

/-- While the time of a waiting frame has not run out the calls of `IPTick` only count it
down. -/
theorem IPTicks_countdown (cfg : IPConfig) (fuel F f S : Nat) (L : List Nat) :
    ∀ (i : Nat) (s : IPStack) (R : List Nat) (m : Int), 0 ≤ m →
      Awaiting fuel F f S R L s (m + i) → (i : Int) < s.frame.timeout f →
      ∃ s1 R1, IPTicks cfg fuel i s = some s1 ∧ Awaiting fuel F f S R1 L s1 m ∧
        s1.frame.timeout f = s.frame.timeout f - i ∧
        s1.frame.retryCnt f = s.frame.retryCnt f ∧ sentCount s1 f = sentCount s f ∧
        s1.frame.seqEnd f = s.frame.seqEnd f := by
  intro i
  induction i with
  | zero =>
    intro s R m _ h _
    exact ⟨s, R, rfl, Awaiting_cast h (by simp), by simp, rfl, rfl, rfl⟩
  | succ i ih =>
    intro s R m hm h ht
    have hi : (0 : Int) ≤ (i : Int) := Int.ofNat_nonneg i
    obtain ⟨s1, R1, e, _, a2, a3, _⟩ := IPTick_awaiting cfg fuel F f S R L s (m + i) (by omega)
      (Awaiting_cast h (by push_cast; ring))
    obtain ⟨b1, b2, b3, b4⟩ := a3 (by push_cast at ht; omega)
    obtain ⟨s2, R2, e2, c1, c2, c3, c4, c5⟩ := ih s1 R1 m hm b1 (by push_cast at ht; omega)
    refine ⟨s2, R2, ?_, c1, ?_, c3.trans b3, c4.trans b4, c5.trans a2⟩
    · have e0 : IPTicks cfg fuel (i + 1) s =
          match IPTick cfg fuel s with
          | none => none
          | some s1 => IPTicks cfg fuel i s1 := rfl
      rw [e0, e]
      exact e2
    · rw [c2, b2]
      push_cast
      ring

/-- One period of `RETRANSMIT_TIME` ticks for a waiting frame: the frame is sent once more at
the last tick, and waits again with one more retry, or is free when it had four retries. -/
theorem IPTicks_period (cfg : IPConfig) (fuel F f S : Nat) (R L : List Nat) (s : IPStack)
    (rt : Nat) (hrt : cfg.RETRANSMIT_TIME = rt) (hpos : 0 < rt) (m : Int) (hm : 0 ≤ m)
    (h : Awaiting fuel F f S R L s (m + rt)) (ht : s.frame.timeout f = rt) :
    ∃ s1 R1, IPTicks cfg fuel rt s = some s1 ∧ FrameList s1 FrameQueue.resend R1 ∧
      sentCount s1 f = sentCount s f + 1 ∧ s1.frame.seqEnd f = s.frame.seqEnd f ∧
      (s.frame.retryCnt f + 1 ≤ 4 →
        Awaiting fuel F f S R1 L s1 m ∧ s1.frame.timeout f = rt ∧
        s1.frame.retryCnt f = s.frame.retryCnt f + 1) ∧
      (¬ s.frame.retryCnt f + 1 ≤ 4 → f ∉ R1 ∧ s1.frame.state f = 0) := by
  obtain ⟨i, rfl⟩ : ∃ i, rt = i + 1 := ⟨rt - 1, by omega⟩
  obtain ⟨s1, R1, e1, a1, a2, a3, a4, a5⟩ := IPTicks_countdown cfg fuel F f S L i s R (m + 1)
    (by omega) (Awaiting_cast h (by push_cast; ring)) (by rw [ht]; push_cast; omega)
  obtain ⟨s2, R2, e2, b1, b2, _, b4⟩ := IPTick_awaiting cfg fuel F f S R1 L s1 m hm a1
  have ht1 : s1.frame.timeout f - 1 = 0 := by
    rw [a2, ht]
    push_cast
    ring
  obtain ⟨c1, c2, c3⟩ := b4 ht1
  refine ⟨s2, R2, ?_, b1, by rw [c1, a4], b2.trans a5, ?_, ?_⟩
  · rw [IPTicks_succ, e1]
    exact e2
  · intro hr
    obtain ⟨d1, d2, d3⟩ := c2 (by rw [a3]; exact hr)
    exact ⟨d1, by rw [d2, hrt], by rw [d3, a3]⟩
  · intro hr
    exact c3 (by rw [a3]; exact hr)

/-- After `k` periods, `k ≤ 3`, a frame that waited with one retry waits with `1 + k`. -/
theorem IPTicks_periods (cfg : IPConfig) (fuel F f S : Nat) (R L : List Nat) (s : IPStack)
    (rt : Nat) (hrt : cfg.RETRANSMIT_TIME = rt) (hpos : 0 < rt)
    (h : Awaiting fuel F f S R L s (4 * rt)) (ht : s.frame.timeout f = rt)
    (hc : s.frame.retryCnt f = 1) :
    ∀ k : Nat, k ≤ 3 → ∃ s1 R1, IPTicks cfg fuel (k * rt) s = some s1 ∧
      Awaiting fuel F f S R1 L s1 ((4 - k) * rt) ∧ s1.frame.timeout f = rt ∧
      s1.frame.retryCnt f = 1 + k ∧ sentCount s1 f = sentCount s f + k ∧
      s1.frame.seqEnd f = s.frame.seqEnd f := by
  intro k
  induction k with
  | zero =>
    intro _
    refine ⟨s, R, by simp [IPTicks], Awaiting_cast h (by simp), ht, by simp [hc], rfl, rfl⟩
  | succ k ih =>
    intro hk
    obtain ⟨s1, R1, e1, a1, a2, a3, a4, a5⟩ := ih (by omega)
    have hk3 : (k : Int) ≤ 2 := by exact_mod_cast (by omega : k ≤ 2)
    have hrt0 : (0 : Int) ≤ (rt : Int) := Int.ofNat_nonneg rt
    obtain ⟨s2, R2, e2, _, b2, b3, b4, _⟩ := IPTicks_period cfg fuel F f S R1 L s1 rt hrt hpos
      ((4 - ((k + 1 : Nat) : Int)) * rt)
      (by
        apply mul_nonneg _ hrt0
        push_cast
        omega)
      (Awaiting_cast a1 (by push_cast; ring)) a2
    obtain ⟨c1, c2, c3⟩ := b4 (by rw [a3]; omega)
    refine ⟨s2, R2, ?_, c1, c2, by rw [c3, a3]; push_cast; ring, by rw [b2, a4]; ring,
      b3.trans a5⟩
    rw [Nat.succ_mul, IPTicks_add, e1]
    exact e2

theorem writeLoop_zero (cfg : IPConfig) (S fuel : Nat) (s : IPStack) (Buf : Nat → Nat)
    (count : Nat) : writeLoop cfg S fuel s Buf 0 count = some (s, count) := by
  cases fuel <;> rfl

/-- An iteration of `IPWrite` that does not fill the segment in progress. -/
theorem writeLoop_fill (cfg : IPConfig) (S fuel : Nat) (s : IPStack) (Buf : Nat → Nat)
    (L count g o : Nat) (hfs : s.socket.frameSend S = some g)
    (ho : s.socket.sendOffset S = (o : Int)) (hst : s.socket.state S ≠ IP_UDP)
    (hL : 0 < L) (h : o + L < 512) :
    writeLoop cfg S (fuel + 1) s Buf L count = some (writeFill s S g Buf L, count + L) := by
  obtain ⟨L1, rfl⟩ : ∃ L1, L = L1 + 1 := ⟨L - 1, by omega⟩
  have hb : toUInt32 (512 - (o : Int)) = 512 - o := by
    unfold toUInt32
    omega
  have hbytes : (if 512 - o > L1 + 1 then L1 + 1 else 512 - o) = L1 + 1 := if_pos (by omega)
  rw [writeLoop]
  simp only [hfs, ho, hb, hbytes]
  simp only [upd_same, hst, ne_eq, not_false_eq_true, if_true]
  rw [if_neg (by push_cast; omega)]
  simp only [Nat.sub_self, writeLoop_zero, writeFill, ho]

/-- An iteration of `IPWrite` that fills the segment in progress, which is sent. -/
theorem writeLoop_flush (cfg : IPConfig) (S fuel : Nat) (s : IPStack) (Buf : Nat → Nat)
    (L count g o : Nat) (hfs : s.socket.frameSend S = some g)
    (ho : s.socket.sendOffset S = (o : Int)) (hst : s.socket.state S ≠ IP_UDP)
    (ho1 : o < 512) (h : 512 ≤ o + L) :
    writeLoop cfg S (fuel + 1) s Buf L count =
      writeLoop cfg S fuel (IPWriteFlush cfg (writeFill s S g Buf (512 - o)) S)
        (offset Buf (512 - o)) (L - (512 - o)) (count + (512 - o)) := by
  obtain ⟨L1, rfl⟩ : ∃ L1, L = L1 + 1 := ⟨L - 1, by omega⟩
  have hb : toUInt32 (512 - (o : Int)) = 512 - o := by
    unfold toUInt32
    omega
  have hbytes : (if 512 - o > L1 + 1 then L1 + 1 else 512 - o) = 512 - o := if_neg (by omega)
  rw [writeLoop]
  simp only [hfs, ho, hb, hbytes]
  simp only [upd_same, hst, ne_eq, not_false_eq_true, if_true]
  rw [if_pos (by omega)]
  simp only [writeFill, ho]

/-- An iteration of `IPWrite` without a segment in progress takes a frame first: without a
frame the function returns, with one it goes on as if the segment had been in progress. -/
theorem writeLoop_take (cfg : IPConfig) (S fuel : Nat) (s : IPStack) (Buf : Nat → Nat)
    (L count : Nat) (hfs : s.socket.frameSend S = none) (hL : 0 < L) :
    writeLoop cfg S (fuel + 1) s Buf L count =
      match (IPFrameGet s cfg.FRAME_COUNT_SEND).2 with
      | none => some (writeTake cfg s S, count)
      | some _ => writeLoop cfg S (fuel + 1) (writeTake cfg s S) Buf L count := by
  obtain ⟨L1, rfl⟩ : ∃ L1, L = L1 + 1 := ⟨L - 1, by omega⟩
  cases hr : (IPFrameGet s cfg.FRAME_COUNT_SEND).2 with
  | none =>
    rw [writeLoop]
    simp only [hfs, hr, upd_same, writeTake]
  | some g =>
    simp only []
    conv_lhs => rw [writeLoop]
    conv_rhs => rw [writeLoop]
    simp only [hfs, hr, upd_same, writeTake]
/-- Sending a TCP segment with data keeps the frame: the pool and the links of the other frames
are as before. -/
theorem TCPSendPacket_data (cfg : IPConfig) (s : IPStack) (S g : Nat) (length : Int)
    (hst : s.socket.state S ≠ IP_UDP) (hl : 54 < length) (hl2 : length < 65536) :
    (TCPSendPacket cfg s S g length).FrameFreeHead = s.FrameFreeHead ∧
    (TCPSendPacket cfg s S g length).FrameFreeCount = s.FrameFreeCount ∧
    ∀ a, a ≠ g → (TCPSendPacket cfg s S g length).frame.next a = s.frame.next a := by
  obtain ⟨s6, e, hsame, _, _, hlen, _, hsock, _, hretry⟩ := TCPSendPacket_prepare cfg s S g length
  obtain ⟨h1, _, _, _, h5, h6, h7, _, _, _, _, _, h13, _⟩ := hsame
  have hlen1 : 54 < s6.frame.length g := by
    rw [hlen]
    unfold toUInt16
    omega
  rw [e]
  cases hF : s6.FrameSendFunc with
  | some F =>
    have e2 := IPFrameReschedule_keep cfg
      { s6 with sent := s6.sent ++ [(g, s6.frame.packet g, s6.frame.length g)] } g S hsock
      (by rw [h5]; exact hst) hlen1
      (by
        show s6.frame.retryCnt g + 1 ≤ 4
        rw [hretry]
        norm_num)
    rw [IPSendFrame_direct cfg s6 g F hF, e2]
    refine ⟨by simp [h7], by simp [h6], fun a ha => ?_⟩
    simp [upd_ne _ _ ha, h1]
  | none =>
    rw [IPSendFrame_queued cfg s6 g hF]
    refine ⟨by simp [h7], by simp [h6], fun a ha => ?_⟩
    simp [upd_ne _ _ ha, h1]

theorem TCPSendPacket_seqEnd_data (cfg : IPConfig) (s : IPStack) (S g : Nat) (length : Int)
    (hfl : s.frame.packet g TCP_FLAGS = TCP_FLAGS_ACK) :
    (TCPSendPacket cfg s S g length).frame.seqEnd =
      upd s.frame.seqEnd g (toUInt32 ((s.socket.seq S : Int) + (length - TCP_DATA))) := by
  unfold TCPSendPacket
  rw [IPSendPacket_frame_seqEnd]
  simp only [upd_same, TCPSendPacket_packet_flags, hfl]
  rw [if_neg (by decide)]

theorem TCPSendPacket_seqField (cfg : IPConfig) (s : IPStack) (S g : Nat) (length : Int)
    (hproto : s.socket.headerSend S IP_PROTOCOL = 0x06) :
    load32 ((TCPSendPacket cfg s S g length).frame.packet g) TCP_SEQ =
      s.socket.seq S % 4294967296 := by
  rw [TCPSendPacket_frame_packet, upd_same, ← TCPSendPacket_packet_seq cfg s S (s.frame.packet g)]
  apply load32_congr
  intro i hi
  rw [IPSendPacket_packet_tcp _ _ (by
    rw [TCPSendPacket_packet_header _ _ _ _ _ (by decide)]
    exact hproto) _ (by
    simp only [TCP_SEQ]
    intro hm
    simp at hm
    omega)]

theorem TCPSendPacket_dataField (cfg : IPConfig) (s : IPStack) (S g : Nat) (length : Int)
    (i : Nat) (hi : 54 ≤ i) :
    (TCPSendPacket cfg s S g length).frame.packet g i = s.frame.packet g i := by
  rw [TCPSendPacket_frame_packet, upd_same, IPSendPacket_packet_apply _ _ _ (by
    intro hm
    simp at hm
    omega), TCPSendPacket_packet_data _ _ _ _ _ hi]

/-- The statement `IPWriteFlush(Socket)` for a TCP socket with a segment in progress that holds
`o` bytes, `0 < o ≤ 512`: the segment is sent with the flag ACK, the sequence number of the
socket and the bytes that wait, the socket moves on by `o` and has no segment in progress. -/
theorem IPWriteFlush_spec (cfg : IPConfig) (s : IPStack) (S g o : Nat)
    (hfs : s.socket.frameSend S = some g) (hst : s.socket.state S ≠ IP_UDP)
    (hproto : s.socket.headerSend S IP_PROTOCOL = 0x06)
    (ho : s.socket.sendOffset S = (o : Int)) (ho0 : 0 < o) (ho1 : o ≤ 512) :
    Emits s (IPWriteFlush cfg s S) g (54 + o) ∧
    (IPWriteFlush cfg s S).frame.packet g TCP_FLAGS = TCP_FLAGS_ACK ∧
    load32 ((IPWriteFlush cfg s S).frame.packet g) TCP_SEQ = s.socket.seq S % 4294967296 ∧
    (∀ i, 54 ≤ i → (IPWriteFlush cfg s S).frame.packet g i = s.frame.packet g i) ∧
    (IPWriteFlush cfg s S).frame.seqEnd g = (s.socket.seq S + o) % 4294967296 ∧
    (IPWriteFlush cfg s S).socket.seq S = (s.socket.seq S + o) % 4294967296 ∧
    (IPWriteFlush cfg s S).socket.frameSend S = none ∧
    (IPWriteFlush cfg s S).socket.sendOffset S = 0 ∧
    (IPWriteFlush cfg s S).socket.state = s.socket.state ∧
    (IPWriteFlush cfg s S).socket.headerSend = s.socket.headerSend ∧
    (IPWriteFlush cfg s S).FrameFreeHead = s.FrameFreeHead ∧
    (IPWriteFlush cfg s S).FrameFreeCount = s.FrameFreeCount ∧
    (IPWriteFlush cfg s S).FrameSendFunc = s.FrameSendFunc ∧
    (∀ a, a ≠ g → (IPWriteFlush cfg s S).frame.next a = s.frame.next a ∧
      (IPWriteFlush cfg s S).frame.packet a = s.frame.packet a ∧
      (IPWriteFlush cfg s S).frame.length a = s.frame.length a ∧
      (IPWriteFlush cfg s S).frame.seqEnd a = s.frame.seqEnd a) := by
  have hu32 : toUInt32 ((s.socket.seq S : Int) + (o : Int)) = (s.socket.seq S + o) % 4294967296 := by
    unfold toUInt32
    omega
  have hu16 : toUInt16 ((54 : Int) + (o : Int)) = 54 + o := by
    unfold toUInt16
    omega
  have e : IPWriteFlush cfg s S =
      { (TCPSendPacket cfg
          { s with frame.packet := (upd s.frame.packet g
              (upd (s.frame.packet g) TCP_FLAGS TCP_FLAGS_ACK)) } S g (54 + (o : Int))) with
        socket.seq := upd s.socket.seq S ((s.socket.seq S + o) % 4294967296),
        socket.frameSend := upd s.socket.frameSend S none,
        socket.sendOffset := upd s.socket.sendOffset S 0 } := by
    unfold IPWriteFlush
    simp only [hfs, hst, ne_eq, not_false_eq_true, if_true, ho, TCPSendPacket_socket, upd_same,
      TCP_DATA]
    push_cast
    rw [hu32]
  obtain ⟨d1, d2, d3⟩ := TCPSendPacket_data cfg
    { s with frame.packet := upd s.frame.packet g (upd (s.frame.packet g) TCP_FLAGS TCP_FLAGS_ACK) }
    S g (54 + (o : Int)) hst (by omega) (by omega)
  have hem := TCPSendPacket_emits cfg
    { s with frame.packet := upd s.frame.packet g (upd (s.frame.packet g) TCP_FLAGS TCP_FLAGS_ACK) }
    S g (54 + (o : Int))
  have hsq := TCPSendPacket_seqField cfg
    { s with frame.packet := upd s.frame.packet g (upd (s.frame.packet g) TCP_FLAGS TCP_FLAGS_ACK) }
    S g (54 + (o : Int)) hproto
  rw [hu16] at hem
  rw [e]
  refine ⟨?_, ?_, ?_, ?_, ?_, ?_, ?_, ?_, ?_, ?_, ?_, ?_, ?_, ?_⟩
  · exact Emits_congr (Emits_after hem rfl rfl rfl rfl rfl rfl) rfl rfl rfl rfl
  · show (TCPSendPacket cfg _ S g (54 + (o : Int))).frame.packet g TCP_FLAGS = TCP_FLAGS_ACK
    rw [TCPSendPacket_flagsField]
    simp [TCP_FLAGS_ACK]
  · exact hsq
  · intro i hi
    show (TCPSendPacket cfg _ S g (54 + (o : Int))).frame.packet g i = _
    rw [TCPSendPacket_dataField _ _ _ _ _ _ hi]
    simp only [upd_same]
    rw [upd_ne _ _ (by simp only [TCP_FLAGS]; omega)]
  · show (TCPSendPacket cfg _ S g (54 + (o : Int))).frame.seqEnd g = _
    rw [TCPSendPacket_seqEnd_data _ _ _ _ _ (by simp), upd_same]
    simp only [TCP_DATA]
    rw [← hu32]
    congr 1
    push_cast
    ring
  · simp
  · simp
  · simp
  · simp
  · simp
  · exact d1
  · exact d2
  · simp
  · intro a ha
    refine ⟨d3 a ha, ?_, ?_, ?_⟩
    · show (TCPSendPacket cfg _ S g (54 + (o : Int))).frame.packet a = _
      rw [TCPSendPacket_frame_packet, upd_ne _ _ ha]
      simp [upd_ne _ _ ha]
    · show (TCPSendPacket cfg _ S g (54 + (o : Int))).frame.length a = _
      rw [TCPSendPacket_frame_length, upd_ne _ _ ha]
    · show (TCPSendPacket cfg _ S g (54 + (o : Int))).frame.seqEnd a = _
      rw [TCPSendPacket_seqEnd_data _ _ _ _ _ (by simp), upd_ne _ _ ha]
theorem writeTake_eq (cfg : IPConfig) (s : IPStack) (S g : Nat)
    (hc : s.FrameFreeCount > cfg.FRAME_COUNT_SEND) (hh : s.FrameFreeHead = some g) :
    (IPFrameGet s cfg.FRAME_COUNT_SEND).2 = some g ∧
    writeTake cfg s S =
      { s with FrameFreeCount := s.FrameFreeCount - 1, FrameFreeHead := s.frame.next g,
               frame.state := upd s.frame.state g 1,
               socket.frameSend := upd s.socket.frameSend S (some g),
               socket.sendOffset := upd s.socket.sendOffset S 0 } := by
  unfold writeTake
  rw [IPFrameGet_eq hc hh]
  exact ⟨rfl, rfl⟩

theorem writeTake_none (cfg : IPConfig) (s : IPStack) (S : Nat)
    (hc : s.FrameFreeCount ≤ cfg.FRAME_COUNT_SEND) :
    (IPFrameGet s cfg.FRAME_COUNT_SEND).2 = none ∧
    writeTake cfg s S =
      { s with socket.frameSend := upd s.socket.frameSend S none,
               socket.sendOffset := upd s.socket.sendOffset S 0 } := by
  have e : IPFrameGet s cfg.FRAME_COUNT_SEND = (s, none) := by
    unfold IPFrameGet
    rw [if_neg (by omega)]
  unfold writeTake
  rw [e]
  exact ⟨rfl, rfl⟩

/-- The bytes of the segment in progress after `bytes` bytes of the buffer have been added to
the `o` bytes that waited. -/
theorem writeFill_data (s : IPStack) (S g : Nat) (Buf : Nat → Nat) (n o : Nat)
    (ho : s.socket.sendOffset S = (o : Int)) (i : Nat) (hi : i < o + n) :
    (writeFill s S g Buf n).frame.packet g (TCP_DATA + i) =
      writeStream (s.frame.packet g) o Buf i := by
  have e : ((TCP_DATA : Int) + (o : Int)).toNat = 54 + o := by
    simp only [TCP_DATA]
    omega
  simp only [writeFill, upd_same, ho, e, memcpy, writeStream, TCP_DATA]
  by_cases h : i < o
  · rw [if_neg (by omega), if_pos h]
  · rw [if_pos (by omega), if_neg h]
    congr 1
    omega

/-- One full segment: the segment in progress is filled up with bytes of the buffer and sent. -/
theorem writeSegment_spec (cfg : IPConfig) (s : IPStack) (S g o : Nat) (Buf : Nat → Nat)
    (hfs : s.socket.frameSend S = some g) (hst : s.socket.state S ≠ IP_UDP)
    (hproto : s.socket.headerSend S IP_PROTOCOL = 0x06)
    (ho : s.socket.sendOffset S = (o : Int)) (ho1 : o < 512) (s1 : IPStack)
    (hs1 : s1 = IPWriteFlush cfg (writeFill s S g Buf (512 - o)) S) :
    Emits s s1 g 566 ∧
    s1.frame.packet g TCP_FLAGS = TCP_FLAGS_ACK ∧
    load32 (s1.frame.packet g) TCP_SEQ = s.socket.seq S % 4294967296 ∧
    (∀ i, i < 512 → s1.frame.packet g (TCP_DATA + i) = writeStream (s.frame.packet g) o Buf i) ∧
    s1.frame.seqEnd g = (s.socket.seq S + 512) % 4294967296 ∧
    s1.socket.seq S = (s.socket.seq S + 512) % 4294967296 ∧
    s1.socket.frameSend S = none ∧
    s1.socket.sendOffset S = 0 ∧
    s1.socket.state = s.socket.state ∧
    s1.socket.headerSend = s.socket.headerSend ∧
    s1.FrameFreeHead = s.FrameFreeHead ∧
    s1.FrameFreeCount = s.FrameFreeCount ∧
    s1.FrameSendFunc = s.FrameSendFunc ∧
    (∀ a, a ≠ g → s1.frame.next a = s.frame.next a ∧
      s1.frame.packet a = s.frame.packet a ∧
      s1.frame.length a = s.frame.length a ∧
      s1.frame.seqEnd a = s.frame.seqEnd a) := by
  have hfill : (writeFill s S g Buf (512 - o)).socket.sendOffset S = ((512 : Nat) : Int) := by
    simp only [writeFill, upd_same, ho]
    omega
  obtain ⟨a1, a2, a3, a4, a5, a6, a7, a8, a9, a10, a11, a12, a13, a14⟩ :=
    IPWriteFlush_spec cfg (writeFill s S g Buf (512 - o)) S g 512 (by simpa [writeFill] using hfs)
      (by simpa [writeFill] using hst) (by simpa [writeFill] using hproto) hfill (by decide)
      (by decide)
  rw [← hs1] at a1 a2 a3 a4 a5 a6 a7 a8 a9 a10 a11 a12 a13 a14
  refine ⟨Emits_congr a1 rfl rfl rfl rfl, a2, by rw [a3]; rfl, ?_, by rw [a5]; rfl,
    by rw [a6]; rfl, a7, a8, by rw [a9]; rfl, by rw [a10]; rfl, by rw [a11]; rfl,
    by rw [a12]; rfl, by rw [a13]; rfl, ?_⟩
  · intro i hi
    rw [a4 _ (by simp only [TCP_DATA]; omega)]
    exact writeFill_data s S g Buf (512 - o) o ho i (by omega)
  · intro a ha
    obtain ⟨b1, b2, b3, b4⟩ := a14 a ha
    refine ⟨by rw [b1]; rfl, ?_, by rw [b3]; rfl, by rw [b4]; rfl⟩
    rw [b2]
    simp only [writeFill]
    rw [upd_ne _ _ ha]
theorem writeStream_shift (p q : Nat → Nat) (o : Nat) (Buf : Nat → Nat) (ho : o < 512)
    (x : Nat) :
    writeStream q 0 (offset Buf (512 - o)) x = writeStream p o Buf (512 + x) := by
  simp only [writeStream, offset]
  rw [if_neg (by omega), if_neg (by omega)]
  congr 1
  omega

/-- The loop of `IPWrite` for a TCP socket with a segment in progress in the frame `g0`, which
holds `o0` bytes, when the free list `P` has the frames that the `L` bytes need. -/
theorem writeLoop_pending (cfg : IPConfig) (S : Nat) (L : Nat) :
    ∀ (fuel : Nat) (s : IPStack) (Buf : Nat → Nat) (count g0 o0 : Nat) (P : List Nat),
      s.socket.frameSend S = some g0 → s.socket.sendOffset S = (o0 : Int) → o0 < 512 →
      s.socket.state S ≠ IP_UDP → s.socket.headerSend S IP_PROTOCOL = 0x06 →
      IsChain s.frame.next s.FrameFreeHead P → g0 ∉ P → 0 < L → L ≤ fuel →
      (o0 + L - 1) / 512 ≤ P.length →
      (((o0 + L - 1) / 512 : Nat) : Int) + cfg.FRAME_COUNT_SEND ≤ s.FrameFreeCount →
      ∃ s1, writeLoop cfg S fuel s Buf L count = some (s1, count + L) ∧
        s1.socket.seq S % 4294967296 =
          (s.socket.seq S + 512 * ((o0 + L) / 512)) % 4294967296 ∧
        s1.socket.sendOffset S = (((o0 + L) % 512 : Nat) : Int) ∧
        s1.socket.frameSend S =
          (if (o0 + L) % 512 = 0 then none else (g0 :: P)[(o0 + L) / 512]?) ∧
        (∀ j g, j < (o0 + L) / 512 → (g0 :: P)[j]? = some g →
          s1.frame.packet g TCP_FLAGS = TCP_FLAGS_ACK ∧
          load32 (s1.frame.packet g) TCP_SEQ = (s.socket.seq S + 512 * j) % 4294967296 ∧
          s1.frame.length g = 566 ∧
          s1.frame.seqEnd g = (s.socket.seq S + 512 * (j + 1)) % 4294967296 ∧
          ∀ i, i < 512 → s1.frame.packet g (TCP_DATA + i) =
            writeStream (s.frame.packet g0) o0 Buf (512 * j + i)) ∧
        (∀ g, (g0 :: P)[(o0 + L) / 512]? = some g → ∀ i, i < (o0 + L) % 512 →
          s1.frame.packet g (TCP_DATA + i) =
            writeStream (s.frame.packet g0) o0 Buf (512 * ((o0 + L) / 512) + i)) ∧
        (∀ F, s.FrameSendFunc = some F →
          s1.sent = s.sent ++ ((g0 :: P).take ((o0 + L) / 512)).map
            (fun g => (g, s1.frame.packet g, 566))) ∧
        (s.FrameSendFunc = none →
          s1.sent = s.sent ∧ s1.posted = s.posted + (o0 + L) / 512 ∧
          IsSeg s1.frame.next s1.FrameSendHead ((g0 :: P).take ((o0 + L) / 512)).reverse
            s.FrameSendHead) ∧
        s1.FrameFreeCount = s.FrameFreeCount - (((o0 + L - 1) / 512 : Nat) : Int) ∧
        IsChain s1.frame.next s1.FrameFreeHead (P.drop ((o0 + L - 1) / 512)) ∧
        (∀ a, a ∉ (g0 :: P).take ((o0 + L - 1) / 512 + 1) →
          s1.frame.packet a = s.frame.packet a ∧ s1.frame.next a = s.frame.next a ∧
          s1.frame.length a = s.frame.length a ∧ s1.frame.seqEnd a = s.frame.seqEnd a) ∧
        s1.socket.state = s.socket.state ∧ s1.socket.headerSend = s.socket.headerSend ∧
        s1.FrameSendFunc = s.FrameSendFunc := by
  induction L using Nat.strong_induction_on with
  | _ L ih =>
  intro fuel s Buf count g0 o0 P hfs ho ho1 hst hproto hP hg0 hL hfuel hneed hcount
  obtain ⟨fuel0, rfl⟩ : ∃ fuel0, fuel = fuel0 + 1 := ⟨fuel - 1, by omega⟩
  by_cases hcase : o0 + L < 512
  · -- the bytes fit into the segment in progress
    have hk : (o0 + L) / 512 = 0 := by omega
    have hr : (o0 + L) % 512 = o0 + L := by omega
    have hm : (o0 + L - 1) / 512 = 0 := by omega
    refine ⟨writeFill s S g0 Buf L, writeLoop_fill cfg S fuel0 s Buf L count g0 o0 hfs ho hst hL
      hcase, ?_⟩
    rw [hk, hr, hm]
    refine ⟨by simp [writeFill], ?_, ?_, ?_, ?_, ?_, ?_, ?_, ?_, ?_, by simp [writeFill],
      by simp [writeFill], by simp [writeFill]⟩
    · simp only [writeFill, upd_same, ho]
      push_cast
      ring
    · rw [if_neg (by omega)]
      simpa [writeFill] using hfs
    · intro j g hj
      omega
    · intro g hg i hi
      simp only [List.getElem?_cons_zero, Option.some.injEq] at hg
      subst hg
      rw [writeFill_data s S g0 Buf L o0 ho i hi]
      simp
    · intro F _
      simp [writeFill]
    · intro _
      refine ⟨by simp [writeFill], by simp [writeFill], ?_⟩
      simp [writeFill, IsSeg]
    · simp [writeFill]
    · simpa [writeFill] using hP
    · intro a ha
      have hne : a ≠ g0 := by
        intro e
        apply ha
        simp [e]
      simp [writeFill, upd_ne _ _ hne]
  · -- the segment in progress is filled up and sent
    have hflush := writeLoop_flush cfg S fuel0 s Buf L count g0 o0 hfs ho hst ho1 (by omega)
    obtain ⟨a1, a2, a3, a4, a5, a6, a7, a8, a9, a10, a11, a12, a13, a14⟩ :=
      writeSegment_spec cfg s S g0 o0 Buf hfs hst hproto ho ho1 _ rfl
    have hchain1 : IsChain (IPWriteFlush cfg (writeFill s S g0 Buf (512 - o0)) S).frame.next
        s.FrameFreeHead P :=
      IsSeg_congr hP (fun a ha => (a14 a (fun e => hg0 (e ▸ ha))).1)
    by_cases hrest : L - (512 - o0) = 0
    · -- nothing is left
      have hT : o0 + L = 512 := by omega
      have hk : (o0 + L) / 512 = 1 := by omega
      have hr : (o0 + L) % 512 = 0 := by omega
      have hm : (o0 + L - 1) / 512 = 0 := by omega
      have e0 : writeLoop cfg S (fuel0 + 1) s Buf L count =
          some (IPWriteFlush cfg (writeFill s S g0 Buf (512 - o0)) S, count + L) := by
        rw [hflush, hrest, writeLoop_zero]
        exact congrArg some (Prod.ext rfl (by show count + (512 - o0) = count + L; omega))
      refine ⟨_, e0, ?_⟩
      rw [hk, hr, hm]
      refine ⟨by rw [a6]; omega, by rw [a8]; rfl, by rw [a7]; rfl, ?_, ?_, ?_, ?_, ?_, ?_, ?_,
        a9, a10, a13⟩
      · intro j g hj hg
        have hj0 : j = 0 := by omega
        subst hj0
        simp only [List.getElem?_cons_zero, Option.some.injEq] at hg
        subst hg
        exact ⟨a2, by rw [a3]; rfl, a1.1, by rw [a5], fun i hi => by rw [a4 i hi]; simp⟩
      · intro g _ i hi
        omega
      · intro F hF
        have := a1.2
        rw [hF] at this
        simpa using this
      · intro hF
        have := a1.2
        rw [hF] at this
        obtain ⟨b1, b2, b3, b4⟩ := this
        refine ⟨b1, b4, ?_⟩
        simp only [List.take_succ_cons, List.take_zero, List.reverse_cons, List.reverse_nil,
          List.nil_append, IsSeg]
        exact ⟨b2, b3⟩
      · rw [a12]
        simp
      · rw [a11]
        simpa using hchain1
      · intro a ha
        have hne : a ≠ g0 := by
          intro e
          apply ha
          simp [e]
        obtain ⟨b1, b2, b3, b4⟩ := a14 a hne
        exact ⟨b2, b1, b3, b4⟩
    · -- a new segment is started
      obtain ⟨L1, hL1⟩ : ∃ L1, L - (512 - o0) = L1 := ⟨_, rfl⟩
      have hL1pos : 0 < L1 := by omega
      have hT : o0 + L = 512 + L1 := by omega
      have hk : (o0 + L) / 512 = L1 / 512 + 1 := by omega
      have hr : (o0 + L) % 512 = L1 % 512 := by omega
      have hm : (o0 + L - 1) / 512 = (L1 - 1) / 512 + 1 := by omega
      rw [hm] at hneed hcount
      obtain ⟨g, P1, rfl⟩ : ∃ g P1, P = g :: P1 := by
        cases P with
        | nil => simp at hneed
        | cons g P1 => exact ⟨g, P1, rfl⟩
      have hgg0 : g ≠ g0 := fun e => hg0 (by simp [e])
      have hnodup := IsChain_nodup hP
      have hgP1 : g ∉ P1 := (List.nodup_cons.mp hnodup).1
      obtain ⟨t1, t2⟩ := writeTake_eq cfg (IPWriteFlush cfg (writeFill s S g0 Buf (512 - o0)) S) S g
        (by rw [a12]; push_cast at hcount; omega) (by rw [a11]; exact hP.1)
      obtain ⟨fuel1, rfl⟩ : ∃ fuel1, fuel0 = fuel1 + 1 := ⟨fuel0 - 1, by omega⟩
      have htake := writeLoop_take cfg S fuel1 (IPWriteFlush cfg (writeFill s S g0 Buf (512 - o0)) S)
        (offset Buf (512 - o0)) L1 (count + (512 - o0)) a7 hL1pos
      rw [t1] at htake
      simp only [] at htake
      obtain ⟨s2, hs2⟩ : ∃ s2, s2 = writeTake cfg
        (IPWriteFlush cfg (writeFill s S g0 Buf (512 - o0)) S) S := ⟨_, rfl⟩
      rw [← hs2] at htake t2
      have c_fs : s2.socket.frameSend S = some g := by rw [t2]; simp
      have c_so : s2.socket.sendOffset S = ((0 : Nat) : Int) := by rw [t2]; simp
      have c_st : s2.socket.state = s.socket.state := by rw [t2]; exact a9
      have c_hs : s2.socket.headerSend = s.socket.headerSend := by rw [t2]; exact a10
      have c_seq : s2.socket.seq S = (s.socket.seq S + 512) % 4294967296 := by rw [t2]; exact a6
      have c_fn : s2.frame.next = (IPWriteFlush cfg (writeFill s S g0 Buf (512 - o0)) S).frame.next := by
        rw [t2]
      have c_fp : s2.frame.packet = (IPWriteFlush cfg (writeFill s S g0 Buf (512 - o0)) S).frame.packet := by
        rw [t2]
      have c_fl : s2.frame.length = (IPWriteFlush cfg (writeFill s S g0 Buf (512 - o0)) S).frame.length := by
        rw [t2]
      have c_fe : s2.frame.seqEnd = (IPWriteFlush cfg (writeFill s S g0 Buf (512 - o0)) S).frame.seqEnd := by
        rw [t2]
      have c_fh : s2.FrameFreeHead = s.frame.next g := by
        rw [t2]
        exact (a14 g hgg0).1
      have c_fc : s2.FrameFreeCount = s.FrameFreeCount - 1 := by rw [t2]; show _ - 1 = _; rw [a12]
      have c_ff : s2.FrameSendFunc = s.FrameSendFunc := by rw [t2]; exact a13
      have c_sent : s2.sent = (IPWriteFlush cfg (writeFill s S g0 Buf (512 - o0)) S).sent := by rw [t2]
      have c_posted : s2.posted = (IPWriteFlush cfg (writeFill s S g0 Buf (512 - o0)) S).posted := by
        rw [t2]
      have c_sh : s2.FrameSendHead = (IPWriteFlush cfg (writeFill s S g0 Buf (512 - o0)) S).FrameSendHead := by
        rw [t2]
      have c_chain : IsChain s2.frame.next s2.FrameFreeHead P1 := by
        rw [c_fn, c_fh, ← (a14 g hgg0).1]
        exact hchain1.2
      obtain ⟨s3, e3, d1, d2, d3, d4, d5, d6, d7, d8, d9, d10, d11, d12, d13⟩ :=
        ih L1 (by omega) (fuel1 + 1) s2 (offset Buf (512 - o0)) (count + (512 - o0)) g 0 P1
          c_fs c_so (by decide) (by rw [c_st]; exact hst) (by rw [c_hs]; exact hproto) c_chain
          hgP1 hL1pos (by omega) (by simpa using hneed)
          (by rw [c_fc]; simp only [Nat.zero_add]; push_cast at hcount ⊢; omega)
      simp only [Nat.zero_add] at d1 d2 d3 d4 d5 d6 d7 d8 d9 d10
      have hg0out : g0 ∉ (g :: P1).take ((L1 - 1) / 512 + 1) :=
        fun hmem => hg0 (List.mem_of_mem_take hmem)
      obtain ⟨k1, k2, k3, k4⟩ := d10 g0 hg0out
      refine ⟨s3, ?_, ?_⟩
      · rw [hflush, hL1, htake, e3]
        exact congrArg some (Prod.ext rfl (by show count + (512 - o0) + L1 = count + L; omega))
      rw [hk, hr, hm]
      refine ⟨?_, d2, ?_, ?_, ?_, ?_, ?_, ?_, ?_, ?_, d11.trans c_st, d12.trans c_hs,
        d13.trans c_ff⟩
      · rw [d1, c_seq]
        omega
      · rw [d3]
        simp
      · intro j x hj hx
        cases j with
        | zero =>
          simp only [List.getElem?_cons_zero, Option.some.injEq] at hx
          subst hx
          refine ⟨by rw [k1, c_fp]; exact a2, by rw [k1, c_fp, a3]; rfl,
            by rw [k3, c_fl]; exact a1.1, by rw [k4, c_fe, a5], fun i hi => ?_⟩
          rw [k1, c_fp, a4 i hi]
          simp
        | succ j =>
          simp only [List.getElem?_cons_succ] at hx
          obtain ⟨f1, f2, f3, f4, f5⟩ := d4 j x (by omega) hx
          refine ⟨f1, by rw [f2, c_seq]; omega, f3, by rw [f4, c_seq]; omega, fun i hi => ?_⟩
          rw [f5 i hi, writeStream_shift (s.frame.packet g0) _ o0 Buf ho1]
          congr 1
          ring
      · intro x hx i hi
        simp only [List.getElem?_cons_succ] at hx
        rw [d5 x hx i hi, writeStream_shift (s.frame.packet g0) _ o0 Buf ho1]
        congr 1
        ring
      · intro F hF
        have f1 := d6 F (by rw [c_ff]; exact hF)
        have := a1.2
        rw [hF] at this
        simp only [] at this
        rw [f1, c_sent, this, List.take_succ_cons, List.map_cons, k1, c_fp]
        simp
      · intro hF
        obtain ⟨f1, f2, f3⟩ := d7 (by rw [c_ff]; exact hF)
        have := a1.2
        rw [hF] at this
        obtain ⟨b1, b2, b3, b4⟩ := this
        refine ⟨by rw [f1, c_sent, b1], by rw [f2, c_posted, b4]; ring, ?_⟩
        rw [List.take_succ_cons, List.reverse_cons]
        refine IsSeg_append f3 ?_
        rw [c_sh, b2]
        exact ⟨rfl, by rw [k2, c_fn, b3]; rfl⟩
      · rw [d8, c_fc]
        push_cast
        ring
      · simpa using d9
      · intro a ha
        have hne : a ≠ g0 := by
          intro e
          apply ha
          simp [e]
        have hout : a ∉ (g :: P1).take ((L1 - 1) / 512 + 1) := by
          intro hmem
          apply ha
          rw [List.take_succ_cons]
          exact List.mem_cons_of_mem _ hmem
        obtain ⟨b1, b2, b3, b4⟩ := d10 a hout
        obtain ⟨e1, e2, e3, e4⟩ := a14 a hne
        exact ⟨by rw [b1, c_fp, e2], by rw [b2, c_fn, e1], by rw [b3, c_fl, e3],
          by rw [b4, c_fe, e4]⟩
theorem writeStream_zero (p q : Nat → Nat) (Buf : Nat → Nat) (x : Nat) :
    writeStream p 0 Buf x = writeStream q 0 Buf x := by
  simp [writeStream]

/-- C28 (send path of a TCP socket): let the socket `S` be a TCP socket (not in the state UDP,
with the protocol byte 6 in its header), with `o0 < 512` bytes in the segment in progress
(`o0 = 0` without one), and let the free list `P` hold the frames that `Length` more bytes
need, with `FRAME_COUNT_SEND` frames to spare.  With `T = o0 + Length`, `IPWrite` returns
`Length`; it sends `T / 512` segments, in the frames `sendFrames s S P` in order, the `j`-th
with the flag ACK, 566 bytes, the sequence number `seq + 512 * j`, the 512 bytes from
`512 * j` on of the bytes that waited followed by the buffer, and `seqEnd = seq + 512 * (j + 1)`
(with a link-layer function they are handed over in this order, without one they are put on the
send queue and posted); `seq` moves on by `512 * (T / 512)`; after a write of at least one
byte `sendOffset` is `T % 512`, and the frame of the segment in progress, if `T % 512` is not
0, holds the last `T % 512` bytes.  `IPWriteFlush` on a TCP socket with `0 < o ≤ 512` bytes
in the segment in progress sends them in a segment of `54 + o` bytes with the flag ACK, moves
`seq` on by `o` and leaves no segment in progress.  On a socket without a segment in progress,
with no more than `FRAME_COUNT_SEND` free frames, `IPWrite` returns 0 and changes nothing
but `sendOffset`, which it sets to 0, as it is in every such socket. -/
theorem C28_write_tcp (cfg : IPConfig) (fuel : Nat) (s : IPStack) (S : Nat) (Buf : Nat → Nat)
    (Length o0 : Nat) (P : List Nat)
    (hst : s.socket.state S ≠ IP_UDP) (hproto : s.socket.headerSend S IP_PROTOCOL = 0x06)
    (hP : IsChain s.frame.next s.FrameFreeHead P)
    (hpend : match s.socket.frameSend S with
      | some g => s.socket.sendOffset S = (o0 : Int) ∧ g ∉ P
      | none => o0 = 0)
    (ho : o0 < 512) (hfuel : Length ≤ fuel)
    (hneed : (o0 + Length + 511) / 512 ≤ (sendFrames s S P).length)
    (hcount : (((o0 + Length + 511) / 512 : Nat) : Int) -
      ((s.socket.frameSend S).toList.length : Int) + cfg.FRAME_COUNT_SEND ≤ s.FrameFreeCount) :
    (∃ s1, IPWrite cfg fuel s S Buf Length = some (s1, Length) ∧
      (Length = 0 → s1 = s) ∧
      s1.socket.seq S % 4294967296 =
        (s.socket.seq S + 512 * ((o0 + Length) / 512)) % 4294967296 ∧
      (0 < Length → s1.socket.sendOffset S = (((o0 + Length) % 512 : Nat) : Int) ∧
        s1.socket.frameSend S =
          (if (o0 + Length) % 512 = 0 then none
           else (sendFrames s S P)[(o0 + Length) / 512]?)) ∧
      (∀ j g, j < (o0 + Length) / 512 → (sendFrames s S P)[j]? = some g →
        s1.frame.packet g TCP_FLAGS = TCP_FLAGS_ACK ∧
        load32 (s1.frame.packet g) TCP_SEQ = (s.socket.seq S + 512 * j) % 4294967296 ∧
        s1.frame.length g = 566 ∧
        s1.frame.seqEnd g = (s.socket.seq S + 512 * (j + 1)) % 4294967296 ∧
        ∀ i, i < 512 → s1.frame.packet g (TCP_DATA + i) =
          writeStream (pendingBytes s S) o0 Buf (512 * j + i)) ∧
      (∀ g, (sendFrames s S P)[(o0 + Length) / 512]? = some g →
        ∀ i, i < (o0 + Length) % 512 →
          s1.frame.packet g (TCP_DATA + i) =
            writeStream (pendingBytes s S) o0 Buf (512 * ((o0 + Length) / 512) + i)) ∧
      (∀ F, s.FrameSendFunc = some F →
        s1.sent = s.sent ++ ((sendFrames s S P).take ((o0 + Length) / 512)).map
          (fun g => (g, s1.frame.packet g, 566))) ∧
      (s.FrameSendFunc = none →
        s1.sent = s.sent ∧ s1.posted = s.posted + (o0 + Length) / 512 ∧
        IsSeg s1.frame.next s1.FrameSendHead
          ((sendFrames s S P).take ((o0 + Length) / 512)).reverse s.FrameSendHead)) ∧
    (∀ (s0 : IPStack) (g o : Nat), s0.socket.frameSend S = some g →
      s0.socket.state S ≠ IP_UDP → s0.socket.headerSend S IP_PROTOCOL = 0x06 →
      s0.socket.sendOffset S = (o : Int) → 0 < o → o ≤ 512 →
      Emits s0 (IPWriteFlush cfg s0 S) g (54 + o) ∧
      (IPWriteFlush cfg s0 S).frame.packet g TCP_FLAGS = TCP_FLAGS_ACK ∧
      load32 ((IPWriteFlush cfg s0 S).frame.packet g) TCP_SEQ = s0.socket.seq S % 4294967296 ∧
      (∀ i, i < o →
        (IPWriteFlush cfg s0 S).frame.packet g (TCP_DATA + i) = s0.frame.packet g (TCP_DATA + i)) ∧
      (IPWriteFlush cfg s0 S).socket.seq S = (s0.socket.seq S + o) % 4294967296 ∧
      (IPWriteFlush cfg s0 S).socket.frameSend S = none ∧
      (IPWriteFlush cfg s0 S).socket.sendOffset S = 0) ∧
    (∀ (s0 : IPStack) (Buf0 : Nat → Nat) (n fuel0 : Nat), s0.socket.frameSend S = none →
      s0.FrameFreeCount ≤ cfg.FRAME_COUNT_SEND → n ≤ fuel0 →
      ∃ s1, IPWrite cfg fuel0 s0 S Buf0 n = some (s1, 0) ∧
        (s1 = s0 ∨ s1 = { s0 with socket.sendOffset := upd s0.socket.sendOffset S 0 }) ∧
        (s0.socket.sendOffset S = 0 → s1 = s0)) := by
  refine ⟨?_, ?_, ?_⟩
  · unfold IPWrite
    by_cases hL : Length = 0
    · subst hL
      have hk : (o0 + 0) / 512 = 0 := by omega
      have hr : (o0 + 0) % 512 = o0 := by omega
      refine ⟨s, writeLoop_zero cfg S fuel s Buf 0, fun _ => rfl, ?_, fun h => absurd h (by decide),
        ?_, ?_, ?_, ?_⟩
      · rw [hk]
        rfl
      · intro j g hj
        omega
      · intro g hg i hi
        rw [hk] at hg
        rw [hr] at hi
        rw [hk]
        unfold sendFrames at hg
        unfold pendingBytes
        cases hfs : s.socket.frameSend S with
        | none =>
          rw [hfs] at hpend
          simp only [] at hpend
          omega
        | some g0 =>
          rw [hfs] at hg
          simp only [Option.toList, List.singleton_append, List.getElem?_cons_zero,
            Option.some.injEq] at hg
          subst hg
          simp [writeStream, hi]
      · intro F _
        rw [hk]
        simp
      · intro _
        rw [hk]
        simp [IsSeg]
    · have hLpos : 0 < Length := Nat.pos_of_ne_zero hL
      cases hfs : s.socket.frameSend S with
      | some g0 =>
        rw [hfs] at hpend hcount
        simp only [] at hpend
        have hU : sendFrames s S P = g0 :: P := by
          unfold sendFrames
          rw [hfs]
          rfl
        have hpb : pendingBytes s S = s.frame.packet g0 := by
          unfold pendingBytes
          rw [hfs]
        rw [hU] at hneed ⊢
        rw [hpb]
        obtain ⟨s1, e, d1, d2, d3, d4, d5, d6, d7, _⟩ :=
          writeLoop_pending cfg S Length fuel s Buf 0 g0 o0 P hfs hpend.1 ho hst hproto hP hpend.2
            hLpos hfuel (by simp only [List.length_cons] at hneed; omega)
            (by
              simp only [Option.toList, List.length_singleton] at hcount
              push_cast at hcount ⊢
              omega)
        rw [Nat.zero_add] at e
        exact ⟨s1, e, fun h => absurd h hL, d1, fun _ => ⟨d2, d3⟩, d4, d5, d6, d7⟩
      | none =>
        rw [hfs] at hpend hcount
        simp only [] at hpend
        subst hpend
        have hU : sendFrames s S P = P := by
          unfold sendFrames
          rw [hfs]
          rfl
        rw [hU] at hneed ⊢
        simp only [Nat.zero_add] at hneed hcount ⊢
        obtain ⟨g, P1, rfl⟩ : ∃ g P1, P = g :: P1 := by
          cases P with
          | nil =>
            simp only [List.length_nil] at hneed
            omega
          | cons g P1 => exact ⟨g, P1, rfl⟩
        have hgP1 : g ∉ P1 := (List.nodup_cons.mp (IsChain_nodup hP)).1
        obtain ⟨t1, t2⟩ := writeTake_eq cfg s S g
          (by
            simp only [Option.toList, List.length_nil] at hcount
            push_cast at hcount
            omega) hP.1
        obtain ⟨fuel0, rfl⟩ : ∃ fuel0, fuel = fuel0 + 1 := ⟨fuel - 1, by omega⟩
        have htake := writeLoop_take cfg S fuel0 s Buf Length 0 hfs hLpos
        rw [t1] at htake
        simp only [] at htake
        obtain ⟨s2, hs2⟩ : ∃ s2, s2 = writeTake cfg s S := ⟨_, rfl⟩
        rw [← hs2] at htake t2
        obtain ⟨s1, e, d1, d2, d3, d4, d5, d6, d7, _⟩ :=
          writeLoop_pending cfg S Length (fuel0 + 1) s2 Buf 0 g 0 P1 (by rw [t2]; simp)
            (by rw [t2]; simp) (by decide) (by rw [t2]; exact hst) (by rw [t2]; exact hproto)
            (by rw [t2]; exact hP.2) hgP1 hLpos hfuel
            (by simp only [List.length_cons] at hneed; omega)
            (by
              rw [t2]
              simp only [Option.toList, List.length_nil] at hcount
              show _ ≤ s.FrameFreeCount - 1
              push_cast at hcount ⊢
              omega)
        simp only [Nat.zero_add] at e d1 d2 d3 d4 d5 d6 d7
        have q1 : s2.socket.seq = s.socket.seq := by rw [t2]
        have q2 : s2.sent = s.sent := by rw [t2]
        have q3 : s2.posted = s.posted := by rw [t2]
        have q4 : s2.FrameSendHead = s.FrameSendHead := by rw [t2]
        have q5 : s2.FrameSendFunc = s.FrameSendFunc := by rw [t2]
        rw [q1] at d1 d4
        rw [q2, q5] at d6
        rw [q2, q3, q4, q5] at d7
        refine ⟨s1, htake.trans e, fun h => absurd h hL, d1, fun _ => ⟨d2, d3⟩, ?_, ?_, d6, d7⟩
        · intro j x hj hx
          obtain ⟨f1, f2, f3, f4, f5⟩ := d4 j x hj hx
          exact ⟨f1, f2, f3, f4, fun i hi => by rw [f5 i hi]; exact writeStream_zero _ _ _ _⟩
        · intro x hx i hi
          rw [d5 x hx i hi]
          exact writeStream_zero _ _ _ _
  · intro s0 g o h1 h2 h3 h4 h5 h6
    obtain ⟨a1, a2, a3, a4, _, a6, a7, a8, _⟩ := IPWriteFlush_spec cfg s0 S g o h1 h2 h3 h4 h5 h6
    exact ⟨a1, a2, a3, fun i _ => a4 _ (by simp only [TCP_DATA]; omega), a6, a7, a8⟩
  · intro s0 Buf0 n fuel0 hfs hc hn
    unfold IPWrite
    by_cases hn0 : n = 0
    · subst hn0
      exact ⟨s0, writeLoop_zero cfg S fuel0 s0 Buf0 0, Or.inl rfl, fun _ => rfl⟩
    · obtain ⟨fuel1, rfl⟩ : ∃ fuel1, fuel0 = fuel1 + 1 := ⟨fuel0 - 1, by omega⟩
      obtain ⟨t1, t2⟩ := writeTake_none cfg s0 S hc
      have htake := writeLoop_take cfg S fuel1 s0 Buf0 n 0 hfs (Nat.pos_of_ne_zero hn0)
      rw [t1] at htake
      simp only [] at htake
      have hupd : upd s0.socket.frameSend S none = s0.socket.frameSend := by
        funext a
        by_cases ha : a = S
        · rw [ha, upd_same, hfs]
        · rw [upd_ne _ _ ha]
      have t3 : writeTake cfg s0 S =
          { s0 with socket.sendOffset := upd s0.socket.sendOffset S 0 } := by
        rw [t2, hupd]
      refine ⟨_, htake, Or.inr t3, ?_⟩
      intro h0
      rw [t3]
      have hupd2 : upd s0.socket.sendOffset S 0 = s0.socket.sendOffset := by
        funext a
        by_cases ha : a = S
        · rw [ha, upd_same, h0]
        · rw [upd_ne _ _ ha]
      rw [hupd2]
theorem C28_write_tcp_witness :
    ∃ s1, IPWrite smallConfig 1030 clientStack 20 (fun _ => 0x41) 1030 = some (s1, 1030) ∧
      s1.socket.seq 20 % 4294967296 =
        (clientStack.socket.seq 20 + 512 * ((0 + 1030) / 512)) % 4294967296 ∧
      s1.sent = clientStack.sent ++
        ((sendFrames clientStack 20 [106, 105, 104, 103, 102, 101, 100]).take
          ((0 + 1030) / 512)).map (fun g => (g, s1.frame.packet g, 566)) := by
  obtain ⟨s1, h1, _, h2, _, _, _, h3, _⟩ :=
    (C28_write_tcp smallConfig 1030 clientStack 20 (fun _ => 0x41) 1030 0
      [106, 105, 104, 103, 102, 101, 100] (by decide) (by decide) (by decide)
      (by
        have h : clientStack.socket.frameSend 20 = none := by decide
        simp only [h])
      (by decide) (by decide) (by decide) (by decide)).1
  exact ⟨s1, h1, h2, h3 1 (by decide)⟩
/-! ## C29: what `IPRead` returns -/

/-- C29 (in-order delivery), at a frame with Ethernet padding: the socket 11 of
`establishedStack` is in the state TCP and expects the sequence number 1001; a segment of its
peer with one byte of data (`0x55`) arrives in a frame of 60 bytes, five of them padding.
`IPProcessTCPPacket` adopts the frame (it returns 1) and moves `ack` on by the one byte of
the IP length, and the frame is the tail of the read queue.  `IPRead` with a buffer of 100
bytes then returns 6: the byte of data and the five bytes of padding, counted by
`frame->length`. -/
theorem C29_padded_frame_read :
    establishedStack.socket.state 11 = IP_TCP ∧ establishedStack.socket.ack 11 = 1001 ∧
    paddedArrival.frame.length 107 = 60 ∧
    load32 (paddedArrival.frame.packet 107) TCP_SEQ = 1001 ∧
    paddedArrival.frame.packet 107 IP_LENGTH * 256 +
      paddedArrival.frame.packet 107 (IP_LENGTH + 1) = 41 ∧
    (IPProcessTCPPacket smallConfig 8 paddedArrival none 107).map
      (fun r => (r.2, r.1.socket.ack 11, r.1.socket.state 11, r.1.socket.frameReadTail 11)) =
      some (1, 1002, IP_TCP, some 107) ∧
    ((IPProcessTCPPacket smallConfig 8 paddedArrival none 107).bind
      (fun r => IPRead 8 r.1 11 (fun _ => 0xff) 100)).map
      (fun r => (r.2.2, (List.range 8).map r.2.1, r.1.socket.frameReadTail 11)) =
      some (6, [0x55, 0, 0, 0, 0, 0, 0xff, 0xff], none) := by
  decide
/-! ## C39: `IPRead` after the FIN of the peer -/

/-- C39, at a socket that has data to read when the FIN of its peer arrives: the socket 11
adopts a frame with the three bytes `0x55 0x55 0x55` in the state TCP; read then, `IPRead`
returns these 3 bytes.  When the FIN of the peer is processed first, the socket is in the state
FIN_CLIENT with the same frame on its read queue, and `IPRead` returns 15 bytes: the last 12
bytes of the TCP header (from offset 42, `UDP_DATA`) and then the three bytes of data. -/
theorem C39_read_after_fin :
    dataAdopted.socket.state 11 = IP_TCP ∧ dataAdopted.socket.frameReadTail 11 = some 107 ∧
    (IPRead 8 dataAdopted 11 (fun _ => 0xff) 100).map
      (fun r => (r.2.2, (List.range 16).map r.2.1)) =
      some (3, [0x55, 0x55, 0x55, 0xff, 0xff, 0xff, 0xff, 0xff, 0xff, 0xff, 0xff, 0xff, 0xff,
        0xff, 0xff, 0xff]) ∧
    finAfterData.socket.state 11 = IP_FIN_CLIENT ∧
    finAfterData.socket.frameReadTail 11 = some 107 ∧
    (List.range 57).map (finAfterData.frame.packet 107) =
      (List.range 57).map (dataAdopted.frame.packet 107) ∧
    finAfterData.frame.length 107 = dataAdopted.frame.length 107 ∧
    (IPRead 8 finAfterData 11 (fun _ => 0xff) 100).map
      (fun r => (r.2.2, (List.range 16).map r.2.1)) =
      some (15, [0x12, 0x34, 0x5a, 0x61, 0x50, 0x18, 0x20, 0, 0, 0, 0, 0, 0x55, 0x55, 0x55,
        0xff]) := by
  decide

/-! ## C33: the order of the ready list -/

/-- C33, at a ready list built by `OS_ThreadCreate`: the idle thread and the threads 2, 3, 4 with
the priorities 1, 2, 3 are created; the ready list is 4, 3, 2, 1, sorted, and every back link is
null, since an insertion at the head leaves the back link of the old head as it is.
`OS_ThreadPrioritySet(2, 7)` then takes the ready list for ended at thread 2: the list is
2, 1 and the threads 3 and 4, still READY, are on it no more.  `OS_ThreadPrioritySet(4, 9)`
then links thread 4 in front of its old successor: the ready list is 4, 3, 2, 1 with the
priorities 9, 2, 7, 0, which is not sorted. -/
theorem C33_ready_list_unsorted :
    fourThreads.map (fun k => (priorityWalk k 8 k.ThreadHead, [1, 2, 3, 4].map k.thread.prev)) =
      some ([(4, 3), (3, 2), (2, 1), (1, 0)], [none, none, none, none]) ∧
    (fourThreads.bind fun k => OS_ThreadPrioritySet 8 k 2 7).map
      (fun k => (priorityWalk k 8 k.ThreadHead, [3, 4].map k.thread.state)) =
      some ([(2, 7), (1, 0)], [THREAD_READY, THREAD_READY]) ∧
    ((fourThreads.bind fun k => OS_ThreadPrioritySet 8 k 2 7).bind
      fun k => OS_ThreadPrioritySet 8 k 4 9).map
      (fun k => (priorityWalk k 8 k.ThreadHead, decide (k.ReadyList [4, 3, 2, 1]),
        decide ([4, 3, 2, 1].Pairwise
          (fun a b => k.thread.priority b ≤ k.thread.priority a)))) =
      some ([(4, 9), (3, 2), (2, 7), (1, 0)], true, false) := by
  decide
/-! ## C36: the deferred reschedule flag is never cleared -/

/-- In the deferred case (`ThreadSwapEnabled == 0` or inside an interrupt) `OS_ThreadReschedule`
only ORs `2 + RoundRobin` into `ThreadNeedReschedule`. -/
theorem OS_ThreadReschedule_deferred (k : Kernel) (rr : Nat)
    (h : k.ThreadSwapEnabled = 0 ∨ k.InterruptInside ≠ 0) :
    OS_ThreadReschedule k rr
      = some { k with ThreadNeedReschedule := k.ThreadNeedReschedule ||| (2 + rr) } := by
  unfold OS_ThreadReschedule
  rw [if_pos h]

/-- Claim C36, evaluated on the code: in `twoEqualKernel` (B runs, A has the same priority) a
tick interrupt defers its round-robin reschedule, and `OS_InterruptServiceRoutine` performs it on
the way out: A runs.  The flag `ThreadNeedReschedule` is still 3 afterwards, so the next
interrupt, whose bit has no handler and which requests nothing, reschedules round-robin again:
B runs, the tick count is unchanged, and the flag is still 3. -/
theorem C36_reschedule_flag_never_cleared :
    twoEqualKernel.ThreadCurrent = some 3 ∧
    (OS_InterruptServiceRoutine tickIsr twoEqualKernel 8 false).map
        (fun k => (k.ThreadCurrent, k.ThreadNeedReschedule, k.ThreadTime, k.InterruptInside))
      = some (some 2, 3, 1, 0) ∧
    ((OS_InterruptServiceRoutine tickIsr twoEqualKernel 8 false).bind
        (fun k => (isrLoop tickIsr 32 0 2 { k with InterruptInside := 1 }).map
          (fun k1 => (k1.ThreadCurrent, k1.ThreadNeedReschedule, k1.ThreadTime))))
      = some (some 2, 3, 1) ∧
    ((OS_InterruptServiceRoutine tickIsr twoEqualKernel 8 false).bind
        (fun k => OS_InterruptServiceRoutine tickIsr k 2 false)).map
        (fun k => (k.ThreadCurrent, k.ThreadNeedReschedule, k.ThreadTime, k.InterruptInside))
      = some (some 3, 3, 1, 0) := by
  decide

/-! ## C38: the trailer is the IEEE 802.3 frame check sequence -/

/-- The check value of the standard CRC-32: the CRC of the ASCII digits `123456789` is
`0xCBF43926`. -/
theorem stdCrc32_check :
    stdCrc32 (listBytes [0x31, 0x32, 0x33, 0x34, 0x35, 0x36, 0x37, 0x38, 0x39]) 9 = 0xCBF43926 := by
  decide

theorem bitReverse_lt : ∀ (w x : Nat), bitReverse w x < 2 ^ w := by
  intro w
  induction w with
  | zero => intro x; simp [bitReverse]
  | succ w ih =>
    intro x
    have h := ih (x / 2)
    have h2 : x % 2 < 2 := Nat.mod_lt _ (by decide)
    have h3 : 2 ^ w * (x % 2) ≤ 2 ^ w * 1 := Nat.mul_le_mul_left _ (by omega)
    rw [bitReverse, pow_succ]
    omega

theorem bitReverse_testBit : ∀ (w x j : Nat),
    (bitReverse w x).testBit j = (decide (j < w) && x.testBit (w - 1 - j)) := by
  intro w
  induction w with
  | zero => intro x j; simp [bitReverse]
  | succ w ih =>
    intro x j
    rw [bitReverse, Nat.testBit_mul_pow_two_add _ (bitReverse_lt w (x / 2))]
    by_cases hj : j < w
    · rw [if_pos hj, ih]
      have e : w + 1 - 1 - j = (w - 1 - j) + 1 := by omega
      have hj1 : j < w + 1 := by omega
      rw [e, Nat.testBit_succ]
      simp [hj, hj1]
    · rw [if_neg hj]
      by_cases hw : j = w
      · subst hw
        simp [Nat.testBit_zero]
      · have e : j - w = (j - w - 1) + 1 := by omega
        have hj1 : ¬ j < w + 1 := by omega
        rw [e, Nat.testBit_succ]
        have : x % 2 / 2 = 0 := by omega
        simp [this, hj1]

theorem bitReverse_xor (w x y : Nat) :
    bitReverse w (x ^^^ y) = bitReverse w x ^^^ bitReverse w y := by
  apply Nat.eq_of_testBit_eq
  intro j
  simp only [Nat.testBit_xor, bitReverse_testBit]
  by_cases hj : j < w <;> simp [hj]

theorem bitReverse_shift (r : Nat) (hr : r < 4294967296) :
    (bitReverse 32 r <<< 1) % 4294967296 = bitReverse 32 (r >>> 1) := by
  have e32 : (4294967296 : Nat) = 2 ^ 32 := by norm_num
  rw [e32] at hr ⊢
  apply Nat.eq_of_testBit_eq
  intro j
  simp only [Nat.testBit_mod_two_pow, Nat.testBit_shiftLeft, Nat.testBit_shiftRight,
    bitReverse_testBit]
  by_cases hj : j < 32
  · by_cases h0 : j = 0
    · subst h0
      have hz : r.testBit 32 = false := Nat.testBit_lt_two_pow hr
      simp [hz]
    · have h1 : j ≥ 1 := by omega
      have h2 : j - 1 < 32 := by omega
      have e : 32 - 1 - (j - 1) = 1 + (32 - 1 - j) := by omega
      simp [hj, h1, h2, e]
  · simp [hj]

theorem stdCrcBit_lt (r : Nat) (b : Bool) (hr : r < 4294967296) : stdCrcBit r b < 4294967296 := by
  have h1 : r >>> 1 < 2 ^ 32 := by
    rw [Nat.shiftRight_eq_div_pow]
    omega
  unfold stdCrcBit
  split
  · exact Nat.xor_lt_two_pow h1 (by decide)
  · exact h1

theorem crcDivideBit_reverse (r : Nat) (b : Bool) (hr : r < 4294967296) :
    crcDivideBit (bitReverse 32 r) b = bitReverse 32 (stdCrcBit r b) := by
  have hp : bitReverse 32 0xEDB88320 = POLYNOMIAL := by decide
  have ht : (bitReverse 32 r).testBit 31 = r.testBit 0 := by
    rw [bitReverse_testBit]
    simp
  unfold crcDivideBit stdCrcBit
  rw [ht, bitReverse_shift r hr]
  by_cases h : (r.testBit 0 != b) = true
  · rw [if_pos h, if_pos h, bitReverse_xor, hp]
  · rw [if_neg h, if_neg h]

theorem stdCrcBits_lt (byte : Nat) : ∀ (k r : Nat), r < 4294967296 →
    stdCrcBits byte k r < 4294967296 := by
  intro k
  induction k with
  | zero => intro r hr; exact hr
  | succ k ih => intro r hr; exact stdCrcBit_lt _ _ (ih r hr)

theorem crcDivideBits_reverse (byte : Nat) : ∀ (k r : Nat), r < 4294967296 →
    crcDivideBits byte k (bitReverse 32 r) = bitReverse 32 (stdCrcBits byte k r) := by
  intro k
  induction k with
  | zero => intro r _; rfl
  | succ k ih =>
    intro r hr
    rw [crcDivideBits, stdCrcBits, ih r hr, crcDivideBit_reverse _ _ (stdCrcBits_lt byte k r hr)]

theorem stdCrcShift_xor (a m : Nat) :
    stdCrcShift (a ^^^ m) = stdCrcBit a (m.testBit 0) ^^^ (m >>> 1) := by
  have hx : ((a ^^^ m) % 2 = 1) ↔ ((a.testBit 0 != m.testBit 0) = true) := by
    have := Nat.testBit_xor a m 0
    rw [Nat.testBit_zero] at this
    have h2 : decide ((a ^^^ m) % 2 = 1) = (a.testBit 0 != m.testBit 0) := by
      rw [this]
    rw [← h2]
    simp
  have hs : (a ^^^ m) >>> 1 = (a >>> 1) ^^^ (m >>> 1) := by
    apply Nat.eq_of_testBit_eq
    intro j
    simp only [Nat.testBit_xor, Nat.testBit_shiftRight]
  unfold stdCrcShift stdCrcBit
  by_cases h : (a.testBit 0 != m.testBit 0) = true
  · rw [if_pos (hx.2 h), if_pos h, hs, Nat.xor_assoc, Nat.xor_comm (m >>> 1), ← Nat.xor_assoc]
  · rw [if_neg (fun h1 => h (hx.1 h1)), if_neg h, hs]

theorem stdCrcShifts_xor (crc byte : Nat) : ∀ k,
    stdCrcShifts k (crc ^^^ byte) = stdCrcBits byte k crc ^^^ (byte >>> k) := by
  intro k
  induction k with
  | zero => rfl
  | succ k ih =>
    rw [stdCrcShifts, ih, stdCrcShift_xor, stdCrcBits]
    have e1 : (byte >>> k).testBit 0 = byte.testBit k := by
      rw [Nat.testBit_shiftRight]
      simp
    have e2 : byte >>> k >>> 1 = byte >>> (k + 1) := by
      rw [← Nat.shiftRight_add]
    rw [e1, e2]

theorem stdCrcByte_eq (crc byte : Nat) (hb : byte < 256) :
    stdCrcByte crc byte = stdCrcBits byte 8 crc := by
  unfold stdCrcByte
  rw [stdCrcShifts_xor]
  have : byte >>> 8 = 0 := by
    rw [Nat.shiftRight_eq_div_pow]
    exact Nat.div_eq_of_lt (by simpa using hb)
  rw [this, Nat.xor_zero]

theorem stdCrcRegister_lt (message : Nat → Nat) (n : Nat) (hb : ∀ i, i < n → message i < 256) :
    stdCrcRegister message n < 4294967296 := by
  induction n with
  | zero => exact (by decide : (0xFFFFFFFF : Nat) < 4294967296)
  | succ n ih =>
    rw [stdCrcRegister, stdCrcByte_eq _ _ (hb n (by omega))]
    exact stdCrcBits_lt _ _ _ (ih (fun i hi => hb i (by omega)))

/-- The register of the driver is the bit reversal of the standard reflected register, after
every byte. -/
theorem crcOf_eq_reverse (buffer : Nat → Nat) (n : Nat) (hb : ∀ i, i < n → buffer i < 256) :
    crcOf buffer n = bitReverse 32 (stdCrcRegister buffer n) := by
  rw [crcOf_eq_crc32 buffer n hb]
  induction n with
  | zero => exact (by decide : (0xffffffff : Nat) = bitReverse 32 0xFFFFFFFF)
  | succ n ih =>
    have hb1 : ∀ i, i < n → buffer i < 256 := fun i hi => hb i (by omega)
    rw [crc32, ih hb1, stdCrcRegister, stdCrcByte_eq _ _ (hb n (by omega)),
      crcDivideBits_reverse _ _ _ (stdCrcRegister_lt buffer n hb1)]

theorem swap_reverseNibbles : ∀ c < 256, swapNibbles (reverseNibbles c) = bitReverse 8 c := by
  decide

/-- Byte `i` from the top of the reversed register, complemented and reversed, is byte `i`
from the bottom of the complemented register. -/
theorem reverse_byte (r i : Nat) (hi : i < 4) :
    bitReverse 8 ((((bitReverse 32 r) >>> (24 - 8 * i)) &&& 0xff) ^^^ 0xff) =
      ((r ^^^ 0xFFFFFFFF) >>> (8 * i)) &&& 0xff := by
  have e8 : (0xff : Nat) = 2 ^ 8 - 1 := by norm_num
  have e32 : (0xFFFFFFFF : Nat) = 2 ^ 32 - 1 := by norm_num
  rw [e8, e32]
  apply Nat.eq_of_testBit_eq
  intro j
  simp only [bitReverse_testBit, Nat.testBit_xor, Nat.testBit_and, Nat.testBit_shiftRight,
    Nat.testBit_two_pow_sub_one]
  by_cases hj : j < 8
  · have h1 : 8 - 1 - j < 8 := by omega
    have h2 : 24 - 8 * i + (8 - 1 - j) < 32 := by omega
    have h3 : 8 * i + j < 32 := by omega
    have e : 32 - 1 - (24 - 8 * i + (8 - 1 - j)) = 8 * i + j := by omega
    simp [hj, h1, h2, h3, e]
  · simp [hj]

/-- Claim C38: for every buffer of bytes and every length, un-swapping the nibbles of trailer
byte `i` (`i = 0..3`) that `EthernetTransmit` writes behind the padded bytes gives byte `i`,
least significant first, of the standard CRC-32 of the padded bytes (`stdCrc32`: reflected
polynomial `0xEDB88320`, initial value `0xFFFFFFFF`, final xor `0xFFFFFFFF`); and after every
number `n` of bytes the register that the driver keeps (table-driven, most significant bit
first, input bytes reflected) is the bit reversal of the standard reflected register. -/
theorem C38_trailer_is_ieee_fcs (e : Ethernet) (buffer : Nat → Nat) (length : Nat)
    (hb : ∀ j, j < length → buffer j < 256) :
    (∀ i, i < 4 →
      swapNibbles ((EthernetTransmit e buffer length).1.ETHERNET_TRANSMIT
          (paddedLength length + 8 + i)) =
        (stdCrc32 (padded buffer length) (paddedLength length) >>> (8 * i)) &&& 0xff) ∧
    (∀ n, n ≤ paddedLength length →
      (transmitLoop (padded buffer length) n (fun _ => 0) 0xffffffff).2 =
        bitReverse 32 (stdCrcRegister (padded buffer length) n)) := by
  have hs := paddedLength_spec length
  have hp := padded_lt hb
  refine ⟨?_, ?_⟩
  · intro i hi
    rw [EthernetTransmit_window, if_neg (by omega), if_neg (by omega), if_neg (by omega),
      if_pos (by omega)]
    have e1 : paddedLength length + 8 + i - (paddedLength length + 8) = i := by omega
    rw [e1, crcOf_eq_reverse _ _ hp]
    unfold trailerByte stdCrc32
    rw [reflectNibble_eq _ (Nat.and_lt_two_pow _ (n := 8) (by decide)), Nat.shiftLeft_eq]
    have e2 : i * 2 ^ 3 = 8 * i := by omega
    rw [e2, swap_reverseNibbles _ (Nat.xor_lt_two_pow (n := 8)
      (Nat.and_lt_two_pow _ (n := 8) (by decide)) (by decide))]
    exact reverse_byte _ i hi
  · intro n hn
    rw [transmitLoop_crc]
    exact crcOf_eq_reverse _ n (fun i hi => hp i (by omega))

/-- Claim C38, instance: a buffer of 46 bytes. -/
theorem C38_trailer_is_ieee_fcs_witness :
    (∀ i, i < 4 →
      swapNibbles ((EthernetTransmit ethernetStart (fun i => i % 256) 46).1.ETHERNET_TRANSMIT
          (paddedLength 46 + 8 + i)) =
        (stdCrc32 (padded (fun i => i % 256) 46) (paddedLength 46) >>> (8 * i)) &&& 0xff) ∧
    (∀ n, n ≤ paddedLength 46 →
      (transmitLoop (padded (fun i => i % 256) 46) n (fun _ => 0) 0xffffffff).2 =
        bitReverse 32 (stdCrcRegister (padded (fun i => i % 256) 46) n)) :=
  C38_trailer_is_ieee_fcs ethernetStart (fun i => i % 256) 46
    (fun i _ => Nat.mod_lt i (by decide))

/-! ## C31: the DHCP ACK -/

theorem dhcpOptionsAt_length (packet : Nat → Nat) (length : Int) :
    ∀ (options : List (Nat × List Nat)) (ptr : Nat), dhcpOptionsAt packet length ptr options →
      options = [] ∨ ((ptr : Int) + 2 * options.length < length + 2) := by
  intro options
  induction options with
  | nil => intro ptr _; exact Or.inl rfl
  | cons option rest ih =>
    intro ptr h
    obtain ⟨_, _, h3, _, _, h6⟩ := h
    right
    rcases ih _ h6 with h0 | h0
    · subst h0
      simp
      omega
    · simp only [List.length_cons]
      push_cast at h0 ⊢
      omega

/-- The option walk of the ACK branch over options without a DNS option. -/
theorem dhcpDnsLoop_skip (packet : Nat → Nat) (length : Int) :
    ∀ (options : List (Nat × List Nat)) (fuel ptr dns : Nat),
      dhcpOptionsAt packet length ptr options → options.length ≤ fuel →
      (∀ o, o ∈ options → o.1 ≠ DHCP_PARAM_DNS) →
      dhcpDnsLoop packet length fuel ptr dns = dns := by
  intro options
  induction options with
  | nil =>
    intro fuel ptr dns h _ _
    cases fuel with
    | zero => rfl
    | succ fuel =>
      have h0 : packet ptr = DHCP_END_OPTION := h
      rw [dhcpDnsLoop, if_neg (fun hc => hc.1 h0)]
  | cons option rest ih =>
    intro fuel ptr dns h hf hn
    obtain ⟨h1, h2, h3, h4, _, h6⟩ := h
    cases fuel with
    | zero => simp at hf
    | succ fuel =>
      rw [dhcpDnsLoop, if_pos ⟨by rw [h1]; exact h2, h3⟩]
      simp only []
      rw [h4, h1, if_neg (hn option (List.mem_cons_self _ _)),
        ih fuel _ _ h6 (by simpa using hf) (fun o ho => hn o (List.mem_cons_of_mem _ ho))]

/-- The option walk of the ACK branch over options of which the last DNS option has the data
bytes `a b c d` first. -/
theorem dhcpDnsLoop_dns (packet : Nat → Nat) (length : Int) (a b c d : Nat) (more : List Nat)
    (post : List (Nat × List Nat)) (hpost : ∀ o, o ∈ post → o.1 ≠ DHCP_PARAM_DNS) :
    ∀ (before : List (Nat × List Nat)) (fuel ptr dns : Nat),
      dhcpOptionsAt packet length ptr
        (before ++ (DHCP_PARAM_DNS, a :: b :: c :: d :: more) :: post) →
      (before ++ (DHCP_PARAM_DNS, a :: b :: c :: d :: more) :: post).length ≤ fuel →
      dhcpDnsLoop packet length fuel ptr dns =
        ((a <<< 24) ||| (b <<< 16) ||| (c <<< 8) ||| d) % 4294967296 := by
  intro before
  induction before with
  | nil =>
    intro fuel ptr dns h hf
    obtain ⟨h1, h2, h3, h4, h5, h6⟩ := h
    cases fuel with
    | zero => simp at hf
    | succ fuel =>
      rw [dhcpDnsLoop, if_pos ⟨by rw [h1]; exact h2, h3⟩]
      simp only []
      have e0 := h5 0 (by simp)
      have e1 := h5 1 (by simp)
      have e2 := h5 2 (by simp)
      have e3 := h5 3 (by simp)
      simp only [List.getD_cons_zero, List.getD_cons_succ, Nat.add_zero] at e0 e1 e2 e3
      rw [h4, h1, if_pos rfl, e0, e1, e2, e3]
      exact dhcpDnsLoop_skip packet length post fuel _ _ h6 (by simpa using hf) hpost
  | cons option rest ih =>
    intro fuel ptr dns h hf
    obtain ⟨h1, h2, h3, h4, _, h6⟩ := h
    cases fuel with
    | zero => simp at hf
    | succ fuel =>
      rw [dhcpDnsLoop, if_pos ⟨by rw [h1]; exact h2, h3⟩]
      simp only []
      rw [h4]
      exact ih fuel _ _ h6 (by simpa using hf)

/-- The globals after the ACK branch of `IPDhcp`. -/
theorem IPDhcp_ack (cfg : IPConfig) (s : IPStack) (packet : Nat → Nat) (length : Int)
    (hmac : memcmp (offset packet DHCP_CLIENT_ETHERNET) ethernetAddressPlasma 6 = 0)
    (hack : packet (DHCP_MAGIC_COOKIE + 6) = DHCP_ACK)
    (hreq : s.request = DHCP_REQUEST) :
    (IPDhcp cfg s packet length 2).ipAddressPlasma =
        memcpy s.ipAddressPlasma 0 packet DHCP_YOUR_IP 4 ∧
    (IPDhcp cfg s packet length 2).ipAddressGateway =
        (if packet DHCP_GATEWAY_IP = 0 ∧ packet (DHCP_GATEWAY_IP + 1) = 0 ∧
            packet (DHCP_GATEWAY_IP + 2) = 0 ∧ packet (DHCP_GATEWAY_IP + 3) = 0 then
          memcpy (memcpy s.ipAddressGateway 0 packet DHCP_GATEWAY_IP 4) 0 packet DHCP_SERVER_IP 4
        else memcpy s.ipAddressGateway 0 packet DHCP_GATEWAY_IP 4) ∧
    (IPDhcp cfg s packet length 2).ethernetAddressGateway =
        memcpy s.ethernetAddressGateway 0 packet ETHERNET_SOURCE 6 ∧
    (IPDhcp cfg s packet length 2).ipAddressDns =
        dhcpDnsLoop packet length length.toNat (DHCP_MAGIC_COOKIE + 4) s.ipAddressDns ∧
    (IPDhcp cfg s packet length 2).DhcpRetrySeconds = 14400 := by
  have hoff : ¬ (packet (DHCP_MAGIC_COOKIE + 6) = DHCP_OFFER ∧ s.request = DHCP_DISCOVER) := by
    rw [hack]
    exact fun h => absurd h.1 (by decide)
  have hg : ∀ i, memcpy s.ipAddressGateway 0 packet DHCP_GATEWAY_IP 4 i =
      if i < 4 then packet (DHCP_GATEWAY_IP + i) else s.ipAddressGateway i := by
    intro i
    unfold memcpy
    simp
  unfold IPDhcp
  rw [if_neg (by decide), if_pos ⟨rfl, hmac⟩, if_neg hoff, if_pos ⟨hack, hreq⟩]
  simp only []
  rw [hg 0, hg 1, hg 2, hg 3]
  simp only [Nat.add_zero, show (0 : Nat) < 4 from by decide, show (1 : Nat) < 4 from by decide,
    show (2 : Nat) < 4 from by decide, show (3 : Nat) < 4 from by decide, if_true]
  by_cases hz : packet DHCP_GATEWAY_IP = 0 ∧ packet (DHCP_GATEWAY_IP + 1) = 0 ∧
      packet (DHCP_GATEWAY_IP + 2) = 0 ∧ packet (DHCP_GATEWAY_IP + 3) = 0
  · simp only [if_pos hz]
    split
    · split
      · next s1 heq =>
        have e := congrArg Prod.fst heq
        simp only at e
        subst e
        simp
      · next s1 frame heq =>
        have e := congrArg Prod.fst heq
        simp only at e
        subst e
        simp
    · simp
  · simp only [if_neg hz]
    split
    · split
      · next s1 heq =>
        have e := congrArg Prod.fst heq
        simp only at e
        subst e
        simp
      · next s1 frame heq =>
        have e := congrArg Prod.fst heq
        simp only at e
        subst e
        simp
    · simp

/-- Claim C31: a DHCP ACK (message type at `DHCP_MAGIC_COOKIE + 6`) for the local MAC address,
received after the request was sent (`request == DHCP_REQUEST`), makes `IPDhcp` store the
address at `DHCP_YOUR_IP` as the local address, the gateway address field as the gateway address
unless it is 0.0.0.0, in which case the server address is stored, the source MAC address of the
frame as the gateway MAC address, the four data bytes of the (last) option 6 as the DNS server,
high byte first, and 14400 as `DhcpRetrySeconds`.  An ACK in any other client state, and an OFFER
in any client state but the one after the discover, leaves the whole state as it is. -/
theorem C31_dhcp_ack_binding (cfg : IPConfig) (s : IPStack) (packet : Nat → Nat) (length : Int)
    (before post : List (Nat × List Nat)) (a b c d : Nat) (more : List Nat)
    (hmac : memcmp (offset packet DHCP_CLIENT_ETHERNET) ethernetAddressPlasma 6 = 0)
    (hack : packet (DHCP_MAGIC_COOKIE + 6) = DHCP_ACK)
    (hreq : s.request = DHCP_REQUEST)
    (hopts : dhcpOptionsAt packet length (DHCP_MAGIC_COOKIE + 4)
      (before ++ (DHCP_PARAM_DNS, a :: b :: c :: d :: more) :: post))
    (hpost : ∀ o, o ∈ post → o.1 ≠ DHCP_PARAM_DNS) :
    (∀ i, i < 4 → (IPDhcp cfg s packet length 2).ipAddressPlasma i = packet (DHCP_YOUR_IP + i)) ∧
    (∀ i, i < 4 → (IPDhcp cfg s packet length 2).ipAddressGateway i =
      if packet DHCP_GATEWAY_IP = 0 ∧ packet (DHCP_GATEWAY_IP + 1) = 0 ∧
          packet (DHCP_GATEWAY_IP + 2) = 0 ∧ packet (DHCP_GATEWAY_IP + 3) = 0 then
        packet (DHCP_SERVER_IP + i)
      else packet (DHCP_GATEWAY_IP + i)) ∧
    (∀ i, i < 6 →
      (IPDhcp cfg s packet length 2).ethernetAddressGateway i = packet (ETHERNET_SOURCE + i)) ∧
    (IPDhcp cfg s packet length 2).ipAddressDns =
      ((a <<< 24) ||| (b <<< 16) ||| (c <<< 8) ||| d) % 4294967296 ∧
    (IPDhcp cfg s packet length 2).DhcpRetrySeconds = 14400 ∧
    (∀ (s0 : IPStack) (packet0 : Nat → Nat) (length0 : Int),
      (packet0 (DHCP_MAGIC_COOKIE + 6) = DHCP_ACK ∧ s0.request ≠ DHCP_REQUEST) ∨
        (packet0 (DHCP_MAGIC_COOKIE + 6) = DHCP_OFFER ∧ s0.request ≠ DHCP_DISCOVER) →
      IPDhcp cfg s0 packet0 length0 2 = s0) := by
  obtain ⟨h1, h2, h3, h4, h5⟩ := IPDhcp_ack cfg s packet length hmac hack hreq
  have hfuel : (before ++ (DHCP_PARAM_DNS, a :: b :: c :: d :: more) :: post).length
      ≤ length.toNat := by
    rcases dhcpOptionsAt_length packet length _ _ hopts with h0 | h0
    · rw [h0]
      exact Nat.zero_le _
    · have e : ((DHCP_MAGIC_COOKIE + 4 : Nat) : Int) = 282 := rfl
      rw [e] at h0
      omega
  refine ⟨?_, ?_, ?_, ?_, h5, ?_⟩
  · intro i hi
    rw [h1]
    unfold memcpy
    simp [hi]
  · intro i hi
    rw [h2]
    by_cases hz : packet DHCP_GATEWAY_IP = 0 ∧ packet (DHCP_GATEWAY_IP + 1) = 0 ∧
        packet (DHCP_GATEWAY_IP + 2) = 0 ∧ packet (DHCP_GATEWAY_IP + 3) = 0
    · rw [if_pos hz, if_pos hz]
      unfold memcpy
      simp [hi]
    · rw [if_neg hz, if_neg hz]
      unfold memcpy
      simp [hi]
  · intro i hi
    rw [h3]
    unfold memcpy
    simp [hi]
  · rw [h4]
    exact dhcpDnsLoop_dns packet length a b c d more post hpost before _ _ _ hopts hfuel
  · intro s0 packet0 length0 h
    unfold IPDhcp
    rw [if_neg (by decide)]
    rcases h with ⟨ht, hs⟩ | ⟨ht, hs⟩
    · have n1 : ¬ (packet0 (DHCP_MAGIC_COOKIE + 6) = DHCP_OFFER ∧ s0.request = DHCP_DISCOVER) := by
        rw [ht]
        exact fun h => absurd h.1 (by decide)
      have n2 : ¬ (packet0 (DHCP_MAGIC_COOKIE + 6) = DHCP_ACK ∧ s0.request = DHCP_REQUEST) :=
        fun h => hs h.2
      rw [if_neg n1, if_neg n2]
      simp
    · have n1 : ¬ (packet0 (DHCP_MAGIC_COOKIE + 6) = DHCP_OFFER ∧ s0.request = DHCP_DISCOVER) :=
        fun h => hs h.2
      have n2 : ¬ (packet0 (DHCP_MAGIC_COOKIE + 6) = DHCP_ACK ∧ s0.request = DHCP_REQUEST) := by
        rw [ht]
        exact fun h => absurd h.1 (by decide)
      rw [if_neg n1, if_neg n2]
      simp

/-- Claim C31, instance: after the offer of 192.168.1.42 from 192.168.1.1 was answered, the ACK
with the gateway address field 0.0.0.0 and the DNS option 8.8.8.8. -/
theorem C31_dhcp_ack_binding_witness :
    (∀ i, i < 4 → (IPDhcp smallConfig dhcpRequested (dhcpReply DHCP_ACK) 342 2).ipAddressPlasma i =
      dhcpReply DHCP_ACK (DHCP_YOUR_IP + i)) ∧
    (∀ i, i < 4 → (IPDhcp smallConfig dhcpRequested (dhcpReply DHCP_ACK) 342 2).ipAddressGateway i =
      if dhcpReply DHCP_ACK DHCP_GATEWAY_IP = 0 ∧ dhcpReply DHCP_ACK (DHCP_GATEWAY_IP + 1) = 0 ∧
          dhcpReply DHCP_ACK (DHCP_GATEWAY_IP + 2) = 0 ∧
          dhcpReply DHCP_ACK (DHCP_GATEWAY_IP + 3) = 0 then
        dhcpReply DHCP_ACK (DHCP_SERVER_IP + i)
      else dhcpReply DHCP_ACK (DHCP_GATEWAY_IP + i)) ∧
    (∀ i, i < 6 →
      (IPDhcp smallConfig dhcpRequested (dhcpReply DHCP_ACK) 342 2).ethernetAddressGateway i =
        dhcpReply DHCP_ACK (ETHERNET_SOURCE + i)) ∧
    (IPDhcp smallConfig dhcpRequested (dhcpReply DHCP_ACK) 342 2).ipAddressDns =
      ((8 <<< 24) ||| (8 <<< 16) ||| (8 <<< 8) ||| 8) % 4294967296 ∧
    (IPDhcp smallConfig dhcpRequested (dhcpReply DHCP_ACK) 342 2).DhcpRetrySeconds = 14400 ∧
    (∀ (s0 : IPStack) (packet0 : Nat → Nat) (length0 : Int),
      (packet0 (DHCP_MAGIC_COOKIE + 6) = DHCP_ACK ∧ s0.request ≠ DHCP_REQUEST) ∨
        (packet0 (DHCP_MAGIC_COOKIE + 6) = DHCP_OFFER ∧ s0.request ≠ DHCP_DISCOVER) →
      IPDhcp smallConfig s0 packet0 length0 2 = s0) :=
  C31_dhcp_ack_binding smallConfig dhcpRequested (dhcpReply DHCP_ACK) 342
    [(53, [5]), (1, [255, 255, 255, 0]), (3, [192, 168, 1, 1])] [] 8 8 8 8 []
    (by decide) (by decide) (by decide) (by decide) (by decide)

/-- The addresses after the ACK of the instance: local address 192.168.1.42, gateway
192.168.1.1, DNS server 8.8.8.8; and the same ACK before any request was sent changes no
address. -/
theorem dhcp_ack_example :
    (List.range 4).map (IPDhcp smallConfig dhcpRequested (dhcpReply DHCP_ACK) 342 2).ipAddressPlasma
      = [192, 168, 1, 42] ∧
    (List.range 4).map (IPDhcp smallConfig dhcpRequested (dhcpReply DHCP_ACK) 342 2).ipAddressGateway
      = [192, 168, 1, 1] ∧
    (IPDhcp smallConfig dhcpRequested (dhcpReply DHCP_ACK) 342 2).ipAddressDns = 0x08080808 ∧
    (List.range 6).map
        (IPDhcp smallConfig dhcpRequested (dhcpReply DHCP_ACK) 342 2).ethernetAddressGateway
      = [0x00, 0x11, 0x22, 0x33, 0x44, 0x55] := by
  decide

/-! ## C32: the name in a DNS query -/

theorem labelScan_spec (buf : Nat → Nat) (ptr n : Nat) : ∀ (k i : Nat), i ≤ n → n < i + k →
    (∀ j, i ≤ j → j < n → ¬ (buf (ptr + (j + 1)) = 0x2e ∨ buf (ptr + (j + 1)) = 0)) →
    (buf (ptr + (n + 1)) = 0x2e ∨ buf (ptr + (n + 1)) = 0) →
    labelScan buf ptr k i = some n := by
  intro k
  induction k with
  | zero => intro i h1 h2; omega
  | succ k ih =>
    intro i h1 h2 h3 h4
    rw [labelScan]
    by_cases hi : i = n
    · subst hi
      rw [if_pos h4]
    · rw [if_neg (h3 i (Nat.le_refl _) (by omega))]
      exact ih (i + 1) (by omega) (by omega) (fun j hj1 hj2 => h3 j (by omega) hj2) h4

theorem encodedLabels_length : ∀ (labels : List (List Nat)), labels ≠ [] →
    (encodedLabels labels).length = (dottedName labels).length + 1 := by
  intro labels
  induction labels with
  | nil => intro h; exact absurd rfl h
  | cons l rest ih =>
    intro _
    cases rest with
    | nil => simp [encodedLabels, dottedName]
    | cons l2 rest2 =>
      have := ih (by simp)
      simp only [encodedLabels, dottedName, List.length_cons, List.length_append] at this ⊢
      omega

theorem dottedName_ne_zero : ∀ (labels : List (List Nat)),
    (∀ l, l ∈ labels → l ≠ [] ∧ l.length ≤ 63 ∧ ∀ c, c ∈ l → c ≠ 0 ∧ c ≠ 0x2e) →
    ∀ c, c ∈ dottedName labels → c ≠ 0 := by
  intro labels
  induction labels with
  | nil => intro _ c hc; simp [dottedName] at hc
  | cons l rest ih =>
    intro h c hc
    cases rest with
    | nil =>
      simp only [dottedName] at hc
      exact ((h l (List.mem_cons_self _ _)).2.2 c hc).1
    | cons l2 rest2 =>
      simp only [dottedName, List.mem_append, List.mem_cons] at hc
      rcases hc with hc | hc | hc
      · exact ((h l (List.mem_cons_self _ _)).2.2 c hc).1
      · rw [hc]; decide
      · exact ih (fun l0 hl0 => h l0 (List.mem_cons_of_mem _ hl0)) c hc

theorem getD_mem (l : List Nat) (i : Nat) (h : i < l.length) : l.getD i 0 ∈ l := by
  rw [List.getD_eq_getElem l 0 h]
  exact List.getElem_mem h

/-- The label loop of `IPResolve` over a name of non-empty labels that starts behind `ptr`:
the loop ends at the zero byte behind the name, and the bytes from `ptr` on are the labels, each
with its length before it. -/
theorem labelLoop_spec : ∀ (labels : List (List Nat)), labels ≠ [] →
    (∀ l, l ∈ labels → l ≠ [] ∧ l.length ≤ 63 ∧ ∀ c, c ∈ l → c ≠ 0 ∧ c ≠ 0x2e) →
    ∀ (fuel : Nat) (buf : Nat → Nat) (ptr : Nat), labels.length < fuel → buf ptr ≠ 0 →
    (∀ i, i < (dottedName labels).length → buf (ptr + 1 + i) = (dottedName labels).getD i 0) →
    buf (ptr + 1 + (dottedName labels).length) = 0 →
    ∃ buf1, labelLoop fuel buf ptr = some (buf1, ptr + 1 + (dottedName labels).length) ∧
      ∀ i, buf1 i =
        if ptr ≤ i ∧ i < ptr + 1 + (dottedName labels).length then
          (encodedLabels labels).getD (i - ptr) 0
        else buf i := by
  intro labels
  induction labels with
  | nil => intro h; exact absurd rfl h
  | cons l rest ih =>
    intro _ hlab fuel buf ptr hfuel hptr hname hzero
    have hl := hlab l (List.mem_cons_self _ _)
    have hchars : ∀ j, j < l.length → ¬ (l.getD j 0 = 0x2e ∨ l.getD j 0 = 0) := by
      intro j hj hc
      have := hl.2.2 _ (getD_mem l j hj)
      rcases hc with hc | hc
      · exact this.2 hc
      · exact this.1 hc
    have hmod : l.length % 256 = l.length := Nat.mod_eq_of_lt (by omega)
    cases fuel with
    | zero => omega
    | succ fuel =>
      cases rest with
      | nil =>
        simp only [dottedName] at hname hzero ⊢
        have hscan : labelScan buf ptr 100 0 = some l.length := by
          apply labelScan_spec buf ptr l.length 100 0 (Nat.zero_le _) (by omega)
          · intro j _ hj
            have e : ptr + (j + 1) = ptr + 1 + j := by omega
            rw [e, hname j hj]
            exact hchars j hj
          · right
            have e : ptr + (l.length + 1) = ptr + 1 + l.length := by omega
            rw [e]
            exact hzero
        cases fuel with
        | zero => simp at hfuel
        | succ fuel =>
          have e1 : ptr + (l.length + 1) = ptr + 1 + l.length := by omega
          have hz1 : upd buf ptr l.length (ptr + 1 + l.length) = 0 := by
            rw [upd_ne _ _ (by omega)]
            exact hzero
          refine ⟨upd buf ptr l.length, ?_, ?_⟩
          · rw [labelLoop, if_pos hptr, hscan]
            simp only [hmod]
            rw [labelLoop, e1, if_neg (by rw [hz1]; exact fun h => h rfl)]
          · intro i
            simp only [encodedLabels, List.append_nil]
            by_cases hi : i = ptr
            · subst hi
              rw [upd_same, if_pos ⟨Nat.le_refl _, by omega⟩]
              simp
            · rw [upd_ne _ _ hi]
              by_cases hr : ptr ≤ i ∧ i < ptr + 1 + l.length
              · rw [if_pos hr]
                have e2 : i - ptr = (i - ptr - 1) + 1 := by omega
                have e3 : i = ptr + 1 + (i - ptr - 1) := by omega
                rw [e2, List.getD_cons_succ]
                conv_lhs => rw [e3]
                exact hname _ (by omega)
              · rw [if_neg hr]
      | cons l2 rest2 =>
        have hn : (dottedName (l :: l2 :: rest2)).length
            = l.length + 1 + (dottedName (l2 :: rest2)).length := by
          simp only [dottedName, List.length_append, List.length_cons]
          omega
        have hnd : ∀ i, (dottedName (l :: l2 :: rest2)).getD i 0 =
            if i < l.length then l.getD i 0
            else if i = l.length then 0x2e
            else (dottedName (l2 :: rest2)).getD (i - (l.length + 1)) 0 := by
          intro i
          simp only [dottedName]
          by_cases h1 : i < l.length
          · rw [if_pos h1, List.getD_append _ _ _ _ h1]
          · rw [if_neg h1, List.getD_append_right _ _ _ _ (by omega)]
            by_cases h2 : i = l.length
            · rw [if_pos h2, h2]
              simp
            · rw [if_neg h2]
              have e : i - l.length = (i - (l.length + 1)) + 1 := by omega
              rw [e, List.getD_cons_succ]
        rw [hn] at hname hzero ⊢
        have hscan : labelScan buf ptr 100 0 = some l.length := by
          apply labelScan_spec buf ptr l.length 100 0 (Nat.zero_le _) (by omega)
          · intro j _ hj
            have e : ptr + (j + 1) = ptr + 1 + j := by omega
            rw [e, hname j (by omega), hnd, if_pos hj]
            exact hchars j hj
          · left
            have e : ptr + (l.length + 1) = ptr + 1 + l.length := by omega
            rw [e, hname _ (by omega), hnd, if_neg (by omega), if_pos rfl]
        have hp1 : upd buf ptr l.length (ptr + (l.length + 1)) ≠ 0 := by
          rw [upd_ne _ _ (by omega)]
          have e : ptr + (l.length + 1) = ptr + 1 + l.length := by omega
          rw [e, hname _ (by omega), hnd, if_neg (by omega), if_pos rfl]
          decide
        obtain ⟨buf1, hb1, hb2⟩ := ih (by simp)
          (fun l0 hl0 => hlab l0 (List.mem_cons_of_mem _ hl0)) fuel (upd buf ptr l.length)
          (ptr + (l.length + 1)) (by simpa using hfuel) hp1
          (by
            intro i hi
            rw [upd_ne _ _ (by omega)]
            have e : ptr + (l.length + 1) + 1 + i = ptr + 1 + (l.length + 1 + i) := by omega
            rw [e, hname _ (by omega), hnd, if_neg (by omega), if_neg (by omega)]
            have e2 : l.length + 1 + i - (l.length + 1) = i := by omega
            rw [e2])
          (by
            rw [upd_ne _ _ (by omega)]
            have e : ptr + (l.length + 1) + 1 + (dottedName (l2 :: rest2)).length
                = ptr + 1 + (l.length + 1 + (dottedName (l2 :: rest2)).length) := by omega
            rw [e]
            exact hzero)
        refine ⟨buf1, ?_, ?_⟩
        · rw [labelLoop, if_pos hptr, hscan]
          simp only [hmod]
          rw [hb1]
          have e : ptr + (l.length + 1) + 1 + (dottedName (l2 :: rest2)).length
              = ptr + 1 + (l.length + 1 + (dottedName (l2 :: rest2)).length) := by omega
          rw [e]
        · intro i
          rw [hb2]
          have henc : encodedLabels (l :: l2 :: rest2)
              = l.length :: (l ++ encodedLabels (l2 :: rest2)) := rfl
          rw [henc]
          by_cases h1 : ptr + (l.length + 1) ≤ i ∧
              i < ptr + (l.length + 1) + 1 + (dottedName (l2 :: rest2)).length
          · rw [if_pos h1, if_pos ⟨by omega, by omega⟩]
            have e2 : i - ptr = (i - ptr - 1) + 1 := by omega
            rw [e2, List.getD_cons_succ, List.getD_append_right _ _ _ _ (by omega)]
            have e3 : i - ptr - 1 - l.length = i - (ptr + (l.length + 1)) := by omega
            rw [e3]
          · rw [if_neg h1]
            by_cases hi : i = ptr
            · subst hi
              rw [upd_same, if_pos ⟨Nat.le_refl _, by omega⟩]
              simp
            · rw [upd_ne _ _ hi]
              by_cases hr : ptr ≤ i ∧
                  i < ptr + 1 + (l.length + 1 + (dottedName (l2 :: rest2)).length)
              · rw [if_pos hr]
                have e2 : i - ptr = (i - ptr - 1) + 1 := by omega
                have e3 : i = ptr + 1 + (i - ptr - 1) := by omega
                rw [e2, List.getD_cons_succ, List.getD_append _ _ _ _ (by omega)]
                conv_lhs => rw [e3]
                rw [hname _ (by omega), hnd, if_pos (by omega)]
              · rw [if_neg hr]

/-- The query that `IPResolve` builds for a name of non-empty labels. -/
theorem resolveQuery_spec (labels : List (List Nat)) (fuel : Nat) (hne : labels ≠ [])
    (hlab : ∀ l, l ∈ labels → l ≠ [] ∧ l.length ≤ 63 ∧ ∀ c, c ∈ l → c ≠ 0 ∧ c ≠ 0x2e)
    (hlen : (dottedName labels).length ≤ 100) (hfuel : labels.length < fuel) :
    ∃ buf, resolveQuery fuel (listBytes (dottedName labels))
        = some (buf, max 60 (12 + (encodedLabels labels ++ [0]).length + 4)) ∧
      (∀ i, i < (encodedLabels labels ++ [0, 0, 1, 0, 1]).length →
        buf (12 + i) = (encodedLabels labels ++ [0, 0, 1, 0, 1]).getD i 0) ∧
      (∀ i, i < 12 → buf i = if i = 1 ∨ i = 2 ∨ i = 5 then 1 else 0) := by
  have hnz := dottedName_ne_zero labels hlab
  have hel := encodedLabels_length labels hne
  have hbuf3 : ∀ i, upd (upd (upd (memset (fun _ => 0) 0 0 200) (DNS_ID + 1) 1) DNS_FLAGS 1)
      (DNS_NUM_QUESTIONS + 1) 1 i = if i = 1 ∨ i = 2 ∨ i = 5 then 1 else 0 := by
    intro i
    simp only [upd, memset, DNS_ID, DNS_FLAGS, DNS_NUM_QUESTIONS]
    by_cases h1 : i = 1
    · simp [h1]
    · by_cases h2 : i = 2
      · simp [h2]
      · by_cases h5 : i = 5
        · simp [h5]
        · simp [h1, h2, h5]
  have hcopy : ∀ i, strncpy (upd (upd (upd (memset (fun _ => 0) 0 0 200) (DNS_ID + 1) 1)
      DNS_FLAGS 1) (DNS_NUM_QUESTIONS + 1) 1) (DNS_QUESTIONS + 1) (listBytes (dottedName labels))
      100 (12 + 1 + i) = (dottedName labels).getD i 0 := by
    intro i
    unfold strncpy
    by_cases hi : i < (dottedName labels).length
    · rw [if_pos ⟨by simp [DNS_QUESTIONS], by simp only [DNS_QUESTIONS]; omega⟩, if_pos]
      · have e : 12 + 1 + i - (DNS_QUESTIONS + 1) = i := by simp [DNS_QUESTIONS]
        rw [e]
        rfl
      · intro j hj
        have e : 12 + 1 + i - (DNS_QUESTIONS + 1) = i := by simp [DNS_QUESTIONS]
        rw [e] at hj
        exact hnz _ (getD_mem _ j (by omega))
    · have hd : (dottedName labels).getD i 0 = 0 := by
        rw [List.getD_eq_default _ _ (by omega)]
      rw [hd]
      by_cases h100 : i < 100
      · rw [if_pos ⟨by simp [DNS_QUESTIONS], by simp only [DNS_QUESTIONS]; omega⟩, if_neg]
        intro hall
        have e : 12 + 1 + i - (DNS_QUESTIONS + 1) = i := by simp [DNS_QUESTIONS]
        rw [e] at hall
        have := hall (dottedName labels).length (by omega)
        exact this (by
          show (dottedName labels).getD (dottedName labels).length 0 = 0
          rw [List.getD_eq_default _ _ (Nat.le_refl _)])
      · rw [if_neg (by simp only [DNS_QUESTIONS]; omega), hbuf3, if_neg (by omega)]
  obtain ⟨buf6, h6, h6b⟩ := labelLoop_spec labels hne hlab fuel
    (upd (strncpy (upd (upd (upd (memset (fun _ => 0) 0 0 200) (DNS_ID + 1) 1) DNS_FLAGS 1)
      (DNS_NUM_QUESTIONS + 1) 1) (DNS_QUESTIONS + 1) (listBytes (dottedName labels)) 100)
      DNS_QUESTIONS 1) 12 hfuel (by
        have e : DNS_QUESTIONS = 12 := rfl
        rw [e, upd_same]
        decide)
    (by
      intro i _
      rw [upd_ne _ _ (by simp only [DNS_QUESTIONS]; omega)]
      exact hcopy i)
    (by
      rw [upd_ne _ _ (by simp only [DNS_QUESTIONS]; omega), hcopy,
        List.getD_eq_default _ _ (Nat.le_refl _)])
  have hout : ∀ i, ¬ (12 ≤ i ∧ i < 12 + 1 + (dottedName labels).length) →
      buf6 i = if i < 12 then (if i = 1 ∨ i = 2 ∨ i = 5 then 1 else 0) else 0 := by
    intro i hi
    rw [h6b, if_neg hi]
    by_cases h12 : i < 12
    · rw [if_pos h12, upd_ne _ _ (by simp only [DNS_QUESTIONS]; omega)]
      unfold strncpy
      rw [if_neg (by simp only [DNS_QUESTIONS]; omega), hbuf3]
    · rw [if_neg h12, upd_ne _ _ (by simp only [DNS_QUESTIONS]; omega)]
      have e : i = 12 + 1 + (i - 13) := by omega
      rw [e, hcopy, List.getD_eq_default _ _ (by omega)]
  refine ⟨upd (upd buf6 (12 + 1 + (dottedName labels).length + 1 + 1) DNS_QUERY_TYPE_IP)
    (12 + 1 + (dottedName labels).length + 1 + 3) DNS_QUERY_CLASS, ?_, ?_, ?_⟩
  · unfold resolveQuery
    have e : DNS_QUESTIONS = 12 := rfl
    simp only []
    rw [e] at h6 ⊢
    rw [h6]
    simp only []
    congr 2
    simp only [List.length_append, hel, List.length_cons, List.length_nil]
    by_cases h60 : 12 + 1 + (dottedName labels).length + 1 + 4 < 60
    · rw [if_pos h60]
      omega
    · rw [if_neg h60]
      omega
  · intro i hi
    simp only [List.length_append, hel, List.length_cons, List.length_nil] at hi
    by_cases h1 : i < (dottedName labels).length + 1
    · rw [upd_ne _ _ (by omega), upd_ne _ _ (by omega), h6b, if_pos ⟨by omega, by omega⟩,
        List.getD_append _ _ _ _ (by omega)]
      have e : 12 + i - 12 = i := by omega
      rw [e]
    · rw [List.getD_append_right _ _ _ _ (by omega), hel]
      have hcases : i - ((dottedName labels).length + 1) = 0 ∨
          i - ((dottedName labels).length + 1) = 1 ∨ i - ((dottedName labels).length + 1) = 2 ∨
          i - ((dottedName labels).length + 1) = 3 ∨ i - ((dottedName labels).length + 1) = 4 := by
        omega
      rcases hcases with h | h | h | h | h
      · rw [h, upd_ne _ _ (by omega), upd_ne _ _ (by omega), hout _ (by omega),
          if_neg (by omega)]
        rfl
      · rw [h, upd_ne _ _ (by omega), upd_ne _ _ (by omega), hout _ (by omega),
          if_neg (by omega)]
        rfl
      · have e : 12 + i = 12 + 1 + (dottedName labels).length + 1 + 1 := by omega
        rw [h, upd_ne _ _ (by omega), e, upd_same]
        rfl
      · rw [h, upd_ne _ _ (by omega), upd_ne _ _ (by omega), hout _ (by omega),
          if_neg (by omega)]
        rfl
      · have e : 12 + i = 12 + 1 + (dottedName labels).length + 1 + 3 := by omega
        rw [h, e, upd_same]
        rfl
  · intro i hi
    rw [upd_ne _ _ (by omega), upd_ne _ _ (by omega), hout _ (by omega), if_pos hi]

/-- Claim C32: for a name of at most 100 characters made of non-empty labels of at most 63
characters (none of them `.` or the zero byte) separated by `.`, `IPResolve` passes to `IPWrite`
a buffer that holds from offset 12 on, for each label in order, its length and its characters,
then a zero byte, then `00 01` (type) and `00 01` (class); bytes 4..5 of the header (the number
of questions) are `00 01` and bytes 6..11 (the other counts) are zero; the length passed is
`max(60, 12 + encoded name length + 4)`.  The socket is the one that `IPOpen` returned, with
`userFunc` and `userData` set. -/
theorem C32_resolve_query_encoding (cfg : IPConfig) (fuel : Nat) (s : IPStack) (socket : Nat)
    (labels : List (List Nat)) (DnsCallback : Nat) (resolvedFunc : Option Nat)
    (hne : labels ≠ [])
    (hlab : ∀ l, l ∈ labels → l ≠ [] ∧ l.length ≤ 63 ∧ ∀ c, c ∈ l → c ≠ 0 ∧ c ≠ 0x2e)
    (hlen : (dottedName labels).length ≤ 100) (hfuel : labels.length < fuel) :
    ∃ (buf : Nat → Nat),
      IPResolve cfg fuel s (some socket) (listBytes (dottedName labels)) DnsCallback resolvedFunc
        = IPWrite cfg fuel
            { (IPOpen cfg s (some socket) IP_MODE_UDP s.ipAddressDns DNS_PORT
                (some DnsCallback)).1 with
              socket.userFunc := upd (IPOpen cfg s (some socket) IP_MODE_UDP s.ipAddressDns
                DNS_PORT (some DnsCallback)).1.socket.userFunc socket resolvedFunc
              socket.userData := upd (IPOpen cfg s (some socket) IP_MODE_UDP s.ipAddressDns
                DNS_PORT (some DnsCallback)).1.socket.userData socket 0 }
            socket buf (max 60 (12 + (encodedLabels labels ++ [0]).length + 4)) ∧
      (∀ i, i < (encodedLabels labels ++ [0, 0, 1, 0, 1]).length →
        buf (12 + i) = (encodedLabels labels ++ [0, 0, 1, 0, 1]).getD i 0) ∧
      buf DNS_NUM_QUESTIONS = 0 ∧ buf (DNS_NUM_QUESTIONS + 1) = 1 ∧
      (∀ i, DNS_NUM_ANSWERS_RR ≤ i → i < DNS_QUESTIONS → buf i = 0) := by
  obtain ⟨buf, h1, h2, h3⟩ := resolveQuery_spec labels fuel hne hlab hlen hfuel
  have ho : IPOpen cfg s (some socket) IP_MODE_UDP s.ipAddressDns DNS_PORT (some DnsCallback) =
      ((IPOpen cfg s (some socket) IP_MODE_UDP s.ipAddressDns DNS_PORT (some DnsCallback)).1,
        some socket) := by
    unfold IPOpen
    simp only []
    split <;> rfl
  refine ⟨buf, ?_, h2, ?_, ?_, ?_⟩
  · unfold IPResolve
    rw [ho]
    simp only [h1]
  · exact (h3 4 (by decide)).trans (by decide)
  · exact (h3 5 (by decide)).trans (by decide)
  · intro i hi1 hi2
    have e1 : DNS_NUM_ANSWERS_RR = 6 := rfl
    have e2 : DNS_QUESTIONS = 12 := rfl
    rw [e1] at hi1
    rw [e2] at hi2
    rw [h3 i hi2, if_neg (by omega)]

/-- Claim C32, instance: the name `www.plasma.org`. -/
theorem C32_resolve_query_encoding_witness :
    ∃ (buf : Nat → Nat),
      IPResolve smallConfig 101 smallStack (some 20) (listBytes (dottedName plasmaName)) 7 none
        = IPWrite smallConfig 101
            { (IPOpen smallConfig smallStack (some 20) IP_MODE_UDP smallStack.ipAddressDns DNS_PORT
                (some 7)).1 with
              socket.userFunc := upd (IPOpen smallConfig smallStack (some 20) IP_MODE_UDP
                smallStack.ipAddressDns DNS_PORT (some 7)).1.socket.userFunc 20 none
              socket.userData := upd (IPOpen smallConfig smallStack (some 20) IP_MODE_UDP
                smallStack.ipAddressDns DNS_PORT (some 7)).1.socket.userData 20 0 }
            20 buf (max 60 (12 + (encodedLabels plasmaName ++ [0]).length + 4)) ∧
      (∀ i, i < (encodedLabels plasmaName ++ [0, 0, 1, 0, 1]).length →
        buf (12 + i) = (encodedLabels plasmaName ++ [0, 0, 1, 0, 1]).getD i 0) ∧
      buf DNS_NUM_QUESTIONS = 0 ∧ buf (DNS_NUM_QUESTIONS + 1) = 1 ∧
      (∀ i, DNS_NUM_ANSWERS_RR ≤ i → i < DNS_QUESTIONS → buf i = 0) :=
  C32_resolve_query_encoding smallConfig 101 smallStack 20 plasmaName 7 none (by decide)
    (by decide) (by decide) (by decide)

/-- The query for `www.plasma.org`: the bytes of the message and the length passed on. -/
theorem resolveQuery_example :
    (resolveQuery 101 (listBytes (dottedName plasmaName))).map
        (fun r => ((List.range 34).map r.1, r.2)) =
      some ([0, 1, 1, 0, 0, 1, 0, 0, 0, 0, 0, 0, 3, 0x77, 0x77, 0x77, 6, 0x70, 0x6c, 0x61, 0x73,
        0x6d, 0x61, 3, 0x6f, 0x72, 0x67, 0, 0, 1, 0, 1, 0, 0], 60) := by
  decide

/-! ## C34: the order of a waiter list -/

theorem timeoutScan_returns (k : Kernel) (t : Nat) :
    ∀ (T : List Nat) (fuel : Nat) (p prev : Option Nat), IsChain k.thread.nextTimeout p T →
      T.length < fuel → ∃ r, timeoutScan k t fuel p prev = some r := by
  intro T
  induction T with
  | nil =>
    intro fuel p prev h hf
    have hp : p = none := h
    subst hp
    cases fuel with
    | zero => omega
    | succ fuel => exact ⟨prev, rfl⟩
  | cons a T ih =>
    intro fuel p prev h hf
    obtain ⟨rfl, h2⟩ := h
    cases fuel with
    | zero => omega
    | succ fuel =>
      rw [timeoutScan]
      split
      · exact ⟨prev, rfl⟩
      · exact ih fuel _ _ h2 (by simpa using hf)

theorem OS_ThreadTimeoutInsert_returns (fuel : Nat) (k : Kernel) (t : Nat) (T : List Nat)
    (hT : IsChain k.thread.nextTimeout k.TimeoutHead T) (hf : T.length < fuel) :
    ∃ prev, OS_ThreadTimeoutInsert fuel k t = some (timeoutLink k t prev) := by
  obtain ⟨r, hr⟩ := timeoutScan_returns k t T fuel _ none hT hf
  exact ⟨r, by unfold OS_ThreadTimeoutInsert; rw [hr]⟩

/-- A removal from the ready list leaves the waiter list of a semaphore as it is, when neither
the thread removed nor the thread that its back link names is on the waiter list. -/
theorem waiters_ready_remove (k : Kernel) (s t : Nat) (W : List Nat) (hW : k.WaiterList s W)
    (ht : t ∉ W) (hp : ∀ p, k.thread.prev t = some p → p ∉ W) :
    (OS_ThreadPriorityRemove k .ready t).WaiterList s W := by
  unfold Kernel.WaiterList at hW ⊢
  rw [OS_ThreadPriorityRemove_next, OS_ThreadPriorityRemove_semaphore]
  refine IsSeg_congr hW ?_
  intro a ha
  have hat : a ≠ t := fun e => ht (e ▸ ha)
  cases hprev : k.thread.prev t with
  | none => exact upd_ne _ _ hat
  | some p =>
    have hap : a ≠ p := fun e => hp p hprev (e ▸ ha)
    simp only []
    rw [upd_ne _ _ hat, upd_ne _ _ hap]

/-- An insertion on the ready list leaves the waiter list of a semaphore as it is, when neither
the thread inserted nor its new predecessor is on the waiter list. -/
theorem waiters_ready_insert (k : Kernel) (s t : Nat) (prev : Option Nat) (W : List Nat)
    (hW : k.WaiterList s W) (ht : t ∉ W) (hp : ∀ p, prev = some p → p ∉ W) :
    (priorityInsertAt k .ready t prev).WaiterList s W := by
  unfold Kernel.WaiterList at hW ⊢
  rw [priorityInsertAt_next, priorityLink_next, priorityInsertAt_semaphore]
  refine IsSeg_congr hW ?_
  intro a ha
  have hat : a ≠ t := fun e => ht (e ▸ ha)
  cases prev with
  | none => exact upd_ne _ _ hat
  | some p =>
    have hap : a ≠ p := fun e => hp p rfl (e ▸ ha)
    simp only []
    rw [upd_ne _ _ hap, upd_ne _ _ hat]

/-- A removal from a waiter list leaves the ready list as it is, when neither the thread
removed nor the thread that its back link names is on the ready list. -/
theorem ready_waiters_remove (k : Kernel) (s t : Nat) (R : List Nat) (hR : k.ReadyList R)
    (ht : t ∉ R) (hp : ∀ p, k.thread.prev t = some p → p ∉ R) :
    (OS_ThreadPriorityRemove k (.waiters s) t).ReadyList R := by
  unfold Kernel.ReadyList at hR ⊢
  rw [OS_ThreadPriorityRemove_next, OS_ThreadPriorityRemove_ThreadHead]
  refine IsSeg_congr hR ?_
  intro a ha
  have hat : a ≠ t := fun e => ht (e ▸ ha)
  cases hprev : k.thread.prev t with
  | none => exact upd_ne _ _ hat
  | some p =>
    have hap : a ≠ p := fun e => hp p hprev (e ▸ ha)
    simp only []
    rw [upd_ne _ _ hat, upd_ne _ _ hap]

theorem lastOr_mem_or (l : List Nat) (p : Nat) (h : lastOr none l = some p) : p ∈ l :=
  lastOr_mem h

/-- A sorted list stays sorted when a thread is put behind the threads of greater priority and
in front of a thread whose priority is at most its own. -/
theorem sorted_insert (prio : Nat → Nat) (t : Nat) (l1 l2 : List Nat)
    (hs : (l1 ++ l2).Pairwise (fun a b => prio b ≤ prio a))
    (h1 : ∀ u ∈ l1, prio t < prio u) (h2 : ∀ b ∈ l2.head?, prio b ≤ prio t) :
    (l1 ++ t :: l2).Pairwise (fun a b => prio b ≤ prio a) := by
  have h2a : ∀ u ∈ l2, prio u ≤ prio t := by
    intro u hu
    cases l2 with
    | nil => exact absurd hu (List.not_mem_nil u)
    | cons b l2 =>
      have hb : prio b ≤ prio t := h2 b (by simp)
      rcases List.mem_cons.mp hu with rfl | hu
      · exact hb
      · have hs2 := (List.pairwise_append.mp hs).2.1
        exact Nat.le_trans (List.rel_of_pairwise_cons hs2 hu) hb
  obtain ⟨hs1, hs2, hs12⟩ := List.pairwise_append.mp hs
  refine List.pairwise_append.mpr ⟨hs1, List.pairwise_cons.mpr ⟨h2a, hs2⟩, ?_⟩
  intro a ha b hb
  rcases List.mem_cons.mp hb with rfl | hb
  · exact Nat.le_of_lt (h1 a ha)
  · exact hs12 a ha b hb

theorem IsChain_head_eq {nx : Nat → Option Nat} {h : Option Nat} {l : List Nat}
    (hc : IsChain nx h l) : h = l.head? := by
  cases l with
  | nil => exact hc
  | cons a l => exact hc.1

theorem Chains_frame {k k' : Kernel} {sems R : List Nat} {Wof : Nat → List Nat}
    (h : k.Chains sems R Wof)
    (hn : ∀ a, OnList sems R Wof a → k'.thread.next a = k.thread.next a)
    (hh : k'.ThreadHead = k.ThreadHead)
    (hs : ∀ s ∈ sems, k'.semaphore.threadHead s = k.semaphore.threadHead s) :
    k'.Chains sems R Wof := by
  refine ⟨?_, fun s hs' => ?_⟩
  · unfold Kernel.ReadyList
    rw [hh]
    exact IsSeg_congr h.1 (fun a ha => hn a (Or.inl ha))
  · unfold Kernel.WaiterList
    rw [hs s hs']
    exact IsSeg_congr (h.2 s hs') (fun a ha => hn a (Or.inr ⟨s, hs', ha⟩))

theorem priorityInsertAt_waiters_threadHead (k : Kernel) (s t : Nat) (prev : Option Nat) :
    (priorityInsertAt k (.waiters s) t prev).semaphore.threadHead =
      match prev with
      | none => upd k.semaphore.threadHead s (some t)
      | some _ => k.semaphore.threadHead := by
  unfold priorityInsertAt priorityLink
  cases prev <;> dsimp only <;> (repeat' split) <;> rfl

theorem OS_ThreadPriorityRemove_waiters_threadHead (k : Kernel) (s t : Nat) :
    (OS_ThreadPriorityRemove k (.waiters s) t).semaphore.threadHead =
      match k.thread.prev t with
      | none => upd k.semaphore.threadHead s (k.thread.next t)
      | some _ => k.semaphore.threadHead := by
  unfold OS_ThreadPriorityRemove
  dsimp only
  (repeat' split) <;> simp_all [Kernel.setHead]

/-- The lists after a removal from the ready list. -/
theorem Chains_ready_remove (k : Kernel) (sems : List Nat) (t : Nat) (r1 r2 : List Nat)
    (Wof : Nat → List Nat) (h : k.Chains sems (r1 ++ t :: r2) Wof)
    (hd : ListsDisjoint sems (r1 ++ t :: r2) Wof) (hprev : k.thread.prev t = lastOr none r1) :
    (OS_ThreadPriorityRemove k .ready t).Chains sems (r1 ++ r2) Wof := by
  refine ⟨OS_ThreadPriorityRemove_list k .ready t r1 r2 h.1 hprev, fun s hs => ?_⟩
  refine waiters_ready_remove k s t (Wof s) (h.2 s hs) (fun hm => hd.1 s hs t hm (by simp)) ?_
  intro p hp hm
  rw [hprev] at hp
  exact hd.1 s hs p hm (List.mem_append_left _ (lastOr_mem hp))

/-- The lists after an insertion on the ready list. -/
theorem Chains_ready_insert (fuel : Nat) (k : Kernel) (sems : List Nat) (t : Nat)
    (R : List Nat) (Wof : Nat → List Nat) (h : k.Chains sems R Wof)
    (hd : ListsDisjoint sems R Wof) (ht : ¬ OnList sems R Wof t) (hf : R.length < fuel) :
    ∃ R1 R2, R = R1 ++ R2 ∧
      OS_ThreadPriorityInsert fuel k .ready t
        = some (priorityInsertAt k .ready t (lastOr none R1)) ∧
      (priorityInsertAt k .ready t (lastOr none R1)).Chains sems (R1 ++ t :: R2) Wof := by
  obtain ⟨R1, R2, hsplit, _, _, hins, hlist⟩ :=
    OS_ThreadPriorityInsert_spec fuel k .ready t R h.1 (fun hm => ht (Or.inl hm)) hf
  refine ⟨R1, R2, hsplit, hins, hlist, fun s hs => ?_⟩
  refine waiters_ready_insert k s t _ (Wof s) (h.2 s hs) (fun hm => ht (Or.inr ⟨s, hs, hm⟩)) ?_
  intro p hp hm
  exact hd.1 s hs p hm (by rw [hsplit]; exact List.mem_append_left _ (lastOr_mem hp))

/-- The lists after a removal from the waiter list of the semaphore `s`. -/
theorem Chains_waiters_remove (k : Kernel) (sems : List Nat) (s x : Nat) (w1 w2 R : List Nat)
    (Wof : Nat → List Nat) (hs : s ∈ sems) (h : k.Chains sems R Wof)
    (hd : ListsDisjoint sems R Wof) (hW : Wof s = w1 ++ x :: w2)
    (hprev : k.thread.prev x = lastOr none w1) :
    (OS_ThreadPriorityRemove k (.waiters s) x).Chains sems R (upd Wof s (w1 ++ w2)) := by
  have hxs : x ∈ Wof s := by rw [hW]; simp
  have hps : ∀ p, k.thread.prev x = some p → p ∈ Wof s := by
    intro p hp
    rw [hprev] at hp
    rw [hW]
    exact List.mem_append_left _ (lastOr_mem hp)
  refine ⟨?_, fun s' hs' => ?_⟩
  · exact ready_waiters_remove k s x R h.1 (hd.1 s hs x hxs)
      (fun p hp => hd.1 s hs p (hps p hp))
  · by_cases hss : s' = s
    · subst hss
      rw [upd_same]
      exact OS_ThreadPriorityRemove_list k (.waiters s') x w1 w2 (hW ▸ h.2 s' hs) hprev
    · rw [upd_ne _ _ hss]
      unfold Kernel.WaiterList
      rw [OS_ThreadPriorityRemove_next, OS_ThreadPriorityRemove_waiters_threadHead]
      have hhead : (match k.thread.prev x with
          | none => upd k.semaphore.threadHead s (k.thread.next x)
          | some _ => k.semaphore.threadHead) s' = k.semaphore.threadHead s' := by
        cases k.thread.prev x with
        | none => exact upd_ne _ _ hss
        | some p => rfl
      rw [hhead]
      refine IsSeg_congr (h.2 s' hs') ?_
      intro a ha
      have hax : a ≠ x := fun e => hd.2 s hs s' hs' (Ne.symm hss) x hxs (e ▸ ha)
      cases hp : k.thread.prev x with
      | none => exact upd_ne _ _ hax
      | some p =>
        have hap : a ≠ p := fun e => hd.2 s hs s' hs' (Ne.symm hss) p (hps p hp) (e ▸ ha)
        simp only []
        rw [upd_ne _ _ hax, upd_ne _ _ hap]

/-- The lists after an insertion on the waiter list of the semaphore `s`. -/
theorem Chains_waiters_insert (fuel : Nat) (k : Kernel) (sems : List Nat) (s t : Nat)
    (R : List Nat) (Wof : Nat → List Nat) (hs : s ∈ sems) (h : k.Chains sems R Wof)
    (hd : ListsDisjoint sems R Wof) (ht : ¬ OnList sems R Wof t)
    (hf : (Wof s).length < fuel) :
    ∃ l1 l2, Wof s = l1 ++ l2 ∧
      OS_ThreadPriorityInsert fuel k (.waiters s) t
        = some (priorityInsertAt k (.waiters s) t (lastOr none l1)) ∧
      (priorityInsertAt k (.waiters s) t (lastOr none l1)).Chains sems R
        (upd Wof s (l1 ++ t :: l2)) := by
  obtain ⟨l1, l2, hsplit, _, _, hins, hlist⟩ :=
    OS_ThreadPriorityInsert_spec fuel k (.waiters s) t (Wof s) (h.2 s hs)
      (fun hm => ht (Or.inr ⟨s, hs, hm⟩)) hf
  have hps : ∀ p, lastOr none l1 = some p → p ∈ Wof s := by
    intro p hp
    rw [hsplit]
    exact List.mem_append_left _ (lastOr_mem hp)
  have hnext : ∀ a, a ≠ t → (∀ p, lastOr none l1 = some p → a ≠ p) →
      (priorityInsertAt k (.waiters s) t (lastOr none l1)).thread.next a = k.thread.next a := by
    intro a hat hap
    rw [priorityInsertAt_next, priorityLink_next]
    cases hp : lastOr none l1 with
    | none => exact upd_ne _ _ hat
    | some p =>
      simp only []
      rw [upd_ne _ _ (hap p hp), upd_ne _ _ hat]
  refine ⟨l1, l2, hsplit, hins, ?_, fun s' hs' => ?_⟩
  · unfold Kernel.ReadyList
    rw [priorityInsertAt_ThreadHead]
    refine IsSeg_congr h.1 ?_
    intro a ha
    exact hnext a (fun e => ht (Or.inl (e ▸ ha)))
      (fun p hp e => hd.1 s hs p (hps p hp) (e ▸ ha))
  · by_cases hss : s' = s
    · subst hss
      rw [upd_same]
      exact hlist
    · rw [upd_ne _ _ hss]
      unfold Kernel.WaiterList
      rw [priorityInsertAt_waiters_threadHead]
      have hhead : (match lastOr none l1 with
          | none => upd k.semaphore.threadHead s (some t)
          | some _ => k.semaphore.threadHead) s' = k.semaphore.threadHead s' := by
        cases lastOr none l1 with
        | none => exact upd_ne _ _ hss
        | some p => rfl
      rw [hhead]
      refine IsSeg_congr (h.2 s' hs') ?_
      intro a ha
      exact hnext a (fun e => ht (Or.inr ⟨s', hs', e ▸ ha⟩))
        (fun p hp e => hd.2 s hs s' hs' (Ne.symm hss) p (hps p hp) (e ▸ ha))

/-- Lists stay disjoint when their threads are threads of the old lists, but for one thread
`t` that is on at most one of the new lists. -/
theorem ListsDisjoint_move {sems R R' : List Nat} {Wof Wof' : Nat → List Nat} (t : Nat)
    (hd : ListsDisjoint sems R Wof)
    (hR : ∀ u ∈ R', u ≠ t → u ∈ R)
    (hWof : ∀ s ∈ sems, ∀ u ∈ Wof' s, u ≠ t → u ∈ Wof s)
    (ht1 : ∀ s ∈ sems, t ∈ Wof' s → t ∉ R')
    (ht2 : ∀ s ∈ sems, ∀ s' ∈ sems, s ≠ s' → t ∈ Wof' s → t ∉ Wof' s') :
    ListsDisjoint sems R' Wof' := by
  refine ⟨?_, ?_⟩
  · intro s hs u hu huR
    by_cases hut : u = t
    · subst hut
      exact ht1 s hs hu huR
    · exact hd.1 s hs u (hWof s hs u hu hut) (hR u huR hut)
  · intro s hs s' hs' hss u hu hu'
    by_cases hut : u = t
    · subst hut
      exact ht2 s hs s' hs' hss hu hu'
    · exact hd.2 s hs s' hs' hss u (hWof s hs u hu hut) (hWof s' hs' u hu' hut)

/-- The states fit the lists again when only the state of one thread `t` has changed and `t`
is on a list that fits its new state. -/
theorem States_move {k k' : Kernel} {sems R R' : List Nat} {Wof Wof' : Nat → List Nat} (t : Nat)
    (hst : k.States sems R Wof)
    (hstate : ∀ u, u ≠ t → k'.thread.state u = k.thread.state u)
    (hR : ∀ u ∈ R', u ≠ t → u ∈ R)
    (hWof : ∀ s ∈ sems, ∀ u ∈ Wof' s, u ≠ t → u ∈ Wof s)
    (ht1 : t ∈ R' → k'.thread.state t ≠ THREAD_PEND)
    (ht2 : ∀ s ∈ sems, t ∈ Wof' s → k'.thread.state t = THREAD_PEND) :
    k'.States sems R' Wof' := by
  refine ⟨?_, ?_⟩
  · intro u hu
    by_cases hut : u = t
    · subst hut
      exact ht1 hu
    · rw [hstate u hut]
      exact hst.1 u (hR u hu hut)
  · intro s hs u hu
    by_cases hut : u = t
    · subst hut
      exact ht2 s hs hu
    · rw [hstate u hut]
      exact hst.2 s hs u (hWof s hs u hu hut)

/-- In well-formed lists every thread on a list is pended if and only if it is on the waiter
list of exactly one semaphore. -/
theorem WellFormed_pendIffWaiting {k : Kernel} {sems R : List Nat} {Wof : Nat → List Nat}
    (h : k.WellFormed sems R Wof) (u : Nat) (hu : OnList sems R Wof u) :
    k.PendIffWaiting sems Wof u := by
  obtain ⟨_, hd, hst⟩ := h
  refine ⟨⟨?_, ?_⟩, ?_⟩
  · intro hp
    rcases hu with hu | hu
    · exact absurd hp (hst.1 u hu)
    · exact hu
  · rintro ⟨s, hs, hm⟩
    exact hst.2 s hs u hm
  · intro s hs s' hs' hm hm'
    by_contra hne
    exact hd.2 s hs s' hs' hne u hm hm'

theorem WellFormed_reschedule {k k' : Kernel} {rr : Nat} {sems R : List Nat}
    {Wof : Nat → List Nat} (h : k.WellFormed sems R Wof)
    (hr : OS_ThreadReschedule k rr = some k') : k'.WellFormed sems R Wof := by
  obtain ⟨c, n, rfl⟩ := OS_ThreadReschedule_some hr
  exact h

theorem WellFormed_congr {k k' : Kernel} {sems R : List Nat} {Wof : Nat → List Nat}
    (h : k.WellFormed sems R Wof) (hn : k'.thread.next = k.thread.next)
    (hst : k'.thread.state = k.thread.state) (hh : k'.ThreadHead = k.ThreadHead)
    (hs : k'.semaphore.threadHead = k.semaphore.threadHead) : k'.WellFormed sems R Wof := by
  obtain ⟨hc, hd, hs'⟩ := h
  refine ⟨Chains_frame hc (fun a _ => by rw [hn]) hh (fun s _ => by rw [hs]), hd, ?_⟩
  unfold Kernel.States
  rw [hst]
  exact hs'

theorem mem_remove_middle {l1 l2 : List Nat} {t u : Nat} (h : u ∈ l1 ++ l2) :
    u ∈ l1 ++ t :: l2 := by
  rcases List.mem_append.mp h with e | e
  · exact List.mem_append_left _ e
  · exact List.mem_append_right _ (List.mem_cons_of_mem _ e)

theorem mem_insert_middle {l1 l2 : List Nat} {t u : Nat} (h : u ∈ l1 ++ t :: l2) (hut : u ≠ t) :
    u ∈ l1 ++ l2 := by
  rcases List.mem_append.mp h with e | e
  · exact List.mem_append_left _ e
  · rcases List.mem_cons.mp e with e | e
    · exact absurd e hut
    · exact List.mem_append_right _ e

theorem not_mem_middle {nx : Nat → Option Nat} {p : Option Nat} {l1 l2 : List Nat} {t : Nat}
    (h : IsChain nx p (l1 ++ t :: l2)) : t ∉ l1 ++ l2 := by
  have hnd := IsChain_nodup h
  have ht1 : t ∉ l1 := fun e => (List.nodup_append.mp hnd).2.2 e (List.mem_cons_self t l2)
  have ht2 : t ∉ l2 := (List.nodup_cons.mp (List.nodup_append.mp hnd).2.1).1
  intro e
  rcases List.mem_append.mp e with e | e
  · exact ht1 e
  · exact ht2 e

/-- The removal of the thread `t` from the ready list: the lists stay well formed but for `t`,
which is pended and on no list. -/
theorem ready_remove_wellFormed (k : Kernel) (sems : List Nat) (t : Nat) (r1 r2 : List Nat)
    (Wof : Nat → List Nat) (h : k.WellFormed sems (r1 ++ t :: r2) Wof)
    (hprev : k.thread.prev t = lastOr none r1) :
    (OS_ThreadPriorityRemove k .ready t).WellFormed sems (r1 ++ r2) Wof ∧
      (OS_ThreadPriorityRemove k .ready t).thread.state t = THREAD_PEND ∧
      ¬ OnList sems (r1 ++ r2) Wof t := by
  obtain ⟨hc, hd, hst⟩ := h
  have htR : t ∉ r1 ++ r2 := not_mem_middle hc.1
  have htW : ∀ s ∈ sems, t ∉ Wof s := fun s hs hm => hd.1 s hs t hm (by simp)
  refine ⟨⟨Chains_ready_remove k sems t r1 r2 Wof hc hd hprev, ?_, ?_⟩, ?_, ?_⟩
  · exact ListsDisjoint_move t hd (fun u hu _ => mem_remove_middle hu) (fun s _ u hu _ => hu)
      (fun s hs hm => absurd hm (htW s hs)) (fun s hs _ _ _ hm => absurd hm (htW s hs))
  · refine States_move t hst ?_ (fun u hu _ => mem_remove_middle hu) (fun s _ u hu _ => hu)
      (fun hm => absurd hm htR) (fun s hs hm => absurd hm (htW s hs))
    intro u hut
    rw [OS_ThreadPriorityRemove_state, upd_ne _ _ hut]
  · rw [OS_ThreadPriorityRemove_state, upd_same]
  · rintro (hm | ⟨s, hs, hm⟩)
    · exact htR hm
    · exact htW s hs hm

/-- The insertion of a thread `t` that is on no list on the ready list: the lists are well
formed, with `t` ready. -/
theorem ready_insert_wellFormed (fuel : Nat) (k : Kernel) (sems : List Nat) (t : Nat)
    (R : List Nat) (Wof : Nat → List Nat) (hc : k.Chains sems R Wof)
    (hd : ListsDisjoint sems R Wof)
    (hst1 : ∀ u ∈ R, k.thread.state u ≠ THREAD_PEND)
    (hst2 : ∀ s ∈ sems, ∀ u ∈ Wof s, k.thread.state u = THREAD_PEND)
    (ht : ¬ OnList sems R Wof t) (hf : R.length < fuel) :
    ∃ R1 R2, R = R1 ++ R2 ∧
      OS_ThreadPriorityInsert fuel k .ready t
        = some (priorityInsertAt k .ready t (lastOr none R1)) ∧
      (priorityInsertAt k .ready t (lastOr none R1)).WellFormed sems (R1 ++ t :: R2) Wof := by
  obtain ⟨R1, R2, hsplit, hins, hch⟩ := Chains_ready_insert fuel k sems t R Wof hc hd ht hf
  have htW : ∀ s ∈ sems, t ∉ Wof s := fun s hs hm => ht (Or.inr ⟨s, hs, hm⟩)
  refine ⟨R1, R2, hsplit, hins, hch, ?_, ?_⟩
  · exact ListsDisjoint_move t hd (fun u hu hut => hsplit ▸ mem_insert_middle hu hut)
      (fun s _ u hu _ => hu) (fun s hs hm => absurd hm (htW s hs))
      (fun s hs _ _ _ hm => absurd hm (htW s hs))
  · refine States_move (k := k) t ⟨hst1, hst2⟩ ?_
      (fun u hu hut => hsplit ▸ mem_insert_middle hu hut)
      (fun s _ u hu _ => hu) ?_ (fun s hs hm => absurd hm (htW s hs))
    · intro u hut
      rw [priorityInsertAt_ready_state, priorityLink_state, upd_ne _ _ hut]
    · intro _
      rw [priorityInsertAt_ready_state, upd_same]
      decide

/-- The removal of the waiter `x` from the waiter list of `s` followed by its insertion on the
ready list, as `OS_SemaphorePost` and `OS_ThreadTick` do it. -/
theorem wake_wellFormed (fuel : Nat) (k : Kernel) (sems : List Nat) (s x : Nat)
    (w1 w2 R : List Nat) (Wof : Nat → List Nat) (hs : s ∈ sems)
    (h : k.WellFormed sems R Wof) (hW : Wof s = w1 ++ x :: w2)
    (hprev : k.thread.prev x = lastOr none w1) (hf : R.length < fuel) :
    ∃ R1 R2, R = R1 ++ R2 ∧
      OS_ThreadPriorityInsert fuel (OS_ThreadPriorityRemove k (.waiters s) x) .ready x
        = some (priorityInsertAt (OS_ThreadPriorityRemove k (.waiters s) x) .ready x
            (lastOr none R1)) ∧
      (priorityInsertAt (OS_ThreadPriorityRemove k (.waiters s) x) .ready x
        (lastOr none R1)).WellFormed sems (R1 ++ x :: R2) (upd Wof s (w1 ++ w2)) := by
  obtain ⟨hc, hd, hst⟩ := h
  have hxs : x ∈ Wof s := by rw [hW]; simp
  have hxW : x ∉ w1 ++ w2 := not_mem_middle (hW ▸ hc.2 s hs)
  have hsub : ∀ s' ∈ sems, ∀ u ∈ upd Wof s (w1 ++ w2) s', u ∈ Wof s' := by
    intro s' _ u hu
    by_cases hss : s' = s
    · subst hss
      rw [upd_same] at hu
      rw [hW]
      exact mem_remove_middle hu
    · rw [upd_ne _ _ hss] at hu
      exact hu
  have hxnot : ∀ s' ∈ sems, x ∉ upd Wof s (w1 ++ w2) s' := by
    intro s' hs' hm
    by_cases hss : s' = s
    · subst hss
      rw [upd_same] at hm
      exact hxW hm
    · rw [upd_ne _ _ hss] at hm
      exact hd.2 s hs s' hs' (Ne.symm hss) x hxs hm
  have hc3 := Chains_waiters_remove k sems s x w1 w2 R Wof hs hc hd hW hprev
  have hd3 : ListsDisjoint sems R (upd Wof s (w1 ++ w2)) :=
    ListsDisjoint_move x hd (fun u hu _ => hu) (fun s' hs' u hu _ => hsub s' hs' u hu)
      (fun s' hs' hm => absurd hm (hxnot s' hs')) (fun s' hs' _ _ _ hm => absurd hm (hxnot s' hs'))
  have hx3 : ¬ OnList sems R (upd Wof s (w1 ++ w2)) x := by
    rintro (hm | ⟨s', hs', hm⟩)
    · exact hd.1 s hs x hxs hm
    · exact hxnot s' hs' hm
  refine ready_insert_wellFormed fuel _ sems x R _ hc3 hd3 ?_ ?_ hx3 hf
  · intro u hu
    have hux : u ≠ x := fun e => hd.1 s hs x hxs (e ▸ hu)
    rw [OS_ThreadPriorityRemove_state, upd_ne _ _ hux]
    exact hst.1 u hu
  · intro s' hs' u hu
    have hux : u ≠ x := fun e => hxnot s' hs' (e ▸ hu)
    rw [OS_ThreadPriorityRemove_state, upd_ne _ _ hux]
    exact hst.2 s' hs' u (hsub s' hs' u hu)

/-- The function `OS_ThreadCreate` for a thread that is on no list: the new thread is put on
the ready list, and the lists stay well formed. -/
theorem OS_ThreadCreate_wellFormed (fuel : Nat) (k : Kernel) (sems : List Nat) (n P : Nat)
    (R : List Nat) (Wof : Nat → List Nat) (h : k.WellFormed sems R Wof)
    (hn : ¬ OnList sems R Wof n) (hf : R.length < fuel) :
    ∃ k' R1 R2, OS_ThreadCreate fuel k n P = some k' ∧ R = R1 ++ R2 ∧
      k'.WellFormed sems (R1 ++ n :: R2) Wof := by
  obtain ⟨hc, hd, hst⟩ := h
  obtain ⟨k1, hk1⟩ : ∃ k1, k1 = { k with
    thread.state := upd k.thread.state n THREAD_READY
    thread.priority := upd k.thread.priority n P
    thread.semaphorePending := upd k.thread.semaphorePending n none
    thread.returnCode := upd k.thread.returnCode n 0
    thread.next := upd k.thread.next n none
    thread.prev := upd k.thread.prev n none
    thread.nextTimeout := upd k.thread.nextTimeout n none
    thread.prevTimeout := upd k.thread.prevTimeout n none } := ⟨_, rfl⟩
  have hne : ∀ a, OnList sems R Wof a → a ≠ n := fun a ha e => hn (e ▸ ha)
  have h1c : k1.Chains sems R Wof := by
    refine Chains_frame hc ?_ (by rw [hk1]) (fun s _ => by rw [hk1])
    intro a ha
    rw [hk1]
    exact upd_ne _ _ (hne a ha)
  have h1s : ∀ u, u ≠ n → k1.thread.state u = k.thread.state u := by
    intro u hu
    rw [hk1]
    exact upd_ne _ _ hu
  obtain ⟨R1, R2, hsplit, hins, hwf⟩ := ready_insert_wellFormed fuel k1 sems n R Wof h1c hd
    (fun u hu => by rw [h1s u (hne u (Or.inl hu))]; exact hst.1 u hu)
    (fun s hs u hu => by rw [h1s u (hne u (Or.inr ⟨s, hs, hu⟩))]; exact hst.2 s hs u hu)
    hn hf
  have hhead : (priorityInsertAt k1 .ready n (lastOr none R1)).ThreadHead ≠ none :=
    ReadyList_head_ne_none _ _ hwf.1.1 (by cases R1 <;> simp)
  obtain ⟨c, m, hres⟩ := OS_ThreadReschedule_returns _ 0 hhead
  refine ⟨_, R1, R2, ?_, hsplit, WellFormed_reschedule hwf hres⟩
  unfold OS_ThreadCreate
  dsimp only
  rw [← hk1, hins]
  dsimp only
  exact hres

/-- The function `OS_ThreadExit` by the running thread `t` while `SemaphoreLock` is free: the
lists of the other threads stay well formed, and `t` is left pended on no list. -/
theorem OS_ThreadExit_wellFormed (WF : Int) (fuel : Nat) (k : Kernel) (sems : List Nat)
    (L t : Nat) (r1 r2 : List Nat) (Wof : Nat → List Nat)
    (h : k.WellFormed sems (r1 ++ t :: r2) Wof) (hcur : k.ThreadCurrent = some t)
    (hprev : k.thread.prev t = lastOr none r1) (hrest : r1 ++ r2 ≠ [])
    (hL : 0 < k.semaphore.count L) :
    ∃ k', OS_ThreadExit WF fuel k L = some k' ∧ k'.WellFormed sems (r1 ++ r2) Wof ∧
      k'.thread.state t = THREAD_PEND ∧ ¬ OnList sems (r1 ++ r2) Wof t := by
  obtain ⟨k1, hk1⟩ : ∃ k1, k1 = { k with
    semaphore.count := upd k.semaphore.count L (k.semaphore.count L - 1) } := ⟨_, rfl⟩
  have hpend : OS_SemaphorePend WF fuel k L WF = some (k1, .returned 0) := by
    rw [hk1]
    exact OS_SemaphorePend_available WF fuel k L WF hL
  obtain ⟨k2, hk2⟩ : ∃ k2, k2 = { k1 with
    semaphore.count := upd k1.semaphore.count L (k1.semaphore.count L + 1) } := ⟨_, rfl⟩
  have hpost : OS_SemaphorePost fuel k1 L = some k2 := by
    rw [hk2]
    refine OS_SemaphorePost_no_waiter fuel k1 L ?_
    rw [hk1]
    show 0 ≤ upd k.semaphore.count L (k.semaphore.count L - 1) L
    rw [upd_same]
    omega
  have h2cur : k2.ThreadCurrent = some t := by rw [hk2, hk1]; exact hcur
  have h2wf : k2.WellFormed sems (r1 ++ t :: r2) Wof :=
    WellFormed_congr h (by rw [hk2, hk1]) (by rw [hk2, hk1]) (by rw [hk2, hk1])
      (by rw [hk2, hk1])
  have h2prev : k2.thread.prev t = lastOr none r1 := by rw [hk2, hk1]; exact hprev
  obtain ⟨h3wf, h3st, h3on⟩ := ready_remove_wellFormed k2 sems t r1 r2 Wof h2wf h2prev
  have hhead : (OS_ThreadPriorityRemove k2 .ready t).ThreadHead ≠ none :=
    ReadyList_head_ne_none _ _ h3wf.1.1 hrest
  obtain ⟨c, m, hres⟩ := OS_ThreadReschedule_returns _ 0 hhead
  refine ⟨_, ?_, WellFormed_reschedule h3wf hres, h3st, h3on⟩
  unfold OS_ThreadExit
  rw [hcur]
  dsimp only
  rw [hpend]
  dsimp only
  rw [hpost]
  dsimp only
  rw [if_pos h2cur, hres]

/-- The function `OS_ThreadPrioritySet` on a thread of the ready list: the thread is put on
the ready list again, and the lists stay well formed. -/
theorem OS_ThreadPrioritySet_wellFormed (fuel : Nat) (k : Kernel) (sems : List Nat) (t P : Nat)
    (r1 r2 : List Nat) (Wof : Nat → List Nat)
    (h : k.WellFormed sems (r1 ++ t :: r2) Wof)
    (hprev : k.thread.prev t = lastOr none r1) (hf : (r1 ++ t :: r2).length < fuel) :
    ∃ k' R1 R2, OS_ThreadPrioritySet fuel k t P = some k' ∧ r1 ++ r2 = R1 ++ R2 ∧
      k'.WellFormed sems (R1 ++ t :: R2) Wof := by
  have hstate : k.thread.state t ≠ THREAD_PEND := h.2.2.1 t (by simp)
  obtain ⟨k1, hk1⟩ : ∃ k1, k1 = { k with thread.priority := upd k.thread.priority t P } :=
    ⟨_, rfl⟩
  have h1wf : k1.WellFormed sems (r1 ++ t :: r2) Wof :=
    WellFormed_congr h (by rw [hk1]) (by rw [hk1]) (by rw [hk1]) (by rw [hk1])
  have h1prev : k1.thread.prev t = lastOr none r1 := by rw [hk1]; exact hprev
  obtain ⟨h2wf, _, h2on⟩ := ready_remove_wellFormed k1 sems t r1 r2 Wof h1wf h1prev
  have hlen : (r1 ++ r2).length < fuel := by
    simp only [List.length_append, List.length_cons] at hf ⊢
    omega
  obtain ⟨R1, R2, hsplit, hins, hwf⟩ := ready_insert_wellFormed fuel _ sems t (r1 ++ r2) Wof
    h2wf.1 h2wf.2.1 h2wf.2.2.1 h2wf.2.2.2 h2on hlen
  have hhead : (priorityInsertAt (OS_ThreadPriorityRemove k1 .ready t) .ready t
      (lastOr none R1)).ThreadHead ≠ none :=
    ReadyList_head_ne_none _ _ hwf.1.1 (by cases R1 <;> simp)
  obtain ⟨c, m, hres⟩ := OS_ThreadReschedule_returns _ 0 hhead
  refine ⟨_, R1, R2, ?_, hsplit, WellFormed_reschedule hwf hres⟩
  unfold OS_ThreadPrioritySet
  dsimp only
  rw [if_pos hstate, ← hk1, hins]
  dsimp only
  exact hres

/-- The blocking branch of `OS_SemaphorePend` by the running thread `t`: `t` moves from the
ready list to the waiter list of the semaphore, and the lists stay well formed. -/
theorem pendEnqueue_wellFormed (WF : Int) (fuel : Nat) (k : Kernel) (sems : List Nat)
    (s t : Nat) (Ticks : Int) (r1 r2 T : List Nat) (Wof : Nat → List Nat) (hs : s ∈ sems)
    (h : k.WellFormed sems (r1 ++ t :: r2) Wof)
    (hprev : k.thread.prev t = lastOr none r1)
    (hT : IsChain k.thread.nextTimeout k.TimeoutHead T)
    (hfW : (Wof s).length < fuel) (hfT : T.length < fuel) :
    ∃ k' l1 l2, pendEnqueue WF fuel k s Ticks t = some k' ∧ Wof s = l1 ++ l2 ∧
      k'.WellFormed sems (r1 ++ r2) (upd Wof s (l1 ++ t :: l2)) := by
  obtain ⟨k3, hk3⟩ : ∃ k3, k3 = { { k with
      thread.semaphorePending := upd k.thread.semaphorePending t (some s) } with
      thread.ticksTimeout := upd k.thread.ticksTimeout t (toUInt32 (Ticks + (k.ThreadTime : Int))) } :=
    ⟨_, rfl⟩
  have h3wf : k3.WellFormed sems (r1 ++ t :: r2) Wof :=
    WellFormed_congr h (by rw [hk3]) (by rw [hk3]) (by rw [hk3]) (by rw [hk3])
  have h3prev : k3.thread.prev t = lastOr none r1 := by rw [hk3]; exact hprev
  have h3T : IsChain k3.thread.nextTimeout k3.TimeoutHead T := by rw [hk3]; exact hT
  obtain ⟨⟨h4c, h4d, h4s⟩, h4st, h4on⟩ :=
    ready_remove_wellFormed k3 sems t r1 r2 Wof h3wf h3prev
  obtain ⟨l1, l2, hsplit, hins, h5c⟩ := Chains_waiters_insert fuel _ sems s t (r1 ++ r2) Wof hs
    h4c h4d h4on hfW
  obtain ⟨k5, hk5⟩ : ∃ k5, k5 = priorityInsertAt (OS_ThreadPriorityRemove k3 .ready t)
      (.waiters s) t (lastOr none l1) := ⟨_, rfl⟩
  rw [← hk5] at hins h5c
  have htW : ∀ s' ∈ sems, t ∉ Wof s' := fun s' hs' hm => h4on (Or.inr ⟨s', hs', hm⟩)
  have htR : t ∉ r1 ++ r2 := fun hm => h4on (Or.inl hm)
  have hsub : ∀ s' ∈ sems, ∀ u ∈ upd Wof s (l1 ++ t :: l2) s', u ≠ t → u ∈ Wof s' := by
    intro s' _ u hu hut
    by_cases hss : s' = s
    · subst hss
      rw [upd_same] at hu
      rw [hsplit]
      exact mem_insert_middle hu hut
    · rw [upd_ne _ _ hss] at hu
      exact hu
  have htonly : ∀ s' ∈ sems, t ∈ upd Wof s (l1 ++ t :: l2) s' → s' = s := by
    intro s' hs' hm
    by_contra hss
    rw [upd_ne _ _ hss] at hm
    exact htW s' hs' hm
  have h5d : ListsDisjoint sems (r1 ++ r2) (upd Wof s (l1 ++ t :: l2)) :=
    ListsDisjoint_move t h4d (fun u hu _ => hu) hsub (fun _ _ _ => htR)
      (fun s' hs' s'' hs'' hne hm hm' =>
        hne ((htonly s' hs' hm).trans (htonly s'' hs'' hm').symm))
  -- the heads of the two lists differ, so the state of `t` stays `THREAD_PEND`
  have h5state : k5.thread.state = (OS_ThreadPriorityRemove k3 .ready t).thread.state := by
    rw [hk5]
    refine priorityInsertAt_state_of_ne _ _ _ _ ?_
    rw [← priorityInsertAt_getHead, priorityLink_ThreadHead, ← hk5]
    have e1 : k5.getHead (.waiters s) = (l1 ++ t :: l2).head? := by
      have := IsChain_head_eq (h5c.2 s hs)
      rw [upd_same] at this
      exact this
    have e2 : (OS_ThreadPriorityRemove k3 .ready t).ThreadHead = (r1 ++ r2).head? :=
      IsChain_head_eq h4c.1
    rw [e1, e2]
    intro e
    obtain ⟨a, ha⟩ : ∃ a, (l1 ++ t :: l2).head? = some a := by
      cases l1 <;> exact ⟨_, rfl⟩
    have ha1 : a ∈ l1 ++ t :: l2 := List.mem_of_mem_head? ha
    have ha2 : a ∈ r1 ++ r2 := List.mem_of_mem_head? (e ▸ ha)
    exact h5d.1 s hs a (by rw [upd_same]; exact ha1) ha2
  have h5s : k5.States sems (r1 ++ r2) (upd Wof s (l1 ++ t :: l2)) := by
    refine States_move (k := OS_ThreadPriorityRemove k3 .ready t) t h4s ?_ (fun u hu _ => hu)
      hsub (fun hm => absurd hm htR) ?_
    · intro u _
      rw [h5state]
    · intro _ _ _
      rw [h5state]
      exact h4st
  have h5wf : k5.WellFormed sems (r1 ++ r2) (upd Wof s (l1 ++ t :: l2)) := ⟨h5c, h5d, h5s⟩
  have h5T : IsChain k5.thread.nextTimeout k5.TimeoutHead T := by
    rw [hk5, priorityInsertAt_nextTimeout, priorityInsertAt_TimeoutHead,
      OS_ThreadPriorityRemove_nextTimeout, OS_ThreadPriorityRemove_TimeoutHead]
    exact h3T
  unfold pendEnqueue
  dsimp only
  rw [← hk3, hins]
  dsimp only
  by_cases hwf : Ticks ≠ WF
  · rw [if_pos hwf]
    obtain ⟨prev, hti⟩ := OS_ThreadTimeoutInsert_returns fuel k5 t T h5T hfT
    exact ⟨_, l1, l2, hti, hsplit, WellFormed_congr h5wf (by simp) (by simp) (by simp) (by simp)⟩
  · rw [if_neg hwf]
    exact ⟨k5, l1, l2, rfl, hsplit, h5wf⟩

/-- The function `OS_SemaphorePend` by the running thread `t` on a semaphore without a free
count: `t` moves from the ready list to the waiter list of the semaphore, and the lists stay
well formed. -/
theorem OS_SemaphorePend_wellFormed (WF : Int) (fuel : Nat) (k : Kernel) (sems : List Nat)
    (s t : Nat) (Ticks : Int) (r1 r2 T : List Nat) (Wof : Nat → List Nat) (hs : s ∈ sems)
    (h : k.WellFormed sems (r1 ++ t :: r2) Wof) (hcur : k.ThreadCurrent = some t)
    (hcount : k.semaphore.count s ≤ 0)
    (hprev : k.thread.prev t = lastOr none r1) (hrest : r1 ++ r2 ≠ [])
    (hT : IsChain k.thread.nextTimeout k.TimeoutHead T) (hTicks : Ticks ≠ 0)
    (hfW : (Wof s).length < fuel) (hfT : T.length < fuel) :
    ∃ k' r l1 l2, OS_SemaphorePend WF fuel k s Ticks = some (k', r) ∧ Wof s = l1 ++ l2 ∧
      k'.WellFormed sems (r1 ++ r2) (upd Wof s (l1 ++ t :: l2)) := by
  obtain ⟨k6, l1, l2, hk6, hsplit, h6wf⟩ := pendEnqueue_wellFormed WF fuel
    { k with semaphore.count := upd k.semaphore.count s (k.semaphore.count s - 1) }
    sems s t Ticks r1 r2 T Wof hs
    (WellFormed_congr h rfl rfl rfl rfl) hprev hT hfW hfT
  dsimp only at hk6
  obtain ⟨c, n, hres⟩ := OS_ThreadReschedule_returns k6 0
    (ReadyList_head_ne_none k6 _ h6wf.1.1 hrest)
  have hlt : upd k.semaphore.count s (k.semaphore.count s - 1) s < 0 := by
    rw [upd_same]
    omega
  have hfin : ∃ r, OS_SemaphorePend WF fuel k s Ticks =
      some ({ k6 with ThreadCurrent := c, ThreadNeedReschedule := n }, r) := by
    unfold OS_SemaphorePend
    dsimp only
    rw [if_pos hlt, if_neg hTicks, hcur]
    dsimp only
    rw [hcur] at hk6
    rw [hk6]
    dsimp only
    rw [hres]
    dsimp only
    split
    · exact ⟨_, rfl⟩
    · exact ⟨_, rfl⟩
  obtain ⟨r, hr⟩ := hfin
  exact ⟨_, r, l1, l2, hr, hsplit, WellFormed_reschedule h6wf hres⟩

/-- The function `OS_SemaphorePost` on a semaphore with the waiter `w` at the head of its
list: `w` moves to the ready list, and the lists stay well formed. -/
theorem OS_SemaphorePost_wellFormed (fuel : Nat) (k : Kernel) (sems : List Nat) (s w : Nat)
    (ws R : List Nat) (Wof : Nat → List Nat) (hs : s ∈ sems)
    (h : k.WellFormed sems R Wof) (hW : Wof s = w :: ws) (hprev : k.thread.prev w = none)
    (hcount : k.semaphore.count s < 0) (hf : R.length < fuel) :
    ∃ k' R1 R2, OS_SemaphorePost fuel k s = some k' ∧ R = R1 ++ R2 ∧
      k'.WellFormed sems (R1 ++ w :: R2) (upd Wof s ws) := by
  have hhead : k.semaphore.threadHead s = some w := by
    have := h.1.2 s hs
    rw [hW] at this
    exact this.1
  obtain ⟨k2, hk2⟩ : ∃ k2, k2 = OS_ThreadTimeoutRemove { k with
      semaphore.count := upd k.semaphore.count s (k.semaphore.count s + 1) } w := ⟨_, rfl⟩
  have h2wf : k2.WellFormed sems R Wof :=
    WellFormed_congr h (by rw [hk2, OS_ThreadTimeoutRemove_next])
      (by rw [hk2, OS_ThreadTimeoutRemove_state]) (by rw [hk2, OS_ThreadTimeoutRemove_ThreadHead])
      (by rw [hk2, OS_ThreadTimeoutRemove_semaphore])
  have h2prev : k2.thread.prev w = lastOr none [] := by
    rw [hk2, OS_ThreadTimeoutRemove_prev]
    exact hprev
  obtain ⟨R1, R2, hsplit, hins, hwf⟩ := wake_wellFormed fuel k2 sems s w [] ws R Wof hs h2wf
    (by simpa using hW) h2prev hf
  obtain ⟨k4, hk4⟩ : ∃ k4, k4 = priorityInsertAt (OS_ThreadPriorityRemove k2 (.waiters s) w)
      .ready w (lastOr none R1) := ⟨_, rfl⟩
  rw [← hk4] at hins hwf
  simp only [List.nil_append] at hwf
  obtain ⟨k6, hk6⟩ : ∃ k6, k6 = { { k4 with
      thread.semaphorePending := upd k4.thread.semaphorePending w none } with
      thread.returnCode := upd k4.thread.returnCode w 0 } := ⟨_, rfl⟩
  have h6wf : k6.WellFormed sems (R1 ++ w :: R2) (upd Wof s ws) :=
    WellFormed_congr hwf (by rw [hk6]) (by rw [hk6]) (by rw [hk6]) (by rw [hk6])
  have hne : k6.ThreadHead ≠ none :=
    ReadyList_head_ne_none k6 _ h6wf.1.1 (by cases R1 <;> simp)
  obtain ⟨c, n, hres⟩ := OS_ThreadReschedule_returns k6 0 hne
  refine ⟨_, R1, R2, ?_, hsplit, WellFormed_reschedule h6wf hres⟩
  have hc1 : k.semaphore.count s + 1 ≤ 0 := by omega
  unfold OS_SemaphorePost
  dsimp only
  rw [if_pos (by simpa using hc1), hhead]
  dsimp only
  unfold postWake
  dsimp only
  rw [← hk2, hins]
  dsimp only
  rw [← hk6]
  exact hres

/-- The tick at which the timeout of the first thread `x` of the timeout list is reached, and
of no other thread: `x` moves from the waiter list of its semaphore to the ready list, and the
lists stay well formed. -/
theorem OS_ThreadTick_wellFormed (fuel : Nat) (k : Kernel) (sems : List Nat) (s x : Nat)
    (w1 w2 R T : List Nat) (Wof : Nat → List Nat) (hs : s ∈ sems)
    (h : k.WellFormed sems R Wof) (hW : Wof s = w1 ++ x :: w2)
    (hxprev : k.thread.prev x = lastOr none w1)
    (hT : k.TimeoutList (x :: T)) (hxsem : k.thread.semaphorePending x = some s)
    (hdue : 0 ≤ tickDiff ((k.ThreadTime + 1) % 4294967296) (k.thread.ticksTimeout x))
    (hnext : ∀ y ∈ T.head?,
      tickDiff ((k.ThreadTime + 1) % 4294967296) (k.thread.ticksTimeout y) < 0)
    (hf : R.length < fuel) (hf2 : 2 ≤ fuel) :
    ∃ k' R1 R2, OS_ThreadTick fuel k = some k' ∧ R = R1 ++ R2 ∧
      k'.WellFormed sems (R1 ++ x :: R2) (upd Wof s (w1 ++ w2)) := by
  obtain ⟨fuel, rfl⟩ : ∃ f, fuel = f + 2 := ⟨fuel - 2, by omega⟩
  have hhead : k.TimeoutHead = some x := hT.1
  -- the state after the removal from the timeout list
  obtain ⟨k2, hk2⟩ : ∃ k2, k2 = OS_ThreadTimeoutRemove
      { k with ThreadTime := (k.ThreadTime + 1) % 4294967296 } x := ⟨_, rfl⟩
  have h2T : k2.TimeoutHead = T.head? := by
    have := OS_ThreadTimeoutRemove_list
      { k with ThreadTime := (k.ThreadTime + 1) % 4294967296 } x (x :: T) hT
      (fun hn => absurd (List.mem_cons_self x T) hn)
    rw [← hk2, List.erase_cons_head] at this
    exact IsChain_head_eq this
  have h2sp : k2.thread.semaphorePending x = some s := by
    rw [hk2, OS_ThreadTimeoutRemove_semaphorePending]; exact hxsem
  -- the fields that the loop body sets before the removal from the waiter list
  obtain ⟨k4, hk4⟩ : ∃ k4, k4 = { { { k2 with
      semaphore.count := upd k2.semaphore.count s (k2.semaphore.count s + 1) } with
      thread.semaphorePending := upd k2.thread.semaphorePending x none } with
      thread.returnCode := upd k2.thread.returnCode x (-1) } := ⟨_, rfl⟩
  have h4wf : k4.WellFormed sems R Wof :=
    WellFormed_congr h (by rw [hk4, hk2, OS_ThreadTimeoutRemove_next])
      (by rw [hk4, hk2, OS_ThreadTimeoutRemove_state])
      (by rw [hk4, hk2, OS_ThreadTimeoutRemove_ThreadHead])
      (by rw [hk4]; show k2.semaphore.threadHead = _; rw [hk2, OS_ThreadTimeoutRemove_semaphore])
  have h4prev : k4.thread.prev x = lastOr none w1 := by
    rw [hk4]
    show k2.thread.prev x = _
    rw [hk2, OS_ThreadTimeoutRemove_prev]
    exact hxprev
  obtain ⟨R1, R2, hsplit, hins, hwf⟩ := wake_wellFormed (fuel + 2) k4 sems s x w1 w2 R Wof hs
    h4wf hW h4prev hf
  obtain ⟨k6, hk6⟩ : ∃ k6, k6 = priorityInsertAt (OS_ThreadPriorityRemove k4 (.waiters s) x)
      .ready x (lastOr none R1) := ⟨_, rfl⟩
  rw [← hk6] at hins hwf
  have h6T : k6.TimeoutHead = T.head? := by
    rw [hk6, priorityInsertAt_TimeoutHead, OS_ThreadPriorityRemove_TimeoutHead, hk4]
    exact h2T
  have h6tt : k6.thread.ticksTimeout = k.thread.ticksTimeout := by
    rw [hk6, priorityInsertAt_ticksTimeout, OS_ThreadPriorityRemove_ticksTimeout, hk4]
    show k2.thread.ticksTimeout = _
    rw [hk2, OS_ThreadTimeoutRemove_ticksTimeout]
  have h6time : k6.ThreadTime = (k.ThreadTime + 1) % 4294967296 := by
    rw [hk6, priorityInsertAt_ThreadTime, OS_ThreadPriorityRemove_ThreadTime, hk4]
    show k2.ThreadTime = _
    rw [hk2, OS_ThreadTimeoutRemove_ThreadTime]
  have h6ne : k6.ThreadHead ≠ none :=
    ReadyList_head_ne_none k6 _ hwf.1.1 (by cases R1 <;> simp)
  obtain ⟨c, n, hres⟩ := OS_ThreadReschedule_returns k6 1 h6ne
  refine ⟨_, R1, R2, ?_, hsplit, WellFormed_reschedule hwf hres⟩
  unfold OS_ThreadTick
  dsimp only
  have hloop : tickLoop (fuel + 2) (fuel + 2)
      { k with ThreadTime := (k.ThreadTime + 1) % 4294967296 } = some k6 := by
    rw [tickLoop]
    dsimp only
    rw [hhead]
    dsimp only
    rw [if_neg (by omega)]
    rw [hhead] at hk2
    rw [← hk2, h2sp]
    dsimp only
    unfold tickWake
    dsimp only
    rw [← hk4, hins]
    dsimp only
    rw [tickLoop, h6T]
    cases hT' : T.head? with
    | none => rfl
    | some y =>
      dsimp only
      rw [h6time, h6tt, if_pos (hnext y (by rw [hT']; simp))]
  rw [hloop]
  dsimp only
  exact hres

theorem OnList_upd {sems R R' : List Nat} {Wof : Nat → List Nat} {s u : Nat} {old new : List Nat}
    (hW : Wof s = old) (hR : ∀ v ∈ R, v ∈ R' ∨ v ∈ new) (hnew : ∀ v ∈ old, v ∈ R' ∨ v ∈ new)
    (hs : s ∈ sems) (h : OnList sems R Wof u) : OnList sems R' (upd Wof s new) u := by
  have hin : ∀ v, v ∈ R' ∨ v ∈ new → OnList sems R' (upd Wof s new) v := by
    rintro v (hv | hv)
    · exact Or.inl hv
    · exact Or.inr ⟨s, hs, by rw [upd_same]; exact hv⟩
  rcases h with h | ⟨s', hs', h⟩
  · exact hin u (hR u h)
  · by_cases hss : s' = s
    · subst hss
      rw [hW] at h
      exact hin u (hnew u h)
    · exact Or.inr ⟨s', hs', by rw [upd_ne _ _ hss]; exact h⟩

/-- The end of a thread: in `lockedWaiters`, whose lists are well formed, the running thread M
(2) calls `OS_ThreadExit`.  In the resulting state M, whose block waits to be freed, has state
`THREAD_PEND` and is on the waiter list of no semaphore: the waiters of semaphore 1 are B and
A, and semaphore 2 has none. -/
theorem OS_ThreadExit_leaves_pended :
    lockedWaiters.WellFormed [1, 2] [2, 1] lockedWaitersOf ∧
    lockedWaiters.ThreadCurrent = some 2 ∧
    (OS_ThreadExit (-1) 8 lockedWaiters 2).map
        (fun k => (k.thread.state 2, decide (k.WaiterList 1 [4, 3]), decide (k.WaiterList 2 []),
          decide (k.ReadyList [1]), k.ThreadCurrent))
      = some (THREAD_PEND, true, true, true, some 1) := by
  decide

/-- The state invariant where every back link is in place: in a state whose lists are well
formed (the ready list is `r1 ++ t :: r2` with the running thread `t` behind the thread that
its back link names, the waiter list of every semaphore `s'` of `sems` is `Wof s'`, no thread
is on two lists, the threads of the waiter lists are pended and those of the ready list are
not), with a waiter `w` at the head of the list of the semaphore `s`, and the waiter `x` of `s`
behind the thread that its back link names, first on the timeout list and the only thread
whose timeout the next tick reaches: after each of `OS_ThreadCreate` (of a thread `n` that is on
no list), `OS_ThreadPrioritySet` (on `t`, and on any waiter), `OS_SemaphorePend` (by `t` on
`s`), `OS_SemaphorePost` (on `s`) and `OS_ThreadTick` the lists are well formed again, and every
thread that was on a list (and `n`) is on a list and has state `THREAD_PEND` if and only if it
is on the waiter list of a semaphore, and then of one only.  After `OS_ThreadExit` by `t` (with
`SemaphoreLock` free) this holds for every thread but `t`. -/
theorem pend_iff_waiting_linked (WF : Int) (fuel : Nat) (k : Kernel) (sems : List Nat)
    (s t w x n L P : Nat) (Ticks : Int) (ws w1 w2 r1 r2 T : List Nat) (Wof : Nat → List Nat)
    (h : k.WellFormed sems (r1 ++ t :: r2) Wof)
    (hcur : k.ThreadCurrent = some t) (hprev : k.thread.prev t = lastOr none r1)
    (hrest : r1 ++ r2 ≠ [])
    (hs : s ∈ sems) (hW : Wof s = w :: ws) (hwprev : k.thread.prev w = none)
    (hcount : k.semaphore.count s < 0)
    (hT : k.TimeoutList (x :: T)) (hx : Wof s = w1 ++ x :: w2)
    (hxprev : k.thread.prev x = lastOr none w1)
    (hxsem : k.thread.semaphorePending x = some s)
    (hdue : 0 ≤ tickDiff ((k.ThreadTime + 1) % 4294967296) (k.thread.ticksTimeout x))
    (hnext : ∀ y ∈ T.head?,
      tickDiff ((k.ThreadTime + 1) % 4294967296) (k.thread.ticksTimeout y) < 0)
    (hn : ¬ OnList sems (r1 ++ t :: r2) Wof n)
    (hL : 0 < k.semaphore.count L) (hTicks : Ticks ≠ 0)
    (hfR : (r1 ++ t :: r2).length < fuel) (hfW : (Wof s).length < fuel)
    (hfT : (x :: T).length < fuel) :
    (∃ k' R', OS_ThreadCreate fuel k n P = some k' ∧ k'.WellFormed sems R' Wof ∧
      ∀ u, OnList sems (r1 ++ t :: r2) Wof u ∨ u = n →
        OnList sems R' Wof u ∧ k'.PendIffWaiting sems Wof u) ∧
    (∃ k', OS_ThreadExit WF fuel k L = some k' ∧ k'.WellFormed sems (r1 ++ r2) Wof ∧
      (∀ u, OnList sems (r1 ++ t :: r2) Wof u → u ≠ t →
        OnList sems (r1 ++ r2) Wof u ∧ k'.PendIffWaiting sems Wof u) ∧
      k'.thread.state t = THREAD_PEND ∧ ¬ OnList sems (r1 ++ r2) Wof t) ∧
    (∃ k' R', OS_ThreadPrioritySet fuel k t P = some k' ∧ k'.WellFormed sems R' Wof ∧
      ∀ u, OnList sems (r1 ++ t :: r2) Wof u →
        OnList sems R' Wof u ∧ k'.PendIffWaiting sems Wof u) ∧
    (∀ v, (∃ s' ∈ sems, v ∈ Wof s') →
      ∃ k', OS_ThreadPrioritySet fuel k v P = some k' ∧
        k'.WellFormed sems (r1 ++ t :: r2) Wof ∧
        ∀ u, OnList sems (r1 ++ t :: r2) Wof u → k'.PendIffWaiting sems Wof u) ∧
    (∃ k' r Wof', OS_SemaphorePend WF fuel k s Ticks = some (k', r) ∧
      k'.WellFormed sems (r1 ++ r2) Wof' ∧
      ∀ u, OnList sems (r1 ++ t :: r2) Wof u →
        OnList sems (r1 ++ r2) Wof' u ∧ k'.PendIffWaiting sems Wof' u) ∧
    (∃ k' R', OS_SemaphorePost fuel k s = some k' ∧ k'.WellFormed sems R' (upd Wof s ws) ∧
      ∀ u, OnList sems (r1 ++ t :: r2) Wof u →
        OnList sems R' (upd Wof s ws) u ∧ k'.PendIffWaiting sems (upd Wof s ws) u) ∧
    (∃ k' R', OS_ThreadTick fuel k = some k' ∧ k'.WellFormed sems R' (upd Wof s (w1 ++ w2)) ∧
      ∀ u, OnList sems (r1 ++ t :: r2) Wof u →
        OnList sems R' (upd Wof s (w1 ++ w2)) u ∧
          k'.PendIffWaiting sems (upd Wof s (w1 ++ w2)) u) := by
  refine ⟨?_, ?_, ?_, ?_, ?_, ?_, ?_⟩
  · obtain ⟨k', R1, R2, h1, h2, h3⟩ := OS_ThreadCreate_wellFormed fuel k sems n P
      (r1 ++ t :: r2) Wof h hn hfR
    refine ⟨k', _, h1, h3, ?_⟩
    intro u hu
    have hon : OnList sems (R1 ++ n :: R2) Wof u := by
      rcases hu with (hu | ⟨s', hs', hu⟩) | hu
      · exact Or.inl (mem_remove_middle (h2 ▸ hu))
      · exact Or.inr ⟨s', hs', hu⟩
      · exact Or.inl (by rw [hu]; simp)
    exact ⟨hon, WellFormed_pendIffWaiting h3 u hon⟩
  · obtain ⟨k', h1, h2, h3, h4⟩ := OS_ThreadExit_wellFormed WF fuel k sems L t r1 r2 Wof h hcur
      hprev hrest hL
    refine ⟨k', h1, h2, ?_, h3, h4⟩
    intro u hu hut
    have hon : OnList sems (r1 ++ r2) Wof u := by
      rcases hu with hu | hu
      · exact Or.inl (mem_insert_middle hu hut)
      · exact Or.inr hu
    exact ⟨hon, WellFormed_pendIffWaiting h2 u hon⟩
  · obtain ⟨k', R1, R2, h1, h2, h3⟩ := OS_ThreadPrioritySet_wellFormed fuel k sems t P r1 r2 Wof
      h hprev hfR
    refine ⟨k', _, h1, h3, ?_⟩
    intro u hu
    have hon : OnList sems (R1 ++ t :: R2) Wof u := by
      rcases hu with hu | hu
      · by_cases hut : u = t
        · exact Or.inl (by rw [hut]; simp)
        · exact Or.inl (mem_remove_middle (h2 ▸ mem_insert_middle hu hut))
      · exact Or.inr hu
    exact ⟨hon, WellFormed_pendIffWaiting h3 u hon⟩
  · rintro v ⟨s', hs', hv⟩
    have hvs : k.thread.state v = THREAD_PEND := h.2.2.2 s' hs' v hv
    have hwf : ({ k with thread.priority := upd k.thread.priority v P } : Kernel).WellFormed sems
        (r1 ++ t :: r2) Wof := WellFormed_congr h rfl rfl rfl rfl
    refine ⟨_, ?_, hwf, fun u hu => WellFormed_pendIffWaiting hwf u hu⟩
    unfold OS_ThreadPrioritySet
    dsimp only
    rw [if_neg (fun hne => hne hvs)]
  · obtain ⟨k', r, l1, l2, h1, h2, h3⟩ := OS_SemaphorePend_wellFormed WF fuel k sems s t Ticks
      r1 r2 (x :: T) Wof hs h hcur (by omega) hprev hrest (IsDChain_isChain hT) hTicks hfW hfT
    refine ⟨k', r, _, h1, h3, ?_⟩
    intro u hu
    have hon : OnList sems (r1 ++ r2) (upd Wof s (l1 ++ t :: l2)) u := by
      refine OnList_upd h2 ?_ ?_ hs hu
      · intro v hv
        by_cases hvt : v = t
        · exact Or.inr (by rw [hvt]; simp)
        · exact Or.inl (mem_insert_middle hv hvt)
      · intro v hv
        exact Or.inr (mem_remove_middle hv)
    exact ⟨hon, WellFormed_pendIffWaiting h3 u hon⟩
  · obtain ⟨k', R1, R2, h1, h2, h3⟩ := OS_SemaphorePost_wellFormed fuel k sems s w ws
      (r1 ++ t :: r2) Wof hs h hW hwprev hcount hfR
    refine ⟨k', _, h1, h3, ?_⟩
    intro u hu
    have hon : OnList sems (R1 ++ w :: R2) (upd Wof s ws) u := by
      refine OnList_upd hW ?_ ?_ hs hu
      · intro v hv
        exact Or.inl (mem_remove_middle (h2 ▸ hv))
      · intro v hv
        rcases List.mem_cons.mp hv with e | e
        · exact Or.inl (by rw [e]; simp)
        · exact Or.inr e
    exact ⟨hon, WellFormed_pendIffWaiting h3 u hon⟩
  · obtain ⟨k', R1, R2, h1, h2, h3⟩ := OS_ThreadTick_wellFormed fuel k sems s x w1 w2
      (r1 ++ t :: r2) T Wof hs h hx hxprev hT hxsem hdue hnext hfR (by
        simp only [List.length_cons] at hfT
        omega)
    refine ⟨k', _, h1, h3, ?_⟩
    intro u hu
    have hon : OnList sems (R1 ++ x :: R2) (upd Wof s (w1 ++ w2)) u := by
      refine OnList_upd hx ?_ ?_ hs hu
      · intro v hv
        exact Or.inl (mem_remove_middle (h2 ▸ hv))
      · intro v hv
        by_cases hvx : v = x
        · exact Or.inl (by rw [hvx]; simp)
        · exact Or.inr (mem_insert_middle hv hvx)
    exact ⟨hon, WellFormed_pendIffWaiting h3 u hon⟩

/-- The state invariant with every back link in place, instance: the state `lockedWaiters`, in
which M (thread 2) runs, B (4) and A (3) wait for semaphore 1, the timeout of A is reached at
the next tick, semaphore 2 is free and thread 5 is new. -/
theorem pend_iff_waiting_linked_example :
    (∃ k' R', OS_ThreadCreate 8 lockedWaiters 5 7 = some k' ∧ k'.WellFormed [1, 2] R' lockedWaitersOf ∧
      ∀ u, OnList [1, 2] ([] ++ 2 :: [1]) lockedWaitersOf u ∨ u = 5 →
        OnList [1, 2] R' lockedWaitersOf u ∧ k'.PendIffWaiting [1, 2] lockedWaitersOf u) ∧
    (∃ k', OS_ThreadExit (-1) 8 lockedWaiters 2 = some k' ∧ k'.WellFormed [1, 2] ([] ++ [1]) lockedWaitersOf ∧
      (∀ u, OnList [1, 2] ([] ++ 2 :: [1]) lockedWaitersOf u → u ≠ 2 →
        OnList [1, 2] ([] ++ [1]) lockedWaitersOf u ∧ k'.PendIffWaiting [1, 2] lockedWaitersOf u) ∧
      k'.thread.state 2 = THREAD_PEND ∧ ¬ OnList [1, 2] ([] ++ [1]) lockedWaitersOf 2) ∧
    (∃ k' R', OS_ThreadPrioritySet 8 lockedWaiters 2 7 = some k' ∧ k'.WellFormed [1, 2] R' lockedWaitersOf ∧
      ∀ u, OnList [1, 2] ([] ++ 2 :: [1]) lockedWaitersOf u →
        OnList [1, 2] R' lockedWaitersOf u ∧ k'.PendIffWaiting [1, 2] lockedWaitersOf u) ∧
    (∀ v, (∃ s' ∈ [1, 2], v ∈ lockedWaitersOf s') →
      ∃ k', OS_ThreadPrioritySet 8 lockedWaiters v 7 = some k' ∧
        k'.WellFormed [1, 2] ([] ++ 2 :: [1]) lockedWaitersOf ∧
        ∀ u, OnList [1, 2] ([] ++ 2 :: [1]) lockedWaitersOf u → k'.PendIffWaiting [1, 2] lockedWaitersOf u) ∧
    (∃ k' r Wof', OS_SemaphorePend (-1) 8 lockedWaiters 1 5 = some (k', r) ∧
      k'.WellFormed [1, 2] ([] ++ [1]) Wof' ∧
      ∀ u, OnList [1, 2] ([] ++ 2 :: [1]) lockedWaitersOf u →
        OnList [1, 2] ([] ++ [1]) Wof' u ∧ k'.PendIffWaiting [1, 2] Wof' u) ∧
    (∃ k' R', OS_SemaphorePost 8 lockedWaiters 1 = some k' ∧ k'.WellFormed [1, 2] R' (upd lockedWaitersOf 1 [3]) ∧
      ∀ u, OnList [1, 2] ([] ++ 2 :: [1]) lockedWaitersOf u →
        OnList [1, 2] R' (upd lockedWaitersOf 1 [3]) u ∧ k'.PendIffWaiting [1, 2] (upd lockedWaitersOf 1 [3]) u) ∧
    (∃ k' R', OS_ThreadTick 8 lockedWaiters = some k' ∧ k'.WellFormed [1, 2] R' (upd lockedWaitersOf 1 ([4] ++ [])) ∧
      ∀ u, OnList [1, 2] ([] ++ 2 :: [1]) lockedWaitersOf u →
        OnList [1, 2] R' (upd lockedWaitersOf 1 ([4] ++ [])) u ∧
          k'.PendIffWaiting [1, 2] (upd lockedWaitersOf 1 ([4] ++ [])) u) :=
  pend_iff_waiting_linked (-1) 8 lockedWaiters [1, 2] 1 2 4 3 5 2 7 5 [3] [4] [] [] [1] []
    lockedWaitersOf
    (by decide) (by decide) (by decide) (by decide) (by decide) (by decide) (by decide)
    (by decide) (by decide) (by decide) (by decide) (by decide) (by decide) (by decide)
    (by decide) (by decide) (by decide) (by decide) (by decide) (by decide)

/-- C35 (evaluation at the failing input): in `twoWaiters`, reached by `OS_ThreadCreate` and
`OS_SemaphorePend` alone, the lists are well formed and every thread is `THREAD_PEND` exactly
when it is on the waiter list of semaphore 1: A (2) and B (3) wait, the idle thread (1) is
ready.  A was linked in front of B, and the back link of B is still `NULL`.  At the third
`OS_ThreadTick` B times out and `OS_ThreadPriorityRemove` sets the head of the waiter list to
`B->next`, which is `NULL`.  Then A is in state `THREAD_PEND`, pending on semaphore 1, and is on
no waiter list: the waiter list of semaphore 1, the only semaphore, is empty. -/
theorem C35_pended_thread_on_no_list :
    ∃ k k3, twoWaiters = some k ∧
      k.WellFormed [1] [1] (fun _ => [2, 3]) ∧
      (∀ u ∈ [1, 2, 3], k.PendIffWaiting [1] (fun _ => [2, 3]) u) ∧
      k.thread.prev 3 = none ∧
      ticks 8 3 k = some k3 ∧
      k3.WellFormed [1] [3, 1] (fun _ => []) ∧
      k3.thread.state 2 = THREAD_PEND ∧ k3.thread.semaphorePending 2 = some 1 ∧
      ¬ k3.PendIffWaiting [1] (fun _ => []) 2 :=
  ⟨_, _, rfl, by decide, by decide, by decide, rfl, by decide, by decide, by decide, by decide⟩

/-! ## C37: the resend list and `seqReceived` -/

/-- The frames of a list are ahead after an operation when each of them was on a list of
frames that were ahead, has kept its `seqEnd`, and its socket, if that is in the state
`IP_TCP` now, was its socket before, in the state `IP_TCP` with the same `seqReceived`. -/
theorem ResendAhead_keep {s s1 : IPStack} {R R1 : List Nat} (h : ResendAhead s R)
    (hkeep : ∀ F ∈ R1, F ∈ R ∧ s1.frame.seqEnd F = s.frame.seqEnd F ∧
      ∀ k ∈ s1.frame.socket F, s1.socket.state k = IP_TCP →
        s.frame.socket F = some k ∧ s.socket.state k = IP_TCP ∧
        s1.socket.seqReceived k = s.socket.seqReceived k) : ResendAhead s1 R1 := by
  intro F hF S hS hst
  obtain ⟨hFR, e2, hk⟩ := hkeep F hF
  obtain ⟨e1, e3, e4⟩ := hk S hS hst
  rw [e4, e2]
  exact h F hFR S e1 e3

/-- The frames of a part of the list are ahead after an operation that keeps their `seqEnd` and
their socket, or takes their socket away, brings no socket to the state `IP_TCP` and keeps
`seqReceived`. -/
theorem ResendAhead_same {s s1 : IPStack} {R R1 : List Nat} (h : ResendAhead s R)
    (hsub : ∀ F ∈ R1, F ∈ R)
    (hframe : ∀ F ∈ R1, (s1.frame.socket F = s.frame.socket F ∨ s1.frame.socket F = none) ∧
      s1.frame.seqEnd F = s.frame.seqEnd F)
    (hstate : ∀ k, s1.socket.state k = IP_TCP → s.socket.state k = IP_TCP)
    (hrcv : s1.socket.seqReceived = s.socket.seqReceived) : ResendAhead s1 R1 := by
  refine ResendAhead_keep h (fun F hF => ⟨hsub F hF, (hframe F hF).2, fun k hk hst => ?_⟩)
  rcases (hframe F hF).1 with e | e
  · rw [e] at hk
    exact ⟨hk, hstate k hst, by rw [hrcv]⟩
  · rw [e] at hk
    cases hk

/-- The resend list after `IPSendFrame(g)` for a frame `g` that is on no queue: the list as it
was, or with `g` at its head; with the send queue in use, or for a frame without a socket, the
list as it was.  The head of the send queue and that of the free list are as before, or the
frame `g` when it is not put on the resend list. -/
theorem IPSendFrame_resend (cfg : IPConfig) (s : IPStack) (g : Nat) (R : List Nat)
    (hR : FrameList s FrameQueue.resend R) (hg : g ∉ R)
    (hsend : ∀ f ∈ R, s.FrameSendHead ≠ some f) :
    ∃ R1, FrameList (IPSendFrame cfg s g) FrameQueue.resend R1 ∧ (R1 = R ∨ R1 = g :: R) ∧
      (s.FrameSendFunc = none → R1 = R) ∧ (s.frame.socket g = none → R1 = R) ∧
      ((IPSendFrame cfg s g).FrameSendHead = s.FrameSendHead ∨
        ((IPSendFrame cfg s g).FrameSendHead = some g ∧ R1 = R)) ∧
      ((IPSendFrame cfg s g).FrameFreeHead = s.FrameFreeHead ∨
        ((IPSendFrame cfg s g).FrameFreeHead = some g ∧ R1 = R)) := by
  cases hF : s.FrameSendFunc with
  | none =>
    rw [IPSendFrame_queued cfg s g hF]
    have h1 : FrameList { s with posted := s.posted + 1 } FrameQueue.resend R :=
      FrameList_congr hR (fun _ _ => rfl) (fun _ _ => rfl) rfl rfl
    refine ⟨R, FrameList_insert_other h1 (by simp) hg (fun a ha => hsend a ha), Or.inl rfl,
      fun _ => rfl, fun _ => rfl, Or.inr ⟨by simp, rfl⟩, Or.inl (by simp)⟩
  | some F =>
    rw [IPSendFrame_direct cfg s g F hF]
    have h1 : FrameList { s with sent := s.sent ++ [(g, s.frame.packet g, s.frame.length g)] }
        FrameQueue.resend R :=
      FrameList_congr hR (fun _ _ => rfl) (fun _ _ => rfl) rfl rfl
    by_cases hres : reschedules
        { s with sent := s.sent ++ [(g, s.frame.packet g, s.frame.length g)] } g
    · have e := IPFrameReschedule_of_reschedules cfg _ g hres
      have h2 : FrameList
          { ({ s with sent := s.sent ++ [(g, s.frame.packet g, s.frame.length g)] } : IPStack)
            with frame.retryCnt := upd s.frame.retryCnt g (s.frame.retryCnt g + 1),
                 frame.timeout := upd s.frame.timeout g cfg.RETRANSMIT_TIME }
          FrameQueue.resend R :=
        FrameList_congr hR (fun _ _ => rfl) (fun _ _ => rfl) rfl rfl
      refine ⟨g :: R, ?_, Or.inr rfl, (fun h => by cases h), ?_, Or.inl (by simp), Or.inl ?_⟩
      · rw [e]
        exact FrameList_insert g h2 hg
      · intro hn
        obtain ⟨k, hk, _⟩ := hres
        rw [show ({ s with sent := s.sent ++ [(g, s.frame.packet g, s.frame.length g)] } :
          IPStack).frame.socket g = s.frame.socket g from rfl, hn] at hk
        cases hk
      · rw [e]
        simp
    · obtain ⟨r, e, _, _⟩ := IPFrameReschedule_of_not cfg _ g hres
      have h2 : FrameList
          { ({ s with sent := s.sent ++ [(g, s.frame.packet g, s.frame.length g)] } : IPStack)
            with frame.retryCnt := r } FrameQueue.resend R :=
        FrameList_congr hR (fun _ _ => rfl) (fun _ _ => rfl) rfl rfl
      refine ⟨R, ?_, Or.inl rfl, fun _ => rfl, fun _ => rfl, Or.inl (by simp), Or.inr ⟨?_, rfl⟩⟩
      · rw [e]
        exact FrameList_free h2 hg
      · rw [e]
        simp

/-- The resend list after `IPSendPacket(socket, g, length)` for a frame `g` that is on no
queue, and the frames that the call leaves alone. -/
theorem IPSendPacket_resend (cfg : IPConfig) (s : IPStack) (socket : Option Nat) (g : Nat)
    (length : Int) (R : List Nat)
    (hR : FrameList s FrameQueue.resend R) (hg : g ∉ R)
    (hsend : ∀ f ∈ R, s.FrameSendHead ≠ some f) :
    ∃ R1, FrameList (IPSendPacket cfg s socket g length) FrameQueue.resend R1 ∧
      (R1 = R ∨ R1 = g :: R) ∧ (s.FrameSendFunc = none → R1 = R) ∧ (socket = none → R1 = R) ∧
      ((IPSendPacket cfg s socket g length).FrameSendHead = s.FrameSendHead ∨
        ((IPSendPacket cfg s socket g length).FrameSendHead = some g ∧ R1 = R)) ∧
      ((IPSendPacket cfg s socket g length).FrameFreeHead = s.FrameFreeHead ∨
        ((IPSendPacket cfg s socket g length).FrameFreeHead = some g ∧ R1 = R)) ∧
      (∀ f, f ≠ g →
        (IPSendPacket cfg s socket g length).frame.socket f = s.frame.socket f ∧
        (IPSendPacket cfg s socket g length).frame.seqEnd f = s.frame.seqEnd f) := by
  obtain ⟨s6, e, hX, _, _, hsock⟩ := IPSendPacket_prepare cfg s socket g length
  have h6 := FrameList_sameButFrame hR hX
  obtain ⟨a1, a2, a3, a4, a5, a6, a7, a8, a9, a10, a11, a12, a13, a14⟩ := hX
  obtain ⟨R1, b1, b2, b3, b4, b5, b6⟩ := IPSendFrame_resend cfg s6 g R h6 hg
    (fun f hf => by rw [a8]; exact hsend f hf)
  rw [e]
  refine ⟨R1, b1, b2, fun h => b3 (a13.trans h), fun h => b4 (hsock.trans h), ?_, ?_, ?_⟩
  · rw [← a8]
    exact b5
  · rw [← a7]
    exact b6
  · intro f hf
    obtain ⟨_, c2, _, c4, _, _⟩ := a4 f hf
    rw [IPSendFrame_frame_socket, IPSendFrame_frame_seqEnd]
    exact ⟨c2, c4⟩

/-- The resend list after `IPFrameReschedule(g)` for a frame `g` that is on no queue. -/
theorem IPFrameReschedule_resend (cfg : IPConfig) (s : IPStack) (g : Nat) (R : List Nat)
    (hR : FrameList s FrameQueue.resend R) (hg : g ∉ R) :
    ∃ R1, FrameList (IPFrameReschedule cfg s g) FrameQueue.resend R1 ∧
      (R1 = R ∨ R1 = g :: R) := by
  obtain ⟨X, hX, _, _, e⟩ := IPFrameReschedule_cases cfg s g
  have h1 := FrameList_sameButFrame hR hX
  rcases e with e | e
  · exact ⟨R, by rw [e]; exact FrameList_free h1 hg, Or.inl rfl⟩
  · exact ⟨g :: R, by rw [e]; exact FrameList_insert g h1 hg, Or.inr rfl⟩

/-- One iteration of the first loop of `IPTick`, in either send mode, for the frame `x` of the
resend list `P ++ x :: R`: the list after it is `P' ++ R` with the frames of `P'` among those
of `P` and `x`, and the head of the send queue is not on it. -/
theorem resendStep_resend (cfg : IPConfig) (s : IPStack) (x : Nat) (P R : List Nat)
    (h : FrameList s FrameQueue.resend (P ++ x :: R))
    (hsend : ∀ a ∈ P ++ x :: R, s.FrameSendHead ≠ some a) :
    ∃ P1, FrameList (resendStep cfg s x) FrameQueue.resend (P1 ++ R) ∧
      (∀ a ∈ P1, a ∈ P ++ [x]) ∧
      (∀ a ∈ P1 ++ R, (resendStep cfg s x).FrameSendHead ≠ some a) := by
  have hnd := FrameList_nodup h
  have hx : x ∉ P ++ R := not_mem_rest hnd
  have h1 : FrameList { s with frame.timeout := upd s.frame.timeout x (s.frame.timeout x - 1) }
      FrameQueue.resend (P ++ x :: R) :=
    FrameList_congr h (fun _ _ => rfl) (fun _ _ => rfl) rfl rfl
  rw [resendStep_eq]
  by_cases ht : s.frame.timeout x - 1 = 0
  · rw [if_pos ht]
    have h2 := FrameList_remove h1
    obtain ⟨R1, b1, b2, _, _, b5, _⟩ := IPSendFrame_resend cfg _ x (P ++ R) h2 hx
      (by
        intro f hf
        rw [FrameRemove_FrameSendHead, if_neg (by simp)]
        exact hsend f (mem_of_mem_append_erase hf))
    rw [FrameRemove_FrameSendHead, if_neg (by simp)] at b5
    rcases b2 with e | e
    · subst e
      refine ⟨P, b1, fun a ha => List.mem_append_left _ ha, fun a ha => ?_⟩
      rcases b5 with e5 | ⟨e5, _⟩
      · rw [e5]
        exact hsend a (mem_of_mem_append_erase ha)
      · rw [e5]
        intro e6
        cases e6
        exact hx ha
    · subst e
      refine ⟨x :: P, b1, ?_, fun a ha => ?_⟩
      · intro a ha
        rcases List.mem_cons.mp ha with e1 | h1
        · rw [e1]
          simp
        · exact List.mem_append_left _ h1
      · rcases b5 with e5 | ⟨_, e5⟩
        · rw [e5]
          refine hsend a ?_
          rcases List.mem_cons.mp ha with e1 | h1
          · rw [e1]
            simp
          · exact mem_of_mem_append_erase h1
        · exact absurd e5 (by simp)
  · rw [if_neg ht]
    refine ⟨P ++ [x], ?_, fun a ha => ha, fun a ha => ?_⟩
    · rw [List.append_assoc]
      exact h1
    · rw [List.append_assoc] at ha
      exact hsend a ha

/-- The first loop of `IPTick`, in either send mode, on the resend list `P ++ R2` from the
first frame of `R2`: it returns, and the resend list after it holds frames of `P ++ R2`, none
of them the head of the send queue. -/
theorem resendLoop_resend (cfg : IPConfig) :
    ∀ (R2 P : List Nat) (fuel : Nat) (s : IPStack),
      FrameList s FrameQueue.resend (P ++ R2) → R2.length ≤ fuel →
      (∀ a ∈ P ++ R2, s.FrameSendHead ≠ some a) →
      resendLoop cfg fuel R2.head? s = some (resendWalk cfg R2 s) ∧
      ∃ P1, FrameList (resendWalk cfg R2 s) FrameQueue.resend P1 ∧
        (∀ a ∈ P1, a ∈ P ++ R2) ∧
        (∀ a ∈ P1, (resendWalk cfg R2 s).FrameSendHead ≠ some a) := by
  intro R2
  induction R2 with
  | nil =>
    intro P fuel s h _ hsend
    exact ⟨resendLoop_none cfg fuel s, P, by simpa using h, by simp, by simpa using hsend⟩
  | cons x R ih =>
    intro P fuel s h hfuel hsend
    obtain ⟨n, rfl⟩ : ∃ n, fuel = n + 1 := ⟨fuel - 1, by simp at hfuel; omega⟩
    have hn : R.length ≤ n := by simp at hfuel; omega
    obtain ⟨P1, c1, c2, c3⟩ := resendStep_resend cfg s x P R h hsend
    rw [List.head?_cons, resendLoop_succ, FrameList_next_head h, resendWalk]
    obtain ⟨e, Q, d1, d2, d3⟩ := ih P1 n (resendStep cfg s x) c1 hn c3
    refine ⟨e, Q, d1, fun a ha => ?_, d3⟩
    rcases List.mem_append.mp (d2 a ha) with h1 | h1
    · have := c2 a h1
      simp at this ⊢
      tauto
    · exact List.mem_append_right _ (List.mem_cons_of_mem _ h1)

/-- The retry of the DHCP DISCOVER in `IPTick`, in either send mode: it leaves alone the
resend list, the sockets, and the socket and `seqEnd` of every frame of the list. -/
theorem IPDhcp_resend (cfg : IPConfig) (s : IPStack) (packet : Nat → Nat) (length : Int)
    (R : List Nat) (hR : FrameList s FrameQueue.resend R)
    (hfree : ∀ f ∈ R, s.FrameFreeHead ≠ some f)
    (hsend : ∀ f ∈ R, s.FrameSendHead ≠ some f) :
    FrameList (IPDhcp cfg s packet length 1) FrameQueue.resend R ∧
    (IPDhcp cfg s packet length 1).socket = s.socket ∧
    (IPDhcp cfg s packet length 1).SocketHead = s.SocketHead ∧
    (∀ f ∈ R, (IPDhcp cfg s packet length 1).FrameSendHead ≠ some f) ∧
    (∀ f ∈ R, (IPDhcp cfg s packet length 1).frame.socket f = s.frame.socket f ∧
      (IPDhcp cfg s packet length 1).frame.seqEnd f = s.frame.seqEnd f) := by
  unfold IPDhcp
  rw [if_pos rfl]
  by_cases hc : s.FrameFreeCount > 0
  · cases hh : s.FrameFreeHead with
    | none =>
      have e : IPFrameGet s 0 = ({ s with FrameFreeCount := s.FrameFreeCount - 1 }, none) := by
        unfold IPFrameGet
        rw [if_pos hc]
        simp only [hh]
      rw [e]
      exact ⟨FrameList_congr hR (fun _ _ => rfl) (fun _ _ => rfl) rfl rfl, rfl, rfl, hsend,
        fun _ _ => ⟨rfl, rfl⟩⟩
    | some g =>
      rw [IPFrameGet_eq hc hh]
      simp only []
      have hg : g ∉ R := fun hm => hfree g hm hh
      obtain ⟨X, hX⟩ : ∃ X : IPStack, X =
          { s with FrameFreeCount := s.FrameFreeCount - 1, FrameFreeHead := s.frame.next g,
                   frame.state := upd s.frame.state g 1,
                   frame.packet :=
                     upd s.frame.packet g (dhcpDiscoverPacket (s.frame.packet g)) } := ⟨_, rfl⟩
      have hRX : FrameList X FrameQueue.resend R := by
        rw [hX]
        exact FrameList_congr hR (fun _ _ => rfl) (fun _ _ => rfl) rfl rfl
      obtain ⟨R1, b1, _, _, b4, b5, _, b7⟩ := IPSendPacket_resend cfg X none g 400 R hRX hg
        (by rw [hX]; exact hsend)
      have e1 := b4 rfl
      subst e1
      rw [← hX]
      refine ⟨FrameList_congr b1 (fun _ _ => rfl) (fun _ _ => rfl) rfl rfl, ?_, ?_,
        fun f hf => ?_, fun f hf => ?_⟩
      · show (IPSendPacket cfg X none g 400).socket = _
        rw [IPSendPacket_socket, hX]
      · show (IPSendPacket cfg X none g 400).SocketHead = _
        rw [IPSendPacket_SocketHead, hX]
      · show (IPSendPacket cfg X none g 400).FrameSendHead ≠ _
        rcases b5 with e5 | ⟨e5, _⟩
        · rw [e5, hX]
          exact hsend f hf
        · rw [e5]
          intro e6
          cases e6
          exact hg hf
      · have hfg : f ≠ g := fun e => hg (e ▸ hf)
        obtain ⟨c1, c2⟩ := b7 f hfg
        refine ⟨c1.trans ?_, c2.trans ?_⟩ <;> rw [hX]
  · rw [IPFrameGet_none s 0 hc]
    exact ⟨hR, rfl, rfl, hsend, fun _ _ => ⟨rfl, rfl⟩⟩

/-- One call of `IPTick`, in either send mode, when no socket has the time 1: it returns, the
resend list after it holds frames of the list before it, which keep their socket and their
`seqEnd`, and the state and `seqReceived` of every socket are as before. -/
theorem IPTick_resend (cfg : IPConfig) (fuel : Nat) (s : IPStack) (R L : List Nat)
    (hR : FrameList s FrameQueue.resend R) (hRf : R.length ≤ fuel)
    (hfree : ∀ f ∈ R, s.FrameFreeHead ≠ some f)
    (hsend : ∀ f ∈ R, s.FrameSendHead ≠ some f)
    (hL : IsChain s.socket.next s.SocketHead L) (hLf : L.length ≤ fuel)
    (htime : ∀ k ∈ L, s.socket.timeout k ≠ 1) :
    ∃ s1 R1, IPTick cfg fuel s = some s1 ∧ FrameList s1 FrameQueue.resend R1 ∧
      (∀ a ∈ R1, a ∈ R) ∧
      (∀ f ∈ R, s1.frame.socket f = s.frame.socket f ∧ s1.frame.seqEnd f = s.frame.seqEnd f) ∧
      s1.socket.state = s.socket.state ∧ s1.socket.seqReceived = s.socket.seqReceived := by
  obtain ⟨D, hD⟩ : ∃ D : IPStack, D =
      (if ({ s with Seconds := (s.Seconds + 1) % 4294967296,
                    DhcpRetrySeconds := s.DhcpRetrySeconds - 1 } : IPStack).DhcpRetrySeconds ≤ 0
        then IPDhcp cfg { s with Seconds := (s.Seconds + 1) % 4294967296,
                                 DhcpRetrySeconds := s.DhcpRetrySeconds - 1 } (fun _ => 0) 400 1
        else { s with Seconds := (s.Seconds + 1) % 4294967296,
                      DhcpRetrySeconds := s.DhcpRetrySeconds - 1 }) := ⟨_, rfl⟩
  have hR0 : FrameList ({ s with Seconds := (s.Seconds + 1) % 4294967296,
                                  DhcpRetrySeconds := s.DhcpRetrySeconds - 1 } : IPStack)
      FrameQueue.resend R :=
    FrameList_congr hR (fun _ _ => rfl) (fun _ _ => rfl) rfl rfl
  have hDf : FrameList D FrameQueue.resend R ∧ D.socket = s.socket ∧
      D.SocketHead = s.SocketHead ∧ (∀ f ∈ R, D.FrameSendHead ≠ some f) ∧
      (∀ f ∈ R, D.frame.socket f = s.frame.socket f ∧ D.frame.seqEnd f = s.frame.seqEnd f) := by
    rw [hD]
    split_ifs
    · exact IPDhcp_resend cfg _ (fun _ => 0) 400 R hR0 hfree hsend
    · exact ⟨hR0, rfl, rfl, hsend, fun _ _ => ⟨rfl, rfl⟩⟩
  obtain ⟨d1, d2, d3, d4, d5⟩ := hDf
  have hDR : FrameList D FrameQueue.resend ([] ++ R) := d1
  obtain ⟨e1, R1, a1, a2, _⟩ := resendLoop_resend cfg R [] fuel D hDR hRf (by simpa using d4)
  have hhead : D.FrameResendHead = R.head? := by
    have := FrameList_head hDR
    rw [lastOr_reverse_eq_head] at this
    exact this
  have hsock : (resendWalk cfg R D).socket = s.socket := by rw [resendWalk_socket, d2]
  obtain ⟨τ, e2, _⟩ := socketLoop_idle cfg fuel L fuel (resendWalk cfg R D).SocketHead
    (resendWalk cfg R D)
    (by
      rw [hsock, resendWalk_SocketHead, d3]
      exact hL) hLf
    (by
      intro k hk
      rw [hsock]
      exact htime k hk)
  have htick : IPTick cfg fuel s = some { resendWalk cfg R D with socket.timeout := τ } := by
    unfold IPTick
    simp only []
    rw [← hD, hhead, e1]
    simp only []
    exact e2
  refine ⟨_, R1, htick, FrameList_congr a1 (fun _ _ => rfl) (fun _ _ => rfl) rfl rfl,
    by simpa using a2, fun f hf => ?_, ?_, ?_⟩
  · obtain ⟨b1, b2⟩ := d5 f hf
    refine ⟨?_, ?_⟩
    · show (resendWalk cfg R D).frame.socket f = _
      rw [resendWalk_frame_socket, b1]
    · show (resendWalk cfg R D).frame.seqEnd f = _
      rw [resendWalk_frame_seqEnd, b2]
  · show (resendWalk cfg R D).socket.state = s.socket.state
    rw [hsock]
  · show (resendWalk cfg R D).socket.seqReceived = s.socket.seqReceived
    rw [hsock]

/-- A list splits at its first element that passes a test, or no element passes it. -/
theorem first_split (test : Nat → Bool) :
    ∀ L : List Nat, (∀ k ∈ L, test k = false) ∨
      ∃ L1 k L2, L = L1 ++ k :: L2 ∧ (∀ j ∈ L1, test j = false) ∧ test k = true := by
  intro L
  induction L with
  | nil => exact Or.inl (fun _ h => by cases h)
  | cons a l ih =>
    cases ha : test a with
    | true => exact Or.inr ⟨[], a, l, rfl, (fun _ h => by cases h), ha⟩
    | false =>
      rcases ih with h | ⟨L1, k, L2, e, h1, h2⟩
      · left
        intro k hk
        rcases List.mem_cons.mp hk with e | hk
        · rw [e]
          exact ha
        · exact h k hk
      · right
        refine ⟨a :: L1, k, L2, by rw [e]; rfl, fun j hj => ?_, h2⟩
        rcases List.mem_cons.mp hj with e1 | hj
        · rw [e1]
          exact ha
        · exact h1 j hj

/-- The search of the socket list returns: no socket, when none passes the test, or the first
socket of the list that passes it. -/
theorem socketFind_cases (s : IPStack) (test : Nat → Bool) (L : List Nat) (fuel : Nat)
    (hL : IsChain s.socket.next s.SocketHead L) (hfuel : L.length ≤ fuel) :
    socketFind s test fuel s.SocketHead = some none ∨
      ∃ k ∈ L, socketFind s test fuel s.SocketHead = some (some k) := by
  rcases first_split test L with h | ⟨L1, k, L2, e, h1, h2⟩
  · exact Or.inl (socketFind_none s test L fuel _ hL hfuel h)
  · subst e
    refine Or.inr ⟨k, by simp, socketFind_some s test k L2 L1 fuel _ hL ?_ h1 h2⟩
    simp at hfuel
    omega

/-- The resend list after `TCPSendPacket(socket, g, length)` for a frame `g` that is on no
queue, and the frames that the call leaves alone. -/
theorem TCPSendPacket_resend (cfg : IPConfig) (s : IPStack) (S g : Nat)
    (length : Int) (R : List Nat)
    (hR : FrameList s FrameQueue.resend R) (hg : g ∉ R)
    (hsend : ∀ f ∈ R, s.FrameSendHead ≠ some f) :
    ∃ R1, FrameList (TCPSendPacket cfg s S g length) FrameQueue.resend R1 ∧
      (R1 = R ∨ R1 = g :: R) ∧
      (∀ f, f ≠ g →
        (TCPSendPacket cfg s S g length).frame.socket f = s.frame.socket f ∧
        (TCPSendPacket cfg s S g length).frame.seqEnd f = s.frame.seqEnd f) := by
  unfold TCPSendPacket
  obtain ⟨R1, b1, b2, _, _, _, _, b7⟩ := IPSendPacket_resend cfg
    { s with frame.packet := upd s.frame.packet g
                               (TCPSendPacket_packet cfg s S (s.frame.packet g)) }
    (some S) g length R (FrameList_congr hR (fun _ _ => rfl) (fun _ _ => rfl) rfl rfl) hg hsend
  exact ⟨R1, b1, b2, b7⟩

/-- The difference `(int)(x - (x + 1))` of two `uint32` values is negative. -/
theorem tickDiff_succ (x : Nat) (hx : x < 4294967296) :
    tickDiff x (toUInt32 ((x : Int) + 1)) < 0 := by
  unfold tickDiff toInt32 toUInt32
  by_cases h : x + 1 = 4294967296
  · have : x = 4294967295 := by omega
    subst this
    decide
  · have e : (((x : Int) + 1) % 4294967296).toNat = x + 1 := by omega
    rw [e]
    omega

/-- The accept branch of `IPProcessTCPPacket`, in either send mode: when the frames of the
resend list are ahead and none of them belongs to the address that `malloc` returns, the
frames of the resend list after it are ahead. -/
theorem tcpAccept_resend (cfg : IPConfig) (s : IPStack) (malloc : Option Nat)
    (packet : Nat → Nat) (length seq listener : Nat) (R : List Nat)
    (hR : FrameList s FrameQueue.resend R) (hinv : ResendAhead s R)
    (hfree : ∀ f ∈ R, s.FrameFreeHead ≠ some f)
    (hsend : ∀ f ∈ R, s.FrameSendHead ≠ some f)
    (hnew : ∀ a ∈ malloc, ∀ F ∈ R, s.frame.socket F ≠ some a) :
    ∃ R1, FrameList (tcpAccept cfg s malloc packet length seq listener) FrameQueue.resend R1 ∧
      ResendAhead (tcpAccept cfg s malloc packet length seq listener) R1 := by
  by_cases hc : s.FrameFreeCount > cfg.FRAME_COUNT_SEND
  · cases hh : s.FrameFreeHead with
    | none =>
      have e : IPFrameGet s cfg.FRAME_COUNT_SEND =
          ({ s with FrameFreeCount := s.FrameFreeCount - 1 }, none) := by
        unfold IPFrameGet
        rw [if_pos hc]
        simp only [hh]
      unfold tcpAccept
      rw [e]
      exact ⟨R, FrameList_congr hR (fun _ _ => rfl) (fun _ _ => rfl) rfl rfl,
        ResendAhead_same hinv (fun _ h => h) (fun _ _ => ⟨Or.inl rfl, rfl⟩) (fun _ h => h) rfl⟩
    | some g =>
      have hg : g ∉ R := fun hm => hfree g hm hh
      cases malloc with
      | none =>
        unfold tcpAccept
        rw [IPFrameGet_eq hc hh]
        exact ⟨R, FrameList_congr hR (fun _ _ => rfl) (fun _ _ => rfl) rfl rfl,
          ResendAhead_same hinv (fun _ h => h) (fun _ _ => ⟨Or.inl rfl, rfl⟩) (fun _ h => h)
            rfl⟩
      | some socketNew =>
        obtain ⟨s11, s12, hs11, hs12, heq⟩ := tcpAccept_eq cfg s socketNew g listener packet
          length seq hc hh
        rw [heq]
        have a_next : s11.frame.next = s.frame.next := by
          rw [hs11]; simp [acceptPacket, acceptSocket]
        have a_prev : s11.frame.prev = s.frame.prev := by
          rw [hs11]; simp [acceptPacket, acceptSocket]
        have a_rh : s11.FrameResendHead = s.FrameResendHead := by
          rw [hs11]; simp [acceptPacket, acceptSocket]
        have a_rt : s11.FrameResendTail = s.FrameResendTail := by
          rw [hs11]; simp [acceptPacket, acceptSocket]
        have a_sh : s11.FrameSendHead = s.FrameSendHead := by
          rw [hs11]; simp [acceptPacket, acceptSocket]
        have a_fs : s11.frame.socket = s.frame.socket := by
          rw [hs11]; simp [acceptPacket, acceptSocket]
        have a_fe : s11.frame.seqEnd = s.frame.seqEnd := by
          rw [hs11]; simp [acceptPacket, acceptSocket]
        have a_flags : s11.frame.packet g TCP_FLAGS = TCP_FLAGS_SYN ||| TCP_FLAGS_ACK := by
          rw [hs11]; simp [acceptPacket, acceptSocket, upd, TCP_FLAGS, TCP_DATA]
        have a_state : s11.socket.state = upd s.socket.state socketNew IP_TCP := by
          rw [hs11]; simp [acceptPacket, acceptSocket, IPSocket.copy]
        have a_seq : s11.socket.seq socketNew = (seq + 0x12345678) % 4294967296 := by
          rw [hs11]; simp [acceptPacket, acceptSocket, IPSocket.copy]
        have a_rcv : s11.socket.seqReceived =
            upd s.socket.seqReceived socketNew ((seq + 0x12345678) % 4294967296) := by
          rw [hs11]; simp [acceptPacket, acceptSocket, IPSocket.copy]
        have hR11 : FrameList s11 FrameQueue.resend R :=
          FrameList_congr hR (fun _ _ => by rw [a_next]) (fun _ _ => by rw [a_prev]) a_rh a_rt
        obtain ⟨R1, b1, b2, b3⟩ := TCPSendPacket_resend cfg s11 socketNew g (TCP_DATA + 4) R
          hR11 hg (fun f hf => by rw [a_sh]; exact hsend f hf)
        rw [← hs12] at b1 b3
        have c_sock : s12.socket = s11.socket := by rw [hs12]; simp
        have c_fs : s12.frame.socket g = some socketNew := by
          rw [hs12, TCPSendPacket_frame_socket, upd_same]
        have c_fe : s12.frame.seqEnd g =
            toUInt32 ((((seq + 0x12345678) % 4294967296 : Nat) : Int) + 1) := by
          rw [hs12]
          unfold TCPSendPacket
          rw [IPSendPacket_frame_seqEnd]
          simp only [upd_same, TCPSendPacket_packet_flags, a_flags]
          rw [if_pos (by decide)]
          show toUInt32 ((s11.socket.seq socketNew : Int) + 1) = _
          rw [a_seq]
        obtain ⟨X, hX⟩ : ∃ X : IPStack, X = socketLink
            { s12 with socket.seq := upd s12.socket.seq socketNew
                                       ((s12.socket.seq socketNew + 1) % 4294967296) }
            socketNew := ⟨_, rfl⟩
        rw [← hX]
        have x_frame : X.frame = s12.frame := by
          rw [hX]; unfold socketLink; simp only []; split <;> rfl
        have x_rh : X.FrameResendHead = s12.FrameResendHead := by
          rw [hX]; unfold socketLink; simp only []; split <;> rfl
        have x_rt : X.FrameResendTail = s12.FrameResendTail := by
          rw [hX]; unfold socketLink; simp only []; split <;> rfl
        have x_state : X.socket.state = upd s.socket.state socketNew IP_TCP := by
          rw [hX, ← a_state, ← c_sock]; unfold socketLink; simp only []; split <;> rfl
        have x_rcv : X.socket.seqReceived =
            upd s.socket.seqReceived socketNew ((seq + 0x12345678) % 4294967296) := by
          rw [hX, ← a_rcv, ← c_sock]; unfold socketLink; simp only []; split <;> rfl
        refine ⟨R1, FrameList_congr b1 (fun _ _ => by rw [x_frame])
          (fun _ _ => by rw [x_frame]) x_rh x_rt, ?_⟩
        intro F hF S hS hst
        rw [x_frame] at hS
        rw [x_frame, x_rcv]
        by_cases hFg : F = g
        · subst hFg
          rw [c_fs] at hS
          cases hS
          rw [c_fe, upd_same]
          exact tickDiff_succ _ (Nat.mod_lt _ (by decide))
        · have hFR : F ∈ R := by
            rcases b2 with e | e
            · rw [e] at hF
              exact hF
            · rw [e] at hF
              rcases List.mem_cons.mp hF with e1 | h1
              · exact absurd e1 hFg
              · exact h1
          obtain ⟨d1, d2⟩ := b3 F hFg
          rw [d1, a_fs] at hS
          have hSn : S ≠ socketNew := fun e => hnew socketNew rfl F hFR (e ▸ hS)
          rw [x_state, upd_ne _ _ hSn] at hst
          rw [d2, a_fe, upd_ne _ _ hSn]
          exact hinv F hFR S hS hst
  · unfold tcpAccept
    rw [IPFrameGet_none s _ hc]
    exact ⟨R, hR, hinv⟩

/-- The first loop of `IPClose2` leaves the socket of a frame alone or takes it away. -/
theorem closeSendLoop_socket (S : Nat) :
    ∀ (fuel : Nat) (p : Option Nat) (s s1 : IPStack), closeSendLoop S fuel p s = some s1 →
      ∀ f, s1.frame.socket f = s.frame.socket f ∨ s1.frame.socket f = none := by
  intro fuel
  induction fuel with
  | zero =>
    intro p s s1 h f
    cases p with
    | none =>
      rw [closeSendLoop_none] at h
      cases h
      exact Or.inl rfl
    | some x =>
      rw [closeSendLoop] at h
      cases h
  | succ n ih =>
    intro p s s1 h f
    cases p with
    | none =>
      rw [closeSendLoop_none] at h
      cases h
      exact Or.inl rfl
    | some x =>
      rw [closeSendLoop] at h
      simp only [] at h
      split_ifs at h
      · rcases ih _ _ _ h f with e | e
        · by_cases hf : f = x
          · right
            rw [e, hf]
            exact upd_same _ _ _
          · left
            rw [e]
            exact upd_ne _ _ hf
        · exact Or.inr e
      · exact ih _ _ _ h f

/-- The fields of the frames and of the resend list are as before after `socketUnlink`, and so
is `seqReceived`. -/
theorem socketUnlink_resend (s : IPStack) (S : Nat) :
    (socketUnlink s S).FrameResendHead = s.FrameResendHead ∧
    (socketUnlink s S).FrameResendTail = s.FrameResendTail ∧
    (socketUnlink s S).socket.seqReceived = s.socket.seqReceived := by
  unfold socketUnlink
  cases hp : s.socket.prev S <;> simp only [] <;> split <;> exact ⟨rfl, rfl, rfl⟩

/-- The function `IPClose2` returns; the resend list after it holds frames of the list before
it, every frame has its socket of before or none and its `seqEnd` of before, and the state and
`seqReceived` of every socket are as before. -/
theorem IPClose2_resend (fuel : Nat) (s : IPStack) (S : Nat) (T R Q : List Nat)
    (hT : FrameList s FrameQueue.send T) (hR : FrameList s FrameQueue.resend R)
    (hQ : FrameList s (FrameQueue.read S) Q) (hQR : ∀ f ∈ Q, f ∉ R)
    (hfT : T.length ≤ fuel) (hfR : R.length ≤ fuel) (hfQ : Q.length ≤ fuel) :
    ∃ s1 R1, IPClose2 fuel s S = some s1 ∧ FrameList s1 FrameQueue.resend R1 ∧
      (∀ a ∈ R1, a ∈ R) ∧
      (∀ f, s1.frame.socket f = s.frame.socket f ∨ s1.frame.socket f = none) ∧
      s1.frame.seqEnd = s.frame.seqEnd ∧ s1.socket.state = s.socket.state ∧
      s1.socket.seqReceived = s.socket.seqReceived := by
  have hheadT : s.FrameSendHead = T.head? := by
    have := FrameList_head hT
    rw [lastOr_reverse_eq_head] at this
    exact this
  have hheadR : s.FrameResendHead = R.head? := by
    have := FrameList_head hR
    rw [lastOr_reverse_eq_head] at this
    exact this
  have h0 : FrameList s FrameQueue.send ([] ++ T) := hT
  obtain ⟨σ, e1⟩ := closeSendLoop_eq S T [] fuel s h0 hfT
  have hσ := closeSendLoop_socket S fuel _ s _ e1
  have hR1 : FrameList { s with frame.socket := σ } FrameQueue.resend R :=
    FrameList_congr hR (fun _ _ => rfl) (fun _ _ => rfl) rfl rfl
  have hQ1 : FrameList { s with frame.socket := σ } (FrameQueue.read S) Q :=
    FrameList_congr hQ (fun _ _ => rfl) (fun _ _ => rfl) rfl rfl
  have e2 : closeResendLoop S fuel R.head? { s with frame.socket := σ } =
      some (removeWalk (fun f => decide (σ f = some S)) FrameQueue.resend R
        { s with frame.socket := σ }) :=
    closeResendLoop_eq S (fun f => decide (σ f = some S)) R [] fuel
      { s with frame.socket := σ } hR1 hfR (fun _ => rfl)
  have hQ2 := removeWalk_other (fun f => decide (σ f = some S)) hR1 hQ1 (by simp) hQR
  have hheadQ : (removeWalk (fun f => decide (σ f = some S)) FrameQueue.resend R
      { s with frame.socket := σ }).socket.frameReadHead S = Q.head? := by
    have := FrameList_head hQ2
    rw [lastOr_reverse_eq_head] at this
    exact this
  have e3 := closeReadLoop_eq S Q fuel _ hQ2 hfQ
  have e : IPClose2 fuel s S = some (socketUnlink (removeWalk (fun _ => true)
      (FrameQueue.read S) Q (removeWalk (fun f => decide (σ f = some S)) FrameQueue.resend R
        { s with frame.socket := σ })) S) := by
    unfold IPClose2
    rw [← hheadT] at e1
    rw [e1]
    simp only []
    have e2' : closeResendLoop S fuel ({ s with frame.socket := σ } : IPStack).FrameResendHead
        { s with frame.socket := σ } = some (removeWalk (fun f => decide (σ f = some S))
          FrameQueue.resend R { s with frame.socket := σ }) := by
      show closeResendLoop S fuel s.FrameResendHead _ = _
      rw [← hheadR] at e2
      exact e2
    rw [e2']
    simp only []
    rw [← hheadQ] at e3
    rw [e3]
  have hR0 : FrameList { s with frame.socket := σ } FrameQueue.resend ([] ++ R) := hR1
  have hR2 := (removeWalk_list (fun f => decide (σ f = some S)) FrameQueue.resend R []
    { s with frame.socket := σ } hR0).1
  rw [List.nil_append] at hR2
  have hR3 := removeWalk_other (fun _ => true) hQ2 hR2 (by simp)
    (fun f hf hq => hQR f hq (List.mem_filter.mp hf).1)
  obtain ⟨u1, u2, u3⟩ := socketUnlink_resend (removeWalk (fun _ => true)
      (FrameQueue.read S) Q (removeWalk (fun f => decide (σ f = some S)) FrameQueue.resend R
        { s with frame.socket := σ })) S
  obtain ⟨_, k2, _, _, _, k6⟩ := socketUnlink_keeps (removeWalk (fun _ => true)
      (FrameQueue.read S) Q (removeWalk (fun f => decide (σ f = some S)) FrameQueue.resend R
        { s with frame.socket := σ })) S
  refine ⟨_, _, e, FrameList_congr hR3 (fun _ _ => by rw [k6]) (fun _ _ => by rw [k6]) u1 u2,
    fun a ha => (List.mem_filter.mp ha).1, fun f => ?_, ?_, ?_, ?_⟩
  · rw [k6]
    simpa using hσ f
  · rw [k6]
    simp
  · rw [k2]
    simp
  · rw [u3]
    simp

/-- The transition of the FIN and the RST branch returns; the resend list after it holds
frames of the list before it, every frame has its socket of before or none and its `seqEnd` of
before, no socket comes to the state `IP_TCP`, and `seqReceived` is as before. -/
theorem tcpFinish_resend (fuel : Nat) (s : IPStack) (S : Nat) (T R Q : List Nat)
    (hT : FrameList s FrameQueue.send T) (hR : FrameList s FrameQueue.resend R)
    (hQ : FrameList s (FrameQueue.read S) Q) (hQR : ∀ f ∈ Q, f ∉ R)
    (hfT : T.length ≤ fuel) (hfR : R.length ≤ fuel) (hfQ : Q.length ≤ fuel) :
    ∃ s1 R1, tcpFinish fuel s S = some s1 ∧ FrameList s1 FrameQueue.resend R1 ∧
      (∀ a ∈ R1, a ∈ R) ∧
      (∀ f, s1.frame.socket f = s.frame.socket f ∨ s1.frame.socket f = none) ∧
      s1.frame.seqEnd = s.frame.seqEnd ∧
      (∀ k, s1.socket.state k = IP_TCP → s.socket.state k = IP_TCP) ∧
      s1.socket.seqReceived = s.socket.seqReceived := by
  unfold tcpFinish
  split_ifs with h
  · obtain ⟨s1, R1, a1, a2, a3, a4, a5, a6, a7⟩ := IPClose2_resend fuel s S T R Q hT hR hQ hQR
      hfT hfR hfQ
    exact ⟨s1, R1, a1, a2, a3, a4, a5, fun k hk => by rw [← a6]; exact hk, a7⟩
  · refine ⟨_, R, rfl, FrameList_notify S
      (FrameList_congr hR (fun _ _ => rfl) (fun _ _ => rfl) rfl rfl), fun _ h => h,
      fun f => Or.inl ?_, ?_, fun k hk => ?_, ?_⟩
    · rw [notify_frame]
    · rw [notify_frame]
    · rw [notify_socket] at hk
      by_cases hkS : k = S
      · subst hkS
        simp at hk
      · simpa [upd_ne _ _ hkS] using hk
    · rw [notify_socket]

/-- The head of a list that `IsChain` describes is on the list. -/
theorem IsChain_head_mem {nx : Nat → Option Nat} {h : Option Nat} {L : List Nat} {a : Nat}
    (hc : IsChain nx h L) (ha : h = some a) : a ∈ L := by
  cases L with
  | nil =>
    rw [IsChain_nil hc] at ha
    cases ha
  | cons b l =>
    rw [IsChain_head hc] at ha
    cases ha
    exact List.mem_cons_self _ _

/-- The last part of `IPProcessTCPPacket` leaves the state of every socket alone. -/
theorem tcpData_state (cfg : IPConfig) (s1 : IPStack) (S frameIn : Nat) (packet : Nat → Nat)
    (seq : Nat) (ip_length : Int) :
    (tcpData cfg s1 S frameIn packet seq ip_length).1.socket.state = s1.socket.state := by
  unfold tcpData
  simp only []
  split_ifs <;> simp

/-- The FIN branch of `IPProcessTCPPacket`, in either send mode: it returns, and when the
frames of the resend list are ahead, the frames of the resend list after it are ahead. -/
theorem IPProcessTCPPacket_fin_resend (cfg : IPConfig) (fuel : Nat) (s : IPStack)
    (malloc : Option Nat) (frameIn S : Nat) (T R Q Fr : List Nat)
    (hfind : socketFind s (tcpMatch s (s.frame.packet frameIn)) fuel s.SocketHead =
      some (some S))
    (hsyn : s.frame.packet frameIn TCP_FLAGS &&& (TCP_FLAGS_SYN ||| TCP_FLAGS_ACK) ≠
      TCP_FLAGS_SYN)
    (hfin : s.frame.packet frameIn TCP_FLAGS &&& TCP_FLAGS_FIN ≠ 0)
    (hT : FrameList s FrameQueue.send T) (hR : FrameList s FrameQueue.resend R)
    (hQ : FrameList s (FrameQueue.read S) Q)
    (hFr : IsChain s.frame.next s.FrameFreeHead Fr)
    (hFrd : ∀ f ∈ Fr, f ∉ R ∧ f ∉ T ∧ f ∉ Q) (hTR : ∀ f ∈ T, f ∉ R)
    (hTQ : ∀ f ∈ T, f ∉ Q) (hQR : ∀ f ∈ Q, f ∉ R)
    (hfT : T.length < fuel) (hfR : R.length ≤ fuel) (hfQ : Q.length ≤ fuel)
    (hinv : ResendAhead s R) :
    ∃ s2 rc R1, IPProcessTCPPacket cfg fuel s malloc frameIn = some (s2, rc) ∧
      FrameList s2 FrameQueue.resend R1 ∧ ResendAhead s2 R1 := by
  by_cases hc : s.FrameFreeCount > 0
  · cases hh : s.FrameFreeHead with
    | none =>
      have hget : IPFrameGet
          { s with socket.timeout := upd s.socket.timeout S cfg.SOCKET_TIMEOUT } 0 =
          ({ s with socket.timeout := upd s.socket.timeout S cfg.SOCKET_TIMEOUT,
                    FrameFreeCount := s.FrameFreeCount - 1 }, none) := by
        unfold IPFrameGet
        rw [if_pos hc]
        simp only [hh]
      refine ⟨{ s with socket.timeout := upd s.socket.timeout S cfg.SOCKET_TIMEOUT,
                       FrameFreeCount := s.FrameFreeCount - 1 }, 0, R, ?_,
        FrameList_congr hR (fun _ _ => rfl) (fun _ _ => rfl) rfl rfl,
        ResendAhead_same hinv (fun _ h => h) (fun _ _ => ⟨Or.inl rfl, rfl⟩) (fun _ h => h) rfl⟩
      unfold IPProcessTCPPacket
      simp only [hsyn, if_false, hfind, hfin, ne_eq, not_false_eq_true, if_true, hget]
    | some g =>
      have hgF : g ∈ Fr := IsChain_head_mem hFr hh
      obtain ⟨hgR, hgT, hgQ⟩ := hFrd g hgF
      have hget : IPFrameGet
          { s with socket.timeout := upd s.socket.timeout S cfg.SOCKET_TIMEOUT } 0 =
          ({ s with socket.timeout := upd s.socket.timeout S cfg.SOCKET_TIMEOUT,
                    FrameFreeCount := s.FrameFreeCount - 1, FrameFreeHead := s.frame.next g,
                    frame.state := upd s.frame.state g 1 }, some g) :=
        IPFrameGet_eq (s := { s with socket.timeout := upd s.socket.timeout S cfg.SOCKET_TIMEOUT })
          hc hh
      obtain ⟨s4, hs4⟩ : ∃ s4 : IPStack, s4 =
          { s with socket.timeout := upd s.socket.timeout S cfg.SOCKET_TIMEOUT,
                   socket.ack := upd s.socket.ack S ((s.socket.ack S + 1) % 4294967296),
                   FrameFreeCount := s.FrameFreeCount - 1, FrameFreeHead := s.frame.next g,
                   frame.state := upd s.frame.state g 1,
                   frame.packet := upd s.frame.packet g
                     (upd (s.frame.packet g) TCP_FLAGS TCP_FLAGS_ACK) } := ⟨_, rfl⟩
      have hflags4 : s4.frame.packet g TCP_FLAGS = TCP_FLAGS_ACK := by
        rw [hs4]
        simp
      have hT4 : FrameList s4 FrameQueue.send T := by
        rw [hs4]
        exact FrameList_congr hT (fun _ _ => rfl) (fun _ _ => rfl) rfl rfl
      have hR4 : FrameList s4 FrameQueue.resend R := by
        rw [hs4]
        exact FrameList_congr hR (fun _ _ => rfl) (fun _ _ => rfl) rfl rfl
      have hQ4 : FrameList s4 (FrameQueue.read S) Q := by
        rw [hs4]
        exact FrameList_congr hQ (fun _ _ => rfl) (fun _ _ => rfl) rfl rfl
      have hsend4 : ∀ L : List Nat, (∀ f ∈ T, f ∉ L) → ∀ f ∈ L, s4.FrameSendHead ≠ some f := by
        intro L hd f hf hh
        exact hd f (FrameList_head_mem hT4 hh) hf
      have hT5 := TCPSendPacket_ack_send cfg s4 S g hflags4 hT4 hgT
      have hR5 := TCPSendPacket_ack_FrameList cfg s4 S g hflags4 hR4 (by simp) hgR
        (hsend4 R hTR)
      have hQ5 := TCPSendPacket_ack_FrameList cfg s4 S g hflags4 hQ4 (by simp) hgQ
        (hsend4 Q hTQ)
      have hsock5 : (TCPSendPacket cfg s4 S g TCP_DATA).socket = s4.socket := by simp
      have hlen5 : (if s4.FrameSendFunc = none then g :: T else T).length ≤ fuel := by
        split_ifs
        · simp
          omega
        · omega
      obtain ⟨s2, R1, b1, b2, b3, b4, b5, b6, b7⟩ := tcpFinish_resend fuel
        (TCPSendPacket cfg s4 S g TCP_DATA) S _ R Q hT5 hR5 hQ5 hQR hlen5 hfR hfQ
      refine ⟨s2, 0, R1, ?_, b2, ?_⟩
      · unfold IPProcessTCPPacket
        simp only [hsyn, if_false, hfind, hfin, ne_eq, not_false_eq_true, if_true, hget]
        rw [hs4] at b1
        rw [b1]
      · refine ResendAhead_same hinv b3 (fun F hF => ?_) (fun k hk => ?_) ?_
        · have hFg : F ≠ g := fun e => hgR (e ▸ b3 F hF)
          obtain ⟨c1, c2, _⟩ := TCPSendPacket_ack_frame cfg s4 S g hflags4 F hFg
          have d1 : s4.frame.socket F = s.frame.socket F := by rw [hs4]
          have d2 : s4.frame.seqEnd F = s.frame.seqEnd F := by rw [hs4]
          refine ⟨?_, ?_⟩
          · rcases b4 F with e | e
            · exact Or.inl (e.trans (c1.trans d1))
            · exact Or.inr e
          · rw [b5]
            exact c2.trans d2
        · have := b6 k hk
          rw [hsock5, hs4] at this
          exact this
        · rw [b7, hsock5, hs4]
  · have hget : IPFrameGet
        { s with socket.timeout := upd s.socket.timeout S cfg.SOCKET_TIMEOUT } 0 =
        ({ s with socket.timeout := upd s.socket.timeout S cfg.SOCKET_TIMEOUT }, none) :=
      IPFrameGet_none _ 0 hc
    refine ⟨{ s with socket.timeout := upd s.socket.timeout S cfg.SOCKET_TIMEOUT }, 0, R, ?_,
      FrameList_congr hR (fun _ _ => rfl) (fun _ _ => rfl) rfl rfl,
      ResendAhead_same hinv (fun _ h => h) (fun _ _ => ⟨Or.inl rfl, rfl⟩) (fun _ h => h) rfl⟩
    unfold IPProcessTCPPacket
    simp only [hsyn, if_false, hfind, hfin, ne_eq, not_false_eq_true, if_true, hget]

/-- The RST branch of `IPProcessTCPPacket`: it returns, and when the frames of the resend list
are ahead, the frames of the resend list after it are ahead. -/
theorem IPProcessTCPPacket_rst_resend (cfg : IPConfig) (fuel : Nat) (s : IPStack)
    (malloc : Option Nat) (frameIn S : Nat) (T R Q : List Nat)
    (hfind : socketFind s (tcpMatch s (s.frame.packet frameIn)) fuel s.SocketHead =
      some (some S))
    (hsyn : s.frame.packet frameIn TCP_FLAGS &&& (TCP_FLAGS_SYN ||| TCP_FLAGS_ACK) ≠
      TCP_FLAGS_SYN)
    (hfin : s.frame.packet frameIn TCP_FLAGS &&& TCP_FLAGS_FIN = 0)
    (hrst : s.frame.packet frameIn TCP_FLAGS &&& TCP_FLAGS_RST ≠ 0)
    (hT : FrameList s FrameQueue.send T) (hR : FrameList s FrameQueue.resend R)
    (hQ : FrameList s (FrameQueue.read S) Q) (hQR : ∀ f ∈ Q, f ∉ R)
    (hfT : T.length ≤ fuel) (hfR : R.length ≤ fuel) (hfQ : Q.length ≤ fuel)
    (hinv : ResendAhead s R) :
    ∃ s2 rc R1, IPProcessTCPPacket cfg fuel s malloc frameIn = some (s2, rc) ∧
      FrameList s2 FrameQueue.resend R1 ∧ ResendAhead s2 R1 := by
  obtain ⟨s2, R1, b1, b2, b3, b4, b5, b6, b7⟩ := tcpFinish_resend fuel s S T R Q hT hR hQ hQR
    hfT hfR hfQ
  refine ⟨s2, 0, R1, ?_, b2, ResendAhead_same hinv b3 (fun F _ => ⟨b4 F, by rw [b5]⟩) b6 b7⟩
  unfold IPProcessTCPPacket
  simp only [hsyn, if_false, hfind, hfin, hrst, ne_eq, not_true_eq_false, not_false_eq_true,
    if_true, b1]

/-- A segment without FIN and RST that is not a SYN without ACK, in either send mode, whatever
its acknowledgement number: `IPProcessTCPPacket` returns, and when the frames of the resend
list are ahead, the frames of the resend list after it are ahead. -/
theorem IPProcessTCPPacket_segment_resend (cfg : IPConfig) (fuel : Nat) (s : IPStack)
    (malloc : Option Nat) (frameIn S : Nat) (R Fr : List Nat)
    (hfind : socketFind s (tcpMatch s (s.frame.packet frameIn)) fuel s.SocketHead =
      some (some S))
    (hsyn : s.frame.packet frameIn TCP_FLAGS &&& (TCP_FLAGS_SYN ||| TCP_FLAGS_ACK) ≠
      TCP_FLAGS_SYN)
    (hfin : s.frame.packet frameIn TCP_FLAGS &&& TCP_FLAGS_FIN = 0)
    (hrst : s.frame.packet frameIn TCP_FLAGS &&& TCP_FLAGS_RST = 0)
    (hR : FrameList s FrameQueue.resend R) (hfR : R.length ≤ fuel)
    (hFr : IsChain s.frame.next s.FrameFreeHead Fr) (hdis : ∀ f ∈ Fr, f ∉ R)
    (hin : frameIn ∉ R) (hsend : ∀ f ∈ R, s.FrameSendHead ≠ some f)
    (hread : ∀ f ∈ R, s.socket.frameReadHead S ≠ some f)
    (hinv : ResendAhead s R) :
    ∃ s2 rc R1, IPProcessTCPPacket cfg fuel s malloc frameIn = some (s2, rc) ∧
      FrameList s2 FrameQueue.resend R1 ∧ ResendAhead s2 R1 := by
  have hseg : IPProcessTCPPacket cfg fuel s malloc frameIn =
      (tcpAcknowledge cfg fuel s S (load32 (s.frame.packet frameIn) TCP_ACK)).map
        (fun s1 => tcpData cfg s1 S frameIn (s.frame.packet frameIn)
          (load32 (s.frame.packet frameIn) TCP_SEQ)
          (((s.frame.packet frameIn IP_LENGTH <<< 8) |||
            s.frame.packet frameIn (IP_LENGTH + 1) : Nat) : Int)) := by
    unfold IPProcessTCPPacket
    simp only [hsyn, if_false, hfind, hfin, hrst, ne_eq, not_true_eq_false]
    cases tcpAcknowledge cfg fuel s S (load32 (s.frame.packet frameIn) TCP_ACK) <;> rfl
  -- the state after the block of the acknowledgement
  have key : ∃ s1 R1, tcpAcknowledge cfg fuel s S (load32 (s.frame.packet frameIn) TCP_ACK) =
      some s1 ∧ FrameList s1 FrameQueue.resend R1 ∧ (∀ f ∈ R1, f ∈ R) ∧
      ResendAhead s1 R1 ∧ (∀ f ∈ R1, s1.FrameFreeHead ≠ some f) ∧
      s1.FrameSendHead = s.FrameSendHead ∧
      s1.socket.frameReadHead = s.socket.frameReadHead := by
    by_cases hack : load32 (s.frame.packet frameIn) TCP_ACK = s.socket.seqReceived S
    · refine ⟨s, R, ?_, hR, fun _ h => h, hinv, ?_, rfl, rfl⟩
      · unfold tcpAcknowledge
        rw [if_neg (by simpa using hack)]
      · intro f hf hh
        exact hdis f (IsChain_head_mem hFr hh) hf
    · obtain ⟨s1, t, e1, f1, f2, f3, f4, f5, f6, f7, f8, f9, f10, f11, f12, f13⟩ :=
        tcpAcknowledge_eq cfg fuel s S _ R hack hR hfR
      have h0 : FrameList s FrameQueue.resend ([] ++ R) := hR
      obtain ⟨a1, a2, a3, a4, a5, a6⟩ := removeWalk_spec
        (acknowledged s S (load32 (s.frame.packet frameIn) TCP_ACK)) FrameQueue.resend R [] Fr s
        h0 hFr hdis
      rw [List.nil_append] at a1
      have hR1 : FrameList s1 FrameQueue.resend
          (R.filter (fun f => !acknowledged s S (load32 (s.frame.packet frameIn) TCP_ACK) f)) :=
        FrameList_congr a1 (fun _ _ => by rw [f1]) (fun _ _ => by rw [f1]) f5 f6
      have hfree1 : IsChain s1.frame.next s1.FrameFreeHead
          ((R.filter (acknowledged s S (load32 (s.frame.packet frameIn) TCP_ACK))).reverse ++
            Fr) := by
        rw [f1, f3]
        exact a2
      have hsub : ∀ f ∈ R.filter
          (fun f => !acknowledged s S (load32 (s.frame.packet frameIn) TCP_ACK) f), f ∈ R ∧
            acknowledged s S (load32 (s.frame.packet frameIn) TCP_ACK) f = false := by
        intro f hf
        have := List.mem_filter.mp hf
        exact ⟨this.1, by simpa using this.2⟩
      refine ⟨s1, _, e1, hR1, fun f hf => (hsub f hf).1, ?_, ?_, f7, ?_⟩
      · intro F hF k hk hst
        have c1 : s1.frame.socket F = s.frame.socket F := by rw [f1]; simp
        have c2 : s1.frame.seqEnd F = s.frame.seqEnd F := by rw [f1]; simp
        rw [c1] at hk
        rw [c2, f2]
        have hst2 : s.socket.state k = IP_TCP := by
          rw [f2] at hst
          exact hst
        show tickDiff (upd s.socket.seqReceived S _ k) _ < 0
        by_cases hkS : k = S
        · subst hkS
          rw [upd_same]
          have := (hsub F hF).2
          unfold acknowledged at this
          have h2 := of_decide_eq_false this
          by_contra hge
          exact h2 ⟨hk, by omega⟩
        · rw [upd_ne _ _ hkS]
          exact hinv F (hsub F hF).1 k hk hst2
      · intro f hf hh
        have hm := IsChain_head_mem hfree1 hh
        rcases List.mem_append.mp hm with h1 | h1
        · have := (List.mem_filter.mp (List.mem_reverse.mp h1)).2
          rw [(hsub f hf).2] at this
          cases this
        · exact hdis f h1 (hsub f hf).1
      · rw [f2]
  obtain ⟨s1, R1, e1, hR1, hsub, hinv1, hfree1, hs1, hr1⟩ := key
  have hk := tcpData_keeps cfg s1 S frameIn (s.frame.packet frameIn)
    (load32 (s.frame.packet frameIn) TCP_SEQ)
    (((s.frame.packet frameIn IP_LENGTH <<< 8) |||
      s.frame.packet frameIn (IP_LENGTH + 1) : Nat) : Int) hR1 (by simp) (by simp)
    (fun hm => hin (hsub _ hm)) hfree1
    (fun f hf => by rw [hs1]; exact hsend f (hsub f hf))
    (fun f hf => by rw [hr1]; exact hread f (hsub f hf))
  have hst := tcpData_state cfg s1 S frameIn (s.frame.packet frameIn)
    (load32 (s.frame.packet frameIn) TCP_SEQ)
    (((s.frame.packet frameIn IP_LENGTH <<< 8) |||
      s.frame.packet frameIn (IP_LENGTH + 1) : Nat) : Int)
  obtain ⟨D, hD⟩ : ∃ D, D = tcpData cfg s1 S frameIn (s.frame.packet frameIn)
    (load32 (s.frame.packet frameIn) TCP_SEQ)
    (((s.frame.packet frameIn IP_LENGTH <<< 8) |||
      s.frame.packet frameIn (IP_LENGTH + 1) : Nat) : Int) := ⟨_, rfl⟩
  rw [← hD] at hk hst
  refine ⟨D.1, D.2, R1, ?_, hk.1, ?_⟩
  · rw [hseg, e1, hD]
    rfl
  · refine ResendAhead_same hinv1 (fun _ h => h) (fun F hF => ?_) (fun k hk2 => ?_) hk.2.2
    · obtain ⟨b1, b2⟩ := hk.2.1 F hF
      exact ⟨Or.inl b1, b2⟩
    · rw [hst] at hk2
      exact hk2

/-- The function `IPProcessTCPPacket`, in either send mode and for every frame that is not on
the resend list: it returns, and when the frames of the resend list are ahead and none of them
belongs to the address that `malloc` returns, the frames of the resend list after it are
ahead. -/
theorem IPProcessTCPPacket_resend (cfg : IPConfig) (fuel : Nat) (s : IPStack)
    (malloc : Option Nat) (frameIn : Nat) (R T Fr L : List Nat) (Qof : Nat → List Nat)
    (hwf : QueuesWellFormed s fuel R T Fr L Qof) (hinv : ResendAhead s R)
    (hin : frameIn ∉ R) (hnew : ∀ a ∈ malloc, ∀ F ∈ R, s.frame.socket F ≠ some a) :
    ∃ s2 rc R1, IPProcessTCPPacket cfg fuel s malloc frameIn = some (s2, rc) ∧
      FrameList s2 FrameQueue.resend R1 ∧ ResendAhead s2 R1 := by
  obtain ⟨hR, hT, hFr, hL, hfR, hfT, hfL, hFrd, hTR, hQ⟩ := hwf
  have hfree : ∀ f ∈ R, s.FrameFreeHead ≠ some f :=
    fun f hf hh => (hFrd f (IsChain_head_mem hFr hh)).1 hf
  have hsend : ∀ f ∈ R, s.FrameSendHead ≠ some f :=
    fun f hf hh => hTR f (FrameList_head_mem hT hh) hf
  by_cases hsyn : s.frame.packet frameIn TCP_FLAGS &&& (TCP_FLAGS_SYN ||| TCP_FLAGS_ACK) =
      TCP_FLAGS_SYN
  · rcases socketFind_cases s (duplicateMatch s (s.frame.packet frameIn)) L fuel hL hfL with
      e | ⟨k, _, e⟩
    · rcases socketFind_cases s (listenMatch s (s.frame.packet frameIn)) L fuel hL hfL with
        e2 | ⟨k, _, e2⟩
      · refine ⟨s, 0, R, ?_, hR, hinv⟩
        unfold IPProcessTCPPacket
        simp only [hsyn, if_true, e, e2]
      · obtain ⟨R1, b1, b2⟩ := tcpAccept_resend cfg s malloc (s.frame.packet frameIn)
          (s.frame.length frameIn) (load32 (s.frame.packet frameIn) TCP_SEQ) k R hR hinv hfree
          hsend hnew
        refine ⟨_, 0, R1, ?_, b1, b2⟩
        unfold IPProcessTCPPacket
        simp only [hsyn, if_true, e, e2]
    · refine ⟨s, 0, R, ?_, hR, hinv⟩
      unfold IPProcessTCPPacket
      simp only [hsyn, if_true, e]
  · rcases socketFind_cases s (tcpMatch s (s.frame.packet frameIn)) L fuel hL hfL with
      e | ⟨S, hS, e⟩
    · refine ⟨s, 0, R, ?_, hR, hinv⟩
      unfold IPProcessTCPPacket
      simp only [hsyn, if_false, e]
    · obtain ⟨hQS, hfQ, hQd⟩ := hQ S hS
      by_cases hfin : s.frame.packet frameIn TCP_FLAGS &&& TCP_FLAGS_FIN = 0
      · by_cases hrst : s.frame.packet frameIn TCP_FLAGS &&& TCP_FLAGS_RST = 0
        · exact IPProcessTCPPacket_segment_resend cfg fuel s malloc frameIn S R Fr e hsyn hfin
            hrst hR hfR hFr (fun f hf => (hFrd f hf).1) hin hsend
            (fun f hf hh => (hQd f (FrameList_head_mem hQS hh)).1 hf) hinv
        · exact IPProcessTCPPacket_rst_resend cfg fuel s malloc frameIn S T R (Qof S) e hsyn
            hfin hrst hT hR hQS (fun f hf => (hQd f hf).1) (Nat.le_of_lt hfT) hfR hfQ hinv
      · exact IPProcessTCPPacket_fin_resend cfg fuel s malloc frameIn S T R (Qof S) Fr e hsyn
          hfin hT hR hQS hFr
          (fun f hf => ⟨(hFrd f hf).1, (hFrd f hf).2, fun hq => (hQd f hq).2.2 hf⟩) hTR
          (fun f hf hq => (hQd f hq).2.1 hf) (fun f hf => (hQd f hf).1) hfT hfR hfQ hinv

/-- A frame is ahead in two states in which it has the same socket and `seqEnd` and the sockets
are the same. -/
theorem frameAhead_congr {s s1 : IPStack} {F : Nat}
    (h1 : s1.frame.socket F = s.frame.socket F) (h2 : s1.frame.seqEnd F = s.frame.seqEnd F)
    (h3 : s1.socket = s.socket) : frameAhead s1 F ↔ frameAhead s F := by
  unfold frameAhead
  rw [h1, h2, h3]

/-- C37, counterexample: in `establishedStack`, a state that `IPProcessTCPPacket` reaches from
the start by accepting a connection, the resend list holds the frame 106 (the SYN+ACK of the
socket 11), which is ahead.  The peer then acknowledges 100 bytes more than the socket has
sent, `IPProcessTCPPacket` stores that number in `seqReceived`, and the application writes
three bytes, which `IPWriteFlush` sends through `IPSendPacket`: the socket 11 is in the state
`IP_TCP`, the frame 107 of the socket is on the resend list, and its `seqEnd` `0x12345a64` is
97 before `seqReceived` `0x12345ac5`. -/
theorem C37_over_acknowledged :
    FrameList establishedStack FrameQueue.resend [106] ∧ ResendAhead establishedStack [106] ∧
    (IPProcessTCPPacket smallConfig 8 overAck none 107).map (fun r => r.2) = some 0 ∧
    (IPWrite smallConfig 8 overAcked 11 (fun _ => 0x41) 3).map (fun r => r.2) = some 3 ∧
    overSent.socket.state 11 = IP_TCP ∧ FrameList overSent FrameQueue.resend [107] ∧
    overSent.frame.socket 107 = some 11 ∧ overSent.frame.seqEnd 107 = 0x12345a64 ∧
    overSent.socket.seqReceived 11 = 0x12345ac5 ∧
    tickDiff (overSent.frame.seqEnd 107) (overSent.socket.seqReceived 11) = -97 ∧
    tickDiff (overSent.socket.seqReceived 11) (overSent.frame.seqEnd 107) = 97 ∧
    ¬ ResendAhead overSent [107] := by
  decide

/-- C37 (amended): the stack has well-formed queues and every frame `F` of the resend list is
ahead, which is to say that for the socket `S` of `F`, if `S` is in the state `IP_TCP`, then
`(int)(S.seqReceived - F.seqEnd) < 0`.  Then, in either send mode:
`IPSendPacket` for a frame `g` that is not on the resend list leaves the list as it was or puts
`g` at its head (with the send queue in use it leaves the list as it was), and the frames of
the list are ahead after it exactly when `g`, if it is on the list, is ahead;
`IPFrameReschedule(g)` does the same;
`IPProcessTCPPacket` returns for every frame that is not on the resend list, whatever the
acknowledgement number, and the frames of the resend list are ahead after it, when no frame of
the list belongs to the address that `malloc` returns;
`IPTick` returns when no socket has a time that runs out, the resend list after it holds
frames of the list before it, and they are ahead. -/
theorem C37_resend_list_ahead (cfg : IPConfig) (fuel : Nat) (s : IPStack)
    (R T Fr L : List Nat) (Qof : Nat → List Nat) (g frameIn : Nat) (socket malloc : Option Nat)
    (length : Int)
    (hwf : QueuesWellFormed s fuel R T Fr L Qof) (hinv : ResendAhead s R)
    (hg : g ∉ R) (hin : frameIn ∉ R)
    (hnew : ∀ a ∈ malloc, ∀ F ∈ R, s.frame.socket F ≠ some a) :
    (∃ R1, FrameList (IPSendPacket cfg s socket g length) FrameQueue.resend R1 ∧
      (R1 = R ∨ R1 = g :: R) ∧ (s.FrameSendFunc = none → R1 = R) ∧
      (ResendAhead (IPSendPacket cfg s socket g length) R1 ↔
        (g ∈ R1 → frameAhead (IPSendPacket cfg s socket g length) g))) ∧
    (∃ R1, FrameList (IPFrameReschedule cfg s g) FrameQueue.resend R1 ∧
      (R1 = R ∨ R1 = g :: R) ∧
      (ResendAhead (IPFrameReschedule cfg s g) R1 ↔ (g ∈ R1 → frameAhead s g))) ∧
    (∃ s1 rc R1, IPProcessTCPPacket cfg fuel s malloc frameIn = some (s1, rc) ∧
      FrameList s1 FrameQueue.resend R1 ∧ ResendAhead s1 R1) ∧
    ((∀ k ∈ L, s.socket.timeout k ≠ 1) →
      ∃ s1 R1, IPTick cfg fuel s = some s1 ∧ FrameList s1 FrameQueue.resend R1 ∧
        (∀ F ∈ R1, F ∈ R) ∧ ResendAhead s1 R1) := by
  have hwf0 := hwf
  obtain ⟨hR, hT, hFr, hL, hfR, hfT, hfL, hFrd, hTR, hQ⟩ := hwf0
  have hfree : ∀ f ∈ R, s.FrameFreeHead ≠ some f :=
    fun f hf hh => (hFrd f (IsChain_head_mem hFr hh)).1 hf
  have hsend : ∀ f ∈ R, s.FrameSendHead ≠ some f :=
    fun f hf hh => hTR f (FrameList_head_mem hT hh) hf
  have hmem : ∀ R1 : List Nat, (R1 = R ∨ R1 = g :: R) → ∀ F ∈ R1, F ≠ g → F ∈ R := by
    intro R1 h F hF hFg
    rcases h with e | e
    · rw [e] at hF
      exact hF
    · rw [e] at hF
      rcases List.mem_cons.mp hF with e1 | h1
      · exact absurd e1 hFg
      · exact h1
  refine ⟨?_, ?_, IPProcessTCPPacket_resend cfg fuel s malloc frameIn R T Fr L Qof hwf hinv hin
    hnew, ?_⟩
  · obtain ⟨R1, b1, b2, b3, _, _, _, b7⟩ := IPSendPacket_resend cfg s socket g length R hR hg
      hsend
    refine ⟨R1, b1, b2, b3, fun h hg1 => h g hg1, fun hgA F hF => ?_⟩
    by_cases hFg : F = g
    · subst hFg
      exact hgA hF
    · have hFR := hmem R1 b2 F hF hFg
      exact (frameAhead_congr (b7 F hFg).1 (b7 F hFg).2 (by simp)).mpr (hinv F hFR)
  · obtain ⟨R1, b1, b2⟩ := IPFrameReschedule_resend cfg s g R hR hg
    have hc : ∀ F, frameAhead (IPFrameReschedule cfg s g) F ↔ frameAhead s F :=
      fun F => frameAhead_congr (by simp) (by simp) (by simp)
    refine ⟨R1, b1, b2, fun h hg1 => (hc g).mp (h g hg1), fun hgA F hF => ?_⟩
    rw [hc]
    by_cases hFg : F = g
    · subst hFg
      exact hgA hF
    · exact hinv F (hmem R1 b2 F hF hFg)
  · intro htime
    obtain ⟨s1, R1, a1, a2, a3, a4, a5, a6⟩ := IPTick_resend cfg fuel s R L hR hfR hfree hsend
      hL hfL htime
    refine ⟨s1, R1, a1, a2, a3, ResendAhead_same hinv a3 (fun F hF => ?_) (fun k hk => ?_) a6⟩
    · obtain ⟨c1, c2⟩ := a4 F (a3 F hF)
      exact ⟨Or.inl c1, c2⟩
    · rw [a5] at hk
      exact hk

theorem C37_resend_list_ahead_witness :
    (∃ R1, FrameList (IPSendPacket smallConfig dataScenario (some 11) 107 (TCP_DATA + 3))
        FrameQueue.resend R1 ∧
      (R1 = [106] ∨ R1 = 107 :: [106]) ∧ (dataScenario.FrameSendFunc = none → R1 = [106]) ∧
      (ResendAhead (IPSendPacket smallConfig dataScenario (some 11) 107 (TCP_DATA + 3)) R1 ↔
        (107 ∈ R1 →
          frameAhead (IPSendPacket smallConfig dataScenario (some 11) 107 (TCP_DATA + 3))
            107))) ∧
    (∃ R1, FrameList (IPFrameReschedule smallConfig dataScenario 107) FrameQueue.resend R1 ∧
      (R1 = [106] ∨ R1 = 107 :: [106]) ∧
      (ResendAhead (IPFrameReschedule smallConfig dataScenario 107) R1 ↔
        (107 ∈ R1 → frameAhead dataScenario 107))) ∧
    (∃ s1 rc R1, IPProcessTCPPacket smallConfig 8 dataScenario (some 12) 107 = some (s1, rc) ∧
      FrameList s1 FrameQueue.resend R1 ∧ ResendAhead s1 R1) ∧
    (∃ s1 R1, IPTick smallConfig 8 dataScenario = some s1 ∧
      FrameList s1 FrameQueue.resend R1 ∧ (∀ F ∈ R1, F ∈ [106]) ∧ ResendAhead s1 R1) :=
  have h := C37_resend_list_ahead smallConfig 8 dataScenario [106] []
    [105, 104, 103, 102, 101, 100] [11, 10] (fun _ => []) 107 107 (some 11) (some 12)
    (TCP_DATA + 3) (by decide) (by decide) (by decide) (by decide) (by decide)
  ⟨h.1, h.2.1, h.2.2.1, h.2.2.2 (by decide)⟩

/-! ## C40: the heap -/

/-- The number of units of a request of `Bytes` bytes, `0 <= Bytes < 2^31`. -/
theorem heapUnits_eq (Bytes : Int) (h0 : 0 ≤ Bytes) (h1 : Bytes < 2147483648) :
    heapUnits Bytes = (Bytes + 7) / 8 + 1 := by
  unfold heapUnits toInt32 toUInt32 sizeofHeapNode
  have e1 : ((Bytes % 4294967296).toNat : Int) = Bytes := by omega
  have e2 : ((((((Bytes % 4294967296).toNat : Int) + (8 : Nat)) % 4294967296).toNat : Int) - 1)
      % 4294967296 = Bytes + 7 := by
    rw [e1]
    omega
  rw [e2]
  have e3 : (((Bytes + 7).toNat / 8 + 1 : Nat) : Int) = (Bytes + 7) / 8 + 1 := by
    have : ((Bytes + 7).toNat : Int) = Bytes + 7 := by omega
    push_cast
    rw [this]
  rw [e3]
  omega

/-- The number of units is `ceil(Bytes / 8) + 1`. -/
theorem heapUnits_ceil (Bytes : Int) (h0 : 0 ≤ Bytes) (h1 : Bytes < 2147483648) :
    heapUnits Bytes = ⌈(Bytes : ℚ) / 8⌉ + 1 := by
  rw [heapUnits_eq Bytes h0 h1]
  congr 1
  symm
  rw [Int.ceil_eq_iff]
  have a1 : 8 * ((Bytes + 7) / 8) ≤ Bytes + 7 := by omega
  have a2 : Bytes < 8 * ((Bytes + 7) / 8) + 1 := by omega
  have b1 : (8 * (((Bytes + 7) / 8 : Int) : ℚ)) ≤ (Bytes : ℚ) + 7 := by exact_mod_cast a1
  have b2 : (Bytes : ℚ) < 8 * (((Bytes + 7) / 8 : Int) : ℚ) + 1 := by exact_mod_cast a2
  constructor
  · rw [lt_div_iff₀ (by norm_num)]
    linarith
  · rw [div_le_iff₀ (by norm_num)]
    have a3 : Bytes ≤ 8 * ((Bytes + 7) / 8) := by omega
    have b3 : (Bytes : ℚ) ≤ 8 * (((Bytes + 7) / 8 : Int) : ℚ) := by exact_mod_cast a3
    linarith

/-- The pointer `node + n` when the sum is an address. -/
theorem nodeAdd_eq (node : Nat) (n : Int) (h0 : 0 ≤ (node : Int) + 8 * n)
    (h1 : (node : Int) + 8 * n < 4294967296) : ((nodeAdd node n : Nat) : Int) = node + 8 * n := by
  unfold nodeAdd toUInt32 sizeofHeapNode
  omega

theorem pathEnd_append (X Y : List Nat) : ∀ p, pathEnd p (X ++ Y) = pathEnd (pathEnd p X) Y := by
  induction X with
  | nil => intro p; rfl
  | cons x l ih => intro p; exact ih x

theorem pathEnd_mem (W : List Nat) : ∀ p, pathEnd p W ∈ p :: W := by
  induction W with
  | nil => intro p; simp [pathEnd]
  | cons w l ih =>
    intro p
    exact List.mem_cons_of_mem _ (ih w)

theorem HeapPath_append (m : HeapMemory) (X Y : List Nat) :
    ∀ p, HeapPath m p (X ++ Y) ↔ HeapPath m p X ∧ HeapPath m (pathEnd p X) Y := by
  induction X with
  | nil => intro p; simp [HeapPath, pathEnd]
  | cons x l ih =>
    intro p
    show (m.next p = x ∧ HeapPath m x (l ++ Y)) ↔
      (m.next p = x ∧ HeapPath m x l) ∧ HeapPath m (pathEnd x l) Y
    rw [ih x, and_assoc]

/-- A path in memory is a path in a memory with the same `next` at its nodes but the last. -/
theorem HeapPath_congr {m m1 : HeapMemory} (W : List Nat) :
    ∀ p, (p :: W).Nodup → (∀ x ∈ p :: W, x ≠ pathEnd p W → m1.next x = m.next x) →
      HeapPath m p W → HeapPath m1 p W := by
  induction W with
  | nil => intro p _ _ _; trivial
  | cons w l ih =>
    intro p hnd h hp
    have hpe : p ≠ pathEnd w l := by
      intro e
      have := pathEnd_mem l w
      rw [← e] at this
      exact (List.nodup_cons.mp hnd).1 this
    refine ⟨(h p (List.mem_cons_self _ _) hpe).trans hp.1, ih w (List.nodup_cons.mp hnd).2 ?_ hp.2⟩
    intro x hx hne
    exact h x (List.mem_cons_of_mem _ hx) hne

/-- The node after a node of a path, but the last, is its `next`. -/
theorem HeapPath_succ (m : HeapMemory) (W : List Nat) :
    ∀ p x, HeapPath m p W → x ∈ p :: W → x ≠ pathEnd p W →
      ∃ X Y, p :: W = X ++ x :: m.next x :: Y := by
  induction W with
  | nil =>
    intro p x _ hx hne
    simp at hx
    exact absurd hx hne
  | cons w l ih =>
    intro p x hp hx hne
    by_cases hxp : x = p
    · subst hxp
      exact ⟨[], l, by rw [hp.1]; rfl⟩
    · have hx2 : x ∈ w :: l := by
        rcases List.mem_cons.mp hx with e | h
        · exact absurd e hxp
        · exact h
      obtain ⟨X, Y, e⟩ := ih w x hp.2 hx2 hne
      exact ⟨p :: X, Y, by rw [e]; rfl⟩

/-- The order of the free blocks, pair by pair. -/
theorem HeapOrdered_iff (m : HeapMemory) (B : List Nat) :
    ∀ lo, HeapOrdered m lo B ↔
      (∀ b ∈ B, lo < b ∧ 1 ≤ m.size b ∧ blockEnd m b < 4294967296) ∧
      B.Pairwise (fun x y => blockEnd m x < y) := by
  induction B with
  | nil => intro lo; simp [HeapOrdered]
  | cons b l ih =>
    intro lo
    simp only [HeapOrdered, ih, List.pairwise_cons, List.mem_cons, forall_eq_or_imp]
    constructor
    · rintro ⟨h1, h2, h3, h4, h5⟩
      refine ⟨⟨⟨h1, h2, h3⟩, fun y hy => ?_⟩, fun y hy => (h4 y hy).1, h5⟩
      have := h4 y hy
      refine ⟨?_, this.2⟩
      unfold blockEnd sizeofHeapNode at this
      omega
    · rintro ⟨⟨⟨h1, h2, h3⟩, h4⟩, h5, h6⟩
      exact ⟨h1, h2, h3, fun y hy => ⟨h5 y hy, (h4 y hy).2⟩, h6⟩

/-- The nodes of the free list of a well-formed heap are distinct. -/
theorem HeapWellFormed_nodup {m : HeapMemory} {Heap : Nat} {B : List Nat}
    (h : HeapWellFormed m Heap B) : (heapBase Heap :: B).Nodup := by
  obtain ⟨_, _, _, ho, _⟩ := h
  obtain ⟨h1, h2⟩ := (HeapOrdered_iff m B _).mp ho
  refine List.nodup_cons.mpr ⟨fun hm => ?_, ?_⟩
  · have := (h1 _ hm).1
    omega
  · refine List.Pairwise.imp_of_mem ?_ h2
    intro a b ha _ hab e
    have := (h1 a ha).2.1
    unfold blockEnd sizeofHeapNode at hab
    omega

/-- The loop of `OS_HeapMalloc` passes the nodes that are too small and are not
`Heap->available`. -/
theorem mallocLoop_scan (m : HeapMemory) (Heap : Nat) (nunits : Int) (W : List Nat) :
    ∀ (p fuel : Nat), HeapPath m p W →
      (∀ w ∈ W, m.size w < nunits ∧ w ≠ m.available Heap) →
      mallocLoop m Heap nunits (W.length + fuel) p (m.next p) =
        mallocLoop m Heap nunits fuel (pathEnd p W) (m.next (pathEnd p W)) := by
  induction W with
  | nil =>
    intro p fuel _ _
    simp [pathEnd]
  | cons w l ih =>
    intro p fuel hp hW
    obtain ⟨h1, h2⟩ := hW w (List.mem_cons_self _ _)
    have e : (w :: l).length + fuel = (l.length + fuel) + 1 := by simp; omega
    rw [e, mallocLoop, hp.1, if_neg (by omega), if_neg h2]
    exact ih w fuel hp.2 (fun x hx => hW x (List.mem_cons_of_mem _ hx))

/-- The free list of a well-formed heap, read from one of its nodes: a walk that visits every
node once and ends at the node where it started. -/
theorem HeapPath_rotate (m : HeapMemory) (base a : Nat) (B : List Nat)
    (hp : HeapPath m base (B ++ [base])) (ha : a ∈ base :: B) (hnd : (base :: B).Nodup) :
    ∃ V, HeapPath m a (V ++ [a]) ∧ (V ++ [a]).Nodup ∧ (∀ x, x ∈ V ++ [a] ↔ x ∈ base :: B) ∧
      V.length = B.length := by
  rcases List.mem_cons.mp ha with e | hB
  · subst e
    refine ⟨B, hp, ?_, fun x => ?_, rfl⟩
    · rw [List.nodup_append]
      obtain ⟨h1, h2⟩ := List.nodup_cons.mp hnd
      refine ⟨h2, by simp, ?_⟩
      intro x hx hx2
      simp at hx2
      exact h1 (hx2 ▸ hx)
    · simp
      tauto
  · obtain ⟨P, Q, e⟩ := List.append_of_mem hB
    subst e
    have h1 : HeapPath m base ((P ++ [a]) ++ (Q ++ [base])) := by
      simpa using hp
    rw [HeapPath_append, pathEnd_append] at h1
    have h2 : HeapPath m a ((Q ++ [base]) ++ (P ++ [a])) := by
      rw [HeapPath_append, pathEnd_append]
      exact ⟨h1.2, h1.1⟩
    refine ⟨Q ++ base :: P, by simpa using h2, ?_, fun x => ?_, by simp; omega⟩
    · have hperm : List.Perm ((Q ++ base :: P) ++ [a]) (base :: (P ++ a :: Q)) := by
        refine List.perm_iff_count.mpr (fun x => ?_)
        simp [List.count_cons, List.count_append]
        omega
      exact hperm.nodup_iff.mpr hnd
    · simp
      tauto

/-- The loop of `OS_HeapMalloc` on a well-formed heap with a free block that is big enough:
it returns with the statements for such a node `v` and the node `p` before it. -/
theorem mallocLoop_found (m : HeapMemory) (Heap : Nat) (nunits : Int) (B : List Nat)
    (fuel : Nat) (hwf : HeapWellFormed m Heap B) (hfuel : B.length + 1 ≤ fuel)
    (hn : 1 ≤ nunits) (hex : ∃ b ∈ B, nunits ≤ m.size b) :
    ∃ p v, p ∈ heapBase Heap :: B ∧ v ∈ B ∧ m.next p = v ∧ nunits ≤ m.size v ∧
      mallocLoop m Heap nunits fuel (m.available Heap) (m.next (m.available Heap)) =
        some (some (heapAllocate m Heap p v nunits)) := by
  have hnd := HeapWellFormed_nodup hwf
  obtain ⟨_, hb0, hp, _, ha⟩ := hwf
  obtain ⟨V, hV, hVnd, hVmem, hVlen⟩ := HeapPath_rotate m _ _ B hp ha hnd
  rcases first_split (fun x => decide (nunits ≤ m.size x)) (V ++ [m.available Heap]) with
    h | ⟨V1, v, V2, e, h1, h2⟩
  · exfalso
    obtain ⟨b, hb, hbs⟩ := hex
    have := h b ((hVmem b).mpr (List.mem_cons_of_mem _ hb))
    simp at this
    omega
  · have hv : nunits ≤ m.size v := by simpa using h2
    rw [e] at hV hVnd
    have hlen : V1.length ≤ B.length := by
      have := congrArg List.length e
      simp at this
      omega
    have hvC : v ∈ heapBase Heap :: B := (hVmem v).mp (by rw [e]; simp)
    have hvB : v ∈ B := by
      rcases List.mem_cons.mp hvC with e1 | h
      · rw [e1, hb0] at hv
        omega
      · exact h
    rw [HeapPath_append] at hV
    obtain ⟨k, rfl⟩ : ∃ k, fuel = V1.length + (k + 1) := ⟨fuel - V1.length - 1, by omega⟩
    refine ⟨pathEnd (m.available Heap) V1, v, ?_, hvB, hV.2.1, hv, ?_⟩
    · rcases List.mem_cons.mp (pathEnd_mem V1 (m.available Heap)) with e1 | h
      · rw [e1]
        exact ha
      · exact (hVmem _).mp (by rw [e]; exact List.mem_append_left _ h)
    · rw [mallocLoop_scan m Heap nunits V1 _ (k + 1) hV.1, hV.2.1, mallocLoop, if_pos hv]
      intro w hw
      have hs := h1 w hw
      simp at hs
      refine ⟨hs, fun e1 => ?_⟩
      -- the node `available` is the last of the walk
      have hlast : m.available Heap ∈ v :: V2 := by
        have h3 : pathEnd 0 (V ++ [m.available Heap]) = m.available Heap := by
          rw [pathEnd_append]
          rfl
        rw [e, pathEnd_append] at h3
        rw [← h3]
        exact pathEnd_mem V2 v
      rw [← e1] at hlast
      rw [List.nodup_append] at hVnd
      exact hVnd.2.2 hw hlast

/-- The loop of `OS_HeapMalloc` on a well-formed heap without a free block that is big enough:
it wraps around the free list. -/
theorem mallocLoop_wrapped (m : HeapMemory) (Heap : Nat) (nunits : Int) (B : List Nat)
    (fuel : Nat) (hwf : HeapWellFormed m Heap B) (hfuel : B.length + 1 ≤ fuel)
    (hn : 1 ≤ nunits) (hsmall : ∀ b ∈ B, m.size b < nunits) :
    mallocLoop m Heap nunits fuel (m.available Heap) (m.next (m.available Heap)) =
      some none := by
  have hnd := HeapWellFormed_nodup hwf
  obtain ⟨_, hb0, hp, _, ha⟩ := hwf
  obtain ⟨V, hV, hVnd, hVmem, hVlen⟩ := HeapPath_rotate m _ _ B hp ha hnd
  have hall : ∀ x ∈ heapBase Heap :: B, m.size x < nunits := by
    intro x hx
    rcases List.mem_cons.mp hx with e | h
    · rw [e, hb0]
      omega
    · exact hsmall x h
  rw [HeapPath_append] at hV
  obtain ⟨k, rfl⟩ : ∃ k, fuel = V.length + (k + 1) := ⟨fuel - V.length - 1, by omega⟩
  rw [mallocLoop_scan m Heap nunits V _ (k + 1) hV.1, hV.2.1, mallocLoop,
    if_neg (by have := hall _ ha; omega), if_pos rfl]
  intro w hw
  refine ⟨hall w ((hVmem w).mp (List.mem_append_left _ hw)), fun e => ?_⟩
  rw [List.nodup_append] at hVnd
  exact hVnd.2.2 hw (by rw [e]; simp)

/-- The place of a node `v` of the free list and of the node `p` before it. -/
theorem HeapWellFormed_locate {m : HeapMemory} {Heap : Nat} {B : List Nat} {p v : Nat}
    (hwf : HeapWellFormed m Heap B) (hp : p ∈ heapBase Heap :: B) (hv : v ∈ B)
    (hnext : m.next p = v) :
    ∃ B1 B2, B = B1 ++ v :: B2 ∧ p = pathEnd (heapBase Heap) B1 := by
  have hnd := HeapWellFormed_nodup hwf
  obtain ⟨_, _, hpath, _, _⟩ := hwf
  rw [HeapPath_append] at hpath
  have hlast : m.next (pathEnd (heapBase Heap) B) = heapBase Heap := hpath.2.1
  have hne : p ≠ pathEnd (heapBase Heap) B := by
    intro e
    rw [← e, hnext] at hlast
    rw [hlast] at hv
    exact (List.nodup_cons.mp hnd).1 hv
  obtain ⟨X, Y, e⟩ := HeapPath_succ m B _ p hpath.1 hp hne
  rw [hnext] at e
  cases X with
  | nil =>
    have e1 : heapBase Heap = p ∧ B = v :: Y := by simpa using e
    exact ⟨[], Y, e1.2, e1.1.symm⟩
  | cons x0 X1 =>
    have e1 : heapBase Heap = x0 ∧ B = X1 ++ p :: v :: Y := by simpa using e
    refine ⟨X1 ++ [p], Y, by rw [e1.2]; simp, ?_⟩
    rw [pathEnd_append]
    rfl

/-- The neighbours of a block `v` of the free list of a well-formed heap: the blocks before it
end before it, the blocks after it begin beyond its end, the node before it points to it, and
its `next` is the block after it or the node `base`. -/
theorem HeapWellFormed_around {m : HeapMemory} {Heap v : Nat} {B1 B2 : List Nat}
    (hwf : HeapWellFormed m Heap (B1 ++ v :: B2)) :
    (∀ x ∈ heapBase Heap :: B1, blockEnd m x < v ∧ x < v ∧ heapBase Heap ≤ x) ∧
    (∀ y ∈ B2, blockEnd m v < y ∧ heapBase Heap < y) ∧
    1 ≤ m.size v ∧ blockEnd m v < 4294967296 ∧ heapBase Heap < v ∧
    m.next (pathEnd (heapBase Heap) B1) = v ∧ HeapPath m (heapBase Heap) B1 ∧
    HeapPath m v (B2 ++ [heapBase Heap]) ∧
    (m.next v ∈ B2 ∨ m.next v = heapBase Heap) := by
  obtain ⟨_, hb0, hpath, ho, _⟩ := hwf
  obtain ⟨h1, h2⟩ := (HeapOrdered_iff m _ _).mp ho
  rw [List.pairwise_append] at h2
  obtain ⟨_, h3, h4⟩ := h2
  rw [List.pairwise_cons] at h3
  have hv := h1 v (by simp)
  have hpath2 : HeapPath m (heapBase Heap) (B1 ++ (v :: (B2 ++ [heapBase Heap]))) := by
    simpa using hpath
  rw [HeapPath_append] at hpath2
  obtain ⟨p1, p2, p3⟩ := hpath2
  refine ⟨?_, ?_, hv.2.1, hv.2.2, by exact_mod_cast hv.1, p2, p1, p3, ?_⟩
  · intro x hx
    rcases List.mem_cons.mp hx with e | h
    · rw [e]
      unfold blockEnd
      rw [hb0]
      have := hv.1
      omega
    · have a1 := h4 x h v (by simp)
      have a2 := h1 x (by simp [h])
      unfold blockEnd sizeofHeapNode at a1
      refine ⟨by unfold blockEnd sizeofHeapNode; exact a1, by omega, by omega⟩
  · intro y hy
    have a1 := h1 y (by simp [hy])
    exact ⟨h3.1 y hy, by exact_mod_cast a1.1⟩
  · cases B2 with
    | nil => exact Or.inr p3.1
    | cons y l => exact Or.inl (by rw [p3.1]; simp)

theorem HeapPath_congr_all {m m1 : HeapMemory} (W : List Nat) :
    ∀ p, (∀ x ∈ p :: W, m1.next x = m.next x) → HeapPath m p W → HeapPath m1 p W := by
  induction W with
  | nil => intro p _ _; trivial
  | cons w l ih =>
    intro p h hp
    exact ⟨(h p (List.mem_cons_self _ _)).trans hp.1,
      ih w (fun x hx => h x (List.mem_cons_of_mem _ hx)) hp.2⟩

theorem HeapOrdered_congr {m m1 : HeapMemory} (B : List Nat) :
    ∀ lo, (∀ x ∈ B, m1.size x = m.size x) → HeapOrdered m lo B → HeapOrdered m1 lo B := by
  induction B with
  | nil => intro lo _ _; trivial
  | cons b l ih =>
    intro lo h ho
    have e : blockEnd m1 b = blockEnd m b := by
      unfold blockEnd
      rw [h b (List.mem_cons_self _ _)]
    obtain ⟨h1, h2, h3, h4⟩ := ho
    refine ⟨h1, ?_, ?_, ?_⟩
    · rw [h b (List.mem_cons_self _ _)]
      exact h2
    · rw [e]
      exact h3
    · rw [e]
      exact ih _ (fun x hx => h x (List.mem_cons_of_mem _ hx)) h4

/-- A heap is well formed in a memory that has the same free list: the same `next` and `size`
at the nodes of the list, the magic number, and a node of the list in `available`. -/
theorem HeapWellFormed_congr {m m1 : HeapMemory} {Heap : Nat} {B : List Nat}
    (h : HeapWellFormed m Heap B)
    (hsame : ∀ x ∈ heapBase Heap :: B, m1.next x = m.next x ∧ m1.size x = m.size x)
    (hmagic : m1.magic Heap = m.magic Heap)
    (hav : m1.available Heap ∈ heapBase Heap :: B) : HeapWellFormed m1 Heap B := by
  obtain ⟨h1, h2, h3, h4, _⟩ := h
  refine ⟨hmagic.trans h1, (hsame _ (List.mem_cons_self _ _)).2.trans h2, ?_, ?_, hav⟩
  · refine HeapPath_congr_all _ _ (fun x hx => (hsame x ?_).1) h3
    rcases List.mem_cons.mp hx with e | hx
    · rw [e]
      exact List.mem_cons_self _ _
    · rcases List.mem_append.mp hx with hx | hx
      · exact List.mem_cons_of_mem _ hx
      · simp at hx
        rw [hx]
        exact List.mem_cons_self _ _
  · exact HeapOrdered_congr B _ (fun x hx => (hsame x (List.mem_cons_of_mem _ hx)).2) h4

/-- The header of the block at the pointer `node + 1` is the node. -/
theorem nodeAdd_block (node : Nat) (h : node + 8 < 4294967296) :
    nodeAdd (nodeAdd node 1) (-1) = node := by
  unfold nodeAdd toUInt32 sizeofHeapNode
  omega

theorem freeUnits_append (m : HeapMemory) (X Y : List Nat) :
    freeUnits m (X ++ Y) = freeUnits m X + freeUnits m Y := by
  unfold freeUnits
  simp

theorem freeUnits_cons (m : HeapMemory) (x : Nat) (Y : List Nat) :
    freeUnits m (x :: Y) = m.size x + freeUnits m Y := by
  unfold freeUnits
  simp

theorem freeUnits_congr {m m1 : HeapMemory} (B : List Nat)
    (h : ∀ x ∈ B, m1.size x = m.size x) : freeUnits m1 B = freeUnits m B := by
  unfold freeUnits
  congr 1
  exact List.map_congr_left h

/-- An exact fit: the block `v` leaves the free list, which stays well formed; the free units
drop by the size of the block; and `OS_HeapFree` of the block puts it back: the free list
after it has the same nodes with the same `next` and `size`. -/
theorem heapAllocate_exact (m : HeapMemory) (Heap v : Nat) (B1 B2 : List Nat) (nunits : Int)
    (fuel : Nat) (hwf : HeapWellFormed m Heap (B1 ++ v :: B2)) (hsize : m.size v = nunits)
    (hfuel : 1 ≤ fuel) :
    ∃ m1, heapAllocate m Heap (pathEnd (heapBase Heap) B1) v nunits = (m1, nodeAdd v 1) ∧
      m1.size v = nunits ∧ m1.next v = Heap ∧
      HeapWellFormed m1 Heap (B1 ++ B2) ∧
      (∀ x ∈ B1 ++ B2, m1.size x = m.size x) ∧
      freeUnits m1 (B1 ++ B2) = freeUnits m (B1 ++ v :: B2) - nunits ∧
      ∃ m2, OS_HeapFree fuel m1 (nodeAdd v 1) = some m2 ∧
        HeapWellFormed m2 Heap (B1 ++ v :: B2) ∧
        ∀ x ∈ heapBase Heap :: (B1 ++ v :: B2),
          m2.next x = m.next x ∧ m2.size x = m.size x := by
  have hnd := HeapWellFormed_nodup hwf
  obtain ⟨hbefore, hafter, hs1, hend, hbv, hpv, hpB1, hpB2, hnx⟩ := HeapWellFormed_around hwf
  have hwf0 := hwf
  obtain ⟨hmagic, hb0, hpath, hord, hav⟩ := hwf0
  obtain ⟨p, hp⟩ : ∃ p, p = pathEnd (heapBase Heap) B1 := ⟨_, rfl⟩
  rw [← hp] at hpv ⊢
  have hpC : p ∈ heapBase Heap :: B1 := by
    rw [hp]
    exact pathEnd_mem _ _
  obtain ⟨hp1, hp2, hp3⟩ := hbefore p hpC
  have hpne : p ≠ v := by omega
  have hvend : (v : Int) + 8 ≤ blockEnd m v := by
    unfold blockEnd sizeofHeapNode
    omega
  obtain ⟨m1, hm1⟩ : ∃ m1 : HeapMemory, m1 =
      { m with next := upd (upd m.next p (m.next v)) v Heap,
               available := upd m.available Heap p } := ⟨_, rfl⟩
  have e_next : m1.next = upd (upd m.next p (m.next v)) v Heap := by rw [hm1]
  have e_size : m1.size = m.size := by rw [hm1]
  have e_magic : m1.magic = m.magic := by rw [hm1]
  have e_av : m1.available Heap = p := by rw [hm1]; exact upd_same _ _ _
  have e_nextp : m1.next p = m.next v := by
    rw [e_next, upd_ne _ _ hpne, upd_same]
  have e_nextv : m1.next v = Heap := by rw [e_next, upd_same]
  -- the free list without the block
  have hnd1 : (heapBase Heap :: B1).Nodup := by
    have : List.Sublist (heapBase Heap :: B1) (heapBase Heap :: (B1 ++ v :: B2)) :=
      List.Sublist.cons₂ _ (List.sublist_append_left _ _)
    exact hnd.sublist this
  have hnd2 : (B2 ++ [heapBase Heap]).Nodup := by
    rw [List.nodup_append]
    refine ⟨?_, by simp, ?_⟩
    · have := (List.nodup_append.mp (List.nodup_cons.mp hnd).2).2.1
      exact (List.nodup_cons.mp this).2
    · intro x hx hx2
      simp at hx2
      have := (hafter x hx).2
      omega
  have hpath1 : HeapPath m1 (heapBase Heap) ((B1 ++ B2) ++ [heapBase Heap]) := by
    rw [List.append_assoc, HeapPath_append, ← hp]
    constructor
    · refine HeapPath_congr B1 _ hnd1 (fun x hx hne => ?_) hpB1
      rw [← hp] at hne
      have := (hbefore x hx).2.1
      rw [e_next, upd_ne _ _ (by omega), upd_ne _ _ hne]
    · obtain ⟨nx, rest, e⟩ : ∃ nx rest, B2 ++ [heapBase Heap] = nx :: rest := by
        cases B2 with
        | nil => exact ⟨_, _, rfl⟩
        | cons y l => exact ⟨_, _, rfl⟩
      have hxe : pathEnd v (B2 ++ [heapBase Heap]) = heapBase Heap := by
        rw [pathEnd_append]
        rfl
      rw [e] at hpB2 hnd2 hxe
      rw [e]
      refine ⟨e_nextp.trans hpB2.1, HeapPath_congr _ _ hnd2 (fun x hx hne => ?_) hpB2.2⟩
      have hxe2 : pathEnd nx rest = heapBase Heap := hxe
      rw [hxe2] at hne
      have hx2 : x ∈ B2 := by
        rw [← e] at hx
        rcases List.mem_append.mp hx with h | h
        · exact h
        · simp at h
          exact absurd h hne
      have := (hafter x hx2).1
      have hxv : x ≠ v := by unfold blockEnd sizeofHeapNode at this; omega
      have hxp : x ≠ p := by unfold blockEnd sizeofHeapNode at this; omega
      rw [e_next, upd_ne _ _ hxv, upd_ne _ _ hxp]
  have hord1 : HeapOrdered m1 (heapBase Heap) (B1 ++ B2) := by
    refine @HeapOrdered_congr m m1 _ _ (fun x _ => by rw [e_size]) ?_
    obtain ⟨a1, a2⟩ := (HeapOrdered_iff m _ _).mp hord
    refine (HeapOrdered_iff m _ _).mpr ⟨fun b hb => a1 b ?_, ?_⟩
    · rcases List.mem_append.mp hb with h | h
      · exact List.mem_append_left _ h
      · exact List.mem_append_right _ (List.mem_cons_of_mem _ h)
    · exact a2.sublist (List.Sublist.append_left (List.sublist_cons_self v B2) B1)
  have hwf1 : HeapWellFormed m1 Heap (B1 ++ B2) := by
    refine ⟨by rw [e_magic]; exact hmagic, by rw [e_size]; exact hb0, hpath1, hord1, ?_⟩
    rw [e_av]
    rcases List.mem_cons.mp hpC with e | h
    · rw [e]
      exact List.mem_cons_self _ _
    · exact List.mem_cons_of_mem _ (List.mem_append_left _ h)
  refine ⟨m1, ?_, by rw [e_size]; exact hsize, e_nextv, hwf1, fun x _ => by rw [e_size], ?_, ?_⟩
  · rw [hm1]
    unfold heapAllocate
    rw [if_pos hsize]
  · have e1 : freeUnits m1 (B1 ++ B2) = freeUnits m (B1 ++ B2) :=
      freeUnits_congr _ (fun x _ => by rw [e_size])
    rw [e1, freeUnits_append, freeUnits_append, freeUnits_cons, hsize]
    omega
  · -- the call of `OS_HeapFree`
    have hbp : nodeAdd (nodeAdd v 1) (-1) = v := nodeAdd_block v (by omega)
    have hmag : m1.magic Heap = HEAP_MAGIC := by rw [e_magic]; exact hmagic
    obtain ⟨k, rfl⟩ : ∃ k, fuel = k + 1 := ⟨fuel - 1, by omega⟩
    have hvnx : (v : Int) + 8 * m.size v ≠ (m.next v : Int) := by
      rcases hnx with h | h
      · have := (hafter _ h).1
        unfold blockEnd sizeofHeapNode at this
        omega
      · rw [h]
        omega
    have hloop : freeLoop m1 v (k + 1) p = some p := by
      rw [freeLoop, e_nextp]
      rcases hnx with h | h
      · have := (hafter _ h).1
        unfold blockEnd sizeofHeapNode at this
        rw [if_pos ⟨by omega, by omega⟩]
      · rw [h, if_neg (by omega), if_pos ⟨by omega, Or.inl (by omega)⟩]
    have hup : nodeAdd v (m1.size v) ≠ m1.next p := by
      rw [e_size, e_nextp]
      intro e
      have := nodeAdd_eq v (m.size v) (by omega) (by unfold blockEnd sizeofHeapNode at hend; omega)
      rw [e] at this
      exact hvnx this.symm
    have hlow : nodeAdd p (m1.size p) ≠ v := by
      rw [e_size]
      intro e
      have hps : 0 ≤ m.size p := by
        rcases List.mem_cons.mp hpC with e1 | h1
        · rw [e1, hb0]
        · have := ((HeapOrdered_iff m _ _).mp hord).1 p (List.mem_append_left _ h1)
          omega
      have := nodeAdd_eq p (m.size p) (by omega)
        (by unfold blockEnd sizeofHeapNode at hp1 hend; omega)
      rw [e] at this
      unfold blockEnd sizeofHeapNode at hp1
      omega
    obtain ⟨m2, hm2⟩ : ∃ m2 : HeapMemory, m2 =
        { m1 with next := upd (upd m1.next v (m1.next p)) p v,
                  available := upd m1.available Heap p } := ⟨_, rfl⟩
    have hfree : OS_HeapFree (k + 1) m1 (nodeAdd v 1) = some m2 := by
      unfold OS_HeapFree
      simp only [hbp, e_nextv, hmag, ne_eq, not_true_eq_false, if_false, e_av, hloop]
      rw [if_neg hup]
      simp only []
      rw [if_neg hlow, hm2]
    have hsame : ∀ x, m2.next x = m.next x ∧ m2.size x = m.size x := by
      intro x
      refine ⟨?_, by rw [hm2]; show m1.size x = _; rw [e_size]⟩
      rw [hm2]
      show upd (upd m1.next v (m1.next p)) p v x = m.next x
      by_cases hxp : x = p
      · rw [hxp, upd_same, hpv]
      · rw [upd_ne _ _ hxp]
        by_cases hxv : x = v
        · rw [hxv, upd_same, e_nextp]
        · rw [upd_ne _ _ hxv, e_next, upd_ne _ _ hxv, upd_ne _ _ hxp]
    refine ⟨m2, hfree, HeapWellFormed_congr hwf (fun x _ => hsame x) ?_ ?_, fun x _ => hsame x⟩
    · rw [hm2]
      show m1.magic Heap = _
      rw [e_magic]
    · rw [hm2]
      show upd m1.available Heap p Heap ∈ _
      rw [upd_same]
      rcases List.mem_cons.mp hpC with e | h
      · rw [e]
        exact List.mem_cons_self _ _
      · exact List.mem_cons_of_mem _ (List.mem_append_left _ h)

/-- A block that is bigger than the request: the tail end of the block `v` is allocated, the
free list keeps its nodes and stays well formed; the free units drop by `nunits`; and
`OS_HeapFree` of the block joins it to `v` again: the free list after it has the same nodes
with the same `next` and `size`. -/
theorem heapAllocate_split (m : HeapMemory) (Heap v : Nat) (B1 B2 : List Nat) (nunits : Int)
    (fuel : Nat) (hwf : HeapWellFormed m Heap (B1 ++ v :: B2)) (hn : 1 ≤ nunits)
    (hsize : nunits < m.size v) (hfuel : 2 ≤ fuel) :
    ∃ m1 node, heapAllocate m Heap (pathEnd (heapBase Heap) B1) v nunits =
        (m1, nodeAdd node 1) ∧
      (node : Int) = v + 8 * (m.size v - nunits) ∧
      m1.size node = nunits ∧ m1.next node = Heap ∧
      HeapWellFormed m1 Heap (B1 ++ v :: B2) ∧
      m1.size v = m.size v - nunits ∧ (∀ x ∈ B1 ++ B2, m1.size x = m.size x) ∧
      freeUnits m1 (B1 ++ v :: B2) = freeUnits m (B1 ++ v :: B2) - nunits ∧
      ∃ m2, OS_HeapFree fuel m1 (nodeAdd node 1) = some m2 ∧
        HeapWellFormed m2 Heap (B1 ++ v :: B2) ∧
        ∀ x ∈ heapBase Heap :: (B1 ++ v :: B2),
          m2.next x = m.next x ∧ m2.size x = m.size x := by
  have hnd := HeapWellFormed_nodup hwf
  obtain ⟨hbefore, hafter, hs1, hend, hbv, hpv, hpB1, hpB2, hnx⟩ := HeapWellFormed_around hwf
  have hwf0 := hwf
  obtain ⟨hmagic, hb0, hpath, hord, hav⟩ := hwf0
  obtain ⟨p, hp⟩ : ∃ p, p = pathEnd (heapBase Heap) B1 := ⟨_, rfl⟩
  rw [← hp] at hpv ⊢
  have hpC : p ∈ heapBase Heap :: B1 := by
    rw [hp]
    exact pathEnd_mem _ _
  obtain ⟨hp1, hp2, hp3⟩ := hbefore p hpC
  have hend2 : (v : Int) + 8 * m.size v < 4294967296 := by
    unfold blockEnd sizeofHeapNode at hend
    exact hend
  obtain ⟨n1, hn1⟩ : ∃ n1, n1 = nodeAdd v (m.size v - nunits) := ⟨_, rfl⟩
  have hn1e : (n1 : Int) = v + 8 * (m.size v - nunits) := by
    rw [hn1]
    exact nodeAdd_eq v _ (by omega) (by omega)
  have hvn : v ≠ n1 := by omega
  have hC : ∀ x ∈ heapBase Heap :: (B1 ++ v :: B2), x ≠ n1 := by
    intro x hx
    rcases List.mem_cons.mp hx with e | h
    · rw [e]
      omega
    · rcases List.mem_append.mp h with h | h
      · have := (hbefore x (List.mem_cons_of_mem _ h)).2.1
        omega
      · rcases List.mem_cons.mp h with e | h
        · rw [e]
          exact hvn
        · have := (hafter x h).1
          unfold blockEnd sizeofHeapNode at this
          omega
  have hCv : ∀ x ∈ B1 ++ B2, x ≠ v := by
    intro x hx
    rcases List.mem_append.mp hx with h | h
    · have := (hbefore x (List.mem_cons_of_mem _ h)).2.1
      omega
    · have := (hafter x h).1
      unfold blockEnd sizeofHeapNode at this
      omega
  have hpne : p ≠ v := by omega
  have hpn : p ≠ n1 := by omega
  obtain ⟨m1, hm1⟩ : ∃ m1 : HeapMemory, m1 =
      { m with size := upd (upd m.size v (m.size v - nunits)) n1 nunits,
               next := upd m.next n1 Heap,
               available := upd m.available Heap p } := ⟨_, rfl⟩
  have e_next : m1.next = upd m.next n1 Heap := by rw [hm1]
  have e_size : m1.size = upd (upd m.size v (m.size v - nunits)) n1 nunits := by rw [hm1]
  have e_magic : m1.magic = m.magic := by rw [hm1]
  have e_av : m1.available Heap = p := by rw [hm1]; exact upd_same _ _ _
  have e_sizev : m1.size v = m.size v - nunits := by
    rw [e_size, upd_ne _ _ hvn, upd_same]
  have e_sizen : m1.size n1 = nunits := by rw [e_size, upd_same]
  have e_nextn : m1.next n1 = Heap := by rw [e_next, upd_same]
  have e_nextC : ∀ x, x ≠ n1 → m1.next x = m.next x := by
    intro x hx
    rw [e_next, upd_ne _ _ hx]
  have e_sizeC : ∀ x, x ≠ n1 → x ≠ v → m1.size x = m.size x := by
    intro x hx hxv
    rw [e_size, upd_ne _ _ hx, upd_ne _ _ hxv]
  have hbase_v : heapBase Heap ≠ v := by omega
  have hpath1 : HeapPath m1 (heapBase Heap) ((B1 ++ v :: B2) ++ [heapBase Heap]) := by
    refine HeapPath_congr_all _ _ (fun x hx => e_nextC x (hC x ?_)) hpath
    rcases List.mem_cons.mp hx with e | hx
    · rw [e]
      exact List.mem_cons_self _ _
    · rcases List.mem_append.mp hx with hx | hx
      · exact List.mem_cons_of_mem _ hx
      · simp at hx
        rw [hx]
        exact List.mem_cons_self _ _
  have hle : ∀ x ∈ B1 ++ v :: B2, blockEnd m1 x ≤ blockEnd m x ∧ 1 ≤ m1.size x := by
    intro x hx
    have hb := ((HeapOrdered_iff m _ _).mp hord).1 x hx
    by_cases hxv : x = v
    · rw [hxv]
      unfold blockEnd sizeofHeapNode
      rw [e_sizev]
      omega
    · have := e_sizeC x (hC x (List.mem_cons_of_mem _ hx)) hxv
      unfold blockEnd
      rw [this]
      exact ⟨le_refl _, hb.2.1⟩
  have hord1 : HeapOrdered m1 (heapBase Heap) (B1 ++ v :: B2) := by
    obtain ⟨a1, a2⟩ := (HeapOrdered_iff m _ _).mp hord
    refine (HeapOrdered_iff m1 _ _).mpr ⟨fun b hb => ?_, ?_⟩
    · have := a1 b hb
      have h2 := hle b hb
      exact ⟨this.1, h2.2, by omega⟩
    · refine List.Pairwise.imp_of_mem ?_ a2
      intro a b ha _ hab
      have := (hle a ha).1
      omega
  have hpmem : p ∈ heapBase Heap :: (B1 ++ v :: B2) := by
    rcases List.mem_cons.mp hpC with e | h
    · rw [e]
      exact List.mem_cons_self _ _
    · exact List.mem_cons_of_mem _ (List.mem_append_left _ h)
  have hwf1 : HeapWellFormed m1 Heap (B1 ++ v :: B2) := by
    refine ⟨by rw [e_magic]; exact hmagic, ?_, hpath1, hord1, by rw [e_av]; exact hpmem⟩
    rw [e_sizeC _ (hC _ (List.mem_cons_self _ _)) hbase_v]
    exact hb0
  have hszC : ∀ x ∈ B1 ++ B2, m1.size x = m.size x := by
    intro x hx
    refine e_sizeC x (hC x ?_) (hCv x hx)
    rcases List.mem_append.mp hx with h | h
    · exact List.mem_cons_of_mem _ (List.mem_append_left _ h)
    · exact List.mem_cons_of_mem _ (List.mem_append_right _ (List.mem_cons_of_mem _ h))
  refine ⟨m1, n1, ?_, hn1e, e_sizen, e_nextn, hwf1, e_sizev, hszC, ?_, ?_⟩
  · rw [hm1, hn1]
    unfold heapAllocate
    rw [if_neg (by omega)]
    simp only [upd_same]
  · have e1 : freeUnits m1 B1 = freeUnits m B1 :=
      freeUnits_congr _ (fun x hx => hszC x (List.mem_append_left _ hx))
    have e2 : freeUnits m1 B2 = freeUnits m B2 :=
      freeUnits_congr _ (fun x hx => hszC x (List.mem_append_right _ hx))
    rw [freeUnits_append, freeUnits_cons, freeUnits_append, freeUnits_cons, e1, e2, e_sizev]
    omega
  · -- the call of `OS_HeapFree`
    have hbp : nodeAdd (nodeAdd n1 1) (-1) = n1 := nodeAdd_block n1 (by omega)
    have hmag : m1.magic Heap = HEAP_MAGIC := by rw [e_magic]; exact hmagic
    obtain ⟨k, rfl⟩ : ∃ k, fuel = k + 1 + 1 := ⟨fuel - 2, by omega⟩
    have e_nextp : m1.next p = v := (e_nextC p hpn).trans hpv
    have e_nextv : m1.next v = m.next v := e_nextC v hvn
    have hvnx : (v : Int) + 8 * m.size v ≠ (m.next v : Int) := by
      rcases hnx with h | h
      · have := (hafter _ h).1
        unfold blockEnd sizeofHeapNode at this
        omega
      · rw [h]
        omega
    have hloop : freeLoop m1 n1 (k + 1 + 1) p = some v := by
      rw [freeLoop, e_nextp, if_neg (by omega), if_neg (by omega), freeLoop, e_nextv]
      rcases hnx with h | h
      · have := (hafter _ h).1
        unfold blockEnd sizeofHeapNode at this
        rw [if_pos ⟨by omega, by omega⟩]
      · rw [h, if_neg (by omega), if_pos ⟨by omega, Or.inl (by omega)⟩]
    have hup : nodeAdd n1 (m1.size n1) ≠ m1.next v := by
      rw [e_sizen, e_nextv]
      intro e
      have := nodeAdd_eq n1 nunits (by omega) (by omega)
      rw [e] at this
      omega
    have hlow : nodeAdd v (m1.size v) = n1 := by
      rw [e_sizev, hn1]
    obtain ⟨m2, hm2⟩ : ∃ m2 : HeapMemory, m2 =
        { m1 with size := upd m1.size v (m1.size v + m1.size n1),
                  next := upd (upd m1.next n1 (m1.next v)) v
                            (upd m1.next n1 (m1.next v) n1),
                  available := upd m1.available Heap v } := ⟨_, rfl⟩
    have hfree : OS_HeapFree (k + 1 + 1) m1 (nodeAdd n1 1) = some m2 := by
      unfold OS_HeapFree
      simp only [hbp, e_nextn, hmag, ne_eq, not_true_eq_false, if_false, e_av, hloop]
      rw [if_neg hup]
      simp only []
      rw [if_pos hlow, hm2]
    have hsame : ∀ x ∈ heapBase Heap :: (B1 ++ v :: B2),
        m2.next x = m.next x ∧ m2.size x = m.size x := by
      intro x hx
      have hxn := hC x hx
      rw [hm2]
      by_cases hxv : x = v
      · rw [hxv]
        refine ⟨?_, ?_⟩
        · show upd (upd m1.next n1 (m1.next v)) v (upd m1.next n1 (m1.next v) n1) v = _
          rw [upd_same, upd_same, e_nextv]
        · show upd m1.size v (m1.size v + m1.size n1) v = _
          rw [upd_same, e_sizev, e_sizen]
          omega
      · refine ⟨?_, ?_⟩
        · show upd (upd m1.next n1 (m1.next v)) v (upd m1.next n1 (m1.next v) n1) x = _
          rw [upd_ne _ _ hxv, upd_ne _ _ hxn, e_nextC x hxn]
        · show upd m1.size v (m1.size v + m1.size n1) x = _
          rw [upd_ne _ _ hxv, e_sizeC x hxn hxv]
    refine ⟨m2, hfree, HeapWellFormed_congr hwf hsame ?_ ?_, hsame⟩
    · rw [hm2]
      show m1.magic Heap = _
      rw [e_magic]
    · rw [hm2]
      show upd m1.available Heap v Heap ∈ _
      rw [upd_same]
      simp

/-- C40: the heap at the address `Heap`, which the argument `H` of `OS_HeapMalloc` names, is
well formed with the free blocks `B` (an address-ordered circular free list with no two
adjacent free blocks), the blocks `A` are allocated and overlap no free block, and
`0 <= Bytes`.  The request is for `nunits = ceil(Bytes / 8) + 1` units.  When a free block is
big enough, `OS_HeapMalloc` returns the pointer `node + 1` of a block at the node `node` that
has `nunits` units and the heap in its field `next`, lies inside the free block `b` and
overlaps no block of `A`; the heap is well formed after the call, with `nunits` fewer free
units; and `OS_HeapFree` of the block returns and leaves a well-formed heap with the free
blocks `B`, each with its `next` and `size` of before the allocation.  When no free block is
big enough and the heap has no alternate heap, `OS_HeapMalloc` returns `NULL` and the memory
is unchanged. -/
theorem C40_heap_allocate_free (m : HeapMemory) (H Heap : Nat) (Bytes : Int) (B : List Nat)
    (A : List (Nat × Int)) (fuel depth : Nat)
    (hB0 : 0 ≤ Bytes) (hB1 : Bytes < 2147483648)
    (hH : (if toInt32 H < HEAP_COUNT then m.HeapArray (toInt32 H) else H) = Heap)
    (hwf : HeapWellFormed m Heap B) (hfuel : B.length + 1 ≤ fuel)
    (hA : ∀ a ∈ A, ∀ b ∈ B, blockApart m a.1 a.2 b) :
    heapUnits Bytes = ⌈(Bytes : ℚ) / 8⌉ + 1 ∧
    ((∃ b ∈ B, heapUnits Bytes ≤ m.size b) →
      ∃ m1 node b B1,
        OS_HeapMalloc fuel (depth + 1) m H Bytes = some (m1, nodeAdd node 1) ∧
        ((nodeAdd node 1 : Nat) : Int) = node + 8 ∧
        m1.size node = heapUnits Bytes ∧ m1.next node = Heap ∧
        b ∈ B ∧ b ≤ node ∧ (node : Int) + 8 * heapUnits Bytes ≤ blockEnd m b ∧
        (∀ a ∈ A, (a.1 : Int) + 8 * a.2 ≤ node ∨ (node : Int) + 8 * heapUnits Bytes ≤ a.1) ∧
        HeapWellFormed m1 Heap B1 ∧ (∀ x ∈ B1, x ∈ B) ∧
        freeUnits m1 B1 = freeUnits m B - heapUnits Bytes ∧
        ∃ m2, OS_HeapFree fuel m1 (nodeAdd node 1) = some m2 ∧ HeapWellFormed m2 Heap B ∧
          ∀ x ∈ heapBase Heap :: B, m2.next x = m.next x ∧ m2.size x = m.size x) ∧
    ((∀ b ∈ B, m.size b < heapUnits Bytes) → m.alternate Heap = 0 →
      OS_HeapMalloc fuel (depth + 1) m H Bytes = some (m, 0)) := by
  have hu := heapUnits_eq Bytes hB0 hB1
  have hn : 1 ≤ heapUnits Bytes := by omega
  refine ⟨heapUnits_ceil Bytes hB0 hB1, ?_, ?_⟩
  · intro hex
    obtain ⟨p, v, hpC, hvB, hnext, hvs, hloop⟩ := mallocLoop_found m Heap (heapUnits Bytes) B
      fuel hwf hfuel hn hex
    obtain ⟨B1, B2, hBe, hpe⟩ := HeapWellFormed_locate hwf hpC hvB hnext
    subst hBe
    rw [hpe] at hloop
    obtain ⟨_, _, hs1, hend, _, _, _, _, _⟩ := HeapWellFormed_around hwf
    have hend2 : (v : Int) + 8 * m.size v < 4294967296 := by
      unfold blockEnd sizeofHeapNode at hend
      exact hend
    have hfuel2 : 2 ≤ fuel := by
      simp at hfuel
      omega
    have hmalloc : OS_HeapMalloc fuel (depth + 1) m H Bytes =
        some (heapAllocate m Heap (pathEnd (heapBase Heap) B1) v (heapUnits Bytes)) := by
      rw [OS_HeapMalloc]
      simp only [hH, hloop]
    have happ : ∀ (node : Nat), (v : Int) ≤ node →
        (node : Int) + 8 * heapUnits Bytes ≤ blockEnd m v →
        ∀ a ∈ A, (a.1 : Int) + 8 * a.2 ≤ node ∨ (node : Int) + 8 * heapUnits Bytes ≤ a.1 := by
      intro node h1 h2 a ha
      rcases hA a ha v (by simp) with h | h
      · left
        unfold sizeofHeapNode at h
        omega
      · right
        omega
    by_cases hexact : m.size v = heapUnits Bytes
    · obtain ⟨m1, a1, a2, a3, a4, _, a6, a7⟩ := heapAllocate_exact m Heap v B1 B2
        (heapUnits Bytes) fuel hwf hexact (by omega)
      have hve : (v : Int) + 8 * heapUnits Bytes ≤ blockEnd m v := by
        unfold blockEnd sizeofHeapNode
        rw [hexact]
        omega
      refine ⟨m1, v, v, B1 ++ B2, by rw [hmalloc, a1], nodeAdd_eq v 1 (by omega) (by omega), a2,
        a3, by simp, le_refl _, hve, happ v (le_refl _) hve, a4, fun x hx => ?_, a6, a7⟩
      rcases List.mem_append.mp hx with h | h
      · exact List.mem_append_left _ h
      · exact List.mem_append_right _ (List.mem_cons_of_mem _ h)
    · obtain ⟨m1, node, a1, a2, a3, a4, a5, _, _, a8, a9⟩ := heapAllocate_split m Heap v B1 B2
        (heapUnits Bytes) fuel hwf hn (by omega) hfuel2
      have hve : (node : Int) + 8 * heapUnits Bytes ≤ blockEnd m v := by
        unfold blockEnd sizeofHeapNode
        omega
      have hvn : (v : Int) ≤ node := by omega
      refine ⟨m1, node, v, B1 ++ v :: B2, by rw [hmalloc, a1],
        nodeAdd_eq node 1 (by omega) (by omega), a3, a4, by simp, by omega, hve,
        happ node hvn hve, a5, fun _ h => h, a8, a9⟩
  · intro hsmall halt
    have hloop := mallocLoop_wrapped m Heap (heapUnits Bytes) B fuel hwf hfuel hn hsmall
    rw [OS_HeapMalloc]
    simp only [hH, hloop, halt, ne_eq, not_true_eq_false, if_false]

theorem C40_heap_allocate_free_witness :
    heapUnits 100 = ⌈((100 : Int) : ℚ) / 8⌉ + 1 ∧
    ∃ m1 node b B1,
      OS_HeapMalloc 4 (0 + 1) usedHeap 0 100 = some (m1, nodeAdd node 1) ∧
      ((nodeAdd node 1 : Nat) : Int) = node + 8 ∧
      m1.size node = heapUnits 100 ∧ m1.next node = 4096 ∧
      b ∈ [4124] ∧ b ≤ node ∧ (node : Int) + 8 * heapUnits 100 ≤ blockEnd usedHeap b ∧
      (∀ a ∈ [((5084 : Nat), (4 : Int))],
        (a.1 : Int) + 8 * a.2 ≤ node ∨ (node : Int) + 8 * heapUnits 100 ≤ a.1) ∧
      HeapWellFormed m1 4096 B1 ∧ (∀ x ∈ B1, x ∈ [4124]) ∧
      freeUnits m1 B1 = freeUnits usedHeap [4124] - heapUnits 100 ∧
      ∃ m2, OS_HeapFree 4 m1 (nodeAdd node 1) = some m2 ∧ HeapWellFormed m2 4096 [4124] ∧
        ∀ x ∈ heapBase 4096 :: [4124],
          m2.next x = usedHeap.next x ∧ m2.size x = usedHeap.size x :=
  have h := C40_heap_allocate_free usedHeap 0 4096 100 [4124] [(5084, 4)] 4 0 (by decide)
    (by decide) (by decide) (by decide) (by decide) (by decide)
  ⟨h.1, h.2.1 (by decide)⟩

/-- Two runs on `smallHeap`, a heap of 124 free units in one block at the address 4124.  A
request of 984 bytes takes the whole block (an exact fit of 124 units): the pointer returned
is 4132, the free list is empty, and `OS_HeapFree` of the block gives the free list of before.
A request of 985 bytes, for 125 units, returns `NULL`. -/
theorem heap_exact_fit_example :
    heapUnits 984 = 124 ∧
    (OS_HeapMalloc 4 1 smallHeap 0 984).map
      (fun r => (r.2, r.1.size 4124, r.1.next 4124, r.1.next 4112,
        decide (HeapWellFormed r.1 4096 []))) = some (4132, 124, 4096, 4112, true) ∧
    ((OS_HeapMalloc 4 1 smallHeap 0 984).bind (fun r => OS_HeapFree 4 r.1 r.2)).map
      (fun r => (r.size 4124, r.next 4124, r.next 4112,
        decide (HeapWellFormed r 4096 [4124]))) = some (124, 4112, 4124, true) ∧
    smallHeap.alternate 4096 = 0 ∧
    (OS_HeapMalloc 4 1 smallHeap 0 985).map (fun r => r.2) = some 0 := by
  decide

/-! ## Removal and insertion with null back links -/

/-! ## Lists with null back links -/

/-- The `prev` links after `OS_ThreadPriorityRemove`. -/
theorem OS_ThreadPriorityRemove_prev (k : Kernel) (head : ListHead) (t : Nat) :
    (OS_ThreadPriorityRemove k head t).thread.prev =
      upd (match k.thread.next t with
        | some n => upd k.thread.prev n (k.thread.prev t)
        | none => k.thread.prev) t none := by
  have e : ∀ p, upd k.thread.next p (k.thread.next t) t = k.thread.next t := by
    intro p
    unfold upd
    split <;> rfl
  unfold OS_ThreadPriorityRemove
  cases hp : k.thread.prev t <;> cases hn : k.thread.next t <;> cases head <;>
    simp [Kernel.setHead, hp, hn, e] <;> simp [upd, hn]

/-- The `prev` links after the linking block of `OS_ThreadPriorityInsert`. -/
theorem priorityLink_prev (k : Kernel) (head : ListHead) (t : Nat) (prev : Option Nat) :
    (priorityLink k head t prev).thread.prev =
      match prev with
      | none => upd k.thread.prev t none
      | some p =>
        upd (match k.thread.next p with
          | some n => upd k.thread.prev n (some t)
          | none => k.thread.prev) t (some p) := by
  unfold priorityLink
  cases prev with
  | none => cases head <;> rfl
  | some p => cases hn : k.thread.next p <;> cases head <;> simp [hn]

/-- The forward link of a node of a list in memory is the node that follows it. -/
theorem IsChain_next_mid {nx : Nat → Option Nat} {l1 l2 : List Nat} {h : Option Nat} {p : Nat}
    (hc : IsChain nx h (l1 ++ p :: l2)) : nx p = l2.head? := by
  obtain ⟨m, _, hm2⟩ := IsSeg_split hc
  have h2 : IsChain nx (nx p) l2 := hm2.2
  cases l2 with
  | nil => exact h2
  | cons b l2 => exact h2.1

/-- Cutting a list in memory behind the node `t`: what the head branch of the remove functions
leaves when `t` is not the first node. -/
theorem IsChain_drop {nx : Nat → Option Nat} {l1 l2 : List Nat} {h : Option Nat} {t : Nat}
    (hc : IsChain nx h (l1 ++ t :: l2)) : IsChain (upd nx t none) (nx t) l2 := by
  have hnd := IsChain_nodup hc
  have ht2 : t ∉ l2 := (List.nodup_cons.mp (List.nodup_append.mp hnd).2.1).1
  obtain ⟨m, _, hm2⟩ := IsSeg_split hc
  exact IsSeg_congr hm2.2 (fun a ha => upd_ne _ _ (fun e => ht2 (e ▸ ha)))

theorem listWithout_cases (k : Kernel) (t : Nat) (l1 l2 : List Nat) :
    (k.thread.prev t = none ∧ k.listWithout t l1 l2 = l2) ∨
      (k.thread.prev t ≠ none ∧ k.listWithout t l1 l2 = l1 ++ l2) := by
  unfold Kernel.listWithout
  by_cases h : k.thread.prev t = none
  · exact Or.inl ⟨h, if_pos h⟩
  · exact Or.inr ⟨h, if_neg h⟩

theorem listWithout_subset (k : Kernel) (t : Nat) (l1 l2 : List Nat) :
    ∀ a ∈ k.listWithout t l1 l2, a ∈ l1 ++ l2 := by
  intro a ha
  rcases listWithout_cases k t l1 l2 with ⟨_, e⟩ | ⟨_, e⟩
  · rw [e] at ha; exact List.mem_append_right _ ha
  · rw [e] at ha; exact ha

theorem listWithout_length (k : Kernel) (t : Nat) (l1 l2 : List Nat) :
    (k.listWithout t l1 l2).length ≤ (l1 ++ l2).length := by
  rcases listWithout_cases k t l1 l2 with ⟨_, e⟩ | ⟨_, e⟩
  · rw [e]; simp
  · rw [e]

/-- The list at `head` after `OS_ThreadPriorityRemove` of a thread of the list whose back link
is `NULL` or its predecessor. -/
theorem OS_ThreadPriorityRemove_listWithout (k : Kernel) (head : ListHead) (t : Nat)
    (l1 l2 : List Nat) (hl : k.ListAt head (l1 ++ t :: l2))
    (hprev : k.thread.prev t = none ∨ k.thread.prev t = lastOr none l1) :
    (OS_ThreadPriorityRemove k head t).ListAt head (k.listWithout t l1 l2) := by
  rcases listWithout_cases k t l1 l2 with ⟨hn, e⟩ | ⟨hn, e⟩
  · rw [e]
    unfold Kernel.ListAt at hl ⊢
    rw [OS_ThreadPriorityRemove_next, OS_ThreadPriorityRemove_getHead, hn]
    exact IsChain_drop hl
  · rw [e]
    rcases hprev with h | h
    · exact absurd h hn
    · exact OS_ThreadPriorityRemove_list k head t l1 l2 hl h

theorem BackLinks_congr {k k' : Kernel} {pp : Option Nat} {l : List Nat}
    (h : k.BackLinks pp l) (hp : ∀ a ∈ l, k'.thread.prev a = k.thread.prev a) :
    k'.BackLinks pp l := by
  induction l generalizing pp with
  | nil => trivial
  | cons a l ih =>
    refine ⟨?_, ih h.2 (fun b hb => hp b (List.mem_cons_of_mem a hb))⟩
    rw [hp a (List.mem_cons_self a l)]
    exact h.1

theorem BackLinks_append {k : Kernel} {pp : Option Nat} {l1 l2 : List Nat} :
    k.BackLinks pp (l1 ++ l2) ↔ k.BackLinks pp l1 ∧ k.BackLinks (lastOr pp l1) l2 := by
  induction l1 generalizing pp with
  | nil => simp [Kernel.BackLinks, lastOr]
  | cons a l ih =>
    show (_ ∧ k.BackLinks (some a) (l ++ l2)) ↔ (_ ∧ k.BackLinks (some a) l) ∧ _
    rw [ih]
    simp only [lastOr]
    tauto

/-- The first thread of a list may sit behind any thread when its back link is `NULL`. -/
theorem BackLinks_head {k : Kernel} {pp pp' : Option Nat} {l : List Nat}
    (h : k.BackLinks pp l) (hh : ∀ a ∈ l.head?, k.thread.prev a = none ∨ k.thread.prev a = pp') :
    k.BackLinks pp' l := by
  cases l with
  | nil => trivial
  | cons a l => exact ⟨hh a (by simp), h.2⟩

theorem BackLinks_mid {k : Kernel} {l1 l2 : List Nat} {x : Nat}
    (h : k.BackLinks none (l1 ++ x :: l2)) :
    k.thread.prev x = none ∨ k.thread.prev x = lastOr none l1 :=
  (BackLinks_append.mp h).2.1

/-- The back links of a list after `OS_ThreadPriorityRemove` of one of its threads. -/
theorem OS_ThreadPriorityRemove_backLinks (k : Kernel) (head : ListHead) (x : Nat)
    (l1 l2 : List Nat) (hl : k.ListAt head (l1 ++ x :: l2))
    (hb : k.BackLinks none (l1 ++ x :: l2)) :
    (OS_ThreadPriorityRemove k head x).BackLinks none (k.listWithout x l1 l2) := by
  have hnd := IsChain_nodup hl
  have hx1 : x ∉ l1 := fun e => (List.nodup_append.mp hnd).2.2 e (List.mem_cons_self x l2)
  have hx2 : x ∉ l2 := (List.nodup_cons.mp (List.nodup_append.mp hnd).2.1).1
  have hnext : k.thread.next x = l2.head? := IsChain_next_mid hl
  obtain ⟨hb1, hbx, hb2⟩ : k.BackLinks none l1 ∧
      (k.thread.prev x = none ∨ k.thread.prev x = lastOr none l1) ∧ k.BackLinks (some x) l2 := by
    have := BackLinks_append.mp hb
    exact ⟨this.1, this.2.1, this.2.2⟩
  -- the back links of the threads behind `x`
  have h2 : (OS_ThreadPriorityRemove k head x).BackLinks (k.thread.prev x) l2 := by
    cases l2 with
    | nil => trivial
    | cons n l2 =>
      have hnx : n ≠ x := fun e => hx2 (e ▸ List.mem_cons_self n l2)
      have hnd2 := (List.nodup_cons.mp (List.nodup_append.mp hnd).2.1).2
      have hn2 : n ∉ l2 := (List.nodup_cons.mp hnd2).1
      have hnext' : k.thread.next x = some n := hnext
      refine ⟨Or.inr ?_, BackLinks_congr hb2.2 ?_⟩
      · rw [OS_ThreadPriorityRemove_prev, hnext']
        dsimp only
        rw [upd_ne _ _ hnx, upd_same]
      · intro a ha
        have hax : a ≠ x := fun e => hx2 (e ▸ List.mem_cons_of_mem n ha)
        have han : a ≠ n := fun e => hn2 (e ▸ ha)
        rw [OS_ThreadPriorityRemove_prev, hnext']
        dsimp only
        rw [upd_ne _ _ hax, upd_ne _ _ han]
  rcases listWithout_cases k x l1 l2 with ⟨hn, e⟩ | ⟨hn, e⟩
  · rw [e]
    rw [hn] at h2
    exact h2
  · rw [e]
    have hpx : k.thread.prev x = lastOr none l1 := by
      rcases hbx with h | h
      · exact absurd h hn
      · exact h
    refine BackLinks_append.mpr ⟨BackLinks_congr hb1 ?_, hpx ▸ h2⟩
    intro a ha
    have hax : a ≠ x := fun e => hx1 (e ▸ ha)
    rw [OS_ThreadPriorityRemove_prev]
    rw [upd_ne _ _ hax]
    cases hn' : k.thread.next x with
    | none => rfl
    | some n =>
      dsimp only
      have hn2 : n ∈ l2 := by
        rw [hnext] at hn'
        cases l2 with
        | nil => simp at hn'
        | cons b l2 =>
          simp only [List.head?_cons, Option.some.injEq] at hn'
          rw [← hn']
          exact List.mem_cons_self b l2
      have han : a ≠ n := by
        intro e'
        exact (List.nodup_append.mp hnd).2.2 ha (List.mem_cons_of_mem x (e' ▸ hn2))
      rw [upd_ne _ _ han]

/-- The back links of a list after the insertion of a thread by `OS_ThreadPriorityInsert`. -/
theorem priorityInsertAt_backLinks (k : Kernel) (head : ListHead) (t : Nat) (l1 l2 : List Nat)
    (hl : k.ListAt head (l1 ++ l2)) (ht : t ∉ l1 ++ l2) (hb : k.BackLinks none (l1 ++ l2)) :
    (priorityInsertAt k head t (lastOr none l1)).BackLinks none (l1 ++ t :: l2) := by
  have hnd := IsChain_nodup hl
  have ht1 : t ∉ l1 := fun e => ht (List.mem_append_left _ e)
  have ht2 : t ∉ l2 := fun e => ht (List.mem_append_right _ e)
  obtain ⟨hb1, hb2⟩ := BackLinks_append.mp hb
  rcases lastOr_cases l1 with ⟨rfl, hlast⟩ | ⟨l0, p, rfl, hlast⟩
  · rw [hlast]
    simp only [List.nil_append]
    refine ⟨Or.inl ?_, ?_⟩
    · rw [priorityInsertAt_prev, priorityLink_prev]
      exact upd_same _ _ _
    · have hb2' : k.BackLinks (some t) l2 := by
        refine BackLinks_head hb2 ?_
        intro a ha
        cases l2 with
        | nil => simp at ha
        | cons b l2 =>
          simp only [List.head?_cons, Option.mem_def, Option.some.injEq] at ha
          subst ha
          have := hb2.1
          simp only [lastOr] at this
          exact Or.inl (this.elim id id)
      refine BackLinks_congr hb2' ?_
      intro a ha
      rw [priorityInsertAt_prev, priorityLink_prev]
      exact upd_ne _ _ (fun e => ht2 (e ▸ ha))
  · rw [hlast]
    rw [hlast] at hb2
    have hl' : IsChain k.thread.next (k.getHead head) (l0 ++ p :: l2) := by
      simpa [Kernel.ListAt] using hl
    have hnext : k.thread.next p = l2.head? := IsChain_next_mid hl'
    have hpt : p ≠ t := fun e => ht1 (e ▸ by simp)
    have hprev' : (priorityInsertAt k head t (some p)).thread.prev =
        upd (match k.thread.next p with
          | some n => upd k.thread.prev n (some t)
          | none => k.thread.prev) t (some p) := by
      rw [priorityInsertAt_prev, priorityLink_prev]
    have hout : ∀ a, a ≠ t → a ∉ l2 →
        (priorityInsertAt k head t (some p)).thread.prev a = k.thread.prev a := by
      intro a hat ha2
      rw [hprev', upd_ne _ _ hat]
      cases hn : k.thread.next p with
      | none => rfl
      | some n =>
        dsimp only
        have hn2 : n ∈ l2 := by
          rw [hnext] at hn
          cases l2 with
          | nil => simp at hn
          | cons b l2 =>
            simp only [List.head?_cons, Option.some.injEq] at hn
            rw [← hn]
            exact List.mem_cons_self b l2
        exact upd_ne _ _ (fun e => ha2 (e ▸ hn2))
    refine BackLinks_append.mpr ⟨BackLinks_congr hb1 ?_, ?_⟩
    · intro a ha
      refine hout a (fun e => ht1 (e ▸ ha)) ?_
      intro ha2
      exact (List.nodup_append.mp hnd).2.2 ha ha2
    · rw [hlast]
      refine ⟨Or.inr ?_, ?_⟩
      · rw [hprev']
        exact upd_same _ _ _
      · cases l2 with
        | nil => trivial
        | cons n l2 =>
          have hn : k.thread.next p = some n := hnext
          have hnt : n ≠ t := fun e => ht2 (e ▸ List.mem_cons_self n l2)
          have hnd2 := (List.nodup_append.mp hnd).2.1
          have hn2 : n ∉ l2 := (List.nodup_cons.mp hnd2).1
          refine ⟨Or.inr ?_, BackLinks_congr hb2.2 ?_⟩
          · rw [hprev', hn]
            dsimp only
            rw [upd_ne _ _ hnt, upd_same]
          · intro a ha
            have hat : a ≠ t := fun e => ht2 (e ▸ List.mem_cons_of_mem n ha)
            have han : a ≠ n := fun e => hn2 (e ▸ ha)
            rw [hprev', hn]
            dsimp only
            rw [upd_ne _ _ hat, upd_ne _ _ han]

/-! ## C34: the order of a waiter list with null back links -/

/-- A removal from a list leaves the back links of another list as they are, when neither the
thread removed nor the thread behind it is on the other list. -/
theorem backLinks_remove_other (k : Kernel) (head : ListHead) (t : Nat) (W : List Nat)
    (pp : Option Nat) (hb : k.BackLinks pp W) (ht : t ∉ W)
    (hn : ∀ n ∈ k.thread.next t, n ∉ W) :
    (OS_ThreadPriorityRemove k head t).BackLinks pp W := by
  refine BackLinks_congr hb ?_
  intro a ha
  have hat : a ≠ t := fun e => ht (e ▸ ha)
  rw [OS_ThreadPriorityRemove_prev, upd_ne _ _ hat]
  cases hx : k.thread.next t with
  | none => rfl
  | some n =>
    dsimp only
    exact upd_ne _ _ (fun e => hn n (by simp [hx]) (e ▸ ha))

/-- An insertion on a list leaves the back links of another list as they are, when neither the
thread inserted nor the thread behind its new predecessor is on the other list. -/
theorem backLinks_insert_other (k : Kernel) (head : ListHead) (t : Nat) (prev : Option Nat)
    (W : List Nat) (pp : Option Nat) (hb : k.BackLinks pp W) (ht : t ∉ W)
    (hn : ∀ p ∈ prev, ∀ n ∈ k.thread.next p, n ∉ W) :
    (priorityInsertAt k head t prev).BackLinks pp W := by
  refine BackLinks_congr hb ?_
  intro a ha
  have hat : a ≠ t := fun e => ht (e ▸ ha)
  rw [priorityInsertAt_prev, priorityLink_prev]
  cases prev with
  | none => exact upd_ne _ _ hat
  | some p =>
    dsimp only
    rw [upd_ne _ _ hat]
    cases hx : k.thread.next p with
    | none => rfl
    | some n =>
      dsimp only
      exact upd_ne _ _ (fun e => hn p (by simp) n (by simp [hx]) (e ▸ ha))

theorem mem_of_head_some {l : List Nat} {a : Nat} (h : l.head? = some a) : a ∈ l := by
  cases l with
  | nil => simp at h
  | cons b l =>
    simp only [List.head?_cons, Option.some.injEq] at h
    rw [← h]
    exact List.mem_cons_self b l

/-- The thread behind a thread of a list in memory is on the list. -/
theorem IsChain_next_mem {nx : Nat → Option Nat} {l : List Nat} {h : Option Nat} {p n : Nat}
    (hc : IsChain nx h l) (hp : p ∈ l) (hn : nx p = some n) : n ∈ l := by
  obtain ⟨l1, l2, rfl⟩ := List.append_of_mem hp
  have := IsChain_next_mid hc
  rw [hn] at this
  exact List.mem_append_right _ (List.mem_cons_of_mem p (mem_of_head_some this.symm))

/-- The blocking branch of `OS_SemaphorePend` for the running thread `t` on a semaphore whose
waiter list is sorted: `t` is inserted so that the list is still sorted, and every back link of
the list is `NULL` or the predecessor as before. -/
theorem pendEnqueue_order (WF : Int) (fuel : Nat) (k : Kernel) (s t : Nat) (Ticks : Int)
    (W r1 r2 T : List Nat)
    (hW : k.WaiterList s W)
    (hsorted : W.Pairwise (fun a b => k.thread.priority b ≤ k.thread.priority a))
    (hWb : k.BackLinks none W)
    (hR : k.ReadyList (r1 ++ t :: r2))
    (hprev : k.thread.prev t = none ∨ k.thread.prev t = lastOr none r1)
    (hrest : k.listWithout t r1 r2 ≠ []) (hdisj : ∀ u ∈ W, u ∉ r1 ++ t :: r2)
    (hT : IsChain k.thread.nextTimeout k.TimeoutHead T)
    (hfW : W.length < fuel) (hfT : T.length < fuel) :
    ∃ k' l1 l2, pendEnqueue WF fuel k s Ticks t = some k' ∧ W = l1 ++ l2 ∧
      k'.WaiterList s (l1 ++ t :: l2) ∧ k'.thread.priority = k.thread.priority ∧
      (l1 ++ t :: l2).Pairwise (fun a b => k.thread.priority b ≤ k.thread.priority a) ∧
      k'.BackLinks none (l1 ++ t :: l2) ∧ k'.ThreadHead ≠ none := by
  have htW : t ∉ W := fun h => hdisj t h (by simp)
  have hpW : ∀ p, k.thread.prev t = some p → p ∉ W := by
    intro p hp h
    rcases hprev with e | e
    · rw [e] at hp; exact absurd hp (by simp)
    · rw [e] at hp
      exact hdisj p h (List.mem_append_left _ (lastOr_mem hp))
  have hnW : ∀ n ∈ k.thread.next t, n ∉ W := by
    intro n hn h
    have hn' : k.thread.next t = some n := hn
    exact hdisj n h (IsChain_next_mem hR (by simp) hn')
  -- the state before the removal from the ready list
  obtain ⟨k3, hk3⟩ : ∃ k3, k3 = { { k with
      thread.semaphorePending := upd k.thread.semaphorePending t (some s) } with
      thread.ticksTimeout := upd k.thread.ticksTimeout t (toUInt32 (Ticks + (k.ThreadTime : Int))) } :=
    ⟨_, rfl⟩
  have h3W : k3.WaiterList s W := by rw [hk3]; exact hW
  have h3R : k3.ListAt .ready (r1 ++ t :: r2) := by rw [hk3]; exact hR
  have h3prev : k3.thread.prev t = none ∨ k3.thread.prev t = lastOr none r1 := by
    rw [hk3]; exact hprev
  have h3prio : k3.thread.priority = k.thread.priority := by rw [hk3]
  have h3T : IsChain k3.thread.nextTimeout k3.TimeoutHead T := by rw [hk3]; exact hT
  have h3b : k3.BackLinks none W := BackLinks_congr hWb (by intro a _; rw [hk3])
  have h3rest : k3.listWithout t r1 r2 = k.listWithout t r1 r2 := by rw [hk3]; rfl
  -- the removal
  have h4W : (OS_ThreadPriorityRemove k3 .ready t).ListAt (.waiters s) W :=
    waiters_ready_remove k3 s t W h3W htW (by rw [hk3]; exact hpW)
  have h4R := OS_ThreadPriorityRemove_listWithout k3 .ready t r1 r2 h3R h3prev
  rw [h3rest] at h4R
  have h4b : (OS_ThreadPriorityRemove k3 .ready t).BackLinks none W :=
    backLinks_remove_other k3 .ready t W none h3b htW (by rw [hk3]; exact hnW)
  -- the insertion
  obtain ⟨l1, l2, hsplit, hl1, hl2, hins, hlist⟩ :=
    OS_ThreadPriorityInsert_spec fuel (OS_ThreadPriorityRemove k3 .ready t) (.waiters s) t W
      h4W htW hfW
  simp only [OS_ThreadPriorityRemove_priority, h3prio] at hl1 hl2
  obtain ⟨k5, hk5⟩ : ∃ k5, k5 = priorityInsertAt (OS_ThreadPriorityRemove k3 .ready t)
      (.waiters s) t (lastOr none l1) := ⟨_, rfl⟩
  have h5b : k5.BackLinks none (l1 ++ t :: l2) := by
    rw [hk5]
    exact priorityInsertAt_backLinks _ (.waiters s) t l1 l2 (hsplit ▸ h4W) (hsplit ▸ htW)
      (hsplit ▸ h4b)
  rw [← hk5] at hins hlist
  have h5prio : k5.thread.priority = k.thread.priority := by
    rw [hk5, priorityInsertAt_priority, OS_ThreadPriorityRemove_priority, h3prio]
  have h5T : IsChain k5.thread.nextTimeout k5.TimeoutHead T := by
    rw [hk5, priorityInsertAt_nextTimeout, priorityInsertAt_TimeoutHead,
      OS_ThreadPriorityRemove_nextTimeout, OS_ThreadPriorityRemove_TimeoutHead]
    exact h3T
  have h5R : k5.ThreadHead ≠ none := by
    rw [hk5, priorityInsertAt_ThreadHead]
    exact ReadyList_head_ne_none _ _ h4R hrest
  have hs' : (l1 ++ t :: l2).Pairwise (fun a b => k.thread.priority b ≤ k.thread.priority a) :=
    sorted_insert k.thread.priority t l1 l2 (hsplit ▸ hsorted) hl1 hl2
  unfold pendEnqueue
  dsimp only
  rw [← hk3, hins]
  dsimp only
  by_cases hwf : Ticks ≠ WF
  · rw [if_pos hwf]
    obtain ⟨prev, hti⟩ := OS_ThreadTimeoutInsert_returns fuel k5 t T h5T hfT
    refine ⟨_, l1, l2, hti, hsplit, ?_, ?_, hs', ?_, ?_⟩
    · unfold Kernel.WaiterList
      rw [timeoutLink_next, timeoutLink_semaphore]
      exact hlist
    · rw [timeoutLink_priority, h5prio]
    · exact BackLinks_congr h5b (by intro a _; rw [timeoutLink_prev])
    · rw [timeoutLink_ThreadHead]
      exact h5R
  · rw [if_neg hwf]
    exact ⟨k5, l1, l2, rfl, hsplit, hlist, h5prio, hs', h5b, h5R⟩

/-- The function `OS_SemaphorePend` by the running thread `t` on a semaphore without a free
count whose waiter list is sorted: `t` is inserted so that the list is still sorted. -/
theorem OS_SemaphorePend_order (WF : Int) (fuel : Nat) (k : Kernel) (s t : Nat) (Ticks : Int)
    (W r1 r2 T : List Nat)
    (hW : k.WaiterList s W)
    (hsorted : W.Pairwise (fun a b => k.thread.priority b ≤ k.thread.priority a))
    (hWb : k.BackLinks none W)
    (hcount : k.semaphore.count s ≤ 0) (hcur : k.ThreadCurrent = some t)
    (hR : k.ReadyList (r1 ++ t :: r2))
    (hprev : k.thread.prev t = none ∨ k.thread.prev t = lastOr none r1)
    (hrest : k.listWithout t r1 r2 ≠ []) (hdisj : ∀ u ∈ W, u ∉ r1 ++ t :: r2)
    (hT : IsChain k.thread.nextTimeout k.TimeoutHead T) (hTicks : Ticks ≠ 0)
    (hfW : W.length < fuel) (hfT : T.length < fuel) :
    ∃ k' r l1 l2, OS_SemaphorePend WF fuel k s Ticks = some (k', r) ∧ W = l1 ++ l2 ∧
      k'.WaiterList s (l1 ++ t :: l2) ∧ k'.thread.priority = k.thread.priority ∧
      (l1 ++ t :: l2).Pairwise (fun a b => k'.thread.priority b ≤ k'.thread.priority a) ∧
      k'.BackLinks none (l1 ++ t :: l2) := by
  obtain ⟨k6, l1, l2, hk6, hsplit, h6W, h6prio, hs', h6b, h6R⟩ := pendEnqueue_order WF fuel
    { k with semaphore.count := upd k.semaphore.count s (k.semaphore.count s - 1) }
    s t Ticks W r1 r2 T hW hsorted (BackLinks_congr hWb (fun _ _ => rfl)) hR hprev hrest hdisj hT
    hfW hfT
  dsimp only at hk6 h6prio hs'
  obtain ⟨c, n, hres⟩ := OS_ThreadReschedule_returns k6 0 h6R
  have hlt : upd k.semaphore.count s (k.semaphore.count s - 1) s < 0 := by
    rw [upd_same]
    omega
  have hfin : ∃ r, OS_SemaphorePend WF fuel k s Ticks =
      some ({ k6 with ThreadCurrent := c, ThreadNeedReschedule := n }, r) := by
    unfold OS_SemaphorePend
    dsimp only
    rw [if_pos hlt, if_neg hTicks, hcur]
    dsimp only
    rw [hcur] at hk6
    rw [hk6]
    dsimp only
    rw [hres]
    dsimp only
    split
    · exact ⟨_, rfl⟩
    · exact ⟨_, rfl⟩
  obtain ⟨r, hr⟩ := hfin
  refine ⟨_, r, l1, l2, hr, hsplit, h6W, h6prio, ?_, BackLinks_congr h6b (fun _ _ => rfl)⟩
  show (l1 ++ t :: l2).Pairwise (fun a b => k6.thread.priority b ≤ k6.thread.priority a)
  rw [h6prio]
  exact hs'

theorem listWithout_pairwise {k : Kernel} {x : Nat} {l1 l2 : List Nat} {r : Nat → Nat → Prop}
    (h : (l1 ++ x :: l2).Pairwise r) : (k.listWithout x l1 l2).Pairwise r := by
  obtain ⟨hs1, hs2, hs12⟩ := List.pairwise_append.mp h
  rcases listWithout_cases k x l1 l2 with ⟨_, e⟩ | ⟨_, e⟩
  · rw [e]
    exact (List.pairwise_cons.mp hs2).2
  · rw [e]
    exact List.pairwise_append.mpr ⟨hs1, (List.pairwise_cons.mp hs2).2,
      fun a ha b hb => hs12 a ha b (List.mem_cons_of_mem _ hb)⟩

/-- The tick at which the timeout of the first thread `x` of the timeout list is reached, and
of no other thread: `x` leaves the waiter list of its semaphore, and the waiters that stay on
the list keep their order. -/
theorem OS_ThreadTick_order (fuel : Nat) (k : Kernel) (s x : Nat) (w1 w2 R T : List Nat)
    (hW : k.WaiterList s (w1 ++ x :: w2)) (hWb : k.BackLinks none (w1 ++ x :: w2))
    (hR : k.ReadyList R) (hdisj : ∀ u ∈ w1 ++ x :: w2, u ∉ R)
    (hT : k.TimeoutList (x :: T)) (hxsem : k.thread.semaphorePending x = some s)
    (hdue : 0 ≤ tickDiff ((k.ThreadTime + 1) % 4294967296) (k.thread.ticksTimeout x))
    (hnext : ∀ y ∈ T.head?,
      tickDiff ((k.ThreadTime + 1) % 4294967296) (k.thread.ticksTimeout y) < 0)
    (hf : R.length < fuel) (hf2 : 2 ≤ fuel) :
    ∃ k', OS_ThreadTick fuel k = some k' ∧ k'.WaiterList s (k.listWithout x w1 w2) ∧
      k'.BackLinks none (k.listWithout x w1 w2) ∧
      k'.thread.priority = k.thread.priority ∧ k'.thread.state x = THREAD_READY := by
  have hxprev := BackLinks_mid hWb
  have hnd := IsChain_nodup hW
  have hx1 : x ∉ w1 := fun e => (List.nodup_append.mp hnd).2.2 e (List.mem_cons_self x w2)
  have hx2 : x ∉ w2 := (List.nodup_cons.mp (List.nodup_append.mp hnd).2.1).1
  have hxW : x ∉ w1 ++ w2 := by
    intro e
    rcases List.mem_append.mp e with e | e
    · exact hx1 e
    · exact hx2 e
  have hsub : ∀ a ∈ k.listWithout x w1 w2, a ∈ w1 ++ x :: w2 := by
    intro a ha
    rcases List.mem_append.mp (listWithout_subset k x w1 w2 a ha) with e | e
    · exact List.mem_append_left _ e
    · exact List.mem_append_right _ (List.mem_cons_of_mem _ e)
  have hxW' : x ∉ k.listWithout x w1 w2 := fun e => hxW (listWithout_subset k x w1 w2 x e)
  have hxR : x ∉ R := hdisj x (by simp)
  obtain ⟨fuel, rfl⟩ : ∃ f, fuel = f + 2 := ⟨fuel - 2, by omega⟩
  have hhead : k.TimeoutHead = some x := hT.1
  -- the state after the removal from the timeout list
  obtain ⟨k2, hk2⟩ : ∃ k2, k2 = OS_ThreadTimeoutRemove
      { k with ThreadTime := (k.ThreadTime + 1) % 4294967296 } x := ⟨_, rfl⟩
  have h2T : k2.TimeoutHead = T.head? := by
    have := OS_ThreadTimeoutRemove_list
      { k with ThreadTime := (k.ThreadTime + 1) % 4294967296 } x (x :: T) hT
      (fun hn => absurd (List.mem_cons_self x T) hn)
    rw [← hk2, List.erase_cons_head] at this
    cases T with
    | nil => exact this
    | cons y T => exact this.1
  have h2sp : k2.thread.semaphorePending x = some s := by
    rw [hk2, OS_ThreadTimeoutRemove_semaphorePending]; exact hxsem
  -- the state after the removal from the waiter list
  obtain ⟨k4, hk4⟩ : ∃ k4 : Kernel, k4 = { { { k2 with
      semaphore.count := upd k2.semaphore.count s (k2.semaphore.count s + 1) } with
      thread.semaphorePending := upd k2.thread.semaphorePending x none } with
      thread.returnCode := upd k2.thread.returnCode x (-1) } := ⟨_, rfl⟩
  have h4prev : k4.thread.prev = k.thread.prev := by
    rw [hk4, hk2]; exact OS_ThreadTimeoutRemove_prev _ _
  have h4next : k4.thread.next = k.thread.next := by
    rw [hk4, hk2]; exact OS_ThreadTimeoutRemove_next _ _
  have h4W : k4.ListAt (.waiters s) (w1 ++ x :: w2) := by
    unfold Kernel.ListAt
    rw [h4next]
    have : k4.getHead (.waiters s) = k.semaphore.threadHead s := by
      rw [hk4, hk2]
      simp [Kernel.getHead]
    rw [this]
    exact hW
  have h4b : k4.BackLinks none (w1 ++ x :: w2) :=
    BackLinks_congr hWb (fun a _ => by rw [h4prev])
  have h4rest : k4.listWithout x w1 w2 = k.listWithout x w1 w2 := by
    unfold Kernel.listWithout
    rw [h4prev]
  obtain ⟨k5, hk5⟩ : ∃ k5, k5 = tickWake k2 x s := ⟨_, rfl⟩
  have hk5' : k5 = OS_ThreadPriorityRemove k4 (.waiters s) x := by
    rw [hk5, hk4]
    rfl
  have h5W : k5.ListAt (.waiters s) (k.listWithout x w1 w2) := by
    rw [hk5', ← h4rest]
    exact OS_ThreadPriorityRemove_listWithout k4 (.waiters s) x w1 w2 h4W
      (by rw [h4prev]; exact hxprev)
  have h5b : k5.BackLinks none (k.listWithout x w1 w2) := by
    rw [hk5', ← h4rest]
    exact OS_ThreadPriorityRemove_backLinks k4 (.waiters s) x w1 w2 h4W h4b
  have h5R : k5.ListAt .ready R := by
    rw [hk5']
    refine ready_waiters_remove _ s x R ?_ hxR ?_
    · unfold Kernel.ReadyList
      rw [h4next]
      have : k4.ThreadHead = k.ThreadHead := by
        rw [hk4, hk2]
        simp
      rw [this]
      exact hR
    · intro p hp
      rw [h4prev] at hp
      rcases hxprev with e | e
      · rw [e] at hp; exact absurd hp (by simp)
      · rw [e] at hp
        exact hdisj p (List.mem_append_left _ (lastOr_mem hp))
  have h5prio : k5.thread.priority = k.thread.priority := by
    rw [hk5', OS_ThreadPriorityRemove_priority, hk4, hk2]
    exact OS_ThreadTimeoutRemove_priority _ _
  have h5T : k5.TimeoutHead = T.head? := by
    rw [hk5', OS_ThreadPriorityRemove_TimeoutHead, hk4]; exact h2T
  have h5tt : k5.thread.ticksTimeout = k.thread.ticksTimeout := by
    rw [hk5', OS_ThreadPriorityRemove_ticksTimeout, hk4, hk2]
    exact OS_ThreadTimeoutRemove_ticksTimeout _ _
  have h5time : k5.ThreadTime = (k.ThreadTime + 1) % 4294967296 := by
    rw [hk5', OS_ThreadPriorityRemove_ThreadTime, hk4, hk2]
    exact OS_ThreadTimeoutRemove_ThreadTime _ _
  -- the insertion on the ready list
  obtain ⟨R1, R2, hsplit, hR1, hR2, hins, hlist⟩ :=
    OS_ThreadPriorityInsert_spec (fuel + 2) k5 .ready x R h5R hxR hf
  obtain ⟨k6, hk6⟩ : ∃ k6, k6 = priorityInsertAt k5 .ready x (lastOr none R1) := ⟨_, rfl⟩
  rw [← hk6] at hins hlist
  have hpR : ∀ p, lastOr none R1 = some p → p ∈ R := by
    intro p hp
    rw [hsplit]
    exact List.mem_append_left _ (lastOr_mem hp)
  have h6W : k6.WaiterList s (k.listWithout x w1 w2) := by
    rw [hk6]
    refine waiters_ready_insert k5 s x _ _ h5W hxW' ?_
    intro p hp hpW
    exact hdisj p (hsub p hpW) (hpR p hp)
  have h6b : k6.BackLinks none (k.listWithout x w1 w2) := by
    rw [hk6]
    refine backLinks_insert_other k5 .ready x _ _ none h5b hxW' ?_
    intro p hp n hn hnW
    have hp' : lastOr none R1 = some p := hp
    have hn' : k5.thread.next p = some n := hn
    exact hdisj n (hsub n hnW) (IsChain_next_mem h5R (hpR p hp') hn')
  have h6T : k6.TimeoutHead = T.head? := by rw [hk6, priorityInsertAt_TimeoutHead]; exact h5T
  have h6tt : k6.thread.ticksTimeout = k.thread.ticksTimeout := by
    rw [hk6, priorityInsertAt_ticksTimeout]; exact h5tt
  have h6time : k6.ThreadTime = (k.ThreadTime + 1) % 4294967296 := by
    rw [hk6, priorityInsertAt_ThreadTime]; exact h5time
  have h6prio : k6.thread.priority = k.thread.priority := by
    rw [hk6, priorityInsertAt_priority]; exact h5prio
  have h6ne : k6.ThreadHead ≠ none :=
    ReadyList_head_ne_none k6 _ hlist (by cases R1 <;> simp)
  obtain ⟨c, n, hres⟩ := OS_ThreadReschedule_returns k6 1 h6ne
  refine ⟨{ k6 with ThreadCurrent := c, ThreadNeedReschedule := n }, ?_, h6W,
    BackLinks_congr h6b (fun _ _ => rfl), h6prio, ?_⟩
  · unfold OS_ThreadTick
    dsimp only
    have hloop : tickLoop (fuel + 2) (fuel + 2)
        { k with ThreadTime := (k.ThreadTime + 1) % 4294967296 } = some k6 := by
      rw [tickLoop]
      dsimp only
      rw [hhead]
      dsimp only
      rw [if_neg (by omega)]
      rw [hhead] at hk2
      rw [← hk2, h2sp]
      dsimp only
      rw [← hk5, hins]
      dsimp only
      rw [tickLoop, h6T]
      cases hT' : T.head? with
      | none => rfl
      | some y =>
        dsimp only
        rw [h6time, h6tt, if_pos (hnext y (by rw [hT']; simp))]
    rw [hloop]
    dsimp only
    exact hres
  · show k6.thread.state x = THREAD_READY
    rw [hk6, priorityInsertAt_ready_state]; simp

/-- The function `OS_ThreadPrioritySet` on a thread of the ready list leaves the waiter list of
a semaphore, its back links and the priorities of its threads as they are. -/
theorem OS_ThreadPrioritySet_order (fuel : Nat) (k : Kernel) (s t P : Nat)
    (W r1 r2 : List Nat) (hW : k.WaiterList s W) (hWb : k.BackLinks none W)
    (hR : k.ReadyList (r1 ++ t :: r2))
    (hprev : k.thread.prev t = none ∨ k.thread.prev t = lastOr none r1)
    (hstate : k.thread.state t ≠ THREAD_PEND) (hdisj : ∀ u ∈ W, u ∉ r1 ++ t :: r2)
    (hf : (r1 ++ r2).length < fuel) :
    ∃ k', OS_ThreadPrioritySet fuel k t P = some k' ∧ k'.WaiterList s W ∧
      k'.BackLinks none W ∧ ∀ u ∈ W, k'.thread.priority u = k.thread.priority u := by
  have htW : t ∉ W := fun h => hdisj t h (by simp)
  have hnd := IsChain_nodup hR
  have ht1 : t ∉ r1 := fun e => (List.nodup_append.mp hnd).2.2 e (List.mem_cons_self t r2)
  have ht2 : t ∉ r2 := (List.nodup_cons.mp (List.nodup_append.mp hnd).2.1).1
  have htR : t ∉ r1 ++ r2 := by
    intro e
    rcases List.mem_append.mp e with e | e
    · exact ht1 e
    · exact ht2 e
  have hsub : ∀ a ∈ k.listWithout t r1 r2, a ∈ r1 ++ t :: r2 := by
    intro a ha
    rcases List.mem_append.mp (listWithout_subset k t r1 r2 a ha) with e | e
    · exact List.mem_append_left _ e
    · exact List.mem_append_right _ (List.mem_cons_of_mem _ e)
  have htR' : t ∉ k.listWithout t r1 r2 := fun e => htR (listWithout_subset k t r1 r2 t e)
  obtain ⟨k1, hk1⟩ : ∃ k1, k1 = { k with thread.priority := upd k.thread.priority t P } :=
    ⟨_, rfl⟩
  have h1W : k1.WaiterList s W := by rw [hk1]; exact hW
  have h1R : k1.ListAt .ready (r1 ++ t :: r2) := by rw [hk1]; exact hR
  have h1prev : k1.thread.prev t = none ∨ k1.thread.prev t = lastOr none r1 := by
    rw [hk1]; exact hprev
  have h1b : k1.BackLinks none W := BackLinks_congr hWb (by intro a _; rw [hk1])
  have h1rest : k1.listWithout t r1 r2 = k.listWithout t r1 r2 := by rw [hk1]; rfl
  have h2W : (OS_ThreadPriorityRemove k1 .ready t).WaiterList s W :=
    waiters_ready_remove k1 s t W h1W htW (by
      intro p hp
      rcases h1prev with e | e
      · rw [e] at hp; exact absurd hp (by simp)
      · rw [e] at hp
        exact fun h => hdisj p h (List.mem_append_left _ (lastOr_mem hp)))
  have h2b : (OS_ThreadPriorityRemove k1 .ready t).BackLinks none W := by
    refine backLinks_remove_other k1 .ready t W none h1b htW ?_
    intro n hn h
    have hn' : k1.thread.next t = some n := hn
    exact hdisj n h (IsChain_next_mem h1R (by simp) hn')
  have h2R := OS_ThreadPriorityRemove_listWithout k1 .ready t r1 r2 h1R h1prev
  rw [h1rest] at h2R
  obtain ⟨R1, R2, hsplit, _, _, hins, hlist⟩ :=
    OS_ThreadPriorityInsert_spec fuel (OS_ThreadPriorityRemove k1 .ready t) .ready t
      (k.listWithout t r1 r2) h2R htR'
      (Nat.lt_of_le_of_lt (listWithout_length k t r1 r2) hf)
  obtain ⟨k3, hk3⟩ : ∃ k3, k3 = priorityInsertAt (OS_ThreadPriorityRemove k1 .ready t)
      .ready t (lastOr none R1) := ⟨_, rfl⟩
  rw [← hk3] at hins hlist
  have hpR : ∀ p, lastOr none R1 = some p → p ∈ r1 ++ t :: r2 := by
    intro p hp
    refine hsub p ?_
    rw [hsplit]
    exact List.mem_append_left _ (lastOr_mem hp)
  have h3W : k3.WaiterList s W := by
    rw [hk3]
    refine waiters_ready_insert _ s t _ W h2W htW ?_
    intro p hp hpW
    exact hdisj p hpW (hpR p hp)
  have h3b : k3.BackLinks none W := by
    rw [hk3]
    refine backLinks_insert_other _ .ready t _ W none h2b htW ?_
    intro p hp n hn hnW
    have hp' : lastOr none R1 = some p := hp
    have hn' : (OS_ThreadPriorityRemove k1 .ready t).thread.next p = some n := hn
    have hpin : p ∈ k.listWithout t r1 r2 := by
      rw [hsplit]
      exact List.mem_append_left _ (lastOr_mem hp')
    exact hdisj n hnW (hsub n (IsChain_next_mem h2R hpin hn'))
  have h3prio : k3.thread.priority = upd k.thread.priority t P := by
    rw [hk3, priorityInsertAt_priority, OS_ThreadPriorityRemove_priority, hk1]
  have h3ne : k3.ThreadHead ≠ none :=
    ReadyList_head_ne_none k3 _ hlist (by cases R1 <;> simp)
  obtain ⟨c, n, hres⟩ := OS_ThreadReschedule_returns k3 0 h3ne
  refine ⟨{ k3 with ThreadCurrent := c, ThreadNeedReschedule := n }, ?_, h3W,
    BackLinks_congr h3b (fun _ _ => rfl), ?_⟩
  · unfold OS_ThreadPrioritySet
    dsimp only
    rw [if_pos hstate, ← hk1, hins]
    dsimp only
    exact hres
  · intro u hu
    show k3.thread.priority u = k.thread.priority u
    have hut : u ≠ t := fun e => htW (e ▸ hu)
    rw [h3prio, upd_ne _ _ hut]

/-- The back links of the waiters that stay on the list after the waking branch of
`OS_SemaphorePost`. -/
theorem postWake_backLinks (fuel : Nat) (k k' : Kernel) (s w : Nat) (ws R : List Nat)
    (hW : k.WaiterList s (w :: ws)) (hb : k.BackLinks none (w :: ws))
    (hR : k.ReadyList R) (hdisj : ∀ u ∈ w :: ws, u ∉ R) (hf : R.length < fuel)
    (hk' : postWake fuel k s w = some k') : k'.BackLinks none ws := by
  have hnd := IsChain_nodup hW
  have hwws : w ∉ ws := (List.nodup_cons.mp hnd).1
  have hwR : w ∉ R := hdisj w (by simp)
  have hprev : k.thread.prev w = none := hb.1.elim id id
  obtain ⟨k2, hk2⟩ : ∃ k2, k2 = OS_ThreadTimeoutRemove k w := ⟨_, rfl⟩
  have h2prev : k2.thread.prev = k.thread.prev := by rw [hk2]; exact OS_ThreadTimeoutRemove_prev _ _
  have h2next : k2.thread.next = k.thread.next := by rw [hk2]; exact OS_ThreadTimeoutRemove_next _ _
  have h2W : k2.ListAt (.waiters s) ([] ++ w :: ws) := by
    unfold Kernel.ListAt
    rw [h2next]
    have : k2.getHead (.waiters s) = k.semaphore.threadHead s := by
      rw [hk2]
      simp [Kernel.getHead]
    rw [this]
    exact hW
  have h2b : k2.BackLinks none ([] ++ w :: ws) := BackLinks_congr hb (fun a _ => by rw [h2prev])
  have h2rest : k2.listWithout w [] ws = ws := by
    unfold Kernel.listWithout
    split <;> rfl
  obtain ⟨k3, hk3⟩ : ∃ k3, k3 = OS_ThreadPriorityRemove k2 (.waiters s) w := ⟨_, rfl⟩
  have h3b : k3.BackLinks none ws := by
    have := OS_ThreadPriorityRemove_backLinks k2 (.waiters s) w [] ws h2W h2b
    rw [h2rest] at this
    rw [hk3]
    exact this
  have h3R : k3.ListAt .ready R := by
    rw [hk3]
    refine ready_waiters_remove _ s w R ?_ hwR ?_
    · unfold Kernel.ReadyList
      rw [h2next]
      have : k2.ThreadHead = k.ThreadHead := by
        rw [hk2]
        simp
      rw [this]
      exact hR
    · intro p hp
      rw [h2prev, hprev] at hp
      exact absurd hp (by simp)
  obtain ⟨R1, R2, hsplit, _, _, hins, _⟩ :=
    OS_ThreadPriorityInsert_spec fuel k3 .ready w R h3R hwR hf
  have h4b : (priorityInsertAt k3 .ready w (lastOr none R1)).BackLinks none ws := by
    refine backLinks_insert_other k3 .ready w _ ws none h3b hwws ?_
    intro p hp n hn hnW
    have hp' : lastOr none R1 = some p := hp
    have hn' : k3.thread.next p = some n := hn
    have hpR : p ∈ R := by
      rw [hsplit]
      exact List.mem_append_left _ (lastOr_mem hp')
    exact hdisj n (List.mem_cons_of_mem _ hnW) (IsChain_next_mem h3R hpR hn')
  unfold postWake at hk'
  dsimp only at hk'
  rw [← hk2, ← hk3, hins] at hk'
  dsimp only at hk'
  have e := Option.some.inj hk'
  rw [← e]
  exact BackLinks_congr h4b (fun _ _ => rfl)

/-- The function `OS_SemaphorePost` on a semaphore with a sorted waiter list wakes the head of
the list, which has the greatest priority, and the other waiters stay in their order. -/
theorem OS_SemaphorePost_order (fuel : Nat) (k : Kernel) (s w : Nat) (ws R T : List Nat)
    (hcount : k.semaphore.count s < 0)
    (hW : k.WaiterList s (w :: ws)) (hWb : k.BackLinks none (w :: ws))
    (hsorted : (w :: ws).Pairwise (fun a b => k.thread.priority b ≤ k.thread.priority a))
    (hR : k.ReadyList R) (hdisj : ∀ u ∈ w :: ws, u ∉ R)
    (hT : k.TimeoutList T) (hwT : w ∉ T → k.thread.prevTimeout w = none)
    (hf : R.length < fuel) :
    ∃ k', OS_SemaphorePost fuel k s = some k' ∧ k'.WaiterList s ws ∧
      k'.thread.priority = k.thread.priority ∧
      ws.Pairwise (fun a b => k'.thread.priority b ≤ k'.thread.priority a) ∧
      k'.BackLinks none ws ∧
      k'.thread.state w = THREAD_READY ∧
      ∀ u ∈ ws, k'.thread.priority u ≤ k'.thread.priority w := by
  have hc1 : k.semaphore.count s + 1 ≤ 0 := by omega
  have hhead : k.semaphore.threadHead s = some w := hW.1
  have hprev : k.thread.prev w = none := hWb.1.elim id id
  obtain ⟨k6, R1, R2, hpw, _, h2, _, _, h5, _, _, h8, _, _, h11, _, _⟩ :=
    postWake_spec fuel
      { k with semaphore.count := upd k.semaphore.count s (k.semaphore.count s + 1) }
      s w ws R T hW hprev hR (hdisj w (by simp))
      (fun u hu => hdisj u (List.mem_cons_of_mem _ hu)) hT hwT hf
  have h6b : k6.BackLinks none ws :=
    postWake_backLinks fuel
      { k with semaphore.count := upd k.semaphore.count s (k.semaphore.count s + 1) }
      k6 s w ws R hW (BackLinks_congr hWb (fun _ _ => rfl)) hR hdisj hf hpw
  have hne : k6.ThreadHead ≠ none :=
    ReadyList_head_ne_none k6 _ h5 (by cases R1 <;> simp)
  obtain ⟨c, n, hres⟩ := OS_ThreadReschedule_returns k6 0 hne
  have h11' : k6.thread.priority = k.thread.priority := h11
  refine ⟨{ k6 with ThreadCurrent := c, ThreadNeedReschedule := n }, ?_, h2, h11', ?_,
    BackLinks_congr h6b (fun _ _ => rfl), h8, ?_⟩
  · unfold OS_SemaphorePost
    dsimp only
    rw [if_pos (by simpa using hc1), hhead]
    dsimp only
    rw [hpw]
    dsimp only
    exact hres
  · show ws.Pairwise (fun a b => k6.thread.priority b ≤ k6.thread.priority a)
    rw [h11']
    exact (List.pairwise_cons.mp hsorted).2
  · intro u hu
    show k6.thread.priority u ≤ k6.thread.priority w
    rw [h11']
    exact List.rel_of_pairwise_cons hsorted hu

/-- The state `staleWaiters`: the waiters are A, B, the back link of B is `NULL`, and the tick
that wakes B leaves the waiter list empty. -/
theorem staleWaiters_example :
    staleWaiters.WaiterList 1 [3, 4] ∧ staleWaiters.thread.prev 4 = none ∧
    staleWaiters.ReadyList [2, 1] ∧ staleWaiters.ThreadCurrent = some 2 ∧
    staleWaiters.listWithout 4 [3] [] = [] := by
  decide

/-! ## C6: a pend with a timeout among other timed waiters -/

/-! ## The timeout list -/

/-- The `nextTimeout` links after the linking block of `OS_ThreadTimeoutInsert`. -/
theorem timeoutLink_nextTimeout (k : Kernel) (t : Nat) (prev : Option Nat) :
    (timeoutLink k t prev).thread.nextTimeout =
      match prev with
      | none => upd k.thread.nextTimeout t k.TimeoutHead
      | some p => upd (upd k.thread.nextTimeout t (k.thread.nextTimeout p)) p (some t) := by
  unfold timeoutLink
  cases prev with
  | none => cases hh : k.TimeoutHead <;> simp [hh]
  | some p => cases hn : k.thread.nextTimeout p <;> simp [hn]

/-- The `prevTimeout` links after the linking block of `OS_ThreadTimeoutInsert`. -/
theorem timeoutLink_prevTimeout (k : Kernel) (t : Nat) (prev : Option Nat) :
    (timeoutLink k t prev).thread.prevTimeout =
      match prev with
      | none =>
        (match k.TimeoutHead with
          | some h => upd (upd k.thread.prevTimeout t none) h (some t)
          | none => upd k.thread.prevTimeout t none)
      | some p =>
        upd (match k.thread.nextTimeout p with
          | some n => upd k.thread.prevTimeout n (some t)
          | none => k.thread.prevTimeout) t (some p) := by
  unfold timeoutLink
  cases prev with
  | none => cases hh : k.TimeoutHead <;> simp [hh]
  | some p => cases hn : k.thread.nextTimeout p <;> simp [hn]

/-- The head of the timeout list after the linking block of `OS_ThreadTimeoutInsert`. -/
theorem timeoutLink_TimeoutHead (k : Kernel) (t : Nat) (prev : Option Nat) :
    (timeoutLink k t prev).TimeoutHead =
      match prev with
      | none => some t
      | some _ => k.TimeoutHead := by
  unfold timeoutLink
  cases prev with
  | none => cases hh : k.TimeoutHead <;> simp [hh]
  | some p => cases hn : k.thread.nextTimeout p <;> simp [hn]

/-- The `prevTimeout` links after `OS_ThreadTimeoutRemove` of a thread that is in the list. -/
theorem OS_ThreadTimeoutRemove_prevTimeout (k : Kernel) (t : Nat)
    (h : ¬ (k.thread.prevTimeout t = none ∧ k.TimeoutHead ≠ some t)) :
    (OS_ThreadTimeoutRemove k t).thread.prevTimeout =
      upd (match k.thread.nextTimeout t with
        | some n => upd k.thread.prevTimeout n (k.thread.prevTimeout t)
        | none => k.thread.prevTimeout) t none := by
  have e : ∀ p, upd k.thread.nextTimeout p (k.thread.nextTimeout t) t = k.thread.nextTimeout t := by
    intro p
    unfold upd
    split <;> rfl
  unfold OS_ThreadTimeoutRemove
  rw [if_neg h]
  cases hp : k.thread.prevTimeout t <;> cases hn : k.thread.nextTimeout t <;>
    simp [hp, hn, e] <;> simp [upd, hn]

/-- The search loop of `OS_ThreadTimeoutInsert` walks over a run of threads whose timeout comes
before the thread's. -/
theorem timeoutScan_run (k : Kernel) (t : Nat) :
    ∀ (l1 : List Nat) (fuel : Nat) (p m prev : Option Nat), IsSeg k.thread.nextTimeout p l1 m →
      (∀ u ∈ l1, 0 < tickDiff (k.thread.ticksTimeout t) (k.thread.ticksTimeout u)) →
      timeoutScan k t (l1.length + fuel) p prev = timeoutScan k t fuel m (lastOr prev l1) := by
  intro l1
  induction l1 with
  | nil =>
    intro fuel p m prev h _
    simp only [IsSeg] at h
    subst h
    simp [lastOr]
  | cons a l ih =>
    intro fuel p m prev h hp
    obtain ⟨rfl, h2⟩ := h
    have ha : ¬ tickDiff (k.thread.ticksTimeout t) (k.thread.ticksTimeout a) ≤ 0 := by
      have := hp a (List.mem_cons_self a l)
      omega
    have hlen : (a :: l).length + fuel = (l.length + fuel) + 1 := by
      simp only [List.length_cons]; omega
    rw [hlen]
    simp only [timeoutScan, ha, if_false]
    exact ih fuel _ m (some a) h2 (fun u hu => hp u (List.mem_cons_of_mem a hu))

/-- The search loop of `OS_ThreadTimeoutInsert` on a list in memory: it ends, with `prev` the
last thread of the leading run of threads whose timeout comes before the thread's. -/
theorem timeoutScan_spec (k : Kernel) (t : Nat) (l1 l2 : List Nat) (fuel : Nat)
    (p : Option Nat) (h : IsChain k.thread.nextTimeout p (l1 ++ l2))
    (h1 : ∀ u ∈ l1, 0 < tickDiff (k.thread.ticksTimeout t) (k.thread.ticksTimeout u))
    (h2 : ∀ b ∈ l2.head?, tickDiff (k.thread.ticksTimeout t) (k.thread.ticksTimeout b) ≤ 0)
    (hf : (l1 ++ l2).length < fuel) :
    timeoutScan k t fuel p none = some (lastOr none l1) := by
  obtain ⟨m, hm1, hm2⟩ := IsSeg_split h
  obtain ⟨f, rfl⟩ : ∃ f, fuel = l1.length + (f + 1) := by
    refine ⟨fuel - l1.length - 1, ?_⟩
    simp only [List.length_append] at hf
    omega
  rw [timeoutScan_run k t l1 (f + 1) p m none hm1 h1]
  cases l2 with
  | nil =>
    simp only [IsSeg] at hm2
    subst hm2
    simp [timeoutScan]
  | cons b l2 =>
    obtain ⟨rfl, -⟩ := hm2
    have hb : tickDiff (k.thread.ticksTimeout t) (k.thread.ticksTimeout b) ≤ 0 :=
      h2 b (by simp)
    simp [timeoutScan, hb]

/-- The forward link of a node of a doubly linked list is the node that follows it. -/
theorem IsDChain_next_mid {nx pv : Nat → Option Nat} {l1 l2 : List Nat} {pp h : Option Nat}
    {p : Nat} (hc : IsDChain nx pv pp h (l1 ++ p :: l2)) : nx p = l2.head? :=
  IsChain_next_mid (IsDChain_isChain hc)

/-- The rest of a doubly linked list behind a node whose back link is rewritten. -/
theorem IsDChain_rest {nx nx' pv pv' : Nat → Option Nat} {l : List Nat} {pp pp' p : Option Nat}
    (h : IsDChain nx pv pp p l) (hh : ∀ a ∈ l.head?, pv' a = pp')
    (hnx : ∀ a ∈ l, nx' a = nx a) (hpv : ∀ a ∈ l.tail, pv' a = pv a) :
    IsDChain nx' pv' pp' p l := by
  cases l with
  | nil => exact h
  | cons a l =>
    refine ⟨h.1, hh a (by simp), ?_⟩
    rw [hnx a (List.mem_cons_self a l)]
    exact IsDChain_congr h.2.2 (fun b hb => hnx b (List.mem_cons_of_mem a hb)) hpv

/-- Linking a new node after the node `p` of a doubly linked list in memory. -/
theorem IsDChain_insert_after {nx nx' pv pv' : Nat → Option Nat} {l2 : List Nat} {p t : Nat} :
    ∀ (l1 : List Nat) (pp h : Option Nat), IsDChain nx pv pp h (l1 ++ p :: l2) →
      (l1 ++ p :: l2).Nodup → t ∉ l1 ++ p :: l2 →
      nx' p = some t → nx' t = nx p → (∀ a, a ≠ p → a ≠ t → nx' a = nx a) →
      pv' t = some p → (∀ n ∈ l2.head?, pv' n = some t) →
      (∀ a, a ≠ t → a ∉ l2.head? → pv' a = pv a) →
      IsDChain nx' pv' pp h (l1 ++ p :: t :: l2) := by
  intro l1
  induction l1 with
  | nil =>
    intro pp h hc hnd ht h1 h2 h3 h4 h5 h6
    simp only [List.nil_append] at hc hnd ht ⊢
    have hpt : p ≠ t := fun e => ht (e ▸ List.mem_cons_self p l2)
    have hp2 : p ∉ l2 := (List.nodup_cons.mp hnd).1
    have ht2 : t ∉ l2 := fun e => ht (List.mem_cons_of_mem p e)
    have hph : p ∉ l2.head? := fun e => hp2 (mem_of_head_some e)
    refine ⟨hc.1, ?_, ?_⟩
    · rw [h6 p hpt hph]; exact hc.2.1
    · rw [h1]
      refine ⟨rfl, h4, ?_⟩
      rw [h2]
      refine IsDChain_rest hc.2.2 h5 ?_ ?_
      · intro a ha
        exact h3 a (fun e => hp2 (e ▸ ha)) (fun e => ht2 (e ▸ ha))
      · intro a ha
        have ha2 : a ∈ l2 := List.mem_of_mem_tail ha
        refine h6 a (fun e => ht2 (e ▸ ha2)) ?_
        intro e
        cases l2 with
        | nil => simp at ha
        | cons b l2 =>
          simp only [List.head?_cons, Option.mem_def, Option.some.injEq] at e
          simp only [List.tail_cons] at ha
          have hnd2 := (List.nodup_cons.mp (List.nodup_cons.mp hnd).2).1
          exact hnd2 (e ▸ ha)
  | cons a l ih =>
    intro pp h hc hnd ht h1 h2 h3 h4 h5 h6
    have hnd' : (l ++ p :: l2).Nodup := (List.nodup_cons.mp hnd).2
    have ha : a ∉ l ++ p :: l2 := (List.nodup_cons.mp hnd).1
    have hat : a ≠ t := fun e => ht (e ▸ List.mem_cons_self a _)
    have hap : a ≠ p := fun e => ha (e ▸ by simp)
    have hah : a ∉ l2.head? := by
      intro e
      exact ha (List.mem_append_right _ (List.mem_cons_of_mem p (mem_of_head_some e)))
    refine ⟨hc.1, ?_, ?_⟩
    · rw [h6 a hat hah]; exact hc.2.1
    · rw [h3 a hap hat]
      exact ih (some a) (nx a) hc.2.2 hnd' (fun e => ht (List.mem_cons_of_mem a e))
        h1 h2 h3 h4 h5 h6

/-- The timeout list after the linking block of `OS_ThreadTimeoutInsert`. -/
theorem timeoutLink_list (k : Kernel) (t : Nat) (l1 l2 : List Nat)
    (hl : k.TimeoutList (l1 ++ l2)) (ht : t ∉ l1 ++ l2) :
    (timeoutLink k t (lastOr none l1)).TimeoutList (l1 ++ t :: l2) := by
  unfold Kernel.TimeoutList at hl ⊢
  have hnd := IsChain_nodup (IsDChain_isChain hl)
  rw [timeoutLink_nextTimeout, timeoutLink_prevTimeout, timeoutLink_TimeoutHead]
  rcases lastOr_cases l1 with ⟨rfl, hlast⟩ | ⟨l0, p, rfl, hlast⟩
  · rw [hlast]
    simp only [List.nil_append] at hl ht hnd ⊢
    cases l2 with
    | nil =>
      have hh : k.TimeoutHead = none := hl
      rw [hh]
      exact ⟨rfl, upd_same _ _ _, by rw [upd_same]; rfl⟩
    | cons b l2 =>
      have hh : k.TimeoutHead = some b := hl.1
      have hbt : b ≠ t := fun e => ht (e ▸ List.mem_cons_self b l2)
      have hb2 : b ∉ l2 := (List.nodup_cons.mp hnd).1
      rw [hh]
      dsimp only
      refine ⟨rfl, ?_, ?_⟩
      · rw [upd_ne _ _ hbt.symm, upd_same]
      · rw [upd_same]
        refine ⟨rfl, upd_same _ _ _, ?_⟩
        rw [upd_ne _ _ hbt]
        refine IsDChain_congr hl.2.2 ?_ ?_
        · intro a ha
          exact upd_ne _ _ (fun e => ht (e ▸ List.mem_cons_of_mem b ha))
        · intro a ha
          have hab : a ≠ b := fun e => hb2 (e ▸ ha)
          have hat : a ≠ t := fun e => ht (e ▸ List.mem_cons_of_mem b ha)
          rw [upd_ne _ _ hab, upd_ne _ _ hat]
  · rw [hlast]
    dsimp only
    have hl' : IsDChain k.thread.nextTimeout k.thread.prevTimeout none k.TimeoutHead
        (l0 ++ p :: l2) := by simpa using hl
    have ht' : t ∉ l0 ++ p :: l2 := by simpa using ht
    have hnd' : (l0 ++ p :: l2).Nodup := by simpa using hnd
    have hnext : k.thread.nextTimeout p = l2.head? := IsDChain_next_mid hl'
    have htp : t ≠ p := fun e => ht' (e ▸ by simp)
    simp only [List.append_assoc, List.singleton_append]
    refine IsDChain_insert_after l0 none _ hl' hnd' ht' (upd_same _ _ _) ?_ ?_ (upd_same _ _ _)
      ?_ ?_
    · rw [upd_ne _ _ htp, upd_same]
    · intro a h1 h2
      rw [upd_ne _ _ h1, upd_ne _ _ h2]
    · intro n hn
      have hn' : l2.head? = some n := hn
      have hnt : n ≠ t := fun e =>
        ht' (List.mem_append_right _ (List.mem_cons_of_mem p (e ▸ mem_of_head_some hn')))
      rw [upd_ne _ _ hnt, hnext, hn']
      exact upd_same _ _ _
    · intro a hat hah
      rw [upd_ne _ _ hat, hnext]
      cases hx : l2.head? with
      | none => rfl
      | some n =>
        dsimp only
        exact upd_ne _ _ (fun e => hah (by rw [hx, e]; rfl))

/-- The function `OS_ThreadTimeoutInsert` on a timeout list that holds the threads `T`, for a
thread `t` that is not on it: the search ends, and `t` is linked behind the leading run `T1` of
threads whose timeout comes before its own, in front of the first thread whose timeout does
not. -/
theorem OS_ThreadTimeoutInsert_spec (fuel : Nat) (k : Kernel) (t : Nat) (T : List Nat)
    (hT : k.TimeoutList T) (ht : t ∉ T) (hf : T.length < fuel) :
    ∃ T1 T2, T = T1 ++ T2 ∧
      (∀ u ∈ T1, 0 < tickDiff (k.thread.ticksTimeout t) (k.thread.ticksTimeout u)) ∧
      (∀ b ∈ T2.head?, tickDiff (k.thread.ticksTimeout t) (k.thread.ticksTimeout b) ≤ 0) ∧
      OS_ThreadTimeoutInsert fuel k t = some (timeoutLink k t (lastOr none T1)) ∧
      (timeoutLink k t (lastOr none T1)).TimeoutList (T1 ++ t :: T2) := by
  obtain ⟨T1, T2, rfl, h1, h2⟩ :=
    split_run (fun u => 0 < tickDiff (k.thread.ticksTimeout t) (k.thread.ticksTimeout u)) T
  have h2' : ∀ b ∈ T2.head?,
      tickDiff (k.thread.ticksTimeout t) (k.thread.ticksTimeout b) ≤ 0 :=
    fun b hb => Int.not_lt.mp (h2 b hb)
  refine ⟨T1, T2, rfl, h1, h2', ?_, timeoutLink_list k t T1 T2 hT ht⟩
  unfold OS_ThreadTimeoutInsert
  rw [timeoutScan_spec k t T1 T2 fuel _ (IsDChain_isChain hT) h1 h2' hf]

/-- The timeout list after `OS_ThreadTimeoutRemove` of its first thread. -/
theorem OS_ThreadTimeoutRemove_head (k : Kernel) (u : Nat) (T : List Nat)
    (hT : k.TimeoutList (u :: T)) : (OS_ThreadTimeoutRemove k u).TimeoutList T := by
  unfold Kernel.TimeoutList at hT ⊢
  have hnd := IsChain_nodup (IsDChain_isChain hT)
  have hu : u ∉ T := (List.nodup_cons.mp hnd).1
  have hpv : k.thread.prevTimeout u = none := hT.2.1
  have hhead : k.TimeoutHead = some u := hT.1
  have hcond : ¬ (k.thread.prevTimeout u = none ∧ k.TimeoutHead ≠ some u) :=
    fun h => h.2 hhead
  rw [OS_ThreadTimeoutRemove_nextTimeout k u hcond, OS_ThreadTimeoutRemove_TimeoutHead k u hcond,
    OS_ThreadTimeoutRemove_prevTimeout k u hcond, hpv]
  dsimp only
  have hnext : k.thread.nextTimeout u = T.head? :=
    @IsDChain_next_mid _ _ [] T none _ u hT
  refine IsDChain_rest hT.2.2 ?_ ?_ ?_
  · intro a ha
    have ha' : T.head? = some a := ha
    have hau : a ≠ u := fun e => hu (e ▸ mem_of_head_some ha')
    rw [upd_ne _ _ hau, hnext, ha']
    exact upd_same _ _ _
  · intro a ha
    exact upd_ne _ _ (fun e => hu (e ▸ ha))
  · intro a ha
    have ha2 : a ∈ T := List.mem_of_mem_tail ha
    have hau : a ≠ u := fun e => hu (e ▸ ha2)
    rw [upd_ne _ _ hau, hnext]
    cases hx : T.head? with
    | none => rfl
    | some n =>
      dsimp only
      refine upd_ne _ _ ?_
      intro e
      cases T with
      | nil => simp at ha
      | cons b T =>
        simp only [List.head?_cons, Option.some.injEq] at hx
        simp only [List.tail_cons] at ha
        have hb : b ∉ T := (List.nodup_cons.mp (List.nodup_cons.mp hnd).2).1
        exact hb (hx ▸ e ▸ ha)

/-! ## The loop of `OS_ThreadTick` -/

/-- One iteration of the loop of `OS_ThreadTick`, for the first thread `u` of the timeout list,
which pends on a semaphore and waits off the ready list `R`: `u` leaves the timeout list and the
list of its semaphore and is inserted on the ready list; the links of the threads outside the
ready list change only next to `u`. -/
theorem tickStep_spec (fuel : Nat) (k : Kernel) (u : Nat) (T R : List Nat)
    (hR : k.ReadyList R) (hT : k.TimeoutList (u :: T)) (hu : k.WaitsOff R u)
    (hf : R.length < fuel) :
    ∃ su k6 R1 R2, k.thread.semaphorePending u = some su ∧
      OS_ThreadPriorityInsert fuel (tickWake (OS_ThreadTimeoutRemove k u) u su) .ready u =
        some k6 ∧
      R = R1 ++ R2 ∧ k6.ReadyList (R1 ++ u :: R2) ∧ k6.TimeoutList T ∧
      k6.ThreadTime = k.ThreadTime ∧ k6.thread.ticksTimeout = k.thread.ticksTimeout ∧
      k6.thread.priority = k.thread.priority ∧
      k6.semaphore.count = upd k.semaphore.count su (k.semaphore.count su + 1) ∧
      k6.thread.semaphorePending = upd k.thread.semaphorePending u none ∧
      k6.thread.returnCode = upd k.thread.returnCode u (-1) ∧
      k6.thread.state = upd k.thread.state u THREAD_READY ∧
      (∀ a, a ≠ u → a ∉ R → k6.thread.next a =
        if k.thread.prev u = some a then k.thread.next u else k.thread.next a) ∧
      (∀ a, a ≠ u → a ∉ R → k6.thread.prev a =
        if k.thread.next u = some a then k.thread.prev u else k.thread.prev a) ∧
      k6.semaphore.threadHead =
        (if k.thread.prev u = none then upd k.semaphore.threadHead su (k.thread.next u)
         else k.semaphore.threadHead) := by
  obtain ⟨hsp, huR, hup⟩ := hu
  obtain ⟨su, hsu⟩ : ∃ su, k.thread.semaphorePending u = some su :=
    Option.ne_none_iff_exists'.mp hsp
  -- the state after the removal from the timeout list
  obtain ⟨k2, hk2⟩ : ∃ k2, k2 = OS_ThreadTimeoutRemove k u := ⟨_, rfl⟩
  have h2T : k2.TimeoutList T := by rw [hk2]; exact OS_ThreadTimeoutRemove_head k u T hT
  have h2prev : k2.thread.prev = k.thread.prev := by
    rw [hk2]; exact OS_ThreadTimeoutRemove_prev _ _
  have h2next : k2.thread.next = k.thread.next := by
    rw [hk2]; exact OS_ThreadTimeoutRemove_next _ _
  -- the state before the removal from the waiter list
  obtain ⟨k4, hk4⟩ : ∃ k4 : Kernel, k4 = { { { k2 with
      semaphore.count := upd k2.semaphore.count su (k2.semaphore.count su + 1) } with
      thread.semaphorePending := upd k2.thread.semaphorePending u none } with
      thread.returnCode := upd k2.thread.returnCode u (-1) } := ⟨_, rfl⟩
  have h4prev : k4.thread.prev = k.thread.prev := by rw [hk4]; exact h2prev
  have h4next : k4.thread.next = k.thread.next := by rw [hk4]; exact h2next
  have h4head : k4.ThreadHead = k.ThreadHead := by
    rw [hk4, hk2]
    simp
  have h4th : k4.semaphore.threadHead = k.semaphore.threadHead := by
    rw [hk4, hk2]
    simp
  obtain ⟨k5, hk5⟩ : ∃ k5, k5 = OS_ThreadPriorityRemove k4 (.waiters su) u := ⟨_, rfl⟩
  have hwake : tickWake k2 u su = k5 := by
    rw [hk5, hk4]
    rfl
  have h5R : k5.ListAt .ready R := by
    rw [hk5]
    refine ready_waiters_remove _ su u R ?_ huR ?_
    · unfold Kernel.ReadyList
      rw [h4next, h4head]
      exact hR
    · intro p hp
      rw [h4prev] at hp
      exact (hup p hp).1
  have h5next : ∀ a, a ≠ u → k5.thread.next a =
      if k.thread.prev u = some a then k.thread.next u else k.thread.next a := by
    intro a hau
    rw [hk5, OS_ThreadPriorityRemove_next, h4prev, h4next]
    cases hp : k.thread.prev u with
    | none =>
      dsimp only
      rw [upd_ne _ _ hau, if_neg (by simp)]
    | some p =>
      dsimp only
      rw [upd_ne _ _ hau]
      by_cases hap : a = p
      · rw [if_pos (by rw [hap]), hap, upd_same]
      · rw [if_neg (fun e => hap (Option.some.inj e).symm), upd_ne _ _ hap]
  have h5prev : ∀ a, a ≠ u → k5.thread.prev a =
      if k.thread.next u = some a then k.thread.prev u else k.thread.prev a := by
    intro a hau
    rw [hk5, OS_ThreadPriorityRemove_prev, h4prev, h4next, upd_ne _ _ hau]
    cases hn : k.thread.next u with
    | none =>
      dsimp only
      rw [if_neg (by simp)]
    | some n =>
      dsimp only
      by_cases han : a = n
      · rw [if_pos (by rw [han]), han, upd_same]
      · rw [if_neg (fun e => han (Option.some.inj e).symm), upd_ne _ _ han]
  -- the insertion on the ready list
  obtain ⟨R1, R2, hsplit, _, _, hins, hlist⟩ :=
    OS_ThreadPriorityInsert_spec fuel k5 .ready u R h5R huR hf
  obtain ⟨k6, hk6⟩ : ∃ k6, k6 = priorityInsertAt k5 .ready u (lastOr none R1) := ⟨_, rfl⟩
  rw [← hk6] at hins hlist
  have hpR : ∀ p, lastOr none R1 = some p → p ∈ R := by
    intro p hp
    rw [hsplit]
    exact List.mem_append_left _ (lastOr_mem hp)
  refine ⟨su, k6, R1, R2, hsu, ?_, hsplit, hlist, ?_, ?_, ?_, ?_, ?_, ?_, ?_, ?_, ?_, ?_, ?_⟩
  · rw [← hk2, hwake]
    exact hins
  · unfold Kernel.TimeoutList
    rw [hk6, priorityInsertAt_nextTimeout, priorityInsertAt_prevTimeout,
      priorityInsertAt_TimeoutHead, hk5, OS_ThreadPriorityRemove_nextTimeout,
      OS_ThreadPriorityRemove_prevTimeout, OS_ThreadPriorityRemove_TimeoutHead, hk4]
    exact h2T
  · rw [hk6, priorityInsertAt_ThreadTime, hk5, OS_ThreadPriorityRemove_ThreadTime, hk4, hk2]
    exact OS_ThreadTimeoutRemove_ThreadTime _ _
  · rw [hk6, priorityInsertAt_ticksTimeout, hk5, OS_ThreadPriorityRemove_ticksTimeout, hk4, hk2]
    exact OS_ThreadTimeoutRemove_ticksTimeout _ _
  · rw [hk6, priorityInsertAt_priority, hk5, OS_ThreadPriorityRemove_priority, hk4, hk2]
    exact OS_ThreadTimeoutRemove_priority _ _
  · rw [hk6, priorityInsertAt_sem_count, hk5, OS_ThreadPriorityRemove_sem_count, hk4, hk2]
    simp
  · rw [hk6, priorityInsertAt_semaphorePending, hk5, OS_ThreadPriorityRemove_semaphorePending,
      hk4, hk2]
    simp
  · rw [hk6, priorityInsertAt_returnCode, hk5, OS_ThreadPriorityRemove_returnCode, hk4, hk2]
    simp
  · rw [hk6, priorityInsertAt_ready_state, priorityLink_state, hk5,
      OS_ThreadPriorityRemove_state, hk4, hk2]
    simp
  · intro a hau haR
    have h6 : k6.thread.next a = k5.thread.next a := by
      rw [hk6, priorityInsertAt_next, priorityLink_next]
      cases hl : lastOr none R1 with
      | none => exact upd_ne _ _ hau
      | some p =>
        have hap : a ≠ p := fun e => haR (e ▸ hpR p hl)
        dsimp only
        rw [upd_ne _ _ hap, upd_ne _ _ hau]
    rw [h6, h5next a hau]
  · intro a hau haR
    have h6 : k6.thread.prev a = k5.thread.prev a := by
      rw [hk6, priorityInsertAt_prev, priorityLink_prev]
      cases hl : lastOr none R1 with
      | none => exact upd_ne _ _ hau
      | some p =>
        dsimp only
        rw [upd_ne _ _ hau]
        cases hn : k5.thread.next p with
        | none => rfl
        | some n =>
          dsimp only
          have hnR : n ∈ R := IsChain_next_mem h5R (hpR p hl) hn
          exact upd_ne _ _ (fun e => haR (e ▸ hnR))
    rw [h6, h5prev a hau]
  · rw [hk6, priorityInsertAt_semaphore, hk5, OS_ThreadPriorityRemove_waiters_threadHead,
      h4prev, h4next, h4th]
    cases hp : k.thread.prev u with
    | none => rw [if_pos rfl]
    | some p => rw [if_neg (by simp)]

/-- A thread that waits off the ready list still does after an iteration of the loop of
`OS_ThreadTick` for another thread. -/
theorem waitsOff_step {k k6 : Kernel} {u v : Nat} {R R' : List Nat}
    (hsp : k6.thread.semaphorePending = upd k.thread.semaphorePending u none)
    (hnext : ∀ a, a ≠ u → a ∉ R → k6.thread.next a =
      if k.thread.prev u = some a then k.thread.next u else k.thread.next a)
    (hprev : ∀ a, a ≠ u → a ∉ R → k6.thread.prev a =
      if k.thread.next u = some a then k.thread.prev u else k.thread.prev a)
    (hR' : ∀ a, a ∈ R' → a = u ∨ a ∈ R)
    (hu : k.WaitsOff R u) (hv : k.WaitsOff R v) (hne : v ≠ u) : k6.WaitsOff R' v := by
  obtain ⟨_, huR, hup⟩ := hu
  obtain ⟨hvs, hvR, hvp⟩ := hv
  have hout : ∀ p, p ≠ u → p ∉ R → p ∉ R' := by
    intro p h1 h2 h3
    rcases hR' p h3 with e | e
    · exact h1 e
    · exact h2 e
  refine ⟨?_, hout v hne hvR, ?_⟩
  · rw [hsp, upd_ne _ _ hne]
    exact hvs
  · intro p hp
    have hp' : k6.thread.prev v = some p := hp
    rw [hprev v hne hvR] at hp'
    by_cases hn : k.thread.next u = some v
    · rw [if_pos hn] at hp'
      obtain ⟨hpR, hpn⟩ := hup p hp'
      have hpu : p ≠ u := by
        intro e
        rw [e, hn] at hpn
        exact hne (Option.some.inj hpn)
      refine ⟨hout p hpu hpR, ?_⟩
      rw [hnext p hpu hpR, if_pos hp']
      exact hn
    · rw [if_neg hn] at hp'
      obtain ⟨hpR, hpn⟩ := hvp p hp'
      have hpu : p ≠ u := by
        intro e
        rw [e] at hpn
        exact hn hpn
      refine ⟨hout p hpu hpR, ?_⟩
      rw [hnext p hpu hpR]
      by_cases hq : k.thread.prev u = some p
      · exfalso
        have := (hup p hq).2
        rw [hpn] at this
        exact hne (Option.some.inj this)
      · rw [if_neg hq]
        exact hpn

/-- A thread that is clear of `s` and `t` still is after an iteration of the loop of
`OS_ThreadTick` for another thread that is clear of them. -/
theorem clearOf_step {k k6 : Kernel} {s t u v : Nat} {R : List Nat}
    (hsp : k6.thread.semaphorePending = upd k.thread.semaphorePending u none)
    (hnext : ∀ a, a ≠ u → a ∉ R → k6.thread.next a =
      if k.thread.prev u = some a then k.thread.next u else k.thread.next a)
    (hprev : ∀ a, a ≠ u → a ∉ R → k6.thread.prev a =
      if k.thread.next u = some a then k.thread.prev u else k.thread.prev a)
    (hu : k.ClearOf s t u) (hv : k.ClearOf s t v) (hne : v ≠ u) (hvR : v ∉ R) :
    k6.ClearOf s t v := by
  refine ⟨?_, ?_, ?_⟩
  · rw [hsp, upd_ne _ _ hne]
    exact hv.1
  · rw [hprev v hne hvR]
    split
    · exact hu.2.1
    · exact hv.2.1
  · rw [hnext v hne hvR]
    split
    · exact hu.2.2
    · exact hv.2.2

theorem sublist_insert_mid (R1 R2 : List Nat) (u : Nat) :
    List.Sublist (R1 ++ R2) (R1 ++ u :: R2) :=
  List.Sublist.append (List.Sublist.refl R1) (List.sublist_cons_self u R2)

theorem mem_insert_mid_iff {R1 R2 : List Nat} {u a : Nat} :
    a ∈ R1 ++ u :: R2 ↔ a = u ∨ a ∈ R1 ++ R2 := by
  simp only [List.mem_append, List.mem_cons]
  tauto

/-- One iteration of the loop of `OS_ThreadTick` for a thread `u` in front of the pended thread
`t` on the timeout list: `u` is moved to the ready list and `t` stays pended. -/
theorem tickStep_pending (fuel : Nat) (k : Kernel) (s t tmo u : Nat) (R T1 T2 : List Nat)
    (h : k.PendingApart s t tmo R (u :: T1) T2) (hf : R.length < fuel) :
    ∃ su k6 R1 R2, k.thread.semaphorePending u = some su ∧
      OS_ThreadPriorityInsert fuel (tickWake (OS_ThreadTimeoutRemove k u) u su) .ready u =
        some k6 ∧
      R = R1 ++ R2 ∧ k6.PendingApart s t tmo (R1 ++ u :: R2) T1 T2 ∧
      k6.ThreadTime = k.ThreadTime := by
  obtain ⟨⟨hcount, hW, hprev, hT, hsp, htt, hR, htR, hRne, hstate⟩, hoff, hdiff⟩ := h
  have hT' : k.TimeoutList (u :: (T1 ++ t :: T2)) := hT
  have hnd := IsChain_nodup (IsDChain_isChain hT')
  have hu_rest : u ∉ T1 ++ t :: T2 := (List.nodup_cons.mp hnd).1
  have hut : u ≠ t := fun e => hu_rest (e ▸ by simp)
  have hu := hoff u (by simp)
  obtain ⟨su, k6, R1, R2, hsu, hins, hsplit, h6R, h6T, h6time, h6tt, _, h6c, h6sp, _, h6st,
    h6next, h6prev, h6th⟩ := tickStep_spec fuel k u (T1 ++ t :: T2) R hR hT' hu.1 hf
  have hsus : su ≠ s := by
    intro e
    have := hu.2.1
    rw [hsu, e] at this
    exact this rfl
  have htu : t ≠ u := fun e => hut e.symm
  refine ⟨su, k6, R1, R2, hsu, hins, hsplit, ⟨⟨?_, ?_, ?_, h6T, ?_, ?_, h6R, ?_, ?_, ?_⟩, ?_, ?_⟩,
    h6time⟩
  · rw [h6c, upd_ne _ _ hsus.symm]
    exact hcount
  · have hh : k6.semaphore.threadHead s = some t := by
      rw [h6th]
      split
      · rw [upd_ne _ _ hsus.symm]; exact hW.1
      · exact hW.1
    have hn : k6.thread.next t = none := by
      rw [h6next t htu htR, if_neg hu.2.2.1]
      exact hW.2
    exact ⟨hh, hn⟩
  · rw [h6prev t htu htR, if_neg hu.2.2.2]
    exact hprev
  · rw [h6sp, upd_ne _ _ htu]
    exact hsp
  · rw [h6tt]
    exact htt
  · intro e
    rcases mem_insert_mid_iff.mp e with e | e
    · exact htu e
    · exact htR (hsplit ▸ e)
  · cases R1 <;> simp
  · rw [h6st, upd_ne _ _ htu]
    exact hstate
  · intro v hv
    have hv' : v ∈ (u :: T1) ++ T2 := List.mem_cons_of_mem u hv
    have hvu : v ≠ u := by
      intro e
      apply hu_rest
      rw [← e]
      rcases List.mem_append.mp hv with h1 | h1
      · exact List.mem_append_left _ h1
      · exact List.mem_append_right _ (List.mem_cons_of_mem t h1)
    obtain ⟨hv1, hv2⟩ := hoff v hv'
    refine ⟨waitsOff_step h6sp h6next h6prev ?_ hu.1 hv1 hvu,
      clearOf_step h6sp h6next h6prev hu.2 hv2 hvu hv1.2.1⟩
    intro a ha
    rcases mem_insert_mid_iff.mp ha with e | e
    · exact Or.inl e
    · exact Or.inr (hsplit ▸ e)
  · intro v hv
    rw [h6tt]
    exact hdiff v (List.mem_cons_of_mem u hv)

theorem tickLoop_step (fuel n : Nat) (k k6 : Kernel) (u su : Nat)
    (hhead : k.TimeoutHead = some u)
    (hdu : ¬ tickDiff k.ThreadTime (k.thread.ticksTimeout u) < 0)
    (hsu : k.thread.semaphorePending u = some su)
    (hins : OS_ThreadPriorityInsert fuel (tickWake (OS_ThreadTimeoutRemove k u) u su) .ready u =
      some k6) :
    tickLoop fuel (n + 1) k = tickLoop fuel n k6 := by
  rw [tickLoop]
  dsimp only
  rw [hhead]
  dsimp only
  rw [if_neg hdu]
  have h2 : (OS_ThreadTimeoutRemove k u).thread.semaphorePending u = some su := by
    rw [OS_ThreadTimeoutRemove_semaphorePending]; exact hsu
  rw [h2]
  dsimp only
  rw [hins]

theorem tickLoop_stop (fuel n : Nat) (k : Kernel) (u : Nat)
    (hhead : k.TimeoutHead = some u)
    (hdu : tickDiff k.ThreadTime (k.thread.ticksTimeout u) < 0) :
    tickLoop fuel (n + 1) k = some k := by
  rw [tickLoop]
  dsimp only
  rw [hhead]
  dsimp only
  rw [if_pos hdu]

/-- The loop of `OS_ThreadTick` at a time before the timeout of the pended thread `t`: it wakes
threads in front of `t` on the timeout list and ends with `t` still pended. -/
theorem tickLoop_pending (fuel : Nat) (s t tmo : Nat) (T2 : List Nat) :
    ∀ (T1 : List Nat) (k : Kernel) (R : List Nat) (n : Nat),
      k.PendingApart s t tmo R T1 T2 → tickDiff k.ThreadTime tmo < 0 →
      R.length + T1.length < fuel → T1.length < n →
      ∃ k' R' T1', tickLoop fuel n k = some k' ∧ k'.PendingApart s t tmo R' T1' T2 ∧
        List.IsSuffix T1' T1 ∧ List.Sublist R R' ∧ (∀ a ∈ R', a ∈ R ∨ a ∈ T1) ∧
        R'.length + T1'.length = R.length + T1.length ∧ k'.ThreadTime = k.ThreadTime := by
  intro T1
  induction T1 with
  | nil =>
    intro k R n h hd _ hn
    obtain ⟨n, rfl⟩ : ∃ m, n = m + 1 := ⟨n - 1, by simp at hn; omega⟩
    have hT : k.TimeoutList (t :: T2) := h.1.2.2.2.1
    refine ⟨k, R, [], ?_, h, List.suffix_rfl, List.Sublist.refl _, fun a ha => Or.inl ha, rfl,
      rfl⟩
    apply tickLoop_stop fuel n k t hT.1
    rw [h.1.2.2.2.2.2.1]
    exact hd
  | cons u T1 ih =>
    intro k R n h hd hf hn
    obtain ⟨n, rfl⟩ : ∃ m, n = m + 1 := ⟨n - 1, by simp at hn; omega⟩
    have hT : k.TimeoutList (u :: (T1 ++ t :: T2)) := h.1.2.2.2.1
    by_cases hdu : tickDiff k.ThreadTime (k.thread.ticksTimeout u) < 0
    · exact ⟨k, R, u :: T1, tickLoop_stop fuel n k u hT.1 hdu, h, List.suffix_rfl,
        List.Sublist.refl _, fun a ha => Or.inl ha, rfl, rfl⟩
    · obtain ⟨su, k6, R1, R2, hsu, hins, hsplit, h6, h6time⟩ :=
        tickStep_pending fuel k s t tmo u R T1 T2 h (by omega)
      have hlen : (R1 ++ u :: R2).length = R.length + 1 := by
        rw [hsplit]; simp; omega
      simp only [List.length_cons] at hf hn
      obtain ⟨k', R', T1', hloop, hp, hsuf, hsub, hmem, hl, htime⟩ :=
        ih k6 (R1 ++ u :: R2) n h6 (by rw [h6time]; exact hd) (by omega) (by omega)
      refine ⟨k', R', T1', ?_, hp, hsuf.trans (List.suffix_cons u T1), ?_, ?_, ?_, ?_⟩
      · rw [tickLoop_step fuel n k k6 u su hT.1 hdu hsu hins]
        exact hloop
      · rw [hsplit]
        exact (sublist_insert_mid R1 R2 u).trans hsub
      · intro a ha
        rcases hmem a ha with e | e
        · rcases mem_insert_mid_iff.mp e with e | e
          · exact Or.inr (e ▸ List.mem_cons_self u T1)
          · exact Or.inl (hsplit ▸ e)
        · exact Or.inr (List.mem_cons_of_mem u e)
      · simp only [List.length_cons]
        omega
      · rw [htime, h6time]

/-- The loop of `OS_ThreadTick` for threads that do not pend on `s`: the semaphore `s` and the
ready thread `t` keep their fields. -/
theorem tickLoop_rest (fuel : Nat) (s t : Nat) :
    ∀ (T : List Nat) (k : Kernel) (R : List Nat) (n : Nat),
      k.ReadyList R → k.TimeoutList T → t ∈ R →
      (∀ u ∈ T, k.WaitsOff R u ∧ k.thread.semaphorePending u ≠ some s) →
      R.length + T.length < fuel → T.length < n →
      ∃ k' R' T', tickLoop fuel n k = some k' ∧ k'.ReadyList R' ∧ k'.TimeoutList T' ∧
        List.IsSuffix T' T ∧ List.Sublist R R' ∧ (∀ a ∈ R', a ∈ R ∨ a ∈ T) ∧
        k'.semaphore.count s = k.semaphore.count s ∧
        k'.semaphore.threadHead s = k.semaphore.threadHead s ∧
        k'.thread.returnCode t = k.thread.returnCode t ∧
        k'.thread.semaphorePending t = k.thread.semaphorePending t ∧
        k'.thread.state t = k.thread.state t ∧ k'.ThreadTime = k.ThreadTime := by
  intro T
  induction T with
  | nil =>
    intro k R n hR hT _ _ _ hn
    obtain ⟨n, rfl⟩ : ∃ m, n = m + 1 := ⟨n - 1, by omega⟩
    have hh : k.TimeoutHead = none := hT
    refine ⟨k, R, [], ?_, hR, hT, List.suffix_rfl, List.Sublist.refl _, fun a ha => Or.inl ha,
      rfl, rfl, rfl, rfl, rfl, rfl⟩
    rw [tickLoop]
    dsimp only
    rw [hh]
  | cons u T ih =>
    intro k R n hR hT htR hoff hf hn
    obtain ⟨n, rfl⟩ : ∃ m, n = m + 1 := ⟨n - 1, by simp at hn; omega⟩
    by_cases hdu : tickDiff k.ThreadTime (k.thread.ticksTimeout u) < 0
    · exact ⟨k, R, u :: T, tickLoop_stop fuel n k u hT.1 hdu, hR, hT, List.suffix_rfl,
        List.Sublist.refl _, fun a ha => Or.inl ha, rfl, rfl, rfl, rfl, rfl, rfl⟩
    · have hnd := IsChain_nodup (IsDChain_isChain hT)
      have hu := hoff u (List.mem_cons_self u T)
      simp only [List.length_cons] at hf hn
      obtain ⟨su, k6, R1, R2, hsu, hins, hsplit, h6R, h6T, h6time, _, _, h6c, h6sp, h6rc, h6st,
        h6next, h6prev, h6th⟩ := tickStep_spec fuel k u T R hR hT hu.1 (by omega)
      have hsus : su ≠ s := by
        intro e
        have := hu.2
        rw [hsu, e] at this
        exact this rfl
      have htu : t ≠ u := fun e => hu.1.2.1 (e ▸ htR)
      have hlen : (R1 ++ u :: R2).length = R.length + 1 := by
        rw [hsplit]; simp; omega
      have hmemR : ∀ a, a ∈ R1 ++ u :: R2 → a = u ∨ a ∈ R := by
        intro a ha
        rcases mem_insert_mid_iff.mp ha with e | e
        · exact Or.inl e
        · exact Or.inr (hsplit ▸ e)
      obtain ⟨k', R', T', hloop, hR', hT', hsuf, hsub, hmem, hc, hth, hrc, hsp, hst, htime⟩ :=
        ih k6 (R1 ++ u :: R2) n h6R h6T
          (mem_insert_mid_iff.mpr (Or.inr (hsplit ▸ htR)))
          (by
            intro v hv
            have hvu : v ≠ u := fun e => (List.nodup_cons.mp hnd).1 (e ▸ hv)
            have hv' := hoff v (List.mem_cons_of_mem u hv)
            refine ⟨waitsOff_step h6sp h6next h6prev hmemR hu.1 hv'.1 hvu, ?_⟩
            rw [h6sp, upd_ne _ _ hvu]
            exact hv'.2)
          (by omega) (by omega)
      refine ⟨k', R', T', ?_, hR', hT', hsuf.trans (List.suffix_cons u T), ?_, ?_, ?_, ?_, ?_, ?_,
        ?_, ?_⟩
      · rw [tickLoop_step fuel n k k6 u su hT.1 hdu hsu hins]
        exact hloop
      · rw [hsplit]
        exact (sublist_insert_mid R1 R2 u).trans hsub
      · intro a ha
        rcases hmem a ha with e | e
        · rcases hmemR a e with e | e
          · exact Or.inr (e ▸ List.mem_cons_self u T)
          · exact Or.inl e
        · exact Or.inr (List.mem_cons_of_mem u e)
      · rw [hc, h6c, upd_ne _ _ hsus.symm]
      · rw [hth, h6th]
        split
        · rw [upd_ne _ _ hsus.symm]
        · rfl
      · rw [hrc, h6rc, upd_ne _ _ htu]
      · rw [hsp, h6sp, upd_ne _ _ htu]
      · rw [hst, h6st, upd_ne _ _ htu]
      · rw [htime, h6time]

/-- The loop of `OS_ThreadTick` at the timeout of the pended thread `t`: the threads in front of
`t` on the timeout list are woken, then `t`: it leaves the timeout list and the waiter list, the
count of the semaphore is incremented, and `t` is inserted on the ready list with return code
-1. -/
theorem tickLoop_wakes (fuel : Nat) (s t tmo : Nat) (T2 : List Nat) :
    ∀ (T1 : List Nat) (k : Kernel) (R : List Nat) (n : Nat),
      k.PendingApart s t tmo R T1 T2 → k.ThreadTime = tmo →
      R.length + T1.length + T2.length + 1 < fuel → T1.length + T2.length + 1 < n →
      ∃ k' R' T', tickLoop fuel n k = some k' ∧ k'.ReadyList R' ∧ t ∈ R' ∧
        List.Sublist R R' ∧ (∀ a ∈ R', a = t ∨ a ∈ R ∨ a ∈ T1 ++ T2) ∧
        k'.TimeoutList T' ∧ List.IsSuffix T' T2 ∧
        k'.semaphore.count s = 0 ∧ k'.WaiterList s [] ∧
        k'.thread.returnCode t = -1 ∧ k'.thread.state t = THREAD_READY ∧
        k'.thread.semaphorePending t = none ∧ k'.ThreadTime = k.ThreadTime := by
  intro T1
  induction T1 with
  | nil =>
    intro k R n h htime hf hn
    obtain ⟨n, rfl⟩ : ∃ m, n = m + 1 := ⟨n - 1, by omega⟩
    obtain ⟨⟨hcount, hW, hprev, hT, hsp, htt, hR, htR, hRne, hstate⟩, hoff, _⟩ := h
    have hT' : k.TimeoutList (t :: T2) := hT
    have hnd := IsChain_nodup (IsDChain_isChain hT')
    have hwt : k.WaitsOff R t := by
      refine ⟨by rw [hsp]; simp, htR, ?_⟩
      intro p hp
      rw [hprev] at hp
      exact absurd hp (by simp)
    simp only [List.length_nil, Nat.add_zero, Nat.zero_add] at hf hn
    obtain ⟨su, k6, R1, R2, hsu, hins, hsplit, h6R, h6T, h6time, _, _, h6c, h6sp, h6rc, h6st,
      h6next, h6prev, h6th⟩ := tickStep_spec fuel k t T2 R hR hT' hwt (by omega)
    have hsus : su = s := by
      rw [hsp] at hsu
      exact (Option.some.inj hsu).symm
    have hdu : ¬ tickDiff k.ThreadTime (k.thread.ticksTimeout t) < 0 := by
      rw [htt, htime]
      unfold tickDiff toInt32
      omega
    have hlen : (R1 ++ t :: R2).length = R.length + 1 := by
      rw [hsplit]; simp; omega
    have hmemR : ∀ a, a ∈ R1 ++ t :: R2 → a = t ∨ a ∈ R := by
      intro a ha
      rcases mem_insert_mid_iff.mp ha with e | e
      · exact Or.inl e
      · exact Or.inr (hsplit ▸ e)
    obtain ⟨k', R', T', hloop, hR', hTn, hsuf, hsub, hmem, hc, hth, hrc, hsp', hst, htime'⟩ :=
      tickLoop_rest fuel s t T2 k6 (R1 ++ t :: R2) n h6R h6T (by simp)
        (by
          intro v hv
          have hvt : v ≠ t := fun e => (List.nodup_cons.mp hnd).1 (e ▸ hv)
          have hv' := hoff v hv
          refine ⟨waitsOff_step h6sp h6next h6prev hmemR hwt hv'.1 hvt, ?_⟩
          rw [h6sp, upd_ne _ _ hvt]
          exact hv'.2.1)
        (by omega) (by omega)
    refine ⟨k', R', T', ?_, hR', ?_, ?_, ?_, hTn, hsuf, ?_, ?_, ?_, ?_, ?_, ?_⟩
    · rw [tickLoop_step fuel n k k6 t su hT'.1 hdu hsu hins]
      exact hloop
    · exact hsub.subset (by simp)
    · rw [hsplit]
      exact (sublist_insert_mid R1 R2 t).trans hsub
    · intro a ha
      rcases hmem a ha with e | e
      · rcases hmemR a e with e | e
        · exact Or.inl e
        · exact Or.inr (Or.inl e)
      · exact Or.inr (Or.inr e)
    · rw [hc, h6c, hsus, upd_same, hcount]
      rfl
    · show IsChain k'.thread.next (k'.semaphore.threadHead s) []
      rw [hth, h6th, if_pos hprev, hsus, upd_same]
      exact hW.2
    · rw [hrc, h6rc, upd_same]
    · rw [hst, h6st, upd_same]
    · rw [hsp', h6sp, upd_same]
    · rw [htime', h6time]
  | cons u T1 ih =>
    intro k R n h htime hf hn
    obtain ⟨n, rfl⟩ : ∃ m, n = m + 1 := ⟨n - 1, by omega⟩
    have hT : k.TimeoutList (u :: (T1 ++ t :: T2)) := h.1.2.2.2.1
    have hdu : ¬ tickDiff k.ThreadTime (k.thread.ticksTimeout u) < 0 := by
      have := h.2.2 u (List.mem_cons_self u T1)
      rw [htime]
      omega
    simp only [List.length_cons] at hf hn
    obtain ⟨su, k6, R1, R2, hsu, hins, hsplit, h6, h6time⟩ :=
      tickStep_pending fuel k s t tmo u R T1 T2 h (by omega)
    have hlen : (R1 ++ u :: R2).length = R.length + 1 := by
      rw [hsplit]; simp; omega
    obtain ⟨k', R', T', hloop, hR', htR', hsub, hmem, hT', hsuf, hrest⟩ :=
      ih k6 (R1 ++ u :: R2) n h6 (by rw [h6time]; exact htime) (by omega) (by omega)
    refine ⟨k', R', T', ?_, hR', htR', ?_, ?_, hT', hsuf, ?_⟩
    · rw [tickLoop_step fuel n k k6 u su hT.1 hdu hsu hins]
      exact hloop
    · rw [hsplit]
      exact (sublist_insert_mid R1 R2 u).trans hsub
    · intro a ha
      rcases hmem a ha with e | e | e
      · exact Or.inl e
      · rcases mem_insert_mid_iff.mp e with e | e
        · exact Or.inr (Or.inr (e ▸ by simp))
        · exact Or.inr (Or.inl (hsplit ▸ e))
      · refine Or.inr (Or.inr ?_)
        rcases List.mem_append.mp e with e | e
        · exact List.mem_append_left _ (List.mem_cons_of_mem u e)
        · exact List.mem_append_right _ e
    · rw [h6time] at hrest
      exact hrest

/-- The blocking branch of `OS_SemaphorePend` for the running thread `t`, on a semaphore without
waiters, with the threads `T` on the timeout list: `t` is moved to the waiter list and linked
into the timeout list behind the threads whose timeout comes first. -/
theorem pendEnqueue_apart (WF : Int) (fuel : Nat) (k : Kernel) (s t : Nat) (Ticks : Int)
    (l1 l2 T : List Nat)
    (hcount : k.semaphore.count s = -1) (hwait : k.semaphore.threadHead s = none)
    (hR : k.ReadyList (l1 ++ t :: l2))
    (hprev : k.thread.prev t = none ∨ k.thread.prev t = lastOr none l1)
    (hrest : k.listWithout t l1 l2 ≠ []) (hT : k.TimeoutList T)
    (hoff : ∀ u ∈ T, k.WaitsOff (l1 ++ t :: l2) u ∧ k.ClearOf s t u)
    (hwf : Ticks ≠ WF) (hf : T.length < fuel) :
    ∃ k' T1 T2, pendEnqueue WF fuel k s Ticks t = some k' ∧ T = T1 ++ T2 ∧
      (∀ u ∈ T1,
        0 < tickDiff (toUInt32 (Ticks + (k.ThreadTime : Int))) (k.thread.ticksTimeout u)) ∧
      (∀ b ∈ T2.head?,
        tickDiff (toUInt32 (Ticks + (k.ThreadTime : Int))) (k.thread.ticksTimeout b) ≤ 0) ∧
      k'.PendingApart s t (toUInt32 (Ticks + (k.ThreadTime : Int))) (k.listWithout t l1 l2)
        T1 T2 ∧
      k'.ThreadTime = k.ThreadTime := by
  obtain ⟨fuel, rfl⟩ : ∃ f, fuel = f + 1 := ⟨fuel - 1, by omega⟩
  have hnd := IsChain_nodup hR
  have ht1 : t ∉ l1 := fun e => (List.nodup_append.mp hnd).2.2 e (List.mem_cons_self t l2)
  have ht2 : t ∉ l2 := (List.nodup_cons.mp (List.nodup_append.mp hnd).2.1).1
  have htL : t ∉ k.listWithout t l1 l2 := by
    intro e
    rcases List.mem_append.mp (listWithout_subset k t l1 l2 t e) with e | e
    · exact ht1 e
    · exact ht2 e
  have htT : t ∉ T := fun e => (hoff t e).1.2.1 (by simp)
  have hpl : ∀ p, k.thread.prev t = some p → p ∈ l1 := by
    intro p hp
    rcases hprev with e | e
    · rw [e] at hp; exact absurd hp (by simp)
    · rw [e] at hp; exact lastOr_mem hp
  have hnl : ∀ n, k.thread.next t = some n → n ∈ l2 := by
    intro n hn
    have := IsChain_next_mid hR
    rw [hn] at this
    exact mem_of_head_some this.symm
  -- the state before the removal from the ready list
  obtain ⟨k3, hk3⟩ : ∃ k3, k3 = { { k with
      thread.semaphorePending := upd k.thread.semaphorePending t (some s) } with
      thread.ticksTimeout := upd k.thread.ticksTimeout t (toUInt32 (Ticks + (k.ThreadTime : Int))) } :=
    ⟨_, rfl⟩
  have h3R : k3.ListAt .ready (l1 ++ t :: l2) := by rw [hk3]; exact hR
  have h3prev : k3.thread.prev t = none ∨ k3.thread.prev t = lastOr none l1 := by
    rw [hk3]; exact hprev
  have h3rest : k3.listWithout t l1 l2 = k.listWithout t l1 l2 := by rw [hk3]; rfl
  -- the state after the removal
  obtain ⟨k4, hk4⟩ : ∃ k4, k4 = OS_ThreadPriorityRemove k3 .ready t := ⟨_, rfl⟩
  have h4R : k4.ListAt .ready (k.listWithout t l1 l2) := by
    have := OS_ThreadPriorityRemove_listWithout k3 .ready t l1 l2 h3R h3prev
    rw [h3rest, ← hk4] at this
    exact this
  have h4next : ∀ a, a ≠ t → a ∉ l1 → k4.thread.next a = k.thread.next a := by
    intro a hat hal
    rw [hk4, OS_ThreadPriorityRemove_next, hk3]
    dsimp only
    cases hp : k.thread.prev t with
    | none => exact upd_ne _ _ hat
    | some p =>
      dsimp only
      rw [upd_ne _ _ hat]
      have hap : a ≠ p := fun e => hal (e ▸ hpl p hp)
      exact upd_ne _ _ hap
  have h4prev : ∀ a, a ≠ t → a ∉ l2 → k4.thread.prev a = k.thread.prev a := by
    intro a hat hal
    rw [hk4, OS_ThreadPriorityRemove_prev, hk3]
    dsimp only
    rw [upd_ne _ _ hat]
    cases hn : k.thread.next t with
    | none => rfl
    | some n =>
      dsimp only
      have han : a ≠ n := fun e => hal (e ▸ hnl n hn)
      exact upd_ne _ _ han
  have h4sem : k4.semaphore = k.semaphore := by
    rw [hk4, OS_ThreadPriorityRemove_semaphore, hk3]
  have h4T : k4.TimeoutList T := by
    unfold Kernel.TimeoutList
    rw [hk4, OS_ThreadPriorityRemove_nextTimeout, OS_ThreadPriorityRemove_prevTimeout,
      OS_ThreadPriorityRemove_TimeoutHead, hk3]
    exact hT
  have h4state : k4.thread.state t = THREAD_PEND := by
    rw [hk4, OS_ThreadPriorityRemove_state]; simp
  have h4sp : k4.thread.semaphorePending = upd k.thread.semaphorePending t (some s) := by
    rw [hk4, OS_ThreadPriorityRemove_semaphorePending, hk3]
  have h4tt : k4.thread.ticksTimeout =
      upd k.thread.ticksTimeout t (toUInt32 (Ticks + (k.ThreadTime : Int))) := by
    rw [hk4, OS_ThreadPriorityRemove_ticksTimeout, hk3]
  have h4time : k4.ThreadTime = k.ThreadTime := by
    rw [hk4, OS_ThreadPriorityRemove_ThreadTime, hk3]
  have h4head : k4.getHead (.waiters s) = none := by
    simp only [Kernel.getHead, h4sem]; exact hwait
  have h4rh : ∃ x, k4.ThreadHead = some x ∧ x ≠ t := by
    unfold Kernel.ListAt at h4R
    cases hL : k.listWithout t l1 l2 with
    | nil => exact absurd hL hrest
    | cons x L =>
      rw [hL] at h4R
      refine ⟨x, h4R.1, ?_⟩
      intro e
      apply htL
      rw [hL, ← e]
      exact List.mem_cons_self x L
  -- the insertion on the waiter list
  have hins : OS_ThreadPriorityInsert (fuel + 1) k4 (.waiters s) t =
      some (priorityInsertAt k4 (.waiters s) t none) := by
    unfold OS_ThreadPriorityInsert
    rw [h4head]
    rfl
  obtain ⟨k5, hk5⟩ : ∃ k5, k5 = priorityInsertAt k4 (.waiters s) t none := ⟨_, rfl⟩
  have h5next : k5.thread.next = upd k4.thread.next t none := by
    rw [hk5, priorityInsertAt_next, priorityLink_next, h4head]
  have h5prev : k5.thread.prev = upd k4.thread.prev t none := by
    rw [hk5, priorityInsertAt_prev, priorityLink_none_prev]
  have h5head : k5.getHead (.waiters s) = some t := by
    rw [hk5, priorityInsertAt_getHead, priorityLink_getHead]
  have h5rh : k5.ThreadHead = k4.ThreadHead := by rw [hk5, priorityInsertAt_ThreadHead]
  have h5state : k5.thread.state = k4.thread.state := by
    rw [hk5]
    apply priorityInsertAt_state_of_ne
    rw [priorityLink_getHead, priorityLink_ThreadHead]
    obtain ⟨x, hx, hxt⟩ := h4rh
    rw [hx]
    simpa using hxt.symm
  have h5T : k5.TimeoutList T := by
    unfold Kernel.TimeoutList
    rw [hk5, priorityInsertAt_nextTimeout, priorityInsertAt_prevTimeout,
      priorityInsertAt_TimeoutHead]
    exact h4T
  have h5tt : k5.thread.ticksTimeout =
      upd k.thread.ticksTimeout t (toUInt32 (Ticks + (k.ThreadTime : Int))) := by
    rw [hk5, priorityInsertAt_ticksTimeout]; exact h4tt
  have h5sp : k5.thread.semaphorePending = upd k.thread.semaphorePending t (some s) := by
    rw [hk5, priorityInsertAt_semaphorePending]; exact h4sp
  -- the insertion on the timeout list
  obtain ⟨T1, T2, hsplit, hT1, hT2, htins, htlist⟩ :=
    OS_ThreadTimeoutInsert_spec (fuel + 1) k5 t T h5T htT hf
  obtain ⟨k6, hk6⟩ : ∃ k6, k6 = timeoutLink k5 t (lastOr none T1) := ⟨_, rfl⟩
  rw [← hk6] at htins htlist
  have h6next : k6.thread.next = upd k4.thread.next t none := by
    rw [hk6, timeoutLink_next]; exact h5next
  have h6prev : k6.thread.prev = upd k4.thread.prev t none := by
    rw [hk6, timeoutLink_prev]; exact h5prev
  have h6sp : k6.thread.semaphorePending = upd k.thread.semaphorePending t (some s) := by
    rw [hk6, timeoutLink_semaphorePending]; exact h5sp
  have h6tt : k6.thread.ticksTimeout =
      upd k.thread.ticksTimeout t (toUInt32 (Ticks + (k.ThreadTime : Int))) := by
    rw [hk6, timeoutLink_ticksTimeout]; exact h5tt
  have h6R : k6.ReadyList (k.listWithout t l1 l2) := by
    unfold Kernel.ReadyList
    rw [h6next, hk6, timeoutLink_ThreadHead, h5rh]
    exact IsSeg_congr h4R (fun a ha => upd_ne _ _ (fun e => htL (e ▸ ha)))
  have hmemT : ∀ u ∈ T1 ++ T2, u ∈ T := fun u hu => hsplit ▸ hu
  have hT1k : ∀ u ∈ T1,
      0 < tickDiff (toUInt32 (Ticks + (k.ThreadTime : Int))) (k.thread.ticksTimeout u) := by
    intro u hu
    have huT : u ∈ T := hsplit ▸ List.mem_append_left T2 hu
    have hut : u ≠ t := fun e => htT (e ▸ huT)
    have := hT1 u hu
    rw [h5tt, upd_same, upd_ne _ _ hut] at this
    exact this
  refine ⟨k6, T1, T2, ?_, hsplit, hT1k, ?_,
    ⟨⟨?_, ?_, ?_, htlist, ?_, ?_, h6R, htL, hrest, ?_⟩, ?_, ?_⟩, ?_⟩
  · unfold pendEnqueue
    dsimp only
    rw [← hk3, ← hk4, hins]
    dsimp only
    rw [← hk5, if_pos hwf, htins]
  · intro b hb
    have hbT : b ∈ T := hsplit ▸ List.mem_append_right T1 (mem_of_head_some hb)
    have hbt : b ≠ t := fun e => htT (e ▸ hbT)
    have := hT2 b hb
    rw [h5tt, upd_same, upd_ne _ _ hbt] at this
    exact this
  · rw [hk6, timeoutLink_semaphore, hk5, priorityInsertAt_sem_count, h4sem]; exact hcount
  · unfold Kernel.WaiterList
    rw [h6next, hk6, timeoutLink_semaphore]
    have := h5head
    simp only [Kernel.getHead] at this
    rw [this]
    exact ⟨rfl, by simp [IsSeg]⟩
  · rw [h6prev, upd_same]
  · rw [h6sp, upd_same]
  · rw [h6tt, upd_same]
  · rw [hk6, timeoutLink_state, h5state]; exact h4state
  · intro u hu
    obtain ⟨⟨hu1, hu2, hu3⟩, hu4, hu5, hu6⟩ := hoff u (hmemT u hu)
    have hut : u ≠ t := fun e => hu2 (e ▸ by simp)
    have hul1 : u ∉ l1 := fun e => hu2 (List.mem_append_left _ e)
    have hul2 : u ∉ l2 := fun e => hu2 (List.mem_append_right _ (List.mem_cons_of_mem t e))
    have hpu : k6.thread.prev u = k.thread.prev u := by
      rw [h6prev, upd_ne _ _ hut, h4prev u hut hul2]
    have hnu : k6.thread.next u = k.thread.next u := by
      rw [h6next, upd_ne _ _ hut, h4next u hut hul1]
    refine ⟨⟨?_, ?_, ?_⟩, ?_, ?_, ?_⟩
    · rw [h6sp, upd_ne _ _ hut]; exact hu1
    · intro e
      exact hu2 (by
        rcases List.mem_append.mp (listWithout_subset k t l1 l2 u e) with e | e
        · exact List.mem_append_left _ e
        · exact List.mem_append_right _ (List.mem_cons_of_mem t e))
    · intro p hp
      rw [hpu] at hp
      obtain ⟨hp1, hp2⟩ := hu3 p hp
      have hpt : p ≠ t := fun e => hp1 (e ▸ by simp)
      have hpl1 : p ∉ l1 := fun e => hp1 (List.mem_append_left _ e)
      refine ⟨?_, ?_⟩
      · intro e
        exact hp1 (by
          rcases List.mem_append.mp (listWithout_subset k t l1 l2 p e) with e | e
          · exact List.mem_append_left _ e
          · exact List.mem_append_right _ (List.mem_cons_of_mem t e))
      · rw [h6next, upd_ne _ _ hpt, h4next p hpt hpl1]
        exact hp2
    · rw [h6sp, upd_ne _ _ hut]; exact hu4
    · rw [hpu]; exact hu5
    · rw [hnu]; exact hu6
  · intro u hu
    have huT : u ∈ T := hsplit ▸ List.mem_append_left T2 hu
    have hut : u ≠ t := fun e => htT (e ▸ huT)
    rw [h6tt, upd_ne _ _ hut]
    exact hT1k u hu
  · rw [hk6, timeoutLink_ThreadTime, hk5, priorityInsertAt_ThreadTime]; exact h4time

/-- The function `OS_SemaphorePend` with a timeout by the running thread `t` on a semaphore of
count 0 without waiters, with the threads `T` on the timeout list: the call moves `t` to the
waiter list and into the timeout list. -/
theorem OS_SemaphorePend_apart (WF : Int) (fuel : Nat) (k : Kernel) (s t : Nat) (Ticks : Int)
    (l1 l2 T : List Nat) (hcur : k.ThreadCurrent = some t)
    (hcount : k.semaphore.count s = 0) (hwait : k.semaphore.threadHead s = none)
    (hR : k.ReadyList (l1 ++ t :: l2))
    (hprev : k.thread.prev t = none ∨ k.thread.prev t = lastOr none l1)
    (hrest : k.listWithout t l1 l2 ≠ []) (hT : k.TimeoutList T)
    (hoff : ∀ u ∈ T, k.WaitsOff (l1 ++ t :: l2) u ∧ k.ClearOf s t u)
    (h0 : Ticks ≠ 0) (hwf : Ticks ≠ WF) (hf : T.length < fuel) :
    ∃ k' r T1 T2, OS_SemaphorePend WF fuel k s Ticks = some (k', r) ∧ T = T1 ++ T2 ∧
      (∀ u ∈ T1,
        0 < tickDiff (toUInt32 (Ticks + (k.ThreadTime : Int))) (k.thread.ticksTimeout u)) ∧
      (∀ b ∈ T2.head?,
        tickDiff (toUInt32 (Ticks + (k.ThreadTime : Int))) (k.thread.ticksTimeout b) ≤ 0) ∧
      k'.PendingApart s t (toUInt32 (Ticks + (k.ThreadTime : Int))) (k.listWithout t l1 l2)
        T1 T2 ∧
      k'.ThreadTime = k.ThreadTime := by
  obtain ⟨k6, T1, T2, hk6, hsplit, hT1, hT2, hp, htime⟩ := pendEnqueue_apart WF fuel
    { k with semaphore.count := upd k.semaphore.count s (k.semaphore.count s - 1) }
    s t Ticks l1 l2 T (by simp [hcount]) hwait hR hprev hrest hT hoff hwf hf
  dsimp only at hk6 hT1 hT2 htime
  have hp' : k6.PendingApart s t (toUInt32 (Ticks + (k.ThreadTime : Int)))
      (k.listWithout t l1 l2) T1 T2 := hp
  obtain ⟨c, n, hres⟩ := OS_ThreadReschedule_returns k6 0
    (ReadyList_head_ne_none k6 _ hp'.1.2.2.2.2.2.2.1 hrest)
  have hlt : upd k.semaphore.count s (k.semaphore.count s - 1) s < 0 := by
    simp [hcount]
  unfold OS_SemaphorePend
  dsimp only
  rw [if_pos hlt, if_neg h0, hcur]
  dsimp only
  rw [hcur] at hk6
  rw [hk6]
  dsimp only
  rw [hres]
  dsimp only
  split
  · exact ⟨_, _, T1, T2, rfl, hsplit, hT1, hT2, hp', htime⟩
  · exact ⟨_, _, T1, T2, rfl, hsplit, hT1, hT2, hp', htime⟩

/-- A tick before the timeout of the pended thread `t`: threads in front of `t` on the timeout
list may be woken, and `t` stays pended. -/
theorem OS_ThreadTick_pending (fuel : Nat) (k : Kernel) (s t tmo : Nat) (R T1 T2 : List Nat)
    (h : k.PendingApart s t tmo R T1 T2)
    (hd : tickDiff ((k.ThreadTime + 1) % 4294967296) tmo < 0)
    (hf : R.length + T1.length < fuel) :
    ∃ k' R' T1', OS_ThreadTick fuel k = some k' ∧ k'.PendingApart s t tmo R' T1' T2 ∧
      List.IsSuffix T1' T1 ∧ List.Sublist R R' ∧ (∀ a ∈ R', a ∈ R ∨ a ∈ T1) ∧
      R'.length + T1'.length = R.length + T1.length ∧
      k'.ThreadTime = (k.ThreadTime + 1) % 4294967296 := by
  obtain ⟨k2, R', T1', hloop, hp, hsuf, hsub, hmem, hlen, htime⟩ :=
    tickLoop_pending fuel s t tmo T2 T1 { k with ThreadTime := (k.ThreadTime + 1) % 4294967296 }
      R fuel h hd hf (by omega)
  obtain ⟨c, n, hres⟩ := OS_ThreadReschedule_returns k2 1
    (ReadyList_head_ne_none k2 R' hp.1.2.2.2.2.2.2.1 hp.1.2.2.2.2.2.2.2.2.1)
  refine ⟨{ k2 with ThreadCurrent := c, ThreadNeedReschedule := n }, R', T1', ?_, hp, hsuf, hsub,
    hmem, hlen, htime⟩
  unfold OS_ThreadTick
  dsimp only
  rw [hloop]
  dsimp only
  exact hres

/-- The tick at which the timeout of the pended thread `t` is reached: the threads in front of
`t` on the timeout list are woken, and `t` leaves the timeout list and the waiter list, the count
of the semaphore is incremented, and `t` is inserted on the ready list with return code -1. -/
theorem OS_ThreadTick_due (fuel : Nat) (k : Kernel) (s t tmo : Nat) (R T1 T2 : List Nat)
    (h : k.PendingApart s t tmo R T1 T2)
    (hd : (k.ThreadTime + 1) % 4294967296 = tmo)
    (hf : R.length + T1.length + T2.length + 1 < fuel) :
    ∃ k' R' T', OS_ThreadTick fuel k = some k' ∧ k'.ReadyList R' ∧ t ∈ R' ∧
      List.Sublist R R' ∧ (∀ a ∈ R', a = t ∨ a ∈ R ∨ a ∈ T1 ++ T2) ∧
      k'.TimeoutList T' ∧ List.IsSuffix T' T2 ∧
      k'.semaphore.count s = 0 ∧ k'.WaiterList s [] ∧
      k'.thread.returnCode t = -1 ∧ k'.thread.state t = THREAD_READY ∧
      k'.thread.semaphorePending t = none := by
  obtain ⟨k2, R', T', hloop, hR', htR', hsub, hmem, hT', hsuf, hc, hW, hrc, hst, hsp, _⟩ :=
    tickLoop_wakes fuel s t tmo T2 T1 { k with ThreadTime := (k.ThreadTime + 1) % 4294967296 }
      R fuel h hd hf (by omega)
  obtain ⟨c, n, hres⟩ := OS_ThreadReschedule_returns k2 1
    (ReadyList_head_ne_none k2 R' hR' (List.ne_nil_of_mem htR'))
  refine ⟨{ k2 with ThreadCurrent := c, ThreadNeedReschedule := n }, R', T', ?_, hR', htR', hsub,
    hmem, hT', hsuf, hc, hW, hrc, hst, hsp⟩
  unfold OS_ThreadTick
  dsimp only
  rw [hloop]
  dsimp only
  exact hres

theorem tickDiff_due_eq (T0 n m : Nat) (hm : m + 1 = n) :
    ((T0 + m) % 4294967296 + 1) % 4294967296 = toUInt32 ((n : Int) + (T0 : Int)) := by
  unfold toUInt32
  omega

/-- Ticks before the timeout leave the thread pended. -/
theorem ticks_pendingApart (fuel : Nat) (k0 : Kernel) (s t : Nat) (R T1 T2 : List Nat)
    (T0 n : Nat)
    (h : k0.PendingApart s t (toUInt32 ((n : Int) + (T0 : Int))) R T1 T2)
    (htime : k0.ThreadTime = T0) (hT0 : T0 < 4294967296) (hn : n < 2147483648)
    (hf : R.length + T1.length < fuel) :
    ∀ m, m < n → ∃ km Rm Tm, ticks fuel m k0 = some km ∧
      km.PendingApart s t (toUInt32 ((n : Int) + (T0 : Int))) Rm Tm T2 ∧
      List.IsSuffix Tm T1 ∧ List.Sublist R Rm ∧ (∀ a ∈ Rm, a ∈ R ∨ a ∈ T1) ∧
      Rm.length + Tm.length = R.length + T1.length ∧
      km.ThreadTime = (T0 + m) % 4294967296 := by
  intro m
  induction m with
  | zero =>
    intro _
    refine ⟨k0, R, T1, rfl, h, List.suffix_rfl, List.Sublist.refl _, fun a ha => Or.inl ha, rfl,
      ?_⟩
    rw [htime]; omega
  | succ m ih =>
    intro hm
    obtain ⟨km, Rm, Tm, hkm, hp, hsuf, hsub, hmem, hlen, ht⟩ := ih (by omega)
    obtain ⟨k', R', T', hk', hp', hsuf', hsub', hmem', hlen', ht'⟩ :=
      OS_ThreadTick_pending fuel km s t _ Rm Tm T2 hp
        (by rw [ht]; exact tickDiff_pending T0 n m hn hm) (by omega)
    refine ⟨k', R', T', ?_, hp', hsuf'.trans hsuf, hsub.trans hsub', ?_, by omega, ?_⟩
    · rw [ticks_succ, hkm]; exact hk'
    · intro a ha
      rcases hmem' a ha with e | e
      · exact hmem a e
      · exact Or.inr (hsuf.subset e)
    · rw [ht', ht]; omega

/-- C6: the running thread `t` pends with a timeout of `n` ticks (`0 < n`, `n` an `int`, `n`
not `OS_WAIT_FOREVER`) on a semaphore `s` of count 0 without waiters.  Other threads `T` may
wait on the timeout list, each pending on a semaphore other than `s`, off the ready list and
not linked to `t`; the back link of `t` is its predecessor on the ready list or `NULL`, and the
ready list keeps a thread when `t` leaves it.  The call returns or switches `t` out, with `t`
linked into the timeout list behind the threads `T1` whose timeout comes first and in front of
the others, `T2`.  Without a post: after every number `m < n` of ticks `t` is still pended
(count -1, `t` the waiter of `s`, on the timeout list in front of `T2`, not on the ready list,
state `THREAD_PEND`); the `n`-th tick removes `t` from the timeout list and from the waiter
list, brings the count back to 0, sets the return code of `t` to -1 and inserts `t` on the
ready list, so the pend of `t` returns -1. -/
theorem C6_pend_timeout (WF : Int) (fuel : Nat) (k : Kernel) (s t n : Nat) (l1 l2 T : List Nat)
    (hcur : k.ThreadCurrent = some t) (hcount : k.semaphore.count s = 0)
    (hwait : k.semaphore.threadHead s = none)
    (hR : k.ReadyList (l1 ++ t :: l2))
    (hprev : k.thread.prev t = none ∨ k.thread.prev t = lastOr none l1)
    (hrest : k.listWithout t l1 l2 ≠ []) (hT : k.TimeoutList T)
    (hoff : ∀ u ∈ T, k.WaitsOff (l1 ++ t :: l2) u ∧ k.ClearOf s t u)
    (htime : k.ThreadTime < 4294967296)
    (hn0 : 0 < n) (hn : n < 2147483648) (hwf : (n : Int) ≠ WF)
    (hf : (l1 ++ l2).length + T.length + 1 < fuel) :
    ∃ k0 r T1 T2, OS_SemaphorePend WF fuel k s n = some (k0, r) ∧ T = T1 ++ T2 ∧
      (∀ u ∈ T1, 0 < tickDiff (toUInt32 ((n : Int) + (k.ThreadTime : Int)))
        (k.thread.ticksTimeout u)) ∧
      (∀ b ∈ T2.head?, tickDiff (toUInt32 ((n : Int) + (k.ThreadTime : Int)))
        (k.thread.ticksTimeout b) ≤ 0) ∧
      (∀ m, m < n → ∃ km R T1', ticks fuel m k0 = some km ∧
        km.Pending s t (toUInt32 ((n : Int) + (k.ThreadTime : Int))) R T1' T2 ∧
        List.IsSuffix T1' T1 ∧ List.Sublist (k.listWithout t l1 l2) R ∧
        (∀ a ∈ R, a ∈ k.listWithout t l1 l2 ∨ a ∈ T1)) ∧
      ∃ kn R T', ticks fuel n k0 = some kn ∧ kn.semaphore.count s = 0 ∧
        kn.WaiterList s [] ∧ kn.TimeoutList T' ∧ List.IsSuffix T' T2 ∧ t ∉ T' ∧
        kn.ReadyList R ∧ t ∈ R ∧ List.Sublist (k.listWithout t l1 l2) R ∧
        (∀ a ∈ R, a = t ∨ a ∈ k.listWithout t l1 l2 ∨ a ∈ T) ∧
        kn.thread.returnCode t = -1 ∧
        kn.thread.state t = THREAD_READY ∧ kn.thread.semaphorePending t = none ∧
        OS_SemaphorePend_resume kn t = -1 := by
  have hlen := listWithout_length k t l1 l2
  obtain ⟨k0, r, T1, T2, hpend, hsplit, hT1, hT2, hp, ht0⟩ :=
    OS_SemaphorePend_apart WF fuel k s t n l1 l2 T hcur hcount hwait hR hprev hrest hT hoff
      (by omega) hwf (by omega)
  have hTlen : T.length = T1.length + T2.length := by rw [hsplit]; simp
  have hwait_all := ticks_pendingApart fuel k0 s t (k.listWithout t l1 l2) T1 T2 k.ThreadTime n hp
    ht0 htime hn (by omega)
  refine ⟨k0, r, T1, T2, hpend, hsplit, hT1, hT2, fun m hm => ?_, ?_⟩
  · obtain ⟨km, Rm, Tm, hkm, hpm, hsuf, hsub, hmem, _, _⟩ := hwait_all m hm
    exact ⟨km, Rm, Tm, hkm, hpm.1, hsuf, hsub, hmem⟩
  · obtain ⟨m, rfl⟩ : ∃ m, n = m + 1 := ⟨n - 1, by omega⟩
    obtain ⟨km, Rm, Tm, hkm, hpm, hsuf, hsub, hmem, hl, htm⟩ := hwait_all m (by omega)
    obtain ⟨kn, R, T', hkn, hR', htR', hsub', hmem', hT', hsuf', h1, h2, h3, h4, h5⟩ :=
      OS_ThreadTick_due fuel km s t _ Rm Tm T2 hpm
        (by rw [htm]; exact tickDiff_due_eq k.ThreadTime (m + 1) m rfl) (by omega)
    have htT : t ∉ T := fun e => (hoff t e).1.2.1 (by simp)
    refine ⟨kn, R, T', ?_, h1, h2, hT', hsuf', ?_, hR', htR', hsub.trans hsub', ?_, h3, h4, h5,
      h3⟩
    · rw [ticks_succ, hkm]; exact hkn
    · intro e
      exact htT (hsplit ▸ List.mem_append_right T1 (hsuf'.subset e))
    · intro a ha
      rcases hmem' a ha with e | e | e
      · exact Or.inl e
      · rcases hmem a e with e | e
        · exact Or.inr (Or.inl e)
        · exact Or.inr (Or.inr (hsplit ▸ List.mem_append_left T2 e))
      · refine Or.inr (Or.inr ?_)
        rw [hsplit]
        rcases List.mem_append.mp e with e | e
        · exact List.mem_append_left T2 (hsuf.subset e)
        · exact List.mem_append_right T1 e

/-- C6, instance (`n = 3`): in the scenario `timedKernel`, where B (3) and C (4) wait on the
timeout list with timeouts 2 and 5, the running thread A (2) pends with a timeout of 3 ticks on
semaphore 1 of count 0 while the idle thread (1) is ready. -/
theorem C6_pend_timeout_witness :
    ∃ k0 r T1 T2, OS_SemaphorePend (-1) 8 timedKernel 1 (3 : Nat) = some (k0, r) ∧
      [3, 4] = T1 ++ T2 ∧
      (∀ u ∈ T1, 0 < tickDiff (toUInt32 (((3 : Nat) : Int) + (timedKernel.ThreadTime : Int)))
        (timedKernel.thread.ticksTimeout u)) ∧
      (∀ b ∈ T2.head?, tickDiff (toUInt32 (((3 : Nat) : Int) + (timedKernel.ThreadTime : Int)))
        (timedKernel.thread.ticksTimeout b) ≤ 0) ∧
      (∀ m, m < 3 → ∃ km R T1', ticks 8 m k0 = some km ∧
        km.Pending 1 2 (toUInt32 (((3 : Nat) : Int) + (timedKernel.ThreadTime : Int))) R T1' T2 ∧
        List.IsSuffix T1' T1 ∧ List.Sublist (timedKernel.listWithout 2 [] [1]) R ∧
        (∀ a ∈ R, a ∈ timedKernel.listWithout 2 [] [1] ∨ a ∈ T1)) ∧
      ∃ kn R T', ticks 8 3 k0 = some kn ∧ kn.semaphore.count 1 = 0 ∧
        kn.WaiterList 1 [] ∧ kn.TimeoutList T' ∧ List.IsSuffix T' T2 ∧ 2 ∉ T' ∧
        kn.ReadyList R ∧ 2 ∈ R ∧ List.Sublist (timedKernel.listWithout 2 [] [1]) R ∧
        (∀ a ∈ R, a = 2 ∨ a ∈ timedKernel.listWithout 2 [] [1] ∨ a ∈ [3, 4]) ∧
        kn.thread.returnCode 2 = -1 ∧
        kn.thread.state 2 = THREAD_READY ∧ kn.thread.semaphorePending 2 = none ∧
        OS_SemaphorePend_resume kn 2 = -1 :=
  C6_pend_timeout (-1) 8 timedKernel 1 2 3 [] [1] [3, 4] (by decide) (by decide) (by decide)
    (by decide) (by decide) (by decide) (by decide) (by decide) (by decide) (by decide)
    (by decide) (by decide) (by decide)

/-- The scenario of the instance of C6 run through: A (2) pends with a timeout of 3 ticks and is
linked into the timeout list between B (3, timeout 2) and C (4, timeout 5); the second tick
wakes B and leaves A pended; the third tick wakes A with return code -1 and leaves C on the
timeout list. -/
theorem timedKernel_run :
    ∃ k0 k2 k3, (OS_SemaphorePend (-1) 8 timedKernel 1 3).map Prod.fst = some k0 ∧
      k0.TimeoutList [3, 2, 4] ∧ k0.WaiterList 1 [2] ∧ k0.ReadyList [1] ∧
      ticks 8 2 k0 = some k2 ∧
      k2.TimeoutList [2, 4] ∧ k2.WaiterList 1 [2] ∧ k2.ReadyList [3, 1] ∧
      k2.semaphore.count 1 = -1 ∧ k2.thread.state 2 = THREAD_PEND ∧
      ticks 8 3 k0 = some k3 ∧
      k3.TimeoutList [4] ∧ k3.WaiterList 1 [] ∧ k3.ReadyList [3, 2, 1] ∧
      k3.semaphore.count 1 = 0 ∧ k3.thread.state 2 = THREAD_READY ∧
      k3.thread.returnCode 2 = -1 :=
  ⟨_, _, _, rfl, by decide, by decide, by decide, rfl, by decide, by decide, by decide,
    by decide, by decide, rfl, by decide, by decide, by decide, by decide, by decide, by decide⟩

end Plasma
